import Mathlib

/-!
The kphp front-end parser (`compiler/gentree.cpp`) as a shallow embedding.

The C++ class `GenTree` is a recursive-descent parser over a token vector.
Its member functions are translated one by one into functions of a state
monad `P` over the record `GenTree` (the fields of the class, together with
the pieces of the global compiler state the parser writes to).

Recursion is tied through a record of parser capabilities (`Caps`): every
call of a recursive member function goes through that record and costs one
unit of fuel, so each translated body is a plain, non-recursive definition
and `parser (n + 1)` runs the bodies over `parser n`.  Running out of fuel is
a separate outcome (`Abort.out_of_fuel`), never confused with a parse failure
(a null `VertexPtr`, here `none`).
-/

namespace Kphp

/-! ## Enumerations declared outside `gentree.cpp` -/

/-- Token kinds: every `tok_*` named by the parser, and the operator tokens it
handles only through the operator tables. -/
inductive TokenType where
  | tok_end | tok_Exception | tok_and | tok_array | tok_arrow | tok_as | tok_at | tok_auto
  | tok_bool | tok_break | tok_case | tok_catch | tok_class | tok_clbrc | tok_clbrk | tok_clpar
  | tok_colon | tok_comma | tok_const | tok_constructor_call | tok_continue
  | tok_conv_array | tok_conv_bool | tok_conv_float | tok_conv_int | tok_conv_long
  | tok_conv_string | tok_conv_uint | tok_conv_ulong | tok_dbg_echo | tok_dec | tok_default
  | tok_define | tok_defined | tok_do | tok_double_arrow | tok_echo | tok_else | tok_eq1
  | tok_ex_function | tok_exit | tok_expr_begin | tok_expr_end | tok_extends | tok_false
  | tok_file_c | tok_float | tok_float_const | tok_for | tok_foreach | tok_func_c
  | tok_func_name | tok_function | tok_global | tok_gt | tok_if | tok_inc | tok_inline_html
  | tok_int | tok_int_const | tok_isset | tok_line_c | tok_list | tok_lt | tok_max | tok_min
  | tok_namespace | tok_null | tok_opbrc | tok_opbrk | tok_oppar | tok_phpdoc
  | tok_phpdoc_kphp | tok_print | tok_private | tok_protected | tok_public | tok_require
  | tok_require_once | tok_resumable | tok_return | tok_semicolon | tok_static | tok_str
  | tok_str_begin | tok_str_end | tok_string | tok_switch | tok_throw | tok_throws
  | tok_triple_colon | tok_triple_eq | tok_triple_gt | tok_triple_lt | tok_true | tok_try
  | tok_tuple | tok_unset | tok_use | tok_var | tok_var_dump | tok_var_name | tok_varg
  | tok_while | tok_xor
  -- operator tokens that reach the parser only through OpInfo
  | tok_plus | tok_minus | tok_times | tok_divide | tok_mod | tok_dot | tok_or | tok_not
  | tok_log_not | tok_log_and | tok_log_or | tok_log_and_let | tok_log_or_let
  | tok_log_xor_let | tok_question | tok_eq2 | tok_neq2 | tok_eq3 | tok_neq3 | tok_le
  | tok_ge | tok_shl | tok_shr | tok_set_add | tok_set_sub | tok_set_mul | tok_set_div
  | tok_set_mod | tok_set_dot | tok_set_and | tok_set_or | tok_set_xor | tok_set_shl
  | tok_set_shr
  deriving DecidableEq, Repr, Inhabited

/-- Node kinds: every `op_*` named by the parser, and the operators it builds
only through `create_vertex` from the operator tables. -/
inductive Operation where
  | op_err | op_none | op_and | op_arg_ref | op_array | op_arrow | op_break | op_case
  | op_class | op_class_type_rule | op_class_var | op_common_type_rule
  | op_constructor_call | op_continue | op_conv_array | op_conv_bool | op_conv_float
  | op_conv_int | op_conv_long | op_conv_string | op_conv_uint | op_conv_ulong
  | op_conv_regexp | op_conv_array_l | op_conv_int_l
  | op_dbg_echo | op_default | op_define | op_define_val | op_defined | op_do | op_echo
  | op_empty | op_exit | op_extern_func | op_false | op_float_const | op_for | op_foreach
  | op_foreach_param | op_func_call | op_func_decl | op_func_name | op_func_param
  | op_func_param_callback | op_func_param_list | op_function | op_function_c | op_global
  | op_if | op_index | op_instance_prop | op_int_const | op_isset | op_list_ce | op_log_and
  | op_log_and_let | op_log_not | op_log_or | op_log_or_let | op_log_xor_let
  | op_lvalue_null | op_max | op_min | op_move | op_noerr | op_not | op_null | op_or
  | op_postfix_dec | op_postfix_inc | op_print | op_require | op_require_once | op_return
  | op_self | op_seq | op_seq_comma | op_set | op_set_and | op_set_or | op_set_shl
  | op_set_shr | op_set_xor | op_static | op_string | op_string_build | op_switch
  | op_ternary | op_throw | op_true | op_try | op_tuple | op_type_rule | op_type_rule_func
  | op_unset | op_var | op_var_dump | op_while | op_xor
  -- operators that reach the parser only through OpInfo
  | op_add | op_sub | op_mul | op_div | op_mod | op_concat | op_minus | op_plus | op_shl
  | op_shr | op_eq2 | op_neq2 | op_eq3 | op_neq3 | op_lt | op_gt | op_le | op_ge
  | op_set_add | op_set_sub | op_set_mul | op_set_div | op_set_mod | op_set_dot
  | op_prefix_inc | op_prefix_dec | op_gt_type_rule | op_lt_type_rule | op_eq_type_rule
  deriving DecidableEq, Repr, Inhabited

inductive OperationExtra where
  | op_ex_none | op_ex_var_superlocal | op_ex_var_this | op_ex_var_const | op_ex_rule_const
  | op_ex_static_private | op_ex_static_public | op_ex_static_protected
  deriving DecidableEq, Repr, Inhabited

inductive PrimitiveType where
  | tp_Unknown | tp_Class | tp_Error | tp_Exception | tp_Long | tp_MC | tp_UInt | tp_ULong
  | tp_array | tp_bool | tp_float | tp_int | tp_regexp | tp_string | tp_tuple | tp_var
  deriving DecidableEq, Repr, Inhabited

inductive ConstType where
  | cnst_error_ | cnst_not_val | cnst_nonconst_val | cnst_const_val
  deriving DecidableEq, Repr, Inhabited

inductive AccessType where
  | access_nonmember | access_static_public | access_static_private
  | access_static_protected | access_public | access_private | access_protected
  deriving DecidableEq, Repr, Inhabited

open TokenType Operation PrimitiveType

/-- Associativity of an operator, as the operator table reports it. -/
inductive Fixity where
  | left_opp | right_opp | no_opp
  deriving DecidableEq, Repr, Inhabited

/-- Kind of a function descriptor (`FunctionData::func_type_t`). -/
inductive func_type_t where
  | func_global | func_local | func_switch | func_extern_
  deriving DecidableEq, Repr, Inhabited

/-- One lexed token: kind, text and source line (`-1` when the lexer gave none). -/
structure Token where
  type : TokenType
  str_val : String := ""
  line_num : Int := -1
  deriving DecidableEq, Repr, Inhabited

/-- Source location of a node; a node nobody located keeps the default line `-1`. -/
structure Location where
  line : Int := -1
  deriving DecidableEq, Repr, Inhabited

/-- The operator tables of `OpInfo`, which live outside `gentree.cpp`; the parser
is translated over an arbitrary table. -/
structure OpInfo where
  op_priority_begin : Nat
  op_priority_end : Nat
  ternaryP : Nat
  tok_to_unary_op : TokenType → Operation
  tok_to_binary_op : TokenType → Operation
  tok_to_op : TokenType → Operation
  priority : Operation → Nat
  fixity : Operation → Fixity
  str : Operation → String

/-! ## AST nodes -/

/-- The scalar attributes of a node (`vertex_inner<meta_op_base>` and the
per-kind attributes the parser sets). -/
structure VertexInfo where
  type : Operation
  str_val : String := ""
  int_val : Int := 0
  location : Location := {}
  extra_type : OperationExtra := OperationExtra.op_ex_none
  const_type : ConstType := ConstType.cnst_error_
  type_help : PrimitiveType := PrimitiveType.tp_Unknown
  ref_flag : Bool := false
  void_flag : Bool := false
  parent_flag : Bool := false
  inline_flag : Bool := false
  varg_flag : Bool := false
  throws_flag : Bool := false
  resumable_flag : Bool := false
  auto_flag : Bool := false
  type_declaration : String := ""
  template_type_id : Int := -1
  phpdoc_token : Option Token := none
  class_ptr : Option Nat := none
  func_id : Option Nat := none
  deriving DecidableEq, Repr, Inhabited

/-- An AST node: its attributes, its ordered children and its attached type rule. -/
inductive Vertex where
  | mk (info : VertexInfo) (next : List Vertex) (type_rule : Option Vertex)
  deriving Repr, Inhabited

namespace Vertex

def info : Vertex → VertexInfo
  | mk i _ _ => i

def next : Vertex → List Vertex
  | mk _ n _ => n

def type_rule : Vertex → Option Vertex
  | mk _ _ r => r

def type (v : Vertex) : Operation := v.info.type

def get_string (v : Vertex) : String := v.info.str_val

def location (v : Vertex) : Location := v.info.location

/-- Node creation `VertexAdaptor<Op>::create(children...)`: default attributes,
unset location. -/
def create (op : Operation) (children : List Vertex) : Vertex :=
  mk { type := op } children none

def set_info (v : Vertex) (f : VertexInfo → VertexInfo) : Vertex :=
  mk (f v.info) v.next v.type_rule

def set_next (v : Vertex) (n : List Vertex) : Vertex :=
  mk v.info n v.type_rule

def set_type_rule (v : Vertex) (r : Option Vertex) : Vertex :=
  mk v.info v.next r

def set_string (v : Vertex) (s : String) : Vertex :=
  v.set_info fun i => { i with str_val := s }

/-- Free function `::set_location(v, const Location &)`. -/
def set_location (v : Vertex) (l : Location) : Vertex :=
  v.set_info fun i => { i with location := l }

/-- Member-style `set_location(v, AutoLocation)`: only the line is written. -/
def set_line (v : Vertex) (line : Int) : Vertex :=
  v.set_info fun i => { i with location := { i.location with line := line } }

end Vertex

/-! ## Descriptors and parser state -/

/-- Function descriptor (`FunctionData`), the fields the parser reads or writes. -/
structure FunctionData where
  name : String := ""
  root : Option Vertex := none
  type : func_type_t := func_type_t.func_local
  class_id : Option Nat := none
  access_type : AccessType := AccessType.access_nonmember
  phpdoc_token : Option Token := none
  function_in_which_lambda_was_created : Option Nat := none
  is_template : Bool := false
  lambdas_inside : List Nat := []
  deriving Repr, Inhabited

/-- The member collections of a class (`ClassMembersContainer`), one list per
member kind, each in insertion order. -/
structure ClassMembersContainer where
  constants : List Vertex := []
  static_fields : List (Vertex × String × AccessType) := []
  instance_fields : List (Vertex × AccessType) := []
  static_methods : List (Nat × AccessType) := []
  instance_methods : List (Nat × AccessType) := []
  deriving Repr, Inhabited

/-- Class descriptor (`ClassData`). -/
structure ClassData where
  name : String := ""
  members : ClassMembersContainer := {}
  str_dependents : List String := []
  phpdoc_token : Option Token := none
  root : Option Vertex := none
  init_function : Option Nat := none
  new_function : Option Nat := none
  has_file_id : Bool := false
  deriving Repr, Inhabited

/-- The source unit being parsed (`SrcFile`). -/
structure SrcFile where
  file_name : String := ""
  main_func_name : String := ""
  short_file_name : String := ""
  unified_dir_name : String := ""
  namespace_name : String := ""
  namespace_uses : List (String × String) := []
  owner_lib : Option String := none
  deriving Repr, Inhabited

/-- One diagnostic: the stage line it was reported at and its text. -/
structure Diagnostic where
  line : Int
  msg : String
  deriving DecidableEq, Repr, Inhabited

/-- Parser state: the fields of class `GenTree`, followed by the parts of the
compiler core (`G`), of the stage record and of the name generator that the
parser reads or writes.  `cur` and `end_` index into `tokens`; functions and
classes are kept in arenas and referred to by index. -/
structure GenTree where
  line_num : Int := 0
  tokens : List Token := []
  parsed_os : List Nat := []
  in_func_cnt_ : Int := 0
  is_top_of_the_function_ : Bool := false
  cur : Nat := 0
  end_ : Nat := 0
  processing_file : SrcFile := {}
  cur_function : Option Nat := none
  cur_class : Option Nat := none
  functions_stack : List Nat := []
  class_stack : List Nat := []
  -- compiler core
  functions : List FunctionData := []
  classes : List ClassData := []
  registered_functions : List Nat := []
  registered_classes : List Nat := []
  extern_func_headers : List (String × Vertex) := []
  warnings_level : Nat := 0
  -- stage
  stage_line : Int := 0
  errors : List Diagnostic := []
  warnings : List Diagnostic := []
  -- name generator
  name_counter : Nat := 0
  deriving Repr, Inhabited

/-- Why a run stops without a result: it ran out of fuel, or a `kphp_assert` /
`kphp_fail` ended the compilation. -/
inductive Abort where
  | out_of_fuel
  | assert_failed (msg : String)
  | null_deref (msg : String)
  deriving DecidableEq, Repr, Inhabited

/-- Outcome of running a parser function from a state. -/
inductive Res (α : Type) where
  | ok (a : α) (s : GenTree)
  | abort (e : Abort)
  deriving Repr

def Res.bind {α β : Type} : Res α → (α → GenTree → Res β) → Res β
  | Res.ok a s, f => f a s
  | Res.abort e, _ => Res.abort e

/-- The parser monad: state passing over `GenTree`, with aborts. -/
def P (α : Type) : Type := GenTree → Res α

instance : Monad P where
  pure a := fun s => Res.ok a s
  bind m f := fun s => (m s).bind f

/-- Read the state. -/
def getS : P GenTree := fun s => Res.ok s s

/-- Update the state. -/
def modS (f : GenTree → GenTree) : P Unit := fun s => Res.ok () (f s)

/-- Stop the run. -/
def abortP {α : Type} (e : Abort) : P α := fun _ => Res.abort e

/-- `kphp_assert(x)`: a failed assertion ends the compilation. -/
def kphp_assert (x : Bool) (msg : String) : P Unit :=
  if x then pure () else abortP (Abort.assert_failed msg)

/-- `kphp_error(x, msg)`: when `x` is false, record a recoverable diagnostic at
the current stage line; evaluates to whether the error fired. -/
def kphp_error (x : Bool) (msg : String) : P Bool := fun s =>
  if x then Res.ok false s
  else Res.ok true { s with errors := s.errors ++ [{ line := s.stage_line, msg := msg }] }

/-- `kphp_warning(msg)`. -/
def kphp_warning (msg : String) : P Unit :=
  modS fun s => { s with warnings := s.warnings ++ [{ line := s.stage_line, msg := msg }] }

/-- `stage::has_error()`. -/
def has_error : P Bool := fun s => Res.ok (!s.errors.isEmpty) s

/-- The token under the cursor, `*cur`. -/
def GenTree.tok (s : GenTree) : Token := s.tokens.getD s.cur default

/-- The token `k` places after the cursor, `*(cur + k)`. -/
def GenTree.tok_at (s : GenTree) (k : Nat) : Token := s.tokens.getD (s.cur + k) default

def cur_tok : P Token := fun s => Res.ok s.tok s

def cur_type : P TokenType := fun s => Res.ok s.tok.type s

/-- `cur == end`. -/
def at_end : P Bool := fun s => Res.ok (s.cur == s.end_) s

/-- `AutoLocation(this)`: the line the parser is on. -/
def auto_location : P Int := fun s => Res.ok s.line_num s

/-- State change of `GenTree::next_cur`. -/
def GenTree.next (s : GenTree) : GenTree :=
  if s.cur != s.end_ then
    let s1 := { s with cur := s.cur + 1 }
    if s1.tok.line_num != -1 then
      { s1 with line_num := s1.tok.line_num, stage_line := s1.tok.line_num }
    else s1
  else s

def next_cur : P Unit := modS GenTree.next

def test_expect (tp : TokenType) : P Bool := fun s => Res.ok (s.tok.type == tp) s

/-- `Token::to_str`, used in diagnostics only. -/
def Token.to_str (t : Token) : String := t.str_val

def found_str (s : GenTree) : String :=
  if s.cur == s.end_ then "END OF FILE" else s.tok.to_str

/-- Macro `expect(tp, msg)`. -/
def expect (tp : TokenType) (msg : String) : P Bool := do
  let s ← getS
  if (← kphp_error (← test_expect tp) ("Expected " ++ msg ++ ", found '" ++ found_str s ++ "'")) then
    return false
  else
    next_cur
    return true

/-- Macro `expect2(tp1, tp2, msg)`. -/
def expect2 (tp1 tp2 : TokenType) (msg : String) : P Bool := do
  let s ← getS
  let _ ← kphp_error ((← test_expect tp1) || (← test_expect tp2))
    ("Expected " ++ msg ++ ", found '" ++ found_str s ++ "'")
  if !(← at_end) then next_cur
  return true

/-! ## Helpers declared outside `gentree.cpp` -/

/-- The backslash character. -/
def backslash : Char := Char.ofNat 92

/-- Helper `replace_characters(s, from, to)`. -/
def replace_characters (s : String) (c_from c_to : Char) : String :=
  String.mk (s.data.map fun c => if c = c_from then c_to else c)

/-- Helper `replace_backslashes(s)`: every backslash becomes `$`. -/
def replace_backslashes (s : String) : String := replace_characters s backslash '$'

/-- Test `vk::string_view(s).ends_with(suffix)`. -/
def ends_with (s suffix : String) : Bool := suffix.data.isSuffixOf s.data

/-- Test `vk::string_view(s).starts_with(pre)`. -/
def starts_with (s pre : String) : Bool := pre.data.isPrefixOf s.data

/-- Test `s.find(needle) != npos`. -/
def str_contains (s needle : String) : Bool :=
  s.data.tails.any fun t => needle.data.isPrefixOf t

/-- Tail `s.substr(k)`. -/
def str_drop (s : String) (k : Nat) : String := String.mk (s.data.drop k)

/-- Position after the last occurrence of `c`, `s.rfind(c) + 1` (`0` when absent). -/
def after_last (l : List Char) (c : Char) : Nat :=
  l.length - (l.reverse.takeWhile fun x => x != c).length

/-- Part of a qualified name after the last `$$`. -/
def get_local_name (name : String) : String :=
  let rec go : List Char → List Char → List Char
    | [], acc => acc
    | '$' :: '$' :: rest, _ => go rest rest
    | _ :: rest, acc => go rest acc
  String.mk (go name.data name.data)

/-- Decimal value of the leading digits, as `std::atoi` gives it for a lexed integer
that fits the range of `int`; beyond that range the behaviour of `std::atoi` is undefined,
and this definition keeps the mathematical value. -/
def atoi (s : String) : Int :=
  ((s.data.takeWhile Char.isDigit).foldl (fun acc c => acc * 10 + (c.toNat - '0'.toNat)) 0 : Nat)

def is_instance_access_type (a : AccessType) : Bool :=
  a == AccessType.access_public || a == AccessType.access_private
    || a == AccessType.access_protected

def is_static_access_type (a : AccessType) : Bool :=
  a == AccessType.access_static_public || a == AccessType.access_static_private
    || a == AccessType.access_static_protected

/-- Namespace of synthesized lambda classes, `FunctionData::get_lambda_namespace()`. -/
def get_lambda_namespace : String := "$L"

/-- The collaborators of the parser that live outside `gentree.cpp`: the operator
tables, the two name generators (each draws on the unit's counter) and the
resolution of a class name through the `use` table. -/
structure Env where
  info : OpInfo
  gen_shorthand_ternary_name : Nat → String
  gen_anonymous_function_name : Nat → String
  resolve_uses : SrcFile → String → String
  get_ptype_by_name : String → PrimitiveType

/-- Conversion operator node of a primitive type, `conv_to<tp>`; the identity for
the types without one. -/
def conv_op (tp : PrimitiveType) : Option Operation :=
  match tp with
  | PrimitiveType.tp_int => some Operation.op_conv_int
  | PrimitiveType.tp_bool => some Operation.op_conv_bool
  | PrimitiveType.tp_string => some Operation.op_conv_string
  | PrimitiveType.tp_float => some Operation.op_conv_float
  | PrimitiveType.tp_array => some Operation.op_conv_array
  | PrimitiveType.tp_UInt => some Operation.op_conv_uint
  | PrimitiveType.tp_Long => some Operation.op_conv_long
  | PrimitiveType.tp_ULong => some Operation.op_conv_ulong
  | PrimitiveType.tp_regexp => some Operation.op_conv_regexp
  | _ => none

/-- Modelled from the spec: `conv_to<tp>(x)` is declared in `gentree.h`, which is
not part of the sources at hand.  It wraps `x` into the one-child conversion
node of `tp`, located where `x` is (a synthesized node carries the location of
the construct that triggered it). -/
def conv_to (tp : PrimitiveType) (x : Vertex) : Vertex :=
  match conv_op tp with
  | some op => (Vertex.create op [x]).set_location x.location
  | none => x

/-- Generic `create_vertex(op, children...)`. -/
def create_vertex (op : Operation) (children : List Vertex) : Vertex :=
  Vertex.create op children

/-- Accessor `has_def_val()` of a class-variable node. -/
def Vertex.has_def_val (v : Vertex) : Bool := !v.next.isEmpty

/-- Accessor `def_val()` of a class-variable node. -/
def Vertex.def_val (v : Vertex) : Vertex := v.next.headD default

/-- Accessor `var()` of a parameter node: its first child. -/
def Vertex.var (v : Vertex) : Vertex := v.next.headD default

/-- Accessor `name()` of a function node: its first child. -/
def Vertex.name (v : Vertex) : Vertex := v.next.headD default

/-- Accessor `params()` of a function node: its second child. -/
def Vertex.params (v : Vertex) : Vertex := v.next.getD 1 default

/-- Accessor `cmd()` of a function node: its third child. -/
def Vertex.cmd (v : Vertex) : Vertex := v.next.getD 2 default

/-- Assignment `func->cmd() = body`. -/
def Vertex.set_cmd (v : Vertex) (body : Vertex) : Vertex :=
  v.set_next (v.next.take 2 ++ [body])

/-- Method `copy_location_and_flags(from)`. -/
def Vertex.copy_location_and_flags (v src : Vertex) : Vertex :=
  (v.set_info fun i => { i with
    location := src.info.location, ref_flag := src.info.ref_flag,
    void_flag := src.info.void_flag, parent_flag := src.info.parent_flag,
    inline_flag := src.info.inline_flag, varg_flag := src.info.varg_flag,
    throws_flag := src.info.throws_flag, resumable_flag := src.info.resumable_flag,
    auto_flag := src.info.auto_flag, extra_type := src.info.extra_type,
    const_type := src.info.const_type, type_help := src.info.type_help }).set_type_rule
    src.type_rule

/-! ### Class members and descriptors (`class-data.h`, `function-data.h`, `compiler-core.h`) -/

namespace ClassMembersContainer

def add_constant (m : ClassMembersContainer) (v : Vertex) : ClassMembersContainer :=
  { m with constants := m.constants ++ [v] }

def add_static_field (m : ClassMembersContainer) (v : Vertex) (name : String)
    (a : AccessType) : ClassMembersContainer :=
  { m with static_fields := m.static_fields ++ [(v, name, a)] }

def add_instance_field (m : ClassMembersContainer) (v : Vertex) (a : AccessType) :
    ClassMembersContainer :=
  { m with instance_fields := m.instance_fields ++ [(v, a)] }

def has_any_instance_var (m : ClassMembersContainer) : Bool := !m.instance_fields.isEmpty

def has_any_instance_method (m : ClassMembersContainer) : Bool := !m.instance_methods.isEmpty

def get_instance_field (m : ClassMembersContainer) (name : String) : Option Vertex :=
  (m.instance_fields.find? fun f => f.1.get_string == name).map Prod.fst

end ClassMembersContainer

/-- Replace the element at index `i`. -/
def modify_at {α : Type} (l : List α) (i : Nat) (f : α → α) : List α :=
  match l, i with
  | [], _ => []
  | a :: as, 0 => f a :: as
  | a :: as, k + 1 => a :: modify_at as k f

def GenTree.get_function (s : GenTree) (f : Nat) : FunctionData := s.functions.getD f default

def GenTree.get_class (s : GenTree) (k : Nat) : ClassData := s.classes.getD k default

def mod_function (f : Nat) (g : FunctionData → FunctionData) : P Unit :=
  modS fun s => { s with functions := modify_at s.functions f g }

def mod_class (k : Nat) (g : ClassData → ClassData) : P Unit :=
  modS fun s => { s with classes := modify_at s.classes k g }

def mod_members (k : Nat) (g : ClassMembersContainer → ClassMembersContainer) : P Unit :=
  mod_class k fun c => { c with members := g c.members }

/-- Dereferencing a class or function handle; a null handle is fatal. -/
def deref (p : Option Nat) (what : String) : P Nat :=
  match p with
  | some k => pure k
  | none => abortP (Abort.null_deref what)

/-- Modelled from the spec: `FunctionData::create_function(root, type)` allocates a
descriptor named after the function node, owning that node, and links the node
back to the descriptor. -/
def create_function (root : Vertex) (type : func_type_t) : P Nat := fun s =>
  let id := s.functions.length
  let root1 := root.set_info fun i => { i with func_id := some id }
  Res.ok id { s with functions := s.functions ++
    [{ name := root.name.get_string, root := some root1, type := type }] }

/-- Allocation `ClassPtr(new ClassData())`. -/
def new_class : P Nat := fun s =>
  Res.ok s.classes.length { s with classes := s.classes ++ [{}] }

/-- Allocation `FunctionPtr(new FunctionData())`. -/
def new_function : P Nat := fun s =>
  Res.ok s.functions.length { s with functions := s.functions ++ [{}] }

/-- Modelled from the spec: `ClassMembersContainer::add_instance_method` appends the
method to the class's instance methods, records the access level and the
owning class in the descriptor, and remembers a method whose local name is
`__construct` as the class's constructor. -/
def add_instance_method (k f : Nat) (a : AccessType) : P Unit := do
  let s ← getS
  mod_members k fun m => { m with instance_methods := m.instance_methods ++ [(f, a)] }
  mod_function f fun d => { d with access_type := a, class_id := some k }
  if get_local_name (s.get_function f).name == "__construct" then
    mod_class k fun c => { c with new_function := some f }

/-- Modelled from the spec: `ClassMembersContainer::add_static_method`. -/
def add_static_method (k f : Nat) (a : AccessType) : P Unit := do
  mod_members k fun m => { m with static_methods := m.static_methods ++ [(f, a)] }
  mod_function f fun d => { d with access_type := a, class_id := some k }

/-- Modelled from the spec: `ClassMembersContainer::has_constructor()`: the class has
an instance method whose local name is `__construct`. -/
def GenTree.has_constructor (s : GenTree) (k : Nat) : Bool :=
  (s.get_class k).members.instance_methods.any fun m =>
    get_local_name (s.get_function m.1).name == "__construct"

/-- Method `FunctionData::is_instance_function()`. -/
def GenTree.is_instance_function (s : GenTree) (f : Nat) : Bool :=
  is_instance_access_type (s.get_function f).access_type

/-- Modelled from the spec: `FunctionData::is_lambda()`: the function is a method of a
synthesized lambda class. -/
def GenTree.is_lambda (s : GenTree) (f : Nat) : Bool :=
  match (s.get_function f).class_id with
  | some k => starts_with (s.get_class k).name get_lambda_namespace
  | none => false

/-- Modelled from the spec: `G->register_and_require_function(f, os, force_require)`
enters the descriptor into the program-wide function table and, when the
function is global, forward-declared or force-required, pushes it to the
downstream collector `os` (here always `parsed_os`). -/
def register_and_require_function (f : Nat) (force_require : Bool) : P Unit := do
  let s ← getS
  modS fun s => { s with registered_functions := s.registered_functions ++ [f] }
  let t := (s.get_function f).type
  if t == func_type_t.func_global || t == func_type_t.func_extern_ || force_require then
    modS fun s => { s with parsed_os := s.parsed_os ++ [f] }

/-- Call `G->save_extern_func_header(name, root)`. -/
def save_extern_func_header (name : String) (root : Vertex) : P Unit :=
  modS fun s => { s with extern_func_headers := s.extern_func_headers ++ [(name, root)] }

/-- Call `G->register_class(klass)`. -/
def register_class (k : Nat) : P Unit :=
  modS fun s => { s with registered_classes := s.registered_classes ++ [k] }

/-- Constructor of `StackPushPop` on the function stack: push, and make the pushed
descriptor current. -/
def push_function (f : Nat) : P Unit :=
  modS fun s => { s with functions_stack := s.functions_stack ++ [f], cur_function := some f }

/-- Destructor of `StackPushPop` on the function stack: pop, and make the new top
(or null) current. -/
def pop_function : P Unit :=
  modS fun s =>
    let st := s.functions_stack.dropLast
    { s with functions_stack := st, cur_function := st.getLast? }

def push_class (k : Nat) : P Unit :=
  modS fun s => { s with class_stack := s.class_stack ++ [k], cur_class := some k }

def pop_class : P Unit :=
  modS fun s =>
    let st := s.class_stack.dropLast
    { s with class_stack := st, cur_class := st.getLast? }

/-- The parser functions a list element may be parsed by (`GetFunc`). -/
inductive GetFunc where
  | get_expression | get_type_rule_ | get_func_param | get_func_param_from_callback
  | get_var_name_ref | get_var_name
  deriving DecidableEq, Repr

/-- The recursive entry points of the parser, as seen by a function body: the
same functions with one unit of fuel less.  Loops are entry points of their
own, one call per iteration. -/
structure Caps where
  gen_list_loop : Operation → GetFunc → TokenType → Bool → List Vertex → P (Bool × List Vertex)
  get_string_build_loop : Bool → List Vertex → P (Option (List Vertex))
  get_postfix_expression : Option Vertex → P (Option Vertex)
  get_expr_top : P (Option Vertex)
  get_binary_op : Nat → Bool → P (Option Vertex)
  get_binary_op_loop : Nat → Bool → Vertex → P (Option Vertex)
  get_expression : P (Option Vertex)
  get_func_param : P (Option Vertex)
  get_func_param_from_callback : P (Option Vertex)
  get_type_rule_ : P (Option Vertex)
  get_type_rule_lt_loop : Bool → List Vertex → P (Option (List Vertex))
  get_type_rule_index_loop : Vertex → P (Option Vertex)
  get_switch_loop : List Vertex → P (Option (List Vertex))
  get_switch_seq_loop : List Vertex → P (List Vertex)
  parse_function_specifiers : Vertex → P (Bool × Vertex)
  get_use_loop : P Unit
  get_namespace_use_loop : P Unit
  get_anonymous_function : P (Option Vertex)
  get_statement : Option Token → P (Option Vertex)
  get_instance_var_list : Option Token → AccessType → P (Option Vertex)
  get_seq_loop : List Vertex → P (List Vertex)

/-! ## The parser, function by function (`compiler/gentree.cpp`)

Parse functions return `Option Vertex`, `none` being the null `VertexPtr`.  A
null pointer stored in a child slot is the node `null_vertex`. -/

/-- Content of a child slot that holds a null pointer: a node of kind `op_err`,
which the parser never creates. -/
def null_vertex : Vertex := Vertex.create op_err []

/-- Content of the child slot a possibly null pointer is stored in. -/
def child_of : Option Vertex → Vertex
  | some v => v
  | none => null_vertex

/-- Translation of `GenTree::get_var_name`. -/
def get_var_name : P (Option Vertex) := do
  let var_location ← auto_location
  let t ← cur_tok
  if t.type != tok_var_name then
    return none
  else
    let var := ((Vertex.create op_var []).set_string t.str_val).set_line var_location
    next_cur
    return some var

/-- Translation of `GenTree::get_var_name_ref`. -/
def get_var_name_ref : P (Option Vertex) := do
  let ref_flag := (← cur_type) == tok_and
  if ref_flag then next_cur
  match (← get_var_name) with
  | some name => return some (name.set_info fun i => { i with ref_flag := ref_flag })
  | none =>
    let _ ← kphp_error (!ref_flag) "Expected var name"
    return none

/-- Translation of `GenTree::open_parent`. -/
def open_parent : P Bool := do
  if (← cur_type) == tok_oppar then
    next_cur
    return true
  else
    return false

/-- The loop of `GenTree::skip_phpdoc_tokens`, at most `k` tests of the cursor; it
can only go on forever on an end sentinel of kind `tok_phpdoc`. -/
def skip_phpdoc_loop : Nat → P Unit
  | 0 => abortP Abort.out_of_fuel
  | k + 1 => do
    if (← cur_type) == tok_phpdoc then
      next_cur
      skip_phpdoc_loop k
    else
      pure ()

/-- Translation of `GenTree::skip_phpdoc_tokens`. -/
def skip_phpdoc_tokens : P Unit := fun s => skip_phpdoc_loop (s.end_ - s.cur + 1) s

/-- Macro `close_parent(is_opened)`; false when the enclosing function returns. -/
def close_parent (is_opened : Bool) : P Bool :=
  if is_opened then expect TokenType.tok_clpar "')'" else pure true

/-- Call through a `GetFunc` member pointer. -/
def call_get_func (c : Caps) : GetFunc → P (Option Vertex)
  | GetFunc.get_expression => c.get_expression
  | GetFunc.get_type_rule_ => c.get_type_rule_
  | GetFunc.get_func_param => c.get_func_param
  | GetFunc.get_func_param_from_callback => c.get_func_param_from_callback
  | GetFunc.get_var_name_ref => get_var_name_ref
  | GetFunc.get_var_name => get_var_name

/-- One iteration of the loop of `GenTree::gen_list<EmptyOp>(res, f, delim)`, entered
with `next_delim` true; the result is the returned flag and the vector `res`. -/
def gen_list_loop (c : Caps) (EmptyOp : Operation) (f : GetFunc) (delim : TokenType)
    (prev_delim : Bool) (res : List Vertex) : P (Bool × List Vertex) := do
  let v ← call_get_func c f
  let next_delim := (← cur_type) == delim
  let push (v : Vertex) : P (Bool × List Vertex) := do
    if next_delim then
      next_cur
      c.gen_list_loop EmptyOp f delim true (res ++ [v])
    else
      return (true, res ++ [v])
  match v with
  | some v => push v
  | none =>
    if EmptyOp != op_err && (prev_delim || next_delim) then
      if EmptyOp == op_none then
        return (true, res)
      else
        push (Vertex.create EmptyOp [])
    else if prev_delim then
      let _ ← kphp_error false "Expected something after ','"
      return (false, res)
    else
      return (true, res)

/-- Translation of `GenTree::gen_list<EmptyOp>(res, f, delim)`. -/
def gen_list (c : Caps) (EmptyOp : Operation) (res : List Vertex) (f : GetFunc)
    (delim : TokenType) : P (Bool × List Vertex) :=
  c.gen_list_loop EmptyOp f delim false res

/-- Translation of `GenTree::get_conv<Op>`. -/
def get_conv (c : Caps) (Op : Operation) : P (Option Vertex) := do
  let conv_location ← auto_location
  next_cur
  match (← c.get_expression) with
  | none =>
    let _ ← kphp_error false "get_conv failed"
    return none
  | some first_node =>
    return some ((Vertex.create Op [first_node]).set_line conv_location)

/-- Translation of `GenTree::get_varg_call<Op>`. -/
def get_varg_call (c : Caps) (Op : Operation) : P (Option Vertex) := do
  let call_location ← auto_location
  next_cur
  if !(← expect tok_oppar "'('") then
    return none
  else
    let args_location ← auto_location
    let (ok_args_next, args_next) ← gen_list c op_err [] GetFunc.get_expression tok_comma
    if (← kphp_error ok_args_next "get_varg_call failed") then
      return none
    else
      let args := (Vertex.create op_array args_next).set_line args_location
      if !(← expect tok_clpar "')'") then
        return none
      else
        return some ((Vertex.create Op [args]).set_line call_location)

/-- Translation of `GenTree::get_require`. -/
def get_require (c : Caps) : P (Option Vertex) := do
  let require_location ← auto_location
  next_cur
  let is_opened ← open_parent
  let require := Vertex.create op_require [child_of (← c.get_expression)]
  if !(← close_parent is_opened) then
    return none
  else
    return some (require.set_line require_location)

/-- Translation of `GenTree::get_require_once`. -/
def get_require_once (c : Caps) : P (Option Vertex) := do
  let require_location ← auto_location
  next_cur
  let is_opened ← open_parent
  let (ok_next, requires) ← gen_list c op_err [] GetFunc.get_expression tok_comma
  if (← kphp_error ok_next "get_require_list for require_once failed") then
    return none
  else if !(← close_parent is_opened) then
    return none
  else
    let require_once_seq :=
      match requires with
      | [r] => Vertex.create op_require_once [r]
      | _ => Vertex.create op_seq (requires.map fun r => Vertex.create op_require_once [r])
    return some (require_once_seq.set_line require_location)

/-- The `type_help` hack of `get_func_call<op_constructor_call, _>` on the class name. -/
def constructor_call_hack (call : Vertex) (name : String) : Vertex :=
  let c0 := call.set_string name
  let c1 := if name == "Memcache" then c0.set_info fun i => { i with type_help := tp_MC } else c0
  let c2 := if name == "true_mc" || name == "test_mc" || name == "RpcMemcache" then
    c1.set_info fun i => { i with type_help := tp_MC } else c1
  let c3 := if name == "Exception" then
    c2.set_info fun i => { i with type_help := tp_Exception } else c2
  if name == String.mk [backslash] ++ "Exception" then
    (c3.set_string "Exception").set_info fun i => { i with type_help := tp_Exception }
  else c3

/-- Translation of `GenTree::get_func_call<Op, EmptyOp>`. -/
def get_func_call (c : Caps) (Op EmptyOp : Operation) : P (Option Vertex) := do
  let call_location ← auto_location
  let name := (← cur_tok).str_val
  next_cur
  if !(← expect tok_oppar "'('") then
    return none
  else
    skip_phpdoc_tokens
    let (ok_next, next) ← gen_list c EmptyOp [] GetFunc.get_expression tok_comma
    if (← kphp_error ok_next "get argument list failed") then
      return none
    else if !(← expect tok_clpar "')'") then
      return none
    else if Op == op_isset then
      match next with
      | [] =>
        let _ ← kphp_error false "isset function requires at least one argument"
        return none
      | first :: rest =>
        let left := rest.foldl
          (fun left arg => Vertex.create op_log_and [left, Vertex.create op_isset [arg]])
          (Vertex.create op_isset [first])
        return some (left.set_line call_location)
    else
      let call := (Vertex.create Op next).set_line call_location
      if Op == op_func_call then
        return some (call.set_string name)
      else if Op == op_constructor_call then
        return some (constructor_call_hack call name)
      else
        return some call

/-- Translation of `GenTree::get_short_array`. -/
def get_short_array (c : Caps) : P (Option Vertex) := do
  let call_location ← auto_location
  next_cur
  let (ok_next, next) ← gen_list c op_none [] GetFunc.get_expression tok_comma
  if (← kphp_error ok_next "get short array failed") then
    return none
  else if !(← expect tok_clbrk "']'") then
    return none
  else
    return some ((Vertex.create op_array next).set_line call_location)

/-- Translation of `GenTree::get_string`. -/
def get_string : P Vertex := do
  let str := (Vertex.create op_string []).set_line (← auto_location)
  let str := str.set_string (← cur_tok).str_val
  next_cur
  return str

/-- One test of the loop of `GenTree::get_string_build`; `none` when the function
returns null from inside the loop, otherwise the collected parts. -/
def get_string_build_loop (c : Caps) (after_simple_expression : Bool)
    (v_next : List Vertex) : P (Option (List Vertex)) := do
  if (← at_end) || (← cur_type) == tok_str_end then
    return some v_next
  else if (← cur_type) == tok_str then
    let last ← get_string
    if after_simple_expression && last.get_string != "" && last.get_string.data.head? == some '['
    then kphp_warning "Simple string expressions with [] can work wrong. Use more \x7b\x7d"
    c.get_string_build_loop false (v_next ++ [last])
  else if (← cur_type) == tok_expr_begin then
    next_cur
    match (← c.get_expression) with
    | none =>
      let _ ← kphp_error false "Bad expression in string"
      return none
    | some add =>
      if !(← expect tok_expr_end "'\x7d'") then
        return none
      else
        c.get_string_build_loop false (v_next ++ [add])
  else
    match (← c.get_expression) with
    | none =>
      let _ ← kphp_error false "Bad expression in string"
      return none
    | some add => c.get_string_build_loop true (v_next ++ [add])

/-- Translation of `GenTree::get_string_build`. -/
def get_string_build (c : Caps) : P (Option Vertex) := do
  let sb_location ← auto_location
  next_cur
  match (← c.get_string_build_loop false []) with
  | none => return none
  | some v_next =>
    if !(← expect tok_str_end "'\"'") then
      return none
    else
      return some ((Vertex.create op_string_build v_next).set_line sb_location)

/-- Translation of `GenTree::get_exit`. -/
def get_exit (c : Caps) : P (Option Vertex) := do
  let exit_location ← auto_location
  next_cur
  let is_opened ← open_parent
  let finish (exit_val : Option Vertex) : P (Option Vertex) :=
    let exit_val := exit_val.getD ((Vertex.create op_int_const []).set_string "0")
    return some ((Vertex.create op_exit [exit_val]).set_line exit_location)
  if is_opened then
    let exit_val ← c.get_expression
    if !(← close_parent is_opened) then
      return none
    else
      finish exit_val
  else
    finish none

/-- One test of the loop of `GenTree::get_postfix_expression(res)`: the postfix
operators `++`, `--`, `[]`, `->` and a call in postfix position. -/
def get_postfix_expression (c : Caps) (res : Option Vertex) : P (Option Vertex) := do
  if (← at_end) then
    return res
  else
    let tp ← cur_type
    if tp == tok_inc then
      let v := (Vertex.create op_postfix_inc [child_of res]).set_line (← auto_location)
      next_cur
      c.get_postfix_expression (some v)
    else if tp == tok_dec then
      let v := (Vertex.create op_postfix_dec [child_of res]).set_line (← auto_location)
      next_cur
      c.get_postfix_expression (some v)
    else if tp == tok_opbrk || tp == tok_opbrc then
      let location ← auto_location
      next_cur
      let i ← c.get_expression
      let closed ← if tp == tok_opbrk then expect tok_clbrk "']'" else expect tok_clbrc "'\x7d'"
      if !closed then
        return none
      else
        let v := match i with
          | none => Vertex.create op_index [child_of res]
          | some i => Vertex.create op_index [child_of res, i]
        c.get_postfix_expression (some (v.set_line location))
    else if tp == tok_arrow then
      let location ← auto_location
      next_cur
      match (← c.get_expr_top) with
      | none =>
        let _ ← kphp_error false "Failed to parse right argument of '->'"
        return none
      | some i =>
        c.get_postfix_expression (some ((Vertex.create op_arrow [child_of res, i]).set_line location))
    else if tp == tok_oppar then
      let location ← auto_location
      next_cur
      skip_phpdoc_tokens
      let (ok_next, next) ← gen_list c op_err [] GetFunc.get_expression tok_comma
      if (← kphp_error ok_next "get argument list failed") then
        return none
      else if !(← expect tok_clpar "')'") then
        return none
      else
        let call := ((Vertex.create op_func_call next).set_line location).set_string "__invoke"
        c.get_postfix_expression
          (some ((Vertex.create op_arrow [child_of res, call]).set_line location))
    else
      return res

/-- A childless node of kind `op` located at `line` and holding `str`. -/
def leaf (op : Operation) (line : Int) (str : String) : Vertex :=
  ((Vertex.create op []).set_line line).set_string str

/-- The `tok_min` / `tok_max` case of `get_expr_top`: a single argument is
converted to an array.  A null call is dereferenced by the source. -/
def min_max_call (call : Option Vertex) : P (Option Vertex) :=
  match call with
  | none => abortP (Abort.null_deref "min_v->args()")
  | some v =>
    match v.next with
    | [a] => pure (some (v.set_next [conv_to tp_array a]))
    | _ => pure (some v)

/-- Translation of `GenTree::get_expr_top`: primary expressions.  A case of the
`switch` that leaves `return_flag` false continues into postfix handling. -/
def get_expr_top (c : Caps) : P (Option Vertex) := do
  let s ← getS
  let op := s.tok
  let line := s.line_num
  match op.type with
  | tok_line_c =>
    next_cur
    return some (leaf op_int_const line (toString s.stage_line))
  | tok_file_c =>
    next_cur
    return some (leaf op_string line s.processing_file.file_name)
  | tok_func_c =>
    next_cur
    return some ((Vertex.create op_function_c []).set_line line)
  | tok_int_const =>
    next_cur
    return some (leaf op_int_const line op.str_val)
  | tok_float_const =>
    next_cur
    return some (leaf op_float_const line op.str_val)
  | tok_null =>
    next_cur
    return some ((Vertex.create op_null []).set_line line)
  | tok_false =>
    next_cur
    return some ((Vertex.create op_false []).set_line line)
  | tok_true =>
    next_cur
    return some ((Vertex.create op_true []).set_line line)
  | tok_var_name => c.get_postfix_expression (← get_var_name)
  | tok_str => return some (← get_string)
  | tok_conv_int => get_conv c op_conv_int
  | tok_conv_bool => get_conv c op_conv_bool
  | tok_conv_float => get_conv c op_conv_float
  | tok_conv_string => get_conv c op_conv_string
  | tok_conv_long => get_conv c op_conv_long
  | tok_conv_uint => get_conv c op_conv_uint
  | tok_conv_ulong => get_conv c op_conv_ulong
  | tok_conv_array => get_conv c op_conv_array
  | tok_print =>
    next_cur
    match (← c.get_expression) with
    | none =>
      let _ ← kphp_error false "Failed to get print argument"
      return none
    | some first_node =>
      return some ((Vertex.create op_print [conv_to tp_string first_node]).set_line line)
  | tok_exit => get_exit c
  | tok_require => get_require c
  | tok_require_once => get_require_once c
  | tok_constructor_call => get_func_call c op_constructor_call op_none
  | tok_func_name =>
    -- `*(cur - 1)`; before the first token nothing can be read, taken as no arrow
    let was_arrow := s.cur != 0 && (s.tokens.getD (s.cur - 1) default).type == tok_arrow
    let res ←
      if (s.tok_at 1).type != tok_oppar then do
        next_cur
        pure (some (leaf op_func_name line op.str_val))
      else
        get_func_call c op_func_call op_err
    if was_arrow then return res else c.get_postfix_expression res
  | tok_function => c.get_anonymous_function
  | tok_isset => get_func_call c op_isset op_err
  | tok_array => get_func_call c op_array op_none
  | tok_tuple =>
    match (← get_func_call c op_tuple op_err) with
    | none => abortP (Abort.null_deref "res.as<op_tuple>()->size()")
    | some res =>
      if (← kphp_error (!res.next.isEmpty) "tuple() must have at least one argument") then
        return none
      else
        return some res
  | tok_opbrk => get_short_array c
  | tok_list => get_func_call c op_list_ce op_lvalue_null
  | tok_defined => get_func_call c op_defined op_err
  | tok_min => do min_max_call (← get_func_call c op_min op_err)
  | tok_max => do min_max_call (← get_func_call c op_max op_err)
  | tok_oppar =>
    next_cur
    match (← c.get_expression) with
    | none =>
      let _ ← kphp_error false "Failed to parse expression after '('"
      return none
    | some res =>
      let res := res.set_info fun i => { i with parent_flag := true }
      if !(← expect tok_clpar "')'") then
        return none
      else if (← cur_type) != tok_arrow then
        return some res
      else
        c.get_postfix_expression (some res)
  | tok_str_begin => get_string_build c
  | _ => return none

/-- Translation of `GenTree::create_ternary_op_vertex(left, right, third)`; a null
`right` is the shorthand `left ?: third`. -/
def create_ternary_op_vertex (e : Env) (left : Vertex) (right : Option Vertex)
    (third : Vertex) : P Vertex := do
  match right with
  | some right => return Vertex.create op_ternary [left, right, third]
  | none =>
    let s ← getS
    let left_name := e.gen_shorthand_ternary_name s.name_counter
    modS fun s => { s with name_counter := s.name_counter + 1 }
    let left_var := ((Vertex.create op_var []).set_string left_name).set_info fun i =>
      { i with extra_type := OperationExtra.op_ex_var_superlocal }
    let left_set := Vertex.create op_set [left_var, left]
    let left_set_bool := conv_to tp_bool left_set
    let left_var_copy := ((Vertex.create op_var []).set_string left_name).set_info fun i =>
      { i with extra_type := OperationExtra.op_ex_var_superlocal }
    let left_var_move := Vertex.create op_move [left_var_copy]
    return Vertex.create op_ternary [left_set_bool, left_var_move, third]

/-- Translation of `GenTree::get_unary_op`. -/
def get_unary_op (c : Caps) (op_priority_cur : Nat) (unary_op_tp : Operation)
    (till_ternary : Bool) : P (Option Vertex) := do
  let expr_location ← auto_location
  next_cur
  match (← c.get_binary_op op_priority_cur till_ternary) with
  | none => return none
  | some left =>
    let left := if unary_op_tp == op_log_not then conv_to tp_bool left else left
    let left := if unary_op_tp == op_not then conv_to tp_int left else left
    return some ((create_vertex unary_op_tp [left]).set_line expr_location)

/-- Translation of `GenTree::get_expression_impl`. -/
def get_expression_impl (e : Env) (c : Caps) (till_ternary : Bool) : P (Option Vertex) :=
  c.get_binary_op e.info.op_priority_begin till_ternary

/-- Coercion `conv_to<tp>(right)` of the right operand; the source dereferences
it, so a null operand (possible only under the ternary band) is fatal. -/
def conv_right (tp : PrimitiveType) (right : Option Vertex) : P (Option Vertex) :=
  match right with
  | some r => pure (some (conv_to tp r))
  | none => abortP (Abort.null_deref "conv_to(right)")

/-- The three operator-specific coercion steps of the loop of `get_binary_op`. -/
def coerce_operands (binary_op_tp : Operation) (left : Vertex) (right : Option Vertex) :
    P (Vertex × Option Vertex) := do
  let (left, right) ←
    if binary_op_tp ∈ [op_log_or, op_log_and, op_log_or_let, op_log_and_let, op_log_xor_let]
    then do pure (conv_to tp_bool left, ← conv_right tp_bool right)
    else pure (left, right)
  let right ←
    if binary_op_tp ∈ [op_set_or, op_set_and, op_set_xor, op_set_shl, op_set_shr]
    then conv_right tp_int right
    else pure right
  if binary_op_tp ∈ [op_or, op_and, op_xor]
  then do pure (conv_to tp_int left, ← conv_right tp_int right)
  else pure (left, right)

/-- One test of the `while (need && cur != end)` loop of `GenTree::get_binary_op`,
for the band `op_priority_cur` and the operand `left` parsed so far. -/
def get_binary_op_loop (e : Env) (c : Caps) (op_priority_cur : Nat) (till_ternary : Bool)
    (left : Vertex) : P (Option Vertex) := do
  if (← at_end) then
    return some left
  else
    let binary_op_tp := e.info.tok_to_binary_op (← cur_type)
    if binary_op_tp == op_err || e.info.priority binary_op_tp != op_priority_cur then
      return some left
    else
      let ternary := op_priority_cur == e.info.ternaryP
      let expr_location ← auto_location
      let left_to_right := e.info.fixity binary_op_tp == Fixity.left_opp
      next_cur
      let till := till_ternary && op_priority_cur >= e.info.ternaryP
      let right ←
        if ternary then c.get_expression
        else c.get_binary_op (op_priority_cur + left_to_right.toNat) till
      if right.isNone && !ternary then
        let _ ← kphp_error false
          ("Failed to parse second argument in [" ++ e.info.str binary_op_tp ++ "]")
        return none
      else
        let fold (left : Vertex) (third : Option Vertex) : P (Option Vertex) := do
          let (left, right) ← coerce_operands binary_op_tp left right
          let expr ←
            if ternary then create_ternary_op_vertex e left right (child_of third)
            else pure (create_vertex binary_op_tp [left, child_of right])
          let left := expr.set_line expr_location
          if left_to_right || ternary then
            c.get_binary_op_loop op_priority_cur till_ternary left
          else
            return some left
        if ternary then
          if !(← expect tok_colon "':'") then
            return none
          else
            match (← get_expression_impl e c true) with
            | none =>
              let _ ← kphp_error false
                ("Failed to parse third argument in [" ++ e.info.str binary_op_tp ++ "]")
              return none
            | some third =>
              fold (if right.isSome then conv_to tp_bool left else left) (some third)
        else
          fold left none

/-- Translation of `GenTree::get_binary_op(op_priority_cur, till_ternary)`. -/
def get_binary_op (e : Env) (c : Caps) (op_priority_cur : Nat) (till_ternary : Bool) :
    P (Option Vertex) := do
  let op_priority_cur := min op_priority_cur e.info.op_priority_end
  if op_priority_cur == e.info.op_priority_end then
    c.get_expr_top
  else
    let unary_op_tp := e.info.tok_to_unary_op (← cur_type)
    if !(← at_end) && unary_op_tp != op_err && e.info.priority unary_op_tp <= op_priority_cur
    then
      get_unary_op c op_priority_cur unary_op_tp till_ternary
    else
      let ternary := op_priority_cur == e.info.ternaryP
      match (← c.get_binary_op (op_priority_cur + 1) till_ternary) with
      | none => return none
      | some left =>
        if ternary && till_ternary then
          return some left
        else
          c.get_binary_op_loop op_priority_cur till_ternary left

/-- Translation of `GenTree::get_expression`. -/
def get_expression (e : Env) (c : Caps) : P (Option Vertex) := do
  skip_phpdoc_tokens
  get_expression_impl e c false

/-- Translation of `GenTree::embrace`. -/
def embrace (v : Vertex) : Vertex :=
  if v.type != op_seq then
    (Vertex.create op_seq [v]).set_location v.location
  else
    v

/-- Translation of `GenTree::get_def_value`. -/
def get_def_value (c : Caps) : P (Option Vertex) := do
  if (← cur_type) == tok_eq1 then
    next_cur
    let val ← c.get_expression
    let _ ← kphp_error val.isSome "Cannot parse function parameter"
    return val
  else
    return none

/-- Translation of `GenTree::get_ptype`. -/
def get_ptype (e : Env) : P PrimitiveType := do
  let t ← cur_tok
  let tp :=
    match t.type with
    | tok_int => tp_int
    | tok_string => tp_string
    | tok_float => tp_float
    | tok_array => tp_array
    | tok_bool => tp_bool
    | tok_var => tp_var
    | tok_Exception => tp_Exception
    | tok_tuple => tp_tuple
    | tok_func_name => e.get_ptype_by_name t.str_val
    | _ => tp_Error
  if tp != tp_Error then next_cur
  return tp

/-- Translation of `GenTree::get_func_param_type_help`. -/
def get_func_param_type_help (e : Env) : P PrimitiveType := do
  kphp_assert ((← cur_type) == tok_triple_colon) "(*cur)->type() == tok_triple_colon"
  next_cur
  let res ← get_ptype e
  let _ ← kphp_error (res != tp_Error) "Cannot parse type"
  return res

/-- Translation of `GenTree::get_type_rule_func`. -/
def get_type_rule_func (c : Caps) : P (Option Vertex) := do
  let rule_location ← auto_location
  let name := (← cur_tok).str_val
  next_cur
  if !(← expect tok_lt "<") then
    return none
  else
    let (ok_next, next) ← gen_list c op_err [] GetFunc.get_type_rule_ tok_comma
    if (← kphp_error ok_next "Failed get_type_rule_func") then
      return none
    else if !(← expect tok_gt ">") then
      return none
    else
      return some (((Vertex.create op_type_rule_func next).set_line rule_location).set_string name)

/-- One pass of the `do ... while (allow_comma_sep && test_expect(tok_comma))` loop
of `get_type_rule_`; `none` when the function returns null from inside it. -/
def get_type_rule_lt_loop (c : Caps) (allow_comma_sep : Bool) (next : List Vertex) :
    P (Option (List Vertex)) := do
  next_cur
  match (← c.get_type_rule_) with
  | none =>
    let _ ← kphp_error false "Cannot parse type_rule (1)"
    return none
  | some r =>
    if allow_comma_sep && (← test_expect tok_comma) then
      c.get_type_rule_lt_loop allow_comma_sep (next ++ [r])
    else
      return some (next ++ [r])

/-- One test of the `while (test_expect(tok_opbrk))` loop of `get_type_rule_`. -/
def get_type_rule_index_loop (c : Caps) (res : Vertex) : P (Option Vertex) := do
  if (← test_expect tok_opbrk) then
    let opbrk_location ← auto_location
    next_cur
    if !(← expect tok_clbrk "]") then
      return none
    else
      c.get_type_rule_index_loop ((Vertex.create op_index [res]).set_line opbrk_location)
  else
    return some res

/-- Translation of `GenTree::get_type_rule_`. -/
def get_type_rule_ (e : Env) (c : Caps) : P (Option Vertex) := do
  let tp ← get_ptype e
  let t ← cur_tok
  let tok := t.type
  if tp != tp_Error then
    let arr_location ← auto_location
    let finish (next : List Vertex) : P (Option Vertex) :=
      return some (((Vertex.create op_type_rule next).set_info fun i =>
        { i with type_help := tp }).set_line arr_location)
    if tok == tok_lt then
      let _ ← kphp_error (tp == tp_array || tp == tp_tuple) "Cannot parse type_rule"
      match (← c.get_type_rule_lt_loop (tp == tp_tuple) []) with
      | none => return none
      | some next =>
        if !(← expect tok_gt "'>'") then
          return none
        else
          finish next
    else
      finish []
  else if tok == tok_func_name then
    if t.str_val == "lca" || t.str_val == "OrFalse" then
      get_type_rule_func c
    else if t.str_val == "self" then
      return some (Vertex.create op_self [])
    else if t.str_val == "CONST" then
      next_cur
      match (← c.get_type_rule_) with
      | some res =>
        return some (res.set_info fun i => { i with extra_type := OperationExtra.op_ex_rule_const })
      | none => return none
    else
      let _ ← kphp_error false ("Can't parse type_rule. Unknown string [" ++ t.str_val ++ "]")
      return none
  else if tok == tok_xor then
    next_cur
    if (← kphp_error (← test_expect tok_int_const) "Int expected") then
      return none
    else
      let int_val := atoi (← cur_tok).str_val
      let v := ((Vertex.create op_arg_ref []).set_line (← auto_location)).set_info fun i =>
        { i with int_val := int_val }
      next_cur
      match (← c.get_type_rule_index_loop v) with
      | none => return none
      | some res =>
        if (← test_expect tok_oppar) then
          let oppar_location ← auto_location
          next_cur
          if !(← expect tok_clpar ")") then
            return none
          else
            return some (((Vertex.create op_type_rule_func [res]).set_string
              "callback_call").set_line oppar_location)
        else
          return some res
  else
    return none

/-- Translation of `GenTree::get_type_rule`. -/
def get_type_rule (e : Env) (c : Caps) : P (Option Vertex) := do
  let tp ← cur_type
  if tp ∈ [tok_triple_colon, tok_triple_eq, tok_triple_lt, tok_triple_gt] then
    let rule_location ← auto_location
    next_cur
    match (← c.get_type_rule_) with
    | none =>
      let _ ← kphp_error false "Cannot parse type rule"
      return none
    | some first =>
      return some ((create_vertex (e.info.tok_to_op tp) [first]).set_line rule_location)
  else
    return none

/-- Translation of `GenTree::get_func_param_without_callbacks(from_callback)`. -/
def get_func_param_without_callbacks (e : Env) (c : Caps) (from_callback : Bool) :
    P (Option Vertex) := do
  let st_location ← auto_location
  let t ← cur_tok
  let tok_type_declaration :=
    if t.type == tok_func_name || t.type == tok_Exception then some t else none
  if tok_type_declaration.isSome then next_cur
  match (← get_var_name_ref) with
  | none => return none
  | some name =>
    let (tp, type_rule) ←
      if !from_callback && (← cur_type) == tok_triple_colon then do
        pure (← get_func_param_type_help e, none)
      else do
        pure (tp_Unknown, ← get_type_rule e c)
    let def_val ← get_def_value c
    let next := match def_val with
      | some d => [name, d]
      | none => [name]
    let v := (Vertex.create op_func_param next).set_line st_location
    let v := match tok_type_declaration with
      | some td => v.set_info fun i => { i with
          type_declaration := td.str_val,
          type_help := if td.type == tok_Exception then tp_Exception else tp_Class }
      | none => v
    match type_rule with
    | some r => return some (v.set_type_rule (some r))
    | none =>
      if tp != tp_Unknown then
        return some (v.set_info fun i => { i with type_help := tp })
      else
        return some v

/-- Translation of `GenTree::get_func_param_from_callback`. -/
def get_func_param_from_callback (e : Env) (c : Caps) : P (Option Vertex) :=
  get_func_param_without_callbacks e c true

/-- Translation of `GenTree::get_func_param`. -/
def get_func_param (e : Env) (c : Caps) : P (Option Vertex) := do
  let st_location ← auto_location
  let s ← getS
  if s.tok.type == tok_func_name && (s.tok_at 1).type == tok_oppar then
    let name := leaf op_func_name st_location s.tok.str_val
    kphp_assert (name.get_string == "callback") "name->str_val == \"callback\""
    next_cur
    if !(← expect tok_oppar "'('") then
      return none
    else
      let (ok_params_next, callback_params) ←
        gen_list c op_err [] GetFunc.get_func_param_from_callback tok_comma
      if (← kphp_error ok_params_next "Failed to parse callback params") then
        return none
      else
        let params := (Vertex.create op_func_param_list callback_params).set_line st_location
        if !(← expect tok_clpar "')'") then
          return none
        else
          let type_rule ← get_type_rule e c
          let def_val ← get_def_value c
          kphp_assert (match def_val with
            | none => true
            | some d => d.type == op_func_name && d.get_string == "TODO")
            "!def_val || (def_val->type() == op_func_name && def_val->get_string() == \"TODO\")"
          let v := match def_val with
            | some d => Vertex.create op_func_param_callback [name, params, d]
            | none => Vertex.create op_func_param_callback [name, params]
          return some ((v.set_type_rule type_rule).set_line st_location)
  else
    get_func_param_without_callbacks e c false

/-- Translation of `GenTree::get_foreach_param`. -/
def get_foreach_param (c : Caps) : P (Option Vertex) := do
  let location ← auto_location
  match (← c.get_expression) with
  | none =>
    let _ ← kphp_error false ""
    return none
  | some xs =>
    if !(← expect tok_as "'as'") then
      return none
    else
      skip_phpdoc_tokens
      match (← get_var_name_ref) with
      | none =>
        let _ ← kphp_error false ""
        return none
      | some x =>
        let empty := Vertex.create op_empty []
        if (← cur_type) == tok_double_arrow then
          next_cur
          match (← get_var_name_ref) with
          | none =>
            let _ ← kphp_error false ""
            return none
          | some x2 =>
            return some ((Vertex.create op_foreach_param [xs, x2, empty, x]).set_line location)
        else
          return some ((Vertex.create op_foreach_param [xs, x, empty]).set_line location)

/-- Translation of `GenTree::func_force_return(root, val)`, returning the updated
function node. -/
def func_force_return (root : Vertex) (val : Option Vertex) : P Vertex := do
  if root.type != op_function then
    return root
  else
    let cmd := root.cmd
    if cmd.type != op_seq then
      abortP (Abort.assert_failed "cmd->type() == op_seq")
    else
      let no_result := val.isNone
      let val := val.getD (Vertex.create op_null [])
      let return_node := (Vertex.create op_return [val]).set_info fun i =>
        { i with void_flag := no_result }
      return root.set_cmd (Vertex.create op_seq (cmd.next ++ [return_node]))

/-- The node built by `GenTree::create_vertex_this(location, cur_class, with_type_rule)`;
`rule_class` is the class of the type rule when one is attached. -/
def vertex_this (line : Int) (rule_class : Option Nat) : Vertex :=
  let this_var := ((Vertex.create op_var []).set_info fun i => { i with
    str_val := "this", extra_type := OperationExtra.op_ex_var_this,
    const_type := ConstType.cnst_const_val }).set_line line
  match rule_class with
  | none => this_var
  | some k =>
    let rule_this_var := (Vertex.create op_class_type_rule []).set_info fun i =>
      { i with type_help := tp_Class, class_ptr := some k }
    this_var.set_type_rule (some (Vertex.create op_common_type_rule [rule_this_var]))

/-- Translation of `GenTree::create_vertex_this`. -/
def create_vertex_this (line : Int) (cur_class : Option Nat) (with_type_rule : Bool) :
    P Vertex := do
  if with_type_rule then
    kphp_assert cur_class.isSome "cur_class"
    return vertex_this line cur_class
  else
    return vertex_this line none

/-- The statement `$this->f = default` that `patch_func_constructor` builds for a
field `f` of the class. -/
def field_initializer (line : Int) (f : Vertex) : Vertex :=
  let inst_prop := ((Vertex.create op_instance_prop [vertex_this line none]).set_line
    line).set_string f.get_string
  Vertex.create op_set [inst_prop, f.def_val]

/-- Translation of `GenTree::patch_func_constructor(func, cur_class, location)`,
returning the patched function node. -/
def patch_func_constructor (func : Vertex) (cur_class : Option Nat) (location : Int) :
    P Vertex := do
  let return_node := (Vertex.create op_return [← create_vertex_this location cur_class false]
    ).set_line location
  let next := func.cmd.next
  let next := (← create_vertex_this location cur_class true) :: next
  let k ← deref cur_class "cur_class"
  let fields := ((← getS).get_class k).members.instance_fields
  -- each field with a default is inserted at position 1, in iteration order
  let next := fields.foldl (fun next f =>
    if f.1.has_def_val then next.take 1 ++ [field_initializer location f.1] ++ next.drop 1
    else next) next
  return func.set_cmd (Vertex.create op_seq (next ++ [return_node]))

/-- Translation of `GenTree::patch_func_add_this`: the parameter it appends. -/
def patch_func_add_this (func_location : Int) (cur_class : Option Nat) : P Vertex := do
  return Vertex.create op_func_param [← create_vertex_this func_location cur_class true]

/-- Translation of `GenTree::create_constructor_with_args(cur_class, location, params, os)`. -/
def create_constructor_with_args (cur_class : Nat) (location : Int) (params : Vertex) :
    P Unit := do
  let s ← getS
  let func_name := (Vertex.create op_func_name []).set_string
    (replace_backslashes (s.get_class cur_class).name ++ "$$" ++ "__construct")
  let fields_initializers := params.next.map fun param =>
    let param := param.var
    let inst_prop := ((Vertex.create op_instance_prop [vertex_this location none]).set_line
      location).set_string param.get_string
    Vertex.create op_set [inst_prop, param]
  let func_root := Vertex.create op_seq fields_initializers
  let func := ((Vertex.create op_function [func_name, params, func_root]).set_info fun i =>
    { i with inline_flag := true }).set_line location
  let func ← patch_func_constructor func (some cur_class) location
  let ctor_function ← create_function func func_type_t.func_local
  add_instance_method cur_class ctor_function AccessType.access_public
  register_and_require_function ctor_function true

/-- Translation of `GenTree::create_default_constructor`. -/
def create_default_constructor (cur_class : Nat) (location : Int) : P Unit :=
  create_constructor_with_args cur_class location (Vertex.create op_func_param_list [])

/-- Translation of `GenTree::get_multi_call<Op>(f)`. -/
def get_multi_call (c : Caps) (Op : Operation) (f : GetFunc) : P (Option Vertex) := do
  let type ← cur_type
  let seq_location ← auto_location
  next_cur
  let (ok_next, next) ← gen_list c op_err [] f tok_comma
  if (← kphp_error ok_next "Failed get_multi_call") then
    return none
  else
    let next := next.map fun x =>
      let x := if type == tok_echo || type == tok_dbg_echo then conv_to tp_string x else x
      (Vertex.create Op [x]).set_location x.location
    return some ((Vertex.create op_seq next).set_line seq_location)

/-- Translation of `GenTree::get_return`. -/
def get_return (c : Caps) : P (Option Vertex) := do
  let ret_location ← auto_location
  next_cur
  skip_phpdoc_tokens
  let return_val ← c.get_expression
  let no_result := return_val.isNone
  let tmp := (Vertex.create op_null []).set_line (← auto_location)
  let ret := (Vertex.create op_return [return_val.getD tmp]).set_line ret_location
  if !(← expect tok_semicolon "';'") then
    return none
  else
    return some (ret.set_info fun i => { i with void_flag := no_result })

/-- Translation of `GenTree::get_break_continue<Op>`. -/
def get_break_continue (c : Caps) (Op : Operation) : P (Option Vertex) := do
  let res_location ← auto_location
  next_cur
  let first_node ← c.get_expression
  if !(← expect tok_semicolon "';'") then
    return none
  else
    let first_node := first_node.getD ((Vertex.create op_int_const []).set_string "1")
    return some ((Vertex.create Op [first_node]).set_line res_location)

/-- Translation of `GenTree::get_foreach`. -/
def get_foreach (c : Caps) : P (Option Vertex) := do
  let foreach_location ← auto_location
  next_cur
  if !(← expect tok_oppar "'('") then
    return none
  else
    skip_phpdoc_tokens
    match (← get_foreach_param c) with
    | none =>
      let _ ← kphp_error false "Failed to parse 'foreach' params"
      return none
    | some first_node =>
      if !(← expect tok_clpar "')'") then
        return none
      else
        match (← c.get_statement none) with
        | none =>
          let _ ← kphp_error false "Failed to parse 'foreach' body"
          return none
        | some second_node =>
          let temp_node := Vertex.create op_empty []
          return some ((Vertex.create op_foreach
            [first_node, embrace second_node, temp_node]).set_line foreach_location)

/-- Translation of `GenTree::get_while`. -/
def get_while (c : Caps) : P (Option Vertex) := do
  let while_location ← auto_location
  next_cur
  if !(← expect tok_oppar "'('") then
    return none
  else
    skip_phpdoc_tokens
    match (← c.get_expression) with
    | none =>
      let _ ← kphp_error false "Failed to parse 'while' condition"
      return none
    | some first_node =>
      let first_node := conv_to tp_bool first_node
      if !(← expect tok_clpar "')'") then
        return none
      else
        match (← c.get_statement none) with
        | none =>
          let _ ← kphp_error false "Failed to parse 'while' body"
          return none
        | some second_node =>
          return some ((Vertex.create op_while
            [first_node, embrace second_node]).set_line while_location)

/-- Translation of `GenTree::get_if`. -/
def get_if (c : Caps) : P (Option Vertex) := do
  let if_location ← auto_location
  next_cur
  if !(← expect tok_oppar "'('") then
    return none
  else
    skip_phpdoc_tokens
    match (← c.get_expression) with
    | none =>
      let _ ← kphp_error false "Failed to parse 'if' condition"
      return none
    | some first_node =>
      let first_node := conv_to tp_bool first_node
      if !(← expect tok_clpar "')'") then
        return none
      else
        match (← c.get_statement none) with
        | none =>
          let _ ← kphp_error false "Failed to parse 'if' body"
          return none
        | some second_node =>
          let second_node := embrace second_node
          if (← cur_type) == tok_else then
            next_cur
            match (← c.get_statement none) with
            | none =>
              let _ ← kphp_error false "Failed to parse 'else' statement"
              return none
            | some third_node =>
              return some ((Vertex.create op_if
                [first_node, second_node, embrace third_node]).set_line if_location)
          else
            return some ((Vertex.create op_if [first_node, second_node]).set_line if_location)

/-- The condition clause of `get_for`: an empty clause becomes `true`, otherwise the
last expression is converted to boolean. -/
def for_condition (second_next : List Vertex) : List Vertex :=
  if second_next.isEmpty then
    [Vertex.create op_true []]
  else
    second_next.dropLast ++ (second_next.getLast?.map (conv_to tp_bool)).toList

/-- Translation of `GenTree::get_for`. -/
def get_for (c : Caps) : P (Option Vertex) := do
  let for_location ← auto_location
  next_cur
  if !(← expect tok_oppar "'('") then
    return none
  else
    skip_phpdoc_tokens
    let pre_cond_location ← auto_location
    let (ok_first_next, first_next) ← gen_list c op_err [] GetFunc.get_expression tok_comma
    if (← kphp_error ok_first_next "Failed to parse 'for' precondition") then
      return none
    else
      let pre_cond := (Vertex.create op_seq first_next).set_line pre_cond_location
      if !(← expect tok_semicolon "';'") then
        return none
      else
        let cond_location ← auto_location
        let (ok_second_next, second_next) ← gen_list c op_err [] GetFunc.get_expression tok_comma
        if (← kphp_error ok_second_next "Failed to parse 'for' action") then
          return none
        else
          let cond := (Vertex.create op_seq_comma (for_condition second_next)).set_line
            cond_location
          if !(← expect tok_semicolon "';'") then
            return none
          else
            let post_cond_location ← auto_location
            let (ok_third_next, third_next) ←
              gen_list c op_err [] GetFunc.get_expression tok_comma
            if (← kphp_error ok_third_next "Failed to parse 'for' postcondition") then
              return none
            else
              let post_cond := (Vertex.create op_seq third_next).set_line post_cond_location
              if !(← expect tok_clpar "')'") then
                return none
              else
                match (← c.get_statement none) with
                | none =>
                  let _ ← kphp_error false "Failed to parse 'for' statement"
                  return none
                | some cmd =>
                  return some ((Vertex.create op_for
                    [pre_cond, cond, post_cond, embrace cmd]).set_line for_location)

/-- Translation of `GenTree::get_do`. -/
def get_do (c : Caps) : P (Option Vertex) := do
  let do_location ← auto_location
  next_cur
  match (← c.get_statement none) with
  | none =>
    let _ ← kphp_error false "Failed to parser 'do' condition"
    return none
  | some first_node =>
    if !(← expect tok_while "'while'") then
      return none
    else if !(← expect tok_oppar "'('") then
      return none
    else
      skip_phpdoc_tokens
      match (← c.get_expression) with
      | none =>
        let _ ← kphp_error false "Faild to parse 'do' statement"
        return none
      | some second_node =>
        let second_node := conv_to tp_bool second_node
        if !(← expect tok_clpar "')'") then
          return none
        else if !(← expect tok_semicolon "';'") then
          return none
        else
          return some ((Vertex.create op_do [second_node, first_node]).set_line do_location)

/-- The inner `while (cur != end)` loop of `get_switch`, collecting the statements
of one `case` / `default` block. -/
def get_switch_seq_loop (c : Caps) (seq_next : List Vertex) : P (List Vertex) := do
  if (← at_end) then
    return seq_next
  else
    let tp ← cur_type
    if tp == tok_clbrc || tp == tok_case || tp == tok_default then
      return seq_next
    else
      match (← c.get_statement none) with
      | some cmd => c.get_switch_seq_loop (seq_next ++ [cmd])
      | none => c.get_switch_seq_loop seq_next

/-- One test of the outer `while ((*cur)->type() != tok_clbrc)` loop of `get_switch`;
`none` when the function returns null from inside it. -/
def get_switch_loop (c : Caps) (switch_next : List Vertex) : P (Option (List Vertex)) := do
  if (← cur_type) == tok_clbrc then
    return some switch_next
  else
    skip_phpdoc_tokens
    let cur_type_ ← cur_type
    let case_location ← auto_location
    let rest (case_val : Option Vertex) : P (Option (List Vertex)) := do
      let seq_location ← auto_location
      let seq_next ← c.get_switch_seq_loop []
      let seq := (Vertex.create op_seq seq_next).set_line seq_location
      if cur_type_ == tok_case then
        c.get_switch_loop (switch_next ++
          [(Vertex.create op_case [child_of case_val, seq]).set_line case_location])
      else if cur_type_ == tok_default then
        c.get_switch_loop (switch_next ++
          [(Vertex.create op_default [seq]).set_line case_location])
      else
        c.get_switch_loop switch_next
    if cur_type_ == tok_case then
      next_cur
      match (← c.get_expression) with
      | none =>
        let _ ← kphp_error false "Failed to parse 'case' value"
        return none
      | some case_val =>
        let _ ← expect2 tok_colon tok_semicolon "':'"
        rest (some case_val)
    else if cur_type_ == tok_default then
      next_cur
      let _ ← expect2 tok_colon tok_semicolon "':'"
      rest none
    else
      rest none

/-- Translation of `GenTree::get_switch`. -/
def get_switch (c : Caps) : P (Option Vertex) := do
  let switch_location ← auto_location
  next_cur
  if !(← expect tok_oppar "'('") then
    return none
  else
    skip_phpdoc_tokens
    match (← c.get_expression) with
    | none =>
      let _ ← kphp_error false "Failed to parse 'switch' expression"
      return none
    | some switch_val =>
      if !(← expect tok_clpar "')'") then
        return none
      else if !(← expect tok_opbrc "'\x7b'") then
        return none
      else
        let temp := Vertex.create op_empty []
        match (← c.get_switch_loop [switch_val, temp, temp, temp, temp]) with
        | none => return none
        | some switch_next =>
          let switch_vertex := (Vertex.create op_switch switch_next).set_line switch_location
          if !(← expect tok_clbrc "'\x7d'") then
            return none
          else
            return some switch_vertex

/-- Translation of `GenTree::parse_function_specifiers(flags)`; the result is the
returned flag and the updated `flags` node. -/
def parse_function_specifiers (c : Caps) (flags : Vertex) : P (Bool × Vertex) := do
  let tp ← cur_type
  if tp == tok_throws then
    let flags := flags.set_info fun i => { i with throws_flag := true }
    if !(← expect tok_throws "'throws'") then return (false, flags)
    else c.parse_function_specifiers flags
  else if tp == tok_resumable then
    let flags := flags.set_info fun i => { i with resumable_flag := true }
    if !(← expect tok_resumable "'resumable'") then return (false, flags)
    else c.parse_function_specifiers flags
  else if tp == tok_auto then
    let flags := flags.set_info fun i => { i with auto_flag := true }
    if !(← expect tok_auto "'auto'") then return (false, flags)
    else c.parse_function_specifiers flags
  else
    return (true, flags)

/-- The diagnostics of the loop over the captured variables in `parse_function_uses`. -/
def report_ref_uses : List Vertex → P Unit
  | [] => pure ()
  | v :: vs => do
    let _ ← kphp_error (!v.info.ref_flag)
      "references to variables in `use` block are forbidden in lambdas"
    report_ref_uses vs

/-- Translation of `GenTree::parse_function_uses(uses_of_lambda)`; the pointer
`uses_of_lambda` is null (`none`) for a named function. -/
def parse_function_uses (c : Caps) (uses_of_lambda : Option (List Vertex)) :
    P (Bool × Option (List Vertex)) := do
  if (← test_expect tok_use) then
    match uses_of_lambda with
    | none =>
      let _ ← kphp_error false "Unexpected `use` token"
      return (false, none)
    | some uses =>
      next_cur
      if !(← expect tok_oppar "`(`") then
        return (false, some uses)
      else
        let (ok_params_next, uses) ← gen_list c op_err uses GetFunc.get_var_name_ref tok_comma
        report_ref_uses uses
        let uses := uses.map fun v => Vertex.create op_func_param [v]
        if ok_params_next then
          return (← expect tok_clpar "`)`", some uses)
        else
          return (false, some uses)
  else
    return (true, uses_of_lambda)

/-- Translation of `GenTree::check_uses_and_args_are_not_intersect(uses, params)`. -/
def check_uses_and_args_are_not_intersect (uses params : List Vertex) : Bool :=
  let uniq_uses := uses.map fun v => v.var.get_string
  !(params.any fun p => uniq_uses.contains p.var.get_string)

/-- What `parse_function_declaration` hands back through its result and its
reference parameters. -/
structure FunctionDeclaration where
  name : Vertex
  params : Vertex
  flags : Vertex
  is_constructor : Bool
  uses_of_lambda : Option (List Vertex)

/-- Translation of `GenTree::parse_function_declaration`; `none` is the null name. -/
def parse_function_declaration (e : Env) (c : Caps) (access_type : AccessType)
    (uses_of_lambda : Option (List Vertex)) (flags : Vertex) :
    P (Option FunctionDeclaration) := do
  let func_location ← auto_location
  let flags := flags.set_line func_location
  kphp_assert ((← test_expect tok_function) || (← test_expect tok_ex_function))
    "test_expect(tok_function) || test_expect(tok_ex_function)"
  next_cur
  let s ← getS
  let declared_name : Option String ←
    if uses_of_lambda.isSome then do
      modS fun s => { s with name_counter := s.name_counter + 1 }
      pure (some (e.gen_anonymous_function_name s.name_counter))
    else do
      if !(← expect tok_func_name "'tok_func_name'") then
        pure none
      else
        match s.cur_class with
        | some k =>
          pure (some (replace_backslashes (s.get_class k).name ++ "$$" ++ s.tok.str_val))
        | none => pure (some s.tok.str_val)
  match declared_name with
  | none => return none
  | some str_val =>
    let name := leaf op_func_name func_location str_val
    let is_instance_method := is_instance_access_type access_type
    let is_constructor := is_instance_method && ends_with str_val "$$__construct"
    if !(← expect tok_oppar "'('") then
      return none
    else
      let params_location ← auto_location
      let params_next ←
        if is_instance_method && !is_constructor then do
          pure [← patch_func_add_this func_location s.cur_class]
        else pure []
      let parsed : Option (List Vertex × Vertex) ←
        if (← test_expect tok_varg) then do
          next_cur
          pure (some (params_next, flags.set_info fun i => { i with varg_flag := true }))
        else do
          let (ok_params_next, params_next) ←
            gen_list c op_err params_next GetFunc.get_func_param tok_comma
          if (← kphp_error ok_params_next "Failed to parse function params") then pure none
          else pure (some (params_next, flags))
      match parsed with
      | none => return none
      | some (params_next, flags) =>
        let params := (Vertex.create op_func_param_list params_next).set_line params_location
        if !(← expect tok_clpar "')'") then
          return none
        else
          let (ok_spec, flags) ← c.parse_function_specifiers flags
          if !ok_spec then
            return none
          else
            let (ok_uses, uses_of_lambda) ← parse_function_uses c uses_of_lambda
            if !ok_uses then
              return none
            else
              let _ ← kphp_error (match uses_of_lambda with
                | none => true
                | some uses => check_uses_and_args_are_not_intersect uses params_next)
                "arguments and captured variables(in `use` clause) must have different names"
              let flags := flags.set_type_rule (← get_type_rule e c)
              return some { name := name, params := params, flags := flags,
                            is_constructor := is_constructor, uses_of_lambda := uses_of_lambda }

/-- Translation of `GenTree::check_seq_end` and `check_statement_end`: the skipping
loop `while (cur != end && !stop(*cur)) next_cur()`, which makes at most
`end - cur` steps. -/
def skip_until (stop : TokenType → Bool) : Nat → GenTree → GenTree
  | 0, s => s
  | k + 1, s => if s.cur != s.end_ && !stop s.tok.type then skip_until stop k s.next else s

/-- Translation of `GenTree::check_seq_end`. -/
def check_seq_end : P Bool := do
  if !(← test_expect tok_clbrc) then
    let _ ← kphp_error false "Failed to parse sequence"
    modS fun s => skip_until (fun t => t == tok_clbrc) (s.end_ - s.cur) s
  expect tok_clbrc "'\x7d'"

/-- Translation of `GenTree::check_statement_end`. -/
def check_statement_end : P Bool := do
  if !(← test_expect tok_semicolon) then
    modS fun s => { s with stage_line := s.line_num }
    let _ ← kphp_error false "Failed to parse statement. Expected `;`"
    modS fun s => skip_until (fun t => t == tok_clbrc || t == tok_semicolon) (s.end_ - s.cur) s
  expect tok_semicolon "';'"

mutual
/-- Translation of `GenTree::add_this_to_captured_variables_in_lambda_body(root, lambda_class)`,
returning the rewritten tree; `members` are the members of `lambda_class`. -/
def add_this_to_captured_variables_in_lambda_body (members : ClassMembersContainer) :
    Vertex → Vertex
  | Vertex.mk info next type_rule =>
    if info.type == op_var then
      if (members.get_instance_field info.str_val).isSome then
        ((Vertex.create op_instance_prop [vertex_this (-1) none]).set_location
          info.location).set_string info.str_val
      else if info.str_val == "this" then
        ((Vertex.create op_instance_prop [Vertex.mk info next type_rule]).set_string
          "parent$this").set_location info.location
      else
        Vertex.mk info next type_rule
    else
      Vertex.mk info (add_this_to_captured_variables_in_children members next) type_rule
/-- The loop over the children in `add_this_to_captured_variables_in_lambda_body`. -/
def add_this_to_captured_variables_in_children (members : ClassMembersContainer) :
    List Vertex → List Vertex
  | [] => []
  | v :: vs =>
    add_this_to_captured_variables_in_lambda_body members v ::
      add_this_to_captured_variables_in_children members vs
end

/-- Translation of `GenTree::generate__invoke_method(cur_class, function)`. -/
def generate__invoke_method (cur_class : Nat) (function : Vertex) : P Vertex := do
  let s ← getS
  let new_name := ((Vertex.create op_func_name []).set_string "__invoke").set_location
    function.name.location
  let this_param ← patch_func_add_this function.location.line (some cur_class)
  let range := function.params.next
  let fid ← match function.info.func_id with
    | some f => pure f
    | none => abortP (Abort.null_deref "function->get_func_id()")
  let created_in := (s.get_function fid).function_in_which_lambda_was_created
  let skip_this := created_in.isSome || s.is_lambda fid
  if skip_this then kphp_assert (range.length > 0) "range.size() > 0"
  let declared := if skip_this then range.drop 1 else range
  -- every parameter (excluding $this) could be any class_instance
  let number (acc : List Vertex × Int) (param : Vertex) : List Vertex × Int :=
    if param.info.type_declaration == "" then
      (acc.1 ++ [param.set_info fun i => { i with template_type_id := acc.2 }], acc.2 + 1)
    else (acc.1 ++ [param], acc.2)
  let numbered := (declared.foldl number ([], 0)).1
  -- the parameter nodes are shared with `function`, whose parameter list sees the numbering
  let shared := function.set_next [function.name,
    function.params.set_next (range.take (range.length - declared.length) ++ numbered),
    function.cmd]
  mod_function fid fun d => { d with root := some shared }
  let params := (Vertex.create op_func_param_list (this_param :: numbered)).set_line
    function.params.location.line
  let new_cmd :=
    if created_in.isNone then
      add_this_to_captured_variables_in_lambda_body (s.get_class cur_class).members function.cmd
    else function.cmd
  return (Vertex.create op_function [new_name, params, new_cmd]).set_location function.location

/-- Translation of `GenTree::generate_constructor_call(cur_class)`. -/
def generate_constructor_call (cur_class : Nat) : P Vertex := do
  let s ← getS
  let k := s.get_class cur_class
  let args := k.members.instance_fields.map fun field =>
    let name := if field.1.get_string == "parent$this" then "this" else field.1.get_string
    ((Vertex.create op_var []).set_string name).set_location field.1.location
  return ((Vertex.create op_constructor_call args).set_string k.name).set_info fun i =>
    { i with func_id := k.new_function }

/-- Translation of `GenTree::generate_anonymous_class`. -/
def generate_anonymous_class (e : Env) (function : Vertex)
    (function_in_which_lambda_was_created : Option Nat) (uses_of_lambda : List Vertex) :
    P Vertex := do
  let s ← getS
  modS fun s => { s with name_counter := s.name_counter + 1 }
  let lambda_class_name := ((Vertex.create op_func_name []).set_string
    (e.gen_anonymous_function_name s.name_counter)).set_line function.name.location.line
  let class_vertex := Vertex.create op_class [lambda_class_name]
  let anon_class ← new_class
  mod_class anon_class fun k => { k with
    name := get_lambda_namespace ++ String.mk [backslash] ++ lambda_class_name.get_string,
    root := some class_vertex }
  let creator ← match function_in_which_lambda_was_created with
    | some f => pure f
    | none => abortP (Abort.null_deref "function_in_which_lambda_was_created")
  let uses_of_lambda :=
    if s.is_instance_function creator then
      let implicit_captured_var_parent_this := ((Vertex.create op_var []).set_string
        "parent$this").set_location lambda_class_name.location
      (Vertex.create op_func_param [implicit_captured_var_parent_this]).set_location
        lambda_class_name.location :: uses_of_lambda
    else uses_of_lambda
  mod_members anon_class fun m => (uses_of_lambda.filter fun u => u.type == op_func_param).foldl
    (fun m param_as_use => m.add_instance_field
      (((Vertex.create op_class_var []).set_string param_as_use.var.get_string).set_location
        param_as_use.location) AccessType.access_public) m
  -- register_invoke(generate__invoke_method(anon_class, function), function->get_func_id())
  let previous_lambda ← match function.info.func_id with
    | some f => pure f
    | none => abortP (Abort.null_deref "function->get_func_id()")
  let fun_ ← generate__invoke_method anon_class function
  let anon_name := ((← getS).get_class anon_class).name
  let fun_ := fun_.set_next ((fun_.name.set_string
    (replace_backslashes anon_name ++ "$$" ++ fun_.name.get_string)) :: fun_.next.drop 1)
  let invoke_function ← create_function fun_ func_type_t.func_local
  mod_function invoke_function fun d => { d with
    function_in_which_lambda_was_created := function_in_which_lambda_was_created }
  add_instance_method anon_class invoke_function AccessType.access_public
  register_and_require_function invoke_function true
  let inside := ((← getS).get_function previous_lambda).lambdas_inside
  mod_function invoke_function fun d => { d with
    is_template := !uses_of_lambda.isEmpty || fun_.params.next.length > 1,
    root := d.root.map fun r => r.set_info fun i => { i with inline_flag := true },
    lambdas_inside := inside }
  mod_function previous_lambda fun d => { d with lambdas_inside := [] }
  modS fun s => { s with functions := inside.foldl (fun fs l => modify_at fs l fun d =>
    { d with function_in_which_lambda_was_created := some invoke_function }) s.functions }
  -- the constructor taking the captured values
  let constructor_params := (Vertex.create op_func_param_list uses_of_lambda).set_location
    lambda_class_name.location
  create_constructor_with_args anon_class function.location.line constructor_params
  let new_fn ← match ((← getS).get_class anon_class).new_function with
    | some f => pure f
    | none => abortP (Abort.null_deref "anon_class->new_function")
  mod_function new_fn fun d => { d with
    is_template := !uses_of_lambda.isEmpty,
    function_in_which_lambda_was_created := function_in_which_lambda_was_created }
  register_class anon_class
  let init ← new_function
  mod_class anon_class fun k => { k with init_function := some init }
  let constructor_call ← generate_constructor_call anon_class
  return constructor_call.set_location lambda_class_name.location

/-- Test `GenTree::in_namespace`. -/
def GenTree.in_namespace (s : GenTree) : Bool := s.processing_file.namespace_name != ""

/-- The part of `GenTree::get_function` that runs while the new descriptor `f` is
the current function (the scope of `f_alive`). -/
def get_function_scope (c : Caps) (phpdoc_token : Option Token) (access_type : AccessType)
    (d : FunctionDeclaration) (f : Nat) (root : Vertex) : P (Option Vertex) := do
  mod_function f fun fd => { fd with phpdoc_token := phpdoc_token }
  let kphp_required_flag := match phpdoc_token with
    | some t => str_contains t.str_val "@kphp-required" || str_contains t.str_val "@kphp-lib-export"
    | none => false
  let s ← getS
  match s.cur_class with
  | some k =>
    if is_instance_access_type access_type then add_instance_method k f access_type
    else if is_static_access_type access_type then add_static_method k f access_type
  | none => pure ()
  let parsed : Option Vertex ←
    if (← test_expect tok_opbrc) then do
      modS fun s => { s with in_func_cnt_ := s.in_func_cnt_ + 1 }
      modS fun s => { s with is_top_of_the_function_ := s.in_func_cnt_ > 1 }
      let cmd ← c.get_statement none
      mod_function f fun fd => { fd with root := some (root.set_cmd (child_of cmd)) }
      modS fun s => { s with in_func_cnt_ := s.in_func_cnt_ - 1 }
      match cmd with
      | none =>
        let _ ← kphp_error false "Failed to parse function body"
        pure none
      | some cmd =>
        let root := root.set_cmd cmd
        if d.is_constructor then do
          pure (some (← patch_func_constructor root (← getS).cur_class (← auto_location)))
        else do
          pure (some (← func_force_return root none))
    else do
      if !(← expect tok_semicolon "';'") then pure none else pure (some root)
  match parsed with
  | none => return none
  | some root =>
    mod_function f fun fd => { fd with root := some root }
    let s ← getS
    let t := (s.get_function f).type
    let auto_require := t == func_type_t.func_global || t == func_type_t.func_extern_
      || s.is_instance_function f || kphp_required_flag
    register_and_require_function f auto_require
    if d.uses_of_lambda.isSome && !(← has_error) then
      return some root
    else
      return none

/-- Translation of `GenTree::get_function(phpdoc_token, access_type, uses_of_lambda)`;
besides the returned node, the captured variables collected for a lambda. -/
def get_function (e : Env) (c : Caps) (phpdoc_token : Option Token) (access_type : AccessType)
    (uses_of_lambda : Option (List Vertex)) : P (Option Vertex × Option (List Vertex)) := do
  let is_tok_ex_function := (← cur_type) == tok_ex_function
  let flags := Vertex.create op_none []
  match (← parse_function_declaration e c access_type uses_of_lambda flags) with
  | none => return (none, uses_of_lambda)
  | some d =>
    if is_tok_ex_function then
      if !(← expect tok_semicolon "';'") then
        return (none, d.uses_of_lambda)
      else
        let root := (Vertex.create op_extern_func [d.name, d.params]).copy_location_and_flags
          d.flags
        save_extern_func_header d.name.get_string root
        return (none, d.uses_of_lambda)
    else
      let s ← getS
      let func_type :=
        if s.tok.type == tok_semicolon then func_type_t.func_extern_
        else if s.in_func_cnt_ == 0 && !s.in_namespace then func_type_t.func_global
        else func_type_t.func_local
      let root :=
        if func_type == func_type_t.func_extern_ then Vertex.create op_func_decl [d.name, d.params]
        else Vertex.create op_function [d.name, d.params, null_vertex]
      let root := root.copy_location_and_flags d.flags
      let f ← create_function root func_type
      let root := root.set_info fun i => { i with func_id := some f }
      push_function f
      let res ← get_function_scope c phpdoc_token access_type d f root
      pop_function
      return (res, d.uses_of_lambda)

/-- Translation of `GenTree::get_anonymous_function`. -/
def get_anonymous_function (e : Env) (c : Caps) : P (Option Vertex) := do
  let (f, uses_of_lambda) ← get_function e c none AccessType.access_nonmember (some [])
  match f with
  | some anon_function =>
    if anon_function.type == op_function then
      -- this is a constructor call
      return some (← generate_anonymous_class e anon_function (← getS).cur_function
        (uses_of_lambda.getD []))
    else
      return none
  | none => return none

/-- Translation of `GenTree::generate_constant_field_class(root)`. -/
def generate_constant_field_class (cur_class : ClassData) (root : Vertex) : Vertex :=
  let name_of_const_field_class := (Vertex.create op_string []).set_string
    ("c#" ++ replace_backslashes cur_class.name ++ "$$class")
  let value_of_const_field_class := (Vertex.create op_string []).set_string cur_class.name
  (Vertex.create op_define [name_of_const_field_class, value_of_const_field_class]).set_location
    root.location

/-- Names a class may not take (`is_class_name_allowed`). -/
def is_class_name_allowed (name : String) : Bool :=
  !(["Exception", "RpcMemcache", "Memcache", "rpc_connection", "Long", "ULong", "UInt",
     "true_mc", "test_mc", "rich_mc", "db_decl"].contains name)

/-- The first step at the end of `GenTree::get_class`, once the class body has been
parsed: the hidden class-name constant is added to the class `cur_class`, and a
default constructor is synthesized when the class calls for one. -/
def get_class_synthesize (cur_class : Nat) (class_vertex : Vertex) : P Unit := do
  let constant_field_class := generate_constant_field_class ((← getS).get_class cur_class)
    class_vertex
  mod_members cur_class fun m => m.add_constant constant_field_class
  let s ← getS
  let members := (s.get_class cur_class).members
  if (members.has_any_instance_var || members.has_any_instance_method)
      && !s.has_constructor cur_class then
    create_default_constructor cur_class (← auto_location)

/-- The last step at the end of `GenTree::get_class`: the constants and the static
fields of `cur_class` become the body of its backing function `cur_function`,
which is closed by a return and registered. -/
def get_class_function_body (cur_class cur_function : Nat) : P Unit := do
  let members := ((← getS).get_class cur_class).members
  let seq := members.constants ++ members.static_fields.map fun f => f.1
  let root := ((← getS).get_function cur_function).root.getD default
  let root ← func_force_return (root.set_cmd (Vertex.create op_seq seq)) none
  mod_function cur_function fun fd => { fd with root := some root }
  register_and_require_function cur_function true

/-- The end of `GenTree::get_class`, from the synthesis of the hidden class-name
constant to the registration of the backing function. -/
def get_class_finish (cur_class cur_function : Nat) (class_vertex : Vertex) : P Unit := do
  get_class_synthesize cur_class class_vertex
  get_class_function_body cur_class cur_function

/-- The part of `GenTree::get_class` that runs while the new class and its backing
function are current (the scope of `f_alive` and `c_alive`). -/
def get_class_scope (e : Env) (c : Caps) (phpdoc_token : Option Token) (class_location : Int)
    (cur_class cur_function : Nat) : P (Option Vertex) := do
  mod_function cur_function fun fd => { fd with class_id := some cur_class }
  mod_class cur_class fun k => { k with init_function := some cur_function }
  let s ← getS
  let name_str := s.tok.str_val
  let full_class_name :=
    if s.processing_file.namespace_name == "" then name_str
    else s.processing_file.namespace_name ++ String.mk [backslash] ++ name_str
  if s.in_namespace then
    let expected_name := s.processing_file.short_file_name
    let _ ← kphp_error (name_str == expected_name)
      ("Expected class name " ++ expected_name ++ ", found " ++ name_str)
  if !is_class_name_allowed name_str then
    let _ ← kphp_error false ("Sorry, kPHP doesn't support class name " ++ name_str)
  next_cur
  let extends_ok ←
    if (← test_expect tok_extends) then do
      next_cur
      if (← kphp_error (← test_expect tok_func_name) "Class name expected after 'extends'") then
        pure false
      else do
        let s ← getS
        let full_extends_class_name := e.resolve_uses s.processing_file s.tok.str_val
        mod_class cur_class fun k =>
          { k with str_dependents := k.str_dependents ++ [full_extends_class_name] }
        next_cur
        pure true
    else pure true
  if !extends_ok then
    return none
  else
    let name_vertex := leaf op_func_name (← auto_location) name_str
    let class_vertex := (Vertex.create op_class [name_vertex]).set_line class_location
    mod_class cur_class fun k => { k with
      name := full_class_name, has_file_id := true, phpdoc_token := phpdoc_token,
      root := some class_vertex }
    match (← c.get_statement none) with
    | none =>
      let _ ← kphp_error false "Failed to parse class body"
      return none
    | some _ =>
      get_class_finish cur_class cur_function class_vertex
      return none

/-- Translation of `GenTree::get_class(phpdoc_token)`. -/
def get_class (e : Env) (c : Caps) (phpdoc_token : Option Token) : P (Option Vertex) := do
  let class_location ← auto_location
  if !(← expect tok_class "'class'") then
    return none
  else if (← kphp_error (← test_expect tok_func_name) "Class name expected") then
    return none
  else
    let func_name := (Vertex.create op_func_name []).set_string
      (← getS).processing_file.main_func_name
    let func_params := Vertex.create op_func_param_list []
    let func_body := Vertex.create op_seq []
    let func_root := Vertex.create op_function [func_name, func_params, func_body]
    let cur_function ← create_function func_root func_type_t.func_global
    push_function cur_function
    let cur_class ← new_class
    push_class cur_class
    let res ← get_class_scope e c phpdoc_token class_location cur_class cur_function
    pop_class
    pop_function
    return res

/-- One pass of the `while (true)` loop of `GenTree::get_use`. -/
def get_use_loop (c : Caps) : P Unit := do
  if !(← test_expect tok_func_name) then
    let _ ← expect tok_func_name "<namespace path>"
  let name := (← cur_tok).str_val
  kphp_assert (name != "") "!name.empty()"
  let name := if name.data.head? == some backslash then str_drop name 1 else name
  let alias_ := str_drop name (after_last name.data backslash)
  let _ ← kphp_error (alias_ != "") "KPHP doesn't support use of global namespace"
  next_cur
  let alias_ ←
    if (← test_expect tok_as) then do
      next_cur
      if !(← test_expect tok_func_name) then
        let _ ← expect tok_func_name "<use alias_>"
      let alias_ := (← cur_tok).str_val
      next_cur
      pure alias_
    else pure alias_
  modS fun s =>
    if (s.processing_file.namespace_uses.find? fun u => u.1 == alias_).isNone then
      { s with processing_file := { s.processing_file with
          namespace_uses := s.processing_file.namespace_uses ++ [(alias_, name)] } }
    else s
  if (← test_expect tok_comma) then
    next_cur
    c.get_use_loop
  else
    pure ()

/-- Translation of `GenTree::get_use`. -/
def get_use (c : Caps) : P (Option Vertex) := do
  kphp_assert (← test_expect tok_use) "test_expect(tok_use)"
  next_cur
  c.get_use_loop
  let _ ← expect2 tok_semicolon tok_comma "';' or ','"
  return none

/-- One test of the loop `while (test_expect(tok_use)) get_use()` of
`get_namespace_class`. -/
def get_namespace_use_loop (c : Caps) : P Unit := do
  if (← test_expect tok_use) then
    let _ ← get_use c
    c.get_namespace_use_loop
  else
    pure ()

/-- Translation of `GenTree::get_namespace_class`. -/
def get_namespace_class (e : Env) (c : Caps) : P (Option Vertex) := do
  kphp_assert (← test_expect tok_namespace) "test_expect(tok_namespace)"
  kphp_assert ((← getS).processing_file.namespace_name == "")
    "processing_file->namespace_name.empty()"
  next_cur
  let _ ← kphp_error (← test_expect tok_func_name) "Namespace name expected"
  let s ← getS
  let namespace_name := s.tok.str_val
  let real_unified_dir ← match s.processing_file.owner_lib with
    | some lib_unified_dir => do
      kphp_assert (starts_with s.processing_file.unified_dir_name lib_unified_dir)
        "lib processing file should be in lib dir"
      pure (str_drop s.processing_file.unified_dir_name (lib_unified_dir.length + 1))
    | none => pure s.processing_file.unified_dir_name
  let expected_namespace_name := replace_characters real_unified_dir '/' backslash
  let _ ← kphp_error (namespace_name == expected_namespace_name)
    ("Wrong namespace name, expected " ++ expected_namespace_name)
  modS fun s => { s with processing_file :=
    { s.processing_file with namespace_name := namespace_name } }
  next_cur
  let _ ← expect tok_semicolon "';'"
  if (← has_error) then
    modS fun s => { s with cur := s.end_ }
    return none
  else
    c.get_namespace_use_loop
    let t ← cur_tok
    let phpdoc_token ←
      if t.type == tok_phpdoc || t.type == tok_phpdoc_kphp then do
        next_cur
        pure (some t)
      else pure none
    let cv ← get_class e c phpdoc_token
    if !(← check_statement_end) then
      return none
    else
      return cv

/-- Translation of `convert_token_type_to_access_type`. -/
def convert_token_type_to_access_type (access_token : TokenType) (is_static : Bool) :
    AccessType :=
  if is_static then
    (if access_token == tok_public then AccessType.access_static_public
     else if access_token == tok_private then AccessType.access_static_private
     else AccessType.access_static_protected)
  else
    (if access_token == tok_public then AccessType.access_public
     else if access_token == tok_private then AccessType.access_private
     else AccessType.access_protected)

/-- The inner loop of `get_static_field_list` over the arguments of one `op_static`
node `e`. -/
def add_static_fields (cur_class : Option Nat) (e : Vertex) (access_type : AccessType) :
    List Vertex → P Unit
  | [] => pure ()
  | node :: rest => do
    let var : Option Vertex ←
      if node.type == op_var then pure (some node)
      else if node.type == op_set then do
        let lhs := node.next.headD default
        if (← kphp_error (lhs.type == op_var) "unexpected expression in 'static'") then pure none
        else pure (some lhs)
      else do
        let _ ← kphp_error false "unexpected expression in 'static'"
        pure none
    match var with
    | some var =>
      let k ← deref cur_class "cur_class"
      mod_members k fun m => m.add_static_field e var.get_string access_type
    | none => pure ()
    add_static_fields cur_class e access_type rest

/-- The outer loop of `get_static_field_list` over the `op_static` nodes. -/
def add_static_field_list (cur_class : Option Nat) (extra_type : OperationExtra)
    (access_type : AccessType) : List Vertex → P Unit
  | [] => pure ()
  | e :: rest => do
    kphp_assert (e.type == op_static) "e->type() == op_static"
    let e := e.set_info fun i => { i with extra_type := extra_type }
    add_static_fields cur_class e access_type e.next
    add_static_field_list cur_class extra_type access_type rest

/-- Translation of `GenTree::get_static_field_list(phpdoc_token, access_type)`. -/
def get_static_field_list (c : Caps) (access_type : AccessType) : P (Option Vertex) := do
  let v ← get_multi_call c op_static GetFunc.get_expression
  if !(← check_statement_end) then
    return none
  else
    let extra_type :=
      if access_type == AccessType.access_static_private then OperationExtra.op_ex_static_private
      else if access_type == AccessType.access_static_public then
        OperationExtra.op_ex_static_public
      else OperationExtra.op_ex_static_protected
    match v with
    | none => abortP (Abort.null_deref "*v")
    | some v =>
      add_static_field_list (← getS).cur_class extra_type access_type v.next
      return some (Vertex.create op_empty [])

/-- Translation of `GenTree::get_instance_var_list(phpdoc_token, access_type)`. -/
def get_instance_var_list (c : Caps) (phpdoc_token : Option Token) (access_type : AccessType) :
    P (Option Vertex) := do
  let s ← getS
  let _ ← kphp_error s.cur_class.isSome "var declaration is outside of class"
  let var_name := s.tok.str_val
  if !(← expect tok_var_name "expected variable name") then
    return none
  else
    let def_val ←
      if (← test_expect tok_eq1) then do
        next_cur
        c.get_expression
      else pure none
    let var := match def_val with
      | some d => Vertex.create op_class_var [d]
      | none => Vertex.create op_class_var []
    let var := ((var.set_string var_name).set_info fun i =>
      { i with phpdoc_token := phpdoc_token }).set_line (← auto_location)
    let k ← deref (← getS).cur_class "cur_class"
    mod_members k fun m => m.add_instance_field var access_type
    if (← test_expect tok_comma) then
      next_cur
      let _ ← c.get_instance_var_list phpdoc_token access_type
    return none

/-- One test of the loop of `GenTree::get_seq`. -/
def get_seq_loop (c : Caps) (seq_next : List Vertex) : P (List Vertex) := do
  if !(← at_end) && !(← test_expect tok_clbrc) then
    match (← c.get_statement none) with
    | none => c.get_seq_loop seq_next
    | some cur_node => c.get_seq_loop (seq_next ++ [cur_node])
  else
    return seq_next

/-- Translation of `GenTree::get_seq`. -/
def get_seq (c : Caps) : P Vertex := do
  let seq_location ← auto_location
  let seq_next ← c.get_seq_loop []
  return (Vertex.create op_seq seq_next).set_line seq_location

/-- The `tok_static` case of `get_statement`. -/
def get_statement_static (e : Env) (c : Caps) (phpdoc_token : Option Token) :
    P (Option Vertex) := do
  let s ← getS
  let plain : P (Option Vertex) := do
    -- static variables inside functions
    let res ← get_multi_call c op_static GetFunc.get_expression
    if !(← check_statement_end) then return none else return res
  if s.cur != s.end_ && s.cur + 1 != s.end_ then
    let next_tok := (s.tok_at 1).type
    if next_tok ∈ [tok_public, tok_private, tok_protected] then
      if (← kphp_error s.cur_class.isSome "Access modifier used outside of class") then
        return none
      else
        let access_type := convert_token_type_to_access_type next_tok true
        next_cur
        let s ← getS
        let next_tok := if s.cur + 1 == s.end_ then tok_end else (s.tok_at 1).type
        if next_tok == tok_function then
          next_cur
          return (← get_function e c phpdoc_token access_type none).1
        else if next_tok == tok_var_name then
          get_static_field_list c access_type
        else
          let _ ← kphp_error false "Expected `function` or variable name after access modifier"
          return none
    else if next_tok ∉ [tok_function, tok_var_name] then
      next_cur
      let _ ← kphp_error false "Expected `function` or variable name after keyword `static`"
      return none
    else
      plain
  else
    plain

/-- The `tok_public` / `tok_private` / `tok_protected` case of `get_statement`. -/
def get_statement_access (e : Env) (c : Caps) (phpdoc_token : Option Token)
    (type : TokenType) : P (Option Vertex) := do
  if (← kphp_error (← getS).cur_class.isSome "Access modifier used outside of class") then
    return none
  else
    next_cur
    let s ← getS
    let cur_tok := if s.cur == s.end_ then tok_end else s.tok.type
    let next_tok :=
      if s.cur == s.end_ || s.cur + 1 == s.end_ then tok_end else (s.tok_at 1).type
    let access_type := convert_token_type_to_access_type type (cur_tok == tok_static)
    if cur_tok == tok_function then
      return (← get_function e c phpdoc_token access_type none).1
    else if next_tok == tok_function then
      let _ ← expect tok_static "'static'"
      return (← get_function e c phpdoc_token access_type none).1
    else if cur_tok == tok_var_name then
      c.get_instance_var_list phpdoc_token access_type
    else
      get_static_field_list c access_type

/-- The `tok_try` case of `get_statement`. -/
def get_statement_try (c : Caps) : P (Option Vertex) := do
  let try_location ← auto_location
  next_cur
  match (← c.get_statement none) with
  | none =>
    let _ ← kphp_error false "Cannot parse try block"
    return none
  | some first_node =>
    if !(← expect tok_catch "'catch'") then return none
    else if !(← expect tok_oppar "'('") then return none
    else if !(← expect tok_Exception "'Exception'") then return none
    else
      match (← c.get_expression) with
      | none =>
        let _ ← kphp_error false "Cannot parse catch ( ??? )"
        return none
      | some second_node =>
        if (← kphp_error (second_node.type == op_var) "Expected variable name in 'catch'") then
          return none
        else
          let second_node := second_node.set_info fun i => { i with type_help := tp_Exception }
          if !(← expect tok_clpar "')'") then
            return none
          else
            match (← c.get_statement none) with
            | none =>
              let _ ← kphp_error false "Cannot parse catch block"
              return none
            | some third_node =>
              return some ((Vertex.create op_try
                [embrace first_node, second_node, embrace third_node]).set_line try_location)

/-- The `tok_const` case of `get_statement`. -/
def get_statement_const (c : Caps) : P (Option Vertex) := do
  let const_location ← auto_location
  next_cur
  let s ← getS
  let has_access_modifier := s.cur > 1 &&
    (s.tokens.getD (s.cur - 2) default).type ∈ [tok_public, tok_private, tok_protected]
  let const_in_global_scope := s.in_func_cnt_ == 1 && s.cur_class.isNone
    && s.processing_file.namespace_name == ""
  let const_in_class := s.in_func_cnt_ == 0 && s.cur_class.isSome
  if (← kphp_error (const_in_global_scope || const_in_class)
      "const expressions supported only inside classes and namespaces or in global scope") then
    return none
  else if (← kphp_error (← test_expect tok_func_name) "expected constant name") then
    return none
  else if (← kphp_error (!has_access_modifier)
      "unexpected const after private/protected/public keyword") then
    return none
  else
    let const_name := s.tok.str_val
    let name_str := match s.cur_class with
      | some k => if const_in_class then
          "c#" ++ replace_backslashes (s.get_class k).name ++ "$$" ++ const_name
        else const_name
      | none => const_name
    let name := (Vertex.create op_string []).set_string name_str
    next_cur
    if !(← expect tok_eq1 "'='") then
      return none
    else
      let v ← c.get_expression
      let def_ := (Vertex.create op_define [name, child_of v]).set_line const_location
      if !(← check_statement_end) then
        return none
      else
        match s.cur_class with
        | some k =>
          if const_in_class then
            mod_members k fun m => m.add_constant def_
            return some (Vertex.create op_empty [])
          else return some def_
        | none => return some def_

/-- The `default` case of `get_statement`: an expression statement. -/
def get_statement_default (e : Env) (c : Caps) (phpdoc_token : Option Token) :
    P (Option Vertex) := do
  match (← c.get_expression) with
  | none =>
    if (← cur_type) == tok_semicolon then
      let empty := (Vertex.create op_empty []).set_line (← auto_location)
      if !(← check_statement_end) then return none else return some empty
    else if phpdoc_token.isSome then
      return none
    else
      let _ ← check_statement_end
      return none
  | some res =>
    let type_rule ← get_type_rule e c
    let res := res.set_type_rule type_rule
    let res := if res.type == op_set then
      res.set_info fun i => { i with phpdoc_token := phpdoc_token } else res
    if !(← check_statement_end) then return none else return some res

/-- Translation of `GenTree::get_statement(phpdoc_token)`. -/
def get_statement (e : Env) (c : Caps) (phpdoc_token : Option Token) : P (Option Vertex) := do
  let t ← cur_tok
  let type := t.type
  modS fun s => { s with is_top_of_the_function_ :=
    s.is_top_of_the_function_ && (type == tok_global || type == tok_opbrc) }
  let ended (res : Option Vertex) : P (Option Vertex) := do
    if !(← check_statement_end) then return none else return res
  match type with
  | tok_class =>
    let _ ← get_class e c phpdoc_token
    return none
  | tok_opbrc =>
    next_cur
    let res ← get_seq c
    if !(← check_seq_end) then return none else return some res
  | tok_return => get_return c
  | tok_continue => get_break_continue c op_continue
  | tok_break => get_break_continue c op_break
  | tok_unset => do ended (← get_func_call c op_unset op_err)
  | tok_var_dump => do ended (← get_func_call c op_var_dump op_err)
  | tok_define => do ended (← get_func_call c op_define op_err)
  | tok_global =>
    let s ← getS
    if s.warnings_level >= 2 && s.in_func_cnt_ > 1 && !s.is_top_of_the_function_ then
      kphp_warning "`global` keyword is allowed only at the top of the function"
    ended (← get_multi_call c op_global GetFunc.get_var_name)
  | tok_static => get_statement_static e c phpdoc_token
  | tok_echo => do ended (← get_multi_call c op_echo GetFunc.get_expression)
  | tok_dbg_echo => do ended (← get_multi_call c op_dbg_echo GetFunc.get_expression)
  | tok_throw =>
    let throw_location ← auto_location
    next_cur
    match (← c.get_expression) with
    | none =>
      let _ ← kphp_error false "Empty expression in throw"
      return none
    | some first_node =>
      ended (some ((Vertex.create op_throw [first_node]).set_line throw_location))
  | tok_while => get_while c
  | tok_if => get_if c
  | tok_for => get_for c
  | tok_do => get_do c
  | tok_foreach => get_foreach c
  | tok_switch => get_switch c
  | tok_protected => get_statement_access e c phpdoc_token type
  | tok_public => get_statement_access e c phpdoc_token type
  | tok_private => get_statement_access e c phpdoc_token type
  | tok_phpdoc_kphp =>
    next_cur
    c.get_statement (some t)
  | tok_phpdoc =>
    next_cur
    c.get_statement (some t)
  | tok_ex_function => return (← get_function e c phpdoc_token AccessType.access_nonmember none).1
  | tok_function => return (← get_function e c phpdoc_token AccessType.access_nonmember none).1
  | tok_try => get_statement_try c
  | tok_inline_html =>
    let line ← auto_location
    let html_code := leaf op_string line t.str_val
    let echo_cmd := (Vertex.create op_echo [html_code]).set_line line
    next_cur
    return some echo_cmd
  | tok_at =>
    let noerr_location ← auto_location
    next_cur
    match (← c.get_statement none) with
    | none => return none
    | some first_node => return some ((Vertex.create op_noerr [first_node]).set_line noerr_location)
  | tok_clbrc => return none
  | tok_const => get_statement_const c
  | tok_use =>
    let s ← getS
    if (← kphp_error (s.cur_class.isNone && s.in_func_cnt_ == 1)
        "'use' can be declared only in global scope") then
      return none
    else
      let _ ← get_use c
      return some (Vertex.create op_empty [])
  | tok_var =>
    next_cur
    let _ ← c.get_instance_var_list phpdoc_token AccessType.access_public
    ended (some (Vertex.create op_empty []))
  | _ => get_statement_default e c phpdoc_token

/-- Translation of `GenTree::run`. -/
def run (e : Env) (c : Caps) : P (Option Vertex) := do
  let res ←
    if (← test_expect tok_namespace) then get_namespace_class e c
    else c.get_statement none
  kphp_assert res.isNone "!res"
  if !(← at_end) then
    let _ ← kphp_error false "Cannot compile (probably problems with brace balance)"
  return res

/-- Translation of the constructor `GenTree::GenTree(tokens, file, os)`, over the
state `g` of the compiler core and the stage. -/
def GenTree.init (tokens : List Token) (file : SrcFile) (g : GenTree) : Res Unit :=
  if tokens.isEmpty then
    Res.abort (Abort.assert_failed "cur != end")
  else if (tokens.getLastD default).type != tok_end then
    Res.abort (Abort.assert_failed "(*end)->type() == tok_end")
  else
    let line := (tokens.headD default).line_num
    Res.ok () { g with
      line_num := line, tokens := tokens, in_func_cnt_ := 0, is_top_of_the_function_ := false,
      cur := 0, end_ := tokens.length - 1, processing_file := file,
      cur_function := none, cur_class := none, functions_stack := [], class_stack := [],
      stage_line := line }

/-- The parser with no fuel left: every entry point gives up. -/
def no_fuel : Caps where
  gen_list_loop := fun _ _ _ _ _ => abortP Abort.out_of_fuel
  get_string_build_loop := fun _ _ => abortP Abort.out_of_fuel
  get_postfix_expression := fun _ => abortP Abort.out_of_fuel
  get_expr_top := abortP Abort.out_of_fuel
  get_binary_op := fun _ _ => abortP Abort.out_of_fuel
  get_binary_op_loop := fun _ _ _ => abortP Abort.out_of_fuel
  get_expression := abortP Abort.out_of_fuel
  get_func_param := abortP Abort.out_of_fuel
  get_func_param_from_callback := abortP Abort.out_of_fuel
  get_type_rule_ := abortP Abort.out_of_fuel
  get_type_rule_lt_loop := fun _ _ => abortP Abort.out_of_fuel
  get_type_rule_index_loop := fun _ => abortP Abort.out_of_fuel
  get_switch_loop := fun _ => abortP Abort.out_of_fuel
  get_switch_seq_loop := fun _ => abortP Abort.out_of_fuel
  parse_function_specifiers := fun _ => abortP Abort.out_of_fuel
  get_use_loop := abortP Abort.out_of_fuel
  get_namespace_use_loop := abortP Abort.out_of_fuel
  get_anonymous_function := abortP Abort.out_of_fuel
  get_statement := fun _ => abortP Abort.out_of_fuel
  get_instance_var_list := fun _ _ => abortP Abort.out_of_fuel
  get_seq_loop := fun _ => abortP Abort.out_of_fuel

/-- The parser with `fuel` units of fuel: each entry point runs its translated
body over the parser with one unit less. -/
def parser (e : Env) : Nat → Caps
  | 0 => no_fuel
  | fuel + 1 =>
    let c := parser e fuel
    { gen_list_loop := gen_list_loop c
      get_string_build_loop := get_string_build_loop c
      get_postfix_expression := get_postfix_expression c
      get_expr_top := get_expr_top c
      get_binary_op := get_binary_op e c
      get_binary_op_loop := get_binary_op_loop e c
      get_expression := get_expression e c
      get_func_param := get_func_param e c
      get_func_param_from_callback := get_func_param_from_callback e c
      get_type_rule_ := get_type_rule_ e c
      get_type_rule_lt_loop := get_type_rule_lt_loop c
      get_type_rule_index_loop := get_type_rule_index_loop c
      get_switch_loop := get_switch_loop c
      get_switch_seq_loop := get_switch_seq_loop c
      parse_function_specifiers := parse_function_specifiers c
      get_use_loop := get_use_loop c
      get_namespace_use_loop := get_namespace_use_loop c
      get_anonymous_function := get_anonymous_function e c
      get_statement := get_statement e c
      get_instance_var_list := get_instance_var_list c
      get_seq_loop := get_seq_loop c }

/-- Translation of `php_gen_tree(tokens, file, os)`, run with `fuel` units of fuel
from the compiler state `g`. -/
def php_gen_tree (e : Env) (fuel : Nat) (tokens : List Token) (file : SrcFile) (g : GenTree) :
    Res (Option Vertex) :=
  (GenTree.init tokens file g).bind fun _ s => run e (parser e fuel) s

/-! ## A concrete operator table

The operator table itself is not part of `gentree.cpp`.  To run the parser on
concrete input the table below follows PHP's operator precedence, lowest band
first, with the ternary operator alone in its band. -/

/-- Binary operator of a token in the sample table. -/
def sample_binary_op : TokenType → Operation
  | tok_log_or_let => op_log_or_let
  | tok_log_xor_let => op_log_xor_let
  | tok_log_and_let => op_log_and_let
  | tok_eq1 => op_set
  | tok_set_add => op_set_add
  | tok_set_sub => op_set_sub
  | tok_set_mul => op_set_mul
  | tok_set_div => op_set_div
  | tok_set_mod => op_set_mod
  | tok_set_dot => op_set_dot
  | tok_set_and => op_set_and
  | tok_set_or => op_set_or
  | tok_set_xor => op_set_xor
  | tok_set_shl => op_set_shl
  | tok_set_shr => op_set_shr
  | tok_question => op_ternary
  | tok_log_or => op_log_or
  | tok_log_and => op_log_and
  | tok_or => op_or
  | tok_xor => op_xor
  | tok_and => op_and
  | tok_eq2 => op_eq2
  | tok_neq2 => op_neq2
  | tok_eq3 => op_eq3
  | tok_neq3 => op_neq3
  | tok_lt => op_lt
  | tok_gt => op_gt
  | tok_le => op_le
  | tok_ge => op_ge
  | tok_shl => op_shl
  | tok_shr => op_shr
  | tok_plus => op_add
  | tok_minus => op_sub
  | tok_dot => op_concat
  | tok_times => op_mul
  | tok_divide => op_div
  | tok_mod => op_mod
  | _ => op_err

/-- Unary operator of a token in the sample table. -/
def sample_unary_op : TokenType → Operation
  | tok_log_not => op_log_not
  | tok_not => op_not
  | tok_minus => op_minus
  | tok_plus => op_plus
  | tok_inc => op_prefix_inc
  | tok_dec => op_prefix_dec
  | tok_at => op_noerr
  | _ => op_err

/-- Priority band of an operator in the sample table. -/
def sample_priority : Operation → Nat
  | op_log_or_let => 0
  | op_log_xor_let => 1
  | op_log_and_let => 2
  | op_set => 3 | op_set_add => 3 | op_set_sub => 3 | op_set_mul => 3 | op_set_div => 3
  | op_set_mod => 3 | op_set_dot => 3 | op_set_and => 3 | op_set_or => 3 | op_set_xor => 3
  | op_set_shl => 3 | op_set_shr => 3
  | op_ternary => 4
  | op_log_or => 5
  | op_log_and => 6
  | op_or => 7
  | op_xor => 8
  | op_and => 9
  | op_eq2 => 10 | op_neq2 => 10 | op_eq3 => 10 | op_neq3 => 10
  | op_lt => 11 | op_gt => 11 | op_le => 11 | op_ge => 11
  | op_shl => 12 | op_shr => 12
  | op_add => 13 | op_sub => 13 | op_concat => 13
  | op_mul => 14 | op_div => 14 | op_mod => 14
  | _ => 15

/-- Associativity of an operator in the sample table. -/
def sample_fixity (op : Operation) : Fixity :=
  if sample_priority op == 3 || op == op_ternary then Fixity.right_opp
  else if sample_priority op == 15 then Fixity.no_opp
  else Fixity.left_opp

/-- The sample operator table. -/
def sample_info : OpInfo where
  op_priority_begin := 0
  op_priority_end := 16
  ternaryP := 4
  tok_to_unary_op := sample_unary_op
  tok_to_binary_op := sample_binary_op
  tok_to_op := fun t =>
    match t with
    | tok_triple_colon => op_common_type_rule
    | tok_triple_gt => op_gt_type_rule
    | tok_triple_lt => op_lt_type_rule
    | tok_triple_eq => op_eq_type_rule
    | _ => op_err
  priority := sample_priority
  fixity := sample_fixity
  str := fun _ => "op"

/-- The sample collaborators: the sample table, counter-based name generators, and
class names resolved to themselves. -/
def sample_env : Env where
  info := sample_info
  gen_shorthand_ternary_name := fun n => "shorthand_ternary_cond$" ++ toString n
  gen_anonymous_function_name := fun n => "anon$" ++ toString n
  resolve_uses := fun _ name => name
  get_ptype_by_name := fun _ => tp_Error

/-! ## Specification vocabulary

What the claims about the parser are stated with: token streams under the cursor,
the trees the spec describes, sample inputs, and the invariants. -/

/-- The tokens from the cursor on are `ts`, the last of them being the end sentinel. -/
def At (s : GenTree) (ts : List Token) : Prop :=
  s.tokens.drop s.cur = ts ∧ s.end_ + 1 = s.tokens.length ∧ ts ≠ []

/-- Tokens that start a postfix operation in `get_postfix_expression`. -/
def is_postfix_start (t : TokenType) : Bool :=
  t ∈ [tok_inc, tok_dec, tok_opbrk, tok_opbrc, tok_arrow, tok_oppar]

/-- Kind of the leaf a primary operand token is parsed to. -/
def primary_op : TokenType → Option Operation
  | tok_int_const => some op_int_const
  | tok_float_const => some op_float_const
  | tok_str => some op_string
  | tok_var_name => some op_var
  | tok_null => some op_null
  | tok_false => some op_false
  | tok_true => some op_true
  | _ => none

/-- The leaf a primary operand token is parsed to on line `line`. -/
def primary (t : Token) (line : Int) : Vertex :=
  match t.type with
  | tok_int_const => leaf op_int_const line t.str_val
  | tok_float_const => leaf op_float_const line t.str_val
  | tok_str => leaf op_string line t.str_val
  | tok_var_name => leaf op_var line t.str_val
  | tok_null => (Vertex.create op_null []).set_line line
  | tok_false => (Vertex.create op_false []).set_line line
  | tok_true => (Vertex.create op_true []).set_line line
  | _ => null_vertex

/-- The cursor is on no unary operator that band `p` would parse. -/
def NoUnary (e : Env) (p : Nat) (s : GenTree) : Prop :=
  s.cur = s.end_ ∨ e.info.tok_to_unary_op s.tok.type = op_err
    ∨ p < e.info.priority (e.info.tok_to_unary_op s.tok.type)

/-- The cursor is on no binary operator of band `p`. -/
def NoBinary (e : Env) (p : Nat) (s : GenTree) : Prop :=
  s.cur = s.end_ ∨ e.info.tok_to_binary_op s.tok.type = op_err
    ∨ e.info.priority (e.info.tok_to_binary_op s.tok.type) ≠ p

/-- Logical operators, as the spec names them. -/
def is_logical_op (op : Operation) : Bool :=
  op ∈ [op_log_or, op_log_and, op_log_or_let, op_log_and_let, op_log_xor_let]

/-- Bitwise assignment operators, as the spec names them. -/
def is_bit_assign_op (op : Operation) : Bool :=
  op ∈ [op_set_or, op_set_and, op_set_xor, op_set_shl, op_set_shr]

/-- Bitwise logical operators, as the spec names them. -/
def is_bit_logical_op (op : Operation) : Bool := op ∈ [op_or, op_and, op_xor]

/-- Left child of a binary node, following the spec: logical operators coerce to
boolean, bitwise logical operators to integer, all others leave `l` as it is. -/
def coerced_left (op : Operation) (l : Vertex) : Vertex :=
  if is_logical_op op then conv_to tp_bool l
  else if is_bit_logical_op op then conv_to tp_int l
  else l

/-- Right child of a binary node, following the spec: logical operators coerce to
boolean, bitwise assignments and bitwise logical operators to integer, all
others leave `r` as it is. -/
def coerced_right (op : Operation) (r : Vertex) : Vertex :=
  if is_logical_op op then conv_to tp_bool r
  else if is_bit_assign_op op || is_bit_logical_op op then conv_to tp_int r
  else r

/-- The node of a binary operator over parsed operands `l` and `r`, following the spec. -/
def binary_node (op : Operation) (line : Int) (l r : Vertex) : Vertex :=
  (Vertex.create op [coerced_left op l, coerced_right op r]).set_line line

/-- With enough fuel the run `f` gives `r`. -/
def Ev {α : Type} (f : Nat → Res α) (r : Res α) : Prop := ∃ N, ∀ n, N ≤ n → f n = r

/-- Token `o` is a binary operator `op` of band `p` and associativity `f` in the
table of `e`, outside the ternary band, and cannot be taken for a postfix. -/
structure BinaryAt (e : Env) (o : Token) (op : Operation) (p : Nat) (f : Fixity) : Prop where
  op_eq : e.info.tok_to_binary_op o.type = op
  ne_err : op ≠ op_err
  prio : e.info.priority op = p
  fix : e.info.fixity op = f
  ge_begin : e.info.op_priority_begin ≤ p
  lt_end : p < e.info.op_priority_end
  not_ternary : p ≠ e.info.ternaryP
  not_postfix : is_postfix_start o.type = false

/-- Token `x` is a primary operand: a literal or a variable, and no unary operator. -/
structure Operand (e : Env) (x : Token) : Prop where
  primary : (primary_op x.type).isSome
  no_unary : e.info.tok_to_unary_op x.type = op_err

/-- The tokens of a chain: each pair is an operator token followed by an operand token. -/
def chain_tokens : List (Token × Token) → List Token
  | [] => []
  | (o, a) :: ps => o :: a :: chain_tokens ps

/-- The left-nested tree of a chain of the operator `op`: `left` is the tree parsed so
far and `s` the state whose cursor is on the next operator token. -/
def left_chain (op : Operation) : List (Token × Token) → Vertex → GenTree → Vertex
  | [], left, _ => left
  | (_, a) :: ps, left, s =>
    left_chain op ps (binary_node op s.line_num left (primary a s.next.line_num)) s.next.next

/-- The right-nested tree of a chain of the operator `op` that starts with the operand
`a`, the cursor of `s` being on `a`. -/
def right_chain (op : Operation) : Token → List (Token × Token) → GenTree → Vertex
  | a, [], s => primary a s.line_num
  | a, (_, a') :: ps, s =>
    binary_node op s.next.line_num (primary a s.line_num) (right_chain op a' ps s.next.next)

/-- State after a recoverable diagnostic. -/
def GenTree.report (s : GenTree) (msg : String) : GenTree :=
  { s with errors := s.errors ++ [{ line := s.stage_line, msg := msg }] }

/-- The hidden variable node of the shorthand ternary: named `t`, flagged superlocal. -/
def hidden_var (t : String) : Vertex :=
  ((Vertex.create op_var []).set_string t).set_info fun i =>
    { i with extra_type := OperationExtra.op_ex_var_superlocal }

/-- The subtree of `v` at a position, given as the list of child indices leading to it. -/
def subtree_at : Vertex → List Nat → Option Vertex
  | v, [] => some v
  | v, i :: p =>
    match v.next.get? i with
    | some c => subtree_at c p
    | none => none

/-- The assignments `patch_func_constructor` puts between `$this` and the body: one
per field with a default, the latest field first. -/
def field_initializers (line : Int) (fields : List (Vertex × AccessType)) : List Vertex :=
  ((fields.filter fun f => f.1.has_def_val).map fun f => field_initializer line f.1).reverse

/-- State after `add_instance_method(k, f, a)` from `s`. -/
def GenTree.with_method (s : GenTree) (k f : Nat) (a : AccessType) : GenTree :=
  let s1 : GenTree := { s with classes := modify_at s.classes k fun c => { c with members :=
    { c.members with instance_methods := c.members.instance_methods ++ [(f, a)] } } }
  let s2 : GenTree := { s1 with functions := modify_at s1.functions f fun d =>
    { d with access_type := a, class_id := some k } }
  if get_local_name (s.get_function f).name == "__construct" then
    { s2 with classes := modify_at s2.classes k fun c => { c with new_function := some f } }
  else s2

/-- State after `register_and_require_function(f, true)` from `s`. -/
def GenTree.with_required (s : GenTree) (f : Nat) : GenTree :=
  { s with registered_functions := s.registered_functions ++ [f], parsed_os := s.parsed_os ++ [f] }

/-- The body `patch_func_constructor` gives a constructor of class `k` whose parsed
body is `body`. -/
def constructor_body (s : GenTree) (k : Nat) (line : Int) (body : List Vertex) : List Vertex :=
  vertex_this line (some k) ::
    (field_initializers line (s.get_class k).members.instance_fields ++ body) ++
    [(Vertex.create op_return [vertex_this line none]).set_line line]

/-- The function node of the constructor synthesized for class `k` with parameter list
`params`, before it is linked to its descriptor. -/
def constructor_node (s : GenTree) (k : Nat) (line : Int) (params : Vertex) : Vertex :=
  Vertex.mk { type := op_function, inline_flag := true, location := { line := line } }
    [(Vertex.create op_func_name []).set_string
        (replace_backslashes (s.get_class k).name ++ "$$" ++ "__construct"),
      params,
      Vertex.create op_seq (constructor_body s k line (params.next.map fun param =>
        Vertex.create op_set
          [((Vertex.create op_instance_prop [vertex_this line none]).set_line
            line).set_string param.var.get_string, param.var]))] none

/-- State after `create_function(root, type)` from `s`. -/
def GenTree.with_function (s : GenTree) (root : Vertex) (type : func_type_t) : GenTree :=
  { s with functions := s.functions ++
    [{ name := root.name.get_string,
       root := some (root.set_info fun i => { i with func_id := some s.functions.length }),
       type := type }] }

/-- State after `create_constructor_with_args(k, line, params)` from `s`. -/
def GenTree.with_constructor (s : GenTree) (k : Nat) (line : Int) (params : Vertex) : GenTree :=
  (((s.with_function (constructor_node s k line params) func_type_t.func_local).with_method k
    s.functions.length AccessType.access_public).with_required s.functions.length)

/-- Whether `get_class` synthesizes a default constructor for class `k`. -/
def GenTree.needs_default_constructor (s : GenTree) (k : Nat) : Bool :=
  ((s.get_class k).members.has_any_instance_var || (s.get_class k).members.has_any_instance_method)
    && !s.has_constructor k

/-- State after `add_constant` of the hidden class-name constant of class `k`. -/
def GenTree.with_class_constant (s : GenTree) (k : Nat) (class_vertex : Vertex) : GenTree :=
  let v := generate_constant_field_class (s.get_class k) class_vertex
  { s with classes := modify_at s.classes k fun c => { c with members := c.members.add_constant v } }

/-- A token of kind `t` with text `str`. -/
def sample_token (t : TokenType) (str : String) : Token := { type := t, str_val := str }

/-- A parser state on line 1 whose cursor is on the first of `toks`. -/
def sample_state (toks : List Token) : GenTree :=
  { tokens := toks, cur := 0, end_ := toks.length - 1, line_num := 1, stage_line := 1 }

/-- The tokens of `1 + 2 * 3`. -/
def tokens_add_mul : List Token :=
  [sample_token tok_int_const "1", sample_token tok_plus "", sample_token tok_int_const "2",
   sample_token tok_times "", sample_token tok_int_const "3", sample_token tok_end ""]

/-- The tokens of `1 | 2 + 3`. -/
def tokens_or_add : List Token :=
  [sample_token tok_int_const "1", sample_token tok_or "", sample_token tok_int_const "2",
   sample_token tok_plus "", sample_token tok_int_const "3", sample_token tok_end ""]

/-- The tokens of `$a o $b o $c` for an operator token of kind `o`. -/
def tokens_chain (o : TokenType) : List Token :=
  [sample_token tok_var_name "a", sample_token o "", sample_token tok_var_name "b",
   sample_token o "", sample_token tok_var_name "c", sample_token tok_end ""]

/-- A node of kind `op` on line 1 with the given children. -/
def node1 (op : Operation) (children : List Vertex) : Vertex :=
  (Vertex.create op children).set_line 1

/-- The operator and operand pairs of `$a o $b o $c` after the first operand. -/
def pairs_chain (o : TokenType) : List (Token × Token) :=
  [(sample_token o "", sample_token tok_var_name "b"),
   (sample_token o "", sample_token tok_var_name "c")]

/-- The tokens of `if (true) ;`. -/
def tokens_if : List Token :=
  [sample_token tok_if "", sample_token tok_oppar "", sample_token tok_true "",
   sample_token tok_clpar "", sample_token tok_semicolon "", sample_token tok_end ""]

/-- The tokens of `while (true) ;`. -/
def tokens_while : List Token :=
  [sample_token tok_while "", sample_token tok_oppar "", sample_token tok_true "",
   sample_token tok_clpar "", sample_token tok_semicolon "", sample_token tok_end ""]

/-- The tokens of `do ; while (true) ;`. -/
def tokens_do : List Token :=
  [sample_token tok_do "", sample_token tok_semicolon "", sample_token tok_while "",
   sample_token tok_oppar "", sample_token tok_true "", sample_token tok_clpar "",
   sample_token tok_semicolon "", sample_token tok_end ""]

/-- The tokens of `|| $b`, the cursor on the operator. -/
def tokens_log_or_tail : List Token :=
  [sample_token tok_log_or "", sample_token tok_var_name "b", sample_token tok_end ""]

/-- The children of a coerced logical node: exactly two, both boolean-coercion nodes. -/
def coerced_pair : List Vertex → Bool
  | [l, r] => l.type == op_conv_bool && r.type == op_conv_bool
  | _ => false

/-- The children of a node of the conjunction built for `isset(a, b, …)`: on the right
an `op_isset` node, on the left an `op_isset` node or the conjunction built so far. -/
def isset_pair : List Vertex → Bool
  | [l, r] => (l.type == op_isset || l.type == op_log_and) && r.type == op_isset
  | _ => false

/-- What is required of a node of kind `op` with children `next`: nothing unless `op`
is a logical operator; a logical node has coerced children, or it is an `op_log_and`
of an `isset` conjunction. -/
def logical_rule (op : Operation) (next : List Vertex) : Bool :=
  !is_logical_op op || coerced_pair next || (op == op_log_and && isset_pair next)

mutual
/-- Every logical-operator node of the tree (reached through children) obeys
`logical_rule`. -/
def Vertex.logical_ok : Vertex → Bool
  | Vertex.mk info next _ => logical_rule info.type next && logical_ok_list next
/-- All trees of the list obey `Vertex.logical_ok`. -/
def logical_ok_list : List Vertex → Bool
  | [] => true
  | v :: vs => v.logical_ok && logical_ok_list vs
end

/-- The invariant on a possibly null result. -/
def logical_ok_opt : Option Vertex → Bool
  | some v => v.logical_ok
  | none => true

/-- Postcondition of a parser function: every successful run returns a value in `Q`. -/
structure Post {α : Type} (m : P α) (Q : α → Prop) : Prop where
  run : ∀ s a s', m s = Res.ok a s' → Q a

/-- The invariant of the recursive entry points that produce expression trees. -/
structure CapsOk (c : Caps) : Prop where
  gen_list_loop : ∀ (E : Operation) (delim : TokenType) (prev : Bool) (res : List Vertex),
    is_logical_op E = false → logical_ok_list res = true →
    Post (c.gen_list_loop E GetFunc.get_expression delim prev res)
      (fun r => logical_ok_list r.2 = true)
  get_string_build_loop : ∀ (b : Bool) (l : List Vertex), logical_ok_list l = true →
    Post (c.get_string_build_loop b l) (fun r => ∀ l', r = some l' → logical_ok_list l' = true)
  get_postfix_expression : ∀ r, logical_ok_opt r = true →
    Post (c.get_postfix_expression r) (fun r => logical_ok_opt r = true)
  get_expr_top : Post c.get_expr_top (fun r => logical_ok_opt r = true)
  get_binary_op : ∀ p t, Post (c.get_binary_op p t) (fun r => logical_ok_opt r = true)
  get_binary_op_loop : ∀ p t l, l.logical_ok = true →
    Post (c.get_binary_op_loop p t l) (fun r => logical_ok_opt r = true)
  get_expression : Post c.get_expression (fun r => logical_ok_opt r = true)
  get_anonymous_function : Post c.get_anonymous_function (fun r => logical_ok_opt r = true)

/-- The tokens of `$a || $b`. -/
def tokens_log_or : List Token :=
  [sample_token tok_var_name "a", sample_token tok_log_or "", sample_token tok_var_name "b",
   sample_token tok_end ""]

/-- The tokens of `isset($a, $b)`. -/
def tokens_isset : List Token :=
  [sample_token tok_isset "isset", sample_token tok_oppar "", sample_token tok_var_name "a",
   sample_token tok_comma "", sample_token tok_var_name "b", sample_token tok_clpar "",
   sample_token tok_end ""]

/-- A class-variable node `$name = value` (a field with a default). -/
def sample_field (name value : String) : Vertex × AccessType :=
  ((Vertex.create op_class_var [leaf op_int_const 1 value]).set_string name,
    AccessType.access_public)

/-- A state holding one class `A` with the instance fields `$x = 1` and `$y = 2`,
declared in that order. -/
def sample_two_field_state : GenTree :=
  { sample_state [sample_token tok_end ""] with
    classes := [{ name := "A", members := { instance_fields :=
      [sample_field "x" "1", sample_field "y" "2"] } }] }

/-- The assignment `$this->p = p` that `create_constructor_with_args` builds for the
parameter node `param`. -/
def param_initializer (line : Int) (param : Vertex) : Vertex :=
  Vertex.create op_set
    [((Vertex.create op_instance_prop [vertex_this line none]).set_line line).set_string
      param.var.get_string, param.var]

/-- A parameter node wrapping the variable `$name`. -/
def sample_param (name : String) : Vertex :=
  Vertex.create op_func_param [leaf op_var 1 name]

/-- A state holding one class `L` without members. -/
def sample_empty_class_state : GenTree :=
  { sample_state [sample_token tok_end ""] with classes := [{ name := "L" }] }

/-- Outcome `r` is outcome `r'`, unless the run that gave `r` ran out of fuel. -/
def Res.le {α : Type} (r r' : Res α) : Prop := r = Res.abort Abort.out_of_fuel ∨ r = r'

/-- Parser function `m'` does what `m` does wherever `m` does not run out of fuel. -/
structure PLe {α : Type} (m m' : P α) : Prop where
  run : ∀ s, (m s).le (m' s)

/-- The entry points `c'` do what the entry points `c` do wherever those do not run
out of fuel. -/
structure CapsLe (c c' : Caps) : Prop where
  gen_list_loop : ∀ a b d p r, PLe (c.gen_list_loop a b d p r) (c'.gen_list_loop a b d p r)
  get_string_build_loop : ∀ a b,
    PLe (c.get_string_build_loop a b) (c'.get_string_build_loop a b)
  get_postfix_expression : ∀ a, PLe (c.get_postfix_expression a) (c'.get_postfix_expression a)
  get_expr_top : PLe c.get_expr_top c'.get_expr_top
  get_binary_op : ∀ a b, PLe (c.get_binary_op a b) (c'.get_binary_op a b)
  get_binary_op_loop : ∀ a b d, PLe (c.get_binary_op_loop a b d) (c'.get_binary_op_loop a b d)
  get_expression : PLe c.get_expression c'.get_expression
  get_func_param : PLe c.get_func_param c'.get_func_param
  get_func_param_from_callback :
    PLe c.get_func_param_from_callback c'.get_func_param_from_callback
  get_type_rule_ : PLe c.get_type_rule_ c'.get_type_rule_
  get_type_rule_lt_loop : ∀ a b,
    PLe (c.get_type_rule_lt_loop a b) (c'.get_type_rule_lt_loop a b)
  get_type_rule_index_loop : ∀ a,
    PLe (c.get_type_rule_index_loop a) (c'.get_type_rule_index_loop a)
  get_switch_loop : ∀ a, PLe (c.get_switch_loop a) (c'.get_switch_loop a)
  get_switch_seq_loop : ∀ a, PLe (c.get_switch_seq_loop a) (c'.get_switch_seq_loop a)
  parse_function_specifiers : ∀ a,
    PLe (c.parse_function_specifiers a) (c'.parse_function_specifiers a)
  get_use_loop : PLe c.get_use_loop c'.get_use_loop
  get_namespace_use_loop : PLe c.get_namespace_use_loop c'.get_namespace_use_loop
  get_anonymous_function : PLe c.get_anonymous_function c'.get_anonymous_function
  get_statement : ∀ a, PLe (c.get_statement a) (c'.get_statement a)
  get_instance_var_list : ∀ a b,
    PLe (c.get_instance_var_list a b) (c'.get_instance_var_list a b)
  get_seq_loop : ∀ a, PLe (c.get_seq_loop a) (c'.get_seq_loop a)

/-- The node `get_for` builds from the parsed clauses and body. -/
def for_node (line l1 l2 l3 : Int) (first second third : List Vertex) (cmd : Vertex) : Vertex :=
  (Vertex.create op_for
    [(Vertex.create op_seq first).set_line l1,
     (Vertex.create op_seq_comma (for_condition second)).set_line l2,
     (Vertex.create op_seq third).set_line l3,
     embrace cmd]).set_line line

/-- The tokens of `for (;;) {}`. -/
def tokens_for_empty : List Token :=
  [sample_token tok_for "", sample_token tok_oppar "", sample_token tok_semicolon "",
   sample_token tok_semicolon "", sample_token tok_clpar "", sample_token tok_opbrc "",
   sample_token tok_clbrc "", sample_token tok_end ""]

/-- The tokens of `for (; $a, $b;) {}`. -/
def tokens_for_two : List Token :=
  [sample_token tok_for "", sample_token tok_oppar "", sample_token tok_semicolon "",
   sample_token tok_var_name "a", sample_token tok_comma "", sample_token tok_var_name "b",
   sample_token tok_semicolon "", sample_token tok_clpar "", sample_token tok_opbrc "",
   sample_token tok_clbrc "", sample_token tok_end ""]

/-- The names of the instance fields of a class, in field order. -/
def field_names (members : ClassMembersContainer) : List String :=
  members.instance_fields.map fun f => f.1.get_string

/-- The field access `$this->name` that stands for the captured variable `v`, located
where `v` is. -/
def captured_access (v : Vertex) : Vertex :=
  ((Vertex.create op_instance_prop [vertex_this (-1) none]).set_location v.location).set_string
    v.get_string

/-- The field access `$this->parent$this` that stands for the variable node `v` named
`this`. -/
def parent_this_access (v : Vertex) : Vertex :=
  ((Vertex.create op_instance_prop [v]).set_string "parent$this").set_location v.location

mutual
/-- The rewrite of a lambda body as the spec words it: every variable node named like a
field becomes a field access on the receiver, every variable node named `this` becomes
`$this->parent$this`, every other node stays, with its children rewritten. -/
def rewrite_captured (fields : List String) : Vertex → Vertex
  | Vertex.mk info next type_rule =>
    if info.type == op_var && fields.contains info.str_val then
      captured_access (Vertex.mk info next type_rule)
    else if info.type == op_var && info.str_val == "this" then
      parent_this_access (Vertex.mk info next type_rule)
    else
      Vertex.mk info (rewrite_captured_list fields next) type_rule
/-- The rewrite of the spec over a list of children. -/
def rewrite_captured_list (fields : List String) : List Vertex → List Vertex
  | [] => []
  | v :: vs => rewrite_captured fields v :: rewrite_captured_list fields vs
end

mutual
/-- Every variable node of the tree is a leaf, as the node kind `op_var` has it. -/
def vars_are_leaves : Vertex → Bool
  | Vertex.mk info next _ =>
    (info.type != op_var || next.isEmpty) && vars_are_leaves_list next
/-- Every variable node of the trees of the list is a leaf. -/
def vars_are_leaves_list : List Vertex → Bool
  | [] => true
  | v :: vs => vars_are_leaves v && vars_are_leaves_list vs
end

mutual
/-- Some variable node of the tree (reached through children) has its name among
`names`. -/
def has_var_named (names : List String) : Vertex → Bool
  | Vertex.mk info next _ =>
    (info.type == op_var && names.contains info.str_val) || has_var_named_list names next
/-- Some variable node of the trees of the list has its name among `names`. -/
def has_var_named_list (names : List String) : List Vertex → Bool
  | [] => false
  | v :: vs => has_var_named names v || has_var_named_list names vs
end

/-- A members container whose only instance field is `$y`. -/
def sample_capture_members : ClassMembersContainer :=
  { instance_fields := [((Vertex.create op_class_var []).set_string "y",
      AccessType.access_public)] }

/-- The body `return $y + $x;`. -/
def sample_lambda_body : Vertex :=
  node1 op_return [node1 op_add [leaf op_var 1 "y", leaf op_var 1 "x"]]

/-- The `op_static` node registered for a static field `f` declared on line `line` with
access level `a`. -/
def static_field_node (line : Int) (f : String) (a : AccessType) : Vertex :=
  ((Vertex.create op_static [leaf op_var line f]).set_location
    (leaf op_var line f).location).set_info fun i =>
      { i with extra_type :=
          if a == AccessType.access_static_private then OperationExtra.op_ex_static_private
          else if a == AccessType.access_static_public then OperationExtra.op_ex_static_public
          else OperationExtra.op_ex_static_protected }

/-- State after registering the static field `f` of class `k`. -/
def GenTree.with_static_field (s : GenTree) (k : Nat) (line : Int) (f : String)
    (a : AccessType) : GenTree :=
  { s with classes := modify_at s.classes k fun c =>
      { c with members := c.members.add_static_field (static_field_node line f a) f a } }

/-- State with the flag `is_top_of_the_function_` set to `b`. -/
def GenTree.set_top (s : GenTree) (b : Bool) : GenTree :=
  { s with is_top_of_the_function_ := b }

/-- The tokens of `public static $f;`. -/
def tokens_public_static : List Token :=
  [sample_token tok_public "public", sample_token tok_static "static",
   sample_token tok_var_name "f", sample_token tok_semicolon "", sample_token tok_end ""]

/-- The tokens of `static public $f;`. -/
def tokens_static_public : List Token :=
  [sample_token tok_static "static", sample_token tok_public "public",
   sample_token tok_var_name "f", sample_token tok_semicolon "", sample_token tok_end ""]

/-- A parser state on `toks` inside the body of an empty class `A`. -/
def sample_member_state (toks : List Token) : GenTree :=
  { sample_state toks with classes := [{ name := "A" }], cur_class := some 0 }

/-- The result of a list parse with `pre` put in front of the parsed list. -/
def prepend_to (pre : List Vertex) : Res (Bool × List Vertex) → Res (Bool × List Vertex)
  | Res.ok r s => Res.ok (r.1, pre ++ r.2) s
  | Res.abort e => Res.abort e

/-- What a run of `m` from state `s` satisfies when it returns: the result and the final
state are in `Q`. -/
structure Runs {α : Type} (s : GenTree) (m : P α) (Q : α → GenTree → Prop) : Prop where
  run : ∀ a s', m s = Res.ok a s' → Q a s'

/-- The state in which `parse_function_declaration` starts on the parameter list: after
the keyword, the name (generated for a lambda, read from the tokens otherwise) and the
opening parenthesis. -/
def params_start (uses : Option (List Vertex)) (s : GenTree) : GenTree :=
  (if uses.isSome then { s.next with name_counter := s.next.name_counter + 1 }
   else s.next.next).next

/-- The tokens of `function foo($a, $b) {`. -/
def tokens_method : List Token :=
  [sample_token tok_function "function", sample_token tok_func_name "foo",
   sample_token tok_oppar "", sample_token tok_var_name "a", sample_token tok_comma "",
   sample_token tok_var_name "b", sample_token tok_clpar "", sample_token tok_opbrc "",
   sample_token tok_end ""]

/-- What `parse_function_declaration` hands back on `tokens_method` inside class `A`. -/
def sample_method_declaration : FunctionDeclaration :=
  { name := leaf op_func_name 1 "A$$foo",
    params := node1 op_func_param_list
      [Vertex.create op_func_param [vertex_this 1 (some 0)],
       node1 op_func_param [leaf op_var 1 "a"], node1 op_func_param [leaf op_var 1 "b"]],
    flags := node1 op_none [],
    is_constructor := false,
    uses_of_lambda := none }

/-- The list loop only ever appends to the vector it is given. -/
structure ListFrame (c : Caps) : Prop where
  frame : ∀ (E : Operation) (f : GetFunc) (d : TokenType) (p : Bool) (pre res : List Vertex)
    (s : GenTree), c.gen_list_loop E f d p (pre ++ res) s =
      prepend_to pre (c.gen_list_loop E f d p res s)

/-- Every successful run of `m` relates the state before to the state after by `R`. -/
structure Keeps {α : Type} (R : GenTree → GenTree → Prop) (m : P α) : Prop where
  run : ∀ s a s', m s = Res.ok a s' → R s s'

/-- A reflexive and transitive relation on parser states. -/
structure IsPre (R : GenTree → GenTree → Prop) : Prop where
  refl : ∀ s, R s s
  trans : ∀ a b c, R a b → R b c → R a c

/-- Hoare triple over the parser state: from a state in `I`, every successful run of `m`
ends with a result and a state in `Q`. -/
structure Triple {α : Type} (I : GenTree → Prop) (m : P α) (Q : α → GenTree → Prop) :
    Prop where
  run : ∀ s a s', I s → m s = Res.ok a s' → Q a s'

/-- Function `i` exists and is named `nm`. -/
def FunNamed (i : Nat) (nm : String) (st : GenTree) : Prop :=
  i < st.functions.length ∧ (st.get_function i).name = nm

/-- The name generator has been called `c` times, class `k` exists, is named `N` and has
the instance fields `F`, and the functions listed in `fs` exist under the names given. -/
structure SynthInv (k : Nat) (N : String) (F : List (Vertex × AccessType)) (c : Nat)
    (fs : List (Nat × String)) (st : GenTree) : Prop where
  lt : k < st.classes.length
  name : (st.get_class k).name = N
  fields : (st.get_class k).members.instance_fields = F
  counter : st.name_counter = c
  funs : ∀ p ∈ fs, FunNamed p.1 p.2 st

/-- From `s` to `s'` the name counter is unchanged, no class or function is dropped,
every class keeps its name and instance fields and every function keeps its name. -/
structure Grows (s s' : GenTree) : Prop where
  counter : s'.name_counter = s.name_counter
  classes_le : s.classes.length ≤ s'.classes.length
  classes : ∀ k, k < s.classes.length → (s'.get_class k).name = (s.get_class k).name ∧
    (s'.get_class k).members.instance_fields = (s.get_class k).members.instance_fields
  functions_le : s.functions.length ≤ s'.functions.length
  functions : ∀ i, i < s.functions.length → (s'.get_function i).name = (s.get_function i).name

/-- The argument `generate_constructor_call` passes for an instance field. -/
def constructor_argument (field : Vertex × AccessType) : Vertex :=
  ((Vertex.create op_var []).set_string
    (if field.1.get_string == "parent$this" then "this" else field.1.get_string)).set_location
      field.1.location

/-- Name of the class synthesized for the lambda lowered at generator count `i`. -/
def lambda_class_name (e : Env) (i : Nat) : String :=
  get_lambda_namespace ++ String.mk [backslash] ++ e.gen_anonymous_function_name i

/-- Name of the constructor of that class. -/
def lambda_constructor_name (e : Env) (i : Nat) : String :=
  replace_backslashes (lambda_class_name e i) ++ "$$" ++ "__construct"

/-- Name of the invoke method of that class. -/
def lambda_invoke_name (e : Env) (i : Nat) : String :=
  replace_backslashes (lambda_class_name e i) ++ "$$" ++ "__invoke"

/-- The implicit capture of the enclosing receiver, located on line `line`. -/
def parent_this_use (line : Int) : Vertex :=
  (Vertex.create op_func_param [((Vertex.create op_var []).set_string "parent$this").set_location
    { line := line }]).set_location { line := line }

/-- The captures of a lambda whose name node is on line `line`: the `use` list, after the
implicit capture of the receiver when the lambda is created in an instance function. -/
def lambda_captures (s : GenTree) (creator : Nat) (line : Int) (uses : List Vertex) :
    List Vertex :=
  if s.is_instance_function creator then parent_this_use line :: uses else uses

/-- The instance field declared for a capture. -/
def capture_field (u : Vertex) : Vertex × AccessType :=
  (((Vertex.create op_class_var []).set_string u.var.get_string).set_location u.location,
    AccessType.access_public)

/-- The instance fields declared for a list of captures. -/
def capture_fields (uses : List Vertex) : List (Vertex × AccessType) :=
  (uses.filter fun u => u.type == op_func_param).map capture_field

/-- The function node of the lambda `function($x) use ($y) { return $y + $x; }`, linked to
descriptor 1. -/
def sample_lambda : Vertex :=
  (Vertex.create op_function
    [leaf op_func_name 1 "anon$0",
     node1 op_func_param_list [node1 op_func_param [leaf op_var 1 "x"]],
     node1 op_seq [sample_lambda_body]]).set_info fun i => { i with func_id := some 1 }

/-- A state in which the lambda `sample_lambda` has been parsed inside the free function
`main`, the generator having been called once. -/
def sample_lambda_state : GenTree :=
  { sample_state [sample_token tok_end ""] with
    functions := [{ name := "main" }, { name := "anon$0", root := some sample_lambda }],
    cur_function := some 0, name_counter := 1 }

/-- The same state, `main` being an instance method. -/
def sample_method_lambda_state : GenTree :=
  { sample_state [sample_token tok_end ""] with
    functions := [{ name := "A$$main", access_type := AccessType.access_public },
      { name := "anon$0", root := some sample_lambda }],
    cur_function := some 0, name_counter := 1 }

/-- The name counter does not decrease from `s` to `s'`. -/
def CounterLe (s s' : GenTree) : Prop := s.name_counter ≤ s'.name_counter

/-- Every recursive entry point leaves the name counter at least where it was. -/
structure CapsMono (c : Caps) : Prop where
  gen_list_loop : ∀ a b d p r, Keeps CounterLe (c.gen_list_loop a b d p r)
  get_string_build_loop : ∀ a b, Keeps CounterLe (c.get_string_build_loop a b)
  get_postfix_expression : ∀ a, Keeps CounterLe (c.get_postfix_expression a)
  get_expr_top : Keeps CounterLe c.get_expr_top
  get_binary_op : ∀ a b, Keeps CounterLe (c.get_binary_op a b)
  get_binary_op_loop : ∀ a b d, Keeps CounterLe (c.get_binary_op_loop a b d)
  get_expression : Keeps CounterLe c.get_expression
  get_func_param : Keeps CounterLe c.get_func_param
  get_func_param_from_callback : Keeps CounterLe c.get_func_param_from_callback
  get_type_rule_ : Keeps CounterLe c.get_type_rule_
  get_type_rule_lt_loop : ∀ a b, Keeps CounterLe (c.get_type_rule_lt_loop a b)
  get_type_rule_index_loop : ∀ a, Keeps CounterLe (c.get_type_rule_index_loop a)
  get_switch_loop : ∀ a, Keeps CounterLe (c.get_switch_loop a)
  get_switch_seq_loop : ∀ a, Keeps CounterLe (c.get_switch_seq_loop a)
  parse_function_specifiers : ∀ a, Keeps CounterLe (c.parse_function_specifiers a)
  get_use_loop : Keeps CounterLe c.get_use_loop
  get_namespace_use_loop : Keeps CounterLe c.get_namespace_use_loop
  get_anonymous_function : Keeps CounterLe c.get_anonymous_function
  get_statement : ∀ a, Keeps CounterLe (c.get_statement a)
  get_instance_var_list : ∀ a b, Keeps CounterLe (c.get_instance_var_list a b)
  get_seq_loop : ∀ a, Keeps CounterLe (c.get_seq_loop a)

/-- A name generator that never repeats a name but returns names with a backslash: the
second name is `a\b`, the fourth is `a$b`, and every other name is a run of `c`. -/
def colliding_env : Env :=
  { sample_env with gen_anonymous_function_name := fun n =>
      if n = 1 then "a\\b" else if n = 3 then "a$b"
      else String.mk (List.replicate (n + 5) 'c') }

/-- The name made of `n + 1` letters `a`. -/
def unary_name (n : Nat) : String := String.mk (List.replicate (n + 1) 'a')

/-- The sample collaborators with the name generator `unary_name`. -/
def unary_env : Env := { sample_env with gen_anonymous_function_name := unary_name }

/-- The tokens of `$f = function () {}; $g = function () {};`. -/
def tokens_two_lambdas : List Token :=
  [sample_token tok_var_name "f", sample_token tok_eq1 "", sample_token tok_function "function",
   sample_token tok_oppar "", sample_token tok_clpar "", sample_token tok_opbrc "",
   sample_token tok_clbrc "", sample_token tok_semicolon "",
   sample_token tok_var_name "g", sample_token tok_eq1 "", sample_token tok_function "function",
   sample_token tok_oppar "", sample_token tok_clpar "", sample_token tok_opbrc "",
   sample_token tok_clbrc "", sample_token tok_semicolon "",
   sample_token tok_end ""]

/-- A parser state on `tokens_two_lambdas` inside the free function `main`. -/
def two_lambdas_state : GenTree :=
  { sample_state tokens_two_lambdas with
    functions := [{ name := "main" }], cur_function := some 0, functions_stack := [0] }

/-- Names of the classes and of the functions registered when a run ends. -/
def Res.names {α : Type} (r : Res α) : Option (List String × List String) :=
  match r with
  | Res.ok _ s => some (s.classes.map fun k => k.name, s.functions.map fun f => f.name)
  | Res.abort _ => none

/-- The elements of a delimited list that are followed by the delimiter, as `gen_list`
reads them from state `s`: each entry of `vs` is the result of one call of the element
function `f` (`none` for an elided element), after which the cursor is on the delimiter
`d`, which is consumed; `s'` is the state after the last of these delimiters. -/
inductive Slots (e : Env) (f : GetFunc) (d : TokenType) :
    GenTree → List (Option Vertex) → GenTree → Prop where
  | nil (s : GenTree) : Slots e f d s [] s
  | cons (s s1 s' : GenTree) (v : Option Vertex) (vs : List (Option Vertex))
      (h : Ev (fun n => call_get_func (parser e n) f s) (Res.ok v s1))
      (hd : s1.tok.type = d) (ht : Slots e f d s1.next vs s') :
      Slots e f d s (v :: vs) s'

/-- The node that stands for a list element under the placeholder policy `EmptyOp`: the
parsed element, or a childless node of kind `EmptyOp` for an elided one. -/
def slot_node (EmptyOp : Operation) : Option Vertex → Vertex
  | some v => v
  | none => Vertex.create EmptyOp []

/-- The conjunction the spec describes for `isset(e1, …, en)`, from the last argument
and the arguments before it in reverse order: `isset(e1)` alone when there is one
argument, otherwise the logical "and" of the conjunction of the arguments before the
last with `isset` of the last. -/
def isset_conj : Vertex → List Vertex → Vertex
  | last, [] => Vertex.create op_isset [last]
  | last, b :: before =>
    Vertex.create op_log_and [isset_conj b before, Vertex.create op_isset [last]]

mutual
/-- The conjuncts of a left-nested conjunction, left to right: a logical "and" of two
children gives the conjuncts of its left child followed by its right child; any other
node is its own single conjunct. -/
def conjuncts : Vertex → List Vertex
  | Vertex.mk info next r =>
    match info.type == op_log_and, conjuncts_left next with
    | true, some (ls, r') => ls ++ [r']
    | _, _ => [Vertex.mk info next r]
/-- The conjuncts of the first and the second of exactly two children. -/
def conjuncts_left : List Vertex → Option (List Vertex × Vertex)
  | l :: rest =>
    match rest with
    | [r] => some (conjuncts l, r)
    | _ => none
  | [] => none
end

mutual
/-- The number of logical "and" nodes on the left spine of a left-nested conjunction. -/
def and_nodes : Vertex → Nat
  | Vertex.mk info next _ =>
    match info.type == op_log_and, and_nodes_left next with
    | true, some k => k + 1
    | _, _ => 0
/-- The count for the first of exactly two children. -/
def and_nodes_left : List Vertex → Option Nat
  | l :: rest =>
    match rest with
    | [_] => some (and_nodes l)
    | _ => none
  | [] => none
end

/-- The tokens of `list($a, , $b)`. -/
def tokens_list_gap : List Token :=
  [sample_token tok_list "list", sample_token tok_oppar "", sample_token tok_var_name "a",
   sample_token tok_comma "", sample_token tok_comma "", sample_token tok_var_name "b",
   sample_token tok_clpar "", sample_token tok_end ""]

/-- The tokens of `array(1, , 2)`. -/
def tokens_array_gap : List Token :=
  [sample_token tok_array "array", sample_token tok_oppar "", sample_token tok_int_const "1",
   sample_token tok_comma "", sample_token tok_comma "", sample_token tok_int_const "2",
   sample_token tok_clpar "", sample_token tok_end ""]

/-- The tokens of `[1, , 2]`. -/
def tokens_short_array_gap : List Token :=
  [sample_token tok_opbrk "", sample_token tok_int_const "1", sample_token tok_comma "",
   sample_token tok_comma "", sample_token tok_int_const "2", sample_token tok_clbrk "",
   sample_token tok_end ""]

/-- The tokens of `tuple()`. -/
def tokens_tuple_empty : List Token :=
  [sample_token tok_tuple "tuple", sample_token tok_oppar "", sample_token tok_clpar "",
   sample_token tok_end ""]

/-- The tokens of `isset($a, $b, $c)`. -/
def tokens_isset_three : List Token :=
  [sample_token tok_isset "isset", sample_token tok_oppar "", sample_token tok_var_name "a",
   sample_token tok_comma "", sample_token tok_var_name "b", sample_token tok_comma "",
   sample_token tok_var_name "c", sample_token tok_clpar "", sample_token tok_end ""]

/-- The tokens of `isset()`. -/
def tokens_isset_empty : List Token :=
  [sample_token tok_isset "isset", sample_token tok_oppar "", sample_token tok_clpar "",
   sample_token tok_end ""]

/-- The tokens of `return;`. -/
def tokens_return_void : List Token :=
  [sample_token tok_return "return", sample_token tok_semicolon "", sample_token tok_end ""]

/-- The tokens of `return 1;`. -/
def tokens_return_one : List Token :=
  [sample_token tok_return "return", sample_token tok_int_const "1",
   sample_token tok_semicolon "", sample_token tok_end ""]

/-- Lookup of the alias `k` in a table of `use` aliases. -/
def uses_find (uses : List (String × String)) (k : String) : Option String :=
  (uses.find? fun u => u.1 == k).map fun u => u.2

/-- String `a` is the part of `p` after its last backslash, all of `p` when it has none. -/
def is_last_segment (p a : String) : Prop :=
  backslash ∉ a.data ∧
    ∃ q : List Char, p.data = q ++ a.data ∧ (q = [] ∨ q.getLast? = some backslash)

/-- String `t` is `p` without one leading backslash. -/
def is_stripped (p t : String) : Prop :=
  (p.data.head? = some backslash → p.data = backslash :: t.data) ∧
    (p.data.head? ≠ some backslash → t = p)

/-- State `t` reads the same input as `s`: same tokens, cursor, end and source file. -/
def SameInput (s t : GenTree) : Prop :=
  t.tokens = s.tokens ∧ t.cur = s.cur ∧ t.end_ = s.end_ ∧ t.processing_file = s.processing_file

/-- The tokens of `use \A\B as C;` after the keyword. -/
def tokens_use_as : List Token :=
  [sample_token tok_func_name "\\A\\B", sample_token tok_as "as", sample_token tok_func_name "C",
   sample_token tok_semicolon "", sample_token tok_end ""]

/-- The node `func_force_return` appends to a function body that returns no value. -/
def void_return : Vertex :=
  (Vertex.create op_return [Vertex.create op_null []]).set_info fun i =>
    { i with void_flag := true }

/-- State `t` still has the source file record `pf`, the classes `cl` and the functions
`fn`, and has the diagnostic `d` among its errors. -/
def Stopped (pf : SrcFile) (cl : List ClassData) (fn : List FunctionData) (d : Diagnostic)
    (t : GenTree) : Prop :=
  t.processing_file = pf ∧ t.classes = cl ∧ t.functions = fn ∧ d ∈ t.errors

/-- The tokens of `namespace Foo; use Bar\Baz; class A {}`. -/
def tokens_namespace_class : List Token :=
  [sample_token tok_namespace "namespace", sample_token tok_func_name "Foo",
   sample_token tok_semicolon "", sample_token tok_use "use",
   sample_token tok_func_name "Bar\\Baz", sample_token tok_semicolon "",
   sample_token tok_class "class", sample_token tok_func_name "A", sample_token tok_opbrc "",
   sample_token tok_clbrc "", sample_token tok_end ""]

/-- A state on `namespace Foo; use Bar\Baz; class A {}` in a file of directory `dir`. -/
def sample_namespace_state (dir : String) : GenTree :=
  { sample_state tokens_namespace_class with
    processing_file := { unified_dir_name := dir, short_file_name := "A",
                         main_func_name := "src_A" } }

/-- The tokens of `switch ($x) {` followed by the end sentinel. -/
def tokens_switch_open : List Token :=
  [sample_token tok_switch "switch", sample_token tok_oppar "", sample_token tok_var_name "x",
   sample_token tok_clpar "", sample_token tok_opbrc "", sample_token tok_end ""]

/-- Translation of the class template `refcountable_php_classes<Derived, Base>`
(`runtime/refcountable_php_classes.h`); the specialization for `Base = void` has the same
members.  `refcnt` is the 32-bit counter; `destroyed` records that `release` ran the
destructor and gave the memory back. -/
structure refcountable_php_classes where
  refcnt : Nat := 0
  destroyed : Bool := false
  deriving DecidableEq, Repr

/-- Translation of `refcountable_php_classes::add_ref`; the constant `REF_CNT_FOR_CONST`
is defined outside the sources at hand and is a parameter. -/
def refcountable_php_classes.add_ref (REF_CNT_FOR_CONST : Nat) (o : refcountable_php_classes) :
    refcountable_php_classes :=
  if o.refcnt < REF_CNT_FOR_CONST then { o with refcnt := (o.refcnt + 1) % 2 ^ 32 } else o

/-- Translation of `refcountable_php_classes::get_refcnt`. -/
def refcountable_php_classes.get_refcnt (o : refcountable_php_classes) : Nat := o.refcnt

/-- Translation of `refcountable_php_classes::release`. -/
def refcountable_php_classes.release (REF_CNT_FOR_CONST : Nat) (o : refcountable_php_classes) :
    refcountable_php_classes :=
  let o := if o.refcnt < REF_CNT_FOR_CONST then
    { o with refcnt := (o.refcnt + 2 ^ 32 - 1) % 2 ^ 32 } else o
  if o.refcnt == 0 then { o with destroyed := true } else o

/-- Translation of `refcountable_php_classes::set_refcnt`. -/
def refcountable_php_classes.set_refcnt (o : refcountable_php_classes) (new_refcnt : Nat) :
    refcountable_php_classes :=
  { o with refcnt := new_refcnt % 2 ^ 32 }

/-- Whether a token kind is one of the function specifiers `throws`, `resumable`, `auto`. -/
def is_specifier (t : TokenType) : Bool :=
  t == tok_throws || t == tok_resumable || t == tok_auto

/-- The flags node after the specifiers `ts`, following the spec: the throws, resumable
and auto flags are set for the specifiers that occur in `ts`, everything else is as in
`flags`. -/
def with_specifiers (flags : Vertex) (ts : List TokenType) : Vertex :=
  flags.set_info fun i => { i with
    throws_flag := i.throws_flag || ts.contains tok_throws,
    resumable_flag := i.resumable_flag || ts.contains tok_resumable,
    auto_flag := i.auto_flag || ts.contains tok_auto }

/-- The tokens `resumable throws resumable` followed by an opening brace. -/
def tokens_specifiers : List Token :=
  [sample_token tok_resumable "resumable", sample_token tok_throws "throws",
   sample_token tok_resumable "resumable", sample_token tok_opbrc "", sample_token tok_end ""]

/-- The tokens of `function ($x) use ($x)` followed by an opening brace. -/
def tokens_lambda_collision : List Token :=
  [sample_token tok_function "function", sample_token tok_oppar "",
   sample_token tok_var_name "x", sample_token tok_clpar "", sample_token tok_use "use",
   sample_token tok_oppar "", sample_token tok_var_name "x", sample_token tok_clpar "",
   sample_token tok_opbrc "", sample_token tok_end ""]

/-- The tokens of `$f(1, 2)`. -/
def tokens_call_postfix : List Token :=
  [sample_token tok_var_name "f", sample_token tok_oppar "", sample_token tok_int_const "1",
   sample_token tok_comma "", sample_token tok_int_const "2", sample_token tok_clpar "",
   sample_token tok_end ""]

/-- The tokens of `$a ? $b : $c ? $d : $e`. -/
def tokens_ternary_chain : List Token :=
  [sample_token tok_var_name "a", sample_token tok_question "", sample_token tok_var_name "b",
   sample_token tok_colon "", sample_token tok_var_name "c", sample_token tok_question "",
   sample_token tok_var_name "d", sample_token tok_colon "", sample_token tok_var_name "e",
   sample_token tok_end ""]

/-- The tokens of `$a ?: $c`. -/
def tokens_shorthand_ternary : List Token :=
  [sample_token tok_var_name "a", sample_token tok_question "", sample_token tok_colon "",
   sample_token tok_var_name "c", sample_token tok_end ""]

/-- The tokens of `$a = $b = $c`. -/
def tokens_assign_chain : List Token :=
  [sample_token tok_var_name "a", sample_token tok_eq1 "", sample_token tok_var_name "b",
   sample_token tok_eq1 "", sample_token tok_var_name "c", sample_token tok_end ""]

/-- The stop test of the skipping loop of `check_statement_end`. -/
def is_statement_stop (t : TokenType) : Bool := t == tok_clbrc || t == tok_semicolon

/-- The tokens of `1 2 ; 3` followed by the end sentinel. -/
def tokens_missing_semicolon : List Token :=
  [sample_token tok_int_const "1", sample_token tok_int_const "2",
   sample_token tok_semicolon "", sample_token tok_int_const "3", sample_token tok_end ""]

/-- State after `add_static_method(k, f, a)` from `s`. -/
def GenTree.with_static_method (s : GenTree) (k f : Nat) (a : AccessType) : GenTree :=
  let s1 : GenTree := { s with classes := modify_at s.classes k fun c => { c with members :=
    { c.members with static_methods := c.members.static_methods ++ [(f, a)] } } }
  { s1 with functions := modify_at s1.functions f fun d =>
    { d with access_type := a, class_id := some k } }

/-- The state in which `get_function` parses the body of the new function `f`, from the
state `s` in which `f` has become the current function: the phpdoc token is stored, the
function is entered into the members of the current class when it is a method, and the
function nesting count is raised. -/
def function_scope_entry (phpdoc_token : Option Token) (access_type : AccessType) (f : Nat)
    (s : GenTree) : GenTree :=
  let s1 : GenTree := { s with functions := modify_at s.functions f fun fd =>
    { fd with phpdoc_token := phpdoc_token } }
  let s2 : GenTree := match s1.cur_class with
    | some k =>
      if is_instance_access_type access_type then s1.with_method k f access_type
      else if is_static_access_type access_type then s1.with_static_method k f access_type
      else s1
    | none => s1
  { s2 with in_func_cnt_ := s2.in_func_cnt_ + 1,
            is_top_of_the_function_ := decide (s2.in_func_cnt_ + 1 > 1) }

/-- The function node `get_function` builds from a parsed declaration, before it is linked
to its descriptor: name, parameter list and an empty body slot, with the location and the
flags collected by the declaration. -/
def function_root (d : FunctionDeclaration) : Vertex :=
  (Vertex.create op_function [d.name, d.params, null_vertex]).copy_location_and_flags d.flags

/-- The function node of a parsed declaration, linked to its descriptor `f`. -/
def function_node (d : FunctionDeclaration) (f : Nat) : Vertex :=
  (function_root d).set_info fun i => { i with func_id := some f }

/-- Kind of a function with a body, as `get_function` chooses it in state `s`. -/
def function_type (s : GenTree) : func_type_t :=
  if s.in_func_cnt_ == 0 && !s.in_namespace then func_type_t.func_global
  else func_type_t.func_local

/-- State after `get_function` has created the descriptor of the declaration `d` in state
`s` and made it the current function. -/
def GenTree.with_current (s : GenTree) (d : FunctionDeclaration) : GenTree :=
  { s.with_function (function_root d) (function_type s) with
    functions_stack := s.functions_stack ++ [s.functions.length],
    cur_function := some s.functions.length }

/-- The state in which `get_function` parses the body of the function declared by `d`,
from the state `s` reached by the declaration. -/
def body_start (phpdoc_token : Option Token) (access_type : AccessType)
    (d : FunctionDeclaration) (s : GenTree) : GenTree :=
  function_scope_entry phpdoc_token access_type s.functions.length (s.with_current d)

/-- The last steps of `get_function` for a function whose body has been parsed and
patched to `root`: the node is stored in the descriptor `f`, the function is registered,
and the node is returned for a lambda parsed without error. -/
def function_scope_finish (phpdoc_token : Option Token) (d : FunctionDeclaration) (f : Nat)
    (root : Vertex) : P (Option Vertex) := do
  mod_function f fun fd => { fd with root := some root }
  let s ← getS
  let t := (s.get_function f).type
  let auto_require := t == func_type_t.func_global || t == func_type_t.func_extern_
    || s.is_instance_function f || (match phpdoc_token with
      | some t => str_contains t.str_val "@kphp-required" ||
          str_contains t.str_val "@kphp-lib-export"
      | none => false)
  register_and_require_function f auto_require
  if d.uses_of_lambda.isSome && !(← has_error) then
    return some root
  else
    return none

/-- State `s` with `root` stored as the node of function `f`. -/
def GenTree.with_root (s : GenTree) (f : Nat) (root : Vertex) : GenTree :=
  { s with functions := modify_at s.functions f fun fd => { fd with root := some root } }

/-- The state in which `get_function` goes on once the body of function `f` has been
parsed in state `s3`: the function node `root` with its body is stored in the descriptor
and the function nesting count is lowered again. -/
def GenTree.after_body (s3 : GenTree) (f : Nat) (root : Vertex) : GenTree :=
  { s3 with functions := modify_at s3.functions f fun fd => { fd with root := some root },
            in_func_cnt_ := s3.in_func_cnt_ - 1 }

/-- The tokens of `function f() { return 1; }`. -/
def tokens_function_return : List Token :=
  [sample_token tok_function "function", sample_token tok_func_name "f",
   sample_token tok_oppar "", sample_token tok_clpar "", sample_token tok_opbrc "",
   sample_token tok_return "return", sample_token tok_int_const "1",
   sample_token tok_semicolon "", sample_token tok_clbrc "", sample_token tok_end ""]

/-- The tokens of `class A { public $x = 1; public function __construct() {} public $y = 2; }`. -/
def tokens_class_constructor : List Token :=
  [sample_token tok_class "class", sample_token tok_func_name "A", sample_token tok_opbrc "",
   sample_token tok_public "public", sample_token tok_var_name "x", sample_token tok_eq1 "",
   sample_token tok_int_const "1", sample_token tok_semicolon "",
   sample_token tok_public "public", sample_token tok_function "function",
   sample_token tok_func_name "__construct", sample_token tok_oppar "",
   sample_token tok_clpar "", sample_token tok_opbrc "", sample_token tok_clbrc "",
   sample_token tok_public "public", sample_token tok_var_name "y", sample_token tok_eq1 "",
   sample_token tok_int_const "2", sample_token tok_semicolon "",
   sample_token tok_clbrc "", sample_token tok_end ""]

/-- The tokens of `if (true) ; else {}`. -/
def tokens_if_else : List Token :=
  [sample_token tok_if "", sample_token tok_oppar "", sample_token tok_true "",
   sample_token tok_clpar "", sample_token tok_semicolon "", sample_token tok_else "",
   sample_token tok_opbrc "", sample_token tok_clbrc "", sample_token tok_end ""]

/-- The tokens of `foreach ($a as $v) ;`. -/
def tokens_foreach : List Token :=
  [sample_token tok_foreach "", sample_token tok_oppar "", sample_token tok_var_name "a",
   sample_token tok_as "", sample_token tok_var_name "v", sample_token tok_clpar "",
   sample_token tok_semicolon "", sample_token tok_end ""]

/-- The tokens of `try ; catch (Exception $e) {}`. -/
def tokens_try : List Token :=
  [sample_token tok_try "", sample_token tok_semicolon "", sample_token tok_catch "",
   sample_token tok_oppar "", sample_token tok_Exception "", sample_token tok_var_name "e",
   sample_token tok_clpar "", sample_token tok_opbrc "", sample_token tok_clbrc "",
   sample_token tok_end ""]

/-- The steps of `get_class_scope` that come before the class body: the class and its
backing function are tied together, the name is read and checked, an `extends` clause is
consumed, and the class node is stored as the root of the class.  The result is the class
node, or null when `extends` is not followed by a class name. -/
def get_class_head (e : Env) (phpdoc_token : Option Token) (class_location : Int)
    (cur_class cur_function : Nat) : P (Option Vertex) := do
  mod_function cur_function fun fd => { fd with class_id := some cur_class }
  mod_class cur_class fun k => { k with init_function := some cur_function }
  let s ← getS
  let name_str := s.tok.str_val
  let full_class_name :=
    if s.processing_file.namespace_name == "" then name_str
    else s.processing_file.namespace_name ++ String.mk [backslash] ++ name_str
  if s.in_namespace then
    let expected_name := s.processing_file.short_file_name
    let _ ← kphp_error (name_str == expected_name)
      ("Expected class name " ++ expected_name ++ ", found " ++ name_str)
  if !is_class_name_allowed name_str then
    let _ ← kphp_error false ("Sorry, kPHP doesn't support class name " ++ name_str)
  next_cur
  let extends_ok ←
    if (← test_expect tok_extends) then do
      next_cur
      if (← kphp_error (← test_expect tok_func_name) "Class name expected after 'extends'") then
        pure false
      else do
        let s ← getS
        let full_extends_class_name := e.resolve_uses s.processing_file s.tok.str_val
        mod_class cur_class fun k =>
          { k with str_dependents := k.str_dependents ++ [full_extends_class_name] }
        next_cur
        pure true
    else pure true
  if !extends_ok then
    return none
  else
    let name_vertex := leaf op_func_name (← auto_location) name_str
    let class_vertex := (Vertex.create op_class [name_vertex]).set_line class_location
    mod_class cur_class fun k => { k with
      name := full_class_name, has_file_id := true, phpdoc_token := phpdoc_token,
      root := some class_vertex }
    return some class_vertex

/-- The steps of `get_class` that come before the class body: the keyword and the class
name are expected, the backing function and the class are created and made current, and
`get_class_head` runs.  The result is the new class, its backing function and the class
node; when `get_class_head` gives null, the class and the function stop being current and
the result is null. -/
def get_class_entry (e : Env) (phpdoc_token : Option Token) : P (Option (Nat × Nat × Vertex)) := do
  let class_location ← auto_location
  if !(← expect tok_class "'class'") then
    return none
  else if (← kphp_error (← test_expect tok_func_name) "Class name expected") then
    return none
  else
    let func_name := (Vertex.create op_func_name []).set_string
      (← getS).processing_file.main_func_name
    let func_params := Vertex.create op_func_param_list []
    let func_body := Vertex.create op_seq []
    let func_root := Vertex.create op_function [func_name, func_params, func_body]
    let cur_function ← create_function func_root func_type_t.func_global
    push_function cur_function
    let cur_class ← new_class
    push_class cur_class
    match (← get_class_head e phpdoc_token class_location cur_class cur_function) with
    | none =>
      pop_class
      pop_function
      return none
    | some class_vertex => return some (cur_class, cur_function, class_vertex)

/-- The steps of `get_class` that come after the class body: `get_class_finish`, then the
class and the backing function stop being current. -/
def get_class_exit (cur_class cur_function : Nat) (class_vertex : Vertex) : P (Option Vertex) := do
  get_class_finish cur_class cur_function class_vertex
  pop_class
  pop_function
  return none

/-- The class state the exit steps leave: the stacks lose their last entry. -/
def GenTree.leave_class (s : GenTree) : GenTree :=
  let s1 := { s with class_stack := s.class_stack.dropLast, cur_class := s.class_stack.dropLast.getLast? }
  { s1 with functions_stack := s1.functions_stack.dropLast, cur_function := s1.functions_stack.dropLast.getLast? }

/-- The steps of `get_class_scope` from the class body on. -/
def get_class_body (c : Caps) (cur_class cur_function : Nat) (class_vertex : Vertex) :
    P (Option Vertex) := do
  match (← c.get_statement none) with
  | none =>
    let _ ← kphp_error false "Failed to parse class body"
    return none
  | some _ =>
    get_class_finish cur_class cur_function class_vertex
    return none

/-- The tokens of `class A { public $x = 1; }`. -/
def tokens_class_field : List Token :=
  [sample_token tok_class "class", sample_token tok_func_name "A", sample_token tok_opbrc "",
   sample_token tok_public "public", sample_token tok_var_name "x", sample_token tok_eq1 "",
   sample_token tok_int_const "1", sample_token tok_semicolon "",
   sample_token tok_clbrc "", sample_token tok_end ""]

/-- The tokens of `class A { public function f() {} }`. -/
def tokens_class_method : List Token :=
  [sample_token tok_class "class", sample_token tok_func_name "A", sample_token tok_opbrc "",
   sample_token tok_public "public", sample_token tok_function "function",
   sample_token tok_func_name "f", sample_token tok_oppar "", sample_token tok_clpar "",
   sample_token tok_opbrc "", sample_token tok_clbrc "",
   sample_token tok_clbrc "", sample_token tok_end ""]

/-- The tokens of `class A { const X = 1; public static $s = 2; }`. -/
def tokens_class_static : List Token :=
  [sample_token tok_class "class", sample_token tok_func_name "A", sample_token tok_opbrc "",
   sample_token tok_const "const", sample_token tok_func_name "X", sample_token tok_eq1 "",
   sample_token tok_int_const "1", sample_token tok_semicolon "",
   sample_token tok_public "public", sample_token tok_static "static",
   sample_token tok_var_name "s", sample_token tok_eq1 "", sample_token tok_int_const "2",
   sample_token tok_semicolon "", sample_token tok_clbrc "", sample_token tok_end ""]

/-- The tokens of
`class A { const X = 1; public static $s = 2; const Y = 3; public $y; public function f() {} }`. -/
def tokens_class_mixed : List Token :=
  [sample_token tok_class "class", sample_token tok_func_name "A", sample_token tok_opbrc "",
   sample_token tok_const "const", sample_token tok_func_name "X", sample_token tok_eq1 "",
   sample_token tok_int_const "1", sample_token tok_semicolon "",
   sample_token tok_public "public", sample_token tok_static "static",
   sample_token tok_var_name "s", sample_token tok_eq1 "", sample_token tok_int_const "2",
   sample_token tok_semicolon "",
   sample_token tok_const "const", sample_token tok_func_name "Y", sample_token tok_eq1 "",
   sample_token tok_int_const "3", sample_token tok_semicolon "",
   sample_token tok_public "public", sample_token tok_var_name "y", sample_token tok_semicolon "",
   sample_token tok_public "public", sample_token tok_function "function",
   sample_token tok_func_name "f", sample_token tok_oppar "", sample_token tok_clpar "",
   sample_token tok_opbrc "", sample_token tok_clbrc "",
   sample_token tok_clbrc "", sample_token tok_end ""]

/-- Whether a run ended with a node. -/
def Res.is_node (r : Res (Option Vertex)) : Bool :=
  match r with
  | Res.ok (some _) _ => true
  | _ => false

/-- The node a run ended with. -/
def Res.node (r : Res (Option Vertex)) : Vertex :=
  match r with
  | Res.ok (some v) _ => v
  | _ => default

/-- The state a run ended in. -/
def Res.state {α : Type} (r : Res α) : GenTree :=
  match r with
  | Res.ok _ s => s
  | Res.abort _ => default

/-- What the lowering of lambdas reads of a function descriptor: its name, whether
`function_in_which_lambda_was_created` is set, and its `lambdas_inside`. -/
def lambda_key (d : FunctionData) : String × Bool × List Nat :=
  (d.name, d.function_in_which_lambda_was_created.isSome, d.lambdas_inside)

/-- The function table of `s` as far as the lowering of lambdas reads it. -/
def GenTree.lambda_keys (s : GenTree) : List (String × Bool × List Nat) :=
  s.functions.map lambda_key

/-- Names of the functions of `s` registered for lowered lambdas (those with
`function_in_which_lambda_was_created` set), in the order of the function table. -/
def GenTree.lambda_function_names (s : GenTree) : List String :=
  (s.functions.filter fun d => d.function_in_which_lambda_was_created.isSome).map fun d => d.name

/-- The function table of a unit in which every lowering so far kept its names apart: no
function has nested lambdas pending, no two functions of lowered lambdas share a name, and
each of them is named as the constructor or the invoke method of a generator count below
the current one. -/
structure LambdaInv (e : Env) (s : GenTree) : Prop where
  inside : ∀ d ∈ s.functions, d.lambdas_inside = []
  distinct : s.lambda_function_names.Nodup
  bound : ∀ nm ∈ s.lambda_function_names, ∃ j, j < s.name_counter ∧
    (nm = lambda_constructor_name e j ∨ nm = lambda_invoke_name e j)

/-- From `s` to `s'`, for a name generator that never repeats a name and returns no
backslash: when the function table of `s` satisfies `LambdaInv`, so does that of `s'`, and
the functions of `s` are still there under their names and with their lambda flags, new
ones being added after them. -/
def LambdaRel (e : Env) (s s' : GenTree) : Prop :=
  Function.Injective e.gen_anonymous_function_name →
  (∀ i, backslash ∉ (e.gen_anonymous_function_name i).data) →
  LambdaInv e s → LambdaInv e s' ∧ s.lambda_keys <+: s'.lambda_keys

/-- The invariant `LambdaInv` on a table of keys `K` at generator count `c`. -/
def KeysInv (e : Env) (K : List (String × Bool × List Nat)) (c : Nat) : Prop :=
  (∀ x ∈ K, x.2.2 = []) ∧ ((K.filter fun x => x.2.1).map fun x => x.1).Nodup ∧
  ∀ nm ∈ (K.filter fun x => x.2.1).map (fun x => x.1), ∃ j, j < c ∧
    (nm = lambda_constructor_name e j ∨ nm = lambda_invoke_name e j)

/-- While a lambda class `k` is being synthesized: the class exists, is named `N`, its
constructor slot is `nf`, and the function table reads `K`. -/
structure LamStage (k : Nat) (N : String) (nf : Option Nat)
    (K : List (String × Bool × List Nat)) (st : GenTree) : Prop where
  lt : k < st.classes.length
  name : (st.get_class k).name = N
  newf : (st.get_class k).new_function = nf
  keys : st.lambda_keys = K

/-- From `s` to `s'` the function table reads the same, no class is dropped and every
class keeps its name and its constructor slot. -/
structure KeyFrame (s s' : GenTree) : Prop where
  keys : s'.lambda_keys = s.lambda_keys
  classes_le : s.classes.length ≤ s'.classes.length
  classes : ∀ k, k < s.classes.length → (s'.get_class k).name = (s.get_class k).name ∧
    (s'.get_class k).new_function = (s.get_class k).new_function

/-- Every recursive entry point keeps the relation `LambdaRel e`. -/
structure CapsLam (e : Env) (c : Caps) : Prop where
  gen_list_loop : ∀ a b d p r, Keeps (LambdaRel e) (c.gen_list_loop a b d p r)
  get_string_build_loop : ∀ a b, Keeps (LambdaRel e) (c.get_string_build_loop a b)
  get_postfix_expression : ∀ a, Keeps (LambdaRel e) (c.get_postfix_expression a)
  get_expr_top : Keeps (LambdaRel e) c.get_expr_top
  get_binary_op : ∀ a b, Keeps (LambdaRel e) (c.get_binary_op a b)
  get_binary_op_loop : ∀ a b d, Keeps (LambdaRel e) (c.get_binary_op_loop a b d)
  get_expression : Keeps (LambdaRel e) c.get_expression
  get_func_param : Keeps (LambdaRel e) c.get_func_param
  get_func_param_from_callback : Keeps (LambdaRel e) c.get_func_param_from_callback
  get_type_rule_ : Keeps (LambdaRel e) c.get_type_rule_
  get_type_rule_lt_loop : ∀ a b, Keeps (LambdaRel e) (c.get_type_rule_lt_loop a b)
  get_type_rule_index_loop : ∀ a, Keeps (LambdaRel e) (c.get_type_rule_index_loop a)
  get_switch_loop : ∀ a, Keeps (LambdaRel e) (c.get_switch_loop a)
  get_switch_seq_loop : ∀ a, Keeps (LambdaRel e) (c.get_switch_seq_loop a)
  parse_function_specifiers : ∀ a, Keeps (LambdaRel e) (c.parse_function_specifiers a)
  get_use_loop : Keeps (LambdaRel e) c.get_use_loop
  get_namespace_use_loop : Keeps (LambdaRel e) c.get_namespace_use_loop
  get_anonymous_function : Keeps (LambdaRel e) c.get_anonymous_function
  get_statement : ∀ a, Keeps (LambdaRel e) (c.get_statement a)
  get_instance_var_list : ∀ a b, Keeps (LambdaRel e) (c.get_instance_var_list a b)
  get_seq_loop : ∀ a, Keeps (LambdaRel e) (c.get_seq_loop a)

/-- Whether a run ended with a result. -/
def Res.is_ok {α : Type} (r : Res α) : Bool :=
  match r with
  | Res.ok _ _ => true
  | Res.abort _ => false

/-! ## Theorems -/

@[simp]
theorem P.pure_apply {α : Type} (a : α) (s : GenTree) : (pure a : P α) s = Res.ok a s := rfl

@[simp]
theorem P.bind_apply {α β : Type} (m : P α) (f : α → P β) (s : GenTree) :
    (m >>= f) s = (m s).bind f := rfl

@[simp]
theorem Res.bind_ok {α β : Type} (a : α) (s : GenTree) (f : α → GenTree → Res β) :
    (Res.ok a s).bind f = f a s := rfl

@[simp]
theorem Res.bind_abort {α β : Type} (e : Abort) (f : α → GenTree → Res β) :
    (Res.abort e : Res α).bind f = Res.abort e := rfl

@[simp]
theorem P.ite_apply {α : Type} (c : Prop) [Decidable c] (m1 m2 : P α) (s : GenTree) :
    (if c then m1 else m2) s = if c then m1 s else m2 s := by split <;> rfl

@[simp]
theorem getS_apply (s : GenTree) : getS s = Res.ok s s := rfl

@[simp]
theorem modS_apply (f : GenTree → GenTree) (s : GenTree) : modS f s = Res.ok () (f s) := rfl

@[simp]
theorem abortP_apply {α : Type} (e : Abort) (s : GenTree) : (abortP e : P α) s = Res.abort e := rfl

@[simp]
theorem cur_tok_apply (s : GenTree) : cur_tok s = Res.ok s.tok s := rfl

@[simp]
theorem cur_type_apply (s : GenTree) : cur_type s = Res.ok s.tok.type s := rfl

@[simp]
theorem at_end_apply (s : GenTree) : at_end s = Res.ok (s.cur == s.end_) s := rfl

@[simp]
theorem auto_location_apply (s : GenTree) : auto_location s = Res.ok s.line_num s := rfl

@[simp]
theorem next_cur_apply (s : GenTree) : next_cur s = Res.ok () s.next := rfl

@[simp]
theorem test_expect_apply (tp : TokenType) (s : GenTree) :
    test_expect tp s = Res.ok (s.tok.type == tp) s := rfl

@[simp]
theorem parser_get_binary_op (e : Env) (n : Nat) :
    (parser e (n + 1)).get_binary_op = get_binary_op e (parser e n) := rfl

@[simp]
theorem parser_get_binary_op_loop (e : Env) (n : Nat) :
    (parser e (n + 1)).get_binary_op_loop = get_binary_op_loop e (parser e n) := rfl

@[simp]
theorem parser_get_expr_top (e : Env) (n : Nat) :
    (parser e (n + 1)).get_expr_top = get_expr_top (parser e n) := rfl

@[simp]
theorem parser_get_expression (e : Env) (n : Nat) :
    (parser e (n + 1)).get_expression = get_expression e (parser e n) := rfl

@[simp]
theorem parser_get_postfix_expression (e : Env) (n : Nat) :
    (parser e (n + 1)).get_postfix_expression = get_postfix_expression (parser e n) := rfl

theorem At.tok {s : GenTree} {t : Token} {ts : List Token} (h : At s (t :: ts)) : s.tok = t := by
  obtain ⟨h1, _, _⟩ := h
  unfold GenTree.tok
  have : s.tokens.getD s.cur default = (s.tokens.drop s.cur).headD default := by
    simp [List.getD_eq_getElem?_getD, List.head?_drop, List.headD_eq_head?_getD]
  rw [this, h1]; rfl

theorem At.cur_lt {s : GenTree} {ts : List Token} (h : At s ts) : s.cur ≤ s.end_ := by
  obtain ⟨h1, h2, h3⟩ := h
  have : s.cur < s.tokens.length := by
    by_contra hc
    apply h3; rw [← h1]; exact List.drop_eq_nil_of_le (by omega)
  omega

theorem At.not_end {s : GenTree} {t t' : Token} {ts : List Token} (h : At s (t :: t' :: ts)) :
    s.cur ≠ s.end_ := by
  obtain ⟨h1, h2, _⟩ := h
  have := congrArg List.length h1
  simp at this
  omega

theorem At.is_end {s : GenTree} {t : Token} (h : At s [t]) : s.cur = s.end_ := by
  obtain ⟨h1, h2, _⟩ := h
  have := congrArg List.length h1
  simp at this
  omega

theorem At.next {s : GenTree} {t t' : Token} {ts : List Token} (h : At s (t :: t' :: ts)) :
    At s.next (t' :: ts) := by
  have hne := h.not_end
  obtain ⟨h1, h2, _⟩ := h
  have hd : ({ s with cur := s.cur + 1 } : GenTree).tokens.drop (s.cur + 1) = t' :: ts := by
    show s.tokens.drop (s.cur + 1) = t' :: ts
    rw [← List.drop_drop, h1]; rfl
  unfold GenTree.next
  simp only [bne_iff_ne, ne_eq, hne, not_false_eq_true, ↓reduceIte]
  split <;> exact ⟨hd, h2, by simp⟩

theorem get_string_apply (s : GenTree) :
    get_string s = Res.ok (leaf op_string s.line_num s.tok.str_val) s.next := rfl

theorem get_var_name_apply (s : GenTree) (h : s.tok.type = tok_var_name) :
    get_var_name s = Res.ok (some (leaf op_var s.line_num s.tok.str_val)) s.next := by
  simp [get_var_name, h]
  rfl

theorem postfix_stop (c : Caps) (s : GenTree) (res : Option Vertex)
    (h : s.cur = s.end_ ∨ is_postfix_start s.tok.type = false) :
    get_postfix_expression c res s = Res.ok res s := by
  rcases h with h | h
  · simp [get_postfix_expression, h]
  · simp [is_postfix_start] at h
    simp [get_postfix_expression, h]

theorem expr_top_primary (e : Env) (n : Nat) (s : GenTree) (x t : Token) (ts : List Token)
    (hs : At s (x :: t :: ts)) (hx : (primary_op x.type).isSome)
    (ht : ts = [] ∨ is_postfix_start t.type = false) :
    get_expr_top (parser e (n + 1)) s = Res.ok (some (primary x s.line_num)) s.next := by
  have htok := hs.tok
  have hn := hs.next
  have hstop : s.next.cur = s.next.end_ ∨ is_postfix_start s.next.tok.type = false := by
    rcases ht with ht | ht
    · left; subst ht; exact hn.is_end
    · right; rw [hn.tok]; exact ht
  have hcases : x.type = tok_int_const ∨ x.type = tok_float_const ∨ x.type = tok_str
      ∨ x.type = tok_var_name ∨ x.type = tok_null ∨ x.type = tok_false ∨ x.type = tok_true := by
    cases hxt : x.type <;> simp [primary_op, hxt] at hx <;> simp
  rcases hcases with h | h | h | h | h | h | h <;>
    simp only [parser_get_postfix_expression, get_expr_top, P.bind_apply, getS_apply, Res.bind_ok,
      htok, h, primary, next_cur_apply, P.pure_apply, get_string_apply]
  · rw [get_var_name_apply s (by rw [htok, h])]
    simp [postfix_stop _ _ _ hstop, htok]

theorem binary_op_loop_stop (e : Env) (c : Caps) (p : Nat) (till : Bool) (left : Vertex)
    (s : GenTree) (h : NoBinary e p s) :
    get_binary_op_loop e c p till left s = Res.ok (some left) s := by
  rcases h with h | h | h
  · simp [get_binary_op_loop, h]
  · simp [get_binary_op_loop, h]
  · simp [get_binary_op_loop, h]

/-- Band `p` adds nothing to what band `p + 1` parsed when the cursor then rests on
no operator of band `p`. -/
theorem binary_op_ascend (e : Env) (n : Nat) (p : Nat) (till : Bool) (s s1 : GenTree)
    (left : Vertex) (hp : p < e.info.op_priority_end) (hu : NoUnary e p s)
    (h1 : get_binary_op e (parser e n) (p + 1) till s = Res.ok (some left) s1)
    (hb : NoBinary e p s1) :
    get_binary_op e (parser e (n + 1)) p till s = Res.ok (some left) s1 := by
  have hmin : min p e.info.op_priority_end = p := by omega
  have hne : ¬ (p = e.info.op_priority_end) := by omega
  have hun : (!(s.cur == s.end_) && e.info.tok_to_unary_op s.tok.type != op_err
      && decide (e.info.priority (e.info.tok_to_unary_op s.tok.type) ≤ p)) = false := by
    rcases hu with h | h | h
    · simp [h]
    · simp [h]
    · simp; intro _ _; omega
  unfold get_binary_op
  simp only [hmin, beq_iff_eq, hne, ↓reduceIte, P.bind_apply, cur_type_apply,
    Res.bind_ok, at_end_apply, hun, Bool.false_eq_true, parser_get_binary_op, h1]
  by_cases ht : (p == e.info.ternaryP && till) = true
  · simp [ht]
  · simp [ht, binary_op_loop_stop e _ p till left s1 hb]

/-- Band `p` and every band above it add nothing around a primary operand that is
followed by no operator of these bands: the operand is parsed and returned. -/
theorem binary_op_atom (e : Env) (s : GenTree) (x t : Token) (ts : List Token) (till : Bool)
    (hs : At s (x :: t :: ts)) (hx : (primary_op x.type).isSome)
    (hxu : e.info.tok_to_unary_op x.type = op_err)
    (ht : ts = [] ∨ is_postfix_start t.type = false) (d p : Nat)
    (hd : e.info.op_priority_end ≤ p + d)
    (hb : ∀ q, p ≤ q → NoBinary e q s.next) (n : Nat) (hn : d + 2 ≤ n) :
    get_binary_op e (parser e n) p till s = Res.ok (some (primary x s.line_num)) s.next := by
  induction d generalizing p n with
  | zero =>
    obtain ⟨m, rfl⟩ : ∃ m, n = m + 2 := ⟨n - 2, by omega⟩
    have hmin : min p e.info.op_priority_end = e.info.op_priority_end := by omega
    unfold get_binary_op
    simp [hmin, expr_top_primary e m s x t ts hs hx ht]
  | succ d ih =>
    obtain ⟨m, rfl⟩ : ∃ m, n = m + 1 := ⟨n - 1, by omega⟩
    by_cases hp : p < e.info.op_priority_end
    · apply binary_op_ascend e m p till s s.next _ hp
      · right; left; rw [hs.tok]; exact hxu
      · exact ih (p + 1) (by omega) (fun q hq => hb q (by omega)) m (by omega)
      · exact hb p (le_refl p)
    · exact ih p (by omega) hb (m + 1) (by omega)

theorem coerce_operands_some (op : Operation) (l r : Vertex) (s : GenTree) :
    coerce_operands op l (some r) s = Res.ok (coerced_left op l, some (coerced_right op r)) s := by
  cases op <;> rfl

theorem binary_op_loop_step (e : Env) (n p : Nat) (till : Bool) (left R : Vertex)
    (s s2 : GenTree) (o t : Token) (rest : List Token) (hs : At s (o :: t :: rest))
    (hb : e.info.tok_to_binary_op o.type ≠ op_err)
    (hpr : e.info.priority (e.info.tok_to_binary_op o.type) = p)
    (hnt : p ≠ e.info.ternaryP)
    (hr : get_binary_op e (parser e n)
      (p + (e.info.fixity (e.info.tok_to_binary_op o.type) == Fixity.left_opp).toNat)
      (till && decide (p ≥ e.info.ternaryP)) s.next = Res.ok (some R) s2) :
    get_binary_op_loop e (parser e (n + 1)) p till left s =
      if e.info.fixity (e.info.tok_to_binary_op o.type) = Fixity.left_opp then
        get_binary_op_loop e (parser e n) p till
          (binary_node (e.info.tok_to_binary_op o.type) s.line_num left R) s2
      else Res.ok (some (binary_node (e.info.tok_to_binary_op o.type) s.line_num left R)) s2 := by
  have hne := hs.not_end
  have htok := hs.tok
  conv_lhs => unfold get_binary_op_loop
  simp only [P.bind_apply, at_end_apply, Res.bind_ok, beq_iff_eq, hne, ↓reduceIte,
    cur_type_apply, htok, hb, hpr, bne_self_eq_false, Bool.or_self, Bool.false_eq_true,
    auto_location_apply, next_cur_apply, hnt, parser_get_binary_op, hr, Option.isNone_some,
    Bool.not_false, Bool.and_true, coerce_operands_some, P.pure_apply, Bool.or_false,
    parser_get_binary_op_loop, child_of, create_vertex, binary_node, P.ite_apply]
  simp [hnt]

/-- Band `p` parses its left operand in band `p + 1` and then runs its loop. -/
theorem binary_op_descend (e : Env) (n : Nat) (p : Nat) (till : Bool) (s s1 : GenTree)
    (left : Vertex) (r : Res (Option Vertex)) (hp : p < e.info.op_priority_end)
    (hu : NoUnary e p s) (hnt : p ≠ e.info.ternaryP)
    (h1 : get_binary_op e (parser e n) (p + 1) till s = Res.ok (some left) s1)
    (h2 : get_binary_op_loop e (parser e n) p till left s1 = r) :
    get_binary_op e (parser e (n + 1)) p till s = r := by
  have hmin : min p e.info.op_priority_end = p := by omega
  have hne : ¬ (p = e.info.op_priority_end) := by omega
  have hun : (!(s.cur == s.end_) && e.info.tok_to_unary_op s.tok.type != op_err
      && decide (e.info.priority (e.info.tok_to_unary_op s.tok.type) ≤ p)) = false := by
    rcases hu with h | h | h
    · simp [h]
    · simp [h]
    · simp; intro _ _; omega
  unfold get_binary_op
  simp only [hmin, beq_iff_eq, hne, ↓reduceIte, P.bind_apply, cur_type_apply,
    Res.bind_ok, at_end_apply, hun, Bool.false_eq_true, parser_get_binary_op, h1]
  simp [hnt, h2]

/-- Bands `p` to `p + d - 1` add nothing to what band `p + d` parsed when the cursor
then rests on no operator of these bands. -/
theorem binary_op_ascend_many (e : Env) (till : Bool) (s s1 : GenTree) (left : Vertex)
    (d p n : Nat) (hp : p + d ≤ e.info.op_priority_end) (hu : ∀ q, p ≤ q → NoUnary e q s)
    (h1 : get_binary_op e (parser e n) (p + d) till s = Res.ok (some left) s1)
    (hb : ∀ q, p ≤ q → q < p + d → NoBinary e q s1) :
    get_binary_op e (parser e (n + d)) p till s = Res.ok (some left) s1 := by
  induction d generalizing p with
  | zero => exact h1
  | succ d ih =>
    have := ih (p + 1) (by omega) (fun q hq => hu q (by omega))
      (by rw [show p + 1 + d = p + (d + 1) by omega]; exact h1)
      (fun q hq1 hq2 => hb q (by omega) (by omega))
    exact binary_op_ascend e (n + d) p till s s1 left (by omega) (hu p (le_refl p)) this
      (hb p (le_refl p) (by omega))

theorem ev_atom (e : Env) (s : GenTree) (x t : Token) (ts : List Token) (till : Bool)
    (p : Nat) (hs : At s (x :: t :: ts)) (hx : (primary_op x.type).isSome)
    (hxu : e.info.tok_to_unary_op x.type = op_err)
    (ht : ts = [] ∨ is_postfix_start t.type = false)
    (hb : ∀ q, p ≤ q → NoBinary e q s.next) :
    Ev (fun n => get_binary_op e (parser e n) p till s)
      (Res.ok (some (primary x s.line_num)) s.next) :=
  ⟨e.info.op_priority_end + 2, fun n hn =>
    binary_op_atom e s x t ts till hs hx hxu ht e.info.op_priority_end p (by omega) hb n hn⟩

theorem ev_descend (e : Env) (p : Nat) (till : Bool) (s s1 : GenTree)
    (left : Vertex) (r : Res (Option Vertex)) (hp : p < e.info.op_priority_end)
    (hu : NoUnary e p s) (hnt : p ≠ e.info.ternaryP)
    (h1 : Ev (fun n => get_binary_op e (parser e n) (p + 1) till s) (Res.ok (some left) s1))
    (h2 : Ev (fun n => get_binary_op_loop e (parser e n) p till left s1) r) :
    Ev (fun n => get_binary_op e (parser e n) p till s) r := by
  obtain ⟨N1, h1⟩ := h1
  obtain ⟨N2, h2⟩ := h2
  refine ⟨max N1 N2 + 1, fun n hn => ?_⟩
  obtain ⟨m, rfl⟩ : ∃ m, n = m + 1 := ⟨n - 1, by omega⟩
  exact binary_op_descend e m p till s s1 left r hp hu hnt (h1 m (by omega)) (h2 m (by omega))

theorem ev_ascend_many (e : Env) (till : Bool) (s s1 : GenTree) (left : Vertex)
    (d p : Nat) (hp : p + d ≤ e.info.op_priority_end) (hu : ∀ q, p ≤ q → NoUnary e q s)
    (h1 : Ev (fun n => get_binary_op e (parser e n) (p + d) till s) (Res.ok (some left) s1))
    (hb : ∀ q, p ≤ q → q < p + d → NoBinary e q s1) :
    Ev (fun n => get_binary_op e (parser e n) p till s) (Res.ok (some left) s1) := by
  obtain ⟨N1, h1⟩ := h1
  refine ⟨N1 + d, fun n hn => ?_⟩
  obtain ⟨m, rfl⟩ : ∃ m, n = m + d := ⟨n - d, by omega⟩
  exact binary_op_ascend_many e till s s1 left d p m hp hu (h1 m (by omega)) hb

theorem ev_loop_stop (e : Env) (p : Nat) (till : Bool) (left : Vertex)
    (s : GenTree) (h : NoBinary e p s) :
    Ev (fun n => get_binary_op_loop e (parser e n) p till left s) (Res.ok (some left) s) :=
  ⟨0, fun _ _ => binary_op_loop_stop e _ p till left s h⟩

theorem ev_loop_step (e : Env) (p : Nat) (till : Bool) (left R : Vertex)
    (s s2 : GenTree) (o t : Token) (rest : List Token) (r : Res (Option Vertex))
    (hs : At s (o :: t :: rest))
    (hb : e.info.tok_to_binary_op o.type ≠ op_err)
    (hpr : e.info.priority (e.info.tok_to_binary_op o.type) = p)
    (hnt : p ≠ e.info.ternaryP)
    (hr : Ev (fun n => get_binary_op e (parser e n)
      (p + (e.info.fixity (e.info.tok_to_binary_op o.type) == Fixity.left_opp).toNat)
      (till && decide (p ≥ e.info.ternaryP)) s.next) (Res.ok (some R) s2))
    (hk : if e.info.fixity (e.info.tok_to_binary_op o.type) = Fixity.left_opp then
        Ev (fun n => get_binary_op_loop e (parser e n) p till
          (binary_node (e.info.tok_to_binary_op o.type) s.line_num left R) s2) r
      else r = Res.ok (some (binary_node (e.info.tok_to_binary_op o.type) s.line_num left R)) s2) :
    Ev (fun n => get_binary_op_loop e (parser e n) p till left s) r := by
  obtain ⟨N1, hr⟩ := hr
  by_cases hf : e.info.fixity (e.info.tok_to_binary_op o.type) = Fixity.left_opp
  · rw [if_pos hf] at hk
    obtain ⟨N2, hk⟩ := hk
    refine ⟨max N1 N2 + 1, fun n hn => ?_⟩
    obtain ⟨m, rfl⟩ : ∃ m, n = m + 1 := ⟨n - 1, by omega⟩
    beta_reduce
    rw [binary_op_loop_step e m p till left R s s2 o t rest hs hb hpr hnt (hr m (by omega)),
      if_pos hf]
    exact hk m (by omega)
  · rw [if_neg hf] at hk
    refine ⟨N1 + 1, fun n hn => ?_⟩
    obtain ⟨m, rfl⟩ : ∃ m, n = m + 1 := ⟨n - 1, by omega⟩
    beta_reduce
    rw [binary_op_loop_step e m p till left R s s2 o t rest hs hb hpr hnt (hr m (by omega)),
      if_neg hf, hk]

theorem skip_phpdoc_tokens_none (s : GenTree) (h : s.tok.type ≠ tok_phpdoc) :
    skip_phpdoc_tokens s = Res.ok () s := by
  simp [skip_phpdoc_tokens, skip_phpdoc_loop, h]

theorem ev_get_expression (e : Env) (s : GenTree) (r : Res (Option Vertex))
    (h : s.tok.type ≠ tok_phpdoc)
    (h1 : Ev (fun n => get_binary_op e (parser e n) e.info.op_priority_begin false s) r) :
    Ev (fun n => (parser e n).get_expression s) r := by
  obtain ⟨N1, h1⟩ := h1
  refine ⟨N1 + 2, fun n hn => ?_⟩
  obtain ⟨m, rfl⟩ : ∃ m, n = m + 2 := ⟨n - 2, by omega⟩
  simp [get_expression, skip_phpdoc_tokens_none s h, get_expression_impl, h1 m (by omega)]

theorem Operand.not_phpdoc {e : Env} {x : Token} (h : Operand e x) : x.type ≠ tok_phpdoc := by
  intro hx
  have := h.primary
  simp [hx, primary_op] at this

theorem NoBinary.of_end {e : Env} {p : Nat} {s : GenTree} {t : Token} (h : At s [t]) :
    NoBinary e p s := Or.inl h.is_end

theorem NoBinary.of_band {e : Env} {q p : Nat} {s : GenTree} {o : Token} {ts : List Token}
    {op : Operation} {f : Fixity} (h : At s (o :: ts)) (ho : BinaryAt e o op p f) (hq : p ≠ q) :
    NoBinary e q s := by
  right; right
  rw [h.tok, ho.op_eq, ho.prio]; exact hq

theorem NoUnary.of_operand {e : Env} {q : Nat} {s : GenTree} {x : Token} {ts : List Token}
    (h : At s (x :: ts)) (hx : Operand e x) : NoUnary e q s := by
  right; left; rw [h.tok]; exact hx.no_unary

/-- Parsing `x lo y hi z` with `lo` of a lower band than `hi`, both left-associative. -/
theorem precedence_ev (e : Env) (x lo y hi z eof : Token) (opLo opHi : Operation) (pl ph : Nat)
    (hlo : BinaryAt e lo opLo pl Fixity.left_opp) (hhi : BinaryAt e hi opHi ph Fixity.left_opp)
    (hlt : pl < ph) (hx : Operand e x) (hy : Operand e y) (hz : Operand e z)
    (s : GenTree) (hs : At s [x, lo, y, hi, z, eof]) :
    Ev (fun n => (parser e n).get_expression s)
      (Res.ok (some (binary_node opLo s.next.line_num (primary x s.line_num)
        (binary_node opHi s.next.next.next.line_num (primary y s.next.next.line_num)
          (primary z s.next.next.next.next.line_num))))
        s.next.next.next.next.next) := by
  have hs1 := hs.next
  have hs2 := hs1.next
  have hs3 := hs2.next
  have hs4 := hs3.next
  have hs5 := hs4.next
  -- the operand z in the bands above hi
  have hZ := ev_atom e _ z eof [] false (ph + 1) hs4 hz.primary hz.no_unary (Or.inl rfl)
    (fun q _ => NoBinary.of_end hs5)
  -- the loop of band ph folds hi(y, z)
  have hHiLoop : Ev (fun n => get_binary_op_loop e (parser e n) ph false
      (primary y s.next.next.line_num) s.next.next.next) _ :=
    ev_loop_step e ph false _ _ _ _ hi z [eof] _ hs3 (by rw [hhi.op_eq]; exact hhi.ne_err)
      (by rw [hhi.op_eq]; exact hhi.prio) hhi.not_ternary
      (by rw [hhi.op_eq, hhi.fix]; simpa using hZ)
      (by rw [hhi.op_eq, hhi.fix, if_pos rfl]; exact ev_loop_stop e ph false _ _ (NoBinary.of_end hs5))
  have hY := ev_atom e _ y hi [z, eof] false (ph + 1) hs2 hy.primary hy.no_unary
    (Or.inr hhi.not_postfix) (fun q hq => NoBinary.of_band hs3 hhi (by omega))
  have hHi := ev_descend e ph false _ _ _ _ hhi.lt_end (NoUnary.of_operand hs2 hy)
    hhi.not_ternary hY hHiLoop
  -- the bands between lo and hi add nothing
  have hHi' := ev_ascend_many e false _ _ _ (ph - (pl + 1)) (pl + 1)
    (by have := hhi.lt_end; omega) (fun q _ => NoUnary.of_operand hs2 hy)
    (by rw [show pl + 1 + (ph - (pl + 1)) = ph by omega]; exact hHi)
    (fun q _ _ => NoBinary.of_end hs5)
  -- the loop of band pl folds lo(x, hi(y, z))
  have hLoLoop : Ev (fun n => get_binary_op_loop e (parser e n) pl false
      (primary x s.line_num) s.next) _ :=
    ev_loop_step e pl false _ _ _ _ lo y [hi, z, eof] _ hs1 (by rw [hlo.op_eq]; exact hlo.ne_err)
      (by rw [hlo.op_eq]; exact hlo.prio) hlo.not_ternary
      (by rw [hlo.op_eq, hlo.fix]; simpa using hHi')
      (by rw [hlo.op_eq, hlo.fix, if_pos rfl]; exact ev_loop_stop e pl false _ _ (NoBinary.of_end hs5))
  have hX := ev_atom e _ x lo [y, hi, z, eof] false (pl + 1) hs hx.primary hx.no_unary
    (Or.inr hlo.not_postfix) (fun q hq => NoBinary.of_band hs1 hlo (by omega))
  have hLo := ev_descend e pl false _ _ _ _ hlo.lt_end (NoUnary.of_operand hs hx)
    hlo.not_ternary hX hLoLoop
  -- the bands below lo add nothing
  have hAll := ev_ascend_many e false _ _ _ (pl - e.info.op_priority_begin)
    e.info.op_priority_begin (by have := hlo.lt_end; have := hlo.ge_begin; omega)
    (fun q _ => NoUnary.of_operand hs hx)
    (by rw [show e.info.op_priority_begin + (pl - e.info.op_priority_begin) = pl by
          have := hlo.ge_begin; omega]; exact hLo)
    (fun q _ _ => NoBinary.of_end hs5)
  exact ev_get_expression e s _ (by rw [hs.tok]; exact hx.not_phpdoc) hAll

theorem chain_head_cases (ps : List (Token × Token)) (eof : Token) :
    (ps = [] ∧ chain_tokens ps ++ [eof] = [eof]) ∨
    (∃ o a ps', ps = (o, a) :: ps' ∧ chain_tokens ps ++ [eof] = o :: a :: (chain_tokens ps' ++ [eof])) := by
  cases ps with
  | nil => left; exact ⟨rfl, rfl⟩
  | cons p ps' => right; exact ⟨p.1, p.2, ps', rfl, rfl⟩

theorem left_chain_loop (e : Env) (op : Operation) (p : Nat) (eof : Token)
    (ps : List (Token × Token))
    (hops : ∀ q ∈ ps, BinaryAt e q.1 op p Fixity.left_opp ∧ Operand e q.2)
    (left : Vertex) (s : GenTree) (hs : At s (chain_tokens ps ++ [eof])) :
    Ev (fun n => get_binary_op_loop e (parser e n) p false left s)
      (Res.ok (some (left_chain op ps left s)) (GenTree.next^[2 * ps.length] s)) := by
  induction ps generalizing left s with
  | nil => exact ev_loop_stop e p false left s (NoBinary.of_end hs)
  | cons q ps ih =>
    obtain ⟨o, a⟩ := q
    have ⟨ho, ha⟩ := hops (o, a) (List.mem_cons_self _ _)
    have hrest : ∀ q ∈ ps, BinaryAt e q.1 op p Fixity.left_opp ∧ Operand e q.2 :=
      fun q hq => hops q (List.mem_cons_of_mem _ hq)
    have hs' : At s (o :: a :: (chain_tokens ps ++ [eof])) := hs
    have hfinal : GenTree.next^[2 * ((o, a) :: ps).length] s
        = GenTree.next^[2 * ps.length] s.next.next := by
      rw [List.length_cons, show 2 * (ps.length + 1) = (2 * ps.length + 1) + 1 by omega,
        Function.iterate_succ_apply, Function.iterate_succ_apply]
    rw [hfinal]
    rcases chain_head_cases ps eof with ⟨hnil, htoks⟩ | ⟨o', a', ps', hcons, htoks⟩
    · rw [htoks] at hs'
      have hs1 := hs'.next
      have hs2 := hs1.next
      have hA := ev_atom e _ a eof [] false (p + 1) hs1 ha.primary ha.no_unary (Or.inl rfl)
        (fun q _ => NoBinary.of_end hs2)
      refine ev_loop_step e p false left _ s _ o a [eof] _ hs'
        (by rw [ho.op_eq]; exact ho.ne_err) (by rw [ho.op_eq]; exact ho.prio) ho.not_ternary
        (by rw [ho.op_eq, ho.fix]; simpa using hA) ?_
      rw [ho.op_eq, ho.fix, if_pos rfl]
      exact ih hrest _ _ (by rw [htoks]; exact hs2)
    · rw [htoks] at hs'
      have hs1 := hs'.next
      have hs2 := hs1.next
      have ho' := (hrest (o', a') (by rw [hcons]; exact List.mem_cons_self _ _)).1
      have hA := ev_atom e _ a o' (a' :: (chain_tokens ps' ++ [eof])) false (p + 1) hs1
        ha.primary ha.no_unary (Or.inr ho'.not_postfix)
        (fun q hq => NoBinary.of_band hs2 ho' (by omega))
      refine ev_loop_step e p false left _ s _ o a _ _ hs'
        (by rw [ho.op_eq]; exact ho.ne_err) (by rw [ho.op_eq]; exact ho.prio) ho.not_ternary
        (by rw [ho.op_eq, ho.fix]; simpa using hA) ?_
      rw [ho.op_eq, ho.fix, if_pos rfl]
      exact ih hrest _ _ (by rw [htoks]; exact hs2)

theorem At.iterate_end (eof : Token) (ps : List (Token × Token)) (s : GenTree)
    (hs : At s (chain_tokens ps ++ [eof])) : At (GenTree.next^[2 * ps.length] s) [eof] := by
  induction ps generalizing s with
  | nil => exact hs
  | cons q ps ih =>
    obtain ⟨o, a⟩ := q
    have hs' : At s (o :: a :: (chain_tokens ps ++ [eof])) := hs
    rw [List.length_cons, show 2 * (ps.length + 1) = (2 * ps.length + 1) + 1 by omega,
        Function.iterate_succ_apply, Function.iterate_succ_apply]
    rcases chain_head_cases ps eof with ⟨hnil, htoks⟩ | ⟨o', a', ps', hcons, htoks⟩
    · rw [htoks] at hs'
      exact ih _ (by rw [htoks]; exact hs'.next.next)
    · rw [htoks] at hs'
      exact ih _ (by rw [htoks]; exact hs'.next.next)

/-- Parsing a chain `a0 op a1 op ... op ak` of one left-associative operator. -/
theorem left_chain_ev (e : Env) (op : Operation) (p : Nat) (a0 eof : Token)
    (ps : List (Token × Token)) (ha0 : Operand e a0)
    (hops : ∀ q ∈ ps, BinaryAt e q.1 op p Fixity.left_opp ∧ Operand e q.2)
    (s : GenTree) (hs : At s (a0 :: (chain_tokens ps ++ [eof]))) :
    Ev (fun n => (parser e n).get_expression s)
      (Res.ok (some (left_chain op ps (primary a0 s.line_num) s.next))
        (GenTree.next^[2 * ps.length] s.next)) := by
  apply ev_get_expression e s _ (by rw [hs.tok]; exact ha0.not_phpdoc)
  rcases chain_head_cases ps eof with ⟨hnil, htoks⟩ | ⟨o, a, ps', hcons, htoks⟩
  · subst hnil
    rw [htoks] at hs
    exact ev_atom e s a0 eof [] false _ hs ha0.primary ha0.no_unary (Or.inl rfl)
      (fun q _ => NoBinary.of_end hs.next)
  · have ⟨ho, _⟩ := hops (o, a) (by rw [hcons]; exact List.mem_cons_self _ _)
    have hs' := hs
    rw [htoks] at hs'
    have hs1 := hs'.next
    have hA := ev_atom e s a0 o _ false (p + 1) hs' ha0.primary ha0.no_unary
      (Or.inr ho.not_postfix) (fun q hq => NoBinary.of_band hs1 ho (by omega))
    have hloop := left_chain_loop e op p eof ps hops (primary a0 s.line_num) s.next
      (by rw [htoks]; exact hs1)
    have hband := ev_descend e p false _ _ _ _ ho.lt_end (NoUnary.of_operand hs ha0)
      ho.not_ternary hA hloop
    have hend := At.iterate_end eof ps s.next (by rw [htoks]; exact hs1)
    exact ev_ascend_many e false _ _ _ (p - e.info.op_priority_begin)
      e.info.op_priority_begin (by have := ho.lt_end; have := ho.ge_begin; omega)
      (fun q _ => NoUnary.of_operand hs ha0)
      (by rw [show e.info.op_priority_begin + (p - e.info.op_priority_begin) = p by
            have := ho.ge_begin; omega]; exact hband)
      (fun q _ _ => NoBinary.of_end hend)

theorem At.iterate_end_cons (a0 eof : Token) (ps : List (Token × Token)) (s : GenTree)
    (hs : At s (a0 :: (chain_tokens ps ++ [eof]))) :
    At (GenTree.next^[2 * ps.length + 1] s) [eof] := by
  rw [Function.iterate_succ_apply]
  rcases chain_head_cases ps eof with ⟨hnil, htoks⟩ | ⟨o, a, ps', hcons, htoks⟩
  · exact At.iterate_end eof ps s.next (by rw [htoks]; rw [htoks] at hs; exact hs.next)
  · exact At.iterate_end eof ps s.next (by rw [htoks]; rw [htoks] at hs; exact hs.next)

theorem right_chain_band (e : Env) (op : Operation) (p : Nat) (eof : Token)
    (ps : List (Token × Token))
    (hops : ∀ q ∈ ps, BinaryAt e q.1 op p Fixity.right_opp ∧ Operand e q.2)
    (hp : p < e.info.op_priority_end) (hnt : p ≠ e.info.ternaryP)
    (a0 : Token) (ha0 : Operand e a0) (s : GenTree) (till : Bool)
    (hs : At s (a0 :: (chain_tokens ps ++ [eof]))) :
    Ev (fun n => get_binary_op e (parser e n) p till s)
      (Res.ok (some (right_chain op a0 ps s)) (GenTree.next^[2 * ps.length + 1] s)) := by
  induction ps generalizing a0 s till with
  | nil =>
    exact ev_atom e s a0 eof [] till p hs ha0.primary ha0.no_unary (Or.inl rfl)
      (fun q _ => NoBinary.of_end hs.next)
  | cons q ps ih =>
    obtain ⟨o, a⟩ := q
    have ⟨ho, ha⟩ := hops (o, a) (List.mem_cons_self _ _)
    have hrest : ∀ q ∈ ps, BinaryAt e q.1 op p Fixity.right_opp ∧ Operand e q.2 :=
      fun q hq => hops q (List.mem_cons_of_mem _ hq)
    have hs' : At s (a0 :: o :: a :: (chain_tokens ps ++ [eof])) := hs
    have hs1 := hs'.next
    have hs2 := hs1.next
    have hfinal : GenTree.next^[2 * ((o, a) :: ps).length + 1] s
        = GenTree.next^[2 * ps.length + 1] s.next.next := by
      rw [List.length_cons, show 2 * (ps.length + 1) + 1 = ((2 * ps.length + 1) + 1) + 1 by omega,
        Function.iterate_succ_apply, Function.iterate_succ_apply]
    rw [hfinal]
    have hA := ev_atom e s a0 o _ till (p + 1) hs' ha0.primary ha0.no_unary
      (Or.inr ho.not_postfix) (fun q hq => NoBinary.of_band hs1 ho (by omega))
    have hR := ih hrest a ha s.next.next (till && decide (p ≥ e.info.ternaryP)) hs2
    refine ev_descend e p till s s.next _ _ hp (NoUnary.of_operand hs ha0) hnt hA ?_
    refine ev_loop_step e p till _ _ s.next _ o a _ _ hs1
      (by rw [ho.op_eq]; exact ho.ne_err) (by rw [ho.op_eq]; exact ho.prio) ho.not_ternary
      (by rw [ho.op_eq, ho.fix]; simpa using hR) ?_
    rw [ho.op_eq, ho.fix, if_neg (by decide)]
    rfl

/-- Parsing a chain `a0 op a1 op ... op ak` of one right-associative operator. -/
theorem right_chain_ev (e : Env) (op : Operation) (p : Nat) (a0 eof : Token)
    (ps : List (Token × Token)) (ha0 : Operand e a0)
    (hops : ∀ q ∈ ps, BinaryAt e q.1 op p Fixity.right_opp ∧ Operand e q.2)
    (s : GenTree) (hs : At s (a0 :: (chain_tokens ps ++ [eof]))) :
    Ev (fun n => (parser e n).get_expression s)
      (Res.ok (some (right_chain op a0 ps s)) (GenTree.next^[2 * ps.length + 1] s)) := by
  apply ev_get_expression e s _ (by rw [hs.tok]; exact ha0.not_phpdoc)
  rcases chain_head_cases ps eof with ⟨hnil, htoks⟩ | ⟨o, a, ps', hcons, htoks⟩
  · subst hnil
    rw [htoks] at hs
    exact ev_atom e s a0 eof [] false _ hs ha0.primary ha0.no_unary (Or.inl rfl)
      (fun q _ => NoBinary.of_end hs.next)
  · have ⟨ho, _⟩ := hops (o, a) (by rw [hcons]; exact List.mem_cons_self _ _)
    have hband := right_chain_band e op p eof ps hops ho.lt_end ho.not_ternary a0 ha0 s false hs
    have hend := At.iterate_end_cons a0 eof ps s hs
    exact ev_ascend_many e false _ _ _ (p - e.info.op_priority_begin)
      e.info.op_priority_begin (by have := ho.lt_end; have := ho.ge_begin; omega)
      (fun q _ => NoUnary.of_operand hs ha0)
      (by rw [show e.info.op_priority_begin + (p - e.info.op_priority_begin) = p by
            have := ho.ge_begin; omega]; exact hband)
      (fun q _ _ => NoBinary.of_end hend)

theorem binary_node_type (op : Operation) (line : Int) (l r : Vertex) :
    (binary_node op line l r).type = op := rfl

theorem binary_node_next (op : Operation) (line : Int) (l r : Vertex) :
    (binary_node op line l r).next = [coerced_left op l, coerced_right op r] := rfl

/-- Claim C6: the node `get_binary_op` folds for a non-ternary binary operator over the
parsed operands `l` and `r` has the children `conv_bool(l)`, `conv_bool(r)` for a logical
operator, `l`, `conv_int(r)` for a bitwise assignment, `conv_int(l)`, `conv_int(r)` for a
bitwise logical operator, and `l`, `r` unchanged for every other operator. -/
theorem binary_coercions (e : Env) (n p : Nat) (till : Bool) (l r : Vertex)
    (s s2 : GenTree) (o t : Token) (rest : List Token) (hs : At s (o :: t :: rest))
    (hb : e.info.tok_to_binary_op o.type ≠ op_err)
    (hpr : e.info.priority (e.info.tok_to_binary_op o.type) = p)
    (hnt : p ≠ e.info.ternaryP)
    (hr : get_binary_op e (parser e n)
      (p + (e.info.fixity (e.info.tok_to_binary_op o.type) == Fixity.left_opp).toNat)
      (till && decide (p ≥ e.info.ternaryP)) s.next = Res.ok (some r) s2) :
    ∃ v : Vertex,
      get_binary_op_loop e (parser e (n + 1)) p till l s =
        (if e.info.fixity (e.info.tok_to_binary_op o.type) = Fixity.left_opp then
          get_binary_op_loop e (parser e n) p till v s2
        else Res.ok (some v) s2)
      ∧ v.type = e.info.tok_to_binary_op o.type
      ∧ (e.info.tok_to_binary_op o.type ∈
            [op_log_or, op_log_and, op_log_or_let, op_log_and_let, op_log_xor_let] →
          v.next = [conv_to tp_bool l, conv_to tp_bool r])
      ∧ (e.info.tok_to_binary_op o.type ∈
            [op_set_or, op_set_and, op_set_xor, op_set_shl, op_set_shr] →
          v.next = [l, conv_to tp_int r])
      ∧ (e.info.tok_to_binary_op o.type ∈ [op_or, op_and, op_xor] →
          v.next = [conv_to tp_int l, conv_to tp_int r])
      ∧ (e.info.tok_to_binary_op o.type ∉
            [op_log_or, op_log_and, op_log_or_let, op_log_and_let, op_log_xor_let,
             op_set_or, op_set_and, op_set_xor, op_set_shl, op_set_shr,
             op_or, op_and, op_xor] →
          v.next = [l, r]) := by
  refine ⟨binary_node (e.info.tok_to_binary_op o.type) s.line_num l r,
    binary_op_loop_step e n p till l r s s2 o t rest hs hb hpr hnt hr, rfl, ?_, ?_, ?_, ?_⟩
  all_goals
    generalize e.info.tok_to_binary_op o.type = op
    intro h
    rw [binary_node_next]
    simp only [List.mem_cons, List.mem_singleton, List.not_mem_nil, or_false, not_or] at h
  · rcases h with h | h | h | h | h <;> subst h <;> rfl
  · rcases h with h | h | h | h | h <;> subst h <;> rfl
  · rcases h with h | h | h <;> subst h <;> rfl
  · simp [coerced_left, coerced_right, is_logical_op, is_bit_assign_op, is_bit_logical_op, h]

/-- The shape of a conversion node. -/
theorem conv_to_bool_eq (x : Vertex) :
    conv_to tp_bool x = (Vertex.create op_conv_bool [x]).set_location x.location := rfl

theorem conv_to_int_eq (x : Vertex) :
    conv_to tp_int x = (Vertex.create op_conv_int [x]).set_location x.location := rfl

@[simp]
theorem kphp_error_apply (x : Bool) (msg : String) (s : GenTree) :
    kphp_error x msg s = if x then Res.ok false s else Res.ok true (s.report msg) := rfl

theorem expect_apply (tp : TokenType) (msg : String) (s : GenTree) :
    expect tp msg s = if s.tok.type = tp then Res.ok true s.next
      else Res.ok false (s.report ("Expected " ++ msg ++ ", found '" ++ found_str s ++ "'")) := by
  unfold expect
  by_cases h : s.tok.type = tp <;> simp [h]

theorem get_if_condition (c : Caps) (s s' : GenTree) (v : Vertex)
    (h : get_if c s = Res.ok (some v) s') :
    ∃ e s1 s2, skip_phpdoc_tokens s.next.next = Res.ok () s1 ∧
      c.get_expression s1 = Res.ok (some e) s2 ∧ v.type = op_if ∧
      v.next.head? = some (conv_to tp_bool e) := by
  unfold get_if at h
  simp only [P.bind_apply, auto_location_apply, next_cur_apply, Res.bind_ok, expect_apply] at h
  by_cases h1 : s.next.tok.type = tok_oppar
  · simp only [h1, ↓reduceIte, Res.bind_ok, Bool.not_true, Bool.false_eq_true] at h
    rcases hskip : skip_phpdoc_tokens s.next.next with ⟨_, s1⟩ | err
    · simp only [hskip, Res.bind_ok, P.bind_apply] at h
      rcases hexpr : c.get_expression s1 with ⟨oe, s2⟩ | err
      · cases oe with
        | none => simp [hexpr] at h
        | some e =>
          refine ⟨e, s1, s2, rfl, hexpr, ?_⟩
          simp only [hexpr, Res.bind_ok, P.bind_apply, expect_apply] at h
          by_cases h2 : s2.tok.type = tok_clpar
          · simp only [h2, ↓reduceIte, Res.bind_ok, Bool.not_true, Bool.false_eq_true,
              P.bind_apply] at h
            rcases hbody : c.get_statement none s2.next with ⟨ob, s3⟩ | err
            · cases ob with
              | none => simp [hbody] at h
              | some body =>
                simp only [hbody, Res.bind_ok, P.bind_apply, cur_type_apply, beq_iff_eq] at h
                by_cases h3 : s3.tok.type = tok_else
                · simp only [h3, ↓reduceIte, P.bind_apply, next_cur_apply, Res.bind_ok] at h
                  rcases helse : c.get_statement none s3.next with ⟨ob2, s4⟩ | err
                  · cases ob2 with
                    | none => simp [helse] at h
                    | some third =>
                      simp only [helse, Res.bind_ok, P.pure_apply, Res.ok.injEq,
                        Option.some.injEq] at h
                      obtain ⟨hv, _⟩ := h
                      subst hv
                      exact ⟨rfl, rfl⟩
                  · simp [helse] at h
                · simp only [h3, ↓reduceIte, P.pure_apply, Res.ok.injEq, Option.some.injEq] at h
                  obtain ⟨hv, _⟩ := h
                  subst hv
                  exact ⟨rfl, rfl⟩
            · simp [hbody] at h
          · simp [h2] at h
      · simp [hexpr] at h
    · simp [hskip] at h
  · simp [h1] at h

theorem get_while_condition (c : Caps) (s s' : GenTree) (v : Vertex)
    (h : get_while c s = Res.ok (some v) s') :
    ∃ e s1 s2, skip_phpdoc_tokens s.next.next = Res.ok () s1 ∧
      c.get_expression s1 = Res.ok (some e) s2 ∧ v.type = op_while ∧
      v.next.head? = some (conv_to tp_bool e) := by
  unfold get_while at h
  simp only [P.bind_apply, auto_location_apply, next_cur_apply, Res.bind_ok, expect_apply] at h
  by_cases h1 : s.next.tok.type = tok_oppar
  · simp only [h1, ↓reduceIte, Res.bind_ok, Bool.not_true, Bool.false_eq_true] at h
    rcases hskip : skip_phpdoc_tokens s.next.next with ⟨_, s1⟩ | err
    · simp only [hskip, Res.bind_ok, P.bind_apply] at h
      rcases hexpr : c.get_expression s1 with ⟨oe, s2⟩ | err
      · cases oe with
        | none => simp [hexpr] at h
        | some e =>
          refine ⟨e, s1, s2, rfl, hexpr, ?_⟩
          simp only [hexpr, Res.bind_ok, P.bind_apply, expect_apply] at h
          by_cases h2 : s2.tok.type = tok_clpar
          · simp only [h2, ↓reduceIte, Res.bind_ok, Bool.not_true, Bool.false_eq_true,
              P.bind_apply] at h
            rcases hbody : c.get_statement none s2.next with ⟨ob, s3⟩ | err
            · cases ob with
              | none => simp [hbody] at h
              | some body =>
                simp only [hbody, Res.bind_ok, P.pure_apply, Res.ok.injEq,
                  Option.some.injEq] at h
                obtain ⟨hv, _⟩ := h
                subst hv
                exact ⟨rfl, rfl⟩
            · simp [hbody] at h
          · simp [h2] at h
      · simp [hexpr] at h
    · simp [hskip] at h
  · simp [h1] at h

theorem get_do_condition (c : Caps) (s s' : GenTree) (v : Vertex)
    (h : get_do c s = Res.ok (some v) s') :
    ∃ body sb e s1 s2, c.get_statement none s.next = Res.ok (some body) sb ∧
      skip_phpdoc_tokens sb.next.next = Res.ok () s1 ∧
      c.get_expression s1 = Res.ok (some e) s2 ∧ v.type = op_do ∧
      v.next = [conv_to tp_bool e, body] := by
  unfold get_do at h
  simp only [P.bind_apply, auto_location_apply, next_cur_apply, Res.bind_ok] at h
  rcases hbody : c.get_statement none s.next with ⟨ob, sb⟩ | err
  · cases ob with
    | none => simp [hbody] at h
    | some body =>
      simp only [hbody, Res.bind_ok, P.bind_apply, expect_apply] at h
      by_cases h1 : sb.tok.type = tok_while
      · simp only [h1, ↓reduceIte, Res.bind_ok, Bool.not_true, Bool.false_eq_true, P.bind_apply,
          expect_apply] at h
        by_cases h2 : sb.next.tok.type = tok_oppar
        · simp only [h2, ↓reduceIte, Res.bind_ok, Bool.not_true, Bool.false_eq_true,
            P.bind_apply] at h
          rcases hskip : skip_phpdoc_tokens sb.next.next with ⟨_, s1⟩ | err
          · simp only [hskip, Res.bind_ok, P.bind_apply] at h
            rcases hexpr : c.get_expression s1 with ⟨oe, s2⟩ | err
            · cases oe with
              | none => simp [hexpr] at h
              | some e =>
                refine ⟨body, sb, e, s1, s2, rfl, hskip, hexpr, ?_⟩
                simp only [hexpr, Res.bind_ok, P.bind_apply, expect_apply] at h
                by_cases h3 : s2.tok.type = tok_clpar
                · simp only [h3, ↓reduceIte, Res.bind_ok, Bool.not_true, Bool.false_eq_true,
                    P.bind_apply, expect_apply] at h
                  by_cases h4 : s2.next.tok.type = tok_semicolon
                  · simp only [h4, ↓reduceIte, Res.bind_ok, Bool.not_true, Bool.false_eq_true,
                      P.pure_apply, Res.ok.injEq, Option.some.injEq] at h
                    obtain ⟨hv, _⟩ := h
                    subst hv
                    exact ⟨rfl, rfl⟩
                  · simp [h4] at h
                · simp [h3] at h
            · simp [hexpr] at h
          · simp [hskip] at h
        · simp [h2] at h
      · simp [h1] at h
  · simp [hbody] at h

/-- What `create_ternary_op_vertex` builds for `a ?: b`. -/
theorem create_ternary_shorthand (e : Env) (a b : Vertex) (s : GenTree) :
    create_ternary_op_vertex e a none b s =
      Res.ok (Vertex.create op_ternary
        [conv_to tp_bool (Vertex.create op_set
          [hidden_var (e.gen_shorthand_ternary_name s.name_counter), a]),
         Vertex.create op_move [hidden_var (e.gen_shorthand_ternary_name s.name_counter)], b])
        { s with name_counter := s.name_counter + 1 } := rfl

theorem subtree_at_leaf (v : Vertex) (h : v.next = []) (p : List Nat) (w : Vertex)
    (hw : subtree_at v p = some w) : p = [] := by
  cases p with
  | nil => rfl
  | cons i p => simp [subtree_at, h] at hw

/-- Claim C5: the tree `create_ternary_op_vertex(a, absent, b)` returns holds `a` at
exactly one position (under the assignment of the condition) and `b` at exactly one
position (the else branch); its other nodes are the ternary node, the coercion, the
assignment, the move and exactly two variable nodes, one written in the condition and
one read under the move, both carrying the generated name and flagged superlocal. -/
theorem shorthand_positions (e : Env) (a b : Vertex) (s : GenTree) :
    ∃ r s', create_ternary_op_vertex e a none b s = Res.ok r s' ∧
      subtree_at r [0, 0, 1] = some a ∧ subtree_at r [2] = some b ∧
      subtree_at r [0, 0, 0] = some (hidden_var (e.gen_shorthand_ternary_name s.name_counter)) ∧
      subtree_at r [1, 0] = some (hidden_var (e.gen_shorthand_ternary_name s.name_counter)) ∧
      (hidden_var (e.gen_shorthand_ternary_name s.name_counter)).type = op_var ∧
      (hidden_var (e.gen_shorthand_ternary_name s.name_counter)).get_string
        = e.gen_shorthand_ternary_name s.name_counter ∧
      (hidden_var (e.gen_shorthand_ternary_name s.name_counter)).info.extra_type
        = OperationExtra.op_ex_var_superlocal ∧
      (subtree_at r []).map Vertex.type = some op_ternary ∧
      (subtree_at r [0]).map Vertex.type = some op_conv_bool ∧
      (subtree_at r [0, 0]).map Vertex.type = some op_set ∧
      (subtree_at r [1]).map Vertex.type = some op_move ∧
      ∀ p v, subtree_at r p = some v →
        p = [] ∨ p = [0] ∨ p = [0, 0] ∨ p = [1] ∨ p = [0, 0, 0] ∨ p = [1, 0]
          ∨ (∃ q, p = [0, 0, 1] ++ q ∧ subtree_at a q = some v)
          ∨ (∃ q, p = [2] ++ q ∧ subtree_at b q = some v) := by
  refine ⟨_, _, create_ternary_shorthand e a b s, rfl, rfl, rfl, rfl, rfl, rfl, rfl, rfl, rfl, rfl,
    rfl, ?_⟩
  intro p v hp
  rcases p with _ | ⟨i, p⟩
  · simp
  rcases i with _ | _ | _ | i
  · -- under the condition
    rcases p with _ | ⟨j, p⟩
    · simp
    rcases j with _ | j
    · rcases p with _ | ⟨k, p⟩
      · simp
      rcases k with _ | _ | k
      · have := subtree_at_leaf (hidden_var (e.gen_shorthand_ternary_name s.name_counter)) rfl
          p v hp
        subst this; simp
      · right; right; right; right; right; right; left
        exact ⟨p, rfl, hp⟩
      · simp [subtree_at, Vertex.next, Vertex.create, conv_to, conv_op, Vertex.set_location,
          Vertex.set_info] at hp
    · simp [subtree_at, Vertex.next, Vertex.create, conv_to, conv_op, Vertex.set_location,
        Vertex.set_info] at hp
  · -- under the move
    rcases p with _ | ⟨j, p⟩
    · simp
    rcases j with _ | j
    · have := subtree_at_leaf (hidden_var (e.gen_shorthand_ternary_name s.name_counter)) rfl
        p v hp
      subst this; simp
    · simp [subtree_at, Vertex.next, Vertex.create] at hp
  · right; right; right; right; right; right; right
    exact ⟨p, rfl, hp⟩
  · simp [subtree_at, Vertex.next, Vertex.create] at hp

theorem modify_at_length {α : Type} (l : List α) (i : Nat) (f : α → α) :
    (modify_at l i f).length = l.length := by
  induction l generalizing i with
  | nil => rfl
  | cons a as ih => cases i <;> simp [modify_at, ih]

theorem modify_at_getD {α : Type} (l : List α) (i j : Nat) (f : α → α) (d : α) :
    (modify_at l i f).getD j d = if i = j ∧ j < l.length then f (l.getD j d) else l.getD j d := by
  induction l generalizing i j with
  | nil => simp [modify_at]
  | cons a as ih =>
    cases i with
    | zero => cases j <;> simp [modify_at]
    | succ i =>
      cases j with
      | zero => simp [modify_at]
      | succ j => simpa [modify_at, List.getD_eq_getElem?_getD] using ih i j

theorem modify_at_append_last {α : Type} (l : List α) (x : α) (f : α → α) :
    modify_at (l ++ [x]) l.length f = l ++ [f x] := by
  induction l with
  | nil => rfl
  | cons a as ih => simp [modify_at, ih]

theorem insert_initializers (line : Int) (fields : List (Vertex × AccessType))
    (this : Vertex) (rest : List Vertex) :
    fields.foldl (fun next f =>
      if f.1.has_def_val then next.take 1 ++ [field_initializer line f.1] ++ next.drop 1
      else next) (this :: rest) = this :: (field_initializers line fields ++ rest) := by
  induction fields generalizing rest with
  | nil => rfl
  | cons f fs ih =>
    by_cases h : f.1.has_def_val = true
    · simp only [List.foldl_cons, h, ↓reduceIte, List.take_succ_cons, List.take_zero,
        List.drop_succ_cons, List.drop_zero, List.cons_append, List.nil_append,
        List.singleton_append]
      rw [ih]
      simp [field_initializers, List.filter_cons, h]
    · simp only [List.foldl_cons, h, Bool.false_eq_true, ↓reduceIte]
      rw [ih]
      simp [field_initializers, List.filter_cons, h]

theorem add_instance_method_apply (k f : Nat) (a : AccessType) (s : GenTree) :
    add_instance_method k f a s = Res.ok () (s.with_method k f a) := by
  unfold add_instance_method mod_members mod_class mod_function GenTree.with_method
  simp only [P.bind_apply, getS_apply, modS_apply, Res.bind_ok, P.ite_apply, P.pure_apply]
  split <;> rfl

theorem register_and_require_function_apply (f : Nat) (s : GenTree) :
    register_and_require_function f true s = Res.ok () (s.with_required f) := by
  unfold register_and_require_function
  simp only [P.bind_apply, getS_apply, modS_apply, Res.bind_ok, Bool.or_true, ↓reduceIte]
  rfl

theorem patch_func_constructor_apply (func : Vertex) (k : Nat) (line : Int) (s : GenTree) :
    patch_func_constructor func (some k) line s =
      Res.ok (func.set_cmd (Vertex.create op_seq (constructor_body s k line func.cmd.next))) s := by
  unfold patch_func_constructor
  simp only [P.bind_apply, getS_apply, Res.bind_ok, create_vertex_this, kphp_assert,
    P.pure_apply, Option.isSome_some, ↓reduceIte, deref, Bool.false_eq_true, insert_initializers]
  rfl

theorem create_function_apply (root : Vertex) (type : func_type_t) (s : GenTree) :
    create_function root type s = Res.ok s.functions.length (s.with_function root type) := rfl

theorem create_constructor_with_args_apply (k : Nat) (line : Int) (params : Vertex)
    (s : GenTree) :
    create_constructor_with_args k line params s = Res.ok () (s.with_constructor k line params) := by
  unfold create_constructor_with_args
  simp only [P.bind_apply, getS_apply, Res.bind_ok, patch_func_constructor_apply,
    create_function_apply, add_instance_method_apply, register_and_require_function_apply]
  rfl

theorem getD_append_length {α : Type} (l : List α) (x d : α) :
    (l ++ [x]).getD l.length d = x := by
  simp [List.getD_eq_getElem?_getD]

theorem getD_append_lt {α : Type} (l : List α) (x d : α) (i : Nat) (h : i < l.length) :
    (l ++ [x]).getD i d = l.getD i d := by
  simp [List.getD_eq_getElem?_getD, List.getElem?_append_left h]

theorem modify_at_getElem_opt {α : Type} (l : List α) (i j : Nat) (f : α → α) :
    (modify_at l i f)[j]? = if i = j then l[j]?.map f else l[j]? := by
  induction l generalizing i j with
  | nil => simp [modify_at]
  | cons a as ih =>
    cases i with
    | zero => cases j <;> simp [modify_at]
    | succ i =>
      cases j with
      | zero => simp [modify_at]
      | succ j => simpa [modify_at] using ih i j

theorem with_constructor_classes (s : GenTree) (k : Nat) (line : Int) (params : Vertex) :
    ((s.with_constructor k line params).get_class k).members =
      if k < s.classes.length then
        { (s.get_class k).members with instance_methods :=
            (s.get_class k).members.instance_methods ++
              [(s.functions.length, AccessType.access_public)] }
      else (s.get_class k).members := by
  unfold GenTree.with_constructor GenTree.with_required GenTree.with_method GenTree.with_function
    GenTree.get_class
  by_cases hk : k < s.classes.length
  · have hsome : s.classes[k]? = some (s.classes[k]) := List.getElem?_eq_getElem hk
    rw [if_pos hk]
    split <;> simp [modify_at_getElem_opt, hsome]
  · have hnone : s.classes[k]? = none := List.getElem?_eq_none (by omega)
    rw [if_neg hk]
    split <;> simp [modify_at_getElem_opt, hnone]

theorem with_constructor_function_new (s : GenTree) (k : Nat) (line : Int) (params : Vertex) :
    (s.with_constructor k line params).get_function s.functions.length =
      { name := replace_backslashes (s.get_class k).name ++ "$$" ++ "__construct",
        root := some ((constructor_node s k line params).set_info fun i =>
          { i with func_id := some s.functions.length }),
        type := func_type_t.func_local, access_type := AccessType.access_public,
        class_id := some k } := by
  unfold GenTree.with_constructor GenTree.with_required GenTree.with_method GenTree.with_function
    GenTree.get_function
  split <;> simp [modify_at_append_last, getD_append_length] <;> rfl

theorem with_constructor_function_old (s : GenTree) (k : Nat) (line : Int) (params : Vertex)
    (g : Nat) (hg : g < s.functions.length) :
    (s.with_constructor k line params).get_function g = s.get_function g := by
  unfold GenTree.with_constructor GenTree.with_required GenTree.with_method GenTree.with_function
    GenTree.get_function
  have hne : s.functions.length ≠ g := by omega
  split <;> simp [modify_at_getElem_opt, hne, List.getElem?_append_left hg]

theorem with_class_constant_members (s : GenTree) (k : Nat) (cv : Vertex) :
    ((s.with_class_constant k cv).get_class k).members =
      if k < s.classes.length then
        (s.get_class k).members.add_constant (generate_constant_field_class (s.get_class k) cv)
      else (s.get_class k).members := by
  unfold GenTree.with_class_constant GenTree.get_class
  by_cases hk : k < s.classes.length
  · have hsome : s.classes[k]? = some (s.classes[k]) := List.getElem?_eq_getElem hk
    simp [modify_at_getElem_opt, hsome, hk]
  · have hnone : s.classes[k]? = none := List.getElem?_eq_none (by omega)
    simp [modify_at_getElem_opt, hnone, hk]

theorem with_class_constant_needs (s : GenTree) (k : Nat) (cv : Vertex) :
    (s.with_class_constant k cv).needs_default_constructor k = s.needs_default_constructor k := by
  unfold GenTree.needs_default_constructor GenTree.has_constructor
  rw [with_class_constant_members]
  split <;> rfl

theorem get_class_synthesize_apply (k : Nat) (cv : Vertex) (s : GenTree) :
    get_class_synthesize k cv s = Res.ok ()
      (if s.needs_default_constructor k then
        (s.with_class_constant k cv).with_constructor k s.line_num
          (Vertex.create op_func_param_list [])
      else s.with_class_constant k cv) := by
  rw [← with_class_constant_needs s k cv]
  have h1 : get_class_synthesize k cv s =
      (if (s.with_class_constant k cv).needs_default_constructor k = true then
        create_default_constructor k s.line_num (s.with_class_constant k cv)
      else Res.ok () (s.with_class_constant k cv)) := by
    unfold get_class_synthesize
    simp only [P.bind_apply, getS_apply, Res.bind_ok, mod_members, mod_class, modS_apply,
      auto_location_apply, P.ite_apply, P.pure_apply]
    rfl
  rw [h1]
  unfold create_default_constructor
  rw [create_constructor_with_args_apply]
  split <;> rfl

theorem with_class_constant_methods (s : GenTree) (k : Nat) (cv : Vertex) :
    ((s.with_class_constant k cv).get_class k).members.instance_methods =
      (s.get_class k).members.instance_methods := by
  rw [with_class_constant_members]
  split <;> rfl

/-- The synthesis step that ends `get_class`: a default constructor is synthesized and
appended to the instance methods of the class if and only if the class has at least one
field or method of the instance kind and has no constructor; otherwise the instance
methods stay as they are. -/
theorem default_constructor_condition (k : Nat) (cv : Vertex) (s : GenTree)
    (hk : k < s.classes.length) :
    ∃ s', get_class_synthesize k cv s = Res.ok () s' ∧
      (s'.get_class k).members.instance_methods =
        (s.get_class k).members.instance_methods ++
          (if ((s.get_class k).members.has_any_instance_var
                || (s.get_class k).members.has_any_instance_method)
              && !s.has_constructor k
           then [(s.functions.length, AccessType.access_public)] else []) ∧
      ((((s.get_class k).members.has_any_instance_var
                || (s.get_class k).members.has_any_instance_method)
              && !s.has_constructor k) = true →
        (s'.get_function s.functions.length).name =
          replace_backslashes (s.get_class k).name ++ "$$" ++ "__construct") := by
  refine ⟨_, get_class_synthesize_apply k cv s, ?_, ?_⟩
  · by_cases hn : s.needs_default_constructor k = true
    · have hn' := hn
      unfold GenTree.needs_default_constructor at hn'
      rw [if_pos hn, if_pos hn', with_constructor_classes]
      have hk' : k < (s.with_class_constant k cv).classes.length := by
        unfold GenTree.with_class_constant
        simpa [modify_at_length] using hk
      rw [if_pos hk']
      show ((s.with_class_constant k cv).get_class k).members.instance_methods ++ _ = _
      rw [with_class_constant_methods]
      rfl
    · have hn' := hn
      unfold GenTree.needs_default_constructor at hn'
      rw [if_neg hn, if_neg hn', with_class_constant_methods]
      simp
  · intro hn
    have hn' : s.needs_default_constructor k = true := hn
    rw [if_pos hn']
    have := with_constructor_function_new (s.with_class_constant k cv) k s.line_num
      (Vertex.create op_func_param_list [])
    have hfun : (s.with_class_constant k cv).functions = s.functions := rfl
    rw [hfun] at this
    rw [this]
    show replace_backslashes ((s.with_class_constant k cv).get_class k).name ++ _ ++ _ = _
    have hname : ((s.with_class_constant k cv).get_class k).name = (s.get_class k).name := by
      unfold GenTree.with_class_constant GenTree.get_class
      have hsome : s.classes[k]? = some (s.classes[k]) := List.getElem?_eq_getElem hk
      simp [modify_at_getElem_opt, hsome]
    rw [hname]

theorem sample_binary (o : TokenType) (op : Operation) (f : Fixity)
    (h1 : sample_binary_op o = op) (h2 : op ≠ op_err) (h3 : sample_fixity op = f)
    (h4 : sample_priority op < 16) (h5 : sample_priority op ≠ 4)
    (h6 : is_postfix_start o = false) :
    BinaryAt sample_env (sample_token o "") op (sample_priority op) f :=
  ⟨h1, h2, rfl, h3, Nat.zero_le _, h4, h5, h6⟩

theorem sample_operand (t : TokenType) (str : String) (h1 : (primary_op t).isSome)
    (h2 : sample_unary_op t = op_err) : Operand sample_env (sample_token t str) :=
  ⟨h1, h2⟩

/-- Claim C1, amended: for primary operands `x`, `y`, `z` and left-associative binary
operators `lo`, `hi` with `priority(lo) < priority(hi)`, `get_expression` on
`x lo y hi z` returns, given enough fuel, the `lo`-node over `x` and the `hi`-node over
`y` and `z`, each operand wrapped in the coercion its operator applies (none for an
arithmetic operator). -/
theorem precedence (e : Env) (x lo y hi z eof : Token) (opLo opHi : Operation) (pl ph : Nat)
    (hlo : BinaryAt e lo opLo pl Fixity.left_opp) (hhi : BinaryAt e hi opHi ph Fixity.left_opp)
    (hlt : pl < ph) (hx : Operand e x) (hy : Operand e y) (hz : Operand e z)
    (s : GenTree) (hs : At s [x, lo, y, hi, z, eof]) :
    Ev (fun n => (parser e n).get_expression s)
      (Res.ok (some (binary_node opLo s.next.line_num (primary x s.line_num)
        (binary_node opHi s.next.next.next.line_num (primary y s.next.next.line_num)
          (primary z s.next.next.next.next.line_num))))
        s.next.next.next.next.next) :=
  precedence_ev e x lo y hi z eof opLo opHi pl ph hlo hhi hlt hx hy hz s hs

theorem precedence_witness :
    Ev (fun n => (parser sample_env n).get_expression (sample_state tokens_add_mul))
      (Res.ok (some (node1 op_add [leaf op_int_const 1 "1",
        node1 op_mul [leaf op_int_const 1 "2", leaf op_int_const 1 "3"]]))
        { sample_state tokens_add_mul with cur := 5 }) :=
  precedence sample_env _ _ _ _ _ _ op_add op_mul 13 14
    (sample_binary tok_plus op_add _ rfl (by decide) rfl (by decide) (by decide) rfl)
    (sample_binary tok_times op_mul _ rfl (by decide) rfl (by decide) (by decide) rfl)
    (by decide) (sample_operand tok_int_const "1" rfl rfl)
    (sample_operand tok_int_const "2" rfl rfl) (sample_operand tok_int_const "3" rfl rfl) (sample_state tokens_add_mul) ⟨rfl, rfl, by decide⟩

theorem precedence_counterexample :
    BinaryAt sample_env (sample_token tok_or "") op_or 7 Fixity.left_opp ∧
    BinaryAt sample_env (sample_token tok_plus "") op_add 13 Fixity.left_opp ∧
    ∃ v s', Ev (fun n => (parser sample_env n).get_expression (sample_state tokens_or_add))
        (Res.ok (some v) s') ∧
      v.type = op_or ∧ v.next.map Vertex.type = [op_conv_int, op_conv_int] ∧
      v.next.head? ≠ some (leaf op_int_const 1 "1") :=
  ⟨sample_binary tok_or op_or _ rfl (by decide) rfl (by decide) (by decide) rfl,
   sample_binary tok_plus op_add _ rfl (by decide) rfl (by decide) (by decide) rfl,
   _, _,
   precedence_ev sample_env _ _ _ _ _ _ op_or op_add 7 13
    (sample_binary tok_or op_or _ rfl (by decide) rfl (by decide) (by decide) rfl)
    (sample_binary tok_plus op_add _ rfl (by decide) rfl (by decide) (by decide) rfl)
    (by decide) (sample_operand tok_int_const "1" rfl rfl)
    (sample_operand tok_int_const "2" rfl rfl) (sample_operand tok_int_const "3" rfl rfl) (sample_state tokens_or_add) ⟨rfl, rfl, by decide⟩,
   rfl, rfl, fun h => by
     have h2 := congrArg (fun o => o.map Vertex.type) h
     exact absurd h2 (by decide)⟩

theorem sample_chain (o : TokenType) (op : Operation) (f : Fixity)
    (h : BinaryAt sample_env (sample_token o "") op (sample_priority op) f) :
    ∀ q ∈ pairs_chain o, BinaryAt sample_env q.1 op (sample_priority op) f ∧
      Operand sample_env q.2 := by
  intro q hq
  simp only [pairs_chain, List.mem_cons, List.mem_singleton, List.not_mem_nil, or_false] at hq
  rcases hq with rfl | rfl
  · exact ⟨h, sample_operand tok_var_name "b" rfl rfl⟩
  · exact ⟨h, sample_operand tok_var_name "c" rfl rfl⟩

/-- Claim C2, amended: for a left-associative binary operator `op` and primary operands
`a0 … ak`, `get_expression` on the chain `a0 op a1 op … op ak` returns, given enough
fuel, the left-nested tree `op(…op(op(a0, a1), a2)…, ak)`, each operand of each node
wrapped in the coercion `op` applies (none for an arithmetic operator such as binary
minus). -/
theorem left_associativity (e : Env) (op : Operation) (p : Nat) (a0 eof : Token)
    (ps : List (Token × Token)) (ha0 : Operand e a0)
    (hops : ∀ q ∈ ps, BinaryAt e q.1 op p Fixity.left_opp ∧ Operand e q.2)
    (s : GenTree) (hs : At s (a0 :: (chain_tokens ps ++ [eof]))) :
    Ev (fun n => (parser e n).get_expression s)
      (Res.ok (some (left_chain op ps (primary a0 s.line_num) s.next))
        (GenTree.next^[2 * ps.length] s.next)) :=
  left_chain_ev e op p a0 eof ps ha0 hops s hs

theorem left_associativity_witness :
    Ev (fun n => (parser sample_env n).get_expression (sample_state (tokens_chain tok_minus)))
      (Res.ok (some (node1 op_sub [node1 op_sub [leaf op_var 1 "a", leaf op_var 1 "b"],
        leaf op_var 1 "c"]))
        { sample_state (tokens_chain tok_minus) with cur := 5 }) :=
  left_associativity sample_env op_sub 13 (sample_token tok_var_name "a") (sample_token tok_end "")
    (pairs_chain tok_minus) (sample_operand tok_var_name "a" rfl rfl)
    (sample_chain tok_minus op_sub _
      (sample_binary tok_minus op_sub _ rfl (by decide) rfl (by decide) (by decide) rfl))
    (sample_state (tokens_chain tok_minus)) ⟨rfl, rfl, by decide⟩

theorem left_associativity_counterexample :
    BinaryAt sample_env (sample_token tok_log_or "") op_log_or 5 Fixity.left_opp ∧
    ∃ v s', Ev (fun n => (parser sample_env n).get_expression
        (sample_state (tokens_chain tok_log_or))) (Res.ok (some v) s') ∧
      v.type = op_log_or ∧ v.next.map Vertex.type = [op_conv_bool, op_conv_bool] ∧
      v.next.getLast? ≠ some (leaf op_var 1 "c") :=
  ⟨sample_binary tok_log_or op_log_or _ rfl (by decide) rfl (by decide) (by decide) rfl,
   _, _,
   left_chain_ev sample_env op_log_or 5 (sample_token tok_var_name "a") (sample_token tok_end "")
    (pairs_chain tok_log_or) (sample_operand tok_var_name "a" rfl rfl)
    (sample_chain tok_log_or op_log_or _
      (sample_binary tok_log_or op_log_or _ rfl (by decide) rfl (by decide) (by decide) rfl))
    (sample_state (tokens_chain tok_log_or)) ⟨rfl, rfl, by decide⟩,
   rfl, rfl, fun h => by
     have h2 := congrArg (fun o => o.map Vertex.type) h
     exact absurd h2 (by decide)⟩

/-- Claim C3, amended: for a right-associative non-ternary binary operator `op` and
primary operands `a0 … ak`, `get_expression` on the chain `a0 op a1 op … op ak`
returns, given enough fuel, the right-nested tree `op(a0, op(a1, … op(a(k-1), ak)))`,
each operand of each node wrapped in the coercion `op` applies (none for plain
assignment). -/
theorem right_associativity (e : Env) (op : Operation) (p : Nat) (a0 eof : Token)
    (ps : List (Token × Token)) (ha0 : Operand e a0)
    (hops : ∀ q ∈ ps, BinaryAt e q.1 op p Fixity.right_opp ∧ Operand e q.2)
    (s : GenTree) (hs : At s (a0 :: (chain_tokens ps ++ [eof]))) :
    Ev (fun n => (parser e n).get_expression s)
      (Res.ok (some (right_chain op a0 ps s)) (GenTree.next^[2 * ps.length + 1] s)) :=
  right_chain_ev e op p a0 eof ps ha0 hops s hs

theorem right_associativity_witness :
    Ev (fun n => (parser sample_env n).get_expression (sample_state (tokens_chain tok_eq1)))
      (Res.ok (some (node1 op_set [leaf op_var 1 "a",
        node1 op_set [leaf op_var 1 "b", leaf op_var 1 "c"]]))
        { sample_state (tokens_chain tok_eq1) with cur := 5 }) :=
  right_associativity sample_env op_set 3 (sample_token tok_var_name "a") (sample_token tok_end "")
    (pairs_chain tok_eq1) (sample_operand tok_var_name "a" rfl rfl)
    (sample_chain tok_eq1 op_set _
      (sample_binary tok_eq1 op_set _ rfl (by decide) rfl (by decide) (by decide) rfl))
    (sample_state (tokens_chain tok_eq1)) ⟨rfl, rfl, by decide⟩

theorem right_associativity_counterexample :
    BinaryAt sample_env (sample_token tok_set_or "") op_set_or 3 Fixity.right_opp ∧
    ∃ v s', Ev (fun n => (parser sample_env n).get_expression
        (sample_state (tokens_chain tok_set_or))) (Res.ok (some v) s') ∧
      v.type = op_set_or ∧ v.next.map Vertex.type = [op_var, op_conv_int] :=
  ⟨sample_binary tok_set_or op_set_or _ rfl (by decide) rfl (by decide) (by decide) rfl,
   _, _,
   right_chain_ev sample_env op_set_or 3 (sample_token tok_var_name "a") (sample_token tok_end "")
    (pairs_chain tok_set_or) (sample_operand tok_var_name "a" rfl rfl)
    (sample_chain tok_set_or op_set_or _
      (sample_binary tok_set_or op_set_or _ rfl (by decide) rfl (by decide) (by decide) rfl))
    (sample_state (tokens_chain tok_set_or)) ⟨rfl, rfl, by decide⟩,
   rfl, rfl⟩

/-- Claim C4, amended: for every condition operand `a` and else operand `b`,
`create_ternary_op_vertex(a, absent, b)` returns `ternary(cond, move(var t), b)` in
which `cond` is the boolean coercion of the assignment of `a` to the hidden variable,
`conv_bool(set(var t, a))`, for the fresh name `t` returned by the name generator. -/
theorem shorthand_ternary_structure (e : Env) (a b : Vertex) (s : GenTree) :
    create_ternary_op_vertex e a none b s =
      Res.ok (Vertex.create op_ternary
        [conv_to tp_bool (Vertex.create op_set
          [hidden_var (e.gen_shorthand_ternary_name s.name_counter), a]),
         Vertex.create op_move [hidden_var (e.gen_shorthand_ternary_name s.name_counter)], b])
        { s with name_counter := s.name_counter + 1 } := rfl

theorem shorthand_ternary_counterexample :
    ∃ r s', create_ternary_op_vertex sample_env (leaf op_var 1 "a") none (leaf op_var 1 "b")
        (sample_state [sample_token tok_end ""]) = Res.ok r s' ∧
      r.next.head? ≠ some (Vertex.create op_set
        [hidden_var (sample_env.gen_shorthand_ternary_name 0),
          conv_to tp_bool (leaf op_var 1 "a")]) ∧
      (r.next.head?.map Vertex.type = some op_conv_bool) ∧
      (r.next.head?.map fun c => c.next.map Vertex.type) = some [op_set] :=
  ⟨_, _, create_ternary_shorthand sample_env _ _ _, fun h => by
     have h2 := congrArg (fun o => o.map Vertex.type) h
     exact absurd h2 (by decide), rfl, rfl⟩

theorem binary_coercions_witness :
    ∃ v : Vertex,
      get_binary_op_loop sample_env (parser sample_env 31) 5 false (leaf op_var 1 "a")
          (sample_state tokens_log_or_tail) =
        get_binary_op_loop sample_env (parser sample_env 30) 5 false v
          { sample_state tokens_log_or_tail with cur := 2 } ∧
      v.type = op_log_or ∧
      v.next = [conv_to tp_bool (leaf op_var 1 "a"), conv_to tp_bool (leaf op_var 1 "b")] := by
  obtain ⟨v, h1, h2, h3, _⟩ := binary_coercions sample_env 30 5 false (leaf op_var 1 "a")
    (leaf op_var 1 "b") (sample_state tokens_log_or_tail)
    { sample_state tokens_log_or_tail with cur := 2 }
    (sample_token tok_log_or "") (sample_token tok_var_name "b") [sample_token tok_end ""]
    ⟨rfl, rfl, by decide⟩ (by decide) rfl (by decide) rfl
  exact ⟨v, h1, h2, h3 (by decide)⟩

theorem Post.pure {α : Type} {Q : α → Prop} {a : α} (h : Q a) : Post (pure a : P α) Q := by
  constructor
  intro s b s' hb
  cases hb
  exact h

theorem Post.bind {α β : Type} {m : P α} {f : α → P β} {R : α → Prop} {Q : β → Prop}
    (hm : Post m R) (hf : ∀ a, R a → Post (f a) Q) : Post (m >>= f) Q := by
  constructor
  intro s b s' hb
  simp only [P.bind_apply] at hb
  rcases h : m s with ⟨a, s1⟩ | err
  · rw [h] at hb
    exact (hf a (hm.run s a s1 h)).run s1 b s' hb
  · rw [h] at hb
    cases hb

theorem Post.bind_right {α β : Type} {m : P α} {f : α → P β} {Q : β → Prop}
    (hf : ∀ a, Post (f a) Q) : Post (m >>= f) Q :=
  Post.bind (R := fun _ => True) ⟨fun _ _ _ _ => trivial⟩ (fun a _ => hf a)

theorem Post.ite {α : Type} {c : Prop} [Decidable c] {m1 m2 : P α} {Q : α → Prop}
    (h1 : c → Post m1 Q) (h2 : ¬c → Post m2 Q) : Post (if c then m1 else m2) Q := by
  by_cases h : c
  · rw [if_pos h]; exact h1 h
  · rw [if_neg h]; exact h2 h

theorem Post.abort {α : Type} {Q : α → Prop} (e : Abort) : Post (abortP e : P α) Q := by
  constructor
  intro s a s' h
  cases h

theorem Post.mono {α : Type} {m : P α} {R Q : α → Prop} (hm : Post m R)
    (h : ∀ a, R a → Q a) : Post m Q :=
  ⟨fun s a s' hs => h a (hm.run s a s' hs)⟩

theorem logical_ok_mk (info : VertexInfo) (next : List Vertex) (tr : Option Vertex) :
    (Vertex.mk info next tr).logical_ok = (logical_rule info.type next && logical_ok_list next) := by
  rw [Vertex.logical_ok]

theorem logical_ok_eq (v : Vertex) :
    v.logical_ok = (logical_rule v.type v.next && logical_ok_list v.next) := by
  cases v
  rw [Vertex.logical_ok]
  rfl

theorem logical_ok_list_cons (v : Vertex) (vs : List Vertex) :
    logical_ok_list (v :: vs) = (v.logical_ok && logical_ok_list vs) := by
  rw [logical_ok_list]

theorem logical_ok_list_nil : logical_ok_list [] = true := by
  rw [logical_ok_list]

theorem logical_ok_list_iff (l : List Vertex) :
    logical_ok_list l = true ↔ ∀ v ∈ l, v.logical_ok = true := by
  induction l with
  | nil => simp [logical_ok_list_nil]
  | cons v vs ih => simp [logical_ok_list_cons, ih]

theorem logical_ok_list_append (l1 l2 : List Vertex) (h1 : logical_ok_list l1 = true)
    (h2 : logical_ok_list l2 = true) : logical_ok_list (l1 ++ l2) = true := by
  rw [logical_ok_list_iff] at *
  intro v hv
  rcases List.mem_append.mp hv with h | h
  · exact h1 v h
  · exact h2 v h

theorem logical_rule_plain (op : Operation) (next : List Vertex) (h : is_logical_op op = false) :
    logical_rule op next = true := by
  simp [logical_rule, h]

theorem logical_ok_create (op : Operation) (children : List Vertex)
    (h : logical_rule op children = true) (hc : logical_ok_list children = true) :
    (Vertex.create op children).logical_ok = true := by
  rw [Vertex.create, logical_ok_mk, h, hc]
  rfl

theorem logical_ok_plain (op : Operation) (children : List Vertex)
    (h : is_logical_op op = false) (hc : logical_ok_list children = true) :
    (Vertex.create op children).logical_ok = true :=
  logical_ok_create op children (logical_rule_plain op children h) hc

theorem logical_ok_set_info (v : Vertex) (f : VertexInfo → VertexInfo)
    (h : ∀ i, (f i).type = i.type) : (v.set_info f).logical_ok = v.logical_ok := by
  cases v with
  | mk info next tr =>
    rw [Vertex.set_info, logical_ok_mk, logical_ok_mk]
    show (logical_rule (f info).type next && _) = _
    rw [h]
    rfl

@[simp]
theorem logical_ok_set_string (v : Vertex) (str : String) :
    (v.set_string str).logical_ok = v.logical_ok :=
  logical_ok_set_info v _ fun _ => rfl

@[simp]
theorem logical_ok_set_location (v : Vertex) (l : Location) :
    (v.set_location l).logical_ok = v.logical_ok :=
  logical_ok_set_info v _ fun _ => rfl

@[simp]
theorem logical_ok_set_line (v : Vertex) (line : Int) :
    (v.set_line line).logical_ok = v.logical_ok :=
  logical_ok_set_info v _ fun _ => rfl

@[simp]
theorem logical_ok_set_type_rule (v : Vertex) (r : Option Vertex) :
    (v.set_type_rule r).logical_ok = v.logical_ok := by
  cases v
  rw [Vertex.set_type_rule, logical_ok_mk, logical_ok_mk]
  rfl

@[simp]
theorem type_set_string (v : Vertex) (str : String) : (v.set_string str).type = v.type := by
  cases v; rfl

@[simp]
theorem type_set_location (v : Vertex) (l : Location) : (v.set_location l).type = v.type := by
  cases v; rfl

@[simp]
theorem type_set_line (v : Vertex) (line : Int) : (v.set_line line).type = v.type := by
  cases v; rfl

theorem logical_ok_set_next (v : Vertex) (next : List Vertex)
    (h : logical_rule v.type next = true) (hc : logical_ok_list next = true) :
    (v.set_next next).logical_ok = true := by
  cases v with
  | mk info n tr =>
    rw [Vertex.set_next, logical_ok_mk]
    show (logical_rule info.type next && _) = _
    have h' : logical_rule info.type next = true := h
    rw [h', hc]
    rfl

theorem conv_op_plain (tp : PrimitiveType) (op : Operation) (h : conv_op tp = some op) :
    is_logical_op op = false := by
  cases tp <;> simp [conv_op] at h <;> subst h <;> rfl

theorem logical_ok_singleton (v : Vertex) (h : v.logical_ok = true) :
    logical_ok_list [v] = true := by
  rw [logical_ok_list_cons, h, logical_ok_list_nil]
  rfl

theorem logical_ok_conv_to (tp : PrimitiveType) (v : Vertex) (h : v.logical_ok = true) :
    (conv_to tp v).logical_ok = true := by
  unfold conv_to
  rcases hop : conv_op tp with _ | op
  · exact h
  · simp only [logical_ok_set_location]
    exact logical_ok_plain op [v] (conv_op_plain tp op hop) (logical_ok_singleton v h)

theorem conv_to_bool_type (v : Vertex) : (conv_to tp_bool v).type = op_conv_bool := rfl

theorem logical_ok_null : null_vertex.logical_ok = true :=
  logical_ok_plain op_err [] rfl logical_ok_list_nil

theorem logical_ok_child_of (o : Option Vertex) (h : logical_ok_opt o = true) :
    (child_of o).logical_ok = true := by
  cases o with
  | none => exact logical_ok_null
  | some v => exact h

theorem logical_ok_leaf (op : Operation) (line : Int) (str : String)
    (h : is_logical_op op = false) : (leaf op line str).logical_ok = true := by
  unfold leaf
  simp only [logical_ok_set_string, logical_ok_set_line]
  exact logical_ok_plain op [] h logical_ok_list_nil

theorem logical_ok_snoc (l : List Vertex) (v : Vertex) (hl : logical_ok_list l = true)
    (hv : v.logical_ok = true) : logical_ok_list (l ++ [v]) = true :=
  logical_ok_list_append l [v] hl (logical_ok_singleton v hv)

theorem get_conv_ok (c : Caps) (hc : CapsOk c) (Op : Operation) (hop : is_logical_op Op = false) :
    Post (get_conv c Op) (fun r => logical_ok_opt r = true) := by
  unfold get_conv
  apply Post.bind_right; intro loc
  apply Post.bind_right; intro _
  apply Post.bind hc.get_expression; intro x hx
  cases x with
  | none =>
    apply Post.bind_right; intro _
    exact Post.pure rfl
  | some v =>
    apply Post.pure
    simp only [logical_ok_opt, logical_ok_set_line]
    exact logical_ok_plain Op [v] hop (logical_ok_singleton v hx)

theorem gen_list_loop_ok (c : Caps) (hc : CapsOk c) (E : Operation) (delim : TokenType)
    (prev : Bool) (res : List Vertex) (hE : is_logical_op E = false)
    (hres : logical_ok_list res = true) :
    Post (gen_list_loop c E GetFunc.get_expression delim prev res)
      (fun r => logical_ok_list r.2 = true) := by
  unfold gen_list_loop
  apply Post.bind (show Post (call_get_func c GetFunc.get_expression) _ from hc.get_expression)
  intro v hv
  apply Post.bind_right; intro tp
  have hpush : ∀ w : Vertex, w.logical_ok = true →
      Post (if (tp == delim) = true then do
          next_cur
          c.gen_list_loop E GetFunc.get_expression delim true (res ++ [w])
        else pure (true, res ++ [w])) (fun r => logical_ok_list r.2 = true) := by
    intro w hw
    apply Post.ite <;> intro _
    · apply Post.bind_right; intro _
      exact hc.gen_list_loop E delim true _ hE (logical_ok_snoc res w hres hw)
    · exact Post.pure (logical_ok_snoc res w hres hw)
  cases v with
  | some w => exact hpush w hv
  | none =>
    dsimp only
    apply Post.ite <;> intro _
    · apply Post.ite <;> intro _
      · exact Post.pure hres
      · exact hpush _ (logical_ok_plain E [] hE logical_ok_list_nil)
    · apply Post.ite <;> intro _
      · apply Post.bind_right; intro _
        exact Post.pure hres
      · exact Post.pure hres

theorem gen_list_ok (c : Caps) (hc : CapsOk c) (E : Operation) (delim : TokenType)
    (hE : is_logical_op E = false) :
    Post (gen_list c E [] GetFunc.get_expression delim) (fun r => logical_ok_list r.2 = true) :=
  hc.gen_list_loop E delim false [] hE logical_ok_list_nil

theorem get_require_ok (c : Caps) (hc : CapsOk c) :
    Post (get_require c) (fun r => logical_ok_opt r = true) := by
  unfold get_require
  apply Post.bind_right; intro loc
  apply Post.bind_right; intro _
  apply Post.bind_right; intro opened
  apply Post.bind hc.get_expression; intro x hx
  apply Post.bind_right; intro closed
  apply Post.ite <;> intro _
  · exact Post.pure rfl
  · apply Post.pure
    simp only [logical_ok_opt, logical_ok_set_line]
    exact logical_ok_plain _ _ rfl (logical_ok_singleton _ (logical_ok_child_of x hx))

theorem logical_ok_map_wrap (op : Operation) (hop : is_logical_op op = false)
    (l : List Vertex) (hl : logical_ok_list l = true) :
    logical_ok_list (l.map fun r => Vertex.create op [r]) = true := by
  rw [logical_ok_list_iff] at *
  intro v hv
  rcases List.mem_map.mp hv with ⟨r, hr, rfl⟩
  exact logical_ok_plain op [r] hop (logical_ok_singleton r (hl r hr))

theorem get_require_once_ok (c : Caps) (hc : CapsOk c) :
    Post (get_require_once c) (fun r => logical_ok_opt r = true) := by
  unfold get_require_once
  apply Post.bind_right; intro loc
  apply Post.bind_right; intro _
  apply Post.bind_right; intro opened
  apply Post.bind (gen_list_ok c hc op_err tok_comma rfl); intro r hr
  rcases r with ⟨ok_next, requires⟩
  dsimp only
  apply Post.bind_right; intro err
  apply Post.ite <;> intro _
  · exact Post.pure rfl
  · apply Post.bind_right; intro closed
    apply Post.ite <;> intro _
    · exact Post.pure rfl
    · apply Post.pure
      simp only [logical_ok_opt, logical_ok_set_line]
      split
      · exact logical_ok_plain _ _ rfl hr
      · exact logical_ok_plain _ _ rfl (logical_ok_map_wrap op_require_once rfl _ hr)

theorem isset_fold_ok (rest : List Vertex) (left : Vertex) (hl : left.logical_ok = true)
    (ht : left.type = op_isset ∨ left.type = op_log_and) (hr : logical_ok_list rest = true) :
    (rest.foldl (fun left arg => Vertex.create op_log_and [left, Vertex.create op_isset [arg]])
      left).logical_ok = true := by
  induction rest generalizing left with
  | nil => exact hl
  | cons a rest ih =>
    rw [logical_ok_list_cons, Bool.and_eq_true] at hr
    rw [List.foldl_cons]
    refine ih (Vertex.create op_log_and [left, Vertex.create op_isset [a]]) ?_ (Or.inr rfl) hr.2
    have ha : (Vertex.create op_isset [a]).logical_ok = true :=
      logical_ok_plain op_isset [a] rfl (logical_ok_singleton a hr.1)
    apply logical_ok_create
    · have hp : isset_pair [left, Vertex.create op_isset [a]] = true := by
        rcases ht with h | h <;> simp [isset_pair, h] <;> rfl
      simp [logical_rule, hp]
    · rw [logical_ok_list_cons, hl]
      exact logical_ok_singleton _ ha

theorem logical_ok_constructor_call_hack (call : Vertex) (name : String)
    (h : call.logical_ok = true) : (constructor_call_hack call name).logical_ok = true := by
  unfold constructor_call_hack
  have hs : ∀ (v : Vertex) (tp : PrimitiveType),
      (v.set_info fun i => { i with type_help := tp }).logical_ok = v.logical_ok :=
    fun v tp => logical_ok_set_info v _ fun _ => rfl
  dsimp only
  repeat' split
  all_goals simp only [hs, logical_ok_set_string, h]

theorem get_func_call_ok (c : Caps) (hc : CapsOk c) (Op E : Operation)
    (hOp : is_logical_op Op = false) (hE : is_logical_op E = false) :
    Post (get_func_call c Op E) (fun r => logical_ok_opt r = true) := by
  unfold get_func_call
  apply Post.bind_right; intro loc
  apply Post.bind_right; intro tok
  apply Post.bind_right; intro _
  apply Post.bind_right; intro opened
  apply Post.ite <;> intro _
  · exact Post.pure rfl
  apply Post.bind_right; intro _
  apply Post.bind (gen_list_ok c hc E tok_comma hE); intro r hr
  rcases r with ⟨ok_next, next⟩
  dsimp only
  apply Post.bind_right; intro err
  apply Post.ite <;> intro _
  · exact Post.pure rfl
  apply Post.bind_right; intro closed
  apply Post.ite <;> intro _
  · exact Post.pure rfl
  apply Post.ite <;> intro _
  · cases next with
    | nil =>
      dsimp only
      apply Post.bind_right; intro _
      exact Post.pure rfl
    | cons first rest =>
      dsimp only
      apply Post.pure
      simp only [logical_ok_opt, logical_ok_set_line]
      rw [logical_ok_list_cons, Bool.and_eq_true] at hr
      exact isset_fold_ok rest _ (logical_ok_plain op_isset [first] rfl
        (logical_ok_singleton first hr.1)) (Or.inl rfl) hr.2
  · have hcall : ((Vertex.create Op next).set_line loc).logical_ok = true := by
      simp only [logical_ok_set_line]
      exact logical_ok_plain Op next hOp hr
    apply Post.ite <;> intro _
    · apply Post.pure
      simp only [logical_ok_opt, logical_ok_set_string]
      exact hcall
    · apply Post.ite <;> intro _
      · exact Post.pure (logical_ok_constructor_call_hack _ _ hcall)
      · exact Post.pure hcall

theorem get_short_array_ok (c : Caps) (hc : CapsOk c) :
    Post (get_short_array c) (fun r => logical_ok_opt r = true) := by
  unfold get_short_array
  apply Post.bind_right; intro loc
  apply Post.bind_right; intro _
  apply Post.bind (gen_list_ok c hc op_none tok_comma rfl); intro r hr
  rcases r with ⟨ok_next, next⟩
  dsimp only
  apply Post.bind_right; intro err
  apply Post.ite <;> intro _
  · exact Post.pure rfl
  apply Post.bind_right; intro closed
  apply Post.ite <;> intro _
  · exact Post.pure rfl
  apply Post.pure
  simp only [logical_ok_opt, logical_ok_set_line]
  exact logical_ok_plain op_array next rfl hr

theorem get_string_ok : Post get_string (fun v => v.logical_ok = true) := by
  unfold get_string
  apply Post.bind_right; intro loc
  apply Post.bind_right; intro tok
  apply Post.bind_right; intro _
  apply Post.pure
  simp only [logical_ok_set_string, logical_ok_set_line]
  exact logical_ok_plain op_string [] rfl logical_ok_list_nil

theorem get_string_build_loop_ok (c : Caps) (hc : CapsOk c) (b : Bool) (l : List Vertex)
    (hl : logical_ok_list l = true) :
    Post (get_string_build_loop c b l)
      (fun r => ∀ l', r = some l' → logical_ok_list l' = true) := by
  unfold get_string_build_loop
  apply Post.bind_right; intro e1
  apply Post.bind_right; intro t1
  apply Post.ite <;> intro _
  · apply Post.pure
    intro l' h
    cases h
    exact hl
  apply Post.bind_right; intro t2
  apply Post.ite <;> intro _
  · apply Post.bind get_string_ok; intro last hlast
    dsimp only
    apply Post.ite <;> intro _
    · apply Post.bind_right; intro _
      exact hc.get_string_build_loop false _ (logical_ok_snoc l last hl hlast)
    · apply Post.bind_right; intro _
      exact hc.get_string_build_loop false _ (logical_ok_snoc l last hl hlast)
  apply Post.bind_right; intro t3
  apply Post.ite <;> intro _
  · apply Post.bind_right; intro _
    apply Post.bind hc.get_expression; intro x hx
    cases x with
    | none =>
      dsimp only
      apply Post.bind_right; intro _
      apply Post.pure
      intro l' h
      cases h
    | some add =>
      dsimp only
      apply Post.bind_right; intro closed
      apply Post.ite <;> intro _
      · apply Post.pure
        intro l' h
        cases h
      · exact hc.get_string_build_loop false _ (logical_ok_snoc l add hl hx)
  · apply Post.bind hc.get_expression; intro x hx
    cases x with
    | none =>
      dsimp only
      apply Post.bind_right; intro _
      apply Post.pure
      intro l' h
      cases h
    | some add =>
      exact hc.get_string_build_loop true _ (logical_ok_snoc l add hl hx)

theorem get_string_build_ok (c : Caps) (hc : CapsOk c) :
    Post (get_string_build c) (fun r => logical_ok_opt r = true) := by
  unfold get_string_build
  apply Post.bind_right; intro loc
  apply Post.bind_right; intro _
  apply Post.bind (hc.get_string_build_loop false [] logical_ok_list_nil); intro r hr
  cases r with
  | none => exact Post.pure rfl
  | some v_next =>
    dsimp only
    apply Post.bind_right; intro closed
    apply Post.ite <;> intro _
    · exact Post.pure rfl
    · apply Post.pure
      simp only [logical_ok_opt, logical_ok_set_line]
      exact logical_ok_plain op_string_build v_next rfl (hr v_next rfl)

theorem get_exit_ok (c : Caps) (hc : CapsOk c) :
    Post (get_exit c) (fun r => logical_ok_opt r = true) := by
  unfold get_exit
  apply Post.bind_right; intro loc
  apply Post.bind_right; intro _
  apply Post.bind_right; intro opened
  have hfin : ∀ x : Option Vertex, logical_ok_opt x = true →
      logical_ok_opt (some ((Vertex.create op_exit
        [x.getD ((Vertex.create op_int_const []).set_string "0")]).set_line loc)) = true := by
    intro x hx
    simp only [logical_ok_opt, logical_ok_set_line]
    apply logical_ok_plain op_exit _ rfl
    apply logical_ok_singleton
    cases x with
    | none =>
      simp only [Option.getD_none, logical_ok_set_string]
      exact logical_ok_plain op_int_const [] rfl logical_ok_list_nil
    | some v => exact hx
  dsimp only
  apply Post.ite <;> intro _
  · apply Post.bind hc.get_expression; intro x hx
    apply Post.bind_right; intro closed
    apply Post.ite <;> intro _
    · exact Post.pure rfl
    · exact Post.pure (hfin x hx)
  · exact Post.pure (hfin none rfl)

theorem logical_ok_pair (a b : Vertex) (ha : a.logical_ok = true) (hb : b.logical_ok = true) :
    logical_ok_list [a, b] = true := by
  rw [logical_ok_list_cons, ha]
  exact logical_ok_singleton b hb

theorem get_postfix_expression_ok (c : Caps) (hc : CapsOk c) (res : Option Vertex)
    (hres : logical_ok_opt res = true) :
    Post (get_postfix_expression c res) (fun r => logical_ok_opt r = true) := by
  unfold get_postfix_expression
  have hchild := logical_ok_child_of res hres
  apply Post.bind_right; intro e1
  apply Post.ite <;> intro _
  · exact Post.pure hres
  apply Post.bind_right; intro tp
  apply Post.ite <;> intro _
  · apply Post.bind_right; intro loc
    apply Post.bind_right; intro _
    apply hc.get_postfix_expression
    simp only [logical_ok_opt, logical_ok_set_line]
    exact logical_ok_plain op_postfix_inc _ rfl (logical_ok_singleton _ hchild)
  apply Post.ite <;> intro _
  · apply Post.bind_right; intro loc
    apply Post.bind_right; intro _
    apply hc.get_postfix_expression
    simp only [logical_ok_opt, logical_ok_set_line]
    exact logical_ok_plain op_postfix_dec _ rfl (logical_ok_singleton _ hchild)
  apply Post.ite <;> intro _
  · apply Post.bind_right; intro loc
    apply Post.bind_right; intro _
    apply Post.bind hc.get_expression; intro i hi
    have hjp : ∀ closed : Bool, Post (if (!closed) = true then pure none
        else c.get_postfix_expression (some ((match i with
          | none => Vertex.create op_index [child_of res]
          | some i => Vertex.create op_index [child_of res, i]).set_line loc)))
        (fun r => logical_ok_opt r = true) := by
      intro closed
      apply Post.ite <;> intro _
      · exact Post.pure rfl
      · apply hc.get_postfix_expression
        simp only [logical_ok_opt, logical_ok_set_line]
        cases i with
        | none => exact logical_ok_plain op_index _ rfl (logical_ok_singleton _ hchild)
        | some i => exact logical_ok_plain op_index _ rfl (logical_ok_pair _ _ hchild hi)
    dsimp only
    apply Post.ite <;> intro _
    · apply Post.bind_right; intro closed
      exact hjp closed
    · apply Post.bind_right; intro closed
      exact hjp closed
  apply Post.ite <;> intro _
  · apply Post.bind_right; intro loc
    apply Post.bind_right; intro _
    apply Post.bind hc.get_expr_top; intro i hi
    cases i with
    | none =>
      dsimp only
      apply Post.bind_right; intro _
      exact Post.pure rfl
    | some i =>
      apply hc.get_postfix_expression
      simp only [logical_ok_opt, logical_ok_set_line]
      exact logical_ok_plain op_arrow _ rfl (logical_ok_pair _ _ hchild hi)
  apply Post.ite <;> intro _
  · apply Post.bind_right; intro loc
    apply Post.bind_right; intro _
    apply Post.bind_right; intro _
    apply Post.bind (gen_list_ok c hc op_err tok_comma rfl); intro r hr
    rcases r with ⟨ok_next, next⟩
    dsimp only
    apply Post.bind_right; intro err
    apply Post.ite <;> intro _
    · exact Post.pure rfl
    apply Post.bind_right; intro closed
    apply Post.ite <;> intro _
    · exact Post.pure rfl
    · apply hc.get_postfix_expression
      simp only [logical_ok_opt, logical_ok_set_line]
      apply logical_ok_plain op_arrow _ rfl
      apply logical_ok_pair _ _ hchild
      simp only [logical_ok_set_string, logical_ok_set_line]
      exact logical_ok_plain op_func_call next rfl hr
  · exact Post.pure hres

theorem min_max_call_ok (call : Option Vertex) (h : logical_ok_opt call = true)
    (ht : ∀ v, call = some v → is_logical_op v.type = false) :
    Post (min_max_call call) (fun r => logical_ok_opt r = true) := by
  unfold min_max_call
  cases call with
  | none => exact Post.abort _
  | some v =>
    dsimp only
    split
    · rename_i a ha
      apply Post.pure
      apply logical_ok_set_next
      · exact logical_rule_plain _ _ (ht v rfl)
      · apply logical_ok_singleton
        apply logical_ok_conv_to
        have hv : v.logical_ok = true := h
        rw [logical_ok_eq, ha, Bool.and_eq_true, logical_ok_list_cons, Bool.and_eq_true] at hv
        exact hv.2.1
    · exact Post.pure h

theorem generate_constructor_call_ok (k : Nat) :
    Post (generate_constructor_call k) (fun v => v.logical_ok = true) := by
  unfold generate_constructor_call
  apply Post.bind_right; intro s
  apply Post.pure
  refine (logical_ok_set_info _ _ (fun _ => rfl)).trans ?_
  rw [logical_ok_set_string]
  apply logical_ok_plain op_constructor_call _ rfl
  rw [logical_ok_list_iff]
  intro v hv
  rcases List.mem_map.mp hv with ⟨f, _, rfl⟩
  simp only [logical_ok_set_location, logical_ok_set_string]
  exact logical_ok_plain op_var [] rfl logical_ok_list_nil

theorem generate_anonymous_class_ok (e : Env) (function : Vertex) (creator : Option Nat)
    (uses : List Vertex) :
    Post (generate_anonymous_class e function creator uses) (fun v => v.logical_ok = true) := by
  unfold generate_anonymous_class
  repeat' first
    | (intro v hv; apply Post.pure; simp only [logical_ok_set_location]; exact hv)
    | apply Post.bind (generate_constructor_call_ok _)
    | (apply Post.bind_right; intro _)
    | dsimp only
    | split

theorem get_anonymous_function_ok (e : Env) (c : Caps) :
    Post (get_anonymous_function e c) (fun r => logical_ok_opt r = true) := by
  unfold get_anonymous_function
  apply Post.bind_right; intro r
  rcases r with ⟨f, uses⟩
  dsimp only
  cases f with
  | none => exact Post.pure rfl
  | some anon =>
    dsimp only
    apply Post.ite <;> intro _
    · apply Post.bind_right; intro s
      apply Post.bind (generate_anonymous_class_ok _ _ _ _); intro v hv
      exact Post.pure hv
    · exact Post.pure rfl

theorem create_ternary_op_vertex_ok (e : Env) (left : Vertex) (right : Option Vertex)
    (third : Vertex) (hl : left.logical_ok = true) (hr : logical_ok_opt right = true)
    (ht : third.logical_ok = true) :
    Post (create_ternary_op_vertex e left right third) (fun v => v.logical_ok = true) := by
  unfold create_ternary_op_vertex
  cases right with
  | some r =>
    apply Post.pure
    apply logical_ok_plain op_ternary _ rfl
    rw [logical_ok_list_cons, hl]
    exact logical_ok_pair _ _ hr ht
  | none =>
    dsimp only
    apply Post.bind_right; intro s
    apply Post.bind_right; intro _
    apply Post.pure
    have hvar : ∀ name : String, (((Vertex.create op_var []).set_string name).set_info fun i =>
        { i with extra_type := OperationExtra.op_ex_var_superlocal }).logical_ok = true := by
      intro name
      refine (logical_ok_set_info _ _ (fun _ => rfl)).trans ?_
      rw [logical_ok_set_string]
      exact logical_ok_plain op_var [] rfl logical_ok_list_nil
    apply logical_ok_plain op_ternary _ rfl
    rw [logical_ok_list_cons, Bool.and_eq_true]
    constructor
    · apply logical_ok_conv_to
      exact logical_ok_plain op_set _ rfl (logical_ok_pair _ _ (hvar _) hl)
    · apply logical_ok_pair _ _ _ ht
      exact logical_ok_plain op_move _ rfl (logical_ok_singleton _ (hvar _))

theorem get_unary_op_ok (c : Caps) (hc : CapsOk c) (p : Nat) (op : Operation) (till : Bool)
    (hop : is_logical_op op = false) :
    Post (get_unary_op c p op till) (fun r => logical_ok_opt r = true) := by
  unfold get_unary_op
  apply Post.bind_right; intro loc
  apply Post.bind_right; intro _
  apply Post.bind (hc.get_binary_op p till); intro x hx
  cases x with
  | none => exact Post.pure rfl
  | some left =>
    dsimp only
    apply Post.pure
    simp only [logical_ok_opt, logical_ok_set_line, create_vertex]
    apply logical_ok_plain op _ hop
    apply logical_ok_singleton
    have h1 : (if (op == op_log_not) = true then conv_to tp_bool left else left).logical_ok
        = true := by
      split
      · exact logical_ok_conv_to _ _ hx
      · exact hx
    split
    · exact logical_ok_conv_to _ _ h1
    · exact h1

theorem Post.abort_bind {α β : Type} {Q : β → Prop} (e : Abort) (f : α → P β) :
    Post ((abortP e : P α) >>= f) Q :=
  Post.bind (R := fun _ => False) (Post.abort e) (fun _ h => h.elim)

theorem coerce_operands_none (op : Operation) (l : Vertex) (s : GenTree) :
    coerce_operands op l none s =
      if is_logical_op op || is_bit_assign_op op || is_bit_logical_op op then
        Res.abort (Abort.null_deref "conv_to(right)")
      else Res.ok (l, none) s := by
  cases op <;> rfl

theorem coerce_operands_none_ok (op : Operation) (l : Vertex) (hl : l.logical_ok = true) :
    Post (coerce_operands op l none) (fun r => r.1.logical_ok = true ∧ r.2 = none) := by
  constructor
  intro s a s' h
  rw [coerce_operands_none] at h
  split at h
  · cases h
  · cases h
    exact ⟨hl, rfl⟩

theorem logical_ok_coerced_left (op : Operation) (l : Vertex) (hl : l.logical_ok = true) :
    (coerced_left op l).logical_ok = true := by
  unfold coerced_left
  split
  · exact logical_ok_conv_to _ _ hl
  · split
    · exact logical_ok_conv_to _ _ hl
    · exact hl

theorem logical_ok_coerced_right (op : Operation) (r : Vertex) (hr : r.logical_ok = true) :
    (coerced_right op r).logical_ok = true := by
  unfold coerced_right
  split
  · exact logical_ok_conv_to _ _ hr
  · split
    · exact logical_ok_conv_to _ _ hr
    · exact hr

theorem logical_rule_coerced (op : Operation) (l r : Vertex) :
    logical_rule op [coerced_left op l, coerced_right op r] = true := by
  unfold logical_rule
  by_cases h : is_logical_op op = true
  · have hp : coerced_pair [coerced_left op l, coerced_right op r] = true := by
      simp [coerced_pair, coerced_left, coerced_right, h, conv_to_bool_type]
    simp [hp]
  · simp [h]

theorem coerce_operands_some_ok (op : Operation) (l r : Vertex) :
    Post (coerce_operands op l (some r))
      (fun x => x = (coerced_left op l, some (coerced_right op r))) := by
  constructor
  intro s a s' h
  rw [coerce_operands_some] at h
  cases h
  rfl

theorem binary_fold_ok (e : Env) (c : Caps) (hc : CapsOk c) (op : Operation) (p : Nat)
    (till : Bool) (loc : Int) (left : Vertex) (right : Option Vertex) (third : Vertex)
    (hl : left.logical_ok = true) (hr : logical_ok_opt right = true)
    (ht : third.logical_ok = true)
    (hsome : ¬(p == e.info.ternaryP) = true → right.isSome = true) :
    Post (do
      let d ← coerce_operands op left right
      if (p == e.info.ternaryP) = true then do
        let y ← create_ternary_op_vertex e d.1 d.2 third
        if (e.info.fixity op == Fixity.left_opp || p == e.info.ternaryP) = true then
          c.get_binary_op_loop p till (y.set_line loc)
        else pure (some (y.set_line loc))
      else do
        let y ← pure (create_vertex op [d.1, child_of d.2])
        if (e.info.fixity op == Fixity.left_opp || p == e.info.ternaryP) = true then
          c.get_binary_op_loop p till (y.set_line loc)
        else pure (some (y.set_line loc)))
      (fun r => logical_ok_opt r = true) := by
  have hfin : ∀ y : Vertex, y.logical_ok = true →
      Post (if (e.info.fixity op == Fixity.left_opp || p == e.info.ternaryP) = true then
          c.get_binary_op_loop p till (y.set_line loc)
        else pure (some (y.set_line loc))) (fun r => logical_ok_opt r = true) := by
    intro y hy
    have hy' : (y.set_line loc).logical_ok = true := by rw [logical_ok_set_line]; exact hy
    apply Post.ite <;> intro _
    · exact hc.get_binary_op_loop p till _ hy'
    · exact Post.pure hy'
  cases right with
  | none =>
    apply Post.bind (coerce_operands_none_ok op left hl); intro d hd
    apply Post.ite <;> intro htern
    · apply Post.bind (create_ternary_op_vertex_ok e d.1 d.2 third hd.1 (by rw [hd.2]; rfl) ht)
      intro y hy
      exact hfin y hy
    · exact absurd (hsome htern) (by simp)
  | some r =>
    apply Post.bind (coerce_operands_some_ok op left r); intro d hd
    subst hd
    have h1 := logical_ok_coerced_left op left hl
    have h2 := logical_ok_coerced_right op r hr
    apply Post.ite <;> intro htern
    · apply Post.bind (create_ternary_op_vertex_ok e _ (some (coerced_right op r)) third h1 h2 ht)
      intro y hy
      exact hfin y hy
    · apply Post.bind (R := fun y => y.logical_ok = true)
      · exact Post.pure (logical_ok_create op _ (logical_rule_coerced op left r)
          (logical_ok_pair _ _ h1 h2))
      · intro y hy
        exact hfin y hy

theorem get_expression_impl_ok (e : Env) (c : Caps) (hc : CapsOk c) (till : Bool) :
    Post (get_expression_impl e c till) (fun r => logical_ok_opt r = true) :=
  hc.get_binary_op _ _

theorem binary_tail_ok (e : Env) (c : Caps) (hc : CapsOk c) (op : Operation) (p : Nat)
    (till : Bool) (loc : Int) (left : Vertex) (y : Option Vertex)
    (hl : left.logical_ok = true) (hy : logical_ok_opt y = true) :
    Post (if (y.isNone && !p == e.info.ternaryP) = true then do
        let _ ← kphp_error false ("Failed to parse second argument in [" ++ e.info.str op ++ "]")
        pure none
      else
        if (p == e.info.ternaryP) = true then do
          let closed ← expect tok_colon "':'"
          if (!closed) = true then pure none
          else do
            let third ← get_expression_impl e c true
            match third with
            | none => do
              let _ ← kphp_error false
                ("Failed to parse third argument in [" ++ e.info.str op ++ "]")
              pure none
            | some third => do
              let d ← coerce_operands op (if y.isSome = true then conv_to tp_bool left else left) y
              if (p == e.info.ternaryP) = true then do
                let y ← create_ternary_op_vertex e d.1 d.2 (child_of (some third))
                if (e.info.fixity op == Fixity.left_opp || p == e.info.ternaryP) = true then
                  c.get_binary_op_loop p till (y.set_line loc)
                else pure (some (y.set_line loc))
              else do
                let y ← pure (create_vertex op [d.1, child_of d.2])
                if (e.info.fixity op == Fixity.left_opp || p == e.info.ternaryP) = true then
                  c.get_binary_op_loop p till (y.set_line loc)
                else pure (some (y.set_line loc))
        else do
          let d ← coerce_operands op left y
          if (p == e.info.ternaryP) = true then do
            let y ← create_ternary_op_vertex e d.1 d.2 (child_of none)
            if (e.info.fixity op == Fixity.left_opp || p == e.info.ternaryP) = true then
              c.get_binary_op_loop p till (y.set_line loc)
            else pure (some (y.set_line loc))
          else do
            let y ← pure (create_vertex op [d.1, child_of d.2])
            if (e.info.fixity op == Fixity.left_opp || p == e.info.ternaryP) = true then
              c.get_binary_op_loop p till (y.set_line loc)
            else pure (some (y.set_line loc)))
      (fun r => logical_ok_opt r = true) := by
  apply Post.ite <;> intro hnone
  · apply Post.bind_right; intro _
    exact Post.pure rfl
  apply Post.ite <;> intro htern
  · apply Post.bind_right; intro closed
    apply Post.ite <;> intro _
    · exact Post.pure rfl
    apply Post.bind (get_expression_impl_ok e c hc true); intro third hthird
    cases third with
    | none =>
      dsimp only
      apply Post.bind_right; intro _
      exact Post.pure rfl
    | some third =>
      dsimp only
      apply binary_fold_ok e c hc op p till loc _ y _ _ hy hthird
      · intro h; exact absurd htern h
      · split
        · exact logical_ok_conv_to _ _ hl
        · exact hl
  · apply binary_fold_ok e c hc op p till loc left y _ hl hy logical_ok_null
    intro _
    cases y with
    | none =>
      have hbeq : (p == e.info.ternaryP) = true := by simpa using hnone
      exact absurd hbeq htern
    | some r => rfl

theorem get_binary_op_loop_ok (e : Env) (c : Caps) (hc : CapsOk c) (p : Nat) (till : Bool)
    (left : Vertex) (hl : left.logical_ok = true) :
    Post (get_binary_op_loop e c p till left) (fun r => logical_ok_opt r = true) := by
  unfold get_binary_op_loop
  apply Post.bind_right; intro e1
  apply Post.ite <;> intro _
  · exact Post.pure hl
  apply Post.bind_right; intro tp
  dsimp only
  apply Post.ite <;> intro _
  · exact Post.pure hl
  apply Post.bind_right; intro loc
  apply Post.bind_right; intro _
  apply Post.ite <;> intro _
  · apply Post.bind hc.get_expression; intro y hy
    exact binary_tail_ok e c hc _ p till loc left y hl hy
  · apply Post.bind (hc.get_binary_op _ _); intro y hy
    exact binary_tail_ok e c hc _ p till loc left y hl hy

theorem get_binary_op_ok (e : Env) (c : Caps) (hc : CapsOk c) (p : Nat) (till : Bool)
    (hu : ∀ t, is_logical_op (e.info.tok_to_unary_op t) = false) :
    Post (get_binary_op e c p till) (fun r => logical_ok_opt r = true) := by
  unfold get_binary_op
  dsimp only
  apply Post.ite <;> intro _
  · exact hc.get_expr_top
  apply Post.bind_right; intro tp
  apply Post.bind_right; intro e1
  apply Post.ite <;> intro _
  · exact get_unary_op_ok c hc _ _ _ (hu tp)
  apply Post.bind (hc.get_binary_op _ _); intro x hx
  cases x with
  | none => exact Post.pure rfl
  | some left =>
    dsimp only
    apply Post.ite <;> intro _
    · exact Post.pure hx
    · exact hc.get_binary_op_loop _ _ left hx

theorem get_expression_ok (e : Env) (c : Caps) (hc : CapsOk c) :
    Post (get_expression e c) (fun r => logical_ok_opt r = true) := by
  unfold get_expression
  apply Post.bind_right; intro _
  exact get_expression_impl_ok e c hc false

theorem Post.and {α : Type} {m : P α} {Q1 Q2 : α → Prop} (h1 : Post m Q1) (h2 : Post m Q2) :
    Post m (fun a => Q1 a ∧ Q2 a) :=
  ⟨fun s a s' h => ⟨h1.run s a s' h, h2.run s a s' h⟩⟩

theorem get_var_name_ok : Post get_var_name (fun r => logical_ok_opt r = true) := by
  unfold get_var_name
  apply Post.bind_right; intro loc
  apply Post.bind_right; intro t
  apply Post.ite <;> intro _
  · exact Post.pure rfl
  · apply Post.bind_right; intro _
    apply Post.pure
    simp only [logical_ok_opt, logical_ok_set_line, logical_ok_set_string]
    exact logical_ok_plain op_var [] rfl logical_ok_list_nil

theorem type_constructor_call_hack (call : Vertex) (name : String) :
    (constructor_call_hack call name).type = call.type := by
  unfold constructor_call_hack
  have hs : ∀ (v : Vertex) (tp : PrimitiveType),
      (v.set_info fun i => { i with type_help := tp }).type = v.type := by
    intro v tp; cases v; rfl
  dsimp only
  repeat' split
  all_goals simp only [hs, type_set_string]

theorem get_func_call_type (c : Caps) (Op E : Operation) (hne : (Op == op_isset) = false) :
    Post (get_func_call c Op E) (fun r => ∀ v, r = some v → v.type = Op) := by
  have hnone : Post (pure none : P (Option Vertex)) (fun r => ∀ v, r = some v → v.type = Op) :=
    Post.pure (fun v h => by cases h)
  unfold get_func_call
  apply Post.bind_right; intro loc
  apply Post.bind_right; intro tok
  apply Post.bind_right; intro _
  apply Post.bind_right; intro opened
  apply Post.ite <;> intro _
  · exact hnone
  apply Post.bind_right; intro _
  apply Post.bind_right; intro r
  rcases r with ⟨ok_next, next⟩
  dsimp only
  apply Post.bind_right; intro err
  apply Post.ite <;> intro _
  · exact hnone
  apply Post.bind_right; intro closed
  apply Post.ite <;> intro _
  · exact hnone
  apply Post.ite <;> intro hisset
  · rw [hne] at hisset
    cases hisset
  · apply Post.ite <;> intro _
    · apply Post.pure
      intro v h
      cases h
      simp only [type_set_string, type_set_line]
      rfl
    · apply Post.ite <;> intro _
      · apply Post.pure
        intro v h
        cases h
        rw [type_constructor_call_hack, type_set_line]
        rfl
      · apply Post.pure
        intro v h
        cases h
        rw [type_set_line]
        rfl

theorem min_max_ok (c : Caps) (hc : CapsOk c) (Op : Operation) (hne : (Op == op_isset) = false)
    (hop : is_logical_op Op = false) :
    Post (do min_max_call (← get_func_call c Op op_err)) (fun r => logical_ok_opt r = true) := by
  apply Post.bind (Post.and (get_func_call_ok c hc Op op_err hop rfl)
    (get_func_call_type c Op op_err hne))
  intro call hcall
  apply min_max_call_ok call hcall.1
  intro v hv
  rw [hcall.2 v hv]
  exact hop

theorem get_expr_top_ok (c : Caps) (hc : CapsOk c) :
    Post (get_expr_top c) (fun r => logical_ok_opt r = true) := by
  unfold get_expr_top
  apply Post.bind_right; intro s
  dsimp only
  split
  all_goals first
    | ((with_reducible refine get_conv_ok c hc _ ?_) <;> rfl)
    | ((with_reducible refine get_func_call_ok c hc _ _ ?_ ?_) <;> rfl)
    | ((with_reducible refine min_max_ok c hc _ ?_ ?_) <;> rfl)
    | (with_reducible exact get_exit_ok c hc)
    | (with_reducible exact get_require_ok c hc)
    | (with_reducible exact get_require_once_ok c hc)
    | (with_reducible exact get_short_array_ok c hc)
    | (with_reducible exact get_string_build_ok c hc)
    | (with_reducible exact hc.get_anonymous_function)
    | (with_reducible exact Post.pure rfl)
    | skip
  iterate 8
    apply Post.bind_right; intro _; apply Post.pure
    first
      | exact logical_ok_leaf _ _ _ rfl
      | (simp only [logical_ok_opt, logical_ok_set_line]
         exact logical_ok_plain _ [] rfl logical_ok_list_nil)
  · apply Post.bind get_var_name_ok; intro x hx
    exact hc.get_postfix_expression x hx
  · apply Post.bind get_string_ok; intro x hx
    exact Post.pure hx
  · apply Post.bind_right; intro _
    apply Post.bind hc.get_expression; intro x hx
    cases x with
    | none =>
      dsimp only
      apply Post.bind_right; intro _
      exact Post.pure rfl
    | some v =>
      apply Post.pure
      simp only [logical_ok_opt, logical_ok_set_line]
      exact logical_ok_plain op_print _ rfl (logical_ok_singleton _ (logical_ok_conv_to _ _ hx))
  · have hfin : ∀ y : Option Vertex, logical_ok_opt y = true →
        Post (if (s.cur != 0 && (s.tokens.getD (s.cur - 1) default).type == tok_arrow) = true
          then pure y else c.get_postfix_expression y) (fun r => logical_ok_opt r = true) := by
      intro y hy
      apply Post.ite <;> intro _
      · exact Post.pure hy
      · exact hc.get_postfix_expression y hy
    apply Post.ite <;> intro _
    · apply Post.bind_right; intro _
      apply Post.bind (R := fun y => logical_ok_opt y = true)
      · exact Post.pure (logical_ok_leaf op_func_name s.line_num s.tok.str_val rfl)
      · exact hfin
    · apply Post.bind (get_func_call_ok c hc op_func_call op_err rfl rfl)
      exact hfin
  · apply Post.bind (get_func_call_ok c hc op_tuple op_err rfl rfl); intro x hx
    cases x with
    | none => exact Post.abort _
    | some res =>
      dsimp only
      apply Post.bind_right; intro err
      apply Post.ite <;> intro _
      · exact Post.pure rfl
      · exact Post.pure hx
  · apply Post.bind_right; intro _
    apply Post.bind hc.get_expression; intro x hx
    cases x with
    | none =>
      dsimp only
      apply Post.bind_right; intro _
      exact Post.pure rfl
    | some res =>
      dsimp only
      have hres : logical_ok_opt (some (res.set_info fun i => { i with parent_flag := true }))
          = true := (logical_ok_set_info res _ (fun _ => rfl)).trans hx
      apply Post.bind_right; intro closed
      apply Post.ite <;> intro _
      · exact Post.pure rfl
      apply Post.bind_right; intro tp
      apply Post.ite <;> intro _
      · exact Post.pure hres
      · exact hc.get_postfix_expression _ hres
  · exact Post.pure rfl

theorem no_fuel_ok : CapsOk no_fuel where
  gen_list_loop := fun _ _ _ _ _ _ => Post.abort _
  get_string_build_loop := fun _ _ _ => Post.abort _
  get_postfix_expression := fun _ _ => Post.abort _
  get_expr_top := Post.abort _
  get_binary_op := fun _ _ => Post.abort _
  get_binary_op_loop := fun _ _ _ _ => Post.abort _
  get_expression := Post.abort _
  get_anonymous_function := Post.abort _

theorem parser_ok (e : Env) (hu : ∀ t, is_logical_op (e.info.tok_to_unary_op t) = false)
    (n : Nat) : CapsOk (parser e n) := by
  induction n with
  | zero => exact no_fuel_ok
  | succ n ih =>
    exact {
      gen_list_loop := fun E delim prev res hE hres => gen_list_loop_ok _ ih E delim prev res hE hres
      get_string_build_loop := fun b l hl => get_string_build_loop_ok _ ih b l hl
      get_postfix_expression := fun r hr => get_postfix_expression_ok _ ih r hr
      get_expr_top := get_expr_top_ok _ ih
      get_binary_op := fun p t => get_binary_op_ok e _ ih p t hu
      get_binary_op_loop := fun p t l hl => get_binary_op_loop_ok e _ ih p t l hl
      get_expression := get_expression_ok e _ ih
      get_anonymous_function := get_anonymous_function_ok e _ }

theorem logical_rule_at (v : Vertex) (h : v.logical_ok = true) (p : List Nat) (w : Vertex)
    (hw : subtree_at v p = some w) : logical_rule w.type w.next = true := by
  induction p generalizing v with
  | nil =>
    simp only [subtree_at, Option.some.injEq] at hw
    subst hw
    rw [logical_ok_eq, Bool.and_eq_true] at h
    exact h.1
  | cons i q ih =>
    rw [subtree_at] at hw
    rcases hc : v.next.get? i with _ | c
    · rw [hc] at hw
      cases hw
    · rw [hc] at hw
      rw [logical_ok_eq, Bool.and_eq_true] at h
      exact ih c ((logical_ok_list_iff _).mp h.2 c (List.get?_mem hc)) hw

/-- Claim C8, amended: every logical-operator node (`op_log_and`, `op_log_or` and their
low-priority variants) that appears anywhere in a tree returned by `get_expression` has
exactly two children, each a boolean-coercion node, except the `op_log_and` nodes of the
conjunction built for a multi-argument `isset(a, b, …)`: their right child is an
`op_isset` node and their left child an `op_isset` node or the conjunction built so far.
The operator table is one whose unary operators are not logical operators. -/
theorem logical_nodes_coerced (e : Env)
    (hu : ∀ t, is_logical_op (e.info.tok_to_unary_op t) = false)
    (n : Nat) (s s' : GenTree) (v : Vertex)
    (h : (parser e n).get_expression s = Res.ok (some v) s')
    (p : List Nat) (w : Vertex) (hw : subtree_at v p = some w)
    (hlog : is_logical_op w.type = true) :
    coerced_pair w.next = true ∨ (w.type = op_log_and ∧ isset_pair w.next = true) := by
  have hv : v.logical_ok = true := (parser_ok e hu n).get_expression.run s (some v) s' h
  have hr := logical_rule_at v hv p w hw
  simp only [logical_rule, hlog, Bool.not_true, Bool.false_or, Bool.or_eq_true,
    Bool.and_eq_true, beq_iff_eq] at hr
  exact hr

theorem sample_unary_plain (t : TokenType) :
    is_logical_op (sample_env.info.tok_to_unary_op t) = false := by
  cases t <;> rfl

theorem logical_nodes_coerced_witness :
    coerced_pair [conv_to tp_bool (leaf op_var 1 "a"), conv_to tp_bool (leaf op_var 1 "b")] = true ∨
      (op_log_or = op_log_and ∧
        isset_pair [conv_to tp_bool (leaf op_var 1 "a"), conv_to tp_bool (leaf op_var 1 "b")]
          = true) :=
  logical_nodes_coerced sample_env sample_unary_plain 40 (sample_state tokens_log_or)
    { sample_state tokens_log_or with cur := 3 }
    (node1 op_log_or [conv_to tp_bool (leaf op_var 1 "a"), conv_to tp_bool (leaf op_var 1 "b")])
    rfl [] _ rfl rfl

set_option maxRecDepth 4000 in
theorem logical_nodes_counterexample :
    ∃ v s', (parser sample_env 60).get_expression (sample_state tokens_isset) = Res.ok (some v) s' ∧
      is_logical_op v.type = true ∧ v.next.map Vertex.type = [op_isset, op_isset] ∧
      coerced_pair v.next = false :=
  ⟨node1 op_log_and [Vertex.create op_isset [leaf op_var 1 "a"],
      Vertex.create op_isset [leaf op_var 1 "b"]],
    { sample_state tokens_isset with cur := 6 }, rfl, rfl, rfl, rfl⟩

theorem filter_all_defaults (fields : List (Vertex × AccessType))
    (hall : ∀ f ∈ fields, f.1.has_def_val = true) :
    (fields.filter fun f => f.1.has_def_val) = fields :=
  List.filter_eq_self.mpr hall

theorem filter_no_defaults (fields : List (Vertex × AccessType))
    (hall : ∀ f ∈ fields, f.1.has_def_val = false) :
    (fields.filter fun f => f.1.has_def_val) = [] := by
  apply List.filter_eq_nil_iff.mpr
  intro f hf
  simp [hall f hf]

theorem constructor_root_cmd (s : GenTree) (k : Nat) (line : Int) (params : Vertex)
    (f : VertexInfo → VertexInfo) :
    (((constructor_node s k line params).set_info f).cmd).next =
      constructor_body s k line (params.next.map fun p => param_initializer line p) := rfl

/-- Claim C11, amended: for a class whose instance fields `f1 … fn` are declared in that
order and all have defaults, the assignments in the body of the synthesized constructor
appear in the reverse of the declaration order, `$this->fn = dn` first and
`$this->f1 = d1` last, between the receiver `$this` and `return $this`. -/
theorem initializers_reverse_order (k : Nat) (line : Int) (s : GenTree)
    (hall : ∀ f ∈ (s.get_class k).members.instance_fields, f.1.has_def_val = true) :
    ∃ s' root, create_default_constructor k line s = Res.ok () s' ∧
      (s'.get_function s.functions.length).root = some root ∧
      root.cmd.next = vertex_this line (some k) ::
        (((s.get_class k).members.instance_fields.reverse.map
            fun f => field_initializer line f.1) ++
          [(Vertex.create op_return [vertex_this line none]).set_line line]) := by
  refine ⟨_, (constructor_node s k line (Vertex.create op_func_param_list [])).set_info
    (fun i => { i with func_id := some s.functions.length }),
    create_constructor_with_args_apply k line _ s, ?_, ?_⟩
  · rw [with_constructor_function_new]
  · rw [constructor_root_cmd]
    simp [constructor_body, field_initializers, filter_all_defaults _ hall, Vertex.create,
      Vertex.next, List.map_reverse]

theorem initializers_reverse_order_witness :
    ∃ s' root, create_default_constructor 0 1 sample_two_field_state = Res.ok () s' ∧
      (s'.get_function 0).root = some root ∧
      root.cmd.next = [vertex_this 1 (some 0),
        field_initializer 1 (sample_field "y" "2").1,
        field_initializer 1 (sample_field "x" "1").1,
        (Vertex.create op_return [vertex_this 1 none]).set_line 1] :=
  initializers_reverse_order 0 1 sample_two_field_state (by
    intro f hf
    simp only [sample_two_field_state, GenTree.get_class, List.getD_cons_zero,
      List.mem_cons, List.mem_singleton, List.not_mem_nil, or_false] at hf
    rcases hf with rfl | rfl <;> rfl)

theorem initializers_order_counterexample :
    ∃ s' root, create_default_constructor 0 1 sample_two_field_state = Res.ok () s' ∧
      (s'.get_function 0).root = some root ∧
      (root.cmd.next.map fun v => (v.next.headD default).get_string) = ["", "y", "x", "this"] ∧
      root.cmd.next.get? 1 ≠ some (field_initializer 1 (sample_field "x" "1").1) :=
  ⟨_, (constructor_node sample_two_field_state 0 1 (Vertex.create op_func_param_list [])).set_info
    (fun i => { i with func_id := some 0 }),
    create_constructor_with_args_apply 0 1 _ sample_two_field_state,
    congrArg FunctionData.root (with_constructor_function_new sample_two_field_state 0 1
      (Vertex.create op_func_param_list [])), by decide, fun h => by
      have h2 := congrArg (fun o => o.map fun v => (v.next.headD default).get_string) h
      exact absurd h2 (by decide)⟩

/-- Claim C16: for a class `k` whose fields have no defaults and a parameter list
`p1 … pn`, `create_constructor_with_args` registers as instance method of the class a
function named `<class>$$__construct` whose parameter list is the given one and whose
body is `$this`, then `$this->pi = pi` for each parameter in order, then `return $this`. -/
theorem constructor_with_args (k : Nat) (line : Int) (params : Vertex) (s : GenTree)
    (hk : k < s.classes.length)
    (hnd : ∀ f ∈ (s.get_class k).members.instance_fields, f.1.has_def_val = false) :
    ∃ s' root, create_constructor_with_args k line params s = Res.ok () s' ∧
      (s'.get_class k).members.instance_methods =
        (s.get_class k).members.instance_methods ++
          [(s.functions.length, AccessType.access_public)] ∧
      (s'.get_function s.functions.length).name =
        replace_backslashes (s.get_class k).name ++ "$$" ++ "__construct" ∧
      (s'.get_function s.functions.length).root = some root ∧
      root.type = op_function ∧
      root.name.get_string = replace_backslashes (s.get_class k).name ++ "$$" ++ "__construct" ∧
      root.params = params ∧
      root.cmd.type = op_seq ∧
      root.cmd.next = vertex_this line (some k) ::
        ((params.next.map fun p => Vertex.create op_set
            [((Vertex.create op_instance_prop [vertex_this line none]).set_line
              line).set_string p.var.get_string, p.var]) ++
          [(Vertex.create op_return [vertex_this line none]).set_line line]) := by
  refine ⟨_, (constructor_node s k line params).set_info
    (fun i => { i with func_id := some s.functions.length }),
    create_constructor_with_args_apply k line params s, ?_, ?_, ?_, rfl, rfl, rfl, rfl, ?_⟩
  · rw [with_constructor_classes, if_pos hk]
  · rw [with_constructor_function_new]
  · rw [with_constructor_function_new]
  · rw [constructor_root_cmd]
    simp [constructor_body, field_initializers, filter_no_defaults _ hnd, param_initializer]

theorem constructor_with_args_witness :
    ∃ s' root, create_constructor_with_args 0 1
        (Vertex.create op_func_param_list [sample_param "y", sample_param "z"])
        sample_empty_class_state = Res.ok () s' ∧
      (s'.get_class 0).members.instance_methods = [(0, AccessType.access_public)] ∧
      (s'.get_function 0).name = "L$$__construct" ∧
      (s'.get_function 0).root = some root ∧
      root.type = op_function ∧
      root.name.get_string = "L$$__construct" ∧
      root.params = Vertex.create op_func_param_list [sample_param "y", sample_param "z"] ∧
      root.cmd.type = op_seq ∧
      root.cmd.next = [vertex_this 1 (some 0),
        param_initializer 1 (sample_param "y"), param_initializer 1 (sample_param "z"),
        (Vertex.create op_return [vertex_this 1 none]).set_line 1] :=
  constructor_with_args 0 1 (Vertex.create op_func_param_list [sample_param "y", sample_param "z"])
    sample_empty_class_state (by decide) (by
      intro f hf
      simp [sample_empty_class_state, GenTree.get_class] at hf)

theorem PLe.ple_refl {α : Type} (m : P α) : PLe m m := ⟨fun _ => Or.inr rfl⟩

theorem PLe.ple_bind {α β : Type} {m m' : P α} {f f' : α → P β} (hm : PLe m m')
    (hf : ∀ a, PLe (f a) (f' a)) : PLe (m >>= f) (m' >>= f') := by
  constructor
  intro s
  simp only [P.bind_apply]
  rcases hm.run s with h | h
  · left
    rw [h]
    rfl
  · rw [h]
    rcases m' s with ⟨a, s1⟩ | err
    · exact (hf a).run s1
    · right
      rfl

theorem PLe.ple_ite {α : Type} {c : Prop} [Decidable c] {m1 m1' m2 m2' : P α}
    (h1 : PLe m1 m1') (h2 : PLe m2 m2') :
    PLe (if c then m1 else m2) (if c then m1' else m2') := by
  split
  · exact h1
  · exact h2

theorem PLe.ple_trans {α : Type} {m1 m2 m3 : P α} (h1 : PLe m1 m2) (h2 : PLe m2 m3) :
    PLe m1 m3 := by
  constructor
  intro s
  rcases h1.run s with h | h
  · exact Or.inl h
  · rw [h]
    exact h2.run s

theorem call_get_func_le {c c' : Caps} (h : CapsLe c c') (f : GetFunc) :
    PLe (call_get_func c f) (call_get_func c' f) := by
  cases f
  · exact h.get_expression
  · exact h.get_type_rule_
  · exact h.get_func_param
  · exact h.get_func_param_from_callback
  · exact PLe.ple_refl _
  · exact PLe.ple_refl _

theorem gen_list_loop_le {c c' : Caps} (h : CapsLe c c') (EmptyOp : Operation) (f : GetFunc) (delim : TokenType) (prev_delim : Bool) (res : List Vertex) :
    PLe (gen_list_loop c EmptyOp f delim prev_delim res) (gen_list_loop c' EmptyOp f delim prev_delim res) := by
  unfold gen_list_loop
  repeat' first
    | (with_reducible exact PLe.ple_refl _)
    | (with_reducible exact h.gen_list_loop _ _ _ _ _)
    | (with_reducible exact call_get_func_le h _)
    | (with_reducible apply PLe.ple_bind)
    | (with_reducible apply PLe.ple_ite)
    | intro _
    | split
    | dsimp only

theorem gen_list_le {c c' : Caps} (h : CapsLe c c') (EmptyOp : Operation) (res : List Vertex) (f : GetFunc) (delim : TokenType) :
    PLe (gen_list c EmptyOp res f delim) (gen_list c' EmptyOp res f delim) := by
  unfold gen_list
  repeat' first
    | (with_reducible exact PLe.ple_refl _)
    | (with_reducible exact h.gen_list_loop _ _ _ _ _)
    | (with_reducible apply PLe.ple_bind)
    | (with_reducible apply PLe.ple_ite)
    | intro _
    | split
    | dsimp only

theorem get_conv_le {c c' : Caps} (h : CapsLe c c') (Op : Operation) :
    PLe (get_conv c Op) (get_conv c' Op) := by
  unfold get_conv
  repeat' first
    | (with_reducible exact PLe.ple_refl _)
    | (with_reducible exact h.get_expression)
    | (with_reducible apply PLe.ple_bind)
    | (with_reducible apply PLe.ple_ite)
    | intro _
    | split
    | dsimp only

theorem get_varg_call_le {c c' : Caps} (h : CapsLe c c') (Op : Operation) :
    PLe (get_varg_call c Op) (get_varg_call c' Op) := by
  unfold get_varg_call
  repeat' first
    | (with_reducible exact PLe.ple_refl _)
    | (with_reducible exact gen_list_le h _ _ _ _)
    | (with_reducible apply PLe.ple_bind)
    | (with_reducible apply PLe.ple_ite)
    | intro _
    | split
    | dsimp only

theorem get_require_le {c c' : Caps} (h : CapsLe c c') :
    PLe (get_require c) (get_require c') := by
  unfold get_require
  repeat' first
    | (with_reducible exact PLe.ple_refl _)
    | (with_reducible exact h.get_expression)
    | (with_reducible apply PLe.ple_bind)
    | (with_reducible apply PLe.ple_ite)
    | intro _
    | split
    | dsimp only

theorem get_require_once_le {c c' : Caps} (h : CapsLe c c') :
    PLe (get_require_once c) (get_require_once c') := by
  unfold get_require_once
  repeat' first
    | (with_reducible exact PLe.ple_refl _)
    | (with_reducible exact gen_list_le h _ _ _ _)
    | (with_reducible apply PLe.ple_bind)
    | (with_reducible apply PLe.ple_ite)
    | intro _
    | split
    | dsimp only

theorem get_func_call_le {c c' : Caps} (h : CapsLe c c') (Op : Operation) (EmptyOp : Operation) :
    PLe (get_func_call c Op EmptyOp) (get_func_call c' Op EmptyOp) := by
  unfold get_func_call
  repeat' first
    | (with_reducible exact PLe.ple_refl _)
    | (with_reducible exact gen_list_le h _ _ _ _)
    | (with_reducible apply PLe.ple_bind)
    | (with_reducible apply PLe.ple_ite)
    | intro _
    | split
    | dsimp only

theorem get_short_array_le {c c' : Caps} (h : CapsLe c c') :
    PLe (get_short_array c) (get_short_array c') := by
  unfold get_short_array
  repeat' first
    | (with_reducible exact PLe.ple_refl _)
    | (with_reducible exact gen_list_le h _ _ _ _)
    | (with_reducible apply PLe.ple_bind)
    | (with_reducible apply PLe.ple_ite)
    | intro _
    | split
    | dsimp only

theorem get_string_build_loop_le {c c' : Caps} (h : CapsLe c c') (after_simple_expression : Bool) (v_next : List Vertex) :
    PLe (get_string_build_loop c after_simple_expression v_next) (get_string_build_loop c' after_simple_expression v_next) := by
  unfold get_string_build_loop
  repeat' first
    | (with_reducible exact PLe.ple_refl _)
    | (with_reducible exact h.get_string_build_loop _ _)
    | (with_reducible exact h.get_expression)
    | (with_reducible apply PLe.ple_bind)
    | (with_reducible apply PLe.ple_ite)
    | intro _
    | split
    | dsimp only

theorem get_string_build_le {c c' : Caps} (h : CapsLe c c') :
    PLe (get_string_build c) (get_string_build c') := by
  unfold get_string_build
  repeat' first
    | (with_reducible exact PLe.ple_refl _)
    | (with_reducible exact h.get_string_build_loop _ _)
    | (with_reducible apply PLe.ple_bind)
    | (with_reducible apply PLe.ple_ite)
    | intro _
    | split
    | dsimp only

theorem get_exit_le {c c' : Caps} (h : CapsLe c c') :
    PLe (get_exit c) (get_exit c') := by
  unfold get_exit
  repeat' first
    | (with_reducible exact PLe.ple_refl _)
    | (with_reducible exact h.get_expression)
    | (with_reducible apply PLe.ple_bind)
    | (with_reducible apply PLe.ple_ite)
    | intro _
    | split
    | dsimp only

theorem get_postfix_expression_le {c c' : Caps} (h : CapsLe c c') (res : Option Vertex) :
    PLe (get_postfix_expression c res) (get_postfix_expression c' res) := by
  unfold get_postfix_expression
  repeat' first
    | (with_reducible exact PLe.ple_refl _)
    | (with_reducible exact h.get_postfix_expression _)
    | (with_reducible exact h.get_expr_top)
    | (with_reducible exact h.get_expression)
    | (with_reducible exact gen_list_le h _ _ _ _)
    | (with_reducible apply PLe.ple_bind)
    | (with_reducible apply PLe.ple_ite)
    | intro _
    | split
    | dsimp only

theorem get_expr_top_le {c c' : Caps} (h : CapsLe c c') :
    PLe (get_expr_top c) (get_expr_top c') := by
  unfold get_expr_top
  repeat' first
    | (with_reducible exact PLe.ple_refl _)
    | (with_reducible exact h.get_postfix_expression _)
    | (with_reducible exact h.get_expression)
    | (with_reducible exact h.get_anonymous_function)
    | (with_reducible exact get_conv_le h _)
    | (with_reducible exact get_require_le h)
    | (with_reducible exact get_require_once_le h)
    | (with_reducible exact get_func_call_le h _ _)
    | (with_reducible exact get_short_array_le h)
    | (with_reducible exact get_string_build_le h)
    | (with_reducible exact get_exit_le h)
    | (with_reducible apply PLe.ple_bind)
    | (with_reducible apply PLe.ple_ite)
    | intro _
    | split
    | dsimp only

theorem get_unary_op_le {c c' : Caps} (h : CapsLe c c') (op_priority_cur : Nat) (unary_op_tp : Operation) (till_ternary : Bool) :
    PLe (get_unary_op c op_priority_cur unary_op_tp till_ternary) (get_unary_op c' op_priority_cur unary_op_tp till_ternary) := by
  unfold get_unary_op
  repeat' first
    | (with_reducible exact PLe.ple_refl _)
    | (with_reducible exact h.get_binary_op _ _)
    | (with_reducible apply PLe.ple_bind)
    | (with_reducible apply PLe.ple_ite)
    | intro _
    | split
    | dsimp only

theorem get_expression_impl_le {c c' : Caps} (h : CapsLe c c') (e : Env) (till_ternary : Bool) :
    PLe (get_expression_impl e c till_ternary) (get_expression_impl e c' till_ternary) := by
  unfold get_expression_impl
  repeat' first
    | (with_reducible exact PLe.ple_refl _)
    | (with_reducible exact h.get_binary_op _ _)
    | (with_reducible apply PLe.ple_bind)
    | (with_reducible apply PLe.ple_ite)
    | intro _
    | split
    | dsimp only

theorem get_binary_op_loop_le {c c' : Caps} (h : CapsLe c c') (e : Env) (op_priority_cur : Nat) (till_ternary : Bool) (left : Vertex) :
    PLe (get_binary_op_loop e c op_priority_cur till_ternary left) (get_binary_op_loop e c' op_priority_cur till_ternary left) := by
  unfold get_binary_op_loop
  repeat' first
    | (with_reducible exact PLe.ple_refl _)
    | (with_reducible exact h.get_binary_op _ _)
    | (with_reducible exact h.get_binary_op_loop _ _ _)
    | (with_reducible exact h.get_expression)
    | (with_reducible exact get_expression_impl_le h _ _)
    | (with_reducible apply PLe.ple_bind)
    | (with_reducible apply PLe.ple_ite)
    | intro _
    | split
    | dsimp only

theorem get_binary_op_le {c c' : Caps} (h : CapsLe c c') (e : Env) (op_priority_cur : Nat) (till_ternary : Bool) :
    PLe (get_binary_op e c op_priority_cur till_ternary) (get_binary_op e c' op_priority_cur till_ternary) := by
  unfold get_binary_op
  repeat' first
    | (with_reducible exact PLe.ple_refl _)
    | (with_reducible exact h.get_expr_top)
    | (with_reducible exact h.get_binary_op _ _)
    | (with_reducible exact h.get_binary_op_loop _ _ _)
    | (with_reducible exact get_unary_op_le h _ _ _)
    | (with_reducible apply PLe.ple_bind)
    | (with_reducible apply PLe.ple_ite)
    | intro _
    | split
    | dsimp only

theorem get_expression_le {c c' : Caps} (h : CapsLe c c') (e : Env) :
    PLe (get_expression e c) (get_expression e c') := by
  unfold get_expression
  repeat' first
    | (with_reducible exact PLe.ple_refl _)
    | (with_reducible exact get_expression_impl_le h _ _)
    | (with_reducible apply PLe.ple_bind)
    | (with_reducible apply PLe.ple_ite)
    | intro _
    | split
    | dsimp only

theorem get_def_value_le {c c' : Caps} (h : CapsLe c c') :
    PLe (get_def_value c) (get_def_value c') := by
  unfold get_def_value
  repeat' first
    | (with_reducible exact PLe.ple_refl _)
    | (with_reducible exact h.get_expression)
    | (with_reducible apply PLe.ple_bind)
    | (with_reducible apply PLe.ple_ite)
    | intro _
    | split
    | dsimp only

theorem get_type_rule_func_le {c c' : Caps} (h : CapsLe c c') :
    PLe (get_type_rule_func c) (get_type_rule_func c') := by
  unfold get_type_rule_func
  repeat' first
    | (with_reducible exact PLe.ple_refl _)
    | (with_reducible exact gen_list_le h _ _ _ _)
    | (with_reducible apply PLe.ple_bind)
    | (with_reducible apply PLe.ple_ite)
    | intro _
    | split
    | dsimp only

theorem get_type_rule_lt_loop_le {c c' : Caps} (h : CapsLe c c') (allow_comma_sep : Bool) (next : List Vertex) :
    PLe (get_type_rule_lt_loop c allow_comma_sep next) (get_type_rule_lt_loop c' allow_comma_sep next) := by
  unfold get_type_rule_lt_loop
  repeat' first
    | (with_reducible exact PLe.ple_refl _)
    | (with_reducible exact h.get_type_rule_)
    | (with_reducible exact h.get_type_rule_lt_loop _ _)
    | (with_reducible apply PLe.ple_bind)
    | (with_reducible apply PLe.ple_ite)
    | intro _
    | split
    | dsimp only

theorem get_type_rule_index_loop_le {c c' : Caps} (h : CapsLe c c') (res : Vertex) :
    PLe (get_type_rule_index_loop c res) (get_type_rule_index_loop c' res) := by
  unfold get_type_rule_index_loop
  repeat' first
    | (with_reducible exact PLe.ple_refl _)
    | (with_reducible exact h.get_type_rule_index_loop _)
    | (with_reducible apply PLe.ple_bind)
    | (with_reducible apply PLe.ple_ite)
    | intro _
    | split
    | dsimp only

theorem get_type_rule__le {c c' : Caps} (h : CapsLe c c') (e : Env) :
    PLe (get_type_rule_ e c) (get_type_rule_ e c') := by
  unfold get_type_rule_
  repeat' first
    | (with_reducible exact PLe.ple_refl _)
    | (with_reducible exact h.get_type_rule_)
    | (with_reducible exact h.get_type_rule_lt_loop _ _)
    | (with_reducible exact h.get_type_rule_index_loop _)
    | (with_reducible exact get_type_rule_func_le h)
    | (with_reducible apply PLe.ple_bind)
    | (with_reducible apply PLe.ple_ite)
    | intro _
    | split
    | dsimp only

theorem get_type_rule_le {c c' : Caps} (h : CapsLe c c') (e : Env) :
    PLe (get_type_rule e c) (get_type_rule e c') := by
  unfold get_type_rule
  repeat' first
    | (with_reducible exact PLe.ple_refl _)
    | (with_reducible exact h.get_type_rule_)
    | (with_reducible apply PLe.ple_bind)
    | (with_reducible apply PLe.ple_ite)
    | intro _
    | split
    | dsimp only

theorem get_func_param_without_callbacks_le {c c' : Caps} (h : CapsLe c c') (e : Env) (from_callback : Bool) :
    PLe (get_func_param_without_callbacks e c from_callback) (get_func_param_without_callbacks e c' from_callback) := by
  unfold get_func_param_without_callbacks
  repeat' first
    | (with_reducible exact PLe.ple_refl _)
    | (with_reducible exact get_def_value_le h)
    | (with_reducible exact get_type_rule_le h _)
    | (with_reducible apply PLe.ple_bind)
    | (with_reducible apply PLe.ple_ite)
    | intro _
    | split
    | dsimp only

theorem get_func_param_from_callback_le {c c' : Caps} (h : CapsLe c c') (e : Env) :
    PLe (get_func_param_from_callback e c) (get_func_param_from_callback e c') := by
  unfold get_func_param_from_callback
  repeat' first
    | (with_reducible exact PLe.ple_refl _)
    | (with_reducible exact get_func_param_without_callbacks_le h _ _)
    | (with_reducible apply PLe.ple_bind)
    | (with_reducible apply PLe.ple_ite)
    | intro _
    | split
    | dsimp only

theorem get_func_param_le {c c' : Caps} (h : CapsLe c c') (e : Env) :
    PLe (get_func_param e c) (get_func_param e c') := by
  unfold get_func_param
  repeat' first
    | (with_reducible exact PLe.ple_refl _)
    | (with_reducible exact gen_list_le h _ _ _ _)
    | (with_reducible exact get_def_value_le h)
    | (with_reducible exact get_type_rule_le h _)
    | (with_reducible exact get_func_param_without_callbacks_le h _ _)
    | (with_reducible apply PLe.ple_bind)
    | (with_reducible apply PLe.ple_ite)
    | intro _
    | split
    | dsimp only

theorem get_foreach_param_le {c c' : Caps} (h : CapsLe c c') :
    PLe (get_foreach_param c) (get_foreach_param c') := by
  unfold get_foreach_param
  repeat' first
    | (with_reducible exact PLe.ple_refl _)
    | (with_reducible exact h.get_expression)
    | (with_reducible apply PLe.ple_bind)
    | (with_reducible apply PLe.ple_ite)
    | intro _
    | split
    | dsimp only

theorem get_multi_call_le {c c' : Caps} (h : CapsLe c c') (Op : Operation) (f : GetFunc) :
    PLe (get_multi_call c Op f) (get_multi_call c' Op f) := by
  unfold get_multi_call
  repeat' first
    | (with_reducible exact PLe.ple_refl _)
    | (with_reducible exact gen_list_le h _ _ _ _)
    | (with_reducible apply PLe.ple_bind)
    | (with_reducible apply PLe.ple_ite)
    | intro _
    | split
    | dsimp only

theorem get_return_le {c c' : Caps} (h : CapsLe c c') :
    PLe (get_return c) (get_return c') := by
  unfold get_return
  repeat' first
    | (with_reducible exact PLe.ple_refl _)
    | (with_reducible exact h.get_expression)
    | (with_reducible apply PLe.ple_bind)
    | (with_reducible apply PLe.ple_ite)
    | intro _
    | split
    | dsimp only

theorem get_break_continue_le {c c' : Caps} (h : CapsLe c c') (Op : Operation) :
    PLe (get_break_continue c Op) (get_break_continue c' Op) := by
  unfold get_break_continue
  repeat' first
    | (with_reducible exact PLe.ple_refl _)
    | (with_reducible exact h.get_expression)
    | (with_reducible apply PLe.ple_bind)
    | (with_reducible apply PLe.ple_ite)
    | intro _
    | split
    | dsimp only

theorem get_foreach_le {c c' : Caps} (h : CapsLe c c') :
    PLe (get_foreach c) (get_foreach c') := by
  unfold get_foreach
  repeat' first
    | (with_reducible exact PLe.ple_refl _)
    | (with_reducible exact h.get_statement _)
    | (with_reducible exact get_foreach_param_le h)
    | (with_reducible apply PLe.ple_bind)
    | (with_reducible apply PLe.ple_ite)
    | intro _
    | split
    | dsimp only

theorem get_while_le {c c' : Caps} (h : CapsLe c c') :
    PLe (get_while c) (get_while c') := by
  unfold get_while
  repeat' first
    | (with_reducible exact PLe.ple_refl _)
    | (with_reducible exact h.get_expression)
    | (with_reducible exact h.get_statement _)
    | (with_reducible apply PLe.ple_bind)
    | (with_reducible apply PLe.ple_ite)
    | intro _
    | split
    | dsimp only

theorem get_if_le {c c' : Caps} (h : CapsLe c c') :
    PLe (get_if c) (get_if c') := by
  unfold get_if
  repeat' first
    | (with_reducible exact PLe.ple_refl _)
    | (with_reducible exact h.get_expression)
    | (with_reducible exact h.get_statement _)
    | (with_reducible apply PLe.ple_bind)
    | (with_reducible apply PLe.ple_ite)
    | intro _
    | split
    | dsimp only

theorem get_for_le {c c' : Caps} (h : CapsLe c c') :
    PLe (get_for c) (get_for c') := by
  unfold get_for
  repeat' first
    | (with_reducible exact PLe.ple_refl _)
    | (with_reducible exact h.get_statement _)
    | (with_reducible exact gen_list_le h _ _ _ _)
    | (with_reducible apply PLe.ple_bind)
    | (with_reducible apply PLe.ple_ite)
    | intro _
    | split
    | dsimp only

theorem get_do_le {c c' : Caps} (h : CapsLe c c') :
    PLe (get_do c) (get_do c') := by
  unfold get_do
  repeat' first
    | (with_reducible exact PLe.ple_refl _)
    | (with_reducible exact h.get_expression)
    | (with_reducible exact h.get_statement _)
    | (with_reducible apply PLe.ple_bind)
    | (with_reducible apply PLe.ple_ite)
    | intro _
    | split
    | dsimp only

theorem get_switch_seq_loop_le {c c' : Caps} (h : CapsLe c c') (seq_next : List Vertex) :
    PLe (get_switch_seq_loop c seq_next) (get_switch_seq_loop c' seq_next) := by
  unfold get_switch_seq_loop
  repeat' first
    | (with_reducible exact PLe.ple_refl _)
    | (with_reducible exact h.get_switch_seq_loop _)
    | (with_reducible exact h.get_statement _)
    | (with_reducible apply PLe.ple_bind)
    | (with_reducible apply PLe.ple_ite)
    | intro _
    | split
    | dsimp only

theorem get_switch_loop_le {c c' : Caps} (h : CapsLe c c') (switch_next : List Vertex) :
    PLe (get_switch_loop c switch_next) (get_switch_loop c' switch_next) := by
  unfold get_switch_loop
  repeat' first
    | (with_reducible exact PLe.ple_refl _)
    | (with_reducible exact h.get_expression)
    | (with_reducible exact h.get_switch_loop _)
    | (with_reducible exact h.get_switch_seq_loop _)
    | (with_reducible apply PLe.ple_bind)
    | (with_reducible apply PLe.ple_ite)
    | intro _
    | split
    | dsimp only

theorem get_switch_le {c c' : Caps} (h : CapsLe c c') :
    PLe (get_switch c) (get_switch c') := by
  unfold get_switch
  repeat' first
    | (with_reducible exact PLe.ple_refl _)
    | (with_reducible exact h.get_expression)
    | (with_reducible exact h.get_switch_loop _)
    | (with_reducible apply PLe.ple_bind)
    | (with_reducible apply PLe.ple_ite)
    | intro _
    | split
    | dsimp only

theorem parse_function_specifiers_le {c c' : Caps} (h : CapsLe c c') (flags : Vertex) :
    PLe (parse_function_specifiers c flags) (parse_function_specifiers c' flags) := by
  unfold parse_function_specifiers
  repeat' first
    | (with_reducible exact PLe.ple_refl _)
    | (with_reducible exact h.parse_function_specifiers _)
    | (with_reducible apply PLe.ple_bind)
    | (with_reducible apply PLe.ple_ite)
    | intro _
    | split
    | dsimp only

theorem parse_function_uses_le {c c' : Caps} (h : CapsLe c c') (uses_of_lambda : Option (List Vertex)) :
    PLe (parse_function_uses c uses_of_lambda) (parse_function_uses c' uses_of_lambda) := by
  unfold parse_function_uses
  repeat' first
    | (with_reducible exact PLe.ple_refl _)
    | (with_reducible exact gen_list_le h _ _ _ _)
    | (with_reducible apply PLe.ple_bind)
    | (with_reducible apply PLe.ple_ite)
    | intro _
    | split
    | dsimp only

theorem parse_function_declaration_le {c c' : Caps} (h : CapsLe c c') (e : Env) (access_type : AccessType) (uses_of_lambda : Option (List Vertex)) (flags : Vertex) :
    PLe (parse_function_declaration e c access_type uses_of_lambda flags) (parse_function_declaration e c' access_type uses_of_lambda flags) := by
  unfold parse_function_declaration
  repeat' first
    | (with_reducible exact PLe.ple_refl _)
    | (with_reducible exact h.parse_function_specifiers _)
    | (with_reducible exact gen_list_le h _ _ _ _)
    | (with_reducible exact get_type_rule_le h _)
    | (with_reducible exact parse_function_uses_le h _)
    | (with_reducible apply PLe.ple_bind)
    | (with_reducible apply PLe.ple_ite)
    | intro _
    | split
    | dsimp only

theorem get_function_scope_le {c c' : Caps} (h : CapsLe c c') (phpdoc_token : Option Token) (access_type : AccessType) (d : FunctionDeclaration) (f : Nat) (root : Vertex) :
    PLe (get_function_scope c phpdoc_token access_type d f root) (get_function_scope c' phpdoc_token access_type d f root) := by
  unfold get_function_scope
  repeat' first
    | (with_reducible exact PLe.ple_refl _)
    | (with_reducible exact h.get_statement _)
    | (with_reducible apply PLe.ple_bind)
    | (with_reducible apply PLe.ple_ite)
    | intro _
    | split
    | dsimp only

theorem get_function_le {c c' : Caps} (h : CapsLe c c') (e : Env) (phpdoc_token : Option Token) (access_type : AccessType) (uses_of_lambda : Option (List Vertex)) :
    PLe (get_function e c phpdoc_token access_type uses_of_lambda) (get_function e c' phpdoc_token access_type uses_of_lambda) := by
  unfold get_function
  repeat' first
    | (with_reducible exact PLe.ple_refl _)
    | (with_reducible exact parse_function_declaration_le h _ _ _ _)
    | (with_reducible exact get_function_scope_le h _ _ _ _ _)
    | (with_reducible apply PLe.ple_bind)
    | (with_reducible apply PLe.ple_ite)
    | intro _
    | split
    | dsimp only

theorem get_anonymous_function_le {c c' : Caps} (h : CapsLe c c') (e : Env) :
    PLe (get_anonymous_function e c) (get_anonymous_function e c') := by
  unfold get_anonymous_function
  repeat' first
    | (with_reducible exact PLe.ple_refl _)
    | (with_reducible exact get_function_le h _ _ _ _)
    | (with_reducible apply PLe.ple_bind)
    | (with_reducible apply PLe.ple_ite)
    | intro _
    | split
    | dsimp only

theorem get_class_scope_le {c c' : Caps} (h : CapsLe c c') (e : Env) (phpdoc_token : Option Token) (class_location : Int) (cur_class : Nat) (cur_function : Nat) :
    PLe (get_class_scope e c phpdoc_token class_location cur_class cur_function) (get_class_scope e c' phpdoc_token class_location cur_class cur_function) := by
  unfold get_class_scope
  repeat' first
    | (with_reducible exact PLe.ple_refl _)
    | (with_reducible exact h.get_statement _)
    | (with_reducible apply PLe.ple_bind)
    | (with_reducible apply PLe.ple_ite)
    | intro _
    | split
    | dsimp only

theorem get_class_le {c c' : Caps} (h : CapsLe c c') (e : Env) (phpdoc_token : Option Token) :
    PLe (get_class e c phpdoc_token) (get_class e c' phpdoc_token) := by
  unfold get_class
  repeat' first
    | (with_reducible exact PLe.ple_refl _)
    | (with_reducible exact get_class_scope_le h _ _ _ _ _)
    | (with_reducible apply PLe.ple_bind)
    | (with_reducible apply PLe.ple_ite)
    | intro _
    | split
    | dsimp only

theorem get_use_loop_le {c c' : Caps} (h : CapsLe c c') :
    PLe (get_use_loop c) (get_use_loop c') := by
  unfold get_use_loop
  repeat' first
    | (with_reducible exact PLe.ple_refl _)
    | (with_reducible exact h.get_use_loop)
    | (with_reducible apply PLe.ple_bind)
    | (with_reducible apply PLe.ple_ite)
    | intro _
    | split
    | dsimp only

theorem get_use_le {c c' : Caps} (h : CapsLe c c') :
    PLe (get_use c) (get_use c') := by
  unfold get_use
  repeat' first
    | (with_reducible exact PLe.ple_refl _)
    | (with_reducible exact h.get_use_loop)
    | (with_reducible apply PLe.ple_bind)
    | (with_reducible apply PLe.ple_ite)
    | intro _
    | split
    | dsimp only

theorem get_namespace_use_loop_le {c c' : Caps} (h : CapsLe c c') :
    PLe (get_namespace_use_loop c) (get_namespace_use_loop c') := by
  unfold get_namespace_use_loop
  repeat' first
    | (with_reducible exact PLe.ple_refl _)
    | (with_reducible exact h.get_namespace_use_loop)
    | (with_reducible exact get_use_le h)
    | (with_reducible apply PLe.ple_bind)
    | (with_reducible apply PLe.ple_ite)
    | intro _
    | split
    | dsimp only

theorem get_namespace_class_le {c c' : Caps} (h : CapsLe c c') (e : Env) :
    PLe (get_namespace_class e c) (get_namespace_class e c') := by
  unfold get_namespace_class
  repeat' first
    | (with_reducible exact PLe.ple_refl _)
    | (with_reducible exact h.get_namespace_use_loop)
    | (with_reducible exact get_class_le h _ _)
    | (with_reducible apply PLe.ple_bind)
    | (with_reducible apply PLe.ple_ite)
    | intro _
    | split
    | dsimp only

theorem get_static_field_list_le {c c' : Caps} (h : CapsLe c c') (access_type : AccessType) :
    PLe (get_static_field_list c access_type) (get_static_field_list c' access_type) := by
  unfold get_static_field_list
  repeat' first
    | (with_reducible exact PLe.ple_refl _)
    | (with_reducible exact get_multi_call_le h _ _)
    | (with_reducible apply PLe.ple_bind)
    | (with_reducible apply PLe.ple_ite)
    | intro _
    | split
    | dsimp only

theorem get_instance_var_list_le {c c' : Caps} (h : CapsLe c c') (phpdoc_token : Option Token) (access_type : AccessType) :
    PLe (get_instance_var_list c phpdoc_token access_type) (get_instance_var_list c' phpdoc_token access_type) := by
  unfold get_instance_var_list
  repeat' first
    | (with_reducible exact PLe.ple_refl _)
    | (with_reducible exact h.get_expression)
    | (with_reducible exact h.get_instance_var_list _ _)
    | (with_reducible apply PLe.ple_bind)
    | (with_reducible apply PLe.ple_ite)
    | intro _
    | split
    | dsimp only

theorem get_seq_loop_le {c c' : Caps} (h : CapsLe c c') (seq_next : List Vertex) :
    PLe (get_seq_loop c seq_next) (get_seq_loop c' seq_next) := by
  unfold get_seq_loop
  repeat' first
    | (with_reducible exact PLe.ple_refl _)
    | (with_reducible exact h.get_statement _)
    | (with_reducible exact h.get_seq_loop _)
    | (with_reducible apply PLe.ple_bind)
    | (with_reducible apply PLe.ple_ite)
    | intro _
    | split
    | dsimp only

theorem get_seq_le {c c' : Caps} (h : CapsLe c c') :
    PLe (get_seq c) (get_seq c') := by
  unfold get_seq
  repeat' first
    | (with_reducible exact PLe.ple_refl _)
    | (with_reducible exact h.get_seq_loop _)
    | (with_reducible apply PLe.ple_bind)
    | (with_reducible apply PLe.ple_ite)
    | intro _
    | split
    | dsimp only

theorem get_statement_static_le {c c' : Caps} (h : CapsLe c c') (e : Env) (phpdoc_token : Option Token) :
    PLe (get_statement_static e c phpdoc_token) (get_statement_static e c' phpdoc_token) := by
  unfold get_statement_static
  repeat' first
    | (with_reducible exact PLe.ple_refl _)
    | (with_reducible exact get_multi_call_le h _ _)
    | (with_reducible exact get_function_le h _ _ _ _)
    | (with_reducible exact get_static_field_list_le h _)
    | (with_reducible apply PLe.ple_bind)
    | (with_reducible apply PLe.ple_ite)
    | intro _
    | split
    | dsimp only

theorem get_statement_access_le {c c' : Caps} (h : CapsLe c c') (e : Env) (phpdoc_token : Option Token) (type : TokenType) :
    PLe (get_statement_access e c phpdoc_token type) (get_statement_access e c' phpdoc_token type) := by
  unfold get_statement_access
  repeat' first
    | (with_reducible exact PLe.ple_refl _)
    | (with_reducible exact h.get_instance_var_list _ _)
    | (with_reducible exact get_function_le h _ _ _ _)
    | (with_reducible exact get_static_field_list_le h _)
    | (with_reducible apply PLe.ple_bind)
    | (with_reducible apply PLe.ple_ite)
    | intro _
    | split
    | dsimp only

theorem get_statement_try_le {c c' : Caps} (h : CapsLe c c') :
    PLe (get_statement_try c) (get_statement_try c') := by
  unfold get_statement_try
  repeat' first
    | (with_reducible exact PLe.ple_refl _)
    | (with_reducible exact h.get_expression)
    | (with_reducible exact h.get_statement _)
    | (with_reducible apply PLe.ple_bind)
    | (with_reducible apply PLe.ple_ite)
    | intro _
    | split
    | dsimp only

theorem get_statement_const_le {c c' : Caps} (h : CapsLe c c') :
    PLe (get_statement_const c) (get_statement_const c') := by
  unfold get_statement_const
  repeat' first
    | (with_reducible exact PLe.ple_refl _)
    | (with_reducible exact h.get_expression)
    | (with_reducible apply PLe.ple_bind)
    | (with_reducible apply PLe.ple_ite)
    | intro _
    | split
    | dsimp only

theorem get_statement_default_le {c c' : Caps} (h : CapsLe c c') (e : Env) (phpdoc_token : Option Token) :
    PLe (get_statement_default e c phpdoc_token) (get_statement_default e c' phpdoc_token) := by
  unfold get_statement_default
  repeat' first
    | (with_reducible exact PLe.ple_refl _)
    | (with_reducible exact h.get_expression)
    | (with_reducible exact get_type_rule_le h _)
    | (with_reducible apply PLe.ple_bind)
    | (with_reducible apply PLe.ple_ite)
    | intro _
    | split
    | dsimp only

theorem get_statement_le {c c' : Caps} (h : CapsLe c c') (e : Env) (phpdoc_token : Option Token) :
    PLe (get_statement e c phpdoc_token) (get_statement e c' phpdoc_token) := by
  unfold get_statement
  repeat' first
    | (with_reducible exact PLe.ple_refl _)
    | (with_reducible exact h.get_expression)
    | (with_reducible exact h.get_statement _)
    | (with_reducible exact h.get_instance_var_list _ _)
    | (with_reducible exact get_func_call_le h _ _)
    | (with_reducible exact get_multi_call_le h _ _)
    | (with_reducible exact get_return_le h)
    | (with_reducible exact get_break_continue_le h _)
    | (with_reducible exact get_foreach_le h)
    | (with_reducible exact get_while_le h)
    | (with_reducible exact get_if_le h)
    | (with_reducible exact get_for_le h)
    | (with_reducible exact get_do_le h)
    | (with_reducible exact get_switch_le h)
    | (with_reducible exact get_function_le h _ _ _ _)
    | (with_reducible exact get_class_le h _ _)
    | (with_reducible exact get_use_le h)
    | (with_reducible exact get_seq_le h)
    | (with_reducible exact get_statement_static_le h _ _)
    | (with_reducible exact get_statement_access_le h _ _ _)
    | (with_reducible exact get_statement_try_le h)
    | (with_reducible exact get_statement_const_le h)
    | (with_reducible exact get_statement_default_le h _ _)
    | (with_reducible apply PLe.ple_bind)
    | (with_reducible apply PLe.ple_ite)
    | intro _
    | split
    | dsimp only

theorem run_le {c c' : Caps} (h : CapsLe c c') (e : Env) :
    PLe (run e c) (run e c') := by
  unfold run
  repeat' first
    | (with_reducible exact PLe.ple_refl _)
    | (with_reducible exact h.get_statement _)
    | (with_reducible exact get_namespace_class_le h _)
    | (with_reducible apply PLe.ple_bind)
    | (with_reducible apply PLe.ple_ite)
    | intro _
    | split
    | dsimp only

theorem PLe.of_no_fuel {α : Type} (m : P α) : PLe (abortP Abort.out_of_fuel) m :=
  ⟨fun _ => Or.inl rfl⟩

theorem no_fuel_le (c : Caps) : CapsLe no_fuel c where
  gen_list_loop := fun _ _ _ _ _ => PLe.of_no_fuel _
  get_string_build_loop := fun _ _ => PLe.of_no_fuel _
  get_postfix_expression := fun _ => PLe.of_no_fuel _
  get_expr_top := PLe.of_no_fuel _
  get_binary_op := fun _ _ => PLe.of_no_fuel _
  get_binary_op_loop := fun _ _ _ => PLe.of_no_fuel _
  get_expression := PLe.of_no_fuel _
  get_func_param := PLe.of_no_fuel _
  get_func_param_from_callback := PLe.of_no_fuel _
  get_type_rule_ := PLe.of_no_fuel _
  get_type_rule_lt_loop := fun _ _ => PLe.of_no_fuel _
  get_type_rule_index_loop := fun _ => PLe.of_no_fuel _
  get_switch_loop := fun _ => PLe.of_no_fuel _
  get_switch_seq_loop := fun _ => PLe.of_no_fuel _
  parse_function_specifiers := fun _ => PLe.of_no_fuel _
  get_use_loop := PLe.of_no_fuel _
  get_namespace_use_loop := PLe.of_no_fuel _
  get_anonymous_function := PLe.of_no_fuel _
  get_statement := fun _ => PLe.of_no_fuel _
  get_instance_var_list := fun _ _ => PLe.of_no_fuel _
  get_seq_loop := fun _ => PLe.of_no_fuel _

theorem CapsLe.caps_refl (c : Caps) : CapsLe c c where
  gen_list_loop := fun _ _ _ _ _ => PLe.ple_refl _
  get_string_build_loop := fun _ _ => PLe.ple_refl _
  get_postfix_expression := fun _ => PLe.ple_refl _
  get_expr_top := PLe.ple_refl _
  get_binary_op := fun _ _ => PLe.ple_refl _
  get_binary_op_loop := fun _ _ _ => PLe.ple_refl _
  get_expression := PLe.ple_refl _
  get_func_param := PLe.ple_refl _
  get_func_param_from_callback := PLe.ple_refl _
  get_type_rule_ := PLe.ple_refl _
  get_type_rule_lt_loop := fun _ _ => PLe.ple_refl _
  get_type_rule_index_loop := fun _ => PLe.ple_refl _
  get_switch_loop := fun _ => PLe.ple_refl _
  get_switch_seq_loop := fun _ => PLe.ple_refl _
  parse_function_specifiers := fun _ => PLe.ple_refl _
  get_use_loop := PLe.ple_refl _
  get_namespace_use_loop := PLe.ple_refl _
  get_anonymous_function := PLe.ple_refl _
  get_statement := fun _ => PLe.ple_refl _
  get_instance_var_list := fun _ _ => PLe.ple_refl _
  get_seq_loop := fun _ => PLe.ple_refl _

theorem CapsLe.caps_trans {c1 c2 c3 : Caps} (h1 : CapsLe c1 c2) (h2 : CapsLe c2 c3) :
    CapsLe c1 c3 where
  gen_list_loop := fun a b d p r =>
    (h1.gen_list_loop a b d p r).ple_trans (h2.gen_list_loop a b d p r)
  get_string_build_loop := fun a b =>
    (h1.get_string_build_loop a b).ple_trans (h2.get_string_build_loop a b)
  get_postfix_expression := fun a =>
    (h1.get_postfix_expression a).ple_trans (h2.get_postfix_expression a)
  get_expr_top := h1.get_expr_top.ple_trans h2.get_expr_top
  get_binary_op := fun a b => (h1.get_binary_op a b).ple_trans (h2.get_binary_op a b)
  get_binary_op_loop := fun a b d =>
    (h1.get_binary_op_loop a b d).ple_trans (h2.get_binary_op_loop a b d)
  get_expression := h1.get_expression.ple_trans h2.get_expression
  get_func_param := h1.get_func_param.ple_trans h2.get_func_param
  get_func_param_from_callback :=
    h1.get_func_param_from_callback.ple_trans h2.get_func_param_from_callback
  get_type_rule_ := h1.get_type_rule_.ple_trans h2.get_type_rule_
  get_type_rule_lt_loop := fun a b =>
    (h1.get_type_rule_lt_loop a b).ple_trans (h2.get_type_rule_lt_loop a b)
  get_type_rule_index_loop := fun a =>
    (h1.get_type_rule_index_loop a).ple_trans (h2.get_type_rule_index_loop a)
  get_switch_loop := fun a => (h1.get_switch_loop a).ple_trans (h2.get_switch_loop a)
  get_switch_seq_loop := fun a => (h1.get_switch_seq_loop a).ple_trans (h2.get_switch_seq_loop a)
  parse_function_specifiers := fun a =>
    (h1.parse_function_specifiers a).ple_trans (h2.parse_function_specifiers a)
  get_use_loop := h1.get_use_loop.ple_trans h2.get_use_loop
  get_namespace_use_loop := h1.get_namespace_use_loop.ple_trans h2.get_namespace_use_loop
  get_anonymous_function := h1.get_anonymous_function.ple_trans h2.get_anonymous_function
  get_statement := fun a => (h1.get_statement a).ple_trans (h2.get_statement a)
  get_instance_var_list := fun a b =>
    (h1.get_instance_var_list a b).ple_trans (h2.get_instance_var_list a b)
  get_seq_loop := fun a => (h1.get_seq_loop a).ple_trans (h2.get_seq_loop a)

/-- One more unit of fuel changes no run that did not run out of fuel. -/
theorem parser_le_succ (e : Env) (n : Nat) : CapsLe (parser e n) (parser e (n + 1)) := by
  induction n with
  | zero => exact no_fuel_le _
  | succ n ih =>
    exact {
      gen_list_loop := fun a b d p r => gen_list_loop_le ih a b d p r
      get_string_build_loop := fun a b => get_string_build_loop_le ih a b
      get_postfix_expression := fun a => get_postfix_expression_le ih a
      get_expr_top := get_expr_top_le ih
      get_binary_op := fun a b => get_binary_op_le ih e a b
      get_binary_op_loop := fun a b d => get_binary_op_loop_le ih e a b d
      get_expression := get_expression_le ih e
      get_func_param := get_func_param_le ih e
      get_func_param_from_callback := get_func_param_from_callback_le ih e
      get_type_rule_ := get_type_rule__le ih e
      get_type_rule_lt_loop := fun a b => get_type_rule_lt_loop_le ih a b
      get_type_rule_index_loop := fun a => get_type_rule_index_loop_le ih a
      get_switch_loop := fun a => get_switch_loop_le ih a
      get_switch_seq_loop := fun a => get_switch_seq_loop_le ih a
      parse_function_specifiers := fun a => parse_function_specifiers_le ih a
      get_use_loop := get_use_loop_le ih
      get_namespace_use_loop := get_namespace_use_loop_le ih
      get_anonymous_function := get_anonymous_function_le ih e
      get_statement := fun a => get_statement_le ih e a
      get_instance_var_list := fun a b => get_instance_var_list_le ih a b
      get_seq_loop := fun a => get_seq_loop_le ih a }

/-- More fuel changes no run that did not run out of fuel. -/
theorem parser_le (e : Env) {n m : Nat} (h : n ≤ m) : CapsLe (parser e n) (parser e m) := by
  induction m with
  | zero =>
    have : n = 0 := by omega
    subst this
    exact CapsLe.caps_refl _
  | succ m ih =>
    by_cases hn : n = m + 1
    · subst hn
      exact CapsLe.caps_refl _
    · exact (ih (by omega)).caps_trans (parser_le_succ e m)

/-- A run that ends with a result at some fuel ends with the same result at every larger
fuel. -/
theorem ev_of_run {α : Type} (e : Env) (f : Caps → P α)
    (hf : ∀ c c', CapsLe c c' → PLe (f c) (f c')) (N : Nat) (s : GenTree) (a : α)
    (s' : GenTree) (h : f (parser e N) s = Res.ok a s') :
    Ev (fun n => f (parser e n) s) (Res.ok a s') := by
  refine ⟨N, fun n hn => ?_⟩
  rcases (hf _ _ (parser_le e hn)).run s with h1 | h1
  · rw [h] at h1
    cases h1
  · exact h1.symm.trans h

theorem expect_ok (tp : TokenType) (msg : String) (s : GenTree) (h : s.tok.type = tp) :
    expect tp msg s = Res.ok true s.next := by
  rw [expect_apply, if_pos h]

theorem Ev.both {α β : Type} {f : Nat → Res α} {g : Nat → Res β} {r : Res α} {q : Res β}
    (hf : Ev f r) (hg : Ev g q) : ∃ N, ∀ n, N ≤ n → f n = r ∧ g n = q := by
  obtain ⟨N1, h1⟩ := hf
  obtain ⟨N2, h2⟩ := hg
  exact ⟨max N1 N2, fun n hn => ⟨h1 n (by omega), h2 n (by omega)⟩⟩

theorem get_for_run (c : Caps) (s s1 s2 s3 s4 s5 : GenTree) (first second third : List Vertex)
    (cmd : Vertex)
    (hpar : s.next.tok.type = tok_oppar)
    (hskip : skip_phpdoc_tokens s.next.next = Res.ok () s1)
    (h1 : gen_list c op_err [] GetFunc.get_expression tok_comma s1 = Res.ok (true, first) s2)
    (hsemi1 : s2.tok.type = tok_semicolon)
    (h2 : gen_list c op_err [] GetFunc.get_expression tok_comma s2.next
      = Res.ok (true, second) s3)
    (hsemi2 : s3.tok.type = tok_semicolon)
    (h3 : gen_list c op_err [] GetFunc.get_expression tok_comma s3.next
      = Res.ok (true, third) s4)
    (hclose : s4.tok.type = tok_clpar)
    (h4 : c.get_statement none s4.next = Res.ok (some cmd) s5) :
    get_for c s = Res.ok (some (for_node s.line_num s1.line_num s2.next.line_num
      s3.next.line_num first second third cmd)) s5 := by
  unfold get_for
  simp only [P.bind_apply, auto_location_apply, next_cur_apply, Res.bind_ok,
    expect_ok _ _ _ hpar, Bool.not_true, Bool.false_eq_true, ↓reduceIte, hskip, h1,
    kphp_error_apply, expect_ok _ _ _ hsemi1, h2, expect_ok _ _ _ hsemi2, h3,
    expect_ok _ _ _ hclose, h4, P.pure_apply]
  rfl

theorem expr_top_none (c : Caps) (s : GenTree)
    (h : s.tok.type = tok_semicolon ∨ s.tok.type = tok_clpar) :
    get_expr_top c s = Res.ok none s := by
  rcases h with h | h <;>
    simp only [get_expr_top, P.bind_apply, getS_apply, Res.bind_ok, h, P.pure_apply]

/-- No band parses anything at a token that starts neither a unary operator nor a
primary expression. -/
theorem binary_op_none (e : Env) (s : GenTree) (till : Bool)
    (hu : e.info.tok_to_unary_op s.tok.type = op_err)
    (htop : ∀ c, get_expr_top c s = Res.ok none s) (d p : Nat)
    (hd : e.info.op_priority_end ≤ p + d) (n : Nat) (hn : d + 1 ≤ n) :
    get_binary_op e (parser e n) p till s = Res.ok none s := by
  induction d generalizing p n with
  | zero =>
    obtain ⟨m, rfl⟩ : ∃ m, n = m + 1 := ⟨n - 1, by omega⟩
    have hmin : min p e.info.op_priority_end = e.info.op_priority_end := by omega
    unfold get_binary_op
    simp [hmin, htop]
  | succ d ih =>
    obtain ⟨m, rfl⟩ : ∃ m, n = m + 1 := ⟨n - 1, by omega⟩
    by_cases hp : p < e.info.op_priority_end
    · have hmin : min p e.info.op_priority_end = p := by omega
      have hne : ¬ (p = e.info.op_priority_end) := by omega
      unfold get_binary_op
      simp only [hmin, beq_iff_eq, hne, ↓reduceIte, P.bind_apply, cur_type_apply,
        Res.bind_ok, at_end_apply, hu, bne_self_eq_false, Bool.and_false, Bool.false_and,
        Bool.false_eq_true, parser_get_binary_op, ih (p + 1) (by omega) m (by omega),
        P.pure_apply]
    · exact ih p (by omega) (m + 1) (by omega)

theorem get_expression_none (e : Env) (s : GenTree)
    (h : s.tok.type = tok_semicolon ∨ s.tok.type = tok_clpar)
    (hu : e.info.tok_to_unary_op s.tok.type = op_err) (n : Nat)
    (hn : e.info.op_priority_end + 3 ≤ n) :
    (parser e n).get_expression s = Res.ok none s := by
  obtain ⟨m, rfl⟩ : ∃ m, n = m + 1 := ⟨n - 1, by omega⟩
  have hdoc : s.tok.type ≠ tok_phpdoc := by
    rcases h with h | h <;> rw [h] <;> decide
  simp only [parser_get_expression, get_expression, P.bind_apply,
    skip_phpdoc_tokens_none s hdoc, Res.bind_ok, get_expression_impl]
  obtain ⟨k, rfl⟩ : ∃ k, m = k + 1 := ⟨m - 1, by omega⟩
  rw [parser_get_binary_op]
  exact binary_op_none e s false hu (fun c => expr_top_none c s h) e.info.op_priority_end
    e.info.op_priority_begin (by omega) k (by omega)

/-- An empty clause: a list of expressions that starts at `;` or `)` is empty and
consumes nothing. -/
theorem gen_list_none (e : Env) (s : GenTree)
    (h : s.tok.type = tok_semicolon ∨ s.tok.type = tok_clpar)
    (hu : e.info.tok_to_unary_op s.tok.type = op_err) (n : Nat)
    (hn : e.info.op_priority_end + 4 ≤ n) :
    gen_list (parser e n) op_err [] GetFunc.get_expression tok_comma s = Res.ok (true, []) s := by
  obtain ⟨m, rfl⟩ : ∃ m, n = m + 1 := ⟨n - 1, by omega⟩
  have hc : (s.tok.type == tok_comma) = false := by
    rcases h with h | h <;> rw [h] <;> rfl
  show gen_list_loop (parser e m) op_err GetFunc.get_expression tok_comma false [] s = _
  unfold gen_list_loop
  simp only [call_get_func, P.bind_apply, get_expression_none e s h hu m (by omega), Res.bind_ok,
    cur_type_apply, hc]
  rfl

/-- Claim C18: a `for` statement whose condition clause is empty is parsed by `get_for`
to a for-node whose condition child is a comma-sequence holding exactly one child, the
boolean literal `true`; a clause that is empty gives an empty sequence as init child, and
likewise as post child. -/
theorem empty_for_condition (e : Env) (n : Nat) (hn : e.info.op_priority_end + 4 ≤ n)
    (hus : e.info.tok_to_unary_op tok_semicolon = op_err)
    (hup : e.info.tok_to_unary_op tok_clpar = op_err)
    (s s1 s2 s4 s5 : GenTree) (first third : List Vertex) (cmd : Vertex)
    (hpar : s.next.tok.type = tok_oppar)
    (hskip : skip_phpdoc_tokens s.next.next = Res.ok () s1)
    (h1 : gen_list (parser e n) op_err [] GetFunc.get_expression tok_comma s1
      = Res.ok (true, first) s2)
    (hsemi1 : s2.tok.type = tok_semicolon)
    (hempty : s2.next.tok.type = tok_semicolon)
    (h3 : gen_list (parser e n) op_err [] GetFunc.get_expression tok_comma s2.next.next
      = Res.ok (true, third) s4)
    (hclose : s4.tok.type = tok_clpar)
    (h4 : (parser e n).get_statement none s4.next = Res.ok (some cmd) s5) :
    get_for (parser e n) s = Res.ok (some ((Vertex.create op_for
        [(Vertex.create op_seq first).set_line s1.line_num,
         (Vertex.create op_seq_comma [Vertex.create op_true []]).set_line s2.next.line_num,
         (Vertex.create op_seq third).set_line s2.next.next.line_num,
         embrace cmd]).set_line s.line_num)) s5 ∧
      (s1.tok.type = tok_semicolon → first = []) ∧
      (s2.next.next.tok.type = tok_clpar → third = []) := by
  have h2 := gen_list_none e s2.next (Or.inl hempty) (by rw [hempty]; exact hus) n hn
  refine ⟨get_for_run (parser e n) s s1 s2 s2.next s4 s5 first [] third cmd hpar hskip h1
    hsemi1 h2 hempty h3 hclose h4, ?_, ?_⟩
  · intro h
    have h1' := gen_list_none e s1 (Or.inl h) (by rw [h]; exact hus) n hn
    rw [h1] at h1'
    cases h1'
    rfl
  · intro h
    have h3' := gen_list_none e s2.next.next (Or.inr h) (by rw [h]; exact hup) n hn
    rw [h3] at h3'
    cases h3'
    rfl

theorem empty_for_condition_witness :
    get_for (parser sample_env 60) (sample_state tokens_for_empty) =
      Res.ok (some (node1 op_for
        [node1 op_seq [], node1 op_seq_comma [Vertex.create op_true []], node1 op_seq [],
         node1 op_seq []]))
        { sample_state tokens_for_empty with cur := 7 } ∧
      (tok_semicolon = tok_semicolon → ([] : List Vertex) = []) ∧
      (tok_clpar = tok_clpar → ([] : List Vertex) = []) :=
  empty_for_condition sample_env 60 (by decide) rfl rfl (sample_state tokens_for_empty)
    { sample_state tokens_for_empty with cur := 2 }
    { sample_state tokens_for_empty with cur := 2 }
    { sample_state tokens_for_empty with cur := 4 }
    { sample_state tokens_for_empty with cur := 7 } [] [] (node1 op_seq [])
    rfl rfl rfl rfl rfl rfl rfl rfl

/-- Claim C19: a `for` statement whose condition clause lists the expressions
`e1, …, en` with `n ≥ 1` is parsed by `get_for` to a for-node whose condition child is a
comma-sequence with the children `e1, …, e(n-1), conv_bool(en)`: only the last
expression is wrapped in a boolean coercion. -/
theorem for_condition_last_coerced (c : Caps) (s s1 s2 s3 s4 s5 : GenTree)
    (first second third : List Vertex) (cmd : Vertex) (hne : second ≠ [])
    (hpar : s.next.tok.type = tok_oppar)
    (hskip : skip_phpdoc_tokens s.next.next = Res.ok () s1)
    (h1 : gen_list c op_err [] GetFunc.get_expression tok_comma s1 = Res.ok (true, first) s2)
    (hsemi1 : s2.tok.type = tok_semicolon)
    (h2 : gen_list c op_err [] GetFunc.get_expression tok_comma s2.next
      = Res.ok (true, second) s3)
    (hsemi2 : s3.tok.type = tok_semicolon)
    (h3 : gen_list c op_err [] GetFunc.get_expression tok_comma s3.next
      = Res.ok (true, third) s4)
    (hclose : s4.tok.type = tok_clpar)
    (h4 : c.get_statement none s4.next = Res.ok (some cmd) s5) :
    get_for c s = Res.ok (some ((Vertex.create op_for
        [(Vertex.create op_seq first).set_line s1.line_num,
         (Vertex.create op_seq_comma
           (second.dropLast ++ [conv_to tp_bool (second.getLast hne)])).set_line
             s2.next.line_num,
         (Vertex.create op_seq third).set_line s3.next.line_num,
         embrace cmd]).set_line s.line_num)) s5 := by
  have hcond : for_condition second = second.dropLast ++ [conv_to tp_bool (second.getLast hne)] := by
    unfold for_condition
    have hemp : second.isEmpty = false := by
      cases second with
      | nil => exact absurd rfl hne
      | cons a l => rfl
    simp [hemp, List.getLast?_eq_getLast _ hne]
  rw [← hcond]
  exact get_for_run c s s1 s2 s3 s4 s5 first second third cmd hpar hskip h1 hsemi1 h2 hsemi2 h3
    hclose h4

theorem for_condition_last_coerced_witness :
    get_for (parser sample_env 60) (sample_state tokens_for_two) =
      Res.ok (some (node1 op_for
        [node1 op_seq [],
         node1 op_seq_comma [leaf op_var 1 "a", conv_to tp_bool (leaf op_var 1 "b")],
         node1 op_seq [], node1 op_seq []]))
        { sample_state tokens_for_two with cur := 10 } :=
  for_condition_last_coerced (parser sample_env 60) (sample_state tokens_for_two)
    { sample_state tokens_for_two with cur := 2 }
    { sample_state tokens_for_two with cur := 2 }
    { sample_state tokens_for_two with cur := 6 }
    { sample_state tokens_for_two with cur := 7 }
    { sample_state tokens_for_two with cur := 10 } [] [leaf op_var 1 "a", leaf op_var 1 "b"] []
    (node1 op_seq []) (by simp) rfl rfl rfl rfl rfl rfl rfl rfl rfl

/-- Structural induction over trees and their lists of children. -/
theorem Vertex.induct (A : Vertex → Prop) (B : List Vertex → Prop)
    (hmk : ∀ info next tr, B next → A (Vertex.mk info next tr))
    (hnil : B []) (hcons : ∀ v vs, A v → B vs → B (v :: vs)) : ∀ v, A v := by
  intro v
  exact @Vertex.rec A B (fun _ => True)
    (fun info next tr hq _ => hmk info next tr hq) hnil (fun v vs hp hq => hcons v vs hp hq)
    trivial (fun _ _ => trivial) v

theorem get_instance_field_isSome (members : ClassMembersContainer) (name : String) :
    (members.get_instance_field name).isSome = (field_names members).contains name := by
  unfold ClassMembersContainer.get_instance_field field_names
  rw [Option.isSome_map', Bool.eq_iff_iff, List.find?_isSome, List.contains_iff_exists_mem_beq]
  simp only [List.mem_map, beq_iff_eq]
  constructor
  · rintro ⟨x, hx, h⟩
    exact ⟨x.1.get_string, ⟨x, hx, rfl⟩, h.symm⟩
  · rintro ⟨y, ⟨x, hx, hxy⟩, h⟩
    exact ⟨x, hx, by rw [hxy]; exact h.symm⟩

theorem lambda_body_mk (members : ClassMembersContainer) (info : VertexInfo)
    (next : List Vertex) (tr : Option Vertex) :
    add_this_to_captured_variables_in_lambda_body members (Vertex.mk info next tr) =
      if info.type == op_var then
        if (members.get_instance_field info.str_val).isSome then
          ((Vertex.create op_instance_prop [vertex_this (-1) none]).set_location
            info.location).set_string info.str_val
        else if info.str_val == "this" then
          ((Vertex.create op_instance_prop [Vertex.mk info next tr]).set_string
            "parent$this").set_location info.location
        else Vertex.mk info next tr
      else
        Vertex.mk info (add_this_to_captured_variables_in_children members next) tr := by
  rw [add_this_to_captured_variables_in_lambda_body]

theorem lambda_children_cons (members : ClassMembersContainer) (v : Vertex) (vs : List Vertex) :
    add_this_to_captured_variables_in_children members (v :: vs) =
      add_this_to_captured_variables_in_lambda_body members v ::
        add_this_to_captured_variables_in_children members vs := by
  rw [add_this_to_captured_variables_in_children]

theorem lambda_children_nil (members : ClassMembersContainer) :
    add_this_to_captured_variables_in_children members [] = [] := by
  rw [add_this_to_captured_variables_in_children]

theorem rewrite_captured_mk (fields : List String) (info : VertexInfo) (next : List Vertex)
    (tr : Option Vertex) :
    rewrite_captured fields (Vertex.mk info next tr) =
      if info.type == op_var && fields.contains info.str_val then
        captured_access (Vertex.mk info next tr)
      else if info.type == op_var && info.str_val == "this" then
        parent_this_access (Vertex.mk info next tr)
      else Vertex.mk info (rewrite_captured_list fields next) tr := by
  rw [rewrite_captured]

theorem rewrite_captured_cons (fields : List String) (v : Vertex) (vs : List Vertex) :
    rewrite_captured_list fields (v :: vs) =
      rewrite_captured fields v :: rewrite_captured_list fields vs := by
  rw [rewrite_captured_list]

theorem rewrite_captured_nil (fields : List String) : rewrite_captured_list fields [] = [] := by
  rw [rewrite_captured_list]

theorem vars_are_leaves_mk (info : VertexInfo) (next : List Vertex) (tr : Option Vertex) :
    vars_are_leaves (Vertex.mk info next tr) =
      ((info.type != op_var || next.isEmpty) && vars_are_leaves_list next) := by
  rw [vars_are_leaves]

theorem vars_are_leaves_cons (v : Vertex) (vs : List Vertex) :
    vars_are_leaves_list (v :: vs) = (vars_are_leaves v && vars_are_leaves_list vs) := by
  rw [vars_are_leaves_list]

theorem has_var_named_mk (names : List String) (info : VertexInfo) (next : List Vertex)
    (tr : Option Vertex) :
    has_var_named names (Vertex.mk info next tr) =
      ((info.type == op_var && names.contains info.str_val) || has_var_named_list names next) := by
  rw [has_var_named]

theorem has_var_named_cons (names : List String) (v : Vertex) (vs : List Vertex) :
    has_var_named_list names (v :: vs) =
      (has_var_named names v || has_var_named_list names vs) := by
  rw [has_var_named_list]

theorem has_var_named_nil (names : List String) : has_var_named_list names [] = false := by
  rw [has_var_named_list]

theorem has_var_named_eq (names : List String) (v : Vertex) :
    has_var_named names v =
      ((v.type == op_var && names.contains v.get_string) || has_var_named_list names v.next) := by
  cases v
  rw [has_var_named_mk]
  rfl

/-- The receiver variable `$this` is no captured variable when no field is named `this`. -/
theorem has_var_named_this (names : List String) (line : Int) (h : names.contains "this" = false) :
    has_var_named names (vertex_this line none) = false := by
  have h1 : (vertex_this line none).get_string = "this" := rfl
  have h2 : (vertex_this line none).next = [] := rfl
  rw [has_var_named_eq, h1, h2, h, has_var_named_nil]
  simp

theorem lambda_body_both (members : ClassMembersContainer)
    (hthis : (field_names members).contains "this" = false) :
    ∀ body, vars_are_leaves body = true →
      add_this_to_captured_variables_in_lambda_body members body =
        rewrite_captured (field_names members) body ∧
      has_var_named (field_names members)
        (add_this_to_captured_variables_in_lambda_body members body) = false := by
  apply Vertex.induct
    (fun v => vars_are_leaves v = true →
      add_this_to_captured_variables_in_lambda_body members v =
        rewrite_captured (field_names members) v ∧
      has_var_named (field_names members)
        (add_this_to_captured_variables_in_lambda_body members v) = false)
    (fun l => vars_are_leaves_list l = true →
      add_this_to_captured_variables_in_children members l =
        rewrite_captured_list (field_names members) l ∧
      has_var_named_list (field_names members)
        (add_this_to_captured_variables_in_children members l) = false)
  · intro info next tr ih hleaf
    rw [vars_are_leaves_mk, Bool.and_eq_true] at hleaf
    rw [lambda_body_mk, rewrite_captured_mk, get_instance_field_isSome]
    by_cases hvar : info.type = op_var
    · have hnext : next = [] := by
        have h1 := hleaf.1
        simp only [hvar, bne_self_eq_false, Bool.false_or, List.isEmpty_iff] at h1
        exact h1
      subst hnext
      simp only [hvar, beq_self_eq_true, ↓reduceIte, Bool.true_and]
      by_cases hf : (field_names members).contains info.str_val = true
      · simp only [hf, ↓reduceIte]
        refine ⟨rfl, ?_⟩
        rw [has_var_named_eq]
        show ((op_instance_prop == op_var && _) || has_var_named_list _ [vertex_this (-1) none])
          = false
        rw [has_var_named_cons, has_var_named_this _ _ hthis, has_var_named_nil]
        rfl
      · have hmem : info.str_val ∉ field_names members := by
          intro hm
          exact hf (List.contains_iff_exists_mem_beq.mpr ⟨_, hm, by simp⟩)
        simp only [hf, Bool.false_eq_true, ↓reduceIte]
        by_cases ht : (info.str_val == "this") = true
        · simp only [ht, ↓reduceIte]
          refine ⟨rfl, ?_⟩
          rw [has_var_named_eq]
          show ((op_instance_prop == op_var && _) ||
            has_var_named_list _ [Vertex.mk info [] tr]) = false
          rw [has_var_named_cons, has_var_named_mk, has_var_named_nil]
          simp [hmem]
        · simp only [ht, Bool.false_eq_true, ↓reduceIte]
          rw [rewrite_captured_nil, has_var_named_mk, has_var_named_nil]
          simp [hmem]
    · have hv : (info.type == op_var) = false := by simpa using hvar
      simp only [hv, Bool.false_eq_true, ↓reduceIte, Bool.false_and]
      obtain ⟨h1, h2⟩ := ih hleaf.2
      rw [h1, has_var_named_mk, ← h1, h2, hv]
      exact ⟨rfl, rfl⟩
  · intro _
    rw [lambda_children_nil, rewrite_captured_nil, has_var_named_nil]
    exact ⟨rfl, rfl⟩
  · intro v vs hv hvs hleaf
    rw [vars_are_leaves_cons, Bool.and_eq_true] at hleaf
    obtain ⟨h1, h2⟩ := hv hleaf.1
    obtain ⟨h3, h4⟩ := hvs hleaf.2
    rw [lambda_children_cons, rewrite_captured_cons, has_var_named_cons, h2, h4, h1, h3]
    exact ⟨rfl, rfl⟩

/-- Claim C14: for a lambda class in which no field is named `this` and a body whose
variable nodes are leaves, `add_this_to_captured_variables_in_lambda_body` returns the
body in which every variable node named like a field of the class is replaced with the
field access of that name on `$this`, located where the variable was, every variable
node named `this` with `$this->parent$this`, and every other node is left as it is;
the result holds no variable node named like a captured field. -/
theorem lambda_body_rewrite (members : ClassMembersContainer) (body : Vertex)
    (hthis : (field_names members).contains "this" = false)
    (hleaf : vars_are_leaves body = true) :
    add_this_to_captured_variables_in_lambda_body members body =
        rewrite_captured (field_names members) body ∧
      has_var_named (field_names members)
        (add_this_to_captured_variables_in_lambda_body members body) = false :=
  lambda_body_both members hthis body hleaf

theorem lambda_body_rewrite_witness :
    add_this_to_captured_variables_in_lambda_body sample_capture_members sample_lambda_body =
        node1 op_return [node1 op_add [captured_access (leaf op_var 1 "y"), leaf op_var 1 "x"]] ∧
      has_var_named (field_names sample_capture_members)
        (add_this_to_captured_variables_in_lambda_body sample_capture_members
          sample_lambda_body) = false :=
  lambda_body_rewrite sample_capture_members sample_lambda_body (by decide) (by decide)

theorem gen_list_single (c : Caps) (s s1 : GenTree) (v : Vertex)
    (h : c.get_expression s = Res.ok (some v) s1) (hd : s1.tok.type ≠ tok_comma) :
    gen_list_loop c op_err GetFunc.get_expression tok_comma false [] s = Res.ok (true, [v]) s1 := by
  have hc : (s1.tok.type == tok_comma) = false := by simpa using hd
  unfold gen_list_loop
  simp only [call_get_func, P.bind_apply, h, Res.bind_ok, cur_type_apply, hc]
  rfl

theorem get_static_field_list_run (c : Caps) (s s1 : GenTree) (a : AccessType) (f : String)
    (k : Nat)
    (h : gen_list c op_err [] GetFunc.get_expression tok_comma s.next =
      Res.ok (true, [leaf op_var s.next.line_num f]) s1)
    (hsemi : s1.tok.type = tok_semicolon) (hk : s1.cur_class = some k)
    (hecho : (s.tok.type == tok_echo || s.tok.type == tok_dbg_echo) = false) :
    get_static_field_list c a s =
      Res.ok (some (Vertex.create op_empty []))
        (s1.next.with_static_field k s.next.line_num f a) := by
  have hk' : s1.next.cur_class = some k := by
    rw [← hk]; unfold GenTree.next; split
    · dsimp only; split <;> rfl
    · rfl
  have hs : (s1.tok.type == tok_semicolon) = true := by simp [hsemi]
  unfold get_static_field_list get_multi_call check_statement_end
  simp only [P.bind_apply, cur_type_apply, auto_location_apply, next_cur_apply, Res.bind_ok, h,
    kphp_error_apply, ↓reduceIte, P.pure_apply, test_expect_apply, hs, Bool.not_true,
    Bool.false_eq_true, expect_ok _ _ _ hsemi, getS_apply, List.map, hecho, hk']
  have hnext : ∀ (l : Int) (v : Vertex), ((Vertex.create op_seq [v]).set_line l).next = [v] :=
    fun _ _ => rfl
  rw [hnext]
  have ht1 : ∀ (l : Int), (((Vertex.create op_static [leaf op_var l f]).set_location
      (leaf op_var l f).location).type == op_static) = true := fun _ => rfl
  have ht2 : ∀ (l : Int), ((leaf op_var l f).type == op_var) = true := fun _ => rfl
  have hstr : ∀ (l : Int), (leaf op_var l f).get_string = f := fun _ => rfl
  simp only [add_static_field_list, add_static_fields, P.bind_apply, kphp_assert, Res.bind_ok,
    P.pure_apply, ht1, ht2, hstr, ↓reduceIte, deref, mod_members, mod_class, modS_apply]
  rfl

theorem At.tok_at_one {s : GenTree} {t t' : Token} {ts : List Token}
    (h : At s (t :: t' :: ts)) : s.tok_at 1 = t' := by
  have h1 := h.next.tok
  have hne := h.not_end
  unfold GenTree.tok at h1
  unfold GenTree.tok_at
  rw [← h1]
  unfold GenTree.next
  simp only [bne_iff_ne, ne_eq, hne, not_false_eq_true, ↓reduceIte]
  split <;> rfl

theorem At.top_flag {s : GenTree} {ts : List Token} (h : At s ts) (b : Bool) :
    At { s with is_top_of_the_function_ := b } ts := h

theorem next_cur_class (s : GenTree) : s.next.cur_class = s.cur_class := by
  unfold GenTree.next; split
  · dsimp only; split <;> rfl
  · rfl

theorem next_classes (s : GenTree) : s.next.classes = s.classes := by
  unfold GenTree.next; split
  · dsimp only; split <;> rfl
  · rfl

/-- The field list after an access modifier and `static`, in either order: the cursor
is on the token before the variable name. -/
theorem static_field_list_at (e : Env) (s : GenTree) (t0 tf tsemi : Token) (rest : List Token)
    (a : AccessType) (k : Nat) (hs : At s (t0 :: tf :: tsemi :: rest))
    (h0 : (t0.type == tok_echo || t0.type == tok_dbg_echo) = false)
    (hf : tf.type = tok_var_name) (hsemi : tsemi.type = tok_semicolon)
    (hk : s.cur_class = some k)
    (hu : e.info.tok_to_unary_op tok_var_name = op_err)
    (hb : e.info.tok_to_binary_op tok_semicolon = op_err) :
    Ev (fun n => get_static_field_list (parser e n) a s)
      (Res.ok (some (Vertex.create op_empty []))
        (s.next.next.next.with_static_field k s.next.line_num tf.str_val a)) := by
  have hs1 := hs.next
  have hs2 := hs1.next
  have hpost : is_postfix_start tsemi.type = false := by rw [hsemi]; rfl
  have hnb : ∀ q, e.info.op_priority_begin ≤ q → NoBinary e q s.next.next := fun q _ =>
    Or.inr (Or.inl (by rw [hs2.tok, hsemi]; exact hb))
  have hx : (primary_op tf.type).isSome := by rw [hf]; rfl
  have hprim : primary tf s.next.line_num = leaf op_var s.next.line_num tf.str_val := by
    unfold primary; rw [hf]
  have hdoc : s.next.tok.type ≠ tok_phpdoc := by rw [hs1.tok, hf]; decide
  obtain ⟨N, hN⟩ := ev_get_expression e s.next _ hdoc
    (ev_atom e s.next tf tsemi rest false e.info.op_priority_begin hs1 hx (by rw [hf]; exact hu)
      (Or.inr hpost) hnb)
  refine ⟨N + 1, fun n hn => ?_⟩
  obtain ⟨m, rfl⟩ : ∃ m, n = m + 1 := ⟨n - 1, by omega⟩
  have hcomma : s.next.next.tok.type ≠ tok_comma := by rw [hs2.tok, hsemi]; decide
  have hg : gen_list (parser e (m + 1)) op_err [] GetFunc.get_expression tok_comma s.next =
      Res.ok (true, [leaf op_var s.next.line_num tf.str_val]) s.next.next := by
    rw [← hprim]
    exact gen_list_single (parser e m) s.next s.next.next _ (hN m (by omega)) hcomma
  exact get_static_field_list_run (parser e (m + 1)) s s.next.next a tf.str_val k hg
    (by rw [hs2.tok, hsemi]) (by rw [next_cur_class, next_cur_class, hk])
    (by rw [hs.tok]; exact h0)

theorem At.not_end_succ {s : GenTree} {t t' t'' : Token} {ts : List Token}
    (h : At s (t :: t' :: t'' :: ts)) : s.cur + 1 ≠ s.end_ := by
  obtain ⟨h1, h2, _⟩ := h
  have := congrArg List.length h1
  simp at this
  omega

theorem access_static_fields (e : Env) (c : Caps) (s : GenTree) (m : TokenType)
    (tm tst tf t3 : Token) (rest : List Token) (k : Nat)
    (hs : At s (tm :: tst :: tf :: t3 :: rest))
    (hst : tst.type = tok_static) (hf : tf.type = tok_var_name) (hk : s.cur_class = some k) :
    get_statement_access e c none m s =
      get_static_field_list c (convert_token_type_to_access_type m true) s.next := by
  have hs1 := hs.next
  have h1 := hs1.tok
  have hne := hs1.not_end
  have hne1 := hs1.not_end_succ
  have hat := hs1.tok_at_one
  unfold get_statement_access
  simp only [P.bind_apply, getS_apply, Res.bind_ok, hk, Option.isSome_some, kphp_error_apply,
    ↓reduceIte, Bool.false_eq_true, next_cur_apply, h1, hst, hat, hf, beq_iff_eq, hne, hne1,
    Bool.or_self, beq_self_eq_true]
  have hb : (s.next.cur == s.next.end_ || s.next.cur + 1 == s.next.end_) = false := by
    simp [hne, hne1]
  rw [hb]
  simp only [reduceCtorEq, ↓reduceIte, Bool.false_eq_true]

/-- The statement `m static $f ...` is handed to `get_static_field_list` with the
cursor on `static`. -/
theorem statement_access_static (e : Env) (c : Caps) (s : GenTree) (tm tst tf t3 : Token)
    (rest : List Token) (k : Nat) (hs : At s (tm :: tst :: tf :: t3 :: rest))
    (hm : tm.type = tok_public ∨ tm.type = tok_private ∨ tm.type = tok_protected)
    (hst : tst.type = tok_static) (hf : tf.type = tok_var_name) (hk : s.cur_class = some k) :
    get_statement e c none s = get_static_field_list c
      (convert_token_type_to_access_type tm.type true)
      (s.set_top false).next := by
  have htok := hs.tok
  have key := access_static_fields e c (s.set_top false) tm.type
    tm tst tf t3 rest k hs hst hf hk
  rw [← key]
  unfold get_statement
  rcases hm with hm | hm | hm <;>
    simp only [P.bind_apply, cur_tok_apply, Res.bind_ok, modS_apply, htok, hm] <;>
    simp only [show (tok_public == tok_global || tok_public == tok_opbrc) = false from rfl,
      show (tok_private == tok_global || tok_private == tok_opbrc) = false from rfl,
      show (tok_protected == tok_global || tok_protected == tok_opbrc) = false from rfl,
      Bool.and_false] <;>
    rfl

theorem static_access_fields (e : Env) (c : Caps) (s : GenTree)
    (tst tm tf t3 : Token) (rest : List Token) (k : Nat)
    (hs : At s (tst :: tm :: tf :: t3 :: rest))
    (hm : tm.type = tok_public ∨ tm.type = tok_private ∨ tm.type = tok_protected)
    (hf : tf.type = tok_var_name) (hk : s.cur_class = some k) :
    get_statement_static e c none s =
      get_static_field_list c (convert_token_type_to_access_type tm.type true) s.next := by
  have hs1 := hs.next
  have h1 := hs1.tok
  have hne := hs.not_end
  have hne1 := hs.not_end_succ
  have hat := hs.tok_at_one
  have hne2 := hs1.not_end_succ
  have hat2 := hs1.tok_at_one
  unfold get_statement_static
  rcases hm with hm | hm | hm <;>
    simp [hk, hne, hne1, hat, hne2, hat2, hf, hm]

/-- The statement `static m $f ...` is handed to `get_static_field_list` with the
cursor on the access modifier. -/
theorem statement_static_access (e : Env) (c : Caps) (s : GenTree) (tst tm tf t3 : Token)
    (rest : List Token) (k : Nat) (hs : At s (tst :: tm :: tf :: t3 :: rest))
    (hm : tm.type = tok_public ∨ tm.type = tok_private ∨ tm.type = tok_protected)
    (hst : tst.type = tok_static) (hf : tf.type = tok_var_name) (hk : s.cur_class = some k) :
    get_statement e c none s = get_static_field_list c
      (convert_token_type_to_access_type tm.type true)
      (s.set_top false).next := by
  have htok := hs.tok
  have key := static_access_fields e c (s.set_top false)
    tst tm tf t3 rest k hs hm hf hk
  rw [← key]
  unfold get_statement
  simp only [P.bind_apply, cur_tok_apply, Res.bind_ok, modS_apply, htok, hst,
    show (tok_static == tok_global || tok_static == tok_opbrc) = false from rfl, Bool.and_false]
  rfl

theorem next_set_top (s : GenTree) (b : Bool) : (s.set_top b).next = s.next.set_top b := by
  unfold GenTree.next GenTree.tok GenTree.set_top
  dsimp only
  cases (s.cur != s.end_)
  · rfl
  · cases ((s.tokens.getD (s.cur + 1) default).line_num != -1) <;> rfl

theorem with_static_field_fields (s : GenTree) (k : Nat) (line : Int) (f : String)
    (a : AccessType) (hk : k < s.classes.length) :
    ((s.with_static_field k line f a).get_class k).members.static_fields =
      (s.get_class k).members.static_fields ++ [(static_field_node line f a, f, a)] := by
  have hsome : s.classes[k]? = some (s.classes[k]) := List.getElem?_eq_getElem hk
  unfold GenTree.with_static_field GenTree.get_class
  simp [List.getD_eq_getElem?_getD, modify_at_getElem_opt, hsome,
    ClassMembersContainer.add_static_field]

theorem At.with_static_field {s : GenTree} {ts : List Token} (h : At s ts) (k : Nat)
    (line : Int) (f : String) (a : AccessType) : At (s.with_static_field k line f a) ts := h

/-- Both orders of an access modifier and `static` before a variable name register
the same static field. -/
theorem static_field_run (e : Env) (s : GenTree) (tm tst tf tsemi : Token)
    (rest : List Token) (k : Nat)
    (hs : At s (tm :: tst :: tf :: tsemi :: rest) ∨ At s (tst :: tm :: tf :: tsemi :: rest))
    (hm : tm.type = tok_public ∨ tm.type = tok_private ∨ tm.type = tok_protected)
    (hst : tst.type = tok_static) (hf : tf.type = tok_var_name)
    (hsemi : tsemi.type = tok_semicolon) (hk : s.cur_class = some k)
    (hu : e.info.tok_to_unary_op tok_var_name = op_err)
    (hb : e.info.tok_to_binary_op tok_semicolon = op_err) :
    Ev (fun n => (parser e n).get_statement none s)
      (Res.ok (some (Vertex.create op_empty []))
        ((s.next.next.next.next.set_top false).with_static_field k
          s.next.next.line_num tf.str_val (convert_token_type_to_access_type tm.type true))) := by
  have hstate : ∀ a, (s.set_top false).next.next.next.next.with_static_field k
      (s.set_top false).next.next.line_num tf.str_val a =
      (s.next.next.next.next.set_top false).with_static_field k
        s.next.next.line_num tf.str_val a := by
    intro a
    simp only [next_set_top]
    rfl
  rcases hs with hs | hs
  · have hs0 : At (s.set_top false) (tm :: tst :: tf :: tsemi :: rest) := hs
    obtain ⟨N, hN⟩ := static_field_list_at e _ tst tf tsemi rest
      (convert_token_type_to_access_type tm.type true) k hs0.next (by rw [hst]; rfl) hf hsemi
      (by rw [next_cur_class]; exact hk) hu hb
    refine ⟨N + 1, fun n hn => ?_⟩
    obtain ⟨m, rfl⟩ : ∃ m, n = m + 1 := ⟨n - 1, by omega⟩
    show get_statement e (parser e m) none s = _
    rw [statement_access_static e (parser e m) s tm tst tf tsemi rest k hs hm hst hf hk]
    exact (hN m (by omega)).trans (congrArg _ (hstate _))
  · have hs0 : At (s.set_top false) (tst :: tm :: tf :: tsemi :: rest) := hs
    have h0 : (tm.type == tok_echo || tm.type == tok_dbg_echo) = false := by
      rcases hm with hm | hm | hm <;> rw [hm] <;> rfl
    obtain ⟨N, hN⟩ := static_field_list_at e _ tm tf tsemi rest
      (convert_token_type_to_access_type tm.type true) k hs0.next h0 hf hsemi
      (by rw [next_cur_class]; exact hk) hu hb
    refine ⟨N + 1, fun n hn => ?_⟩
    obtain ⟨m, rfl⟩ : ∃ m, n = m + 1 := ⟨n - 1, by omega⟩
    show get_statement e (parser e m) none s = _
    rw [statement_static_access e (parser e m) s tst tm tf tsemi rest k hs hm hst hf hk]
    exact (hN m (by omega)).trans (congrArg _ (hstate _))

theorem At.next_cur {s : GenTree} {t t' : Token} {ts : List Token}
    (h : At s (t :: t' :: ts)) : s.next.cur = s.cur + 1 := by
  have hne : (s.cur != s.end_) = true := by simpa using h.not_end
  unfold GenTree.next
  rw [if_pos hne]
  dsimp only
  split <;> rfl

theorem access_type_injective (m1 m2 : TokenType) (b1 b2 : Bool)
    (h1 : m1 ∈ [tok_public, tok_private, tok_protected])
    (h2 : m2 ∈ [tok_public, tok_private, tok_protected])
    (h : convert_token_type_to_access_type m1 b1 = convert_token_type_to_access_type m2 b2) :
    m1 = m2 ∧ b1 = b2 := by
  simp only [List.mem_cons, List.mem_singleton, List.not_mem_nil, or_false] at h1 h2
  rcases h1 with rfl | rfl | rfl <;> rcases h2 with rfl | rfl | rfl <;>
    cases b1 <;> cases b2 <;> first | exact ⟨rfl, rfl⟩ | exact absurd h (by decide)

/-- C20: for an access modifier `m` among `public`, `private`, `protected` and a
variable name `f`, inside a class both `m static $f;` and `static m $f;` register `f` as
a static field of the class with access level `convert_token_type_to_access_type m true`
and leave the cursor just after the `;`; and `convert_token_type_to_access_type` maps the
six pairs of a modifier and a static flag to six different access levels. -/
theorem static_field_either_order (e : Env) (s : GenTree) (tm tst tf tsemi : Token)
    (rest : List Token) (k : Nat)
    (hs : At s (tm :: tst :: tf :: tsemi :: rest) ∨ At s (tst :: tm :: tf :: tsemi :: rest))
    (hm : tm.type = tok_public ∨ tm.type = tok_private ∨ tm.type = tok_protected)
    (hst : tst.type = tok_static) (hf : tf.type = tok_var_name)
    (hsemi : tsemi.type = tok_semicolon) (hrest : rest ≠ [])
    (hk : s.cur_class = some k) (hkl : k < s.classes.length)
    (hu : e.info.tok_to_unary_op tok_var_name = op_err)
    (hb : e.info.tok_to_binary_op tok_semicolon = op_err) :
    (∃ N, ∀ n, N ≤ n → ∃ s',
      (parser e n).get_statement none s = Res.ok (some (Vertex.create op_empty [])) s' ∧
      At s' rest ∧ s'.cur = s.cur + 4 ∧
      (s'.get_class k).members.static_fields = (s.get_class k).members.static_fields ++
        [(static_field_node s.next.next.line_num tf.str_val
            (convert_token_type_to_access_type tm.type true),
          tf.str_val, convert_token_type_to_access_type tm.type true)]) ∧
    (∀ m1 m2 b1 b2, m1 ∈ [tok_public, tok_private, tok_protected] →
      m2 ∈ [tok_public, tok_private, tok_protected] →
      convert_token_type_to_access_type m1 b1 = convert_token_type_to_access_type m2 b2 →
      m1 = m2 ∧ b1 = b2) := by
  refine ⟨?_, access_type_injective⟩
  obtain ⟨N, hN⟩ := static_field_run e s tm tst tf tsemi rest k hs hm hst hf hsemi hk hu hb
  obtain ⟨r, rs, rfl⟩ : ∃ r rs, rest = r :: rs := by
    cases rest with
    | nil => exact absurd rfl hrest
    | cons r rs => exact ⟨r, rs, rfl⟩
  have h4 : ∀ a b c d, At s (a :: b :: c :: d :: r :: rs) →
      At s.next.next.next.next (r :: rs) ∧ s.next.next.next.next.cur = s.cur + 4 := by
    intro a b c d h
    refine ⟨h.next.next.next.next, ?_⟩
    rw [h.next.next.next.next_cur, h.next.next.next_cur, h.next.next_cur, h.next_cur]
  have hat : At s.next.next.next.next (r :: rs) ∧ s.next.next.next.next.cur = s.cur + 4 := by
    rcases hs with hs | hs <;> exact h4 _ _ _ _ hs
  refine ⟨N, fun n hn => ⟨_, hN n hn, hat.1, hat.2, ?_⟩⟩
  have hcl : (s.next.next.next.next.set_top false).classes = s.classes := by
    show s.next.next.next.next.classes = _
    rw [next_classes, next_classes, next_classes, next_classes]
  have hlen : k < (s.next.next.next.next.set_top false).classes.length := by rw [hcl]; exact hkl
  rw [with_static_field_fields _ _ _ _ _ hlen]
  unfold GenTree.get_class
  rw [hcl]

theorem static_field_either_order_witness :
    (∃ N, ∀ n, N ≤ n → ∃ s',
      (parser sample_env n).get_statement none (sample_member_state tokens_public_static) =
        Res.ok (some (Vertex.create op_empty [])) s' ∧
      At s' [sample_token tok_end ""] ∧ s'.cur = 0 + 4 ∧
      (s'.get_class 0).members.static_fields = [] ++
        [(static_field_node 1 "f" AccessType.access_static_public, "f",
          AccessType.access_static_public)]) ∧
    (∃ N, ∀ n, N ≤ n → ∃ s',
      (parser sample_env n).get_statement none (sample_member_state tokens_static_public) =
        Res.ok (some (Vertex.create op_empty [])) s' ∧
      At s' [sample_token tok_end ""] ∧ s'.cur = 0 + 4 ∧
      (s'.get_class 0).members.static_fields = [] ++
        [(static_field_node 1 "f" AccessType.access_static_public, "f",
          AccessType.access_static_public)]) :=
  ⟨(static_field_either_order sample_env (sample_member_state tokens_public_static)
      (sample_token tok_public "public") (sample_token tok_static "static")
      (sample_token tok_var_name "f") (sample_token tok_semicolon "") [sample_token tok_end ""] 0
      (Or.inl ⟨rfl, rfl, by decide⟩) (Or.inl rfl) rfl rfl rfl (by decide) rfl (by decide)
      rfl rfl).1,
   (static_field_either_order sample_env (sample_member_state tokens_static_public)
      (sample_token tok_public "public") (sample_token tok_static "static")
      (sample_token tok_var_name "f") (sample_token tok_semicolon "") [sample_token tok_end ""] 0
      (Or.inr ⟨rfl, rfl, by decide⟩) (Or.inl rfl) rfl rfl rfl (by decide) rfl (by decide)
      rfl rfl).1⟩

theorem gen_list_loop_frame (c : Caps) (h : ListFrame c) (E : Operation) (f : GetFunc)
    (d : TokenType) (p : Bool) (pre res : List Vertex) (s : GenTree) :
    gen_list_loop c E f d p (pre ++ res) s = prepend_to pre (gen_list_loop c E f d p res s) := by
  unfold gen_list_loop
  simp only [P.bind_apply]
  rcases call_get_func c f s with ⟨v, s1⟩ | err
  · have hpair : ∀ (b : Bool) (l : List Vertex) (t : GenTree),
        prepend_to pre (Res.ok (b, l) t) = Res.ok (b, pre ++ l) t := fun _ _ _ => rfl
    simp only [Res.bind_ok, cur_type_apply]
    cases v with
    | some v =>
      by_cases hd : (s1.tok.type == d) = true
      · simp only [P.bind_apply, cur_type_apply, hd, ↓reduceIte, next_cur_apply, Res.bind_ok,
          List.append_assoc, h.frame]
      · simp only [P.bind_apply, cur_type_apply, Res.bind_ok, hd, ↓reduceIte, P.pure_apply,
          List.append_assoc, Bool.false_eq_true, hpair]
    | none =>
      by_cases hd : (s1.tok.type == d) = true <;> by_cases hE : (E != op_err) = true <;>
        by_cases hN : (E == op_none) = true <;> cases p <;>
        simp only [cur_type_apply, hd, hE, hN, ↓reduceIte, P.bind_apply, next_cur_apply, Res.bind_ok,
          List.append_assoc, h.frame, P.pure_apply, Bool.false_eq_true, hpair, Bool.or_true,
          Bool.or_false, Bool.and_true, Bool.and_false, Bool.true_and, Bool.false_and,
          kphp_error_apply, Bool.or_self, Bool.and_self]
  · rfl

theorem parser_frame (e : Env) (n : Nat) : ListFrame (parser e n) := by
  induction n with
  | zero => exact ⟨fun _ _ _ _ _ _ _ => rfl⟩
  | succ n ih => exact ⟨gen_list_loop_frame (parser e n) ih⟩

theorem gen_list_frame (e : Env) (n : Nat) (E : Operation) (f : GetFunc) (d : TokenType)
    (pre : List Vertex) (s : GenTree) :
    gen_list (parser e n) E pre f d s = prepend_to pre (gen_list (parser e n) E [] f d s) := by
  have h := (parser_frame e n).frame E f d false pre [] s
  rw [List.append_nil] at h
  exact h

theorem Runs.run_bind {α β : Type} {s : GenTree} {m : P α} {f : α → P β}
    {Q : β → GenTree → Prop} (h : ∀ a s1, m s = Res.ok a s1 → Runs s1 (f a) Q) :
    Runs s (m >>= f) Q := by
  refine ⟨fun b s' hb => ?_⟩
  rw [P.bind_apply] at hb
  rcases hm : m s with ⟨a, s1⟩ | err
  · rw [hm] at hb; exact (h a s1 hm).run b s' hb
  · rw [hm] at hb; cases hb

theorem Runs.run_pure {α : Type} {s : GenTree} {a : α} {Q : α → GenTree → Prop} (h : Q a s) :
    Runs s (pure a) Q :=
  ⟨fun _ _ hb => by cases hb; exact h⟩

theorem Runs.run_abort {α : Type} {s : GenTree} {e : Abort} {Q : α → GenTree → Prop} :
    Runs s (abortP e) Q :=
  ⟨fun _ _ hb => by cases hb⟩

theorem Runs.run_ite {α : Type} {s : GenTree} {c : Prop} [Decidable c] {m1 m2 : P α}
    {Q : α → GenTree → Prop} (h1 : c → Runs s m1 Q) (h2 : ¬ c → Runs s m2 Q) :
    Runs s (if c then m1 else m2) Q := by
  split
  · exact h1 ‹_›
  · exact h2 ‹_›

theorem Runs.run_getS_bind {β : Type} {s : GenTree} {f : GenTree → P β}
    {Q : β → GenTree → Prop} (h : Runs s (f s) Q) : Runs s (getS >>= f) Q :=
  Runs.run_bind fun _ _ ha => by cases ha; exact h

theorem Runs.modS_bind {β : Type} {s : GenTree} {g : GenTree → GenTree} {f : Unit → P β}
    {Q : β → GenTree → Prop} (h : Runs (g s) (f ()) Q) : Runs s (modS g >>= f) Q :=
  Runs.run_bind fun _ _ ha => by cases ha; exact h

theorem Runs.next_cur_bind {β : Type} {s : GenTree} {f : Unit → P β}
    {Q : β → GenTree → Prop} (h : Runs s.next (f ()) Q) : Runs s (next_cur >>= f) Q :=
  Runs.run_bind fun _ _ ha => by cases ha; exact h

theorem Runs.auto_location_bind {β : Type} {s : GenTree} {f : Int → P β}
    {Q : β → GenTree → Prop} (h : Runs s (f s.line_num) Q) :
    Runs s (auto_location >>= f) Q :=
  Runs.run_bind fun _ _ ha => by cases ha; exact h

theorem Runs.test_expect_bind {β : Type} {s : GenTree} {tp : TokenType} {f : Bool → P β}
    {Q : β → GenTree → Prop} (h : Runs s (f (s.tok.type == tp)) Q) :
    Runs s (test_expect tp >>= f) Q :=
  Runs.run_bind fun _ _ ha => by cases ha; exact h

theorem Runs.run_pure_bind {α β : Type} {s : GenTree} {a : α} {f : α → P β}
    {Q : β → GenTree → Prop} (h : Runs s (f a) Q) :
    Runs s (Pure.pure a >>= f) Q :=
  Runs.run_bind fun _ _ ha => by cases ha; exact h

theorem Runs.assert_bind {β : Type} {s : GenTree} {x : Bool} {msg : String} {f : Unit → P β}
    {Q : β → GenTree → Prop} (h : x = true → Runs s (f ()) Q) :
    Runs s (kphp_assert x msg >>= f) Q :=
  Runs.run_bind fun _ _ ha => by
    unfold kphp_assert at ha
    split at ha
    · cases ha; exact h ‹_›
    · cases ha

theorem patch_func_add_this_inv {line : Int} {cc : Option Nat} {s s' : GenTree} {a : Vertex}
    (h : patch_func_add_this line cc s = Res.ok a s') :
    cc.isSome = true ∧ a = Vertex.create op_func_param [vertex_this line cc] ∧ s' = s := by
  unfold patch_func_add_this create_vertex_this kphp_assert at h
  cases hc : cc.isSome
  · simp [hc] at h
  · simp only [hc, ↓reduceIte, P.bind_apply, P.pure_apply, Res.bind_ok, Res.ok.injEq] at h
    exact ⟨rfl, h.1.symm, h.2.symm⟩

theorem kphp_error_false_inv {x : Bool} {msg : String} {s s' : GenTree} {b : Bool}
    (h : kphp_error x msg s = Res.ok b s') (hb : ¬ b = true) : x = true ∧ s' = s := by
  rw [kphp_error_apply] at h
  cases x
  · simp only [Bool.false_eq_true, ↓reduceIte, Res.ok.injEq] at h
    exact absurd h.1.symm hb
  · simp only [↓reduceIte, Res.ok.injEq] at h
    exact ⟨rfl, h.2.symm⟩

theorem gen_list_declared (e : Env) (n : Nat) (pre : List Vertex) (f : GetFunc)
    (sp sq : GenTree) (a : Bool × List Vertex)
    (h : gen_list (parser e n) op_err pre f tok_comma sp = Res.ok a sq) :
    ∃ declared, gen_list (parser e n) op_err [] f tok_comma sp = Res.ok (a.1, declared) sq ∧
      a.2 = pre ++ declared := by
  rw [gen_list_frame] at h
  rcases hg : gen_list (parser e n) op_err [] f tok_comma sp with ⟨r, s1⟩ | err
  · rw [hg] at h
    simp only [prepend_to, Res.ok.injEq] at h
    obtain ⟨h1, h2⟩ := h
    subst h1 h2
    exact ⟨r.2, rfl, rfl⟩
  · rw [hg] at h; cases h

theorem expect_true_inv {tp : TokenType} {msg : String} {s s' : GenTree} {a : Bool}
    (h : expect tp msg s = Res.ok a s') (ha : ¬ (!a) = true) : s' = s.next ∧ s.tok.type = tp := by
  rw [expect_apply] at h
  split at h
  · simp only [Res.ok.injEq] at h
    exact ⟨h.2.symm, ‹_›⟩
  · simp only [Res.ok.injEq] at h
    rw [← h.1] at ha
    exact absurd rfl ha

theorem receiver_injection_aux (e : Env) (n : Nat) (access : AccessType)
    (uses : Option (List Vertex)) (flags : Vertex) (s : GenTree) :
    Runs s (parse_function_declaration e (parser e n) access uses flags)
      (fun r _ => ∀ d, r = some d →
        d.is_constructor = (is_instance_access_type access &&
          ends_with d.name.get_string "$$__construct") ∧
        ∃ sp declared,
          ((sp.tok.type = tok_varg ∧ declared = []) ∨
            ∃ sq, gen_list (parser e n) op_err [] GetFunc.get_func_param tok_comma sp =
              Res.ok (true, declared) sq) ∧
          sp = params_start uses s ∧
          d.params.next =
            (if is_instance_access_type access && !d.is_constructor then
              [Vertex.create op_func_param [vertex_this s.line_num s.cur_class]]
             else []) ++ declared ∧
          (is_instance_access_type access = true → d.is_constructor = false →
            s.cur_class.isSome)) := by
  unfold parse_function_declaration
  repeat' first
    | (with_reducible apply Runs.auto_location_bind)
    | (with_reducible apply Runs.test_expect_bind)
    | (with_reducible apply Runs.next_cur_bind)
    | (with_reducible apply Runs.run_getS_bind)
    | (with_reducible apply Runs.modS_bind)
    | (with_reducible apply Runs.run_pure_bind)
    | (with_reducible apply Runs.assert_bind; intro _)
    | (with_reducible apply Runs.run_abort)
    | (with_reducible apply Runs.run_pure)
    | (with_reducible apply Runs.run_bind; intro _ _ _)
    | (with_reducible apply Runs.run_ite <;> intro _)
    | split
    | dsimp only
  all_goals intro d hd
  all_goals cases hd
  all_goals refine ⟨rfl, ?_⟩
  all_goals first
    | (obtain ⟨hsome, rfl, rfl⟩ := patch_func_add_this_inv ‹patch_func_add_this _ _ _ = _›
       have hc := ‹(is_instance_access_type access && !_) = true›
       first
       | (have hv := ‹((GenTree.tok _).type == tok_varg) = true›
          refine ⟨_, [], Or.inl ⟨by simpa using hv, rfl⟩, ?_, ?_, ?_⟩
          · (unfold params_start
             first
             | (rw [if_pos ‹uses.isSome = true›]
                exact (expect_true_inv ‹expect tok_oppar _ _ = _› ‹_›).1)
             | (rw [if_neg ‹¬ uses.isSome = true›]
                obtain ⟨h1, -⟩ := expect_true_inv ‹expect tok_func_name _ _ = _› ‹_›
                obtain ⟨h2, -⟩ := expect_true_inv ‹expect tok_oppar _ _ = _› ‹_›
                rw [h2, h1]))
          · show [_] = _
            rw [if_pos hc, next_cur_class]; rfl
          · intro _ _; rw [← next_cur_class]; exact hsome)
       | (obtain ⟨declared, hdecl, hl⟩ := gen_list_declared e n _ _ _ _ _ ‹gen_list _ _ _ _ _ _ = _›
          obtain ⟨hok, rfl⟩ := kphp_error_false_inv
            ‹kphp_error _ "Failed to parse function params" _ = _› ‹_›
          rw [hok] at hdecl
          refine ⟨_, declared, Or.inr ⟨_, hdecl⟩, ?_, ?_, ?_⟩
          · (unfold params_start
             first
             | (rw [if_pos ‹uses.isSome = true›]
                exact (expect_true_inv ‹expect tok_oppar _ _ = _› ‹_›).1)
             | (rw [if_neg ‹¬ uses.isSome = true›]
                obtain ⟨h1, -⟩ := expect_true_inv ‹expect tok_func_name _ _ = _› ‹_›
                obtain ⟨h2, -⟩ := expect_true_inv ‹expect tok_oppar _ _ = _› ‹_›
                rw [h2, h1]))
          · show Prod.snd _ = _
            rw [if_pos hc, hl, next_cur_class]
          · intro _ _; rw [← next_cur_class]; exact hsome))
    | (have hnc := ‹¬ (is_instance_access_type access && !_) = true›
       have hlast : ∀ (b : Bool), is_instance_access_type access = true →
           (is_instance_access_type access && b) = false →
           ¬ (is_instance_access_type access && !(is_instance_access_type access && b)) = true →
           False := by
         intro b hi hb hn
         rw [hb, hi] at hn
         exact hn rfl
       first
       | (have hv := ‹((GenTree.tok _).type == tok_varg) = true›
          refine ⟨_, [], Or.inl ⟨by simpa using hv, rfl⟩, ?_, ?_, ?_⟩
          · (unfold params_start
             first
             | (rw [if_pos ‹uses.isSome = true›]
                exact (expect_true_inv ‹expect tok_oppar _ _ = _› ‹_›).1)
             | (rw [if_neg ‹¬ uses.isSome = true›]
                obtain ⟨h1, -⟩ := expect_true_inv ‹expect tok_func_name _ _ = _› ‹_›
                obtain ⟨h2, -⟩ := expect_true_inv ‹expect tok_oppar _ _ = _› ‹_›
                rw [h2, h1]))
          · show [] = _
            rw [if_neg hnc]; rfl
          · intro hi hctor; exact (hlast _ hi hctor hnc).elim)
       | (obtain ⟨declared, hdecl, hl⟩ := gen_list_declared e n _ _ _ _ _ ‹gen_list _ _ _ _ _ _ = _›
          obtain ⟨hok, rfl⟩ := kphp_error_false_inv
            ‹kphp_error _ "Failed to parse function params" _ = _› ‹_›
          rw [hok] at hdecl
          refine ⟨_, declared, Or.inr ⟨_, hdecl⟩, ?_, ?_, ?_⟩
          · (unfold params_start
             first
             | (rw [if_pos ‹uses.isSome = true›]
                exact (expect_true_inv ‹expect tok_oppar _ _ = _› ‹_›).1)
             | (rw [if_neg ‹¬ uses.isSome = true›]
                obtain ⟨h1, -⟩ := expect_true_inv ‹expect tok_func_name _ _ = _› ‹_›
                obtain ⟨h2, -⟩ := expect_true_inv ‹expect tok_oppar _ _ = _› ‹_›
                rw [h2, h1]))
          · show Prod.snd _ = _
            rw [if_neg hnc, hl]
          · intro hi hctor; exact (hlast _ hi hctor hnc).elim))

/-- C12: the parameter list that `parse_function_declaration` builds is the receiver
parameter followed by the declared parameters, in source order, when the access type is
an instance one and the name is not a constructor name; the receiver parameter wraps a
variable named `this` whose type rule names the current class.  For a static method, a
free function or a constructor it is the declared parameters alone.  The declared
parameters are what the parameter parser yields, from an empty vector, on the tokens
after the opening parenthesis (none for a `...` list). -/
theorem receiver_injection (e : Env) (n : Nat) (access : AccessType)
    (uses : Option (List Vertex)) (flags : Vertex) (s s' : GenTree) (d : FunctionDeclaration)
    (h : parse_function_declaration e (parser e n) access uses flags s = Res.ok (some d) s') :
    ∃ declared,
      (((params_start uses s).tok.type = tok_varg ∧ declared = []) ∨
        ∃ sq, gen_list (parser e n) op_err [] GetFunc.get_func_param tok_comma
          (params_start uses s) = Res.ok (true, declared) sq) ∧
      d.is_constructor = (is_instance_access_type access &&
        ends_with d.name.get_string "$$__construct") ∧
      (is_instance_access_type access = true → d.is_constructor = false →
        ∃ k this, s.cur_class = some k ∧ this = vertex_this s.line_num (some k) ∧
          d.params.next = Vertex.create op_func_param [this] :: declared ∧
          this.type = op_var ∧ this.get_string = "this" ∧
          this.type_rule.map (fun r => r.next.map fun c => (c.type, c.info.class_ptr)) =
            some [(op_class_type_rule, some k)]) ∧
      ((is_instance_access_type access = false ∨ d.is_constructor = true) →
        d.params.next = declared) := by
  obtain ⟨hctor, sp, declared, hdecl, rfl, hparams, hsome⟩ :=
    (receiver_injection_aux e n access uses flags s).run _ _ h d rfl
  refine ⟨declared, hdecl, hctor, ?_, ?_⟩
  · intro hi hc
    obtain ⟨k, hk⟩ := Option.isSome_iff_exists.mp (hsome hi hc)
    refine ⟨k, _, hk, rfl, ?_, rfl, rfl, rfl⟩
    rw [hparams, hi, hc, hk]
    rfl
  · intro hor
    rw [hparams]
    rcases hor with hi | hc
    · rw [hi]; rfl
    · rw [hc, Bool.not_true, Bool.and_false]; rfl

set_option maxRecDepth 4000 in
theorem receiver_injection_witness :
    ∃ declared,
      (((params_start none (sample_member_state tokens_method)).tok.type = tok_varg ∧
          declared = []) ∨
        ∃ sq, gen_list (parser sample_env 60) op_err [] GetFunc.get_func_param tok_comma
          (params_start none (sample_member_state tokens_method)) =
            Res.ok (true, declared) sq) ∧
      sample_method_declaration.is_constructor = (is_instance_access_type
        AccessType.access_public &&
          ends_with sample_method_declaration.name.get_string "$$__construct") ∧
      (is_instance_access_type AccessType.access_public = true →
        sample_method_declaration.is_constructor = false →
        ∃ k this, (sample_member_state tokens_method).cur_class = some k ∧
          this = vertex_this (sample_member_state tokens_method).line_num (some k) ∧
          sample_method_declaration.params.next = Vertex.create op_func_param [this] :: declared ∧
          this.type = op_var ∧ this.get_string = "this" ∧
          this.type_rule.map (fun r => r.next.map fun c => (c.type, c.info.class_ptr)) =
            some [(op_class_type_rule, some k)]) ∧
      ((is_instance_access_type AccessType.access_public = false ∨
          sample_method_declaration.is_constructor = true) →
        sample_method_declaration.params.next = declared) :=
  receiver_injection sample_env 60 AccessType.access_public none (Vertex.create op_none [])
    (sample_member_state tokens_method) { sample_member_state tokens_method with cur := 7 }
    sample_method_declaration rfl

theorem Keeps.keeps_pure {α : Type} {R : GenTree → GenTree → Prop} (hR : IsPre R) (a : α) :
    Keeps R (pure a : P α) :=
  ⟨fun s _ _ h => by cases h; exact hR.refl s⟩

theorem Keeps.keeps_abort {α : Type} {R : GenTree → GenTree → Prop} (e : Abort) :
    Keeps R (abortP e : P α) :=
  ⟨fun _ _ _ h => by cases h⟩

theorem Keeps.keeps_bind {α β : Type} {R : GenTree → GenTree → Prop} (hR : IsPre R) {m : P α}
    {f : α → P β} (hm : Keeps R m) (hf : ∀ a, Keeps R (f a)) : Keeps R (m >>= f) := by
  refine ⟨fun s b s' hb => ?_⟩
  rw [P.bind_apply] at hb
  rcases h1 : m s with ⟨a, s1⟩ | err
  · rw [h1] at hb
    exact hR.trans _ _ _ (hm.run _ _ _ h1) ((hf a).run _ _ _ hb)
  · rw [h1] at hb; cases hb

theorem Keeps.keeps_ite {α : Type} {R : GenTree → GenTree → Prop} {c : Prop} [Decidable c]
    {m1 m2 : P α} (h1 : Keeps R m1) (h2 : Keeps R m2) : Keeps R (if c then m1 else m2) := by
  split
  · exact h1
  · exact h2

theorem Keeps.same {α : Type} {R : GenTree → GenTree → Prop} (hR : IsPre R) {m : P α}
    (h : ∀ s a s', m s = Res.ok a s' → s' = s) : Keeps R m :=
  ⟨fun s a s' hm => by rw [h s a s' hm]; exact hR.refl s⟩

theorem Keeps.keeps_getS {R : GenTree → GenTree → Prop} (hR : IsPre R) : Keeps R getS :=
  Keeps.same hR fun _ _ _ h => by cases h; rfl

theorem Keeps.keeps_modS {R : GenTree → GenTree → Prop} {g : GenTree → GenTree}
    (h : ∀ s, R s (g s)) : Keeps R (modS g) :=
  ⟨fun s _ _ hm => by cases hm; exact h s⟩

theorem Triple.triple_bind {α β : Type} {I : GenTree → Prop} {m : P α} {f : α → P β}
    {J : α → GenTree → Prop} {Q : β → GenTree → Prop} (hm : Triple I m J)
    (hf : ∀ a, Triple (J a) (f a) Q) : Triple I (m >>= f) Q := by
  refine ⟨fun s b s' hI hb => ?_⟩
  rw [P.bind_apply] at hb
  rcases h1 : m s with ⟨a, s1⟩ | err
  · rw [h1] at hb
    exact (hf a).run _ _ _ (hm.run _ _ _ hI h1) hb
  · rw [h1] at hb; cases hb

theorem Triple.keeps {α : Type} {I : GenTree → Prop} {R : GenTree → GenTree → Prop} {m : P α}
    (hI : ∀ s s', I s → R s s' → I s') (hm : Keeps R m) : Triple I m (fun _ => I) :=
  ⟨fun s a s' hs h => hI s s' hs (hm.run s a s' h)⟩

theorem Triple.keeps_post {α : Type} {I : GenTree → Prop} {R : GenTree → GenTree → Prop}
    {m : P α} {Q : α → Prop} (hI : ∀ s s', I s → R s s' → I s') (hm : Keeps R m)
    (hp : Post m Q) : Triple I m (fun a s => I s ∧ Q a) :=
  ⟨fun s a s' hs h => ⟨hI s s' hs (hm.run s a s' h), hp.run s a s' h⟩⟩

theorem Triple.triple_getS_bind {β : Type} {I : GenTree → Prop} {f : GenTree → P β}
    {Q : β → GenTree → Prop} (hf : ∀ a, I a → Triple I (f a) Q) : Triple I (getS >>= f) Q :=
  ⟨fun s b s' hI hb => (hf s hI).run s b s' hI hb⟩

theorem Triple.triple_pure {α : Type} {I : GenTree → Prop} {a : α} {Q : α → GenTree → Prop}
    (h : ∀ s, I s → Q a s) : Triple I (pure a) Q :=
  ⟨fun s _ _ hI hb => by cases hb; exact h s hI⟩

theorem Triple.triple_pure_bind {α β : Type} {I : GenTree → Prop} {a : α} {f : α → P β}
    {Q : β → GenTree → Prop} (h : Triple I (f a) Q) : Triple I (Pure.pure a >>= f) Q :=
  ⟨fun s b s' hI hb => h.run s b s' hI hb⟩

theorem Triple.triple_abort {α : Type} {I : GenTree → Prop} {e : Abort} {Q : α → GenTree → Prop} :
    Triple I (abortP e) Q :=
  ⟨fun _ _ _ _ hb => by cases hb⟩

theorem Triple.triple_abort_bind {α β : Type} {I : GenTree → Prop} {e : Abort} {f : α → P β}
    {Q : β → GenTree → Prop} : Triple I ((abortP e : P α) >>= f) Q :=
  ⟨fun _ _ _ _ hb => by cases hb⟩

theorem Triple.triple_ite {α : Type} {I : GenTree → Prop} {c : Prop} [Decidable c] {m1 m2 : P α}
    {Q : α → GenTree → Prop} (h1 : c → Triple I m1 Q) (h2 : ¬ c → Triple I m2 Q) :
    Triple I (if c then m1 else m2) Q := by
  split
  · exact h1 ‹_›
  · exact h2 ‹_›

theorem Triple.triple_pre {α : Type} {I J : GenTree → Prop} {m : P α} {Q : α → GenTree → Prop}
    (h : ∀ s, I s → J s) (ht : Triple J m Q) : Triple I m Q :=
  ⟨fun s a s' hI hb => ht.run s a s' (h s hI) hb⟩

theorem Triple.exists {α ι : Type} {I : ι → GenTree → Prop} {m : P α}
    {Q : α → GenTree → Prop} (h : ∀ x, Triple (I x) m Q) :
    Triple (fun s => ∃ x, I x s) m Q :=
  ⟨fun s a s' hI hb => by obtain ⟨x, hx⟩ := hI; exact (h x).run s a s' hx hb⟩

theorem Triple.and_pure {α : Type} {I : GenTree → Prop} {p : Prop} {m : P α}
    {Q : α → GenTree → Prop} (h : p → Triple I m Q) : Triple (fun s => I s ∧ p) m Q :=
  ⟨fun s a s' hI hb => (h hI.2).run s a s' hI.1 hb⟩

theorem Triple.to_runs {α : Type} {I : GenTree → Prop} {m : P α} {Q : α → GenTree → Prop}
    {s : GenTree} (h : Triple I m Q) (hs : I s) : Runs s m Q :=
  ⟨fun a s' hb => h.run s a s' hs hb⟩

theorem Grows.is_pre : IsPre Grows where
  refl := fun _ => ⟨rfl, Nat.le_refl _, fun _ _ => ⟨rfl, rfl⟩, Nat.le_refl _, fun _ _ => rfl⟩
  trans := fun a b c h1 h2 =>
    ⟨h2.counter.trans h1.counter, Nat.le_trans h1.classes_le h2.classes_le,
     fun k hk => ⟨((h2.classes k (Nat.lt_of_lt_of_le hk h1.classes_le)).1).trans
        (h1.classes k hk).1,
       ((h2.classes k (Nat.lt_of_lt_of_le hk h1.classes_le)).2).trans (h1.classes k hk).2⟩,
     Nat.le_trans h1.functions_le h2.functions_le,
     fun i hi => ((h2.functions i (Nat.lt_of_lt_of_le hi h1.functions_le))).trans
        (h1.functions i hi)⟩

theorem SynthInv.grows {k : Nat} {N : String} {F : List (Vertex × AccessType)} {c : Nat}
    {fs : List (Nat × String)} (s s' : GenTree) (h : SynthInv k N F c fs s)
    (hg : Grows s s') : SynthInv k N F c fs s' where
  lt := Nat.lt_of_lt_of_le h.lt hg.classes_le
  name := (hg.classes k h.lt).1.trans h.name
  fields := (hg.classes k h.lt).2.trans h.fields
  counter := hg.counter.trans h.counter
  funs := fun p hp => ⟨Nat.lt_of_lt_of_le (h.funs p hp).1 hg.functions_le,
    (hg.functions p.1 (h.funs p hp).1).trans (h.funs p hp).2⟩

theorem grows_frame (s s' : GenTree) (h1 : s'.name_counter = s.name_counter)
    (h2 : s'.classes = s.classes) (h3 : s'.functions = s.functions) : Grows s s' := by
  refine ⟨h1, by rw [h2], fun k _ => ?_, by rw [h3], fun i _ => ?_⟩
  · unfold GenTree.get_class; rw [h2]; exact ⟨rfl, rfl⟩
  · unfold GenTree.get_function; rw [h3]

theorem grows_functions (s : GenTree) (fs : List FunctionData)
    (hlen : s.functions.length ≤ fs.length)
    (hn : ∀ i, i < s.functions.length → (fs.getD i default).name = (s.get_function i).name) :
    Grows s { s with functions := fs } :=
  ⟨rfl, Nat.le_refl _, fun _ _ => ⟨rfl, rfl⟩, hlen, hn⟩

theorem grows_classes (s : GenTree) (cs : List ClassData)
    (hlen : s.classes.length ≤ cs.length)
    (hn : ∀ k, k < s.classes.length → (cs.getD k default).name = (s.get_class k).name ∧
      (cs.getD k default).members.instance_fields = (s.get_class k).members.instance_fields) :
    Grows s { s with classes := cs } :=
  ⟨rfl, hlen, hn, Nat.le_refl _, fun _ _ => rfl⟩

theorem grows_modify_function (s : GenTree) (f : Nat) (g : FunctionData → FunctionData)
    (hg : ∀ d, (g d).name = d.name) :
    Grows s { s with functions := modify_at s.functions f g } := by
  refine grows_functions s _ (by rw [modify_at_length]) fun i _ => ?_
  rw [modify_at_getD]
  split
  · exact hg _
  · rfl

theorem grows_modify_class (s : GenTree) (k : Nat) (g : ClassData → ClassData)
    (hg : ∀ c, (g c).name = c.name ∧
      (g c).members.instance_fields = c.members.instance_fields) :
    Grows s { s with classes := modify_at s.classes k g } := by
  refine grows_classes s _ (by rw [modify_at_length]) fun i _ => ?_
  rw [modify_at_getD]
  split
  · exact hg _
  · exact ⟨rfl, rfl⟩

theorem grows_append_function (s : GenTree) (d : FunctionData) :
    Grows s { s with functions := s.functions ++ [d] } := by
  refine grows_functions s _ (by simp) fun i hi => ?_
  rw [getD_append_lt _ _ _ _ hi]
  rfl

theorem keeps_mod_function (f : Nat) (g : FunctionData → FunctionData)
    (hg : ∀ d, (g d).name = d.name) : Keeps Grows (mod_function f g) :=
  Keeps.keeps_modS fun s => grows_modify_function s f g hg

theorem keeps_mod_class (k : Nat) (g : ClassData → ClassData)
    (hg : ∀ c, (g c).name = c.name ∧
      (g c).members.instance_fields = c.members.instance_fields) :
    Keeps Grows (mod_class k g) :=
  Keeps.keeps_modS fun s => grows_modify_class s k g hg

theorem keeps_mod_members (k : Nat) (g : ClassMembersContainer → ClassMembersContainer)
    (hg : ∀ m, (g m).instance_fields = m.instance_fields) :
    Keeps Grows (mod_members k g) :=
  keeps_mod_class k _ fun c => ⟨rfl, hg c.members⟩

theorem keeps_create_function (root : Vertex) (type : func_type_t) :
    Keeps Grows (create_function root type) :=
  ⟨fun s _ _ h => by cases h; exact grows_append_function s _⟩

theorem keeps_new_function : Keeps Grows new_function :=
  ⟨fun s _ _ h => by cases h; exact grows_append_function s _⟩

theorem keeps_register_class (k : Nat) : Keeps Grows (register_class k) :=
  Keeps.keeps_modS fun s => grows_frame s _ rfl rfl rfl

theorem keeps_kphp_assert (x : Bool) (msg : String) : Keeps Grows (kphp_assert x msg) := by
  unfold kphp_assert
  split
  · exact Keeps.keeps_pure Grows.is_pre _
  · exact Keeps.keeps_abort _

theorem keeps_register_and_require_function (f : Nat) (b : Bool) :
    Keeps Grows (register_and_require_function f b) := by
  unfold register_and_require_function
  repeat' first
    | exact Keeps.keeps_getS Grows.is_pre
    | exact Keeps.keeps_pure Grows.is_pre _
    | exact Keeps.keeps_modS fun s => grows_frame s _ rfl rfl rfl
    | apply Keeps.keeps_bind Grows.is_pre
    | apply Keeps.keeps_ite
    | intro _
    | dsimp only

theorem keeps_add_instance_method (k f : Nat) (a : AccessType) :
    Keeps Grows (add_instance_method k f a) := by
  unfold add_instance_method
  repeat' first
    | exact Keeps.keeps_getS Grows.is_pre
    | exact Keeps.keeps_pure Grows.is_pre _
    | exact keeps_mod_members _ _ fun _ => rfl
    | exact keeps_mod_function _ _ fun _ => rfl
    | exact keeps_mod_class _ _ fun _ => ⟨rfl, rfl⟩
    | apply Keeps.keeps_bind Grows.is_pre
    | apply Keeps.keeps_ite
    | intro _
    | dsimp only

theorem keeps_patch_func_add_this (line : Int) (cc : Option Nat) :
    Keeps Grows (patch_func_add_this line cc) := by
  unfold patch_func_add_this create_vertex_this
  repeat' first
    | exact Keeps.keeps_pure Grows.is_pre _
    | exact keeps_kphp_assert _ _
    | apply Keeps.keeps_bind Grows.is_pre
    | apply Keeps.keeps_ite
    | intro _
    | dsimp only

theorem keeps_generate__invoke_method (k : Nat) (function : Vertex) :
    Keeps Grows (generate__invoke_method k function) := by
  unfold generate__invoke_method
  repeat' first
    | exact Keeps.keeps_getS Grows.is_pre
    | exact Keeps.keeps_pure Grows.is_pre _
    | exact Keeps.keeps_abort _
    | exact keeps_kphp_assert _ _
    | exact keeps_patch_func_add_this _ _
    | exact keeps_mod_function _ _ fun _ => rfl
    | apply Keeps.keeps_bind Grows.is_pre
    | apply Keeps.keeps_ite
    | intro _
    | split
    | dsimp only

theorem keeps_create_constructor_with_args (k : Nat) (line : Int) (params : Vertex) :
    Keeps Grows (create_constructor_with_args k line params) := by
  unfold create_constructor_with_args patch_func_constructor create_vertex_this deref
  repeat' first
    | exact Keeps.keeps_getS Grows.is_pre
    | exact Keeps.keeps_pure Grows.is_pre _
    | exact Keeps.keeps_abort _
    | exact keeps_kphp_assert _ _
    | exact keeps_create_function _ _
    | exact keeps_add_instance_method _ _ _
    | exact keeps_register_and_require_function _ _
    | apply Keeps.keeps_bind Grows.is_pre
    | apply Keeps.keeps_ite
    | intro _
    | split
    | dsimp only

theorem generate__invoke_method_name (k : Nat) (function : Vertex) :
    Post (generate__invoke_method k function) (fun r => r.name.get_string = "__invoke") := by
  unfold generate__invoke_method
  repeat' first
    | (apply Post.pure; rfl)
    | (apply Post.bind_right; intro _)
    | apply Post.abort
    | apply Post.ite
    | intro _
    | split
    | dsimp only

theorem SynthInv.with_function {k : Nat} {N : String} {F : List (Vertex × AccessType)}
    {c : Nat} {fs : List (Nat × String)} {s : GenTree} (h : SynthInv k N F c fs s)
    (d : FunctionData) :
    SynthInv k N F c ((s.functions.length, d.name) :: fs)
      { s with functions := s.functions ++ [d] } := by
  have hg := SynthInv.grows s _ h (grows_append_function s d)
  refine ⟨hg.lt, hg.name, hg.fields, hg.counter, fun p hp => ?_⟩
  rcases List.mem_cons.mp hp with rfl | hp
  · refine ⟨by simp, ?_⟩
    show ((s.functions ++ [d]).getD s.functions.length default).name = d.name
    rw [getD_append_length]
  · exact hg.funs p hp

theorem create_function_triple (k : Nat) (N : String) (F : List (Vertex × AccessType))
    (c : Nat) (fs : List (Nat × String)) (root : Vertex) (type : func_type_t) :
    Triple (SynthInv k N F c fs) (create_function root type)
      (fun j => SynthInv k N F c ((j, root.name.get_string) :: fs)) :=
  ⟨fun s _ _ hI h => by
    cases h
    let r : Vertex := root.set_info fun i => { i with func_id := some s.functions.length }
    exact hI.with_function { name := root.name.get_string, root := some r, type := type }⟩

theorem with_constructor_length (s : GenTree) (k : Nat) (line : Int) (params : Vertex) :
    (s.with_constructor k line params).functions.length = s.functions.length + 1 := by
  unfold GenTree.with_constructor GenTree.with_required GenTree.with_method GenTree.with_function
  split <;> simp [modify_at_length]

theorem create_constructor_triple (k : Nat) (N : String) (F : List (Vertex × AccessType))
    (c : Nat) (fs : List (Nat × String)) (line : Int) (params : Vertex) :
    Triple (SynthInv k N F c fs) (create_constructor_with_args k line params)
      (fun _ st => ∃ i, SynthInv k N F c
        ((i, replace_backslashes N ++ "$$" ++ "__construct") :: fs) st) := by
  refine ⟨fun s a s' hI h => ?_⟩
  have hg := SynthInv.grows s s' hI ((keeps_create_constructor_with_args k line params).run _ _ _ h)
  rw [create_constructor_with_args_apply] at h
  cases h
  refine ⟨s.functions.length, hg.lt, hg.name, hg.fields, hg.counter, fun p hp => ?_⟩
  rcases List.mem_cons.mp hp with rfl | hp
  · refine ⟨by rw [with_constructor_length]; exact Nat.lt_succ_self _, ?_⟩
    show ((s.with_constructor k line params).get_function s.functions.length).name = _
    rw [with_constructor_function_new, hI.name]
  · exact hg.funs p hp

theorem generate_constructor_call_triple (k : Nat) (N : String)
    (F : List (Vertex × AccessType)) (c : Nat) (fs : List (Nat × String)) :
    Triple (SynthInv k N F c fs) (generate_constructor_call k)
      (fun v st => SynthInv k N F c fs st ∧ v.type = op_constructor_call ∧ v.get_string = N ∧
        v.next = F.map constructor_argument) := by
  refine ⟨fun s a s' hI h => ?_⟩
  unfold generate_constructor_call at h
  simp only [P.bind_apply, getS_apply, Res.bind_ok, P.pure_apply, Res.ok.injEq] at h
  obtain ⟨rfl, rfl⟩ := h
  refine ⟨hI, rfl, ?_, ?_⟩
  · exact hI.name
  · show (s.get_class k).members.instance_fields.map _ = _
    rw [hI.fields]
    rfl

theorem Runs.step {α β : Type} {s s1 : GenTree} {m : P α} {a : α} {f : α → P β}
    {Q : β → GenTree → Prop} (hm : m s = Res.ok a s1) (h : Runs s1 (f a) Q) :
    Runs s (m >>= f) Q :=
  Runs.run_bind fun _ _ ha => by rw [hm] at ha; cases ha; exact h

theorem foldl_add_instance_field (uses : List Vertex) (m : ClassMembersContainer) :
    (uses.foldl (fun m u => m.add_instance_field
      (((Vertex.create op_class_var []).set_string u.var.get_string).set_location u.location)
      AccessType.access_public) m).instance_fields =
      m.instance_fields ++ uses.map capture_field := by
  induction uses generalizing m with
  | nil => simp
  | cons u us ih =>
    rw [List.foldl_cons, ih]
    simp [ClassMembersContainer.add_instance_field, capture_field]

theorem foldl_modify_at_names (l : List Nat) (g : FunctionData → FunctionData)
    (hg : ∀ d, (g d).name = d.name) (fs : List FunctionData) :
    (l.foldl (fun fs i => modify_at fs i g) fs).length = fs.length ∧
      ∀ i, ((l.foldl (fun fs i => modify_at fs i g) fs).getD i default).name =
        (fs.getD i default).name := by
  induction l generalizing fs with
  | nil => exact ⟨rfl, fun _ => rfl⟩
  | cons x xs ih =>
    rw [List.foldl_cons]
    obtain ⟨h1, h2⟩ := ih (modify_at fs x g)
    refine ⟨h1.trans (modify_at_length _ _ _), fun i => (h2 i).trans ?_⟩
    rw [modify_at_getD]
    split
    · exact hg _
    · rfl

theorem grows_fold_functions (s : GenTree) (l : List Nat) (g : FunctionData → FunctionData)
    (hg : ∀ d, (g d).name = d.name) :
    Grows s { s with functions := l.foldl (fun fs i => modify_at fs i g) s.functions } :=
  grows_functions s _ (Nat.le_of_eq (foldl_modify_at_names l g hg s.functions).1.symm)
    fun i _ => (foldl_modify_at_names l g hg s.functions).2 i

theorem generate_anonymous_class_runs (e : Env) (function : Vertex) (creator : Nat)
    (uses : List Vertex) (s : GenTree) :
    Runs s (generate_anonymous_class e function (some creator) uses)
      (fun v s' => ∃ i j,
        SynthInv s.classes.length (lambda_class_name e s.name_counter)
          (capture_fields (lambda_captures s creator function.name.location.line uses))
          (s.name_counter + 1)
          [(i, lambda_constructor_name e s.name_counter),
           (j, lambda_invoke_name e s.name_counter)] s' ∧
        v.type = op_constructor_call ∧ v.get_string = lambda_class_name e s.name_counter ∧
        v.next = (capture_fields
          (lambda_captures s creator function.name.location.line uses)).map
            constructor_argument) := by
  unfold generate_anonymous_class
  apply Runs.run_getS_bind
  apply Runs.modS_bind
  refine @Runs.step _ _ _ _ _ s.classes.length _ _ rfl ?_
  refine @Runs.step _ _ _ _ _ () _ _ rfl ?_
  dsimp only
  apply Runs.run_pure_bind
  refine @Runs.step _ _ _ _ _ () _ _ rfl ?_
  refine Triple.to_runs (I := SynthInv s.classes.length (lambda_class_name e s.name_counter)
    (capture_fields (lambda_captures s creator function.name.location.line uses))
    (s.name_counter + 1) []) ?_ ?_
  · split
    · apply Triple.triple_pure_bind
      apply Triple.triple_bind (Triple.keeps_post SynthInv.grows (keeps_generate__invoke_method _ _)
        (generate__invoke_method_name _ _))
      intro fun_
      apply Triple.and_pure
      intro hname
      apply Triple.triple_getS_bind
      intro a hIa
      apply Triple.triple_bind (create_function_triple _ _ _ _ _ _ _)
      intro j
      have hnm : (fun_.set_next (fun_.name.set_string (replace_backslashes
          (a.get_class s.classes.length).name ++ "$$" ++ fun_.name.get_string) ::
            List.drop 1 fun_.next)).name.get_string = lambda_invoke_name e s.name_counter := by
        show replace_backslashes (a.get_class s.classes.length).name ++ "$$" ++
          fun_.name.get_string = _
        rw [hIa.name, hname]
        rfl
      rw [hnm]
      refine Triple.triple_bind (Triple.keeps SynthInv.grows (keeps_mod_function _ _ ?_)) ?_
      · exact fun _ => rfl
      intro _
      apply Triple.triple_bind (Triple.keeps SynthInv.grows (keeps_add_instance_method _ _ _))
      intro _
      apply Triple.triple_bind (Triple.keeps SynthInv.grows (keeps_register_and_require_function _ _))
      intro _
      apply Triple.triple_getS_bind
      intro _ _
      refine Triple.triple_bind (Triple.keeps SynthInv.grows (keeps_mod_function _ _ ?_)) ?_
      · exact fun _ => rfl
      intro _
      refine Triple.triple_bind (Triple.keeps SynthInv.grows (keeps_mod_function _ _ ?_)) ?_
      · exact fun _ => rfl
      intro _
      refine Triple.triple_bind (Triple.keeps SynthInv.grows
        (Keeps.keeps_modS fun s => grows_fold_functions s _ _ ?_)) ?_
      · exact fun _ => rfl
      intro _
      apply Triple.triple_bind (create_constructor_triple _ _ _ _ _ _ _)
      intro _
      apply Triple.exists
      intro i
      apply Triple.triple_getS_bind
      intro _ _
      split
      · apply Triple.triple_pure_bind
        refine Triple.triple_bind (Triple.keeps SynthInv.grows (keeps_mod_function _ _ ?_)) ?_
        · exact fun _ => rfl
        intro _
        apply Triple.triple_bind (Triple.keeps SynthInv.grows (keeps_register_class _))
        intro _
        apply Triple.triple_bind (Triple.keeps SynthInv.grows keeps_new_function)
        intro _
        refine Triple.triple_bind (Triple.keeps SynthInv.grows (keeps_mod_class _ _ ?_)) ?_
        · exact fun _ => ⟨rfl, rfl⟩
        intro _
        apply Triple.triple_bind (generate_constructor_call_triple _ _ _ _ _)
        intro v
        apply Triple.triple_pure
        intro st hI
        exact ⟨i, j, hI.1, hI.2.1, hI.2.2.1, hI.2.2.2⟩
      · exact Triple.triple_abort_bind
    · exact Triple.triple_abort_bind
  · refine ⟨?_, ?_, ?_, rfl, fun _ h => absurd h (List.not_mem_nil _)⟩
    · show (modify_at (modify_at (s.classes ++ [_]) _ _) _ _).length > _
      rw [modify_at_length, modify_at_length]
      simp
    · show ((modify_at (modify_at (s.classes ++ [_]) _ _) _ _).getD _ default).name = _
      rw [modify_at_getD, modify_at_length, modify_at_getD]
      simp only [List.length_append, List.length_singleton, Nat.lt_succ_self, and_self,
        ↓reduceIte, getD_append_length]
      rfl
    · show ((modify_at (modify_at (s.classes ++ [_]) _ _) _ _).getD _
        default).members.instance_fields = _
      rw [modify_at_getD, modify_at_length, modify_at_getD]
      simp only [List.length_append, List.length_singleton, Nat.lt_succ_self, and_self,
        ↓reduceIte, getD_append_length]
      rw [foldl_add_instance_field]
      rfl

theorem parse_function_uses_params (c : Caps) :
    Post (parse_function_uses c (some []))
      (fun r => ∀ us, r.2 = some us → ∀ u ∈ us, u.type = op_func_param) := by
  unfold parse_function_uses
  repeat' first
    | (apply Post.pure; intro us hus u hu; cases hus; first
        | exact absurd hu (List.not_mem_nil _)
        | (obtain ⟨v, -, rfl⟩ := List.mem_map.mp hu; rfl))
    | (apply Post.bind_right; intro _)
    | apply Post.ite
    | intro _
    | split
    | dsimp only

/-- C13: the class synthesized by `generate_anonymous_class` for a lambda whose `use`
list holds the parameter nodes of `u1 .. un` (as `parse_function_uses` builds them) has
exactly the instance fields `u1 .. un`, in that order and under the same names, when the
enclosing function is not an instance function, and `parent$this, u1 .. un` when it is. -/
theorem lambda_capture_fields (e : Env) (function : Vertex) (creator : Nat)
    (uses : List Vertex) (s s' : GenTree) (v : Vertex)
    (h : generate_anonymous_class e function (some creator) uses s = Res.ok v s')
    (huses : ∀ u ∈ uses, u.type = op_func_param) :
    s.classes.length < s'.classes.length ∧
    (s'.get_class s.classes.length).name = lambda_class_name e s.name_counter ∧
    (s'.get_class s.classes.length).members.instance_fields.map (fun f => f.1.get_string) =
      (if s.is_instance_function creator then ["parent$this"] else []) ++
        uses.map (fun u => u.var.get_string) ∧
    ∀ c : Caps, Post (parse_function_uses c (some []))
      (fun r => ∀ us, r.2 = some us → ∀ u ∈ us, u.type = op_func_param) := by
  obtain ⟨i, j, hI, -⟩ := (generate_anonymous_class_runs e function creator uses s).run v s' h
  refine ⟨hI.lt, hI.name, ?_, parse_function_uses_params⟩
  have hfilter : uses.filter (fun u => u.type == op_func_param) = uses :=
    List.filter_eq_self.mpr fun u hu => by rw [huses u hu]; rfl
  rw [hI.fields]
  unfold capture_fields lambda_captures
  split
  · have hp : List.filter (fun u => u.type == op_func_param)
        (parent_this_use function.name.location.line :: uses) =
        parent_this_use function.name.location.line :: uses := by
      rw [List.filter_cons]
      rw [if_pos (show ((parent_this_use function.name.location.line).type == op_func_param)
        = true from rfl), hfilter]
    rw [hp]
    simp only [List.map_cons, List.map_map, List.singleton_append, List.cons.injEq]
    exact ⟨rfl, List.map_congr_left fun _ _ => rfl⟩
  · rw [hfilter]
    simp only [List.map_map, List.nil_append]
    exact List.map_congr_left fun _ _ => rfl

set_option maxRecDepth 4000 in
theorem lambda_capture_fields_witness :
    (∃ v s', generate_anonymous_class sample_env sample_lambda (some 0) [sample_param "y"]
        sample_lambda_state = Res.ok v s' ∧
      (s'.get_class 0).name = "$L\\anon$1" ∧
      (s'.get_class 0).members.instance_fields.map (fun f => f.1.get_string) = ["y"]) ∧
    (∃ v s', generate_anonymous_class sample_env sample_lambda (some 0) [sample_param "y"]
        sample_method_lambda_state = Res.ok v s' ∧
      (s'.get_class 0).members.instance_fields.map (fun f => f.1.get_string) =
        ["parent$this", "y"]) :=
  ⟨⟨_, _, rfl, (lambda_capture_fields sample_env sample_lambda 0 [sample_param "y"]
      sample_lambda_state _ _ rfl (by decide)).2.1,
    (lambda_capture_fields sample_env sample_lambda 0 [sample_param "y"]
      sample_lambda_state _ _ rfl (by decide)).2.2.1⟩,
   ⟨_, _, rfl, (lambda_capture_fields sample_env sample_lambda 0 [sample_param "y"]
      sample_method_lambda_state _ _ rfl (by decide)).2.2.1⟩⟩

/-- C15: `generate_anonymous_class` returns a constructor-call node named after the
synthesized class, with exactly one variable node per instance field of that class, in
field order; each is named like its field, except that the field `parent$this` is passed
as the variable `this`. -/
theorem lambda_call_site (e : Env) (function : Vertex) (creator : Nat)
    (uses : List Vertex) (s s' : GenTree) (v : Vertex)
    (h : generate_anonymous_class e function (some creator) uses s = Res.ok v s') :
    s.classes.length < s'.classes.length ∧
    (s'.get_class s.classes.length).name = lambda_class_name e s.name_counter ∧
    v.type = op_constructor_call ∧
    v.get_string = (s'.get_class s.classes.length).name ∧
    v.next = (s'.get_class s.classes.length).members.instance_fields.map constructor_argument ∧
    ∀ f : Vertex × AccessType, (constructor_argument f).type = op_var ∧
      (constructor_argument f).next = [] ∧
      (constructor_argument f).get_string =
        if f.1.get_string = "parent$this" then "this" else f.1.get_string := by
  obtain ⟨i, j, hI, h1, h2, h3⟩ :=
    (generate_anonymous_class_runs e function creator uses s).run v s' h
  refine ⟨hI.lt, hI.name, h1, h2.trans hI.name.symm, ?_, fun f => ⟨rfl, rfl, ?_⟩⟩
  · rw [h3, hI.fields]
  · show (if (f.1.get_string == "parent$this") = true then "this" else f.1.get_string) = _
    by_cases hf : f.1.get_string = "parent$this"
    · rw [if_pos hf, if_pos (by rw [hf]; rfl)]
    · rw [if_neg hf, if_neg (by simpa using hf)]

set_option maxRecDepth 4000 in
theorem lambda_call_site_witness :
    (∃ v s', generate_anonymous_class sample_env sample_lambda (some 0) [sample_param "y"]
        sample_lambda_state = Res.ok v s' ∧
      v.type = op_constructor_call ∧ v.get_string = "$L\\anon$1" ∧
      v.next.map (fun a => (a.type, a.get_string)) = [(op_var, "y")]) ∧
    (∃ v s', generate_anonymous_class sample_env sample_lambda (some 0) [sample_param "y"]
        sample_method_lambda_state = Res.ok v s' ∧
      v.next.map (fun a => (a.type, a.get_string)) = [(op_var, "this"), (op_var, "y")]) :=
  ⟨⟨_, _, rfl, (lambda_call_site sample_env sample_lambda 0 [sample_param "y"]
      sample_lambda_state _ _ rfl).2.2.1, rfl, rfl⟩,
   ⟨_, _, rfl, congrArg (List.map fun a => (a.type, a.get_string))
      (lambda_call_site sample_env sample_lambda 0 [sample_param "y"]
        sample_method_lambda_state _ _ rfl).2.2.2.2.1⟩⟩

theorem CounterLe.counter_pre : IsPre CounterLe :=
  ⟨fun _ => Nat.le_refl _, fun _ _ _ h1 h2 => Nat.le_trans h1 h2⟩

theorem next_name_counter (s : GenTree) : s.next.name_counter = s.name_counter := by
  unfold GenTree.next; split
  · dsimp only; split <;> rfl
  · rfl

theorem skip_until_name_counter (stop : TokenType → Bool) (k : Nat) (s : GenTree) :
    (skip_until stop k s).name_counter = s.name_counter := by
  induction k generalizing s with
  | zero => rfl
  | succ k ih =>
    unfold skip_until
    split
    · rw [ih, next_name_counter]
    · rfl

theorem kphp_assert_mono (x : Bool) (msg : String) :
    Keeps CounterLe (kphp_assert x msg) := by
  unfold kphp_assert
  repeat' first
    | (with_reducible exact Keeps.keeps_getS CounterLe.counter_pre)
    | (with_reducible exact Keeps.keeps_pure CounterLe.counter_pre _)
    | (with_reducible exact Keeps.keeps_abort _)
    | ((with_reducible refine Keeps.keeps_modS ?_); intro _; first
        | exact Nat.le_refl _
        | exact Nat.le_succ _
        | exact Nat.le_of_eq (next_name_counter _).symm
        | exact Nat.le_of_eq (skip_until_name_counter _ _ _).symm
        | (split <;> exact Nat.le_refl _))
    | (with_reducible apply Keeps.keeps_bind CounterLe.counter_pre)
    | (with_reducible apply Keeps.keeps_ite)
    | intro _
    | split
    | dsimp only

theorem kphp_error_mono (x : Bool) (msg : String) :
    Keeps CounterLe (kphp_error x msg) := by
  refine ⟨fun s a s' hm => ?_⟩
  unfold kphp_error at hm
  split at hm <;> cases hm <;> exact Nat.le_refl _

theorem kphp_warning_mono (msg : String) :
    Keeps CounterLe (kphp_warning msg) := by
  unfold kphp_warning
  repeat' first
    | (with_reducible exact Keeps.keeps_getS CounterLe.counter_pre)
    | (with_reducible exact Keeps.keeps_pure CounterLe.counter_pre _)
    | (with_reducible exact Keeps.keeps_abort _)
    | ((with_reducible refine Keeps.keeps_modS ?_); intro _; first
        | exact Nat.le_refl _
        | exact Nat.le_succ _
        | exact Nat.le_of_eq (next_name_counter _).symm
        | exact Nat.le_of_eq (skip_until_name_counter _ _ _).symm
        | (split <;> exact Nat.le_refl _))
    | (with_reducible apply Keeps.keeps_bind CounterLe.counter_pre)
    | (with_reducible apply Keeps.keeps_ite)
    | intro _
    | split
    | dsimp only

theorem has_error_mono :
    Keeps CounterLe (has_error) := by
  exact ⟨fun s a s' hm => by cases hm; exact Nat.le_refl _⟩

theorem cur_tok_mono :
    Keeps CounterLe (cur_tok) := by
  exact ⟨fun s a s' hm => by cases hm; exact Nat.le_refl _⟩

theorem cur_type_mono :
    Keeps CounterLe (cur_type) := by
  exact ⟨fun s a s' hm => by cases hm; exact Nat.le_refl _⟩

theorem at_end_mono :
    Keeps CounterLe (at_end) := by
  exact ⟨fun s a s' hm => by cases hm; exact Nat.le_refl _⟩

theorem auto_location_mono :
    Keeps CounterLe (auto_location) := by
  exact ⟨fun s a s' hm => by cases hm; exact Nat.le_refl _⟩

theorem next_cur_mono :
    Keeps CounterLe (next_cur) := by
  unfold next_cur
  repeat' first
    | (with_reducible exact Keeps.keeps_getS CounterLe.counter_pre)
    | (with_reducible exact Keeps.keeps_pure CounterLe.counter_pre _)
    | (with_reducible exact Keeps.keeps_abort _)
    | ((with_reducible refine Keeps.keeps_modS ?_); intro _; first
        | exact Nat.le_refl _
        | exact Nat.le_succ _
        | exact Nat.le_of_eq (next_name_counter _).symm
        | exact Nat.le_of_eq (skip_until_name_counter _ _ _).symm
        | (split <;> exact Nat.le_refl _))
    | (with_reducible apply Keeps.keeps_bind CounterLe.counter_pre)
    | (with_reducible apply Keeps.keeps_ite)
    | intro _
    | split
    | dsimp only

theorem test_expect_mono (tp : TokenType) :
    Keeps CounterLe (test_expect tp) := by
  exact ⟨fun s a s' hm => by cases hm; exact Nat.le_refl _⟩

theorem expect_mono (tp : TokenType) (msg : String) :
    Keeps CounterLe (expect tp msg) := by
  unfold expect
  repeat' first
    | (with_reducible exact Keeps.keeps_getS CounterLe.counter_pre)
    | (with_reducible exact Keeps.keeps_pure CounterLe.counter_pre _)
    | (with_reducible exact Keeps.keeps_abort _)
    | ((with_reducible refine Keeps.keeps_modS ?_); intro _; first
        | exact Nat.le_refl _
        | exact Nat.le_succ _
        | exact Nat.le_of_eq (next_name_counter _).symm
        | exact Nat.le_of_eq (skip_until_name_counter _ _ _).symm
        | (split <;> exact Nat.le_refl _))
    | (with_reducible exact kphp_error_mono _ _)
    | (with_reducible exact next_cur_mono)
    | (with_reducible exact test_expect_mono _)
    | (with_reducible apply Keeps.keeps_bind CounterLe.counter_pre)
    | (with_reducible apply Keeps.keeps_ite)
    | intro _
    | split
    | dsimp only

theorem expect2_mono (tp1 : TokenType) (tp2 : TokenType) (msg : String) :
    Keeps CounterLe (expect2 tp1 tp2 msg) := by
  unfold expect2
  repeat' first
    | (with_reducible exact Keeps.keeps_getS CounterLe.counter_pre)
    | (with_reducible exact Keeps.keeps_pure CounterLe.counter_pre _)
    | (with_reducible exact Keeps.keeps_abort _)
    | ((with_reducible refine Keeps.keeps_modS ?_); intro _; first
        | exact Nat.le_refl _
        | exact Nat.le_succ _
        | exact Nat.le_of_eq (next_name_counter _).symm
        | exact Nat.le_of_eq (skip_until_name_counter _ _ _).symm
        | (split <;> exact Nat.le_refl _))
    | (with_reducible exact kphp_error_mono _ _)
    | (with_reducible exact at_end_mono)
    | (with_reducible exact next_cur_mono)
    | (with_reducible exact test_expect_mono _)
    | (with_reducible apply Keeps.keeps_bind CounterLe.counter_pre)
    | (with_reducible apply Keeps.keeps_ite)
    | intro _
    | split
    | dsimp only

theorem mod_function_mono (f : Nat) (g : FunctionData → FunctionData) :
    Keeps CounterLe (mod_function f g) := by
  unfold mod_function
  repeat' first
    | (with_reducible exact Keeps.keeps_getS CounterLe.counter_pre)
    | (with_reducible exact Keeps.keeps_pure CounterLe.counter_pre _)
    | (with_reducible exact Keeps.keeps_abort _)
    | ((with_reducible refine Keeps.keeps_modS ?_); intro _; first
        | exact Nat.le_refl _
        | exact Nat.le_succ _
        | exact Nat.le_of_eq (next_name_counter _).symm
        | exact Nat.le_of_eq (skip_until_name_counter _ _ _).symm
        | (split <;> exact Nat.le_refl _))
    | (with_reducible apply Keeps.keeps_bind CounterLe.counter_pre)
    | (with_reducible apply Keeps.keeps_ite)
    | intro _
    | split
    | dsimp only

theorem mod_class_mono (k : Nat) (g : ClassData → ClassData) :
    Keeps CounterLe (mod_class k g) := by
  unfold mod_class
  repeat' first
    | (with_reducible exact Keeps.keeps_getS CounterLe.counter_pre)
    | (with_reducible exact Keeps.keeps_pure CounterLe.counter_pre _)
    | (with_reducible exact Keeps.keeps_abort _)
    | ((with_reducible refine Keeps.keeps_modS ?_); intro _; first
        | exact Nat.le_refl _
        | exact Nat.le_succ _
        | exact Nat.le_of_eq (next_name_counter _).symm
        | exact Nat.le_of_eq (skip_until_name_counter _ _ _).symm
        | (split <;> exact Nat.le_refl _))
    | (with_reducible apply Keeps.keeps_bind CounterLe.counter_pre)
    | (with_reducible apply Keeps.keeps_ite)
    | intro _
    | split
    | dsimp only

theorem mod_members_mono (k : Nat) (g : ClassMembersContainer → ClassMembersContainer) :
    Keeps CounterLe (mod_members k g) := by
  unfold mod_members
  repeat' first
    | (with_reducible exact Keeps.keeps_getS CounterLe.counter_pre)
    | (with_reducible exact Keeps.keeps_pure CounterLe.counter_pre _)
    | (with_reducible exact Keeps.keeps_abort _)
    | ((with_reducible refine Keeps.keeps_modS ?_); intro _; first
        | exact Nat.le_refl _
        | exact Nat.le_succ _
        | exact Nat.le_of_eq (next_name_counter _).symm
        | exact Nat.le_of_eq (skip_until_name_counter _ _ _).symm
        | (split <;> exact Nat.le_refl _))
    | (with_reducible exact mod_class_mono _ _)
    | (with_reducible apply Keeps.keeps_bind CounterLe.counter_pre)
    | (with_reducible apply Keeps.keeps_ite)
    | intro _
    | split
    | dsimp only

theorem deref_mono (p : Option Nat) (what : String) :
    Keeps CounterLe (deref p what) := by
  unfold deref
  repeat' first
    | (with_reducible exact Keeps.keeps_getS CounterLe.counter_pre)
    | (with_reducible exact Keeps.keeps_pure CounterLe.counter_pre _)
    | (with_reducible exact Keeps.keeps_abort _)
    | ((with_reducible refine Keeps.keeps_modS ?_); intro _; first
        | exact Nat.le_refl _
        | exact Nat.le_succ _
        | exact Nat.le_of_eq (next_name_counter _).symm
        | exact Nat.le_of_eq (skip_until_name_counter _ _ _).symm
        | (split <;> exact Nat.le_refl _))
    | (with_reducible apply Keeps.keeps_bind CounterLe.counter_pre)
    | (with_reducible apply Keeps.keeps_ite)
    | intro _
    | split
    | dsimp only

theorem create_function_mono (root : Vertex) (type : func_type_t) :
    Keeps CounterLe (create_function root type) := by
  exact ⟨fun s a s' hm => by cases hm; exact Nat.le_refl _⟩

theorem new_class_mono :
    Keeps CounterLe (new_class) := by
  exact ⟨fun s a s' hm => by cases hm; exact Nat.le_refl _⟩

theorem new_function_mono :
    Keeps CounterLe (new_function) := by
  exact ⟨fun s a s' hm => by cases hm; exact Nat.le_refl _⟩

theorem add_instance_method_mono (k : Nat) (f : Nat) (a : AccessType) :
    Keeps CounterLe (add_instance_method k f a) := by
  unfold add_instance_method
  repeat' first
    | (with_reducible exact Keeps.keeps_getS CounterLe.counter_pre)
    | (with_reducible exact Keeps.keeps_pure CounterLe.counter_pre _)
    | (with_reducible exact Keeps.keeps_abort _)
    | ((with_reducible refine Keeps.keeps_modS ?_); intro _; first
        | exact Nat.le_refl _
        | exact Nat.le_succ _
        | exact Nat.le_of_eq (next_name_counter _).symm
        | exact Nat.le_of_eq (skip_until_name_counter _ _ _).symm
        | (split <;> exact Nat.le_refl _))
    | (with_reducible exact mod_function_mono _ _)
    | (with_reducible exact mod_class_mono _ _)
    | (with_reducible exact mod_members_mono _ _)
    | (with_reducible exact new_function_mono)
    | (with_reducible apply Keeps.keeps_bind CounterLe.counter_pre)
    | (with_reducible apply Keeps.keeps_ite)
    | intro _
    | split
    | dsimp only

theorem add_static_method_mono (k : Nat) (f : Nat) (a : AccessType) :
    Keeps CounterLe (add_static_method k f a) := by
  unfold add_static_method
  repeat' first
    | (with_reducible exact Keeps.keeps_getS CounterLe.counter_pre)
    | (with_reducible exact Keeps.keeps_pure CounterLe.counter_pre _)
    | (with_reducible exact Keeps.keeps_abort _)
    | ((with_reducible refine Keeps.keeps_modS ?_); intro _; first
        | exact Nat.le_refl _
        | exact Nat.le_succ _
        | exact Nat.le_of_eq (next_name_counter _).symm
        | exact Nat.le_of_eq (skip_until_name_counter _ _ _).symm
        | (split <;> exact Nat.le_refl _))
    | (with_reducible exact mod_function_mono _ _)
    | (with_reducible exact mod_members_mono _ _)
    | (with_reducible apply Keeps.keeps_bind CounterLe.counter_pre)
    | (with_reducible apply Keeps.keeps_ite)
    | intro _
    | split
    | dsimp only

theorem register_and_require_function_mono (f : Nat) (force_require : Bool) :
    Keeps CounterLe (register_and_require_function f force_require) := by
  unfold register_and_require_function
  repeat' first
    | (with_reducible exact Keeps.keeps_getS CounterLe.counter_pre)
    | (with_reducible exact Keeps.keeps_pure CounterLe.counter_pre _)
    | (with_reducible exact Keeps.keeps_abort _)
    | ((with_reducible refine Keeps.keeps_modS ?_); intro _; first
        | exact Nat.le_refl _
        | exact Nat.le_succ _
        | exact Nat.le_of_eq (next_name_counter _).symm
        | exact Nat.le_of_eq (skip_until_name_counter _ _ _).symm
        | (split <;> exact Nat.le_refl _))
    | (with_reducible apply Keeps.keeps_bind CounterLe.counter_pre)
    | (with_reducible apply Keeps.keeps_ite)
    | intro _
    | split
    | dsimp only

theorem save_extern_func_header_mono (name : String) (root : Vertex) :
    Keeps CounterLe (save_extern_func_header name root) := by
  unfold save_extern_func_header
  repeat' first
    | (with_reducible exact Keeps.keeps_getS CounterLe.counter_pre)
    | (with_reducible exact Keeps.keeps_pure CounterLe.counter_pre _)
    | (with_reducible exact Keeps.keeps_abort _)
    | ((with_reducible refine Keeps.keeps_modS ?_); intro _; first
        | exact Nat.le_refl _
        | exact Nat.le_succ _
        | exact Nat.le_of_eq (next_name_counter _).symm
        | exact Nat.le_of_eq (skip_until_name_counter _ _ _).symm
        | (split <;> exact Nat.le_refl _))
    | (with_reducible apply Keeps.keeps_bind CounterLe.counter_pre)
    | (with_reducible apply Keeps.keeps_ite)
    | intro _
    | split
    | dsimp only

theorem register_class_mono (k : Nat) :
    Keeps CounterLe (register_class k) := by
  unfold register_class
  repeat' first
    | (with_reducible exact Keeps.keeps_getS CounterLe.counter_pre)
    | (with_reducible exact Keeps.keeps_pure CounterLe.counter_pre _)
    | (with_reducible exact Keeps.keeps_abort _)
    | ((with_reducible refine Keeps.keeps_modS ?_); intro _; first
        | exact Nat.le_refl _
        | exact Nat.le_succ _
        | exact Nat.le_of_eq (next_name_counter _).symm
        | exact Nat.le_of_eq (skip_until_name_counter _ _ _).symm
        | (split <;> exact Nat.le_refl _))
    | (with_reducible apply Keeps.keeps_bind CounterLe.counter_pre)
    | (with_reducible apply Keeps.keeps_ite)
    | intro _
    | split
    | dsimp only

theorem push_function_mono (f : Nat) :
    Keeps CounterLe (push_function f) := by
  unfold push_function
  repeat' first
    | (with_reducible exact Keeps.keeps_getS CounterLe.counter_pre)
    | (with_reducible exact Keeps.keeps_pure CounterLe.counter_pre _)
    | (with_reducible exact Keeps.keeps_abort _)
    | ((with_reducible refine Keeps.keeps_modS ?_); intro _; first
        | exact Nat.le_refl _
        | exact Nat.le_succ _
        | exact Nat.le_of_eq (next_name_counter _).symm
        | exact Nat.le_of_eq (skip_until_name_counter _ _ _).symm
        | (split <;> exact Nat.le_refl _))
    | (with_reducible apply Keeps.keeps_bind CounterLe.counter_pre)
    | (with_reducible apply Keeps.keeps_ite)
    | intro _
    | split
    | dsimp only

theorem pop_function_mono :
    Keeps CounterLe (pop_function) := by
  unfold pop_function
  repeat' first
    | (with_reducible exact Keeps.keeps_getS CounterLe.counter_pre)
    | (with_reducible exact Keeps.keeps_pure CounterLe.counter_pre _)
    | (with_reducible exact Keeps.keeps_abort _)
    | ((with_reducible refine Keeps.keeps_modS ?_); intro _; first
        | exact Nat.le_refl _
        | exact Nat.le_succ _
        | exact Nat.le_of_eq (next_name_counter _).symm
        | exact Nat.le_of_eq (skip_until_name_counter _ _ _).symm
        | (split <;> exact Nat.le_refl _))
    | (with_reducible apply Keeps.keeps_bind CounterLe.counter_pre)
    | (with_reducible apply Keeps.keeps_ite)
    | intro _
    | split
    | dsimp only

theorem push_class_mono (k : Nat) :
    Keeps CounterLe (push_class k) := by
  unfold push_class
  repeat' first
    | (with_reducible exact Keeps.keeps_getS CounterLe.counter_pre)
    | (with_reducible exact Keeps.keeps_pure CounterLe.counter_pre _)
    | (with_reducible exact Keeps.keeps_abort _)
    | ((with_reducible refine Keeps.keeps_modS ?_); intro _; first
        | exact Nat.le_refl _
        | exact Nat.le_succ _
        | exact Nat.le_of_eq (next_name_counter _).symm
        | exact Nat.le_of_eq (skip_until_name_counter _ _ _).symm
        | (split <;> exact Nat.le_refl _))
    | (with_reducible apply Keeps.keeps_bind CounterLe.counter_pre)
    | (with_reducible apply Keeps.keeps_ite)
    | intro _
    | split
    | dsimp only

theorem pop_class_mono :
    Keeps CounterLe (pop_class) := by
  unfold pop_class
  repeat' first
    | (with_reducible exact Keeps.keeps_getS CounterLe.counter_pre)
    | (with_reducible exact Keeps.keeps_pure CounterLe.counter_pre _)
    | (with_reducible exact Keeps.keeps_abort _)
    | ((with_reducible refine Keeps.keeps_modS ?_); intro _; first
        | exact Nat.le_refl _
        | exact Nat.le_succ _
        | exact Nat.le_of_eq (next_name_counter _).symm
        | exact Nat.le_of_eq (skip_until_name_counter _ _ _).symm
        | (split <;> exact Nat.le_refl _))
    | (with_reducible apply Keeps.keeps_bind CounterLe.counter_pre)
    | (with_reducible apply Keeps.keeps_ite)
    | intro _
    | split
    | dsimp only

theorem get_var_name_mono :
    Keeps CounterLe (get_var_name) := by
  unfold get_var_name
  repeat' first
    | (with_reducible exact Keeps.keeps_getS CounterLe.counter_pre)
    | (with_reducible exact Keeps.keeps_pure CounterLe.counter_pre _)
    | (with_reducible exact Keeps.keeps_abort _)
    | ((with_reducible refine Keeps.keeps_modS ?_); intro _; first
        | exact Nat.le_refl _
        | exact Nat.le_succ _
        | exact Nat.le_of_eq (next_name_counter _).symm
        | exact Nat.le_of_eq (skip_until_name_counter _ _ _).symm
        | (split <;> exact Nat.le_refl _))
    | (with_reducible exact cur_tok_mono)
    | (with_reducible exact auto_location_mono)
    | (with_reducible exact next_cur_mono)
    | (with_reducible apply Keeps.keeps_bind CounterLe.counter_pre)
    | (with_reducible apply Keeps.keeps_ite)
    | intro _
    | split
    | dsimp only

theorem get_var_name_ref_mono :
    Keeps CounterLe (get_var_name_ref) := by
  unfold get_var_name_ref
  repeat' first
    | (with_reducible exact Keeps.keeps_getS CounterLe.counter_pre)
    | (with_reducible exact Keeps.keeps_pure CounterLe.counter_pre _)
    | (with_reducible exact Keeps.keeps_abort _)
    | ((with_reducible refine Keeps.keeps_modS ?_); intro _; first
        | exact Nat.le_refl _
        | exact Nat.le_succ _
        | exact Nat.le_of_eq (next_name_counter _).symm
        | exact Nat.le_of_eq (skip_until_name_counter _ _ _).symm
        | (split <;> exact Nat.le_refl _))
    | (with_reducible exact kphp_error_mono _ _)
    | (with_reducible exact cur_type_mono)
    | (with_reducible exact next_cur_mono)
    | (with_reducible exact get_var_name_mono)
    | (with_reducible apply Keeps.keeps_bind CounterLe.counter_pre)
    | (with_reducible apply Keeps.keeps_ite)
    | intro _
    | split
    | dsimp only

theorem open_parent_mono :
    Keeps CounterLe (open_parent) := by
  unfold open_parent
  repeat' first
    | (with_reducible exact Keeps.keeps_getS CounterLe.counter_pre)
    | (with_reducible exact Keeps.keeps_pure CounterLe.counter_pre _)
    | (with_reducible exact Keeps.keeps_abort _)
    | ((with_reducible refine Keeps.keeps_modS ?_); intro _; first
        | exact Nat.le_refl _
        | exact Nat.le_succ _
        | exact Nat.le_of_eq (next_name_counter _).symm
        | exact Nat.le_of_eq (skip_until_name_counter _ _ _).symm
        | (split <;> exact Nat.le_refl _))
    | (with_reducible exact cur_type_mono)
    | (with_reducible exact next_cur_mono)
    | (with_reducible apply Keeps.keeps_bind CounterLe.counter_pre)
    | (with_reducible apply Keeps.keeps_ite)
    | intro _
    | split
    | dsimp only

theorem skip_phpdoc_loop_mono (k : Nat) : Keeps CounterLe (skip_phpdoc_loop k) := by
  induction k with
  | zero => exact Keeps.keeps_abort _
  | succ k ih =>
    unfold skip_phpdoc_loop
    repeat' first
      | (with_reducible exact Keeps.keeps_pure CounterLe.counter_pre _)
      | (with_reducible exact cur_type_mono)
      | (with_reducible exact next_cur_mono)
      | (with_reducible exact ih)
      | (with_reducible apply Keeps.keeps_bind CounterLe.counter_pre)
      | (with_reducible apply Keeps.keeps_ite)
      | intro _
      | dsimp only

theorem skip_phpdoc_tokens_mono : Keeps CounterLe skip_phpdoc_tokens :=
  ⟨fun s a s' h => (skip_phpdoc_loop_mono _).run s a s' h⟩

theorem close_parent_mono (is_opened : Bool) :
    Keeps CounterLe (close_parent is_opened) := by
  unfold close_parent
  repeat' first
    | (with_reducible exact Keeps.keeps_getS CounterLe.counter_pre)
    | (with_reducible exact Keeps.keeps_pure CounterLe.counter_pre _)
    | (with_reducible exact Keeps.keeps_abort _)
    | ((with_reducible refine Keeps.keeps_modS ?_); intro _; first
        | exact Nat.le_refl _
        | exact Nat.le_succ _
        | exact Nat.le_of_eq (next_name_counter _).symm
        | exact Nat.le_of_eq (skip_until_name_counter _ _ _).symm
        | (split <;> exact Nat.le_refl _))
    | (with_reducible exact expect_mono _ _)
    | (with_reducible apply Keeps.keeps_bind CounterLe.counter_pre)
    | (with_reducible apply Keeps.keeps_ite)
    | intro _
    | split
    | dsimp only

theorem call_get_func_mono {c : Caps} (h : CapsMono c) (f : GetFunc) :
    Keeps CounterLe (call_get_func c f) := by
  cases f
  · exact h.get_expression
  · exact h.get_type_rule_
  · exact h.get_func_param
  · exact h.get_func_param_from_callback
  · exact get_var_name_ref_mono
  · exact get_var_name_mono

theorem gen_list_loop_mono {c : Caps} (h : CapsMono c) (EmptyOp : Operation) (f : GetFunc) (delim : TokenType) (prev_delim : Bool) (res : List Vertex) :
    Keeps CounterLe (gen_list_loop c EmptyOp f delim prev_delim res) := by
  unfold gen_list_loop
  repeat' first
    | (with_reducible exact Keeps.keeps_getS CounterLe.counter_pre)
    | (with_reducible exact Keeps.keeps_pure CounterLe.counter_pre _)
    | (with_reducible exact Keeps.keeps_abort _)
    | ((with_reducible refine Keeps.keeps_modS ?_); intro _; first
        | exact Nat.le_refl _
        | exact Nat.le_succ _
        | exact Nat.le_of_eq (next_name_counter _).symm
        | exact Nat.le_of_eq (skip_until_name_counter _ _ _).symm
        | (split <;> exact Nat.le_refl _))
    | (with_reducible exact h.gen_list_loop _ _ _ _ _)
    | (with_reducible exact kphp_error_mono _ _)
    | (with_reducible exact cur_type_mono)
    | (with_reducible exact next_cur_mono)
    | (with_reducible exact call_get_func_mono h _)
    | (with_reducible apply Keeps.keeps_bind CounterLe.counter_pre)
    | (with_reducible apply Keeps.keeps_ite)
    | intro _
    | split
    | dsimp only

theorem gen_list_mono {c : Caps} (h : CapsMono c) (EmptyOp : Operation) (res : List Vertex) (f : GetFunc) (delim : TokenType) :
    Keeps CounterLe (gen_list c EmptyOp res f delim) := by
  unfold gen_list
  repeat' first
    | (with_reducible exact Keeps.keeps_getS CounterLe.counter_pre)
    | (with_reducible exact Keeps.keeps_pure CounterLe.counter_pre _)
    | (with_reducible exact Keeps.keeps_abort _)
    | ((with_reducible refine Keeps.keeps_modS ?_); intro _; first
        | exact Nat.le_refl _
        | exact Nat.le_succ _
        | exact Nat.le_of_eq (next_name_counter _).symm
        | exact Nat.le_of_eq (skip_until_name_counter _ _ _).symm
        | (split <;> exact Nat.le_refl _))
    | (with_reducible exact h.gen_list_loop _ _ _ _ _)
    | (with_reducible apply Keeps.keeps_bind CounterLe.counter_pre)
    | (with_reducible apply Keeps.keeps_ite)
    | intro _
    | split
    | dsimp only

theorem get_conv_mono {c : Caps} (h : CapsMono c) (Op : Operation) :
    Keeps CounterLe (get_conv c Op) := by
  unfold get_conv
  repeat' first
    | (with_reducible exact Keeps.keeps_getS CounterLe.counter_pre)
    | (with_reducible exact Keeps.keeps_pure CounterLe.counter_pre _)
    | (with_reducible exact Keeps.keeps_abort _)
    | ((with_reducible refine Keeps.keeps_modS ?_); intro _; first
        | exact Nat.le_refl _
        | exact Nat.le_succ _
        | exact Nat.le_of_eq (next_name_counter _).symm
        | exact Nat.le_of_eq (skip_until_name_counter _ _ _).symm
        | (split <;> exact Nat.le_refl _))
    | (with_reducible exact h.get_expression)
    | (with_reducible exact kphp_error_mono _ _)
    | (with_reducible exact auto_location_mono)
    | (with_reducible exact next_cur_mono)
    | (with_reducible apply Keeps.keeps_bind CounterLe.counter_pre)
    | (with_reducible apply Keeps.keeps_ite)
    | intro _
    | split
    | dsimp only

theorem get_varg_call_mono {c : Caps} (h : CapsMono c) (Op : Operation) :
    Keeps CounterLe (get_varg_call c Op) := by
  unfold get_varg_call
  repeat' first
    | (with_reducible exact Keeps.keeps_getS CounterLe.counter_pre)
    | (with_reducible exact Keeps.keeps_pure CounterLe.counter_pre _)
    | (with_reducible exact Keeps.keeps_abort _)
    | ((with_reducible refine Keeps.keeps_modS ?_); intro _; first
        | exact Nat.le_refl _
        | exact Nat.le_succ _
        | exact Nat.le_of_eq (next_name_counter _).symm
        | exact Nat.le_of_eq (skip_until_name_counter _ _ _).symm
        | (split <;> exact Nat.le_refl _))
    | (with_reducible exact kphp_error_mono _ _)
    | (with_reducible exact auto_location_mono)
    | (with_reducible exact next_cur_mono)
    | (with_reducible exact expect_mono _ _)
    | (with_reducible exact gen_list_mono h _ _ _ _)
    | (with_reducible apply Keeps.keeps_bind CounterLe.counter_pre)
    | (with_reducible apply Keeps.keeps_ite)
    | intro _
    | split
    | dsimp only

theorem get_require_mono {c : Caps} (h : CapsMono c) :
    Keeps CounterLe (get_require c) := by
  unfold get_require
  repeat' first
    | (with_reducible exact Keeps.keeps_getS CounterLe.counter_pre)
    | (with_reducible exact Keeps.keeps_pure CounterLe.counter_pre _)
    | (with_reducible exact Keeps.keeps_abort _)
    | ((with_reducible refine Keeps.keeps_modS ?_); intro _; first
        | exact Nat.le_refl _
        | exact Nat.le_succ _
        | exact Nat.le_of_eq (next_name_counter _).symm
        | exact Nat.le_of_eq (skip_until_name_counter _ _ _).symm
        | (split <;> exact Nat.le_refl _))
    | (with_reducible exact h.get_expression)
    | (with_reducible exact auto_location_mono)
    | (with_reducible exact next_cur_mono)
    | (with_reducible exact open_parent_mono)
    | (with_reducible exact close_parent_mono _)
    | (with_reducible apply Keeps.keeps_bind CounterLe.counter_pre)
    | (with_reducible apply Keeps.keeps_ite)
    | intro _
    | split
    | dsimp only

theorem get_require_once_mono {c : Caps} (h : CapsMono c) :
    Keeps CounterLe (get_require_once c) := by
  unfold get_require_once
  repeat' first
    | (with_reducible exact Keeps.keeps_getS CounterLe.counter_pre)
    | (with_reducible exact Keeps.keeps_pure CounterLe.counter_pre _)
    | (with_reducible exact Keeps.keeps_abort _)
    | ((with_reducible refine Keeps.keeps_modS ?_); intro _; first
        | exact Nat.le_refl _
        | exact Nat.le_succ _
        | exact Nat.le_of_eq (next_name_counter _).symm
        | exact Nat.le_of_eq (skip_until_name_counter _ _ _).symm
        | (split <;> exact Nat.le_refl _))
    | (with_reducible exact kphp_error_mono _ _)
    | (with_reducible exact auto_location_mono)
    | (with_reducible exact next_cur_mono)
    | (with_reducible exact open_parent_mono)
    | (with_reducible exact close_parent_mono _)
    | (with_reducible exact gen_list_mono h _ _ _ _)
    | (with_reducible apply Keeps.keeps_bind CounterLe.counter_pre)
    | (with_reducible apply Keeps.keeps_ite)
    | intro _
    | split
    | dsimp only

theorem get_func_call_mono {c : Caps} (h : CapsMono c) (Op : Operation) (EmptyOp : Operation) :
    Keeps CounterLe (get_func_call c Op EmptyOp) := by
  unfold get_func_call
  repeat' first
    | (with_reducible exact Keeps.keeps_getS CounterLe.counter_pre)
    | (with_reducible exact Keeps.keeps_pure CounterLe.counter_pre _)
    | (with_reducible exact Keeps.keeps_abort _)
    | ((with_reducible refine Keeps.keeps_modS ?_); intro _; first
        | exact Nat.le_refl _
        | exact Nat.le_succ _
        | exact Nat.le_of_eq (next_name_counter _).symm
        | exact Nat.le_of_eq (skip_until_name_counter _ _ _).symm
        | (split <;> exact Nat.le_refl _))
    | (with_reducible exact kphp_error_mono _ _)
    | (with_reducible exact cur_tok_mono)
    | (with_reducible exact auto_location_mono)
    | (with_reducible exact next_cur_mono)
    | (with_reducible exact expect_mono _ _)
    | (with_reducible exact skip_phpdoc_tokens_mono)
    | (with_reducible exact gen_list_mono h _ _ _ _)
    | (with_reducible apply Keeps.keeps_bind CounterLe.counter_pre)
    | (with_reducible apply Keeps.keeps_ite)
    | intro _
    | split
    | dsimp only

theorem get_short_array_mono {c : Caps} (h : CapsMono c) :
    Keeps CounterLe (get_short_array c) := by
  unfold get_short_array
  repeat' first
    | (with_reducible exact Keeps.keeps_getS CounterLe.counter_pre)
    | (with_reducible exact Keeps.keeps_pure CounterLe.counter_pre _)
    | (with_reducible exact Keeps.keeps_abort _)
    | ((with_reducible refine Keeps.keeps_modS ?_); intro _; first
        | exact Nat.le_refl _
        | exact Nat.le_succ _
        | exact Nat.le_of_eq (next_name_counter _).symm
        | exact Nat.le_of_eq (skip_until_name_counter _ _ _).symm
        | (split <;> exact Nat.le_refl _))
    | (with_reducible exact kphp_error_mono _ _)
    | (with_reducible exact auto_location_mono)
    | (with_reducible exact next_cur_mono)
    | (with_reducible exact expect_mono _ _)
    | (with_reducible exact gen_list_mono h _ _ _ _)
    | (with_reducible apply Keeps.keeps_bind CounterLe.counter_pre)
    | (with_reducible apply Keeps.keeps_ite)
    | intro _
    | split
    | dsimp only

theorem get_string_mono :
    Keeps CounterLe (get_string) := by
  unfold get_string
  repeat' first
    | (with_reducible exact Keeps.keeps_getS CounterLe.counter_pre)
    | (with_reducible exact Keeps.keeps_pure CounterLe.counter_pre _)
    | (with_reducible exact Keeps.keeps_abort _)
    | ((with_reducible refine Keeps.keeps_modS ?_); intro _; first
        | exact Nat.le_refl _
        | exact Nat.le_succ _
        | exact Nat.le_of_eq (next_name_counter _).symm
        | exact Nat.le_of_eq (skip_until_name_counter _ _ _).symm
        | (split <;> exact Nat.le_refl _))
    | (with_reducible exact cur_tok_mono)
    | (with_reducible exact auto_location_mono)
    | (with_reducible exact next_cur_mono)
    | (with_reducible apply Keeps.keeps_bind CounterLe.counter_pre)
    | (with_reducible apply Keeps.keeps_ite)
    | intro _
    | split
    | dsimp only

theorem get_string_build_loop_mono {c : Caps} (h : CapsMono c) (after_simple_expression : Bool) (v_next : List Vertex) :
    Keeps CounterLe (get_string_build_loop c after_simple_expression v_next) := by
  unfold get_string_build_loop
  repeat' first
    | (with_reducible exact Keeps.keeps_getS CounterLe.counter_pre)
    | (with_reducible exact Keeps.keeps_pure CounterLe.counter_pre _)
    | (with_reducible exact Keeps.keeps_abort _)
    | ((with_reducible refine Keeps.keeps_modS ?_); intro _; first
        | exact Nat.le_refl _
        | exact Nat.le_succ _
        | exact Nat.le_of_eq (next_name_counter _).symm
        | exact Nat.le_of_eq (skip_until_name_counter _ _ _).symm
        | (split <;> exact Nat.le_refl _))
    | (with_reducible exact h.get_string_build_loop _ _)
    | (with_reducible exact h.get_expression)
    | (with_reducible exact kphp_error_mono _ _)
    | (with_reducible exact kphp_warning_mono _)
    | (with_reducible exact cur_type_mono)
    | (with_reducible exact at_end_mono)
    | (with_reducible exact next_cur_mono)
    | (with_reducible exact expect_mono _ _)
    | (with_reducible exact get_string_mono)
    | (with_reducible apply Keeps.keeps_bind CounterLe.counter_pre)
    | (with_reducible apply Keeps.keeps_ite)
    | intro _
    | split
    | dsimp only

theorem get_string_build_mono {c : Caps} (h : CapsMono c) :
    Keeps CounterLe (get_string_build c) := by
  unfold get_string_build
  repeat' first
    | (with_reducible exact Keeps.keeps_getS CounterLe.counter_pre)
    | (with_reducible exact Keeps.keeps_pure CounterLe.counter_pre _)
    | (with_reducible exact Keeps.keeps_abort _)
    | ((with_reducible refine Keeps.keeps_modS ?_); intro _; first
        | exact Nat.le_refl _
        | exact Nat.le_succ _
        | exact Nat.le_of_eq (next_name_counter _).symm
        | exact Nat.le_of_eq (skip_until_name_counter _ _ _).symm
        | (split <;> exact Nat.le_refl _))
    | (with_reducible exact h.get_string_build_loop _ _)
    | (with_reducible exact auto_location_mono)
    | (with_reducible exact next_cur_mono)
    | (with_reducible exact expect_mono _ _)
    | (with_reducible apply Keeps.keeps_bind CounterLe.counter_pre)
    | (with_reducible apply Keeps.keeps_ite)
    | intro _
    | split
    | dsimp only

theorem get_exit_mono {c : Caps} (h : CapsMono c) :
    Keeps CounterLe (get_exit c) := by
  unfold get_exit
  repeat' first
    | (with_reducible exact Keeps.keeps_getS CounterLe.counter_pre)
    | (with_reducible exact Keeps.keeps_pure CounterLe.counter_pre _)
    | (with_reducible exact Keeps.keeps_abort _)
    | ((with_reducible refine Keeps.keeps_modS ?_); intro _; first
        | exact Nat.le_refl _
        | exact Nat.le_succ _
        | exact Nat.le_of_eq (next_name_counter _).symm
        | exact Nat.le_of_eq (skip_until_name_counter _ _ _).symm
        | (split <;> exact Nat.le_refl _))
    | (with_reducible exact h.get_expression)
    | (with_reducible exact auto_location_mono)
    | (with_reducible exact next_cur_mono)
    | (with_reducible exact open_parent_mono)
    | (with_reducible exact close_parent_mono _)
    | (with_reducible apply Keeps.keeps_bind CounterLe.counter_pre)
    | (with_reducible apply Keeps.keeps_ite)
    | intro _
    | split
    | dsimp only

theorem get_postfix_expression_mono {c : Caps} (h : CapsMono c) (res : Option Vertex) :
    Keeps CounterLe (get_postfix_expression c res) := by
  unfold get_postfix_expression
  repeat' first
    | (with_reducible exact Keeps.keeps_getS CounterLe.counter_pre)
    | (with_reducible exact Keeps.keeps_pure CounterLe.counter_pre _)
    | (with_reducible exact Keeps.keeps_abort _)
    | ((with_reducible refine Keeps.keeps_modS ?_); intro _; first
        | exact Nat.le_refl _
        | exact Nat.le_succ _
        | exact Nat.le_of_eq (next_name_counter _).symm
        | exact Nat.le_of_eq (skip_until_name_counter _ _ _).symm
        | (split <;> exact Nat.le_refl _))
    | (with_reducible exact h.get_postfix_expression _)
    | (with_reducible exact h.get_expr_top)
    | (with_reducible exact h.get_expression)
    | (with_reducible exact kphp_error_mono _ _)
    | (with_reducible exact cur_type_mono)
    | (with_reducible exact at_end_mono)
    | (with_reducible exact auto_location_mono)
    | (with_reducible exact next_cur_mono)
    | (with_reducible exact expect_mono _ _)
    | (with_reducible exact skip_phpdoc_tokens_mono)
    | (with_reducible exact gen_list_mono h _ _ _ _)
    | (with_reducible apply Keeps.keeps_bind CounterLe.counter_pre)
    | (with_reducible apply Keeps.keeps_ite)
    | intro _
    | split
    | dsimp only

theorem min_max_call_mono (call : Option Vertex) :
    Keeps CounterLe (min_max_call call) := by
  unfold min_max_call
  repeat' first
    | (with_reducible exact Keeps.keeps_getS CounterLe.counter_pre)
    | (with_reducible exact Keeps.keeps_pure CounterLe.counter_pre _)
    | (with_reducible exact Keeps.keeps_abort _)
    | ((with_reducible refine Keeps.keeps_modS ?_); intro _; first
        | exact Nat.le_refl _
        | exact Nat.le_succ _
        | exact Nat.le_of_eq (next_name_counter _).symm
        | exact Nat.le_of_eq (skip_until_name_counter _ _ _).symm
        | (split <;> exact Nat.le_refl _))
    | (with_reducible apply Keeps.keeps_bind CounterLe.counter_pre)
    | (with_reducible apply Keeps.keeps_ite)
    | intro _
    | split
    | dsimp only

theorem get_expr_top_mono {c : Caps} (h : CapsMono c) :
    Keeps CounterLe (get_expr_top c) := by
  unfold get_expr_top
  repeat' first
    | (with_reducible exact Keeps.keeps_getS CounterLe.counter_pre)
    | (with_reducible exact Keeps.keeps_pure CounterLe.counter_pre _)
    | (with_reducible exact Keeps.keeps_abort _)
    | ((with_reducible refine Keeps.keeps_modS ?_); intro _; first
        | exact Nat.le_refl _
        | exact Nat.le_succ _
        | exact Nat.le_of_eq (next_name_counter _).symm
        | exact Nat.le_of_eq (skip_until_name_counter _ _ _).symm
        | (split <;> exact Nat.le_refl _))
    | (with_reducible exact h.get_postfix_expression _)
    | (with_reducible exact h.get_expression)
    | (with_reducible exact h.get_anonymous_function)
    | (with_reducible exact kphp_error_mono _ _)
    | (with_reducible exact cur_type_mono)
    | (with_reducible exact next_cur_mono)
    | (with_reducible exact expect_mono _ _)
    | (with_reducible exact get_var_name_mono)
    | (with_reducible exact get_conv_mono h _)
    | (with_reducible exact get_require_mono h)
    | (with_reducible exact get_require_once_mono h)
    | (with_reducible exact get_func_call_mono h _ _)
    | (with_reducible exact get_short_array_mono h)
    | (with_reducible exact get_string_mono)
    | (with_reducible exact get_string_build_mono h)
    | (with_reducible exact get_exit_mono h)
    | (with_reducible exact min_max_call_mono _)
    | (with_reducible apply Keeps.keeps_bind CounterLe.counter_pre)
    | (with_reducible apply Keeps.keeps_ite)
    | intro _
    | split
    | dsimp only

theorem create_ternary_op_vertex_mono (e : Env) (left : Vertex) (right : Option Vertex) (third : Vertex) :
    Keeps CounterLe (create_ternary_op_vertex e left right third) := by
  unfold create_ternary_op_vertex
  repeat' first
    | (with_reducible exact Keeps.keeps_getS CounterLe.counter_pre)
    | (with_reducible exact Keeps.keeps_pure CounterLe.counter_pre _)
    | (with_reducible exact Keeps.keeps_abort _)
    | ((with_reducible refine Keeps.keeps_modS ?_); intro _; first
        | exact Nat.le_refl _
        | exact Nat.le_succ _
        | exact Nat.le_of_eq (next_name_counter _).symm
        | exact Nat.le_of_eq (skip_until_name_counter _ _ _).symm
        | (split <;> exact Nat.le_refl _))
    | (with_reducible apply Keeps.keeps_bind CounterLe.counter_pre)
    | (with_reducible apply Keeps.keeps_ite)
    | intro _
    | split
    | dsimp only

theorem get_unary_op_mono {c : Caps} (h : CapsMono c) (op_priority_cur : Nat) (unary_op_tp : Operation) (till_ternary : Bool) :
    Keeps CounterLe (get_unary_op c op_priority_cur unary_op_tp till_ternary) := by
  unfold get_unary_op
  repeat' first
    | (with_reducible exact Keeps.keeps_getS CounterLe.counter_pre)
    | (with_reducible exact Keeps.keeps_pure CounterLe.counter_pre _)
    | (with_reducible exact Keeps.keeps_abort _)
    | ((with_reducible refine Keeps.keeps_modS ?_); intro _; first
        | exact Nat.le_refl _
        | exact Nat.le_succ _
        | exact Nat.le_of_eq (next_name_counter _).symm
        | exact Nat.le_of_eq (skip_until_name_counter _ _ _).symm
        | (split <;> exact Nat.le_refl _))
    | (with_reducible exact h.get_binary_op _ _)
    | (with_reducible exact auto_location_mono)
    | (with_reducible exact next_cur_mono)
    | (with_reducible apply Keeps.keeps_bind CounterLe.counter_pre)
    | (with_reducible apply Keeps.keeps_ite)
    | intro _
    | split
    | dsimp only

theorem get_expression_impl_mono {c : Caps} (h : CapsMono c) (e : Env) (till_ternary : Bool) :
    Keeps CounterLe (get_expression_impl e c till_ternary) := by
  unfold get_expression_impl
  repeat' first
    | (with_reducible exact Keeps.keeps_getS CounterLe.counter_pre)
    | (with_reducible exact Keeps.keeps_pure CounterLe.counter_pre _)
    | (with_reducible exact Keeps.keeps_abort _)
    | ((with_reducible refine Keeps.keeps_modS ?_); intro _; first
        | exact Nat.le_refl _
        | exact Nat.le_succ _
        | exact Nat.le_of_eq (next_name_counter _).symm
        | exact Nat.le_of_eq (skip_until_name_counter _ _ _).symm
        | (split <;> exact Nat.le_refl _))
    | (with_reducible exact h.get_binary_op _ _)
    | (with_reducible apply Keeps.keeps_bind CounterLe.counter_pre)
    | (with_reducible apply Keeps.keeps_ite)
    | intro _
    | split
    | dsimp only

theorem conv_right_mono (tp : PrimitiveType) (right : Option Vertex) :
    Keeps CounterLe (conv_right tp right) := by
  unfold conv_right
  repeat' first
    | (with_reducible exact Keeps.keeps_getS CounterLe.counter_pre)
    | (with_reducible exact Keeps.keeps_pure CounterLe.counter_pre _)
    | (with_reducible exact Keeps.keeps_abort _)
    | ((with_reducible refine Keeps.keeps_modS ?_); intro _; first
        | exact Nat.le_refl _
        | exact Nat.le_succ _
        | exact Nat.le_of_eq (next_name_counter _).symm
        | exact Nat.le_of_eq (skip_until_name_counter _ _ _).symm
        | (split <;> exact Nat.le_refl _))
    | (with_reducible apply Keeps.keeps_bind CounterLe.counter_pre)
    | (with_reducible apply Keeps.keeps_ite)
    | intro _
    | split
    | dsimp only

theorem coerce_operands_mono (binary_op_tp : Operation) (left : Vertex) (right : Option Vertex) :
    Keeps CounterLe (coerce_operands binary_op_tp left right) := by
  unfold coerce_operands
  repeat' first
    | (with_reducible exact Keeps.keeps_getS CounterLe.counter_pre)
    | (with_reducible exact Keeps.keeps_pure CounterLe.counter_pre _)
    | (with_reducible exact Keeps.keeps_abort _)
    | ((with_reducible refine Keeps.keeps_modS ?_); intro _; first
        | exact Nat.le_refl _
        | exact Nat.le_succ _
        | exact Nat.le_of_eq (next_name_counter _).symm
        | exact Nat.le_of_eq (skip_until_name_counter _ _ _).symm
        | (split <;> exact Nat.le_refl _))
    | (with_reducible exact conv_right_mono _ _)
    | (with_reducible apply Keeps.keeps_bind CounterLe.counter_pre)
    | (with_reducible apply Keeps.keeps_ite)
    | intro _
    | split
    | dsimp only

theorem get_binary_op_loop_mono {c : Caps} (h : CapsMono c) (e : Env) (op_priority_cur : Nat) (till_ternary : Bool) (left : Vertex) :
    Keeps CounterLe (get_binary_op_loop e c op_priority_cur till_ternary left) := by
  unfold get_binary_op_loop
  repeat' first
    | (with_reducible exact Keeps.keeps_getS CounterLe.counter_pre)
    | (with_reducible exact Keeps.keeps_pure CounterLe.counter_pre _)
    | (with_reducible exact Keeps.keeps_abort _)
    | ((with_reducible refine Keeps.keeps_modS ?_); intro _; first
        | exact Nat.le_refl _
        | exact Nat.le_succ _
        | exact Nat.le_of_eq (next_name_counter _).symm
        | exact Nat.le_of_eq (skip_until_name_counter _ _ _).symm
        | (split <;> exact Nat.le_refl _))
    | (with_reducible exact h.get_binary_op _ _)
    | (with_reducible exact h.get_binary_op_loop _ _ _)
    | (with_reducible exact h.get_expression)
    | (with_reducible exact kphp_error_mono _ _)
    | (with_reducible exact cur_type_mono)
    | (with_reducible exact at_end_mono)
    | (with_reducible exact auto_location_mono)
    | (with_reducible exact next_cur_mono)
    | (with_reducible exact expect_mono _ _)
    | (with_reducible exact create_ternary_op_vertex_mono _ _ _ _)
    | (with_reducible exact get_expression_impl_mono h _ _)
    | (with_reducible exact coerce_operands_mono _ _ _)
    | (with_reducible apply Keeps.keeps_bind CounterLe.counter_pre)
    | (with_reducible apply Keeps.keeps_ite)
    | intro _
    | split
    | dsimp only

theorem get_binary_op_mono {c : Caps} (h : CapsMono c) (e : Env) (op_priority_cur : Nat) (till_ternary : Bool) :
    Keeps CounterLe (get_binary_op e c op_priority_cur till_ternary) := by
  unfold get_binary_op
  repeat' first
    | (with_reducible exact Keeps.keeps_getS CounterLe.counter_pre)
    | (with_reducible exact Keeps.keeps_pure CounterLe.counter_pre _)
    | (with_reducible exact Keeps.keeps_abort _)
    | ((with_reducible refine Keeps.keeps_modS ?_); intro _; first
        | exact Nat.le_refl _
        | exact Nat.le_succ _
        | exact Nat.le_of_eq (next_name_counter _).symm
        | exact Nat.le_of_eq (skip_until_name_counter _ _ _).symm
        | (split <;> exact Nat.le_refl _))
    | (with_reducible exact h.get_expr_top)
    | (with_reducible exact h.get_binary_op _ _)
    | (with_reducible exact h.get_binary_op_loop _ _ _)
    | (with_reducible exact cur_type_mono)
    | (with_reducible exact at_end_mono)
    | (with_reducible exact get_unary_op_mono h _ _ _)
    | (with_reducible apply Keeps.keeps_bind CounterLe.counter_pre)
    | (with_reducible apply Keeps.keeps_ite)
    | intro _
    | split
    | dsimp only

theorem get_expression_mono {c : Caps} (h : CapsMono c) (e : Env) :
    Keeps CounterLe (get_expression e c) := by
  unfold get_expression
  repeat' first
    | (with_reducible exact Keeps.keeps_getS CounterLe.counter_pre)
    | (with_reducible exact Keeps.keeps_pure CounterLe.counter_pre _)
    | (with_reducible exact Keeps.keeps_abort _)
    | ((with_reducible refine Keeps.keeps_modS ?_); intro _; first
        | exact Nat.le_refl _
        | exact Nat.le_succ _
        | exact Nat.le_of_eq (next_name_counter _).symm
        | exact Nat.le_of_eq (skip_until_name_counter _ _ _).symm
        | (split <;> exact Nat.le_refl _))
    | (with_reducible exact skip_phpdoc_tokens_mono)
    | (with_reducible exact get_expression_impl_mono h _ _)
    | (with_reducible apply Keeps.keeps_bind CounterLe.counter_pre)
    | (with_reducible apply Keeps.keeps_ite)
    | intro _
    | split
    | dsimp only

theorem get_def_value_mono {c : Caps} (h : CapsMono c) :
    Keeps CounterLe (get_def_value c) := by
  unfold get_def_value
  repeat' first
    | (with_reducible exact Keeps.keeps_getS CounterLe.counter_pre)
    | (with_reducible exact Keeps.keeps_pure CounterLe.counter_pre _)
    | (with_reducible exact Keeps.keeps_abort _)
    | ((with_reducible refine Keeps.keeps_modS ?_); intro _; first
        | exact Nat.le_refl _
        | exact Nat.le_succ _
        | exact Nat.le_of_eq (next_name_counter _).symm
        | exact Nat.le_of_eq (skip_until_name_counter _ _ _).symm
        | (split <;> exact Nat.le_refl _))
    | (with_reducible exact h.get_expression)
    | (with_reducible exact kphp_error_mono _ _)
    | (with_reducible exact cur_type_mono)
    | (with_reducible exact next_cur_mono)
    | (with_reducible apply Keeps.keeps_bind CounterLe.counter_pre)
    | (with_reducible apply Keeps.keeps_ite)
    | intro _
    | split
    | dsimp only

theorem get_ptype_mono (e : Env) :
    Keeps CounterLe (get_ptype e) := by
  unfold get_ptype
  repeat' first
    | (with_reducible exact Keeps.keeps_getS CounterLe.counter_pre)
    | (with_reducible exact Keeps.keeps_pure CounterLe.counter_pre _)
    | (with_reducible exact Keeps.keeps_abort _)
    | ((with_reducible refine Keeps.keeps_modS ?_); intro _; first
        | exact Nat.le_refl _
        | exact Nat.le_succ _
        | exact Nat.le_of_eq (next_name_counter _).symm
        | exact Nat.le_of_eq (skip_until_name_counter _ _ _).symm
        | (split <;> exact Nat.le_refl _))
    | (with_reducible exact cur_tok_mono)
    | (with_reducible exact next_cur_mono)
    | (with_reducible apply Keeps.keeps_bind CounterLe.counter_pre)
    | (with_reducible apply Keeps.keeps_ite)
    | intro _
    | split
    | dsimp only

theorem get_func_param_type_help_mono (e : Env) :
    Keeps CounterLe (get_func_param_type_help e) := by
  unfold get_func_param_type_help
  repeat' first
    | (with_reducible exact Keeps.keeps_getS CounterLe.counter_pre)
    | (with_reducible exact Keeps.keeps_pure CounterLe.counter_pre _)
    | (with_reducible exact Keeps.keeps_abort _)
    | ((with_reducible refine Keeps.keeps_modS ?_); intro _; first
        | exact Nat.le_refl _
        | exact Nat.le_succ _
        | exact Nat.le_of_eq (next_name_counter _).symm
        | exact Nat.le_of_eq (skip_until_name_counter _ _ _).symm
        | (split <;> exact Nat.le_refl _))
    | (with_reducible exact kphp_assert_mono _ _)
    | (with_reducible exact kphp_error_mono _ _)
    | (with_reducible exact cur_type_mono)
    | (with_reducible exact next_cur_mono)
    | (with_reducible exact get_ptype_mono _)
    | (with_reducible apply Keeps.keeps_bind CounterLe.counter_pre)
    | (with_reducible apply Keeps.keeps_ite)
    | intro _
    | split
    | dsimp only

theorem get_type_rule_func_mono {c : Caps} (h : CapsMono c) :
    Keeps CounterLe (get_type_rule_func c) := by
  unfold get_type_rule_func
  repeat' first
    | (with_reducible exact Keeps.keeps_getS CounterLe.counter_pre)
    | (with_reducible exact Keeps.keeps_pure CounterLe.counter_pre _)
    | (with_reducible exact Keeps.keeps_abort _)
    | ((with_reducible refine Keeps.keeps_modS ?_); intro _; first
        | exact Nat.le_refl _
        | exact Nat.le_succ _
        | exact Nat.le_of_eq (next_name_counter _).symm
        | exact Nat.le_of_eq (skip_until_name_counter _ _ _).symm
        | (split <;> exact Nat.le_refl _))
    | (with_reducible exact kphp_error_mono _ _)
    | (with_reducible exact cur_tok_mono)
    | (with_reducible exact auto_location_mono)
    | (with_reducible exact next_cur_mono)
    | (with_reducible exact expect_mono _ _)
    | (with_reducible exact gen_list_mono h _ _ _ _)
    | (with_reducible apply Keeps.keeps_bind CounterLe.counter_pre)
    | (with_reducible apply Keeps.keeps_ite)
    | intro _
    | split
    | dsimp only

theorem get_type_rule_lt_loop_mono {c : Caps} (h : CapsMono c) (allow_comma_sep : Bool) (next : List Vertex) :
    Keeps CounterLe (get_type_rule_lt_loop c allow_comma_sep next) := by
  unfold get_type_rule_lt_loop
  repeat' first
    | (with_reducible exact Keeps.keeps_getS CounterLe.counter_pre)
    | (with_reducible exact Keeps.keeps_pure CounterLe.counter_pre _)
    | (with_reducible exact Keeps.keeps_abort _)
    | ((with_reducible refine Keeps.keeps_modS ?_); intro _; first
        | exact Nat.le_refl _
        | exact Nat.le_succ _
        | exact Nat.le_of_eq (next_name_counter _).symm
        | exact Nat.le_of_eq (skip_until_name_counter _ _ _).symm
        | (split <;> exact Nat.le_refl _))
    | (with_reducible exact h.get_type_rule_)
    | (with_reducible exact h.get_type_rule_lt_loop _ _)
    | (with_reducible exact kphp_error_mono _ _)
    | (with_reducible exact next_cur_mono)
    | (with_reducible exact test_expect_mono _)
    | (with_reducible apply Keeps.keeps_bind CounterLe.counter_pre)
    | (with_reducible apply Keeps.keeps_ite)
    | intro _
    | split
    | dsimp only

theorem get_type_rule_index_loop_mono {c : Caps} (h : CapsMono c) (res : Vertex) :
    Keeps CounterLe (get_type_rule_index_loop c res) := by
  unfold get_type_rule_index_loop
  repeat' first
    | (with_reducible exact Keeps.keeps_getS CounterLe.counter_pre)
    | (with_reducible exact Keeps.keeps_pure CounterLe.counter_pre _)
    | (with_reducible exact Keeps.keeps_abort _)
    | ((with_reducible refine Keeps.keeps_modS ?_); intro _; first
        | exact Nat.le_refl _
        | exact Nat.le_succ _
        | exact Nat.le_of_eq (next_name_counter _).symm
        | exact Nat.le_of_eq (skip_until_name_counter _ _ _).symm
        | (split <;> exact Nat.le_refl _))
    | (with_reducible exact h.get_type_rule_index_loop _)
    | (with_reducible exact auto_location_mono)
    | (with_reducible exact next_cur_mono)
    | (with_reducible exact test_expect_mono _)
    | (with_reducible exact expect_mono _ _)
    | (with_reducible apply Keeps.keeps_bind CounterLe.counter_pre)
    | (with_reducible apply Keeps.keeps_ite)
    | intro _
    | split
    | dsimp only

theorem get_type_rule__mono {c : Caps} (h : CapsMono c) (e : Env) :
    Keeps CounterLe (get_type_rule_ e c) := by
  unfold get_type_rule_
  repeat' first
    | (with_reducible exact Keeps.keeps_getS CounterLe.counter_pre)
    | (with_reducible exact Keeps.keeps_pure CounterLe.counter_pre _)
    | (with_reducible exact Keeps.keeps_abort _)
    | ((with_reducible refine Keeps.keeps_modS ?_); intro _; first
        | exact Nat.le_refl _
        | exact Nat.le_succ _
        | exact Nat.le_of_eq (next_name_counter _).symm
        | exact Nat.le_of_eq (skip_until_name_counter _ _ _).symm
        | (split <;> exact Nat.le_refl _))
    | (with_reducible exact h.get_type_rule_)
    | (with_reducible exact h.get_type_rule_lt_loop _ _)
    | (with_reducible exact h.get_type_rule_index_loop _)
    | (with_reducible exact kphp_error_mono _ _)
    | (with_reducible exact cur_tok_mono)
    | (with_reducible exact auto_location_mono)
    | (with_reducible exact next_cur_mono)
    | (with_reducible exact test_expect_mono _)
    | (with_reducible exact expect_mono _ _)
    | (with_reducible exact get_ptype_mono _)
    | (with_reducible exact get_type_rule_func_mono h)
    | (with_reducible apply Keeps.keeps_bind CounterLe.counter_pre)
    | (with_reducible apply Keeps.keeps_ite)
    | intro _
    | split
    | dsimp only

theorem get_type_rule_mono {c : Caps} (h : CapsMono c) (e : Env) :
    Keeps CounterLe (get_type_rule e c) := by
  unfold get_type_rule
  repeat' first
    | (with_reducible exact Keeps.keeps_getS CounterLe.counter_pre)
    | (with_reducible exact Keeps.keeps_pure CounterLe.counter_pre _)
    | (with_reducible exact Keeps.keeps_abort _)
    | ((with_reducible refine Keeps.keeps_modS ?_); intro _; first
        | exact Nat.le_refl _
        | exact Nat.le_succ _
        | exact Nat.le_of_eq (next_name_counter _).symm
        | exact Nat.le_of_eq (skip_until_name_counter _ _ _).symm
        | (split <;> exact Nat.le_refl _))
    | (with_reducible exact h.get_type_rule_)
    | (with_reducible exact kphp_error_mono _ _)
    | (with_reducible exact cur_type_mono)
    | (with_reducible exact auto_location_mono)
    | (with_reducible exact next_cur_mono)
    | (with_reducible apply Keeps.keeps_bind CounterLe.counter_pre)
    | (with_reducible apply Keeps.keeps_ite)
    | intro _
    | split
    | dsimp only

theorem get_func_param_without_callbacks_mono {c : Caps} (h : CapsMono c) (e : Env) (from_callback : Bool) :
    Keeps CounterLe (get_func_param_without_callbacks e c from_callback) := by
  unfold get_func_param_without_callbacks
  repeat' first
    | (with_reducible exact Keeps.keeps_getS CounterLe.counter_pre)
    | (with_reducible exact Keeps.keeps_pure CounterLe.counter_pre _)
    | (with_reducible exact Keeps.keeps_abort _)
    | ((with_reducible refine Keeps.keeps_modS ?_); intro _; first
        | exact Nat.le_refl _
        | exact Nat.le_succ _
        | exact Nat.le_of_eq (next_name_counter _).symm
        | exact Nat.le_of_eq (skip_until_name_counter _ _ _).symm
        | (split <;> exact Nat.le_refl _))
    | (with_reducible exact cur_tok_mono)
    | (with_reducible exact cur_type_mono)
    | (with_reducible exact auto_location_mono)
    | (with_reducible exact next_cur_mono)
    | (with_reducible exact get_var_name_ref_mono)
    | (with_reducible exact get_def_value_mono h)
    | (with_reducible exact get_func_param_type_help_mono _)
    | (with_reducible exact get_type_rule_mono h _)
    | (with_reducible apply Keeps.keeps_bind CounterLe.counter_pre)
    | (with_reducible apply Keeps.keeps_ite)
    | intro _
    | split
    | dsimp only

theorem get_func_param_from_callback_mono {c : Caps} (h : CapsMono c) (e : Env) :
    Keeps CounterLe (get_func_param_from_callback e c) := by
  unfold get_func_param_from_callback
  repeat' first
    | (with_reducible exact Keeps.keeps_getS CounterLe.counter_pre)
    | (with_reducible exact Keeps.keeps_pure CounterLe.counter_pre _)
    | (with_reducible exact Keeps.keeps_abort _)
    | ((with_reducible refine Keeps.keeps_modS ?_); intro _; first
        | exact Nat.le_refl _
        | exact Nat.le_succ _
        | exact Nat.le_of_eq (next_name_counter _).symm
        | exact Nat.le_of_eq (skip_until_name_counter _ _ _).symm
        | (split <;> exact Nat.le_refl _))
    | (with_reducible exact get_func_param_without_callbacks_mono h _ _)
    | (with_reducible apply Keeps.keeps_bind CounterLe.counter_pre)
    | (with_reducible apply Keeps.keeps_ite)
    | intro _
    | split
    | dsimp only

theorem get_func_param_mono {c : Caps} (h : CapsMono c) (e : Env) :
    Keeps CounterLe (get_func_param e c) := by
  unfold get_func_param
  repeat' first
    | (with_reducible exact Keeps.keeps_getS CounterLe.counter_pre)
    | (with_reducible exact Keeps.keeps_pure CounterLe.counter_pre _)
    | (with_reducible exact Keeps.keeps_abort _)
    | ((with_reducible refine Keeps.keeps_modS ?_); intro _; first
        | exact Nat.le_refl _
        | exact Nat.le_succ _
        | exact Nat.le_of_eq (next_name_counter _).symm
        | exact Nat.le_of_eq (skip_until_name_counter _ _ _).symm
        | (split <;> exact Nat.le_refl _))
    | (with_reducible exact kphp_assert_mono _ _)
    | (with_reducible exact kphp_error_mono _ _)
    | (with_reducible exact auto_location_mono)
    | (with_reducible exact next_cur_mono)
    | (with_reducible exact expect_mono _ _)
    | (with_reducible exact gen_list_mono h _ _ _ _)
    | (with_reducible exact get_string_mono)
    | (with_reducible exact get_def_value_mono h)
    | (with_reducible exact get_type_rule_mono h _)
    | (with_reducible exact get_func_param_without_callbacks_mono h _ _)
    | (with_reducible apply Keeps.keeps_bind CounterLe.counter_pre)
    | (with_reducible apply Keeps.keeps_ite)
    | intro _
    | split
    | dsimp only

theorem get_foreach_param_mono {c : Caps} (h : CapsMono c) :
    Keeps CounterLe (get_foreach_param c) := by
  unfold get_foreach_param
  repeat' first
    | (with_reducible exact Keeps.keeps_getS CounterLe.counter_pre)
    | (with_reducible exact Keeps.keeps_pure CounterLe.counter_pre _)
    | (with_reducible exact Keeps.keeps_abort _)
    | ((with_reducible refine Keeps.keeps_modS ?_); intro _; first
        | exact Nat.le_refl _
        | exact Nat.le_succ _
        | exact Nat.le_of_eq (next_name_counter _).symm
        | exact Nat.le_of_eq (skip_until_name_counter _ _ _).symm
        | (split <;> exact Nat.le_refl _))
    | (with_reducible exact h.get_expression)
    | (with_reducible exact kphp_error_mono _ _)
    | (with_reducible exact cur_type_mono)
    | (with_reducible exact auto_location_mono)
    | (with_reducible exact next_cur_mono)
    | (with_reducible exact expect_mono _ _)
    | (with_reducible exact get_var_name_ref_mono)
    | (with_reducible exact skip_phpdoc_tokens_mono)
    | (with_reducible apply Keeps.keeps_bind CounterLe.counter_pre)
    | (with_reducible apply Keeps.keeps_ite)
    | intro _
    | split
    | dsimp only

theorem func_force_return_mono (root : Vertex) (val : Option Vertex) :
    Keeps CounterLe (func_force_return root val) := by
  unfold func_force_return
  repeat' first
    | (with_reducible exact Keeps.keeps_getS CounterLe.counter_pre)
    | (with_reducible exact Keeps.keeps_pure CounterLe.counter_pre _)
    | (with_reducible exact Keeps.keeps_abort _)
    | ((with_reducible refine Keeps.keeps_modS ?_); intro _; first
        | exact Nat.le_refl _
        | exact Nat.le_succ _
        | exact Nat.le_of_eq (next_name_counter _).symm
        | exact Nat.le_of_eq (skip_until_name_counter _ _ _).symm
        | (split <;> exact Nat.le_refl _))
    | (with_reducible apply Keeps.keeps_bind CounterLe.counter_pre)
    | (with_reducible apply Keeps.keeps_ite)
    | intro _
    | split
    | dsimp only

theorem create_vertex_this_mono (line : Int) (cur_class : Option Nat) (with_type_rule : Bool) :
    Keeps CounterLe (create_vertex_this line cur_class with_type_rule) := by
  unfold create_vertex_this
  repeat' first
    | (with_reducible exact Keeps.keeps_getS CounterLe.counter_pre)
    | (with_reducible exact Keeps.keeps_pure CounterLe.counter_pre _)
    | (with_reducible exact Keeps.keeps_abort _)
    | ((with_reducible refine Keeps.keeps_modS ?_); intro _; first
        | exact Nat.le_refl _
        | exact Nat.le_succ _
        | exact Nat.le_of_eq (next_name_counter _).symm
        | exact Nat.le_of_eq (skip_until_name_counter _ _ _).symm
        | (split <;> exact Nat.le_refl _))
    | (with_reducible exact kphp_assert_mono _ _)
    | (with_reducible apply Keeps.keeps_bind CounterLe.counter_pre)
    | (with_reducible apply Keeps.keeps_ite)
    | intro _
    | split
    | dsimp only

theorem patch_func_constructor_mono (func : Vertex) (cur_class : Option Nat) (location : Int) :
    Keeps CounterLe (patch_func_constructor func cur_class location) := by
  unfold patch_func_constructor
  repeat' first
    | (with_reducible exact Keeps.keeps_getS CounterLe.counter_pre)
    | (with_reducible exact Keeps.keeps_pure CounterLe.counter_pre _)
    | (with_reducible exact Keeps.keeps_abort _)
    | ((with_reducible refine Keeps.keeps_modS ?_); intro _; first
        | exact Nat.le_refl _
        | exact Nat.le_succ _
        | exact Nat.le_of_eq (next_name_counter _).symm
        | exact Nat.le_of_eq (skip_until_name_counter _ _ _).symm
        | (split <;> exact Nat.le_refl _))
    | (with_reducible exact deref_mono _ _)
    | (with_reducible exact create_vertex_this_mono _ _ _)
    | (with_reducible apply Keeps.keeps_bind CounterLe.counter_pre)
    | (with_reducible apply Keeps.keeps_ite)
    | intro _
    | split
    | dsimp only

theorem patch_func_add_this_mono (func_location : Int) (cur_class : Option Nat) :
    Keeps CounterLe (patch_func_add_this func_location cur_class) := by
  unfold patch_func_add_this
  repeat' first
    | (with_reducible exact Keeps.keeps_getS CounterLe.counter_pre)
    | (with_reducible exact Keeps.keeps_pure CounterLe.counter_pre _)
    | (with_reducible exact Keeps.keeps_abort _)
    | ((with_reducible refine Keeps.keeps_modS ?_); intro _; first
        | exact Nat.le_refl _
        | exact Nat.le_succ _
        | exact Nat.le_of_eq (next_name_counter _).symm
        | exact Nat.le_of_eq (skip_until_name_counter _ _ _).symm
        | (split <;> exact Nat.le_refl _))
    | (with_reducible exact create_vertex_this_mono _ _ _)
    | (with_reducible apply Keeps.keeps_bind CounterLe.counter_pre)
    | (with_reducible apply Keeps.keeps_ite)
    | intro _
    | split
    | dsimp only

theorem create_constructor_with_args_mono (cur_class : Nat) (location : Int) (params : Vertex) :
    Keeps CounterLe (create_constructor_with_args cur_class location params) := by
  unfold create_constructor_with_args
  repeat' first
    | (with_reducible exact Keeps.keeps_getS CounterLe.counter_pre)
    | (with_reducible exact Keeps.keeps_pure CounterLe.counter_pre _)
    | (with_reducible exact Keeps.keeps_abort _)
    | ((with_reducible refine Keeps.keeps_modS ?_); intro _; first
        | exact Nat.le_refl _
        | exact Nat.le_succ _
        | exact Nat.le_of_eq (next_name_counter _).symm
        | exact Nat.le_of_eq (skip_until_name_counter _ _ _).symm
        | (split <;> exact Nat.le_refl _))
    | (with_reducible exact create_function_mono _ _)
    | (with_reducible exact add_instance_method_mono _ _ _)
    | (with_reducible exact register_and_require_function_mono _ _)
    | (with_reducible exact patch_func_constructor_mono _ _ _)
    | (with_reducible apply Keeps.keeps_bind CounterLe.counter_pre)
    | (with_reducible apply Keeps.keeps_ite)
    | intro _
    | split
    | dsimp only

theorem create_default_constructor_mono (cur_class : Nat) (location : Int) :
    Keeps CounterLe (create_default_constructor cur_class location) := by
  unfold create_default_constructor
  repeat' first
    | (with_reducible exact Keeps.keeps_getS CounterLe.counter_pre)
    | (with_reducible exact Keeps.keeps_pure CounterLe.counter_pre _)
    | (with_reducible exact Keeps.keeps_abort _)
    | ((with_reducible refine Keeps.keeps_modS ?_); intro _; first
        | exact Nat.le_refl _
        | exact Nat.le_succ _
        | exact Nat.le_of_eq (next_name_counter _).symm
        | exact Nat.le_of_eq (skip_until_name_counter _ _ _).symm
        | (split <;> exact Nat.le_refl _))
    | (with_reducible exact create_constructor_with_args_mono _ _ _)
    | (with_reducible apply Keeps.keeps_bind CounterLe.counter_pre)
    | (with_reducible apply Keeps.keeps_ite)
    | intro _
    | split
    | dsimp only

theorem get_multi_call_mono {c : Caps} (h : CapsMono c) (Op : Operation) (f : GetFunc) :
    Keeps CounterLe (get_multi_call c Op f) := by
  unfold get_multi_call
  repeat' first
    | (with_reducible exact Keeps.keeps_getS CounterLe.counter_pre)
    | (with_reducible exact Keeps.keeps_pure CounterLe.counter_pre _)
    | (with_reducible exact Keeps.keeps_abort _)
    | ((with_reducible refine Keeps.keeps_modS ?_); intro _; first
        | exact Nat.le_refl _
        | exact Nat.le_succ _
        | exact Nat.le_of_eq (next_name_counter _).symm
        | exact Nat.le_of_eq (skip_until_name_counter _ _ _).symm
        | (split <;> exact Nat.le_refl _))
    | (with_reducible exact kphp_error_mono _ _)
    | (with_reducible exact cur_type_mono)
    | (with_reducible exact auto_location_mono)
    | (with_reducible exact next_cur_mono)
    | (with_reducible exact gen_list_mono h _ _ _ _)
    | (with_reducible apply Keeps.keeps_bind CounterLe.counter_pre)
    | (with_reducible apply Keeps.keeps_ite)
    | intro _
    | split
    | dsimp only

theorem get_return_mono {c : Caps} (h : CapsMono c) :
    Keeps CounterLe (get_return c) := by
  unfold get_return
  repeat' first
    | (with_reducible exact Keeps.keeps_getS CounterLe.counter_pre)
    | (with_reducible exact Keeps.keeps_pure CounterLe.counter_pre _)
    | (with_reducible exact Keeps.keeps_abort _)
    | ((with_reducible refine Keeps.keeps_modS ?_); intro _; first
        | exact Nat.le_refl _
        | exact Nat.le_succ _
        | exact Nat.le_of_eq (next_name_counter _).symm
        | exact Nat.le_of_eq (skip_until_name_counter _ _ _).symm
        | (split <;> exact Nat.le_refl _))
    | (with_reducible exact h.get_expression)
    | (with_reducible exact auto_location_mono)
    | (with_reducible exact next_cur_mono)
    | (with_reducible exact expect_mono _ _)
    | (with_reducible exact skip_phpdoc_tokens_mono)
    | (with_reducible apply Keeps.keeps_bind CounterLe.counter_pre)
    | (with_reducible apply Keeps.keeps_ite)
    | intro _
    | split
    | dsimp only

theorem get_break_continue_mono {c : Caps} (h : CapsMono c) (Op : Operation) :
    Keeps CounterLe (get_break_continue c Op) := by
  unfold get_break_continue
  repeat' first
    | (with_reducible exact Keeps.keeps_getS CounterLe.counter_pre)
    | (with_reducible exact Keeps.keeps_pure CounterLe.counter_pre _)
    | (with_reducible exact Keeps.keeps_abort _)
    | ((with_reducible refine Keeps.keeps_modS ?_); intro _; first
        | exact Nat.le_refl _
        | exact Nat.le_succ _
        | exact Nat.le_of_eq (next_name_counter _).symm
        | exact Nat.le_of_eq (skip_until_name_counter _ _ _).symm
        | (split <;> exact Nat.le_refl _))
    | (with_reducible exact h.get_expression)
    | (with_reducible exact auto_location_mono)
    | (with_reducible exact next_cur_mono)
    | (with_reducible exact expect_mono _ _)
    | (with_reducible apply Keeps.keeps_bind CounterLe.counter_pre)
    | (with_reducible apply Keeps.keeps_ite)
    | intro _
    | split
    | dsimp only

theorem get_foreach_mono {c : Caps} (h : CapsMono c) :
    Keeps CounterLe (get_foreach c) := by
  unfold get_foreach
  repeat' first
    | (with_reducible exact Keeps.keeps_getS CounterLe.counter_pre)
    | (with_reducible exact Keeps.keeps_pure CounterLe.counter_pre _)
    | (with_reducible exact Keeps.keeps_abort _)
    | ((with_reducible refine Keeps.keeps_modS ?_); intro _; first
        | exact Nat.le_refl _
        | exact Nat.le_succ _
        | exact Nat.le_of_eq (next_name_counter _).symm
        | exact Nat.le_of_eq (skip_until_name_counter _ _ _).symm
        | (split <;> exact Nat.le_refl _))
    | (with_reducible exact h.get_statement _)
    | (with_reducible exact kphp_error_mono _ _)
    | (with_reducible exact auto_location_mono)
    | (with_reducible exact next_cur_mono)
    | (with_reducible exact expect_mono _ _)
    | (with_reducible exact skip_phpdoc_tokens_mono)
    | (with_reducible exact get_foreach_param_mono h)
    | (with_reducible apply Keeps.keeps_bind CounterLe.counter_pre)
    | (with_reducible apply Keeps.keeps_ite)
    | intro _
    | split
    | dsimp only

theorem get_while_mono {c : Caps} (h : CapsMono c) :
    Keeps CounterLe (get_while c) := by
  unfold get_while
  repeat' first
    | (with_reducible exact Keeps.keeps_getS CounterLe.counter_pre)
    | (with_reducible exact Keeps.keeps_pure CounterLe.counter_pre _)
    | (with_reducible exact Keeps.keeps_abort _)
    | ((with_reducible refine Keeps.keeps_modS ?_); intro _; first
        | exact Nat.le_refl _
        | exact Nat.le_succ _
        | exact Nat.le_of_eq (next_name_counter _).symm
        | exact Nat.le_of_eq (skip_until_name_counter _ _ _).symm
        | (split <;> exact Nat.le_refl _))
    | (with_reducible exact h.get_expression)
    | (with_reducible exact h.get_statement _)
    | (with_reducible exact kphp_error_mono _ _)
    | (with_reducible exact auto_location_mono)
    | (with_reducible exact next_cur_mono)
    | (with_reducible exact expect_mono _ _)
    | (with_reducible exact skip_phpdoc_tokens_mono)
    | (with_reducible apply Keeps.keeps_bind CounterLe.counter_pre)
    | (with_reducible apply Keeps.keeps_ite)
    | intro _
    | split
    | dsimp only

theorem get_if_mono {c : Caps} (h : CapsMono c) :
    Keeps CounterLe (get_if c) := by
  unfold get_if
  repeat' first
    | (with_reducible exact Keeps.keeps_getS CounterLe.counter_pre)
    | (with_reducible exact Keeps.keeps_pure CounterLe.counter_pre _)
    | (with_reducible exact Keeps.keeps_abort _)
    | ((with_reducible refine Keeps.keeps_modS ?_); intro _; first
        | exact Nat.le_refl _
        | exact Nat.le_succ _
        | exact Nat.le_of_eq (next_name_counter _).symm
        | exact Nat.le_of_eq (skip_until_name_counter _ _ _).symm
        | (split <;> exact Nat.le_refl _))
    | (with_reducible exact h.get_expression)
    | (with_reducible exact h.get_statement _)
    | (with_reducible exact kphp_error_mono _ _)
    | (with_reducible exact cur_type_mono)
    | (with_reducible exact auto_location_mono)
    | (with_reducible exact next_cur_mono)
    | (with_reducible exact expect_mono _ _)
    | (with_reducible exact skip_phpdoc_tokens_mono)
    | (with_reducible apply Keeps.keeps_bind CounterLe.counter_pre)
    | (with_reducible apply Keeps.keeps_ite)
    | intro _
    | split
    | dsimp only

theorem get_for_mono {c : Caps} (h : CapsMono c) :
    Keeps CounterLe (get_for c) := by
  unfold get_for
  repeat' first
    | (with_reducible exact Keeps.keeps_getS CounterLe.counter_pre)
    | (with_reducible exact Keeps.keeps_pure CounterLe.counter_pre _)
    | (with_reducible exact Keeps.keeps_abort _)
    | ((with_reducible refine Keeps.keeps_modS ?_); intro _; first
        | exact Nat.le_refl _
        | exact Nat.le_succ _
        | exact Nat.le_of_eq (next_name_counter _).symm
        | exact Nat.le_of_eq (skip_until_name_counter _ _ _).symm
        | (split <;> exact Nat.le_refl _))
    | (with_reducible exact h.get_statement _)
    | (with_reducible exact kphp_error_mono _ _)
    | (with_reducible exact auto_location_mono)
    | (with_reducible exact next_cur_mono)
    | (with_reducible exact expect_mono _ _)
    | (with_reducible exact skip_phpdoc_tokens_mono)
    | (with_reducible exact gen_list_mono h _ _ _ _)
    | (with_reducible apply Keeps.keeps_bind CounterLe.counter_pre)
    | (with_reducible apply Keeps.keeps_ite)
    | intro _
    | split
    | dsimp only

theorem get_do_mono {c : Caps} (h : CapsMono c) :
    Keeps CounterLe (get_do c) := by
  unfold get_do
  repeat' first
    | (with_reducible exact Keeps.keeps_getS CounterLe.counter_pre)
    | (with_reducible exact Keeps.keeps_pure CounterLe.counter_pre _)
    | (with_reducible exact Keeps.keeps_abort _)
    | ((with_reducible refine Keeps.keeps_modS ?_); intro _; first
        | exact Nat.le_refl _
        | exact Nat.le_succ _
        | exact Nat.le_of_eq (next_name_counter _).symm
        | exact Nat.le_of_eq (skip_until_name_counter _ _ _).symm
        | (split <;> exact Nat.le_refl _))
    | (with_reducible exact h.get_expression)
    | (with_reducible exact h.get_statement _)
    | (with_reducible exact kphp_error_mono _ _)
    | (with_reducible exact auto_location_mono)
    | (with_reducible exact next_cur_mono)
    | (with_reducible exact expect_mono _ _)
    | (with_reducible exact skip_phpdoc_tokens_mono)
    | (with_reducible apply Keeps.keeps_bind CounterLe.counter_pre)
    | (with_reducible apply Keeps.keeps_ite)
    | intro _
    | split
    | dsimp only

theorem get_switch_seq_loop_mono {c : Caps} (h : CapsMono c) (seq_next : List Vertex) :
    Keeps CounterLe (get_switch_seq_loop c seq_next) := by
  unfold get_switch_seq_loop
  repeat' first
    | (with_reducible exact Keeps.keeps_getS CounterLe.counter_pre)
    | (with_reducible exact Keeps.keeps_pure CounterLe.counter_pre _)
    | (with_reducible exact Keeps.keeps_abort _)
    | ((with_reducible refine Keeps.keeps_modS ?_); intro _; first
        | exact Nat.le_refl _
        | exact Nat.le_succ _
        | exact Nat.le_of_eq (next_name_counter _).symm
        | exact Nat.le_of_eq (skip_until_name_counter _ _ _).symm
        | (split <;> exact Nat.le_refl _))
    | (with_reducible exact h.get_switch_seq_loop _)
    | (with_reducible exact h.get_statement _)
    | (with_reducible exact cur_type_mono)
    | (with_reducible exact at_end_mono)
    | (with_reducible apply Keeps.keeps_bind CounterLe.counter_pre)
    | (with_reducible apply Keeps.keeps_ite)
    | intro _
    | split
    | dsimp only

theorem get_switch_loop_mono {c : Caps} (h : CapsMono c) (switch_next : List Vertex) :
    Keeps CounterLe (get_switch_loop c switch_next) := by
  unfold get_switch_loop
  repeat' first
    | (with_reducible exact Keeps.keeps_getS CounterLe.counter_pre)
    | (with_reducible exact Keeps.keeps_pure CounterLe.counter_pre _)
    | (with_reducible exact Keeps.keeps_abort _)
    | ((with_reducible refine Keeps.keeps_modS ?_); intro _; first
        | exact Nat.le_refl _
        | exact Nat.le_succ _
        | exact Nat.le_of_eq (next_name_counter _).symm
        | exact Nat.le_of_eq (skip_until_name_counter _ _ _).symm
        | (split <;> exact Nat.le_refl _))
    | (with_reducible exact h.get_expression)
    | (with_reducible exact h.get_switch_loop _)
    | (with_reducible exact h.get_switch_seq_loop _)
    | (with_reducible exact kphp_error_mono _ _)
    | (with_reducible exact cur_type_mono)
    | (with_reducible exact auto_location_mono)
    | (with_reducible exact next_cur_mono)
    | (with_reducible exact expect2_mono _ _ _)
    | (with_reducible exact skip_phpdoc_tokens_mono)
    | (with_reducible apply Keeps.keeps_bind CounterLe.counter_pre)
    | (with_reducible apply Keeps.keeps_ite)
    | intro _
    | split
    | dsimp only

theorem get_switch_mono {c : Caps} (h : CapsMono c) :
    Keeps CounterLe (get_switch c) := by
  unfold get_switch
  repeat' first
    | (with_reducible exact Keeps.keeps_getS CounterLe.counter_pre)
    | (with_reducible exact Keeps.keeps_pure CounterLe.counter_pre _)
    | (with_reducible exact Keeps.keeps_abort _)
    | ((with_reducible refine Keeps.keeps_modS ?_); intro _; first
        | exact Nat.le_refl _
        | exact Nat.le_succ _
        | exact Nat.le_of_eq (next_name_counter _).symm
        | exact Nat.le_of_eq (skip_until_name_counter _ _ _).symm
        | (split <;> exact Nat.le_refl _))
    | (with_reducible exact h.get_expression)
    | (with_reducible exact h.get_switch_loop _)
    | (with_reducible exact kphp_error_mono _ _)
    | (with_reducible exact auto_location_mono)
    | (with_reducible exact next_cur_mono)
    | (with_reducible exact expect_mono _ _)
    | (with_reducible exact skip_phpdoc_tokens_mono)
    | (with_reducible apply Keeps.keeps_bind CounterLe.counter_pre)
    | (with_reducible apply Keeps.keeps_ite)
    | intro _
    | split
    | dsimp only

theorem parse_function_specifiers_mono {c : Caps} (h : CapsMono c) (flags : Vertex) :
    Keeps CounterLe (parse_function_specifiers c flags) := by
  unfold parse_function_specifiers
  repeat' first
    | (with_reducible exact Keeps.keeps_getS CounterLe.counter_pre)
    | (with_reducible exact Keeps.keeps_pure CounterLe.counter_pre _)
    | (with_reducible exact Keeps.keeps_abort _)
    | ((with_reducible refine Keeps.keeps_modS ?_); intro _; first
        | exact Nat.le_refl _
        | exact Nat.le_succ _
        | exact Nat.le_of_eq (next_name_counter _).symm
        | exact Nat.le_of_eq (skip_until_name_counter _ _ _).symm
        | (split <;> exact Nat.le_refl _))
    | (with_reducible exact h.parse_function_specifiers _)
    | (with_reducible exact cur_type_mono)
    | (with_reducible exact expect_mono _ _)
    | (with_reducible apply Keeps.keeps_bind CounterLe.counter_pre)
    | (with_reducible apply Keeps.keeps_ite)
    | intro _
    | split
    | dsimp only

theorem report_ref_uses_mono (l : List Vertex) : Keeps CounterLe (report_ref_uses l) := by
  induction l with
  | nil => exact Keeps.keeps_pure CounterLe.counter_pre _
  | cons v vs ih =>
    unfold report_ref_uses
    repeat' first
      | (with_reducible exact kphp_error_mono _ _)
      | (with_reducible exact ih)
      | (with_reducible apply Keeps.keeps_bind CounterLe.counter_pre)
      | intro _
      | dsimp only

theorem parse_function_uses_mono {c : Caps} (h : CapsMono c) (uses_of_lambda : Option (List Vertex)) :
    Keeps CounterLe (parse_function_uses c uses_of_lambda) := by
  unfold parse_function_uses
  repeat' first
    | (with_reducible exact Keeps.keeps_getS CounterLe.counter_pre)
    | (with_reducible exact Keeps.keeps_pure CounterLe.counter_pre _)
    | (with_reducible exact Keeps.keeps_abort _)
    | ((with_reducible refine Keeps.keeps_modS ?_); intro _; first
        | exact Nat.le_refl _
        | exact Nat.le_succ _
        | exact Nat.le_of_eq (next_name_counter _).symm
        | exact Nat.le_of_eq (skip_until_name_counter _ _ _).symm
        | (split <;> exact Nat.le_refl _))
    | (with_reducible exact kphp_error_mono _ _)
    | (with_reducible exact next_cur_mono)
    | (with_reducible exact test_expect_mono _)
    | (with_reducible exact expect_mono _ _)
    | (with_reducible exact gen_list_mono h _ _ _ _)
    | (with_reducible exact report_ref_uses_mono _)
    | (with_reducible apply Keeps.keeps_bind CounterLe.counter_pre)
    | (with_reducible apply Keeps.keeps_ite)
    | intro _
    | split
    | dsimp only

theorem parse_function_declaration_mono {c : Caps} (h : CapsMono c) (e : Env) (access_type : AccessType) (uses_of_lambda : Option (List Vertex)) (flags : Vertex) :
    Keeps CounterLe (parse_function_declaration e c access_type uses_of_lambda flags) := by
  unfold parse_function_declaration
  repeat' first
    | (with_reducible exact Keeps.keeps_getS CounterLe.counter_pre)
    | (with_reducible exact Keeps.keeps_pure CounterLe.counter_pre _)
    | (with_reducible exact Keeps.keeps_abort _)
    | ((with_reducible refine Keeps.keeps_modS ?_); intro _; first
        | exact Nat.le_refl _
        | exact Nat.le_succ _
        | exact Nat.le_of_eq (next_name_counter _).symm
        | exact Nat.le_of_eq (skip_until_name_counter _ _ _).symm
        | (split <;> exact Nat.le_refl _))
    | (with_reducible exact h.parse_function_specifiers _)
    | (with_reducible exact kphp_assert_mono _ _)
    | (with_reducible exact kphp_error_mono _ _)
    | (with_reducible exact auto_location_mono)
    | (with_reducible exact next_cur_mono)
    | (with_reducible exact test_expect_mono _)
    | (with_reducible exact expect_mono _ _)
    | (with_reducible exact gen_list_mono h _ _ _ _)
    | (with_reducible exact get_type_rule_mono h _)
    | (with_reducible exact patch_func_add_this_mono _ _)
    | (with_reducible exact parse_function_uses_mono h _)
    | (with_reducible apply Keeps.keeps_bind CounterLe.counter_pre)
    | (with_reducible apply Keeps.keeps_ite)
    | intro _
    | split
    | dsimp only

theorem check_seq_end_mono :
    Keeps CounterLe (check_seq_end) := by
  unfold check_seq_end
  repeat' first
    | (with_reducible exact Keeps.keeps_getS CounterLe.counter_pre)
    | (with_reducible exact Keeps.keeps_pure CounterLe.counter_pre _)
    | (with_reducible exact Keeps.keeps_abort _)
    | ((with_reducible refine Keeps.keeps_modS ?_); intro _; first
        | exact Nat.le_refl _
        | exact Nat.le_succ _
        | exact Nat.le_of_eq (next_name_counter _).symm
        | exact Nat.le_of_eq (skip_until_name_counter _ _ _).symm
        | (split <;> exact Nat.le_refl _))
    | (with_reducible exact kphp_error_mono _ _)
    | (with_reducible exact test_expect_mono _)
    | (with_reducible exact expect_mono _ _)
    | (with_reducible apply Keeps.keeps_bind CounterLe.counter_pre)
    | (with_reducible apply Keeps.keeps_ite)
    | intro _
    | split
    | dsimp only

theorem check_statement_end_mono :
    Keeps CounterLe (check_statement_end) := by
  unfold check_statement_end
  repeat' first
    | (with_reducible exact Keeps.keeps_getS CounterLe.counter_pre)
    | (with_reducible exact Keeps.keeps_pure CounterLe.counter_pre _)
    | (with_reducible exact Keeps.keeps_abort _)
    | ((with_reducible refine Keeps.keeps_modS ?_); intro _; first
        | exact Nat.le_refl _
        | exact Nat.le_succ _
        | exact Nat.le_of_eq (next_name_counter _).symm
        | exact Nat.le_of_eq (skip_until_name_counter _ _ _).symm
        | (split <;> exact Nat.le_refl _))
    | (with_reducible exact kphp_error_mono _ _)
    | (with_reducible exact test_expect_mono _)
    | (with_reducible exact expect_mono _ _)
    | (with_reducible apply Keeps.keeps_bind CounterLe.counter_pre)
    | (with_reducible apply Keeps.keeps_ite)
    | intro _
    | split
    | dsimp only

theorem generate__invoke_method_mono (cur_class : Nat) (function : Vertex) :
    Keeps CounterLe (generate__invoke_method cur_class function) := by
  unfold generate__invoke_method
  repeat' first
    | (with_reducible exact Keeps.keeps_getS CounterLe.counter_pre)
    | (with_reducible exact Keeps.keeps_pure CounterLe.counter_pre _)
    | (with_reducible exact Keeps.keeps_abort _)
    | ((with_reducible refine Keeps.keeps_modS ?_); intro _; first
        | exact Nat.le_refl _
        | exact Nat.le_succ _
        | exact Nat.le_of_eq (next_name_counter _).symm
        | exact Nat.le_of_eq (skip_until_name_counter _ _ _).symm
        | (split <;> exact Nat.le_refl _))
    | (with_reducible exact kphp_assert_mono _ _)
    | (with_reducible exact mod_function_mono _ _)
    | (with_reducible exact patch_func_add_this_mono _ _)
    | (with_reducible apply Keeps.keeps_bind CounterLe.counter_pre)
    | (with_reducible apply Keeps.keeps_ite)
    | intro _
    | split
    | dsimp only

theorem generate_constructor_call_mono (cur_class : Nat) :
    Keeps CounterLe (generate_constructor_call cur_class) := by
  unfold generate_constructor_call
  repeat' first
    | (with_reducible exact Keeps.keeps_getS CounterLe.counter_pre)
    | (with_reducible exact Keeps.keeps_pure CounterLe.counter_pre _)
    | (with_reducible exact Keeps.keeps_abort _)
    | ((with_reducible refine Keeps.keeps_modS ?_); intro _; first
        | exact Nat.le_refl _
        | exact Nat.le_succ _
        | exact Nat.le_of_eq (next_name_counter _).symm
        | exact Nat.le_of_eq (skip_until_name_counter _ _ _).symm
        | (split <;> exact Nat.le_refl _))
    | (with_reducible apply Keeps.keeps_bind CounterLe.counter_pre)
    | (with_reducible apply Keeps.keeps_ite)
    | intro _
    | split
    | dsimp only

theorem generate_anonymous_class_mono (e : Env) (function : Vertex) (function_in_which_lambda_was_created : Option Nat) (uses_of_lambda : List Vertex) :
    Keeps CounterLe (generate_anonymous_class e function function_in_which_lambda_was_created uses_of_lambda) := by
  unfold generate_anonymous_class
  repeat' first
    | (with_reducible exact Keeps.keeps_getS CounterLe.counter_pre)
    | (with_reducible exact Keeps.keeps_pure CounterLe.counter_pre _)
    | (with_reducible exact Keeps.keeps_abort _)
    | ((with_reducible refine Keeps.keeps_modS ?_); intro _; first
        | exact Nat.le_refl _
        | exact Nat.le_succ _
        | exact Nat.le_of_eq (next_name_counter _).symm
        | exact Nat.le_of_eq (skip_until_name_counter _ _ _).symm
        | (split <;> exact Nat.le_refl _))
    | (with_reducible exact mod_function_mono _ _)
    | (with_reducible exact mod_class_mono _ _)
    | (with_reducible exact mod_members_mono _ _)
    | (with_reducible exact create_function_mono _ _)
    | (with_reducible exact new_class_mono)
    | (with_reducible exact new_function_mono)
    | (with_reducible exact add_instance_method_mono _ _ _)
    | (with_reducible exact register_and_require_function_mono _ _)
    | (with_reducible exact register_class_mono _)
    | (with_reducible exact create_constructor_with_args_mono _ _ _)
    | (with_reducible exact generate__invoke_method_mono _ _)
    | (with_reducible exact generate_constructor_call_mono _)
    | (with_reducible apply Keeps.keeps_bind CounterLe.counter_pre)
    | (with_reducible apply Keeps.keeps_ite)
    | intro _
    | split
    | dsimp only

theorem get_function_scope_mono {c : Caps} (h : CapsMono c) (phpdoc_token : Option Token) (access_type : AccessType) (d : FunctionDeclaration) (f : Nat) (root : Vertex) :
    Keeps CounterLe (get_function_scope c phpdoc_token access_type d f root) := by
  unfold get_function_scope
  repeat' first
    | (with_reducible exact Keeps.keeps_getS CounterLe.counter_pre)
    | (with_reducible exact Keeps.keeps_pure CounterLe.counter_pre _)
    | (with_reducible exact Keeps.keeps_abort _)
    | ((with_reducible refine Keeps.keeps_modS ?_); intro _; first
        | exact Nat.le_refl _
        | exact Nat.le_succ _
        | exact Nat.le_of_eq (next_name_counter _).symm
        | exact Nat.le_of_eq (skip_until_name_counter _ _ _).symm
        | (split <;> exact Nat.le_refl _))
    | (with_reducible exact h.get_statement _)
    | (with_reducible exact kphp_error_mono _ _)
    | (with_reducible exact has_error_mono)
    | (with_reducible exact auto_location_mono)
    | (with_reducible exact test_expect_mono _)
    | (with_reducible exact expect_mono _ _)
    | (with_reducible exact mod_function_mono _ _)
    | (with_reducible exact add_instance_method_mono _ _ _)
    | (with_reducible exact add_static_method_mono _ _ _)
    | (with_reducible exact register_and_require_function_mono _ _)
    | (with_reducible exact func_force_return_mono _ _)
    | (with_reducible exact patch_func_constructor_mono _ _ _)
    | (with_reducible apply Keeps.keeps_bind CounterLe.counter_pre)
    | (with_reducible apply Keeps.keeps_ite)
    | intro _
    | split
    | dsimp only

theorem get_function_mono {c : Caps} (h : CapsMono c) (e : Env) (phpdoc_token : Option Token) (access_type : AccessType) (uses_of_lambda : Option (List Vertex)) :
    Keeps CounterLe (get_function e c phpdoc_token access_type uses_of_lambda) := by
  unfold get_function
  repeat' first
    | (with_reducible exact Keeps.keeps_getS CounterLe.counter_pre)
    | (with_reducible exact Keeps.keeps_pure CounterLe.counter_pre _)
    | (with_reducible exact Keeps.keeps_abort _)
    | ((with_reducible refine Keeps.keeps_modS ?_); intro _; first
        | exact Nat.le_refl _
        | exact Nat.le_succ _
        | exact Nat.le_of_eq (next_name_counter _).symm
        | exact Nat.le_of_eq (skip_until_name_counter _ _ _).symm
        | (split <;> exact Nat.le_refl _))
    | (with_reducible exact cur_type_mono)
    | (with_reducible exact expect_mono _ _)
    | (with_reducible exact create_function_mono _ _)
    | (with_reducible exact save_extern_func_header_mono _ _)
    | (with_reducible exact push_function_mono _)
    | (with_reducible exact pop_function_mono)
    | (with_reducible exact parse_function_declaration_mono h _ _ _ _)
    | (with_reducible exact get_function_scope_mono h _ _ _ _ _)
    | (with_reducible apply Keeps.keeps_bind CounterLe.counter_pre)
    | (with_reducible apply Keeps.keeps_ite)
    | intro _
    | split
    | dsimp only

theorem get_anonymous_function_mono {c : Caps} (h : CapsMono c) (e : Env) :
    Keeps CounterLe (get_anonymous_function e c) := by
  unfold get_anonymous_function
  repeat' first
    | (with_reducible exact Keeps.keeps_getS CounterLe.counter_pre)
    | (with_reducible exact Keeps.keeps_pure CounterLe.counter_pre _)
    | (with_reducible exact Keeps.keeps_abort _)
    | ((with_reducible refine Keeps.keeps_modS ?_); intro _; first
        | exact Nat.le_refl _
        | exact Nat.le_succ _
        | exact Nat.le_of_eq (next_name_counter _).symm
        | exact Nat.le_of_eq (skip_until_name_counter _ _ _).symm
        | (split <;> exact Nat.le_refl _))
    | (with_reducible exact generate_anonymous_class_mono _ _ _ _)
    | (with_reducible exact get_function_mono h _ _ _ _)
    | (with_reducible apply Keeps.keeps_bind CounterLe.counter_pre)
    | (with_reducible apply Keeps.keeps_ite)
    | intro _
    | split
    | dsimp only

theorem get_class_synthesize_mono (cur_class : Nat) (class_vertex : Vertex) :
    Keeps CounterLe (get_class_synthesize cur_class class_vertex) := by
  unfold get_class_synthesize
  repeat' first
    | (with_reducible exact Keeps.keeps_getS CounterLe.counter_pre)
    | (with_reducible exact Keeps.keeps_pure CounterLe.counter_pre _)
    | (with_reducible exact Keeps.keeps_abort _)
    | ((with_reducible refine Keeps.keeps_modS ?_); intro _; first
        | exact Nat.le_refl _
        | exact Nat.le_succ _
        | exact Nat.le_of_eq (next_name_counter _).symm
        | exact Nat.le_of_eq (skip_until_name_counter _ _ _).symm
        | (split <;> exact Nat.le_refl _))
    | (with_reducible exact auto_location_mono)
    | (with_reducible exact mod_members_mono _ _)
    | (with_reducible exact create_default_constructor_mono _ _)
    | (with_reducible apply Keeps.keeps_bind CounterLe.counter_pre)
    | (with_reducible apply Keeps.keeps_ite)
    | intro _
    | split
    | dsimp only

theorem get_class_function_body_mono (cur_class : Nat) (cur_function : Nat) :
    Keeps CounterLe (get_class_function_body cur_class cur_function) := by
  unfold get_class_function_body
  repeat' first
    | (with_reducible exact Keeps.keeps_getS CounterLe.counter_pre)
    | (with_reducible exact Keeps.keeps_pure CounterLe.counter_pre _)
    | (with_reducible exact Keeps.keeps_abort _)
    | ((with_reducible refine Keeps.keeps_modS ?_); intro _; first
        | exact Nat.le_refl _
        | exact Nat.le_succ _
        | exact Nat.le_of_eq (next_name_counter _).symm
        | exact Nat.le_of_eq (skip_until_name_counter _ _ _).symm
        | (split <;> exact Nat.le_refl _))
    | (with_reducible exact mod_function_mono _ _)
    | (with_reducible exact register_and_require_function_mono _ _)
    | (with_reducible exact func_force_return_mono _ _)
    | (with_reducible apply Keeps.keeps_bind CounterLe.counter_pre)
    | (with_reducible apply Keeps.keeps_ite)
    | intro _
    | split
    | dsimp only

theorem get_class_finish_mono (cur_class : Nat) (cur_function : Nat) (class_vertex : Vertex) :
    Keeps CounterLe (get_class_finish cur_class cur_function class_vertex) := by
  unfold get_class_finish
  repeat' first
    | (with_reducible exact Keeps.keeps_getS CounterLe.counter_pre)
    | (with_reducible exact Keeps.keeps_pure CounterLe.counter_pre _)
    | (with_reducible exact Keeps.keeps_abort _)
    | ((with_reducible refine Keeps.keeps_modS ?_); intro _; first
        | exact Nat.le_refl _
        | exact Nat.le_succ _
        | exact Nat.le_of_eq (next_name_counter _).symm
        | exact Nat.le_of_eq (skip_until_name_counter _ _ _).symm
        | (split <;> exact Nat.le_refl _))
    | (with_reducible exact get_class_synthesize_mono _ _)
    | (with_reducible exact get_class_function_body_mono _ _)
    | (with_reducible apply Keeps.keeps_bind CounterLe.counter_pre)
    | (with_reducible apply Keeps.keeps_ite)
    | intro _
    | split
    | dsimp only

theorem get_class_scope_mono {c : Caps} (h : CapsMono c) (e : Env) (phpdoc_token : Option Token) (class_location : Int) (cur_class : Nat) (cur_function : Nat) :
    Keeps CounterLe (get_class_scope e c phpdoc_token class_location cur_class cur_function) := by
  unfold get_class_scope
  repeat' first
    | (with_reducible exact Keeps.keeps_getS CounterLe.counter_pre)
    | (with_reducible exact Keeps.keeps_pure CounterLe.counter_pre _)
    | (with_reducible exact Keeps.keeps_abort _)
    | ((with_reducible refine Keeps.keeps_modS ?_); intro _; first
        | exact Nat.le_refl _
        | exact Nat.le_succ _
        | exact Nat.le_of_eq (next_name_counter _).symm
        | exact Nat.le_of_eq (skip_until_name_counter _ _ _).symm
        | (split <;> exact Nat.le_refl _))
    | (with_reducible exact h.get_statement _)
    | (with_reducible exact kphp_error_mono _ _)
    | (with_reducible exact auto_location_mono)
    | (with_reducible exact next_cur_mono)
    | (with_reducible exact test_expect_mono _)
    | (with_reducible exact mod_function_mono _ _)
    | (with_reducible exact mod_class_mono _ _)
    | (with_reducible exact get_class_finish_mono _ _ _)
    | (with_reducible apply Keeps.keeps_bind CounterLe.counter_pre)
    | (with_reducible apply Keeps.keeps_ite)
    | intro _
    | split
    | dsimp only

theorem get_class_mono {c : Caps} (h : CapsMono c) (e : Env) (phpdoc_token : Option Token) :
    Keeps CounterLe (get_class e c phpdoc_token) := by
  unfold get_class
  repeat' first
    | (with_reducible exact Keeps.keeps_getS CounterLe.counter_pre)
    | (with_reducible exact Keeps.keeps_pure CounterLe.counter_pre _)
    | (with_reducible exact Keeps.keeps_abort _)
    | ((with_reducible refine Keeps.keeps_modS ?_); intro _; first
        | exact Nat.le_refl _
        | exact Nat.le_succ _
        | exact Nat.le_of_eq (next_name_counter _).symm
        | exact Nat.le_of_eq (skip_until_name_counter _ _ _).symm
        | (split <;> exact Nat.le_refl _))
    | (with_reducible exact kphp_error_mono _ _)
    | (with_reducible exact auto_location_mono)
    | (with_reducible exact test_expect_mono _)
    | (with_reducible exact expect_mono _ _)
    | (with_reducible exact create_function_mono _ _)
    | (with_reducible exact new_class_mono)
    | (with_reducible exact push_function_mono _)
    | (with_reducible exact pop_function_mono)
    | (with_reducible exact push_class_mono _)
    | (with_reducible exact pop_class_mono)
    | (with_reducible exact get_class_scope_mono h _ _ _ _ _)
    | (with_reducible apply Keeps.keeps_bind CounterLe.counter_pre)
    | (with_reducible apply Keeps.keeps_ite)
    | intro _
    | split
    | dsimp only

theorem get_use_loop_mono {c : Caps} (h : CapsMono c) :
    Keeps CounterLe (get_use_loop c) := by
  unfold get_use_loop
  repeat' first
    | (with_reducible exact Keeps.keeps_getS CounterLe.counter_pre)
    | (with_reducible exact Keeps.keeps_pure CounterLe.counter_pre _)
    | (with_reducible exact Keeps.keeps_abort _)
    | ((with_reducible refine Keeps.keeps_modS ?_); intro _; first
        | exact Nat.le_refl _
        | exact Nat.le_succ _
        | exact Nat.le_of_eq (next_name_counter _).symm
        | exact Nat.le_of_eq (skip_until_name_counter _ _ _).symm
        | (split <;> exact Nat.le_refl _))
    | (with_reducible exact h.get_use_loop)
    | (with_reducible exact kphp_assert_mono _ _)
    | (with_reducible exact kphp_error_mono _ _)
    | (with_reducible exact cur_tok_mono)
    | (with_reducible exact next_cur_mono)
    | (with_reducible exact test_expect_mono _)
    | (with_reducible exact expect_mono _ _)
    | (with_reducible apply Keeps.keeps_bind CounterLe.counter_pre)
    | (with_reducible apply Keeps.keeps_ite)
    | intro _
    | split
    | dsimp only

theorem get_use_mono {c : Caps} (h : CapsMono c) :
    Keeps CounterLe (get_use c) := by
  unfold get_use
  repeat' first
    | (with_reducible exact Keeps.keeps_getS CounterLe.counter_pre)
    | (with_reducible exact Keeps.keeps_pure CounterLe.counter_pre _)
    | (with_reducible exact Keeps.keeps_abort _)
    | ((with_reducible refine Keeps.keeps_modS ?_); intro _; first
        | exact Nat.le_refl _
        | exact Nat.le_succ _
        | exact Nat.le_of_eq (next_name_counter _).symm
        | exact Nat.le_of_eq (skip_until_name_counter _ _ _).symm
        | (split <;> exact Nat.le_refl _))
    | (with_reducible exact h.get_use_loop)
    | (with_reducible exact kphp_assert_mono _ _)
    | (with_reducible exact next_cur_mono)
    | (with_reducible exact test_expect_mono _)
    | (with_reducible exact expect2_mono _ _ _)
    | (with_reducible apply Keeps.keeps_bind CounterLe.counter_pre)
    | (with_reducible apply Keeps.keeps_ite)
    | intro _
    | split
    | dsimp only

theorem get_namespace_use_loop_mono {c : Caps} (h : CapsMono c) :
    Keeps CounterLe (get_namespace_use_loop c) := by
  unfold get_namespace_use_loop
  repeat' first
    | (with_reducible exact Keeps.keeps_getS CounterLe.counter_pre)
    | (with_reducible exact Keeps.keeps_pure CounterLe.counter_pre _)
    | (with_reducible exact Keeps.keeps_abort _)
    | ((with_reducible refine Keeps.keeps_modS ?_); intro _; first
        | exact Nat.le_refl _
        | exact Nat.le_succ _
        | exact Nat.le_of_eq (next_name_counter _).symm
        | exact Nat.le_of_eq (skip_until_name_counter _ _ _).symm
        | (split <;> exact Nat.le_refl _))
    | (with_reducible exact h.get_namespace_use_loop)
    | (with_reducible exact test_expect_mono _)
    | (with_reducible exact get_use_mono h)
    | (with_reducible apply Keeps.keeps_bind CounterLe.counter_pre)
    | (with_reducible apply Keeps.keeps_ite)
    | intro _
    | split
    | dsimp only

theorem get_namespace_class_mono {c : Caps} (h : CapsMono c) (e : Env) :
    Keeps CounterLe (get_namespace_class e c) := by
  unfold get_namespace_class
  repeat' first
    | (with_reducible exact Keeps.keeps_getS CounterLe.counter_pre)
    | (with_reducible exact Keeps.keeps_pure CounterLe.counter_pre _)
    | (with_reducible exact Keeps.keeps_abort _)
    | ((with_reducible refine Keeps.keeps_modS ?_); intro _; first
        | exact Nat.le_refl _
        | exact Nat.le_succ _
        | exact Nat.le_of_eq (next_name_counter _).symm
        | exact Nat.le_of_eq (skip_until_name_counter _ _ _).symm
        | (split <;> exact Nat.le_refl _))
    | (with_reducible exact h.get_namespace_use_loop)
    | (with_reducible exact kphp_assert_mono _ _)
    | (with_reducible exact kphp_error_mono _ _)
    | (with_reducible exact has_error_mono)
    | (with_reducible exact cur_tok_mono)
    | (with_reducible exact next_cur_mono)
    | (with_reducible exact test_expect_mono _)
    | (with_reducible exact expect_mono _ _)
    | (with_reducible exact check_statement_end_mono)
    | (with_reducible exact get_class_mono h _ _)
    | (with_reducible apply Keeps.keeps_bind CounterLe.counter_pre)
    | (with_reducible apply Keeps.keeps_ite)
    | intro _
    | split
    | dsimp only

theorem add_static_fields_mono (cur_class : Option Nat) (e : Vertex) (access_type : AccessType)
    (l : List Vertex) : Keeps CounterLe (add_static_fields cur_class e access_type l) := by
  induction l with
  | nil => exact Keeps.keeps_pure CounterLe.counter_pre _
  | cons v vs ih =>
    unfold add_static_fields
    repeat' first
      | (with_reducible exact Keeps.keeps_pure CounterLe.counter_pre _)
      | (with_reducible exact kphp_error_mono _ _)
      | (with_reducible exact deref_mono _ _)
      | (with_reducible exact mod_members_mono _ _)
      | (with_reducible exact ih)
      | (with_reducible apply Keeps.keeps_bind CounterLe.counter_pre)
      | (with_reducible apply Keeps.keeps_ite)
      | intro _
      | split
      | dsimp only

theorem add_static_field_list_mono (cur_class : Option Nat) (extra_type : OperationExtra)
    (access_type : AccessType) (l : List Vertex) :
    Keeps CounterLe (add_static_field_list cur_class extra_type access_type l) := by
  induction l with
  | nil => exact Keeps.keeps_pure CounterLe.counter_pre _
  | cons v vs ih =>
    unfold add_static_field_list
    repeat' first
      | (with_reducible exact kphp_assert_mono _ _)
      | (with_reducible exact add_static_fields_mono _ _ _ _)
      | (with_reducible exact ih)
      | (with_reducible apply Keeps.keeps_bind CounterLe.counter_pre)
      | intro _
      | dsimp only

theorem get_static_field_list_mono {c : Caps} (h : CapsMono c) (access_type : AccessType) :
    Keeps CounterLe (get_static_field_list c access_type) := by
  unfold get_static_field_list
  repeat' first
    | (with_reducible exact Keeps.keeps_getS CounterLe.counter_pre)
    | (with_reducible exact Keeps.keeps_pure CounterLe.counter_pre _)
    | (with_reducible exact Keeps.keeps_abort _)
    | ((with_reducible refine Keeps.keeps_modS ?_); intro _; first
        | exact Nat.le_refl _
        | exact Nat.le_succ _
        | exact Nat.le_of_eq (next_name_counter _).symm
        | exact Nat.le_of_eq (skip_until_name_counter _ _ _).symm
        | (split <;> exact Nat.le_refl _))
    | (with_reducible exact get_multi_call_mono h _ _)
    | (with_reducible exact check_statement_end_mono)
    | (with_reducible exact add_static_field_list_mono _ _ _ _)
    | (with_reducible apply Keeps.keeps_bind CounterLe.counter_pre)
    | (with_reducible apply Keeps.keeps_ite)
    | intro _
    | split
    | dsimp only

theorem get_instance_var_list_mono {c : Caps} (h : CapsMono c) (phpdoc_token : Option Token) (access_type : AccessType) :
    Keeps CounterLe (get_instance_var_list c phpdoc_token access_type) := by
  unfold get_instance_var_list
  repeat' first
    | (with_reducible exact Keeps.keeps_getS CounterLe.counter_pre)
    | (with_reducible exact Keeps.keeps_pure CounterLe.counter_pre _)
    | (with_reducible exact Keeps.keeps_abort _)
    | ((with_reducible refine Keeps.keeps_modS ?_); intro _; first
        | exact Nat.le_refl _
        | exact Nat.le_succ _
        | exact Nat.le_of_eq (next_name_counter _).symm
        | exact Nat.le_of_eq (skip_until_name_counter _ _ _).symm
        | (split <;> exact Nat.le_refl _))
    | (with_reducible exact h.get_expression)
    | (with_reducible exact h.get_instance_var_list _ _)
    | (with_reducible exact kphp_error_mono _ _)
    | (with_reducible exact auto_location_mono)
    | (with_reducible exact next_cur_mono)
    | (with_reducible exact test_expect_mono _)
    | (with_reducible exact expect_mono _ _)
    | (with_reducible exact mod_members_mono _ _)
    | (with_reducible exact deref_mono _ _)
    | (with_reducible apply Keeps.keeps_bind CounterLe.counter_pre)
    | (with_reducible apply Keeps.keeps_ite)
    | intro _
    | split
    | dsimp only

theorem get_seq_loop_mono {c : Caps} (h : CapsMono c) (seq_next : List Vertex) :
    Keeps CounterLe (get_seq_loop c seq_next) := by
  unfold get_seq_loop
  repeat' first
    | (with_reducible exact Keeps.keeps_getS CounterLe.counter_pre)
    | (with_reducible exact Keeps.keeps_pure CounterLe.counter_pre _)
    | (with_reducible exact Keeps.keeps_abort _)
    | ((with_reducible refine Keeps.keeps_modS ?_); intro _; first
        | exact Nat.le_refl _
        | exact Nat.le_succ _
        | exact Nat.le_of_eq (next_name_counter _).symm
        | exact Nat.le_of_eq (skip_until_name_counter _ _ _).symm
        | (split <;> exact Nat.le_refl _))
    | (with_reducible exact h.get_statement _)
    | (with_reducible exact h.get_seq_loop _)
    | (with_reducible exact at_end_mono)
    | (with_reducible exact test_expect_mono _)
    | (with_reducible apply Keeps.keeps_bind CounterLe.counter_pre)
    | (with_reducible apply Keeps.keeps_ite)
    | intro _
    | split
    | dsimp only

theorem get_seq_mono {c : Caps} (h : CapsMono c) :
    Keeps CounterLe (get_seq c) := by
  unfold get_seq
  repeat' first
    | (with_reducible exact Keeps.keeps_getS CounterLe.counter_pre)
    | (with_reducible exact Keeps.keeps_pure CounterLe.counter_pre _)
    | (with_reducible exact Keeps.keeps_abort _)
    | ((with_reducible refine Keeps.keeps_modS ?_); intro _; first
        | exact Nat.le_refl _
        | exact Nat.le_succ _
        | exact Nat.le_of_eq (next_name_counter _).symm
        | exact Nat.le_of_eq (skip_until_name_counter _ _ _).symm
        | (split <;> exact Nat.le_refl _))
    | (with_reducible exact h.get_seq_loop _)
    | (with_reducible exact auto_location_mono)
    | (with_reducible apply Keeps.keeps_bind CounterLe.counter_pre)
    | (with_reducible apply Keeps.keeps_ite)
    | intro _
    | split
    | dsimp only

theorem get_statement_static_mono {c : Caps} (h : CapsMono c) (e : Env) (phpdoc_token : Option Token) :
    Keeps CounterLe (get_statement_static e c phpdoc_token) := by
  unfold get_statement_static
  repeat' first
    | (with_reducible exact Keeps.keeps_getS CounterLe.counter_pre)
    | (with_reducible exact Keeps.keeps_pure CounterLe.counter_pre _)
    | (with_reducible exact Keeps.keeps_abort _)
    | ((with_reducible refine Keeps.keeps_modS ?_); intro _; first
        | exact Nat.le_refl _
        | exact Nat.le_succ _
        | exact Nat.le_of_eq (next_name_counter _).symm
        | exact Nat.le_of_eq (skip_until_name_counter _ _ _).symm
        | (split <;> exact Nat.le_refl _))
    | (with_reducible exact kphp_error_mono _ _)
    | (with_reducible exact next_cur_mono)
    | (with_reducible exact get_multi_call_mono h _ _)
    | (with_reducible exact check_statement_end_mono)
    | (with_reducible exact get_function_mono h _ _ _ _)
    | (with_reducible exact get_static_field_list_mono h _)
    | (with_reducible apply Keeps.keeps_bind CounterLe.counter_pre)
    | (with_reducible apply Keeps.keeps_ite)
    | intro _
    | split
    | dsimp only

theorem get_statement_access_mono {c : Caps} (h : CapsMono c) (e : Env) (phpdoc_token : Option Token) (type : TokenType) :
    Keeps CounterLe (get_statement_access e c phpdoc_token type) := by
  unfold get_statement_access
  repeat' first
    | (with_reducible exact Keeps.keeps_getS CounterLe.counter_pre)
    | (with_reducible exact Keeps.keeps_pure CounterLe.counter_pre _)
    | (with_reducible exact Keeps.keeps_abort _)
    | ((with_reducible refine Keeps.keeps_modS ?_); intro _; first
        | exact Nat.le_refl _
        | exact Nat.le_succ _
        | exact Nat.le_of_eq (next_name_counter _).symm
        | exact Nat.le_of_eq (skip_until_name_counter _ _ _).symm
        | (split <;> exact Nat.le_refl _))
    | (with_reducible exact h.get_instance_var_list _ _)
    | (with_reducible exact kphp_error_mono _ _)
    | (with_reducible exact cur_tok_mono)
    | (with_reducible exact next_cur_mono)
    | (with_reducible exact expect_mono _ _)
    | (with_reducible exact get_function_mono h _ _ _ _)
    | (with_reducible exact get_static_field_list_mono h _)
    | (with_reducible apply Keeps.keeps_bind CounterLe.counter_pre)
    | (with_reducible apply Keeps.keeps_ite)
    | intro _
    | split
    | dsimp only

theorem get_statement_try_mono {c : Caps} (h : CapsMono c) :
    Keeps CounterLe (get_statement_try c) := by
  unfold get_statement_try
  repeat' first
    | (with_reducible exact Keeps.keeps_getS CounterLe.counter_pre)
    | (with_reducible exact Keeps.keeps_pure CounterLe.counter_pre _)
    | (with_reducible exact Keeps.keeps_abort _)
    | ((with_reducible refine Keeps.keeps_modS ?_); intro _; first
        | exact Nat.le_refl _
        | exact Nat.le_succ _
        | exact Nat.le_of_eq (next_name_counter _).symm
        | exact Nat.le_of_eq (skip_until_name_counter _ _ _).symm
        | (split <;> exact Nat.le_refl _))
    | (with_reducible exact h.get_expression)
    | (with_reducible exact h.get_statement _)
    | (with_reducible exact kphp_error_mono _ _)
    | (with_reducible exact auto_location_mono)
    | (with_reducible exact next_cur_mono)
    | (with_reducible exact expect_mono _ _)
    | (with_reducible apply Keeps.keeps_bind CounterLe.counter_pre)
    | (with_reducible apply Keeps.keeps_ite)
    | intro _
    | split
    | dsimp only

theorem get_statement_const_mono {c : Caps} (h : CapsMono c) :
    Keeps CounterLe (get_statement_const c) := by
  unfold get_statement_const
  repeat' first
    | (with_reducible exact Keeps.keeps_getS CounterLe.counter_pre)
    | (with_reducible exact Keeps.keeps_pure CounterLe.counter_pre _)
    | (with_reducible exact Keeps.keeps_abort _)
    | ((with_reducible refine Keeps.keeps_modS ?_); intro _; first
        | exact Nat.le_refl _
        | exact Nat.le_succ _
        | exact Nat.le_of_eq (next_name_counter _).symm
        | exact Nat.le_of_eq (skip_until_name_counter _ _ _).symm
        | (split <;> exact Nat.le_refl _))
    | (with_reducible exact h.get_expression)
    | (with_reducible exact kphp_error_mono _ _)
    | (with_reducible exact auto_location_mono)
    | (with_reducible exact next_cur_mono)
    | (with_reducible exact test_expect_mono _)
    | (with_reducible exact expect_mono _ _)
    | (with_reducible exact mod_members_mono _ _)
    | (with_reducible exact check_statement_end_mono)
    | (with_reducible apply Keeps.keeps_bind CounterLe.counter_pre)
    | (with_reducible apply Keeps.keeps_ite)
    | intro _
    | split
    | dsimp only

theorem get_statement_default_mono {c : Caps} (h : CapsMono c) (e : Env) (phpdoc_token : Option Token) :
    Keeps CounterLe (get_statement_default e c phpdoc_token) := by
  unfold get_statement_default
  repeat' first
    | (with_reducible exact Keeps.keeps_getS CounterLe.counter_pre)
    | (with_reducible exact Keeps.keeps_pure CounterLe.counter_pre _)
    | (with_reducible exact Keeps.keeps_abort _)
    | ((with_reducible refine Keeps.keeps_modS ?_); intro _; first
        | exact Nat.le_refl _
        | exact Nat.le_succ _
        | exact Nat.le_of_eq (next_name_counter _).symm
        | exact Nat.le_of_eq (skip_until_name_counter _ _ _).symm
        | (split <;> exact Nat.le_refl _))
    | (with_reducible exact h.get_expression)
    | (with_reducible exact cur_type_mono)
    | (with_reducible exact auto_location_mono)
    | (with_reducible exact get_type_rule_mono h _)
    | (with_reducible exact check_statement_end_mono)
    | (with_reducible apply Keeps.keeps_bind CounterLe.counter_pre)
    | (with_reducible apply Keeps.keeps_ite)
    | intro _
    | split
    | dsimp only

theorem get_statement_mono {c : Caps} (h : CapsMono c) (e : Env) (phpdoc_token : Option Token) :
    Keeps CounterLe (get_statement e c phpdoc_token) := by
  unfold get_statement
  repeat' first
    | (with_reducible exact Keeps.keeps_getS CounterLe.counter_pre)
    | (with_reducible exact Keeps.keeps_pure CounterLe.counter_pre _)
    | (with_reducible exact Keeps.keeps_abort _)
    | ((with_reducible refine Keeps.keeps_modS ?_); intro _; first
        | exact Nat.le_refl _
        | exact Nat.le_succ _
        | exact Nat.le_of_eq (next_name_counter _).symm
        | exact Nat.le_of_eq (skip_until_name_counter _ _ _).symm
        | (split <;> exact Nat.le_refl _))
    | (with_reducible exact h.get_expression)
    | (with_reducible exact h.get_statement _)
    | (with_reducible exact h.get_instance_var_list _ _)
    | (with_reducible exact kphp_error_mono _ _)
    | (with_reducible exact kphp_warning_mono _)
    | (with_reducible exact cur_tok_mono)
    | (with_reducible exact auto_location_mono)
    | (with_reducible exact next_cur_mono)
    | (with_reducible exact get_func_call_mono h _ _)
    | (with_reducible exact get_multi_call_mono h _ _)
    | (with_reducible exact get_return_mono h)
    | (with_reducible exact get_break_continue_mono h _)
    | (with_reducible exact get_foreach_mono h)
    | (with_reducible exact get_while_mono h)
    | (with_reducible exact get_if_mono h)
    | (with_reducible exact get_for_mono h)
    | (with_reducible exact get_do_mono h)
    | (with_reducible exact get_switch_mono h)
    | (with_reducible exact check_seq_end_mono)
    | (with_reducible exact check_statement_end_mono)
    | (with_reducible exact get_function_mono h _ _ _ _)
    | (with_reducible exact get_class_mono h _ _)
    | (with_reducible exact get_use_mono h)
    | (with_reducible exact get_seq_mono h)
    | (with_reducible exact get_statement_static_mono h _ _)
    | (with_reducible exact get_statement_access_mono h _ _ _)
    | (with_reducible exact get_statement_try_mono h)
    | (with_reducible exact get_statement_const_mono h)
    | (with_reducible exact get_statement_default_mono h _ _)
    | (with_reducible apply Keeps.keeps_bind CounterLe.counter_pre)
    | (with_reducible apply Keeps.keeps_ite)
    | intro _
    | split
    | dsimp only

theorem run_mono {c : Caps} (h : CapsMono c) (e : Env) :
    Keeps CounterLe (run e c) := by
  unfold run
  repeat' first
    | (with_reducible exact Keeps.keeps_getS CounterLe.counter_pre)
    | (with_reducible exact Keeps.keeps_pure CounterLe.counter_pre _)
    | (with_reducible exact Keeps.keeps_abort _)
    | ((with_reducible refine Keeps.keeps_modS ?_); intro _; first
        | exact Nat.le_refl _
        | exact Nat.le_succ _
        | exact Nat.le_of_eq (next_name_counter _).symm
        | exact Nat.le_of_eq (skip_until_name_counter _ _ _).symm
        | (split <;> exact Nat.le_refl _))
    | (with_reducible exact h.get_statement _)
    | (with_reducible exact kphp_assert_mono _ _)
    | (with_reducible exact kphp_error_mono _ _)
    | (with_reducible exact at_end_mono)
    | (with_reducible exact test_expect_mono _)
    | (with_reducible exact get_namespace_class_mono h _)
    | (with_reducible apply Keeps.keeps_bind CounterLe.counter_pre)
    | (with_reducible apply Keeps.keeps_ite)
    | intro _
    | split
    | dsimp only

theorem no_fuel_mono : CapsMono no_fuel where
  gen_list_loop := fun _ _ _ _ _ => Keeps.keeps_abort _
  get_string_build_loop := fun _ _ => Keeps.keeps_abort _
  get_postfix_expression := fun _ => Keeps.keeps_abort _
  get_expr_top := Keeps.keeps_abort _
  get_binary_op := fun _ _ => Keeps.keeps_abort _
  get_binary_op_loop := fun _ _ _ => Keeps.keeps_abort _
  get_expression := Keeps.keeps_abort _
  get_func_param := Keeps.keeps_abort _
  get_func_param_from_callback := Keeps.keeps_abort _
  get_type_rule_ := Keeps.keeps_abort _
  get_type_rule_lt_loop := fun _ _ => Keeps.keeps_abort _
  get_type_rule_index_loop := fun _ => Keeps.keeps_abort _
  get_switch_loop := fun _ => Keeps.keeps_abort _
  get_switch_seq_loop := fun _ => Keeps.keeps_abort _
  parse_function_specifiers := fun _ => Keeps.keeps_abort _
  get_use_loop := Keeps.keeps_abort _
  get_namespace_use_loop := Keeps.keeps_abort _
  get_anonymous_function := Keeps.keeps_abort _
  get_statement := fun _ => Keeps.keeps_abort _
  get_instance_var_list := fun _ _ => Keeps.keeps_abort _
  get_seq_loop := fun _ => Keeps.keeps_abort _

/-- No entry point of the parser ever lowers the name counter. -/
theorem parser_mono (e : Env) (n : Nat) : CapsMono (parser e n) := by
  induction n with
  | zero => exact no_fuel_mono
  | succ n ih =>
    exact {
      gen_list_loop := fun a b d p r => gen_list_loop_mono ih a b d p r
      get_string_build_loop := fun a b => get_string_build_loop_mono ih a b
      get_postfix_expression := fun a => get_postfix_expression_mono ih a
      get_expr_top := get_expr_top_mono ih
      get_binary_op := fun a b => get_binary_op_mono ih e a b
      get_binary_op_loop := fun a b d => get_binary_op_loop_mono ih e a b d
      get_expression := get_expression_mono ih e
      get_func_param := get_func_param_mono ih e
      get_func_param_from_callback := get_func_param_from_callback_mono ih e
      get_type_rule_ := get_type_rule__mono ih e
      get_type_rule_lt_loop := fun a b => get_type_rule_lt_loop_mono ih a b
      get_type_rule_index_loop := fun a => get_type_rule_index_loop_mono ih a
      get_switch_loop := fun a => get_switch_loop_mono ih a
      get_switch_seq_loop := fun a => get_switch_seq_loop_mono ih a
      parse_function_specifiers := fun a => parse_function_specifiers_mono ih a
      get_use_loop := get_use_loop_mono ih
      get_namespace_use_loop := get_namespace_use_loop_mono ih
      get_anonymous_function := get_anonymous_function_mono ih e
      get_statement := fun a => get_statement_mono ih e a
      get_instance_var_list := fun a b => get_instance_var_list_mono ih a b
      get_seq_loop := fun a => get_seq_loop_mono ih a }

theorem replace_backslashes_data (s : String) :
    (replace_backslashes s).data = s.data.map fun c => if c = backslash then '$' else c := rfl

theorem replace_backslashes_id (s : String) (h : backslash ∉ s.data) :
    replace_backslashes s = s := by
  apply String.ext
  rw [replace_backslashes_data]
  conv_rhs => rw [← List.map_id s.data]
  apply List.map_congr_left
  intro c hc
  have : c ≠ backslash := fun hcb => h (hcb ▸ hc)
  simp [this]

theorem replace_backslashes_append (a b : String) :
    replace_backslashes (a ++ b) = replace_backslashes a ++ replace_backslashes b := by
  apply String.ext
  simp [replace_backslashes_data, String.data_append]

theorem string_append_right_cancel {a b c : String} (h : a ++ c = b ++ c) : a = b := by
  apply String.ext
  have := congrArg String.data h
  simp only [String.data_append] at this
  exact List.append_cancel_right this

theorem string_append_left_cancel {a b c : String} (h : c ++ a = c ++ b) : a = b := by
  apply String.ext
  have := congrArg String.data h
  simp only [String.data_append] at this
  exact List.append_cancel_left this

theorem lambda_class_name_injective (e : Env)
    (hinj : Function.Injective e.gen_anonymous_function_name) :
    Function.Injective (lambda_class_name e) := fun _ _ h =>
  hinj (string_append_left_cancel h)

theorem replace_lambda_class_name (e : Env) (i : Nat)
    (hbs : backslash ∉ (e.gen_anonymous_function_name i).data) :
    replace_backslashes (lambda_class_name e i) =
      "$L$" ++ e.gen_anonymous_function_name i := by
  unfold lambda_class_name
  rw [replace_backslashes_append, replace_backslashes_id _ hbs]
  rfl

theorem colliding_env_injective :
    Function.Injective colliding_env.gen_anonymous_function_name := by
  intro a b h
  have hlen : ∀ n, (String.mk (List.replicate (n + 5) 'c')).length = n + 5 := fun n => by
    simp [String.length]
  have h31 : ¬ (3 : Nat) = 1 := by decide
  simp only [colliding_env] at h
  by_cases ha1 : a = 1 <;> by_cases ha3 : a = 3 <;> by_cases hb1 : b = 1 <;>
    by_cases hb3 : b = 3 <;>
    simp only [ha1, ha3, hb1, hb3, h31, ↓reduceIte, if_false, if_true] at h <;>
    first
    | omega
    | exact absurd h (by decide)
    | (have h2 := congrArg String.length h
       rw [hlen] at h2
       have h3 : ("a\\b" : String).length = 3 := by decide
       have h4 : ("a$b" : String).length = 3 := by decide
       omega)
    | (have h2 := congrArg String.length h
       rw [hlen, hlen] at h2
       omega)

theorem lambda_declaration_name (e : Env) (c : Caps) (access : AccessType)
    (u : List Vertex) (flags : Vertex) (s : GenTree) :
    Runs s (parse_function_declaration e c access (some u) flags)
      (fun r _ => ∀ d, r = some d →
        d.name.get_string = e.gen_anonymous_function_name s.name_counter) := by
  unfold parse_function_declaration
  repeat' first
    | (with_reducible apply Runs.auto_location_bind)
    | (with_reducible apply Runs.test_expect_bind)
    | (with_reducible apply Runs.next_cur_bind)
    | (with_reducible apply Runs.run_getS_bind)
    | (with_reducible apply Runs.modS_bind)
    | (with_reducible apply Runs.run_pure_bind)
    | (with_reducible apply Runs.assert_bind; intro _)
    | (with_reducible apply Runs.run_abort)
    | (with_reducible apply Runs.run_pure)
    | (with_reducible apply Runs.run_bind; intro _ _ _)
    | (with_reducible apply Runs.run_ite <;> intro _)
    | split
    | dsimp only
  all_goals intro d hd
  all_goals cases hd
  all_goals first
    | exact congrArg e.gen_anonymous_function_name (next_name_counter s)
    | exact absurd rfl ‹¬ (some u).isSome = true›

theorem lambda_names_distinct (e : Env)
    (hinj : Function.Injective e.gen_anonymous_function_name)
    (hbs : ∀ i, backslash ∉ (e.gen_anonymous_function_name i).data) (i j : Nat) (hij : i ≠ j) :
    lambda_class_name e i ≠ lambda_class_name e j ∧
    lambda_constructor_name e i ≠ lambda_constructor_name e j ∧
    lambda_invoke_name e i ≠ lambda_invoke_name e j := by
  refine ⟨fun h => hij (lambda_class_name_injective e hinj h), fun h => hij ?_, fun h => hij ?_⟩
  · unfold lambda_constructor_name at h
    rw [replace_lambda_class_name e i (hbs i), replace_lambda_class_name e j (hbs j)] at h
    exact hinj (string_append_left_cancel
      (string_append_right_cancel (string_append_right_cancel h)))
  · unfold lambda_invoke_name at h
    rw [replace_lambda_class_name e i (hbs i), replace_lambda_class_name e j (hbs j)] at h
    exact hinj (string_append_left_cancel
      (string_append_right_cancel (string_append_right_cancel h)))

theorem lambda_class_name_not_generated (e : Env)
    (hbs : ∀ i, backslash ∉ (e.gen_anonymous_function_name i).data) (i j : Nat) :
    lambda_class_name e j ≠ e.gen_anonymous_function_name i := by
  intro h
  apply hbs i
  rw [← h]
  unfold lambda_class_name
  simp [String.data_append]

theorem unary_env_injective : Function.Injective unary_env.gen_anonymous_function_name := by
  intro a b h
  have h2 : (unary_name a).length = (unary_name b).length := congrArg String.length h
  simp only [unary_name, String.length, List.length_replicate] at h2
  omega

theorem unary_env_no_backslash (i : Nat) :
    backslash ∉ (unary_env.gen_anonymous_function_name i).data := by
  intro h
  have h1 : backslash ∈ List.replicate (i + 1) 'a' := h
  have h2 : backslash = 'a' := List.eq_of_mem_replicate h1
  exact absurd h2 (by decide)

theorem synthesized_names_counterexample :
    Function.Injective colliding_env.gen_anonymous_function_name ∧
    Res.names ((parser colliding_env 80).get_seq_loop [] two_lambdas_state) =
      some (["$L\\a\\b", "$L\\a$b"],
        ["main", "ccccc", "$L$a$b$$__invoke", "$L$a$b$$__construct", "",
         "ccccccc", "$L$a$b$$__invoke", "$L$a$b$$__construct", ""]) :=
  ⟨colliding_env_injective, by decide!⟩

theorem conjuncts_isset_conj (last : Vertex) (before : List Vertex) :
    conjuncts (isset_conj last before) =
      (before.reverse ++ [last]).map fun a => Vertex.create op_isset [a] := by
  induction before generalizing last with
  | nil => rfl
  | cons b before ih =>
    have : conjuncts (isset_conj last (b :: before)) =
        conjuncts (isset_conj b before) ++ [Vertex.create op_isset [last]] := by
      simp [isset_conj, conjuncts, conjuncts_left, Vertex.create]
    rw [this, ih]
    simp

theorem and_nodes_isset_conj (last : Vertex) (before : List Vertex) :
    and_nodes (isset_conj last before) = before.length := by
  induction before generalizing last with
  | nil => rfl
  | cons b before ih =>
    have : and_nodes (isset_conj last (b :: before)) = and_nodes (isset_conj b before) + 1 := by
      simp [isset_conj, and_nodes, and_nodes_left, Vertex.create]
    rw [this, ih]
    rfl

theorem isset_fold_eq (a : Vertex) (before : List Vertex) :
    ∀ (l : List Vertex) (last : Vertex), a :: l = before.reverse ++ [last] →
      l.foldl (fun left arg => Vertex.create op_log_and [left, Vertex.create op_isset [arg]])
        (Vertex.create op_isset [a]) = isset_conj last before := by
  induction before with
  | nil =>
    intro l last h
    simp only [List.reverse_nil, List.nil_append, List.cons.injEq] at h
    obtain ⟨rfl, rfl⟩ := h
    rfl
  | cons b bs ih =>
    intro l last h
    obtain ⟨a', l0, h0⟩ : ∃ a' l0, bs.reverse ++ [b] = a' :: l0 := by
      cases hb : bs.reverse ++ [b] with
      | nil => simp at hb
      | cons a' l0 => exact ⟨a', l0, rfl⟩
    rw [List.reverse_cons, h0, List.cons_append, List.cons.injEq] at h
    obtain ⟨rfl, rfl⟩ := h
    rw [List.foldl_append, ih l0 b h0.symm]
    rfl

theorem parser_gen_list_loop (e : Env) (n : Nat) :
    (parser e (n + 1)).gen_list_loop = gen_list_loop (parser e n) := rfl

theorem gen_list_loop_more (c : Caps) (E : Operation) (f : GetFunc) (d : TokenType)
    (prev : Bool) (res : List Vertex) (s s1 : GenTree) (v : Vertex)
    (h : call_get_func c f s = Res.ok (some v) s1) (hd : s1.tok.type = d) :
    gen_list_loop c E f d prev res s = c.gen_list_loop E f d true (res ++ [v]) s1.next := by
  have hc : (s1.tok.type == d) = true := by simp [hd]
  unfold gen_list_loop
  simp only [P.bind_apply, h, Res.bind_ok, cur_type_apply, hc]
  rfl

theorem gen_list_loop_last (c : Caps) (E : Operation) (f : GetFunc) (d : TokenType)
    (prev : Bool) (res : List Vertex) (s s1 : GenTree) (v : Vertex)
    (h : call_get_func c f s = Res.ok (some v) s1) (hd : s1.tok.type ≠ d) :
    gen_list_loop c E f d prev res s = Res.ok (true, res ++ [v]) s1 := by
  have hc : (s1.tok.type == d) = false := by simpa using hd
  unfold gen_list_loop
  simp only [P.bind_apply, h, Res.bind_ok, cur_type_apply, hc]
  rfl

theorem gen_list_loop_more_empty (c : Caps) (E : Operation) (f : GetFunc) (d : TokenType)
    (prev : Bool) (res : List Vertex) (s s1 : GenTree)
    (h : call_get_func c f s = Res.ok none s1) (hd : s1.tok.type = d)
    (h1 : E ≠ op_err) (h2 : E ≠ op_none) :
    gen_list_loop c E f d prev res s =
      c.gen_list_loop E f d true (res ++ [Vertex.create E []]) s1.next := by
  have hc : (s1.tok.type == d) = true := by simp [hd]
  have h1' : (E != op_err) = true := by simpa using h1
  have h2' : (E == op_none) = false := by simpa using h2
  unfold gen_list_loop
  simp only [P.bind_apply, h, Res.bind_ok, cur_type_apply, hc, h1', h2', Bool.or_true,
    Bool.and_self, ↓reduceIte, Bool.false_eq_true]
  rfl

theorem gen_list_loop_last_empty (c : Caps) (E : Operation) (f : GetFunc) (d : TokenType)
    (res : List Vertex) (s s1 : GenTree)
    (h : call_get_func c f s = Res.ok none s1) (hd : s1.tok.type ≠ d)
    (h1 : E ≠ op_err) (h2 : E ≠ op_none) :
    gen_list_loop c E f d true res s = Res.ok (true, res ++ [Vertex.create E []]) s1 := by
  have hc : (s1.tok.type == d) = false := by simpa using hd
  have h1' : (E != op_err) = true := by simpa using h1
  have h2' : (E == op_none) = false := by simpa using h2
  unfold gen_list_loop
  simp only [P.bind_apply, h, Res.bind_ok, cur_type_apply, hc, h1', h2', Bool.true_or,
    Bool.and_self, ↓reduceIte, Bool.false_eq_true]
  rfl

theorem gen_list_loop_first_empty (c : Caps) (E : Operation) (f : GetFunc) (d : TokenType)
    (res : List Vertex) (s s1 : GenTree)
    (h : call_get_func c f s = Res.ok none s1) (hd : s1.tok.type ≠ d) :
    gen_list_loop c E f d false res s = Res.ok (true, res) s1 := by
  have hc : (s1.tok.type == d) = false := by simpa using hd
  unfold gen_list_loop
  simp only [P.bind_apply, h, Res.bind_ok, cur_type_apply, hc, Bool.or_self, Bool.and_false,
    Bool.false_eq_true, ↓reduceIte]
  rfl

theorem gen_list_loop_stop (c : Caps) (f : GetFunc) (d : TokenType) (prev : Bool)
    (res : List Vertex) (s s1 : GenTree) (h : call_get_func c f s = Res.ok none s1) :
    gen_list_loop c op_none f d prev res s = Res.ok (true, res) s1 := by
  unfold gen_list_loop
  simp only [P.bind_apply, h, Res.bind_ok, cur_type_apply]
  cases prev <;> cases (s1.tok.type == d) <;> rfl

/-- Under a placeholder policy, the list loop turns a run of elements into their nodes,
a placeholder standing for every elided one. -/
theorem gen_list_loop_fill (e : Env) (f : GetFunc) (d : TokenType) (E : Operation)
    (h1 : E ≠ op_err) (h2 : E ≠ op_none) {s s' : GenTree} {vs : List (Option Vertex)}
    (hp : Slots e f d s vs s') :
    ∀ (prev : Bool) (res : List Vertex) (v : Option Vertex) (s'' : GenTree),
      Ev (fun n => call_get_func (parser e n) f s') (Res.ok v s'') → s''.tok.type ≠ d →
      (prev = true ∨ vs ≠ [] ∨ v.isSome = true) →
      Ev (fun n => gen_list_loop (parser e n) E f d prev res s)
        (Res.ok (true, res ++ (vs ++ [v]).map (slot_node E)) s'') := by
  induction hp with
  | nil s =>
    intro prev res v s'' hl hd hne
    obtain ⟨N, hN⟩ := hl
    refine ⟨N, fun n hn => ?_⟩
    cases v with
    | some v => exact gen_list_loop_last _ _ _ _ _ _ _ _ _ (hN n hn) hd
    | none =>
      have hprev : prev = true := by simpa using hne
      subst hprev
      exact gen_list_loop_last_empty _ _ _ _ _ _ _ (hN n hn) hd h1 h2
  | cons s s1 s' v0 vs h hd0 ht ih =>
    intro prev res v s'' hl hd hne
    obtain ⟨N1, hN1⟩ := h
    obtain ⟨N2, hN2⟩ := ih true (res ++ [slot_node E v0]) v s'' hl hd (Or.inl rfl)
    refine ⟨max N1 (N2 + 1), fun n hn => ?_⟩
    obtain ⟨m, rfl⟩ : ∃ m, n = m + 1 := ⟨n - 1, by omega⟩
    have hm := hN2 m (by omega)
    have hres : res ++ ((v0 :: vs) ++ [v]).map (slot_node E) =
        res ++ [slot_node E v0] ++ (vs ++ [v]).map (slot_node E) := by simp
    beta_reduce at hm ⊢
    rw [hres, ← hm]
    cases v0 with
    | some v0 =>
      rw [gen_list_loop_more _ _ _ _ _ _ _ _ _ (hN1 (m + 1) (by omega)) hd0,
        parser_gen_list_loop]
      rfl
    | none =>
      rw [gen_list_loop_more_empty _ _ _ _ _ _ _ _ (hN1 (m + 1) (by omega)) hd0 h1 h2,
        parser_gen_list_loop]
      rfl

/-- Elements that are all present, each followed by the delimiter, are collected in
order whatever the placeholder policy; the loop then goes on after them. -/
theorem gen_list_loop_skip (e : Env) (f : GetFunc) (d : TokenType) (E : Operation)
    {s s' : GenTree} {os : List (Option Vertex)} (hp : Slots e f d s os s') :
    ∀ (vs : List Vertex), vs.map some = os → ∀ (prev : Bool) (res : List Vertex)
      (r : Res (Bool × List Vertex)),
      Ev (fun n => gen_list_loop (parser e n) E f d (prev || !vs.isEmpty) (res ++ vs) s') r →
      Ev (fun n => gen_list_loop (parser e n) E f d prev res s) r := by
  induction hp with
  | nil s =>
    intro vs hvs prev res r h
    cases vs with
    | nil => simpa using h
    | cons a vs => simp at hvs
  | cons s s1 s' v0 os h hd0 ht ih =>
    intro vs hvs prev res r hr
    cases vs with
    | nil => simp at hvs
    | cons a vs =>
      simp only [List.map_cons, List.cons.injEq] at hvs
      obtain ⟨rfl, hvs⟩ := hvs
      have hr' : Ev (fun n => gen_list_loop (parser e n) E f d (true || !vs.isEmpty)
          (res ++ [a] ++ vs) s') r := by
        simpa using hr
      obtain ⟨N1, hN1⟩ := h
      obtain ⟨N2, hN2⟩ := ih vs hvs true (res ++ [a]) r hr'
      refine ⟨max N1 (N2 + 1), fun n hn => ?_⟩
      obtain ⟨m, rfl⟩ : ∃ m, n = m + 1 := ⟨n - 1, by omega⟩
      have hm := hN2 m (by omega)
      beta_reduce at hm ⊢
      rw [← hm, gen_list_loop_more _ _ _ _ _ _ _ _ _ (hN1 (m + 1) (by omega)) hd0,
        parser_gen_list_loop]

theorem ev_gen_list (e : Env) (E : Operation) (f : GetFunc) (d : TokenType) (s : GenTree)
    (r : Res (Bool × List Vertex))
    (h : Ev (fun n => gen_list_loop (parser e n) E f d false [] s) r) :
    Ev (fun n => gen_list (parser e n) E [] f d s) r := by
  obtain ⟨N, hN⟩ := h
  refine ⟨N + 1, fun n hn => ?_⟩
  obtain ⟨m, rfl⟩ : ∃ m, n = m + 1 := ⟨n - 1, by omega⟩
  exact hN m (by omega)

theorem get_func_call_unclosed (c : Caps) (Op E : Operation) (s s1 s2 : GenTree)
    (next : List Vertex) (hpar : s.next.tok.type = tok_oppar)
    (hskip : skip_phpdoc_tokens s.next.next = Res.ok () s1)
    (hlist : gen_list c E [] GetFunc.get_expression tok_comma s1 = Res.ok (true, next) s2)
    (hcl : s2.tok.type ≠ tok_clpar) :
    get_func_call c Op E s =
      Res.ok none (s2.report ("Expected " ++ "')'" ++ ", found '" ++ found_str s2 ++ "'")) := by
  unfold get_func_call
  simp only [P.bind_apply, auto_location_apply, cur_tok_apply, next_cur_apply, Res.bind_ok,
    expect_ok _ _ _ hpar, hskip, hlist, kphp_error_apply, expect_apply, if_neg hcl,
    Bool.not_true, Bool.not_false, Bool.false_eq_true, ↓reduceIte, P.pure_apply]

theorem get_func_call_isset (c : Caps) (s s1 s2 : GenTree) (first : Vertex)
    (rest : List Vertex) (hpar : s.next.tok.type = tok_oppar)
    (hskip : skip_phpdoc_tokens s.next.next = Res.ok () s1)
    (hlist : gen_list c op_err [] GetFunc.get_expression tok_comma s1 =
      Res.ok (true, first :: rest) s2)
    (hcl : s2.tok.type = tok_clpar) :
    get_func_call c op_isset op_err s =
      Res.ok (some ((rest.foldl
        (fun left arg => Vertex.create op_log_and [left, Vertex.create op_isset [arg]])
        (Vertex.create op_isset [first])).set_line s.line_num)) s2.next := by
  unfold get_func_call
  simp only [P.bind_apply, auto_location_apply, cur_tok_apply, next_cur_apply, Res.bind_ok,
    expect_ok _ _ _ hpar, hskip, hlist, kphp_error_apply, expect_ok _ _ _ hcl,
    Bool.not_true, Bool.not_false, Bool.false_eq_true, ↓reduceIte, P.pure_apply, beq_self_eq_true]

theorem get_func_call_isset_empty (c : Caps) (s s1 s2 : GenTree)
    (hpar : s.next.tok.type = tok_oppar)
    (hskip : skip_phpdoc_tokens s.next.next = Res.ok () s1)
    (hlist : gen_list c op_err [] GetFunc.get_expression tok_comma s1 = Res.ok (true, []) s2)
    (hcl : s2.tok.type = tok_clpar) :
    get_func_call c op_isset op_err s =
      Res.ok none (s2.next.report "isset function requires at least one argument") := by
  unfold get_func_call
  simp only [P.bind_apply, auto_location_apply, cur_tok_apply, next_cur_apply, Res.bind_ok,
    expect_ok _ _ _ hpar, hskip, hlist, kphp_error_apply, expect_ok _ _ _ hcl,
    Bool.not_true, Bool.not_false, Bool.false_eq_true, ↓reduceIte, P.pure_apply, beq_self_eq_true]

theorem get_func_call_tuple (c : Caps) (s s1 s2 : GenTree) (next : List Vertex)
    (hpar : s.next.tok.type = tok_oppar)
    (hskip : skip_phpdoc_tokens s.next.next = Res.ok () s1)
    (hlist : gen_list c op_err [] GetFunc.get_expression tok_comma s1 = Res.ok (true, next) s2)
    (hcl : s2.tok.type = tok_clpar) :
    get_func_call c op_tuple op_err s =
      Res.ok (some ((Vertex.create op_tuple next).set_line s.line_num)) s2.next := by
  unfold get_func_call
  simp only [P.bind_apply, auto_location_apply, cur_tok_apply, next_cur_apply, Res.bind_ok,
    expect_ok _ _ _ hpar, hskip, hlist, kphp_error_apply, expect_ok _ _ _ hcl,
    Bool.not_true, Bool.not_false, Bool.false_eq_true, ↓reduceIte, P.pure_apply]
  rfl

theorem get_short_array_unclosed (c : Caps) (s s2 : GenTree) (next : List Vertex)
    (hlist : gen_list c op_none [] GetFunc.get_expression tok_comma s.next =
      Res.ok (true, next) s2)
    (hcl : s2.tok.type ≠ tok_clbrk) :
    get_short_array c s =
      Res.ok none (s2.report ("Expected " ++ "']'" ++ ", found '" ++ found_str s2 ++ "'")) := by
  unfold get_short_array
  simp only [P.bind_apply, auto_location_apply, next_cur_apply, Res.bind_ok, hlist,
    kphp_error_apply, expect_apply, if_neg hcl, Bool.not_true, Bool.not_false,
    Bool.false_eq_true, ↓reduceIte, P.pure_apply]

theorem get_expr_top_isset (c : Caps) (s : GenTree) (h : s.tok.type = tok_isset) :
    get_expr_top c s = get_func_call c op_isset op_err s := by
  simp only [get_expr_top, P.bind_apply, getS_apply, Res.bind_ok, h]

theorem get_expr_top_tuple (c : Caps) (s s' : GenTree) (res : Vertex)
    (h : s.tok.type = tok_tuple)
    (hc : get_func_call c op_tuple op_err s = Res.ok (some res) s') :
    get_expr_top c s =
      if res.next.isEmpty then Res.ok none (s'.report "tuple() must have at least one argument")
      else Res.ok (some res) s' := by
  simp only [get_expr_top, P.bind_apply, getS_apply, Res.bind_ok, h, hc, kphp_error_apply]
  cases res.next.isEmpty <;> rfl

theorem get_expr_top_array (c : Caps) (s : GenTree) (h : s.tok.type = tok_array) :
    get_expr_top c s = get_func_call c op_array op_none s := by
  simp only [get_expr_top, P.bind_apply, getS_apply, Res.bind_ok, h]

theorem get_expr_top_short_array (c : Caps) (s : GenTree) (h : s.tok.type = tok_opbrk) :
    get_expr_top c s = get_short_array c s := by
  simp only [get_expr_top, P.bind_apply, getS_apply, Res.bind_ok, h]

theorem ev_get_expr_top (e : Env) (s : GenTree) (r : Res (Option Vertex))
    (m : Caps → P (Option Vertex)) (hm : ∀ c, get_expr_top c s = m c s)
    (h : Ev (fun n => m (parser e n) s) r) :
    Ev (fun n => get_expr_top (parser e n) s) r := by
  obtain ⟨N, hN⟩ := h
  exact ⟨N, fun n hn => (hm _).trans (hN n hn)⟩

theorem ev_call_expression (e : Env) (s : GenTree) (r : Res (Option Vertex))
    (h : Ev (fun n => (parser e n).get_expression s) r) :
    Ev (fun n => call_get_func (parser e n) GetFunc.get_expression s) r := h

/-- Claim C21: under the placeholder policy of `list()` (`op_lvalue_null`), `gen_list`
succeeds on every delimited list: whatever elements are parsed or elided before each of
the `k` delimiters and after the last one, the flag returned is true; with `k ≥ 1`
delimiters the result has exactly `k + 1` elements, each parsed element at its position
and a placeholder node of kind `op_lvalue_null` at the position of every elided one. -/
theorem list_empty_slots (e : Env) (f : GetFunc) (d : TokenType) (s s' s'' : GenTree)
    (vs : List (Option Vertex)) (v : Option Vertex)
    (hp : Slots e f d s vs s')
    (hl : Ev (fun n => call_get_func (parser e n) f s') (Res.ok v s''))
    (hd : s''.tok.type ≠ d) :
    ∃ l, Ev (fun n => gen_list (parser e n) op_lvalue_null [] f d s) (Res.ok (true, l) s'') ∧
      (vs ≠ [] → l = (vs ++ [v]).map (slot_node op_lvalue_null) ∧ l.length = vs.length + 1) ∧
      (vs = [] → l = v.toList) := by
  by_cases hvs : vs = []
  · subst hvs
    cases v with
    | some v =>
      refine ⟨[v], ev_gen_list _ _ _ _ _ _ ?_, fun h => absurd rfl h, fun _ => rfl⟩
      exact gen_list_loop_fill e f d op_lvalue_null (by decide) (by decide) hp false []
        (some v) s'' hl hd (Or.inr (Or.inr rfl))
    | none =>
      refine ⟨[], ev_gen_list _ _ _ _ _ _ ?_, fun h => absurd rfl h, fun _ => rfl⟩
      cases hp
      obtain ⟨N, hN⟩ := hl
      exact ⟨N, fun n hn => gen_list_loop_first_empty _ _ _ _ _ _ _ (hN n hn) hd⟩
  · refine ⟨(vs ++ [v]).map (slot_node op_lvalue_null), ev_gen_list _ _ _ _ _ _ ?_,
      fun _ => ⟨rfl, by simp⟩, fun h => absurd h hvs⟩
    have := gen_list_loop_fill e f d op_lvalue_null (by decide) (by decide) hp false []
      v s'' hl hd (Or.inr (Or.inl hvs))
    simpa using this

set_option maxRecDepth 8000 in
theorem list_empty_slots_witness :
    ∃ l, Ev (fun n => gen_list (parser sample_env n) op_lvalue_null [] GetFunc.get_expression
        tok_comma { sample_state tokens_list_gap with cur := 2 })
        (Res.ok (true, l) { sample_state tokens_list_gap with cur := 6 }) ∧
      l = [leaf op_var 1 "a", Vertex.create op_lvalue_null [], leaf op_var 1 "b"] := by
  have le : ∀ c c', CapsLe c c' → PLe (call_get_func c GetFunc.get_expression)
      (call_get_func c' GetFunc.get_expression) := fun c c' h => call_get_func_le h _
  have h0 := ev_of_run sample_env (fun c => call_get_func c GetFunc.get_expression) le 40
    { sample_state tokens_list_gap with cur := 2 } (some (leaf op_var 1 "a"))
    { sample_state tokens_list_gap with cur := 3 } rfl
  have h1 := ev_of_run sample_env (fun c => call_get_func c GetFunc.get_expression) le 40
    (GenTree.next { sample_state tokens_list_gap with cur := 3 }) none
    { sample_state tokens_list_gap with cur := 4 } rfl
  have h2 := ev_of_run sample_env (fun c => call_get_func c GetFunc.get_expression) le 40
    (GenTree.next { sample_state tokens_list_gap with cur := 4 }) (some (leaf op_var 1 "b"))
    { sample_state tokens_list_gap with cur := 6 } rfl
  obtain ⟨l, hl, hk, _⟩ := list_empty_slots sample_env GetFunc.get_expression tok_comma _ _ _
    [some (leaf op_var 1 "a"), none] (some (leaf op_var 1 "b"))
    (Slots.cons _ _ _ _ _ h0 rfl (Slots.cons _ _ _ _ _ h1 rfl (Slots.nil _))) h2 (by decide)
  exact ⟨l, hl, (hk (by simp)).1⟩

/-- Claim C22 (amended): in `array(...)` and in `[...]`, an elided element that is followed
by a comma ends the element list: `gen_list` stops there with the elements before it and
makes no placeholder; the closing token is then not found, an error is recorded and no
node is returned. -/
theorem array_empty_slot (e : Env) (s s1 s' s'' : GenTree) (vs : List Vertex)
    (hp : Slots e GetFunc.get_expression tok_comma s1 (vs.map some) s')
    (hl : Ev (fun n => (parser e n).get_expression s') (Res.ok none s''))
    (hd : s''.tok.type = tok_comma) :
    Ev (fun n => gen_list (parser e n) op_none [] GetFunc.get_expression tok_comma s1)
        (Res.ok (true, vs) s'') ∧
      (s.tok.type = tok_array → s.next.tok.type = tok_oppar →
        skip_phpdoc_tokens s.next.next = Res.ok () s1 →
        Ev (fun n => get_expr_top (parser e n) s)
          (Res.ok none (s''.report ("Expected " ++ "')'" ++ ", found '" ++ found_str s'' ++ "'")))) ∧
      (s.tok.type = tok_opbrk → s.next = s1 →
        Ev (fun n => get_expr_top (parser e n) s)
          (Res.ok none (s''.report ("Expected " ++ "']'" ++ ", found '" ++ found_str s'' ++ "'")))) := by
  have hlist : Ev (fun n => gen_list (parser e n) op_none [] GetFunc.get_expression tok_comma s1)
      (Res.ok (true, vs) s'') := by
    apply ev_gen_list
    apply gen_list_loop_skip e _ _ op_none hp vs rfl false []
    obtain ⟨N, hN⟩ := hl
    refine ⟨N, fun n hn => ?_⟩
    simpa using gen_list_loop_stop (parser e n) GetFunc.get_expression tok_comma
      (false || !vs.isEmpty) ([] ++ vs) s' s'' (hN n hn)
  obtain ⟨N, hN⟩ := hlist
  refine ⟨⟨N, hN⟩, fun h1 h2 h3 => ⟨N, fun n hn => ?_⟩, fun h1 h2 => ⟨N, fun n hn => ?_⟩⟩
  · beta_reduce
    rw [get_expr_top_array _ _ h1]
    exact get_func_call_unclosed _ _ _ _ _ _ _ h2 h3 (hN n hn) (by rw [hd]; decide)
  · beta_reduce
    rw [get_expr_top_short_array _ _ h1]
    exact get_short_array_unclosed _ _ _ _ (by rw [h2]; exact hN n hn) (by rw [hd]; decide)

set_option maxRecDepth 8000 in
theorem array_empty_slot_witness :
    Ev (fun n => get_expr_top (parser sample_env n) (sample_state tokens_array_gap))
      (Res.ok none (GenTree.report { sample_state tokens_array_gap with cur := 4 }
        "Expected ')', found ''")) := by
  have le : ∀ c c', CapsLe c c' → PLe c.get_expression c'.get_expression :=
    fun c c' h => h.get_expression
  have h0 := ev_of_run sample_env (fun c => c.get_expression) le 40
    { sample_state tokens_array_gap with cur := 2 } (some (leaf op_int_const 1 "1"))
    { sample_state tokens_array_gap with cur := 3 } rfl
  have h1 := ev_of_run sample_env (fun c => c.get_expression) le 40
    (GenTree.next { sample_state tokens_array_gap with cur := 3 }) none
    { sample_state tokens_array_gap with cur := 4 } rfl
  exact (array_empty_slot sample_env (sample_state tokens_array_gap) _ _ _
    [leaf op_int_const 1 "1"] (Slots.cons _ _ _ _ _ h0 rfl (Slots.nil _)) h1 rfl).2.1
    rfl rfl rfl

set_option maxRecDepth 8000 in
/-- Counterexample to claim C22 as stated: `array(1, , 2)` and `[1, , 2]` are not parsed to
an array node with a placeholder; the parse records an error and returns no node. -/
theorem array_literal_counterexample :
    (∃ s', (parser sample_env 60).get_expression (sample_state tokens_array_gap) =
      Res.ok none s' ∧ s'.errors.length = 1) ∧
    (∃ s', (parser sample_env 60).get_expression (sample_state tokens_short_array_gap) =
      Res.ok none s' ∧ s'.errors.length = 1) :=
  ⟨⟨_, rfl, rfl⟩, ⟨_, rfl, rfl⟩⟩

/-- Claim C23: for `n ≥ 1` arguments `e1, …, en`, parsing `isset(e1, …, en)` returns the
left-nested conjunction of the spec: its conjuncts are `isset(e1)`, …, `isset(en)` in
order, exactly `n` of them, joined by `n − 1` logical-and nodes; for `n = 1` the result is
`isset(e1)` alone. -/
theorem isset_folding (e : Env) (s s1 s' s'' : GenTree) (vs : List Vertex) (v : Vertex)
    (hs : s.tok.type = tok_isset) (hpar : s.next.tok.type = tok_oppar)
    (hskip : skip_phpdoc_tokens s.next.next = Res.ok () s1)
    (hp : Slots e GetFunc.get_expression tok_comma s1 (vs.map some) s')
    (hl : Ev (fun n => (parser e n).get_expression s') (Res.ok (some v) s''))
    (hcl : s''.tok.type = tok_clpar) :
    Ev (fun n => get_expr_top (parser e n) s)
        (Res.ok (some ((isset_conj v vs.reverse).set_line s.line_num)) s''.next) ∧
      conjuncts (isset_conj v vs.reverse) =
        (vs ++ [v]).map (fun a => Vertex.create op_isset [a]) ∧
      and_nodes (isset_conj v vs.reverse) = (vs ++ [v]).length - 1 ∧
      (vs = [] → isset_conj v vs.reverse = Vertex.create op_isset [v]) := by
  refine ⟨?_, ?_, ?_, ?_⟩
  · have hlist : Ev (fun n => gen_list (parser e n) op_err [] GetFunc.get_expression tok_comma s1)
        (Res.ok (true, vs ++ [v]) s'') := by
      apply ev_gen_list
      apply gen_list_loop_skip e _ _ op_err hp vs rfl false []
      obtain ⟨N, hN⟩ := hl
      refine ⟨N, fun n hn => ?_⟩
      simpa using gen_list_loop_last (parser e n) op_err GetFunc.get_expression tok_comma
        (false || !vs.isEmpty) ([] ++ vs) s' s'' v (hN n hn) (by rw [hcl]; decide)
    obtain ⟨N, hN⟩ := hlist
    refine ⟨N, fun n hn => ?_⟩
    beta_reduce
    rw [get_expr_top_isset _ _ hs]
    obtain ⟨a, l, hal⟩ : ∃ a l, vs ++ [v] = a :: l := by
      cases h : vs ++ [v] with
      | nil => simp at h
      | cons a l => exact ⟨a, l, rfl⟩
    have h := hN n hn
    rw [hal] at h
    rw [get_func_call_isset _ _ _ _ _ _ hpar hskip h hcl,
      isset_fold_eq a vs.reverse l v (by rw [List.reverse_reverse]; exact hal.symm)]
  · rw [conjuncts_isset_conj, List.reverse_reverse]
  · rw [and_nodes_isset_conj]
    simp
  · rintro rfl
    rfl

set_option maxRecDepth 8000 in
theorem isset_folding_witness :
    Ev (fun n => get_expr_top (parser sample_env n) (sample_state tokens_isset_three))
      (Res.ok (some (node1 op_log_and
        [Vertex.create op_log_and [Vertex.create op_isset [leaf op_var 1 "a"],
          Vertex.create op_isset [leaf op_var 1 "b"]],
         Vertex.create op_isset [leaf op_var 1 "c"]]))
        { sample_state tokens_isset_three with cur := 8 }) := by
  have le : ∀ c c', CapsLe c c' → PLe c.get_expression c'.get_expression :=
    fun c c' h => h.get_expression
  have h0 := ev_of_run sample_env (fun c => c.get_expression) le 40
    { sample_state tokens_isset_three with cur := 2 } (some (leaf op_var 1 "a"))
    { sample_state tokens_isset_three with cur := 3 } rfl
  have h1 := ev_of_run sample_env (fun c => c.get_expression) le 40
    (GenTree.next { sample_state tokens_isset_three with cur := 3 }) (some (leaf op_var 1 "b"))
    { sample_state tokens_isset_three with cur := 5 } rfl
  have h2 := ev_of_run sample_env (fun c => c.get_expression) le 40
    (GenTree.next { sample_state tokens_isset_three with cur := 5 }) (some (leaf op_var 1 "c"))
    { sample_state tokens_isset_three with cur := 7 } rfl
  exact (isset_folding sample_env (sample_state tokens_isset_three) _ _ _
    [leaf op_var 1 "a", leaf op_var 1 "b"] (leaf op_var 1 "c") rfl rfl rfl
    (Slots.cons _ _ _ _ _ h0 rfl (Slots.cons _ _ _ _ _ h1 rfl (Slots.nil _))) h2 rfl).1

/-- Claim C24 (amended): `isset()` and `tuple()` with no argument report a recoverable error
and return an absent result; no placeholder node is made. -/
theorem zero_argument_misuse (e : Env) (s : GenTree) (hpar : s.next.tok.type = tok_oppar)
    (hcl : s.next.next.tok.type = tok_clpar)
    (hu : e.info.tok_to_unary_op tok_clpar = op_err) :
    (s.tok.type = tok_isset → Ev (fun n => get_expr_top (parser e n) s)
      (Res.ok none (s.next.next.next.report "isset function requires at least one argument"))) ∧
    (s.tok.type = tok_tuple → Ev (fun n => get_expr_top (parser e n) s)
      (Res.ok none (s.next.next.next.report "tuple() must have at least one argument"))) := by
  have hskip : skip_phpdoc_tokens s.next.next = Res.ok () s.next.next :=
    skip_phpdoc_tokens_none _ (by rw [hcl]; decide)
  have hlist : ∀ n, e.info.op_priority_end + 4 ≤ n →
      gen_list (parser e n) op_err [] GetFunc.get_expression tok_comma s.next.next =
        Res.ok (true, []) s.next.next :=
    fun n hn => gen_list_none e _ (Or.inr hcl) (by rw [hcl]; exact hu) n hn
  refine ⟨fun hs => ⟨e.info.op_priority_end + 4, fun n hn => ?_⟩,
    fun hs => ⟨e.info.op_priority_end + 4, fun n hn => ?_⟩⟩
  · beta_reduce
    rw [get_expr_top_isset _ _ hs]
    exact get_func_call_isset_empty _ _ _ _ hpar hskip (hlist n hn) hcl
  · beta_reduce
    rw [get_expr_top_tuple _ _ _ _ hs
      (get_func_call_tuple _ _ _ _ _ hpar hskip (hlist n hn) hcl)]
    rfl

theorem zero_argument_misuse_witness :
    Ev (fun n => get_expr_top (parser sample_env n) (sample_state tokens_isset_empty))
      (Res.ok none ((sample_state tokens_isset_empty).next.next.next.report
        "isset function requires at least one argument")) :=
  (zero_argument_misuse sample_env (sample_state tokens_isset_empty) rfl rfl rfl).1 rfl

set_option maxRecDepth 8000 in
/-- Counterexample to claim C24 as stated: the result of parsing `isset()`, and of parsing
`tuple()`, is absent, not a placeholder node. -/
theorem zero_argument_counterexample :
    (∃ s', (parser sample_env 60).get_expr_top (sample_state tokens_isset_empty) =
      Res.ok none s' ∧ s'.errors.length = 1) ∧
    (∃ s', (parser sample_env 60).get_expr_top (sample_state tokens_tuple_empty) =
      Res.ok none s' ∧ s'.errors.length = 1) :=
  ⟨⟨_, rfl, rfl⟩, ⟨_, rfl, rfl⟩⟩

/-- Claim C25: every node returned by `get_return` is a return node with exactly one
child.  Its void flag is set exactly when no value expression was parsed, and then the
child is a null-literal placeholder; otherwise the child is the parsed expression and the
flag is clear. -/
theorem uniform_return_nodes (c : Caps) (s s' : GenTree) (v : Vertex)
    (h : get_return c s = Res.ok (some v) s') :
    v.type = op_return ∧ v.next.length = 1 ∧
      ∃ r s1 s2, skip_phpdoc_tokens s.next = Res.ok () s1 ∧
        c.get_expression s1 = Res.ok r s2 ∧
        (v.info.void_flag = true ↔ r = none) ∧
        (r = none → v.next = [(Vertex.create op_null []).set_line s2.line_num]) ∧
        (∀ x, r = some x → v.next = [x] ∧ v.info.void_flag = false) := by
  unfold get_return at h
  simp only [P.bind_apply, auto_location_apply, next_cur_apply, Res.bind_ok] at h
  rcases hskip : skip_phpdoc_tokens s.next with ⟨_, s1⟩ | err
  · simp only [hskip, Res.bind_ok, P.bind_apply] at h
    rcases hexpr : c.get_expression s1 with ⟨r, s2⟩ | err
    · simp only [hexpr, Res.bind_ok, expect_apply, P.bind_apply, auto_location_apply] at h
      by_cases h2 : s2.tok.type = tok_semicolon
      · simp only [h2, ↓reduceIte, Res.bind_ok, Bool.not_true, Bool.false_eq_true,
          P.pure_apply, Res.ok.injEq, Option.some.injEq] at h
        obtain ⟨hv, _⟩ := h
        subst hv
        refine ⟨rfl, rfl, r, s1, s2, rfl, hexpr, ?_, ?_, ?_⟩
        · cases r <;> simp [Vertex.set_info, Vertex.info]
        · rintro rfl
          rfl
        · rintro x rfl
          exact ⟨rfl, rfl⟩
      · simp [h2] at h
    · simp [hexpr] at h
  · simp [hskip] at h

set_option maxRecDepth 8000 in
theorem uniform_return_nodes_witness :
    ∃ v s', get_return (parser sample_env 40) (sample_state tokens_return_void) =
        Res.ok (some v) s' ∧ v.type = op_return ∧ v.next.length = 1 :=
  ⟨_, _, rfl, (uniform_return_nodes (parser sample_env 40) (sample_state tokens_return_void)
    _ _ rfl).1, (uniform_return_nodes (parser sample_env 40) (sample_state tokens_return_void)
    _ _ rfl).2.1⟩

theorem SameInput.same_refl (s : GenTree) : SameInput s s := ⟨rfl, rfl, rfl, rfl⟩

theorem SameInput.same_report (s : GenTree) (m : String) : SameInput s (s.report m) :=
  ⟨rfl, rfl, rfl, rfl⟩

theorem SameInput.same_tok {s t : GenTree} (h : SameInput s t) : t.tok = s.tok := by
  unfold GenTree.tok
  rw [h.1, h.2.1]

theorem next_tokens (s : GenTree) : s.next.tokens = s.tokens := by
  unfold GenTree.next
  split
  · dsimp only
    split <;> rfl
  · rfl

theorem next_end (s : GenTree) : s.next.end_ = s.end_ := by
  unfold GenTree.next
  split
  · dsimp only
    split <;> rfl
  · rfl

theorem next_processing_file (s : GenTree) : s.next.processing_file = s.processing_file := by
  unfold GenTree.next
  split
  · dsimp only
    split <;> rfl
  · rfl

theorem next_cursor (s : GenTree) :
    s.next.cur = if s.cur != s.end_ then s.cur + 1 else s.cur := by
  unfold GenTree.next
  split
  · dsimp only
    split <;> rfl
  · rfl

theorem SameInput.same_next {s t : GenTree} (h : SameInput s t) : SameInput s.next t.next := by
  obtain ⟨h1, h2, h3, h4⟩ := h
  refine ⟨?_, ?_, ?_, ?_⟩
  · rw [next_tokens, next_tokens, h1]
  · rw [next_cursor, next_cursor, h2, h3]
  · rw [next_end, next_end, h3]
  · rw [next_processing_file, next_processing_file, h4]

theorem SameInput.same_trans {s t u : GenTree} (h : SameInput s t) (h' : SameInput t u) :
    SameInput s u :=
  ⟨h'.1.trans h.1, h'.2.1.trans h.2.1, h'.2.2.1.trans h.2.2.1, h'.2.2.2.trans h.2.2.2⟩

theorem last_segment_list (l : List Char) (c : Char) :
    c ∉ l.drop (after_last l c) ∧
      ∃ q : List Char, l = q ++ l.drop (after_last l c) ∧ (q = [] ∨ q.getLast? = some c) := by
  have hsplit : l = (l.reverse.dropWhile fun x => x != c).reverse ++
      (l.reverse.takeWhile fun x => x != c).reverse := by
    rw [← List.reverse_append, List.takeWhile_append_dropWhile, List.reverse_reverse]
  have hdrop : l.drop (after_last l c) = (l.reverse.takeWhile fun x => x != c).reverse := by
    have hlen : after_last l c = ((l.reverse.dropWhile fun x => x != c).reverse).length := by
      unfold after_last
      have := congrArg List.length hsplit
      simp only [List.length_append, List.length_reverse] at this ⊢
      omega
    rw [hlen]
    exact (congrArg (List.drop _) hsplit).trans (List.drop_left _ _)
  rw [hdrop]
  refine ⟨?_, (l.reverse.dropWhile fun x => x != c).reverse, hsplit, ?_⟩
  · intro hmem
    have := List.mem_takeWhile_imp (List.mem_reverse.mp hmem)
    simp at this
  · cases hd : l.reverse.dropWhile fun x => x != c with
    | nil => exact Or.inl rfl
    | cons a r =>
      right
      have ha := List.head_dropWhile_not (fun x => x != c) l.reverse (by rw [hd]; simp)
      simp only [hd, List.head_cons, bne_iff_ne, ne_eq, Decidable.not_not,
        Bool.not_eq_true, bne_eq_false_iff_eq] at ha
      simp [ha]

theorem uses_find_append (l : List (String × String)) (a t k : String) :
    uses_find (l ++ [(a, t)]) k =
      match uses_find l k with
      | some v => some v
      | none => if a = k then some t else none := by
  unfold uses_find
  rw [List.find?_append]
  cases h : l.find? fun u => u.1 == k with
  | some u => rfl
  | none =>
    by_cases hak : a = k
    · simp [hak]
    · simp [hak]

theorem stripped_name (name : String) :
    is_stripped name (if name.data.head? == some backslash then str_drop name 1 else name) := by
  constructor
  · intro h
    rw [if_pos (by simp [h])]
    cases hd : name.data with
    | nil => simp [hd] at h
    | cons a r =>
      simp only [hd, List.head?_cons, Option.some.injEq] at h
      simp [str_drop, hd, h]
  · intro h
    rw [if_neg (by simpa using h)]

theorem last_segment_stripped (name t : String) (ht : is_stripped name t) :
    is_last_segment name (str_drop t (after_last t.data backslash)) := by
  obtain ⟨hno, q, hq, hlast⟩ := last_segment_list t.data backslash
  refine ⟨hno, ?_⟩
  by_cases h : name.data.head? = some backslash
  · refine ⟨backslash :: q, ?_, Or.inr ?_⟩
    · show name.data = (backslash :: q) ++ t.data.drop (after_last t.data backslash)
      rw [ht.1 h, List.cons_append, ← hq]
    · rcases hlast with rfl | hlast
      · rfl
      · cases q with
        | nil => rfl
        | cons a r => simpa using hlast
  · have hs := ht.2 h
    subst hs
    exact ⟨q, hq, hlast⟩

theorem with_use_facts (y target : String) (t : GenTree) :
    (if (List.find? (fun u => u.1 == y) t.processing_file.namespace_uses).isNone = true then
        { t with processing_file := { t.processing_file with
            namespace_uses := t.processing_file.namespace_uses ++ [(y, target)] } }
      else t).processing_file.namespace_uses =
      (if uses_find t.processing_file.namespace_uses y = none then
        t.processing_file.namespace_uses ++ [(y, target)]
      else t.processing_file.namespace_uses) := by
  unfold uses_find
  cases h : List.find? (fun u => u.1 == y) t.processing_file.namespace_uses <;> simp

theorem uses_table_facts (old : List (String × String)) (y target : String) :
    (∀ k v, uses_find old k = some v →
      uses_find (if uses_find old y = none then old ++ [(y, target)] else old) k = some v) ∧
    uses_find (if uses_find old y = none then old ++ [(y, target)] else old) y =
      some ((uses_find old y).getD target) := by
  constructor
  · intro k v hk
    split
    · rw [uses_find_append, hk]
    · exact hk
  · cases h : uses_find old y with
    | none => simp [uses_find_append, h]
    | some v => simp [h]

theorem use_tail (c : Caps) (s2 : GenTree) :
    (if s2.tok.type = tok_comma then (do next_cur; c.get_use_loop : P Unit) else pure ()) s2 =
      if s2.tok.type = tok_comma then c.get_use_loop s2.next else Res.ok () s2 := by
  split <;> rfl

theorem kphp_error_same (b : Bool) (msg : String) (s : GenTree) :
    ∃ t0, SameInput s t0 ∧ kphp_error b msg s = Res.ok (!b) t0 := by
  cases b
  · exact ⟨_, SameInput.same_report s msg, rfl⟩
  · exact ⟨_, SameInput.same_refl s, rfl⟩

/-- Claim C26: for a clause `use P [as A]`, one pass of `get_use` takes as alias the
identifier after `as` when present, else the part of `P` after its last backslash (all of
`P` when it has none), takes as target `P` without one leading backslash, and adds the
mapping from alias to target to the table only when the alias is not yet a key: every
mapping present before is unchanged, and an alias registered before keeps its target.
After a comma the next clause is handled the same way. -/
theorem use_alias_table (c : Caps) (s : GenTree) (hname : s.tok.type = tok_func_name)
    (hne : s.tok.str_val ≠ "")
    (has : s.next.tok.type = tok_as → s.next.next.tok.type = tok_func_name) :
    ∃ (alias_ target : String) (s2 : GenTree),
      get_use_loop c s =
        (if s2.tok.type = tok_comma then c.get_use_loop s2.next else Res.ok () s2) ∧
      (s.next.tok.type = tok_as → alias_ = s.next.next.tok.str_val) ∧
      (s.next.tok.type ≠ tok_as → is_last_segment s.tok.str_val alias_) ∧
      is_stripped s.tok.str_val target ∧
      s2.processing_file.namespace_uses =
        (if uses_find s.processing_file.namespace_uses alias_ = none then
          s.processing_file.namespace_uses ++ [(alias_, target)]
        else s.processing_file.namespace_uses) ∧
      (∀ k v, uses_find s.processing_file.namespace_uses k = some v →
        uses_find s2.processing_file.namespace_uses k = some v) ∧
      uses_find s2.processing_file.namespace_uses alias_ =
        some ((uses_find s.processing_file.namespace_uses alias_).getD target) := by
  have hte : (s.tok.type == tok_func_name) = true := by simp [hname]
  have hnb : (s.tok.str_val != "") = true := by simpa using hne
  unfold get_use_loop
  simp only [P.bind_apply, test_expect_apply, hte, Bool.not_true, Bool.false_eq_true, ↓reduceIte,
    P.pure_apply, Res.bind_ok, cur_tok_apply, kphp_assert, hnb, next_cur_apply, modS_apply]
  generalize htarget : (if (s.tok.str_val.data.head? == some backslash) = true then
    str_drop s.tok.str_val 1 else s.tok.str_val) = target
  have hstrip : is_stripped s.tok.str_val target := htarget ▸ stripped_name _
  obtain ⟨t0, hsame, hk⟩ := kphp_error_same
    (str_drop target (after_last target.data backslash) != "")
    "KPHP doesn't support use of global namespace" s
  simp only [hk, Res.bind_ok, P.bind_apply, next_cur_apply, test_expect_apply, cur_tok_apply,
    P.pure_apply, modS_apply]
  have h1 : t0.next.tok = s.next.tok := hsame.same_next.same_tok
  have h2 : t0.next.next.tok = s.next.next.tok := hsame.same_next.same_next.same_tok
  have hp1 : t0.next.processing_file = s.processing_file :=
    hsame.same_next.2.2.2.trans (next_processing_file s)
  have hp3 : t0.next.next.next.processing_file = s.processing_file := by
    rw [next_processing_file, next_processing_file]
    exact hp1
  by_cases hcase : s.next.tok.type = tok_as
  · have hf := has hcase
    simp only [h1, h2, hcase, hf, beq_self_eq_true, ↓reduceIte, Bool.not_true,
      Bool.false_eq_true, Res.bind_ok, P.bind_apply, P.pure_apply, cur_tok_apply,
      next_cur_apply, modS_apply, test_expect_apply, beq_iff_eq]
    refine ⟨s.next.next.tok.str_val, target, _, use_tail c _, fun _ => rfl, fun h => absurd rfl h,
      hstrip, ?_⟩
    rw [with_use_facts, hp3]
    exact ⟨rfl, uses_table_facts _ _ _⟩
  · have hcase' : (s.next.tok.type == tok_as) = false := by simpa using hcase
    simp only [h1, hcase', Bool.false_eq_true, ↓reduceIte, Res.bind_ok, P.bind_apply,
      P.pure_apply, modS_apply, test_expect_apply, beq_iff_eq]
    refine ⟨str_drop target (after_last target.data backslash), target, _, use_tail c _,
      fun h => absurd h hcase, fun _ => last_segment_stripped _ _ hstrip, hstrip, ?_⟩
    rw [with_use_facts, hp1]
    exact ⟨rfl, uses_table_facts _ _ _⟩

theorem use_alias_table_witness :
    ∃ (alias_ target : String) (s2 : GenTree),
      get_use_loop (parser sample_env 5) (sample_state tokens_use_as) =
        (if s2.tok.type = tok_comma then (parser sample_env 5).get_use_loop s2.next
          else Res.ok () s2) ∧
      ((sample_state tokens_use_as).next.tok.type = tok_as →
        alias_ = (sample_state tokens_use_as).next.next.tok.str_val) ∧
      ((sample_state tokens_use_as).next.tok.type ≠ tok_as →
        is_last_segment (sample_state tokens_use_as).tok.str_val alias_) ∧
      is_stripped (sample_state tokens_use_as).tok.str_val target ∧
      s2.processing_file.namespace_uses =
        (if uses_find (sample_state tokens_use_as).processing_file.namespace_uses alias_ = none
          then (sample_state tokens_use_as).processing_file.namespace_uses ++ [(alias_, target)]
        else (sample_state tokens_use_as).processing_file.namespace_uses) ∧
      (∀ k v, uses_find (sample_state tokens_use_as).processing_file.namespace_uses k = some v →
        uses_find s2.processing_file.namespace_uses k = some v) ∧
      uses_find s2.processing_file.namespace_uses alias_ =
        some ((uses_find (sample_state tokens_use_as).processing_file.namespace_uses
          alias_).getD target) :=
  use_alias_table (parser sample_env 5) (sample_state tokens_use_as) rfl (by decide)
    (fun _ => rfl)

theorem next_errors (s : GenTree) : s.next.errors = s.errors := by
  unfold GenTree.next
  split
  · dsimp only
    split <;> rfl
  · rfl

theorem next_functions (s : GenTree) : s.next.functions = s.functions := by
  unfold GenTree.next
  split
  · dsimp only
    split <;> rfl
  · rfl

theorem next_stage_line_tokens (s t : GenTree) (h1 : t.tokens = s.tokens) (h2 : t.cur = s.cur)
    (h3 : t.end_ = s.end_) (h4 : t.stage_line = s.stage_line) :
    t.next.stage_line = s.next.stage_line := by
  unfold GenTree.next GenTree.tok
  simp only [h1, h2, h3]
  split
  · split
    · rfl
    · exact h4
  · exact h4

theorem Stopped.stopped_next {pf : SrcFile} {cl : List ClassData} {fn : List FunctionData}
    {d : Diagnostic} {t : GenTree} (h : Stopped pf cl fn d t) : Stopped pf cl fn d t.next :=
  ⟨(next_processing_file t).trans h.1, (next_classes t).trans h.2.1,
    (next_functions t).trans h.2.2.1, by rw [next_errors]; exact h.2.2.2⟩

theorem Stopped.stopped_report {pf : SrcFile} {cl : List ClassData} {fn : List FunctionData}
    {d : Diagnostic} {t : GenTree} (h : Stopped pf cl fn d t) (m : String) :
    Stopped pf cl fn d (t.report m) :=
  ⟨h.1, h.2.1, h.2.2.1, List.mem_append_left _ h.2.2.2⟩

theorem namespace_tail (e : Env) (c : Caps) (pf : SrcFile) (cl : List ClassData)
    (fn : List FunctionData) (d : Diagnostic) (t : GenTree) (h : Stopped pf cl fn d t) :
    ∃ s', (do
        next_cur
        let _ ← expect tok_semicolon "';'"
        if (← has_error) then
          modS fun s => { s with cur := s.end_ }
          return none
        else
          c.get_namespace_use_loop
          let t ← cur_tok
          let phpdoc_token ←
            if t.type == tok_phpdoc || t.type == tok_phpdoc_kphp then do
              next_cur
              pure (some t)
            else pure none
          let cv ← get_class e c phpdoc_token
          if !(← check_statement_end) then
            return none
          else
            return cv : P (Option Vertex)) t = Res.ok none s' ∧ s'.cur = s'.end_ ∧
        Stopped pf cl fn d s' := by
  have key : ∀ t5 : GenTree, Stopped pf cl fn d t5 →
      ∃ s', (do
        if (← has_error) then
          modS fun s => { s with cur := s.end_ }
          return none
        else
          c.get_namespace_use_loop
          let t ← cur_tok
          let phpdoc_token ←
            if t.type == tok_phpdoc || t.type == tok_phpdoc_kphp then do
              next_cur
              pure (some t)
            else pure none
          let cv ← get_class e c phpdoc_token
          if !(← check_statement_end) then
            return none
          else
            return cv : P (Option Vertex)) t5 = Res.ok none s' ∧ s'.cur = s'.end_ ∧
        Stopped pf cl fn d s' := by
    intro t5 h5
    have hne : t5.errors.isEmpty = false := by
      cases hl : t5.errors with
      | nil => have := h5.2.2.2; rw [hl] at this; cases this
      | cons a l => rfl
    refine ⟨{ t5 with cur := t5.end_ }, ?_, rfl, h5⟩
    simp only [P.bind_apply, has_error, hne, Res.bind_ok, Bool.not_false, ↓reduceIte,
      modS_apply, P.pure_apply]
  simp only [P.bind_apply, next_cur_apply, Res.bind_ok, expect_apply]
  by_cases hsemi : t.next.tok.type = tok_semicolon
  · simp only [if_pos hsemi, Res.bind_ok]
    exact key _ h.stopped_next.stopped_next
  · simp only [if_neg hsemi, Res.bind_ok]
    exact key _ (h.stopped_next.stopped_report _)

theorem namespace_mismatch_run (e : Env) (c : Caps) (s : GenTree)
    (hs : s.tok.type = tok_namespace) (hempty : s.processing_file.namespace_name = "")
    (hlib : s.processing_file.owner_lib = none)
    (hmis : s.next.tok.str_val ≠
      replace_characters s.processing_file.unified_dir_name '/' backslash) :
    ∃ s', get_namespace_class e c s = Res.ok none s' ∧ s'.cur = s'.end_ ∧
      s'.processing_file.namespace_name = s.next.tok.str_val ∧
      s'.processing_file.namespace_uses = s.processing_file.namespace_uses ∧
      s'.classes = s.classes ∧ s'.functions = s.functions ∧
      { line := s.next.stage_line, msg := "Wrong namespace name, expected " ++
        replace_characters s.processing_file.unified_dir_name '/' backslash } ∈ s'.errors := by
  have hs' : (s.tok.type == tok_namespace) = true := by simp [hs]
  have he' : (s.processing_file.namespace_name == "") = true := by simp [hempty]
  unfold get_namespace_class
  simp only [P.bind_apply, test_expect_apply, hs', kphp_assert, ↓reduceIte, P.pure_apply,
    Res.bind_ok, getS_apply, he', next_cur_apply]
  obtain ⟨t1, hsame, hk⟩ := kphp_error_same (s.next.tok.type == tok_func_name)
    "Namespace name expected" s.next
  have hst : t1.stage_line = s.next.stage_line := by
    revert hk
    cases (s.next.tok.type == tok_func_name) <;> intro hk <;> cases hk <;> rfl
  have hcl : t1.classes = s.classes := by
    revert hk
    cases (s.next.tok.type == tok_func_name) <;> intro hk <;> cases hk <;>
      exact next_classes s
  have hfn : t1.functions = s.functions := by
    revert hk
    cases (s.next.tok.type == tok_func_name) <;> intro hk <;> cases hk <;>
      exact next_functions s
  have hpf : t1.processing_file = s.processing_file :=
    hsame.2.2.2.trans (next_processing_file s)
  have hmis' : (t1.tok.str_val ==
      replace_characters t1.processing_file.unified_dir_name '/' backslash) = false := by
    rw [hsame.same_tok, hpf]
    simpa using hmis
  have hlib' : t1.processing_file.owner_lib = none := by rw [hpf, hlib]
  simp only [hk, Res.bind_ok, getS_apply, hlib', P.pure_apply, P.bind_apply, kphp_error_apply,
    hmis', Bool.false_eq_true, ↓reduceIte, modS_apply]
  have hstop : Stopped { s.processing_file with namespace_name := s.next.tok.str_val } s.classes
      s.functions { line := s.next.stage_line, msg := "Wrong namespace name, expected " ++
        replace_characters s.processing_file.unified_dir_name '/' backslash }
      { t1.report ("Wrong namespace name, expected " ++
          replace_characters t1.processing_file.unified_dir_name '/' backslash) with
        processing_file := { t1.processing_file with namespace_name := t1.tok.str_val } } := by
    refine ⟨?_, hcl, hfn, ?_⟩
    · show ({ t1.processing_file with namespace_name := t1.tok.str_val } : SrcFile) = _
      rw [hpf, hsame.same_tok]
    · show _ ∈ t1.errors ++ [_]
      rw [hpf, hst]
      simp
  obtain ⟨s', h1, h2, h3⟩ := namespace_tail e c _ _ _ _ _ hstop
  refine ⟨s', h1, h2, ?_, ?_, h3.2.1, h3.2.2.1, h3.2.2.2⟩
  · rw [h3.1]
  · rw [h3.1]

/-- Claim C27 (amended): a namespace declaration whose name differs from the expected one
makes `get_namespace_class` report the error and still record the declared name as the
namespace of the unit; parsing then stops: the cursor is moved to the end sentinel and no
node is returned, so the `use` statements and the class declaration that follow are
neither parsed nor registered (the alias table, the classes and the functions stay as
they were). -/
theorem namespace_mismatch_stops (e : Env) (c : Caps) (s : GenTree)
    (hs : s.tok.type = tok_namespace) (hempty : s.processing_file.namespace_name = "")
    (hlib : s.processing_file.owner_lib = none)
    (hmis : s.next.tok.str_val ≠
      replace_characters s.processing_file.unified_dir_name '/' backslash) :
    ∃ s', run e c s = Res.ok none s' ∧ s'.cur = s'.end_ ∧
      s'.processing_file.namespace_name = s.next.tok.str_val ∧
      s'.processing_file.namespace_uses = s.processing_file.namespace_uses ∧
      s'.classes = s.classes ∧ s'.functions = s.functions ∧
      { line := s.next.stage_line, msg := "Wrong namespace name, expected " ++
        replace_characters s.processing_file.unified_dir_name '/' backslash } ∈ s'.errors := by
  obtain ⟨s', h1, h2, h3⟩ := namespace_mismatch_run e c s hs hempty hlib hmis
  refine ⟨s', ?_, h2, h3⟩
  have hs' : (s.tok.type == tok_namespace) = true := by simp [hs]
  have hend : (s'.cur == s'.end_) = true := by simp [h2]
  unfold run
  simp only [P.bind_apply, test_expect_apply, hs', ↓reduceIte, h1, Res.bind_ok, kphp_assert,
    Option.isNone_none, P.pure_apply, at_end_apply, hend, Bool.not_true, Bool.false_eq_true]

theorem namespace_mismatch_stops_witness :
    ∃ s', run sample_env (parser sample_env 0) (sample_namespace_state "X") = Res.ok none s' ∧
      s'.cur = s'.end_ ∧ s'.processing_file.namespace_name = "Foo" ∧
      s'.processing_file.namespace_uses = [] ∧ s'.classes = [] := by
  obtain ⟨s', h1, h2, h3, h4, h5, _⟩ := namespace_mismatch_stops sample_env (parser sample_env 0)
    (sample_namespace_state "X") rfl rfl rfl (by decide)
  exact ⟨s', h1, h2, h3, h4, h5⟩

set_option maxRecDepth 8000 in
/-- Counterexample to claim C27 as stated: on `namespace Foo; use Bar\Baz; class A {}` in a
file whose directory calls for the namespace `X`, parsing does not continue past the
namespace declaration: no alias and no class is registered, while the same tokens in a
file of directory `Foo` register the alias `Baz` and the class `Foo\A`. -/
theorem namespace_mismatch_counterexample :
    (∃ s', run sample_env (parser sample_env 60) (sample_namespace_state "X") =
        Res.ok none s' ∧ s'.processing_file.namespace_uses = [] ∧ s'.classes.length = 0) ∧
    (∃ s', run sample_env (parser sample_env 60) (sample_namespace_state "Foo") =
        Res.ok none s' ∧ s'.processing_file.namespace_uses = [("Baz", "Bar\\Baz")] ∧
        s'.classes.map (fun k => k.name) = ["Foo\\A"]) :=
  ⟨⟨_, rfl, rfl, rfl⟩, ⟨_, rfl, rfl, rfl⟩⟩

theorem synthesized_class_members (k : Nat) (cv : Vertex) (s s1 : GenTree)
    (hk : k < s.classes.length) (h : get_class_synthesize k cv s = Res.ok () s1) :
    (s1.get_class k).members.constants =
        (s.get_class k).members.constants ++ [generate_constant_field_class (s.get_class k) cv] ∧
      (s1.get_class k).members.static_fields = (s.get_class k).members.static_fields ∧
      (∀ f, f < s.functions.length → s1.get_function f = s.get_function f) ∧
      s.functions.length ≤ s1.functions.length := by
  rw [get_class_synthesize_apply] at h
  have hk' : k < (s.with_class_constant k cv).classes.length := by
    unfold GenTree.with_class_constant
    simpa [modify_at_length] using hk
  have hfun : (s.with_class_constant k cv).functions = s.functions := rfl
  have hm := with_class_constant_members s k cv
  rw [if_pos hk] at hm
  split at h
  · cases h
    have hc := with_constructor_classes (s.with_class_constant k cv) k s.line_num
      (Vertex.create op_func_param_list [])
    rw [if_pos hk', hm] at hc
    refine ⟨by rw [hc]; rfl, by rw [hc]; rfl, fun f hf => ?_, ?_⟩
    · rw [with_constructor_function_old _ _ _ _ f (by rw [hfun]; exact hf)]
      rfl
    · rw [with_constructor_length, hfun]
      omega
  · cases h
    exact ⟨by rw [hm]; rfl, by rw [hm]; rfl, fun f hf => rfl, Nat.le_refl _⟩

theorem set_cmd_cmd (root body : Vertex) (h : 2 ≤ root.next.length) :
    (root.set_cmd body).cmd = body := by
  cases root with
  | mk i n r =>
    match n, h with
    | a :: b :: rest, _ => rfl

theorem set_cmd_type (root body : Vertex) : (root.set_cmd body).type = root.type := rfl

theorem set_cmd_set_cmd (root b1 b2 : Vertex) (h : 2 ≤ root.next.length) :
    ((root.set_cmd b1).set_cmd b2).cmd = b2 := by
  cases root with
  | mk i n r =>
    match n, h with
    | a :: b :: rest, _ => rfl

theorem get_class_function_body_run (k f : Nat) (s : GenTree) (root : Vertex)
    (hf : f < s.functions.length) (hroot : (s.get_function f).root = some root)
    (htype : root.type = op_function) (hlen : 2 ≤ root.next.length) :
    ∃ s' root', get_class_function_body k f s = Res.ok () s' ∧
      (s'.get_function f).root = some root' ∧ root'.cmd.type = op_seq ∧
      root'.cmd.next = (s.get_class k).members.constants ++
        (s.get_class k).members.static_fields.map (fun x => x.1) ++ [void_return] := by
  have h1 : ((root.set_cmd (Vertex.create op_seq ((s.get_class k).members.constants ++
      (s.get_class k).members.static_fields.map fun x => x.1))).type != op_function) = false := by
    rw [set_cmd_type, htype]
    rfl
  have h2 : ∀ l, ((Vertex.create op_seq l).type != op_seq) = false := fun _ => rfl
  have h3 : ∀ l, (Vertex.create op_seq l).next = l := fun _ => rfl
  unfold get_class_function_body func_force_return
  simp only [P.bind_apply, getS_apply, Res.bind_ok, hroot, Option.getD_some, h1, h2, h3,
    Bool.false_eq_true, ↓reduceIte, set_cmd_cmd _ _ hlen, P.pure_apply, mod_function, modS_apply,
    register_and_require_function_apply]
  refine ⟨_, (root.set_cmd (Vertex.create op_seq ((s.get_class k).members.constants ++
      (s.get_class k).members.static_fields.map fun x => x.1))).set_cmd
    (Vertex.create op_seq ((s.get_class k).members.constants ++
      (s.get_class k).members.static_fields.map (fun x => x.1) ++ [void_return])), rfl, ?_, ?_, ?_⟩
  · show ((modify_at s.functions f _).getD f default).root = _
    rw [modify_at_getD, if_pos ⟨rfl, hf⟩]
    rfl
  · rw [set_cmd_set_cmd _ _ _ hlen]
    rfl
  · rw [set_cmd_set_cmd _ _ _ hlen]
    rfl

/-- The finishing steps of `get_class`: the body of the backing function of the class
becomes the constants of the class in the order they were added, the hidden constant
`c#<class name, backslashes replaced>$$class` (whose value is the class name) after them,
then the static fields in the order they were added, closed by one appended void return:
no instance field and no method is part of it.  Adding a constant or a static field puts it
at the end of its collection. -/
theorem class_backing_body (k f : Nat) (cv root : Vertex) (s : GenTree)
    (hk : k < s.classes.length) (hf : f < s.functions.length)
    (hroot : (s.get_function f).root = some root) (htype : root.type = op_function)
    (hlen : 2 ≤ root.next.length) :
    ∃ s' root', get_class_finish k f cv s = Res.ok () s' ∧
      (s'.get_function f).root = some root' ∧ root'.cmd.type = op_seq ∧
      root'.cmd.next = (s.get_class k).members.constants ++
        [generate_constant_field_class (s.get_class k) cv] ++
        (s.get_class k).members.static_fields.map (fun x => x.1) ++ [void_return] ∧
      (generate_constant_field_class (s.get_class k) cv).type = op_define ∧
      (generate_constant_field_class (s.get_class k) cv).next.map Vertex.get_string =
        ["c#" ++ replace_backslashes (s.get_class k).name ++ "$$class", (s.get_class k).name] ∧
      void_return.type = op_return ∧ void_return.info.void_flag = true ∧
      (∀ (m : ClassMembersContainer) (v : Vertex),
        (m.add_constant v).constants = m.constants ++ [v]) ∧
      (∀ (m : ClassMembersContainer) (v : Vertex) (name : String) (a : AccessType),
        (m.add_static_field v name a).static_fields = m.static_fields ++ [(v, name, a)]) := by
  obtain ⟨s1, h1⟩ : ∃ s1, get_class_synthesize k cv s = Res.ok () s1 :=
    ⟨_, get_class_synthesize_apply k cv s⟩
  obtain ⟨hc, hsf, hfun, hlen1⟩ := synthesized_class_members k cv s s1 hk h1
  obtain ⟨s', root', h2, h3, h4, h5⟩ := get_class_function_body_run k f s1 root
    (by omega) (by rw [hfun f hf]; exact hroot) htype hlen
  refine ⟨s', root', ?_, h3, h4, ?_, rfl, rfl, rfl, rfl, fun _ _ => rfl, fun _ _ _ _ => rfl⟩
  · unfold get_class_finish
    simp only [P.bind_apply, h1, Res.bind_ok, h2]
  · rw [h5, hc, hsf]

theorem top_flag_self (s : GenTree) (h : s.is_top_of_the_function_ = false) (b : Bool) :
    { s with is_top_of_the_function_ := s.is_top_of_the_function_ && b } = s := by
  cases s
  simp_all

theorem get_statement_switch (e : Env) (c : Caps) (s : GenTree) (h : s.tok.type = tok_switch)
    (htop : s.is_top_of_the_function_ = false) :
    get_statement e c none s = get_switch c s := by
  unfold get_statement
  simp only [P.bind_apply, cur_tok_apply, Res.bind_ok, modS_apply, top_flag_self s htop, h]

theorem get_if_unclosed (c : Caps) (s s1 s2 : GenTree) (r : Option Vertex)
    (hp : s.next.tok.type = tok_oppar)
    (hskip : skip_phpdoc_tokens s.next.next = Res.ok () s1)
    (hexpr : c.get_expression s1 = Res.ok r s2)
    (hcl : r.isSome = true → s2.tok.type ≠ tok_clpar) :
    ∃ m, get_if c s = Res.ok none (s2.report m) := by
  unfold get_if
  simp only [P.bind_apply, auto_location_apply, next_cur_apply, Res.bind_ok, expect_ok _ _ _ hp,
    Bool.not_true, Bool.false_eq_true, ↓reduceIte, hskip, hexpr]
  cases r with
  | none => exact ⟨_, rfl⟩
  | some v =>
    simp only [P.bind_apply, expect_apply, if_neg (hcl rfl), Res.bind_ok, Bool.not_false,
      ↓reduceIte, P.pure_apply]
    exact ⟨_, rfl⟩

theorem parser_get_switch_loop (e : Env) (n : Nat) :
    (parser e (n + 1)).get_switch_loop = get_switch_loop (parser e n) := rfl

theorem parser_get_switch_seq_loop (e : Env) (n : Nat) :
    (parser e (n + 1)).get_switch_seq_loop = get_switch_seq_loop (parser e n) := rfl

theorem get_switch_seq_loop_end (c : Caps) (l : List Vertex) (s : GenTree)
    (h : s.cur = s.end_) : get_switch_seq_loop c l s = Res.ok l s := by
  have h' : (s.cur == s.end_) = true := by simp [h]
  unfold get_switch_seq_loop
  simp only [P.bind_apply, at_end_apply, h', Res.bind_ok, ↓reduceIte, P.pure_apply]

/-- The outer loop of `get_switch` never returns from the end sentinel: it consumes
nothing there and tests the cursor again, whatever the fuel. -/
theorem get_switch_loop_end (e : Env) (s : GenTree) (hend : s.cur = s.end_)
    (ht : s.tok.type = tok_end) :
    ∀ (n : Nat) (sw : List Vertex),
      get_switch_loop (parser e n) sw s = Res.abort Abort.out_of_fuel := by
  have h1 : (s.tok.type == tok_clbrc) = false := by rw [ht]; rfl
  have h2 : (s.tok.type == tok_case) = false := by rw [ht]; rfl
  have h3 : (s.tok.type == tok_default) = false := by rw [ht]; rfl
  have hskip : skip_phpdoc_tokens s = Res.ok () s :=
    skip_phpdoc_tokens_none s (by rw [ht]; decide)
  intro n
  induction n with
  | zero =>
    intro sw
    unfold get_switch_loop
    simp only [P.bind_apply, cur_type_apply, Res.bind_ok, h1, h2, h3, Bool.false_eq_true,
      ↓reduceIte, hskip, auto_location_apply]
    rfl
  | succ n ih =>
    intro sw
    unfold get_switch_loop
    simp only [P.bind_apply, cur_type_apply, Res.bind_ok, h1, h2, h3, Bool.false_eq_true,
      ↓reduceIte, hskip, auto_location_apply, parser_get_switch_seq_loop,
      get_switch_seq_loop_end _ _ s hend, parser_get_switch_loop]
    exact ih sw

theorem get_switch_stuck (c : Caps) (s s1 s2 : GenTree) (x : Vertex)
    (hp : s.next.tok.type = tok_oppar)
    (hskip : skip_phpdoc_tokens s.next.next = Res.ok () s1)
    (hexpr : c.get_expression s1 = Res.abort Abort.out_of_fuel ∨
      c.get_expression s1 = Res.ok (some x) s2)
    (hcl : s2.tok.type = tok_clpar) (hbr : s2.next.tok.type = tok_opbrc)
    (hloop : ∀ sw, c.get_switch_loop sw s2.next.next = Res.abort Abort.out_of_fuel) :
    get_switch c s = Res.abort Abort.out_of_fuel := by
  unfold get_switch
  simp only [P.bind_apply, auto_location_apply, next_cur_apply, Res.bind_ok, expect_ok _ _ _ hp,
    Bool.not_true, Bool.false_eq_true, ↓reduceIte, hskip]
  rcases hexpr with h | h
  · rw [h]
    rfl
  · simp only [h, Res.bind_ok, P.bind_apply, expect_ok _ _ _ hcl, expect_ok _ _ _ hbr,
      Bool.not_true, Bool.false_eq_true, ↓reduceIte, hloop]
    rfl

theorem run_stuck (e : Env) (c : Caps) (s : GenTree) (hs : s.tok.type ≠ tok_namespace)
    (h : c.get_statement none s = Res.abort Abort.out_of_fuel) :
    run e c s = Res.abort Abort.out_of_fuel := by
  have hs' : (s.tok.type == tok_namespace) = false := by simpa using hs
  unfold run
  simp only [P.bind_apply, test_expect_apply, hs', Res.bind_ok, Bool.false_eq_true, ↓reduceIte, h]
  rfl

set_option maxRecDepth 8000 in
/-- Claim C30, failing input: on `switch ($x)`, an opening brace and the end sentinel `run` does
not terminate.  The outer loop of `get_switch` waits for the closing brace only; on the
end sentinel it consumes nothing and tests again, so no amount of fuel lets the run
return. -/
theorem switch_never_returns (n : Nat) :
    run sample_env (parser sample_env n) (sample_state tokens_switch_open) =
      Res.abort Abort.out_of_fuel := by
  have hexpr : ∀ k, (parser sample_env k).get_expression
        { sample_state tokens_switch_open with cur := 2 } = Res.abort Abort.out_of_fuel ∨
      (parser sample_env k).get_expression { sample_state tokens_switch_open with cur := 2 } =
        Res.ok (some (leaf op_var 1 "x")) { sample_state tokens_switch_open with cur := 3 } := by
    intro k
    have h40 : (parser sample_env (max k 40)).get_expression
        { sample_state tokens_switch_open with cur := 2 } =
        Res.ok (some (leaf op_var 1 "x")) { sample_state tokens_switch_open with cur := 3 } := by
      rcases ((parser_le sample_env (Nat.le_max_right k 40)).get_expression).run
        { sample_state tokens_switch_open with cur := 2 } with h | h
      · have h0 : (parser sample_env 40).get_expression
            { sample_state tokens_switch_open with cur := 2 } =
            Res.ok (some (leaf op_var 1 "x")) { sample_state tokens_switch_open with cur := 3 } :=
          rfl
        rw [h0] at h
        cases h
      · rw [← h]
        rfl
    rcases ((parser_le sample_env (Nat.le_max_left k 40)).get_expression).run
      { sample_state tokens_switch_open with cur := 2 } with h | h
    · exact Or.inl h
    · exact Or.inr (h.trans h40)
  have hstmt : ∀ k, (parser sample_env k).get_statement none (sample_state tokens_switch_open) =
      Res.abort Abort.out_of_fuel := by
    intro k
    cases k with
    | zero => rfl
    | succ k =>
      show get_statement sample_env (parser sample_env k) none _ = _
      rw [get_statement_switch sample_env (parser sample_env k) (sample_state tokens_switch_open)
        rfl rfl]
      refine get_switch_stuck _ _ { sample_state tokens_switch_open with cur := 2 }
        { sample_state tokens_switch_open with cur := 3 } (leaf op_var 1 "x") rfl rfl (hexpr k)
        rfl rfl (fun sw => ?_)
      cases k with
      | zero => rfl
      | succ k =>
        rw [parser_get_switch_loop]
        exact get_switch_loop_end sample_env
          (GenTree.next (GenTree.next { sample_state tokens_switch_open with cur := 3 }))
          rfl rfl k sw
  exact run_stuck _ _ _ (by decide) (hstmt n)

/-- Claim C40: for a threshold `REF_CNT_FOR_CONST ≥ 1` that is a 32-bit value and every
32-bit counter value `r`, `add_ref` followed by `release` leaves the counter equal to `r`
if and only if `r` differs from `REF_CNT_FOR_CONST - 1`; from that value the counter moves
to `REF_CNT_FOR_CONST`.  Once the counter is at least `REF_CNT_FOR_CONST`, neither
`add_ref` nor `release` changes the object: the counter stays and nothing is destroyed. -/
theorem refcount_saturation (K : Nat) (hK : 1 ≤ K) (hK32 : K < 2 ^ 32)
    (o : refcountable_php_classes) (hr : o.refcnt < 2 ^ 32) :
    ((((o.add_ref K).release K).get_refcnt = o.get_refcnt) ↔ o.refcnt ≠ K - 1) ∧
      (o.refcnt = K - 1 → ((o.add_ref K).release K).get_refcnt = K ∧
        ((o.add_ref K).release K).destroyed = o.destroyed) ∧
      (K ≤ o.refcnt → o.add_ref K = o ∧ o.release K = o) := by
  obtain ⟨r, d⟩ := o
  have h32 : (2 : Nat) ^ 32 = 4294967296 := by norm_num
  simp only [h32] at hr hK32
  have hsub : (r + 1 + 4294967296 - 1) % 4294967296 = r := by omega
  by_cases h1 : r < K
  · have hm : (r + 1) % 4294967296 = r + 1 := Nat.mod_eq_of_lt (by omega)
    by_cases h2 : r + 1 < K
    · have hres : ((refcountable_php_classes.mk r d).add_ref K).release K =
          if r = 0 then ⟨r, true⟩ else ⟨r, d⟩ := by
        simp only [refcountable_php_classes.add_ref, refcountable_php_classes.release, h32, h1,
          ↓reduceIte, hm, h2, hsub, beq_iff_eq]
      refine ⟨?_, fun h => ?_, fun h => ?_⟩
      · rw [hres]
        constructor
        · intro _
          show r ≠ K - 1
          omega
        · intro _
          split <;> rfl
      · exact absurd h (by show r ≠ K - 1; omega)
      · exact absurd h (by show ¬ K ≤ r; omega)
    · have hres : ((refcountable_php_classes.mk r d).add_ref K).release K = ⟨r + 1, d⟩ := by
        simp only [refcountable_php_classes.add_ref, refcountable_php_classes.release, h32, h1,
          ↓reduceIte, hm, h2, beq_iff_eq, Nat.add_one_ne_zero]
      have hrK : r + 1 = K := by omega
      refine ⟨?_, fun h => ?_, fun h => ?_⟩
      · rw [hres]
        constructor
        · intro h
          have : r + 1 = r := h
          omega
        · intro h
          exact absurd (show r = K - 1 by omega) h
      · rw [hres]
        exact ⟨hrK, rfl⟩
      · exact absurd h (by show ¬ K ≤ r; omega)
  · have hr0 : r ≠ 0 := by omega
    have hadd' : (refcountable_php_classes.mk r d).add_ref K = ⟨r, d⟩ := by
      simp only [refcountable_php_classes.add_ref, h1, ↓reduceIte]
    have hrel : (refcountable_php_classes.mk r d).release K = ⟨r, d⟩ := by
      simp only [refcountable_php_classes.release, h1, ↓reduceIte, beq_iff_eq, hr0]
    refine ⟨?_, fun h => ?_, fun _ => ⟨hadd', hrel⟩⟩
    · rw [hadd', hrel]
      constructor
      · intro _
        show r ≠ K - 1
        omega
      · intro _
        rfl
    · exact absurd h (by show r ≠ K - 1; omega)

theorem refcount_saturation_witness :
    (((((⟨2147483631, false⟩ : refcountable_php_classes).add_ref 2147483632).release
        2147483632).get_refcnt = (⟨2147483631, false⟩ : refcountable_php_classes).get_refcnt) ↔
      (2147483631 : Nat) ≠ 2147483632 - 1) ∧
    ((2147483631 : Nat) = 2147483632 - 1 →
      (((⟨2147483631, false⟩ : refcountable_php_classes).add_ref 2147483632).release
        2147483632).get_refcnt = 2147483632 ∧
      (((⟨2147483631, false⟩ : refcountable_php_classes).add_ref 2147483632).release
        2147483632).destroyed = false) ∧
    (2147483632 ≤ (2147483631 : Nat) →
      (⟨2147483631, false⟩ : refcountable_php_classes).add_ref 2147483632 = ⟨2147483631, false⟩ ∧
      (⟨2147483631, false⟩ : refcountable_php_classes).release 2147483632 =
        ⟨2147483631, false⟩) :=
  refcount_saturation 2147483632 (by decide) (by decide) ⟨2147483631, false⟩ (by decide)

theorem embrace_seq (v : Vertex) (h : v.type = op_seq) : embrace v = v := by
  unfold embrace
  rw [if_neg (by simp [h])]

theorem embrace_other (v : Vertex) (h : v.type ≠ op_seq) :
    embrace v = (Vertex.create op_seq [v]).set_location v.location := by
  unfold embrace
  rw [if_pos (by simpa using h)]

theorem embrace_type (v : Vertex) : (embrace v).type = op_seq := by
  by_cases h : v.type = op_seq
  · rw [embrace_seq v h, h]
  · rw [embrace_other v h]
    rfl

/-- The wrapper `embrace`: `embrace(v)` is always a sequence node: `v` itself when `v` is
a sequence node, otherwise a sequence with the single child `v` that carries the location
of `v`; hence `embrace(embrace(v)) = embrace(v)`.  In every node returned by `get_if` the
branches (all children after the condition) are sequence nodes, and so are the body of
every node returned by `get_while`, `get_for` and `get_foreach` and both blocks of every
node returned for `try`. -/
theorem embrace_idempotent (v : Vertex) :
    (embrace v).type = op_seq ∧ (v.type = op_seq → embrace v = v) ∧
      (v.type ≠ op_seq → (embrace v).next = [v] ∧ (embrace v).location = v.location) ∧
      embrace (embrace v) = embrace v ∧
      (∀ c : Caps, Post (get_if c) fun r => ∀ w, r = some w →
        w.type = op_if ∧ ((w.next.drop 1).map Vertex.type = [op_seq] ∨
          (w.next.drop 1).map Vertex.type = [op_seq, op_seq])) ∧
      (∀ c : Caps, Post (get_while c) fun r => ∀ w, r = some w →
        w.type = op_while ∧ (w.next.drop 1).map Vertex.type = [op_seq]) ∧
      (∀ c : Caps, Post (get_for c) fun r => ∀ w, r = some w →
        w.type = op_for ∧ (w.next.drop 3).map Vertex.type = [op_seq]) ∧
      (∀ c : Caps, Post (get_foreach c) fun r => ∀ w, r = some w →
        w.type = op_foreach ∧ ((w.next.drop 1).take 1).map Vertex.type = [op_seq]) ∧
      (∀ c : Caps, Post (get_statement_try c) fun r => ∀ w, r = some w →
        w.type = op_try ∧ w.next.length = 3 ∧ (w.next.take 1).map Vertex.type = [op_seq] ∧
          (w.next.drop 2).map Vertex.type = [op_seq]) := by
  refine ⟨embrace_type v, embrace_seq v, fun h => ?_, embrace_seq _ (embrace_type v),
    fun c => ?_, fun c => ?_, fun c => ?_, fun c => ?_, fun c => ?_⟩
  · rw [embrace_other v h]
    exact ⟨rfl, rfl⟩
  · unfold get_if
    repeat' first
      | (with_reducible apply Post.pure)
      | (with_reducible apply Post.abort)
      | (with_reducible apply Post.bind_right; intro _)
      | (with_reducible apply Post.ite <;> intro _)
      | split
    all_goals intro w hw
    all_goals cases hw
    · refine ⟨rfl, Or.inr ?_⟩
      show [(embrace _).type, (embrace _).type] = _
      rw [embrace_type, embrace_type]
    · refine ⟨rfl, Or.inl ?_⟩
      show [(embrace _).type] = _
      rw [embrace_type]
  · unfold get_while
    repeat' first
      | (with_reducible apply Post.pure)
      | (with_reducible apply Post.abort)
      | (with_reducible apply Post.bind_right; intro _)
      | (with_reducible apply Post.ite <;> intro _)
      | split
    all_goals intro w hw
    all_goals cases hw
    exact ⟨rfl, congrArg (fun t => [t]) (embrace_type _)⟩
  · unfold get_for
    repeat' first
      | (with_reducible apply Post.pure)
      | (with_reducible apply Post.abort)
      | (with_reducible apply Post.bind_right; intro _)
      | (with_reducible apply Post.ite <;> intro _)
      | split
    all_goals intro w hw
    all_goals cases hw
    exact ⟨rfl, congrArg (fun t => [t]) (embrace_type _)⟩
  · unfold get_foreach
    repeat' first
      | (with_reducible apply Post.pure)
      | (with_reducible apply Post.abort)
      | (with_reducible apply Post.bind_right; intro _)
      | (with_reducible apply Post.ite <;> intro _)
      | split
    all_goals intro w hw
    all_goals cases hw
    exact ⟨rfl, congrArg (fun t => [t]) (embrace_type _)⟩
  · unfold get_statement_try
    repeat' first
      | (with_reducible apply Post.pure)
      | (with_reducible apply Post.abort)
      | (with_reducible apply Post.bind_right; intro _)
      | (with_reducible apply Post.ite <;> intro _)
      | split
    all_goals intro w hw
    all_goals cases hw
    exact ⟨rfl, rfl, congrArg (fun t => [t]) (embrace_type _),
      congrArg (fun t => [t]) (embrace_type _)⟩

theorem parser_parse_function_specifiers (e : Env) (n : Nat) :
    (parser e (n + 1)).parse_function_specifiers = parse_function_specifiers (parser e n) := rfl

theorem with_specifiers_nil (flags : Vertex) : with_specifiers flags [] = flags := by
  cases flags
  simp [with_specifiers, Vertex.set_info, Vertex.info, Vertex.next, Vertex.type_rule]

theorem with_specifiers_throws (flags : Vertex) (ts : List TokenType) :
    with_specifiers (flags.set_info fun i => { i with throws_flag := true }) ts =
      with_specifiers flags (tok_throws :: ts) := by
  cases flags
  simp [with_specifiers, Vertex.set_info, Vertex.info, Vertex.next, Vertex.type_rule]

theorem with_specifiers_resumable (flags : Vertex) (ts : List TokenType) :
    with_specifiers (flags.set_info fun i => { i with resumable_flag := true }) ts =
      with_specifiers flags (tok_resumable :: ts) := by
  cases flags
  simp [with_specifiers, Vertex.set_info, Vertex.info, Vertex.next, Vertex.type_rule]

theorem with_specifiers_auto (flags : Vertex) (ts : List TokenType) :
    with_specifiers (flags.set_info fun i => { i with auto_flag := true }) ts =
      with_specifiers flags (tok_auto :: ts) := by
  cases flags
  simp [with_specifiers, Vertex.set_info, Vertex.info, Vertex.next, Vertex.type_rule]

theorem with_specifiers_perm (flags : Vertex) (ts ts' : List TokenType) (h : ts'.Perm ts) :
    with_specifiers flags ts' = with_specifiers flags ts := by
  have hc : ∀ t, ts'.contains t = ts.contains t := by
    intro t
    have := h.mem_iff (a := t)
    by_cases hm : t ∈ ts
    · simp [hm, this.mpr hm]
    · simp [hm, mt this.mp hm]
  unfold with_specifiers
  simp only [hc]

theorem contains_types (ts : List Token) (k : TokenType) :
    (ts.map Token.type).contains k = ts.any fun x => x.type == k := by
  induction ts with
  | nil => rfl
  | cons a l ih =>
    rw [List.map_cons, List.contains_cons, List.any_cons, ih]
    by_cases h : a.type = k
    · subst h
      simp
    · have h' : ¬ k = a.type := fun hk => h hk.symm
      have e1 : (k == a.type) = false := by simpa using h'
      have e2 : (a.type == k) = false := by simpa using h
      rw [e1, e2]

theorem specifier_step (c : Caps) (flags : Vertex) (s : GenTree)
    (h : is_specifier s.tok.type = true) :
    ∃ x, x = s.tok.type ∧ ∀ ts, parse_function_specifiers c flags s =
      c.parse_function_specifiers
        (if x = tok_throws then flags.set_info fun i => { i with throws_flag := true }
         else if x = tok_resumable then flags.set_info fun i => { i with resumable_flag := true }
         else flags.set_info fun i => { i with auto_flag := true }) s.next ∧
      with_specifiers
        (if x = tok_throws then flags.set_info fun i => { i with throws_flag := true }
         else if x = tok_resumable then flags.set_info fun i => { i with resumable_flag := true }
         else flags.set_info fun i => { i with auto_flag := true }) ts =
        with_specifiers flags (x :: ts) := by
  refine ⟨_, rfl, fun ts => ?_⟩
  unfold is_specifier at h
  simp only [Bool.or_eq_true, beq_iff_eq] at h
  unfold parse_function_specifiers
  rcases h with (h | h) | h
  · simp only [P.bind_apply, cur_type_apply, Res.bind_ok, h, beq_self_eq_true, ↓reduceIte,
      expect_ok _ _ _ h, Bool.not_true, Bool.false_eq_true]
    exact ⟨trivial, with_specifiers_throws flags ts⟩
  · have h1 : (tok_resumable == tok_throws) = false := rfl
    have h2 : ¬ tok_resumable = tok_throws := by decide
    simp only [P.bind_apply, cur_type_apply, Res.bind_ok, h, h1, h2, beq_self_eq_true, ↓reduceIte,
      expect_ok _ _ _ h, Bool.not_true, Bool.false_eq_true]
    exact ⟨trivial, with_specifiers_resumable flags ts⟩
  · have h1 : (tok_auto == tok_throws) = false := rfl
    have h2 : ¬ tok_auto = tok_throws := by decide
    have h3 : (tok_auto == tok_resumable) = false := rfl
    have h4 : ¬ tok_auto = tok_resumable := by decide
    simp only [P.bind_apply, cur_type_apply, Res.bind_ok, h, h1, h2, h3, h4, beq_self_eq_true,
      ↓reduceIte, expect_ok _ _ _ h, Bool.not_true, Bool.false_eq_true]
    exact ⟨trivial, with_specifiers_auto flags ts⟩

theorem specifier_stop (c : Caps) (flags : Vertex) (s : GenTree)
    (h : is_specifier s.tok.type = false) :
    parse_function_specifiers c flags s = Res.ok (true, flags) s := by
  unfold is_specifier at h
  simp only [Bool.or_eq_false_iff] at h
  unfold parse_function_specifiers
  simp only [P.bind_apply, cur_type_apply, Res.bind_ok, h.1.1, h.1.2, h.2, Bool.false_eq_true,
    ↓reduceIte, P.pure_apply]

theorem specifier_run (e : Env) (t : Token) (rest : List Token)
    (ht : is_specifier t.type = false) :
    ∀ (ts : List Token) (flags : Vertex) (s : GenTree), At s (ts ++ t :: rest) →
      (∀ x ∈ ts, is_specifier x.type = true) →
      Ev (fun n => parse_function_specifiers (parser e n) flags s)
          (Res.ok (true, with_specifiers flags (ts.map Token.type)) (GenTree.next^[ts.length] s)) ∧
        At (GenTree.next^[ts.length] s) (t :: rest) ∧
        (GenTree.next^[ts.length] s).cur = s.cur + ts.length := by
  intro ts
  induction ts with
  | nil =>
    intro flags s hs _
    refine ⟨⟨0, fun n _ => ?_⟩, hs, rfl⟩
    have h0 : is_specifier s.tok.type = false := by rw [hs.tok]; exact ht
    show parse_function_specifiers (parser e n) flags s = _
    rw [specifier_stop _ _ _ h0, List.map_nil, with_specifiers_nil]
    rfl
  | cons x ts ih =>
    intro flags s hs hall
    have hs' : At s (x :: (ts ++ t :: rest)) := hs
    obtain ⟨y, l, hyl⟩ : ∃ y l, ts ++ t :: rest = y :: l := by
      cases h : ts ++ t :: rest with
      | nil => simp at h
      | cons y l => exact ⟨y, l, rfl⟩
    have hnext : At s.next (ts ++ t :: rest) := by
      rw [hyl] at hs' ⊢
      exact hs'.next
    have hcur : s.next.cur = s.cur + 1 := by
      rw [hyl] at hs'
      exact hs'.next_cur
    have hx : is_specifier s.tok.type = true := by
      rw [hs'.tok]
      exact hall x (List.mem_cons_self _ _)
    obtain ⟨xt, hxt, hstep⟩ := specifier_step (parser e 0) flags s hx
    obtain ⟨⟨N, hN⟩, hat, hc⟩ := ih
      (if xt = tok_throws then flags.set_info fun i => { i with throws_flag := true }
       else if xt = tok_resumable then flags.set_info fun i => { i with resumable_flag := true }
       else flags.set_info fun i => { i with auto_flag := true }) s.next hnext
      (fun z hz => hall z (List.mem_cons_of_mem _ hz))
    refine ⟨⟨N + 1, fun n hn => ?_⟩, hat, ?_⟩
    · obtain ⟨m, rfl⟩ : ∃ m, n = m + 1 := ⟨n - 1, by omega⟩
      obtain ⟨xt', hxt', hstep'⟩ := specifier_step (parser e (m + 1)) flags s hx
      have hxx : xt' = xt := hxt'.trans hxt.symm
      subst hxx
      have hm := hN m (by omega)
      beta_reduce at hm ⊢
      rw [(hstep' (ts.map Token.type)).1, parser_parse_function_specifiers, hm,
        (hstep' (ts.map Token.type)).2, hxt', hs'.tok]
      rfl
    · show (GenTree.next^[ts.length] s.next).cur = _
      rw [hc, hcur, List.length_cons]
      omega

/-- Claim C31: for every sequence `ts` of specifier tokens (`throws`, `resumable`, `auto`,
in any order, repeated or none) followed by a token `t` that is no specifier,
`parse_function_specifiers` returns true with enough fuel, consumes exactly the tokens of
`ts` (the cursor ends on `t`, `ts.length` places on), sets the throws, resumable and auto
flag exactly for the specifiers that occur in `ts` and leaves every other flag as it
was; any permutation of `ts` gives the same flags. -/
theorem specifier_order_insensitive (e : Env) (ts : List Token) (t : Token) (rest : List Token)
    (flags : Vertex) (s : GenTree) (hs : At s (ts ++ t :: rest))
    (hts : ∀ x ∈ ts, is_specifier x.type = true) (ht : is_specifier t.type = false) :
    Ev (fun n => parse_function_specifiers (parser e n) flags s)
        (Res.ok (true, with_specifiers flags (ts.map Token.type)) (GenTree.next^[ts.length] s)) ∧
      At (GenTree.next^[ts.length] s) (t :: rest) ∧
      (GenTree.next^[ts.length] s).cur = s.cur + ts.length ∧
      (with_specifiers flags (ts.map Token.type)).info.throws_flag =
        (flags.info.throws_flag || ts.any fun x => x.type == tok_throws) ∧
      (with_specifiers flags (ts.map Token.type)).info.resumable_flag =
        (flags.info.resumable_flag || ts.any fun x => x.type == tok_resumable) ∧
      (with_specifiers flags (ts.map Token.type)).info.auto_flag =
        (flags.info.auto_flag || ts.any fun x => x.type == tok_auto) ∧
      ∀ ts' : List Token, ts'.Perm ts →
        with_specifiers flags (ts'.map Token.type) = with_specifiers flags (ts.map Token.type) := by
  obtain ⟨h1, h2, h3⟩ := specifier_run e t rest ht ts flags s hs hts
  refine ⟨h1, h2, h3, ?_, ?_, ?_, fun ts' hp => with_specifiers_perm _ _ _ (hp.map _)⟩
  · rw [← contains_types]
    cases flags
    rfl
  · rw [← contains_types]
    cases flags
    rfl
  · rw [← contains_types]
    cases flags
    rfl

theorem specifier_order_insensitive_witness :
    Ev (fun n => parse_function_specifiers (parser sample_env n) (Vertex.create op_none [])
        (sample_state tokens_specifiers))
      (Res.ok (true, with_specifiers (Vertex.create op_none [])
        [tok_resumable, tok_throws, tok_resumable])
        (GenTree.next^[3] (sample_state tokens_specifiers))) :=
  (specifier_order_insensitive sample_env
    [sample_token tok_resumable "resumable", sample_token tok_throws "throws",
     sample_token tok_resumable "resumable"] (sample_token tok_opbrc "")
    [sample_token tok_end ""] (Vertex.create op_none []) (sample_state tokens_specifiers)
    ⟨rfl, rfl, by decide⟩ (by decide) rfl).1

theorem check_uses_iff (uses params : List Vertex) :
    check_uses_and_args_are_not_intersect uses params = true ↔
      ∀ p ∈ params, ∀ u ∈ uses, p.var.get_string ≠ u.var.get_string := by
  unfold check_uses_and_args_are_not_intersect
  rw [Bool.not_eq_true', List.any_eq_false]
  constructor
  · intro h p hp u hu heq
    apply h p hp
    rw [List.contains_iff_exists_mem_beq]
    exact ⟨u.var.get_string, List.mem_map_of_mem _ hu, by simp [heq]⟩
  · intro h p hp hc
    rw [List.contains_iff_exists_mem_beq] at hc
    obtain ⟨x, hx, hxe⟩ := hc
    obtain ⟨u, hu, rfl⟩ := List.mem_map.mp hx
    exact h p hp u hu (by simpa using hxe)

theorem declaration_collision (e : Env) (c : Caps) (uses0 : List Vertex) (flags : Vertex)
    (s s3 s4 s5 s6 : GenTree) (params uses : List Vertex) (flags1 : Vertex)
    (tr : Option Vertex)
    (hfun : s.tok.type = tok_function)
    (hpar : s.next.tok.type = tok_oppar)
    (hvarg : (GenTree.next { s.next with name_counter := s.next.name_counter + 1 }).tok.type ≠
      tok_varg)
    (hlist : gen_list c op_err [] GetFunc.get_func_param tok_comma
      (GenTree.next { s.next with name_counter := s.next.name_counter + 1 }) =
        Res.ok (true, params) s3)
    (hcl : s3.tok.type = tok_clpar)
    (hspec : c.parse_function_specifiers (flags.set_line s.line_num) s3.next =
      Res.ok (true, flags1) s4)
    (huses : parse_function_uses c (some uses0) s4 = Res.ok (true, some uses) s5)
    (hcheck : check_uses_and_args_are_not_intersect uses params = false)
    (htr : get_type_rule e c (s5.report
      "arguments and captured variables(in `use` clause) must have different names") =
        Res.ok tr s6) :
    parse_function_declaration e c AccessType.access_nonmember (some uses0) flags s =
      Res.ok (some {
        name := leaf op_func_name s.line_num (e.gen_anonymous_function_name s.next.name_counter),
        params := (Vertex.create op_func_param_list params).set_line
          (GenTree.next { s.next with name_counter := s.next.name_counter + 1 }).line_num,
        flags := flags1.set_type_rule tr, is_constructor := false,
        uses_of_lambda := some uses }) s6 := by
  have hfun' : (s.tok.type == tok_function || s.tok.type == tok_ex_function) = true := by
    simp [hfun]
  have hpar' : (GenTree.tok { s.next with name_counter := s.next.name_counter + 1 }).type =
      tok_oppar := hpar
  have hvarg' : ((GenTree.next { s.next with name_counter := s.next.name_counter + 1 }).tok.type
      == tok_varg) = false := by simpa using hvarg
  have hacc : is_instance_access_type AccessType.access_nonmember = false := rfl
  unfold parse_function_declaration
  simp only [P.bind_apply, auto_location_apply, test_expect_apply, hfun', kphp_assert, ↓reduceIte,
    P.pure_apply, Res.bind_ok, next_cur_apply, getS_apply, Option.isSome_some, modS_apply,
    expect_ok _ _ _ hpar', Bool.not_true, Bool.false_eq_true, hacc,
    Bool.false_and, hvarg', hlist, kphp_error_apply, expect_ok _ _ _ hcl, hspec, huses, hcheck,
    htr]

theorem check_uses_congr (uses uses' params params' : List Vertex)
    (hu : ∀ x, x ∈ uses' ↔ x ∈ uses) (hp : ∀ x, x ∈ params' ↔ x ∈ params) :
    check_uses_and_args_are_not_intersect uses' params' =
      check_uses_and_args_are_not_intersect uses params := by
  rw [Bool.eq_iff_iff, check_uses_iff, check_uses_iff]
  constructor
  · intro h p hp' u hu'
    exact h p ((hp p).mpr hp') u ((hu u).mpr hu')
  · intro h p hp' u hu'
    exact h p ((hp p).mp hp') u ((hu u).mp hu')

/-- Claim C32: `check_uses_and_args_are_not_intersect(uses, params)` is true exactly when no
parameter has the variable name of a captured variable; it depends only on which nodes
occur in each list, so permuting a list or repeating an element changes nothing.  When it
is false for the lists a lambda declaration was parsed to, `parse_function_declaration`
records the error `arguments and captured variables(in use clause) must have different
names`, goes on to the type rule and returns the declaration. -/
theorem capture_collision_check (e : Env) (c : Caps) (uses0 : List Vertex) (flags : Vertex)
    (s s3 s4 s5 s6 : GenTree) (params uses : List Vertex) (flags1 : Vertex)
    (tr : Option Vertex)
    (hfun : s.tok.type = tok_function)
    (hpar : s.next.tok.type = tok_oppar)
    (hvarg : (GenTree.next { s.next with name_counter := s.next.name_counter + 1 }).tok.type ≠
      tok_varg)
    (hlist : gen_list c op_err [] GetFunc.get_func_param tok_comma
      (GenTree.next { s.next with name_counter := s.next.name_counter + 1 }) =
        Res.ok (true, params) s3)
    (hcl : s3.tok.type = tok_clpar)
    (hspec : c.parse_function_specifiers (flags.set_line s.line_num) s3.next =
      Res.ok (true, flags1) s4)
    (huses : parse_function_uses c (some uses0) s4 = Res.ok (true, some uses) s5)
    (htr : get_type_rule e c (s5.report
      "arguments and captured variables(in `use` clause) must have different names") =
        Res.ok tr s6) :
    (∀ us ps : List Vertex, check_uses_and_args_are_not_intersect us ps = true ↔
      ∀ p ∈ ps, ∀ u ∈ us, p.var.get_string ≠ u.var.get_string) ∧
    (∀ us us' ps ps' : List Vertex, (∀ x, x ∈ us' ↔ x ∈ us) → (∀ x, x ∈ ps' ↔ x ∈ ps) →
      check_uses_and_args_are_not_intersect us' ps' =
        check_uses_and_args_are_not_intersect us ps) ∧
    (check_uses_and_args_are_not_intersect uses params = false →
      ∃ d, parse_function_declaration e c AccessType.access_nonmember (some uses0) flags s =
          Res.ok (some d) s6 ∧ d.uses_of_lambda = some uses ∧
        d.params.next = params) :=
  ⟨check_uses_iff, fun us us' ps ps' => check_uses_congr us us' ps ps',
    fun hcheck => ⟨_, declaration_collision e c uses0 flags s s3 s4 s5 s6 params uses flags1 tr
      hfun hpar hvarg hlist hcl hspec huses hcheck htr, rfl, rfl⟩⟩

set_option maxRecDepth 8000 in
theorem capture_collision_check_witness :
    ∃ d s6, parse_function_declaration sample_env (parser sample_env 40)
        AccessType.access_nonmember (some []) (Vertex.create op_none [])
        (sample_state tokens_lambda_collision) = Res.ok (some d) s6 ∧
      s6.errors.map (fun x => x.msg) =
        ["arguments and captured variables(in `use` clause) must have different names"] := by
  obtain ⟨d, hd, _⟩ := (capture_collision_check sample_env (parser sample_env 40) []
    (Vertex.create op_none []) (sample_state tokens_lambda_collision) _ _ _ _ _ _ _ _
    rfl rfl (by decide) rfl rfl rfl rfl rfl).2.2 rfl
  exact ⟨d, _, hd, rfl⟩

theorem skip_phpdoc_loop_errors (k : Nat) (s s1 : GenTree)
    (h : skip_phpdoc_loop k s = Res.ok () s1) : s1.errors = s.errors := by
  induction k generalizing s with
  | zero => cases h
  | succ k ih =>
    unfold skip_phpdoc_loop at h
    simp only [P.bind_apply, cur_type_apply, Res.bind_ok, next_cur_apply] at h
    split at h
    · exact (ih _ h).trans (next_errors s)
    · cases h
      rfl

theorem skip_phpdoc_tokens_errors (s s1 : GenTree)
    (h : skip_phpdoc_tokens s = Res.ok () s1) : s1.errors = s.errors :=
  skip_phpdoc_loop_errors _ s s1 h

/-- Claim C33: with the cursor on a `(` that follows an expression `e0`, and the argument
list parsed to the nodes `args` up to a `)`, `get_postfix_expression` goes on with the
member access `arrow(e0, call)`, where `call` is a function-call node named `__invoke`
with the children `args`; this holds for every `e0`, and no diagnostic is added outside
the parsing of the arguments. -/
theorem call_as_postfix (c : Caps) (e0 : Vertex) (s s1 s2 : GenTree) (args : List Vertex)
    (hend : s.cur ≠ s.end_) (hpar : s.tok.type = tok_oppar)
    (hskip : skip_phpdoc_tokens s.next = Res.ok () s1)
    (hlist : gen_list c op_err [] GetFunc.get_expression tok_comma s1 =
      Res.ok (true, args) s2)
    (hcl : s2.tok.type = tok_clpar) :
    ∃ call arrow : Vertex,
      get_postfix_expression c (some e0) s =
          c.get_postfix_expression (some arrow) s2.next ∧
        arrow.type = op_arrow ∧ arrow.next = [e0, call] ∧
        call.type = op_func_call ∧ call.get_string = "__invoke" ∧ call.next = args ∧
        arrow.location.line = s.line_num ∧ call.location.line = s.line_num ∧
        s1.errors = s.errors ∧ s2.next.errors = s2.errors := by
  refine ⟨((Vertex.create op_func_call args).set_line s.line_num).set_string "__invoke",
    (Vertex.create op_arrow [e0, ((Vertex.create op_func_call args).set_line
      s.line_num).set_string "__invoke"]).set_line s.line_num, ?_, rfl, rfl, rfl, rfl, rfl,
    rfl, rfl, (skip_phpdoc_tokens_errors _ _ hskip).trans (next_errors s), next_errors s2⟩
  unfold get_postfix_expression
  have hend' : (s.cur == s.end_) = false := by simpa using hend
  have h1 : (tok_oppar == tok_inc) = false := by decide
  have h2 : (tok_oppar == tok_dec) = false := by decide
  have h3 : (tok_oppar == tok_opbrk || tok_oppar == tok_opbrc) = false := by decide
  have h4 : (tok_oppar == tok_arrow) = false := by decide
  have h5 : (tok_oppar == tok_oppar) = true := by decide
  simp only [P.bind_apply, at_end_apply, Res.bind_ok, hend', Bool.false_eq_true, ↓reduceIte,
    cur_type_apply, hpar, h1, h2, h3, h4, h5, auto_location_apply, next_cur_apply, hskip,
    hlist, kphp_error_apply, expect_ok _ _ _ hcl, Bool.not_true, P.pure_apply, child_of]

set_option maxRecDepth 8000 in
theorem call_as_postfix_witness :
    ∃ call arrow : Vertex,
      get_postfix_expression (parser sample_env 40) (some (leaf op_var 1 "f"))
          (sample_state tokens_call_postfix).next =
        (parser sample_env 40).get_postfix_expression (some arrow)
          (GenTree.next^[6] (sample_state tokens_call_postfix)) ∧
        arrow.type = op_arrow ∧ arrow.next = [leaf op_var 1 "f", call] ∧
        call.type = op_func_call ∧ call.get_string = "__invoke" ∧
        call.next = [leaf op_int_const 1 "1", leaf op_int_const 1 "2"] := by
  obtain ⟨call, arrow, h1, h2, h3, h4, h5, h6, _⟩ :=
    call_as_postfix (parser sample_env 40) (leaf op_var 1 "f")
      (sample_state tokens_call_postfix).next _ _ _ (by decide) rfl rfl rfl rfl
  exact ⟨call, arrow, h1, h2, h3, h4, h5, h6⟩

theorem coerce_operands_ternary (l : Vertex) (r : Option Vertex) (s : GenTree) :
    coerce_operands op_ternary l r s = Res.ok (l, r) s := rfl

/-- One round of the loop of `get_binary_op` on the ternary band: the loop goes on with the
node `create_ternary_op_vertex` built, located at the `?`. -/
theorem ternary_loop_step (e : Env) (c : Caps) (p : Nat) (till : Bool) (left third : Vertex)
    (right : Option Vertex) (s s2 s3 : GenTree)
    (hend : s.cur ≠ s.end_) (hop : e.info.tok_to_binary_op s.tok.type = op_ternary)
    (hpr : e.info.priority op_ternary = p) (hp : p = e.info.ternaryP)
    (hr : c.get_expression s.next = Res.ok right s2) (hcol : s2.tok.type = tok_colon)
    (ht : get_expression_impl e c true s2.next = Res.ok (some third) s3) :
    get_binary_op_loop e c p till left s =
      (create_ternary_op_vertex e (if right.isSome then conv_to tp_bool left else left)
        right third s3).bind fun expr =>
          c.get_binary_op_loop p till (expr.set_line s.line_num) := by
  have hend' : (s.cur == s.end_) = false := by simpa using hend
  have h1 : (op_ternary == op_err) = false := by decide
  have h2 : (p == e.info.ternaryP) = true := by simpa using hp
  have h3 : (p != p) = false := by simp
  unfold get_binary_op_loop
  simp only [P.bind_apply, at_end_apply, Res.bind_ok, hend', Bool.false_eq_true, ↓reduceIte,
    cur_type_apply, hop, h1, hpr, h2, h3, Bool.or_self, auto_location_apply, next_cur_apply,
    hr, Bool.not_true, Bool.and_false, expect_ok _ _ _ hcol, ht, coerce_operands_ternary,
    child_of, Bool.or_true, Bool.not_false]

theorem ternary_loop_full (e : Env) (c : Caps) (p : Nat) (till : Bool)
    (left right third : Vertex) (s s2 s3 : GenTree)
    (hend : s.cur ≠ s.end_) (hop : e.info.tok_to_binary_op s.tok.type = op_ternary)
    (hpr : e.info.priority op_ternary = p) (hp : p = e.info.ternaryP)
    (hr : c.get_expression s.next = Res.ok (some right) s2) (hcol : s2.tok.type = tok_colon)
    (ht : get_expression_impl e c true s2.next = Res.ok (some third) s3) :
    get_binary_op_loop e c p till left s =
      c.get_binary_op_loop p till
        ((Vertex.create op_ternary [conv_to tp_bool left, right, third]).set_line s.line_num)
        s3 := by
  rw [ternary_loop_step e c p till left third (some right) s s2 s3 hend hop hpr hp hr hcol ht]
  rfl

theorem ternary_loop_shorthand (e : Env) (c : Caps) (p : Nat) (till : Bool)
    (left third : Vertex) (s s2 s3 : GenTree)
    (hend : s.cur ≠ s.end_) (hop : e.info.tok_to_binary_op s.tok.type = op_ternary)
    (hpr : e.info.priority op_ternary = p) (hp : p = e.info.ternaryP)
    (hr : c.get_expression s.next = Res.ok none s2) (hcol : s2.tok.type = tok_colon)
    (ht : get_expression_impl e c true s2.next = Res.ok (some third) s3) :
    get_binary_op_loop e c p till left s =
      c.get_binary_op_loop p till
        ((Vertex.create op_ternary
          [conv_to tp_bool (Vertex.create op_set
            [hidden_var (e.gen_shorthand_ternary_name s3.name_counter), left]),
           Vertex.create op_move [hidden_var (e.gen_shorthand_ternary_name s3.name_counter)],
           third]).set_line s.line_num)
        { s3 with name_counter := s3.name_counter + 1 } := by
  rw [ternary_loop_step e c p till left third none s s2 s3 hend hop hpr hp hr hcol ht]
  rfl

theorem right_assoc_loop_stop (e : Env) (c : Caps) (p : Nat) (till : Bool) (left R : Vertex)
    (s s2 : GenTree) (hend : s.cur ≠ s.end_)
    (hb : e.info.tok_to_binary_op s.tok.type ≠ op_err)
    (hpr : e.info.priority (e.info.tok_to_binary_op s.tok.type) = p)
    (hnt : p ≠ e.info.ternaryP)
    (hfix : e.info.fixity (e.info.tok_to_binary_op s.tok.type) ≠ Fixity.left_opp)
    (hr : c.get_binary_op p (till && decide (p ≥ e.info.ternaryP)) s.next =
      Res.ok (some R) s2) :
    get_binary_op_loop e c p till left s =
      Res.ok (some (binary_node (e.info.tok_to_binary_op s.tok.type) s.line_num left R)) s2 := by
  have hend' : (s.cur == s.end_) = false := by simpa using hend
  have h2 : (p == e.info.ternaryP) = false := by simpa using hnt
  have h3 : (p != p) = false := by simp
  have h4 : (e.info.tok_to_binary_op s.tok.type == op_err) = false := by simpa using hb
  have h5 : (e.info.fixity (e.info.tok_to_binary_op s.tok.type) == Fixity.left_opp) = false := by
    simpa using hfix
  unfold get_binary_op_loop
  simp only [P.bind_apply, at_end_apply, Res.bind_ok, hend', Bool.false_eq_true, ↓reduceIte,
    cur_type_apply, h4, hpr, h2, h3, h5, Bool.or_self, auto_location_apply, next_cur_apply,
    Bool.toNat_false, Nat.add_zero, hr, Option.isNone_some, Bool.not_false, Bool.and_true,
    Bool.false_and, coerce_operands_some, P.pure_apply, child_of, create_vertex, binary_node,
    Bool.or_false]

/-- Claim C34 (amended): in the shorthand-ternary rewrite only the ternary node is located.
When the loop of `get_binary_op` folds `left ?: third`, it goes on with a ternary node that
carries the line of the `?`; the two hidden-variable nodes, the assignment and the
move-read under it are created without a location and keep the default line `-1`, and
`create_ternary_op_vertex` itself returns its node unlocated. -/
theorem shorthand_ternary_locations (e : Env) (c : Caps) (p : Nat) (till : Bool)
    (left third : Vertex) (s s2 s3 : GenTree)
    (hend : s.cur ≠ s.end_) (hop : e.info.tok_to_binary_op s.tok.type = op_ternary)
    (hpr : e.info.priority op_ternary = p) (hp : p = e.info.ternaryP)
    (hr : c.get_expression s.next = Res.ok none s2) (hcol : s2.tok.type = tok_colon)
    (ht : get_expression_impl e c true s2.next = Res.ok (some third) s3) :
    (∃ t cond set mv v1 v2 : Vertex,
      get_binary_op_loop e c p till left s =
          c.get_binary_op_loop p till t { s3 with name_counter := s3.name_counter + 1 } ∧
        t.type = op_ternary ∧ t.location.line = s.line_num ∧ t.next = [cond, mv, third] ∧
        cond.next = [set] ∧ set.type = op_set ∧ set.next = [v1, left] ∧
        mv.type = op_move ∧ mv.next = [v2] ∧ v1.type = op_var ∧ v2.type = op_var ∧
        v1.location.line = -1 ∧ v2.location.line = -1 ∧ set.location.line = -1 ∧
        mv.location.line = -1) ∧
    ∀ (a b : Vertex) (st : GenTree), ∃ r st',
      create_ternary_op_vertex e a none b st = Res.ok r st' ∧ r.location.line = -1 :=
  ⟨⟨_, _, _, _, _, _,
    ternary_loop_shorthand e c p till left third s s2 s3 hend hop hpr hp hr hcol ht,
    rfl, rfl, rfl, rfl, rfl, rfl, rfl, rfl, rfl, rfl, rfl, rfl, rfl, rfl⟩,
    fun a b st => ⟨_, _, create_ternary_shorthand e a b st, rfl⟩⟩

set_option maxRecDepth 8000 in
theorem shorthand_ternary_locations_witness :
    ∃ t cond set mv v1 v2 : Vertex,
      get_binary_op_loop sample_env (parser sample_env 40) 4 false (leaf op_var 1 "a")
          (sample_state tokens_shorthand_ternary).next =
        Res.ok (some t) { GenTree.next^[4] (sample_state tokens_shorthand_ternary) with
          name_counter := 1 } ∧
        t.location.line = 1 ∧ t.next = [cond, mv, leaf op_var 1 "c"] ∧
        cond.next = [set] ∧ set.next = [v1, leaf op_var 1 "a"] ∧ mv.next = [v2] ∧
        v1.location.line = -1 ∧ v2.location.line = -1 ∧ set.location.line = -1 ∧
        mv.location.line = -1 := by
  obtain ⟨t, cond, set, mv, v1, v2, h, _, h2, h3, h4, _, h5, _, h6, _, _, h7, h8, h9, h10⟩ :=
    (shorthand_ternary_locations sample_env (parser sample_env 40) 4 false
      (leaf op_var 1 "a") (leaf op_var 1 "c") (sample_state tokens_shorthand_ternary).next
      _ _ (by decide) rfl rfl rfl rfl rfl rfl).1
  exact ⟨t, cond, set, mv, v1, v2, h.trans rfl, h2, h3, h4, h5, h6, h7, h8, h9, h10⟩

set_option maxRecDepth 8000 in
/-- Counterexample to claim C34 as stated: in the tree parsed from `$a ?: $c` on line 1 the
ternary node is on line 1, but the two hidden variables, the assignment and the move-read
have the default line `-1`. -/
theorem shorthand_location_counterexample :
    ∃ r s', (parser sample_env 40).get_expression (sample_state tokens_shorthand_ternary) =
        Res.ok (some r) s' ∧ r.type = op_ternary ∧ r.location.line = 1 ∧
      (subtree_at r [0, 0, 0]).map (fun v => (v.type, v.location.line)) = some (op_var, -1) ∧
      (subtree_at r [1, 0]).map (fun v => (v.type, v.location.line)) = some (op_var, -1) ∧
      (subtree_at r [0, 0]).map (fun v => (v.type, v.location.line)) = some (op_set, -1) ∧
      (subtree_at r [1]).map (fun v => (v.type, v.location.line)) = some (op_move, -1) :=
  ⟨_, _, rfl, rfl, rfl, rfl, rfl, rfl, rfl⟩

/-- Claim C35 (amended): in the loop of `get_binary_op`, after a right-associative operator
outside the ternary band has been folded the loop returns at once, in the state its right
operand was parsed to; after a ternary `left ? right : third` has been folded the loop goes
on, with the ternary node built over the boolean coercion of `left` as its new left
operand, so that a following `?` makes this node the condition of a second ternary. -/
theorem ternary_loop_continues (e : Env) (c : Caps) (p : Nat) (till : Bool)
    (left right third : Vertex) (s s2 s3 : GenTree)
    (hend : s.cur ≠ s.end_) (hop : e.info.tok_to_binary_op s.tok.type = op_ternary)
    (hpr : e.info.priority op_ternary = p) (hp : p = e.info.ternaryP)
    (hr : c.get_expression s.next = Res.ok (some right) s2) (hcol : s2.tok.type = tok_colon)
    (ht : get_expression_impl e c true s2.next = Res.ok (some third) s3) :
    get_binary_op_loop e c p till left s =
        c.get_binary_op_loop p till
          ((Vertex.create op_ternary [conv_to tp_bool left, right, third]).set_line
            s.line_num) s3 ∧
      ∀ (q : Nat) (till' : Bool) (l R : Vertex) (t t2 : GenTree), t.cur ≠ t.end_ →
        e.info.tok_to_binary_op t.tok.type ≠ op_err →
        e.info.priority (e.info.tok_to_binary_op t.tok.type) = q → q ≠ e.info.ternaryP →
        e.info.fixity (e.info.tok_to_binary_op t.tok.type) ≠ Fixity.left_opp →
        c.get_binary_op q (till' && decide (q ≥ e.info.ternaryP)) t.next =
          Res.ok (some R) t2 →
        get_binary_op_loop e c q till' l t =
          Res.ok (some (binary_node (e.info.tok_to_binary_op t.tok.type) t.line_num l R)) t2 :=
  ⟨ternary_loop_full e c p till left right third s s2 s3 hend hop hpr hp hr hcol ht,
    fun q till' l R t t2 h1 h2 h3 h4 h5 h6 =>
      right_assoc_loop_stop e c q till' l R t t2 h1 h2 h3 h4 h5 h6⟩

set_option maxRecDepth 8000 in
theorem ternary_loop_continues_witness :
    get_binary_op_loop sample_env (parser sample_env 40) 4 false (leaf op_var 1 "a")
        (sample_state tokens_ternary_chain).next =
      (parser sample_env 40).get_binary_op_loop 4 false
        ((Vertex.create op_ternary [conv_to tp_bool (leaf op_var 1 "a"), leaf op_var 1 "b",
          leaf op_var 1 "c"]).set_line 1)
        (GenTree.next^[5] (sample_state tokens_ternary_chain)) ∧
    get_binary_op_loop sample_env (parser sample_env 40) 3 false (leaf op_var 1 "a")
        (sample_state tokens_assign_chain).next =
      Res.ok (some (binary_node op_set 1 (leaf op_var 1 "a")
        (binary_node op_set 1 (leaf op_var 1 "b") (leaf op_var 1 "c"))))
        (GenTree.next^[5] (sample_state tokens_assign_chain)) :=
  ⟨(ternary_loop_continues sample_env (parser sample_env 40) 4 false (leaf op_var 1 "a")
      (leaf op_var 1 "b") (leaf op_var 1 "c") (sample_state tokens_ternary_chain).next _ _
      (by decide) rfl rfl rfl rfl rfl rfl).1,
    (ternary_loop_continues sample_env (parser sample_env 40) 4 false (leaf op_var 1 "a")
      (leaf op_var 1 "b") (leaf op_var 1 "c") (sample_state tokens_ternary_chain).next _ _
      (by decide) rfl rfl rfl rfl rfl rfl).2 3 false (leaf op_var 1 "a") _
      (sample_state tokens_assign_chain).next _ (by decide) (by decide) rfl (by decide)
      (by decide) rfl⟩

set_option maxRecDepth 8000 in
/-- Counterexample to claim C35 as stated: on `$a ? $b : $c ? $d : $e` one run of the loop
of the ternary band, entered with `$a` on the first `?`, consumes both `?` operators and
returns the ternary whose condition is the coerced node built for `$a ? $b : $c`. -/
theorem ternary_chain_counterexample :
    ∃ s', get_binary_op_loop sample_env (parser sample_env 40) 4 false (leaf op_var 1 "a")
        (sample_state tokens_ternary_chain).next =
      Res.ok (some ((Vertex.create op_ternary
        [conv_to tp_bool ((Vertex.create op_ternary [conv_to tp_bool (leaf op_var 1 "a"),
          leaf op_var 1 "b", leaf op_var 1 "c"]).set_line 1),
         leaf op_var 1 "d", leaf op_var 1 "e"]).set_line 1)) s' ∧
      s'.cur = s'.end_ ∧ s'.errors = [] :=
  ⟨_, rfl, rfl, rfl⟩

theorem check_statement_end_apply (s : GenTree) :
    check_statement_end s =
      if s.tok.type = tok_semicolon then expect tok_semicolon "';'" s
      else expect tok_semicolon "';'"
        (skip_until is_statement_stop (s.end_ - s.cur)
          (GenTree.report { s with stage_line := s.line_num }
            "Failed to parse statement. Expected `;`")) := by
  unfold check_statement_end
  by_cases h : s.tok.type = tok_semicolon
  · simp [h, test_expect_apply]
  · have hb : (s.tok.type == tok_semicolon) = false := by simpa using h
    simp only [P.bind_apply, test_expect_apply, Res.bind_ok, hb, if_neg h,
      Bool.not_false, ↓reduceIte, modS_apply, kphp_error_apply, Bool.false_eq_true,
      P.pure_apply]
    rfl

theorem At.cons_not_end {s : GenTree} {t : Token} {ts : List Token} (h : At s (t :: ts))
    (hne : ts ≠ []) : s.cur ≠ s.end_ := by
  cases ts with
  | nil => exact absurd rfl hne
  | cons t' ts => exact h.not_end

theorem skip_until_at (stop : TokenType → Bool) (t : Token) (post : List Token) :
    ∀ (pre : List Token) (k : Nat) (s : GenTree), At s (pre ++ t :: post) →
      (∀ x ∈ pre, stop x.type = false) → (stop t.type = true ∨ post = []) →
      pre.length ≤ k →
      At (skip_until stop k s) (t :: post) ∧
        (skip_until stop k s).cur = s.cur + pre.length ∧
        (skip_until stop k s).errors = s.errors := by
  intro pre
  induction pre with
  | nil =>
    intro k s hs _ ht _
    have hstop : (s.cur != s.end_ && !stop s.tok.type) = false := by
      rcases ht with ht | ht
      · rw [hs.tok, ht]; simp
      · subst ht
        have := At.is_end hs
        simp [this]
    have : skip_until stop k s = s := by
      cases k with
      | zero => rfl
      | succ k => unfold skip_until; rw [hstop]; rfl
    rw [this]
    exact ⟨hs, rfl, rfl⟩
  | cons x pre ih =>
    intro k s hs hpre ht hk
    obtain ⟨k, rfl⟩ : ∃ m, k = m + 1 := ⟨k - 1, by simp at hk; omega⟩
    have hs' : At s (x :: (pre ++ t :: post)) := hs
    have hne : s.cur ≠ s.end_ := hs'.cons_not_end (by simp)
    have hx : stop s.tok.type = false := by rw [hs'.tok]; exact hpre x (List.mem_cons_self _ _)
    have hgo : (s.cur != s.end_ && !stop s.tok.type) = true := by simp [hne, hx]
    have hnext : At s.next (pre ++ t :: post) := by
      obtain ⟨t', ts, hl⟩ : ∃ t' ts, pre ++ t :: post = t' :: ts := by
        cases pre with
        | nil => exact ⟨_, _, rfl⟩
        | cons a l => exact ⟨_, _, rfl⟩
      rw [hl] at hs' ⊢
      exact hs'.next
    have hcur : s.next.cur = s.cur + 1 := by
      rw [next_cursor]; simp [hne]
    obtain ⟨h1, h2, h3⟩ := ih k s.next hnext
      (fun y hy => hpre y (List.mem_cons_of_mem _ hy)) ht (by simp at hk; omega)
    have : skip_until stop (k + 1) s = skip_until stop k s.next := by
      conv_lhs => unfold skip_until
      rw [hgo]; rfl
    rw [this]
    refine ⟨h1, ?_, h3.trans (next_errors s)⟩
    rw [h2, hcur, List.length_cons]; omega

theorem At.span_le {s : GenTree} {pre post : List Token} {t : Token}
    (h : At s (pre ++ t :: post)) : pre.length ≤ s.end_ - s.cur := by
  obtain ⟨h1, h2, _⟩ := h
  have := congrArg List.length h1
  simp at this
  omega

/-- Claim C36: `check_statement_end`, called where the tokens from the cursor on are `pre`,
then `t`, then `post`, with no `;` or closing brace in `pre` and `t` the first token that is
`;`, a closing brace or the end sentinel.  If the cursor token is `;` (`pre` empty, `t` a
`;`), nothing is reported, the `;` is consumed and the result is true.  Otherwise the error
`Failed to parse statement` is reported first, the cursor goes to `t`, and the result is
true exactly when `t` is `;`, which is then consumed; when it is not, the cursor stays on
`t`.  The cursor never passes the end sentinel. -/
theorem statement_end_resync (s : GenTree) (pre : List Token) (t : Token) (post : List Token)
    (hs : At s (pre ++ t :: post))
    (hpre : ∀ x ∈ pre, x.type ≠ tok_semicolon ∧ x.type ≠ tok_clbrc)
    (ht : t.type = tok_semicolon ∨ t.type = tok_clbrc ∨ post = [])
    (hsent : post = [] → t.type = tok_end) :
    ∃ b s', check_statement_end s = Res.ok b s' ∧ (b = true ↔ t.type = tok_semicolon) ∧
      s'.cur = s.cur + pre.length + (if t.type = tok_semicolon then 1 else 0) ∧
      (t.type = tok_semicolon → At s' post) ∧
      (t.type ≠ tok_semicolon → At s' (t :: post)) ∧
      (pre = [] ∧ t.type = tok_semicolon → s'.errors = s.errors) ∧
      (¬(pre = [] ∧ t.type = tok_semicolon) → ∃ ds, s'.errors = s.errors ++
        { line := s.line_num, msg := "Failed to parse statement. Expected `;`" } :: ds) ∧
      s'.cur ≤ s'.end_ := by
  have hpost : t.type = tok_semicolon → ∃ t' ts, post = t' :: ts := by
    intro h
    cases post with
    | nil => rw [hsent rfl] at h; cases h
    | cons t' ts => exact ⟨_, _, rfl⟩
  rw [check_statement_end_apply]
  by_cases hfast : pre = [] ∧ t.type = tok_semicolon
  · obtain ⟨rfl, htsc⟩ := hfast
    obtain ⟨t', ts, rfl⟩ := hpost htsc
    have hs' : At s (t :: t' :: ts) := hs
    have htok : s.tok.type = tok_semicolon := by rw [hs'.tok]; exact htsc
    rw [if_pos htok, expect_ok _ _ _ htok]
    refine ⟨true, s.next, rfl, by simp [htsc], ?_, fun _ => hs'.next,
      fun h => absurd htsc h, fun _ => next_errors s, fun h => absurd ⟨rfl, htsc⟩ h,
      hs'.next.cur_lt⟩
    rw [hs'.next_cur, if_pos htsc]; rfl
  · have htok : s.tok.type ≠ tok_semicolon := by
      cases pre with
      | nil =>
        have hs' : At s (t :: post) := hs
        rw [hs'.tok]
        exact fun h => hfast ⟨rfl, h⟩
      | cons x pre =>
        have hs' : At s (x :: (pre ++ t :: post)) := hs
        rw [hs'.tok]
        exact (hpre x (List.mem_cons_self _ _)).1
    rw [if_neg htok]
    have hs1 : At (GenTree.report { s with stage_line := s.line_num }
        "Failed to parse statement. Expected `;`") (pre ++ t :: post) := hs
    have hstop : ∀ x ∈ pre, is_statement_stop x.type = false := by
      intro x hx
      have := hpre x hx
      simp [is_statement_stop, this.1, this.2]
    have hstop_t : is_statement_stop t.type = true ∨ post = [] := by
      rcases ht with h | h | h
      · left; simp [is_statement_stop, h]
      · left; simp [is_statement_stop, h]
      · right; exact h
    obtain ⟨h1, h2, h3⟩ := skip_until_at is_statement_stop t post pre (s.end_ - s.cur) _ hs1
      hstop hstop_t hs.span_le
    have herr : (GenTree.report { s with stage_line := s.line_num }
        "Failed to parse statement. Expected `;`").errors = s.errors ++
          [{ line := s.line_num, msg := "Failed to parse statement. Expected `;`" }] := rfl
    have hcur : (GenTree.report { s with stage_line := s.line_num }
        "Failed to parse statement. Expected `;`").cur = s.cur := rfl
    rw [herr] at h3
    rw [hcur] at h2
    rw [expect_apply, h1.tok]
    by_cases htsc : t.type = tok_semicolon
    · obtain ⟨t', ts, rfl⟩ := hpost htsc
      rw [if_pos htsc]
      refine ⟨true, _, rfl, by simp [htsc], ?_, fun _ => h1.next, fun h => absurd htsc h,
        fun h => absurd h hfast, fun _ => ⟨[], ?_⟩, h1.next.cur_lt⟩
      · rw [h1.next_cur, h2, if_pos htsc]
      · rw [next_errors, h3]
    · rw [if_neg htsc]
      refine ⟨false, _, rfl, by simp [htsc], ?_, fun h => absurd h htsc, fun _ => h1,
        fun h => absurd h hfast,
        fun _ => ⟨_, (congrArg (fun l => l ++ [_]) h3).trans (List.append_assoc _ _ _)⟩,
        h1.cur_lt⟩
      rw [if_neg htsc]; exact h2

theorem statement_end_resync_witness :
    ∃ b s', check_statement_end (sample_state tokens_missing_semicolon) = Res.ok b s' ∧
      (b = true ↔ (sample_token tok_semicolon "").type = tok_semicolon) ∧ s'.cur = 3 ∧
      s'.errors.length = 1 := by
  obtain ⟨b, s', h1, h2, h3, _, _, _, h4, _⟩ :=
    statement_end_resync (sample_state tokens_missing_semicolon)
      [sample_token tok_int_const "1", sample_token tok_int_const "2"]
      (sample_token tok_semicolon "")
      [sample_token tok_int_const "3", sample_token tok_end ""]
      ⟨rfl, rfl, by simp⟩ (by decide) (Or.inl rfl) (by simp)
  obtain ⟨ds, h5⟩ := h4 (by simp)
  refine ⟨b, s', h1, h2, h3, ?_⟩
  have h6 : check_statement_end (sample_state tokens_missing_semicolon) =
      Res.ok true (GenTree.next^[3] (GenTree.report (sample_state tokens_missing_semicolon)
        "Failed to parse statement. Expected `;`")) := rfl
  rw [h6] at h1
  cases h1
  rfl

theorem add_static_method_apply (k f : Nat) (a : AccessType) (s : GenTree) :
    add_static_method k f a s = Res.ok () (s.with_static_method k f a) := rfl

theorem register_and_require_function_run (f : Nat) (b : Bool) (s : GenTree) :
    ∃ s', register_and_require_function f b s = Res.ok () s' ∧ s'.functions = s.functions ∧
      s'.classes = s.classes ∧ s'.errors = s.errors ∧ SameInput s s' := by
  unfold register_and_require_function
  simp only [P.bind_apply, getS_apply, modS_apply, Res.bind_ok, P.ite_apply, P.pure_apply]
  split
  · exact ⟨_, rfl, rfl, rfl, rfl, rfl, rfl, rfl, rfl⟩
  · exact ⟨_, rfl, rfl, rfl, rfl, rfl, rfl, rfl, rfl⟩

theorem modify_at_twice {α : Type} (l : List α) (i : Nat) (g h : α → α)
    (hgh : ∀ a, h (g a) = h a) : modify_at (modify_at l i g) i h = modify_at l i h := by
  induction l generalizing i with
  | nil => rfl
  | cons a as ih =>
    cases i with
    | zero => simp [modify_at, hgh]
    | succ i => simp [modify_at, ih]

theorem function_scope_tail (phpdoc_token : Option Token) (d : FunctionDeclaration)
    (f : Nat) (root' : Vertex) (s4 : GenTree) :
    ∃ s', function_scope_finish phpdoc_token d f root' s4 =
        Res.ok (if d.uses_of_lambda.isSome && s4.errors.isEmpty then some root' else none) s' ∧
      s'.functions = modify_at s4.functions f (fun fd => { fd with root := some root' }) ∧
      s'.classes = s4.classes ∧ s'.errors = s4.errors ∧ SameInput s4 s' := by
  unfold function_scope_finish
  have hm : mod_function f (fun fd => { fd with root := some root' }) s4 =
      Res.ok () (s4.with_root f root') := rfl
  simp only [P.bind_apply, hm, getS_apply, Res.bind_ok]
  generalize (_ || _ || _ || _ : Bool) = B
  obtain ⟨s', h1, h2, h3, h4, h5⟩ :=
    register_and_require_function_run f B (s4.with_root f root')
  refine ⟨s', ?_, h2, h3, h4, h5⟩
  rw [h1]
  simp only [Res.bind_ok, has_error, P.bind_apply, h4]
  have he : (s4.with_root f root').errors = s4.errors := rfl
  rw [he]
  cases d.uses_of_lambda.isSome <;> cases s4.errors.isEmpty <;> rfl

theorem get_function_scope_eq (c : Caps) (phpdoc_token : Option Token)
    (access_type : AccessType) (d : FunctionDeclaration) (f : Nat) (root b : Vertex)
    (s s3 : GenTree) (htok : s.tok.type = tok_opbrc)
    (hbody : c.get_statement none (function_scope_entry phpdoc_token access_type f s) =
      Res.ok (some b) s3) :
    get_function_scope c phpdoc_token access_type d f root s =
      ((if d.is_constructor then
          patch_func_constructor (root.set_cmd b) s3.cur_class s3.line_num
        else func_force_return (root.set_cmd b) none)
        (s3.after_body f (root.set_cmd b))).bind fun root' =>
        function_scope_finish phpdoc_token d f root' := by
  have htok' : (s.tok.type == tok_opbrc) = true := by simp [htok]
  simp only [GenTree.tok] at htok'
  unfold get_function_scope
  unfold function_scope_entry at hbody
  rcases hc : s.cur_class with _ | k
  · simp only [hc] at hbody
    simp only [P.bind_apply, mod_function, modS_apply, getS_apply, Res.bind_ok, hc,
      P.pure_apply, test_expect_apply, GenTree.tok, htok', ↓reduceIte]
    rw [hbody]
    simp only [Res.bind_ok, P.bind_apply, modS_apply, getS_apply, auto_location_apply,
      child_of]
    cases hctor : d.is_constructor
    · simp only [Bool.false_eq_true, ↓reduceIte, P.bind_apply, Res.bind_ok, P.pure_apply,
        GenTree.after_body]
      rfl
    · simp only [↓reduceIte, P.bind_apply, getS_apply, auto_location_apply, Res.bind_ok,
        P.pure_apply, GenTree.after_body]
      rfl
  · by_cases hi : is_instance_access_type access_type = true
    · simp only [hc, hi, ↓reduceIte] at hbody
      have htokm : ∀ S : GenTree, ((S.with_method k f access_type).tokens.getD
          (S.with_method k f access_type).cur default) = S.tokens.getD S.cur default := by
        intro S
        unfold GenTree.with_method
        split <;> rfl
      simp only [P.bind_apply, mod_function, modS_apply, getS_apply, Res.bind_ok, hc, hi,
        P.pure_apply, test_expect_apply, GenTree.tok, ↓reduceIte,
        add_instance_method_apply, htokm, htok']
      rw [hbody]
      simp only [Res.bind_ok, P.bind_apply, modS_apply, getS_apply, auto_location_apply,
        child_of]
      cases hctor : d.is_constructor
      · simp only [Bool.false_eq_true, ↓reduceIte, P.bind_apply, Res.bind_ok, P.pure_apply,
          GenTree.after_body]
        rfl
      · simp only [↓reduceIte, P.bind_apply, getS_apply, auto_location_apply, Res.bind_ok,
          P.pure_apply, GenTree.after_body]
        rfl
    · by_cases hst : is_static_access_type access_type = true
      · simp only [hc, hi, hst, Bool.false_eq_true, ↓reduceIte] at hbody
        simp only [P.bind_apply, mod_function, modS_apply, getS_apply, Res.bind_ok, hc, hi,
          hst, P.pure_apply, test_expect_apply, GenTree.tok, ↓reduceIte,
          add_static_method_apply, GenTree.with_static_method, htok', Bool.false_eq_true]
        simp only [GenTree.with_static_method] at hbody
        rw [hbody]
        simp only [Res.bind_ok, P.bind_apply, modS_apply, getS_apply, auto_location_apply,
          child_of]
        cases hctor : d.is_constructor
        · simp only [Bool.false_eq_true, ↓reduceIte, P.bind_apply, Res.bind_ok, P.pure_apply,
            GenTree.after_body]
          rfl
        · simp only [↓reduceIte, P.bind_apply, getS_apply, auto_location_apply, Res.bind_ok,
            P.pure_apply, GenTree.after_body]
          rfl
      · simp only [hc, hi, hst, Bool.false_eq_true, ↓reduceIte] at hbody
        simp only [P.bind_apply, mod_function, modS_apply, getS_apply, Res.bind_ok, hc, hi,
          hst, P.pure_apply, test_expect_apply, GenTree.tok, ↓reduceIte, htok',
          Bool.false_eq_true]
        rw [hbody]
        simp only [Res.bind_ok, P.bind_apply, modS_apply, getS_apply, auto_location_apply,
          child_of]
        cases hctor : d.is_constructor
        · simp only [Bool.false_eq_true, ↓reduceIte, P.bind_apply, Res.bind_ok, P.pure_apply,
            GenTree.after_body]
          rfl
        · simp only [↓reduceIte, P.bind_apply, getS_apply, auto_location_apply, Res.bind_ok,
            P.pure_apply, GenTree.after_body]
          rfl

theorem get_function_scope_body (c : Caps) (phpdoc_token : Option Token)
    (access_type : AccessType) (d : FunctionDeclaration) (f : Nat) (root b root' : Vertex)
    (s s3 : GenTree) (htok : s.tok.type = tok_opbrc)
    (hbody : c.get_statement none (function_scope_entry phpdoc_token access_type f s) =
      Res.ok (some b) s3)
    (hpatch : (if d.is_constructor then
        patch_func_constructor (root.set_cmd b) s3.cur_class s3.line_num
      else func_force_return (root.set_cmd b) none) (s3.after_body f (root.set_cmd b)) =
        Res.ok root' (s3.after_body f (root.set_cmd b))) :
    ∃ s', get_function_scope c phpdoc_token access_type d f root s =
        Res.ok (if d.uses_of_lambda.isSome && s3.errors.isEmpty then some root' else none) s' ∧
      s'.functions = modify_at s3.functions f (fun fd => { fd with root := some root' }) ∧
      s'.classes = s3.classes ∧ s'.errors = s3.errors ∧ SameInput s3 s' := by
  obtain ⟨s', h1, h2, h3, h4, h5⟩ := function_scope_tail phpdoc_token d f root'
    (s3.after_body f (root.set_cmd b))
  refine ⟨s', ?_, ?_, h3, h4, h5⟩
  · rw [get_function_scope_eq c phpdoc_token access_type d f root b s s3 htok hbody, hpatch]
    exact h1
  · rw [h2]
    exact modify_at_twice _ _ _ _ (fun _ => rfl)

theorem get_function_scope_abort (c : Caps) (phpdoc_token : Option Token)
    (access_type : AccessType) (d : FunctionDeclaration) (f : Nat) (root b : Vertex)
    (a : Abort) (s s3 : GenTree) (htok : s.tok.type = tok_opbrc)
    (hbody : c.get_statement none (function_scope_entry phpdoc_token access_type f s) =
      Res.ok (some b) s3)
    (hpatch : (if d.is_constructor then
        patch_func_constructor (root.set_cmd b) s3.cur_class s3.line_num
      else func_force_return (root.set_cmd b) none) (s3.after_body f (root.set_cmd b)) =
        Res.abort a) :
    get_function_scope c phpdoc_token access_type d f root s = Res.abort a := by
  rw [get_function_scope_eq c phpdoc_token access_type d f root b s s3 htok hbody, hpatch]
  rfl

theorem get_function_apply (e : Env) (c : Caps) (phpdoc_token : Option Token)
    (access_type : AccessType) (uses : Option (List Vertex)) (s s1 : GenTree)
    (d : FunctionDeclaration) (hfun : s.tok.type = tok_function)
    (hd : parse_function_declaration e c access_type uses (Vertex.create op_none []) s =
      Res.ok (some d) s1)
    (hbrc : s1.tok.type = tok_opbrc) :
    get_function e c phpdoc_token access_type uses s =
      (get_function_scope c phpdoc_token access_type d s1.functions.length
        (function_node d s1.functions.length) (s1.with_current d)).bind fun res =>
          ((do pop_function; return (res, d.uses_of_lambda)) :
            P (Option Vertex × Option (List Vertex))) := by
  have h1 : (tok_function == tok_ex_function) = false := by decide
  have h2 : (tok_opbrc == tok_semicolon) = false := by decide
  have h3 : ((if (s1.in_func_cnt_ == 0 && !s1.in_namespace) = true then func_type_t.func_global
      else func_type_t.func_local) == func_type_t.func_extern_) = false := by
    split <;> rfl
  unfold get_function
  simp only [P.bind_apply, cur_type_apply, hfun, h1, hd, Res.bind_ok, getS_apply, hbrc, h2,
    Bool.false_eq_true, ↓reduceIte, h3, create_function_apply, push_function, modS_apply]
  rfl

theorem set_cmd_twice (root b1 b2 : Vertex) (h : 2 ≤ root.next.length) :
    (root.set_cmd b1).set_cmd b2 = root.set_cmd b2 := by
  cases root with
  | mk i n r =>
    match n, h with
    | a :: b :: rest, _ => rfl

theorem func_force_return_seq (root : Vertex) (s : GenTree) (h1 : root.type = op_function)
    (h2 : root.cmd.type = op_seq) :
    func_force_return root none s =
      Res.ok (root.set_cmd (Vertex.create op_seq (root.cmd.next ++ [void_return]))) s := by
  unfold func_force_return
  simp [h1, h2]
  rfl

theorem func_force_return_other (root : Vertex) (val : Option Vertex) (s : GenTree)
    (h : root.type ≠ op_function) : func_force_return root val s = Res.ok root s := by
  unfold func_force_return
  simp [h]

theorem func_force_return_assert (root : Vertex) (val : Option Vertex) (s : GenTree)
    (h1 : root.type = op_function) (h2 : root.cmd.type ≠ op_seq) :
    func_force_return root val s = Res.abort (Abort.assert_failed "cmd->type() == op_seq") := by
  unfold func_force_return
  simp [h1, h2]

theorem function_node_type (d : FunctionDeclaration) (f : Nat) :
    (function_node d f).type = op_function := rfl

theorem function_node_next (d : FunctionDeclaration) (f : Nat) :
    (function_node d f).next = [d.name, d.params, null_vertex] := rfl

theorem pop_function_run {α : Type} (a : α) (s : GenTree) :
    ∃ s', ((do pop_function; return a) : P α) s = Res.ok a s' ∧ s'.functions = s.functions ∧
      s'.classes = s.classes ∧ s'.errors = s.errors ∧ SameInput s s' :=
  ⟨_, rfl, rfl, rfl, rfl, rfl, rfl, rfl, rfl⟩

theorem stored_root (l : List FunctionData) (f : Nat) (root : Vertex) (h : f < l.length) :
    ((modify_at l f fun fd => { fd with root := some root }).getD f default).root =
      some root := by
  rw [modify_at_getD, if_pos ⟨rfl, h⟩]

/-- The run of `get_function` on a declaration with a body, once the body has been parsed
to `b` and patched to `root'`. -/
theorem get_function_body (e : Env) (c : Caps) (phpdoc_token : Option Token)
    (access_type : AccessType) (uses : Option (List Vertex)) (s s1 s3 : GenTree)
    (d : FunctionDeclaration) (b root' : Vertex) (hfun : s.tok.type = tok_function)
    (hd : parse_function_declaration e c access_type uses (Vertex.create op_none []) s =
      Res.ok (some d) s1)
    (hbrc : s1.tok.type = tok_opbrc)
    (hbody : c.get_statement none (body_start phpdoc_token access_type d s1) =
      Res.ok (some b) s3)
    (hf : s1.functions.length < s3.functions.length)
    (hpatch : (if d.is_constructor then
        patch_func_constructor ((function_node d s1.functions.length).set_cmd b) s3.cur_class
          s3.line_num
      else func_force_return ((function_node d s1.functions.length).set_cmd b) none)
        (s3.after_body s1.functions.length ((function_node d s1.functions.length).set_cmd b)) =
      Res.ok root'
        (s3.after_body s1.functions.length ((function_node d s1.functions.length).set_cmd b))) :
    ∃ r s', get_function e c phpdoc_token access_type uses s =
        Res.ok (r, d.uses_of_lambda) s' ∧
      (s'.get_function s1.functions.length).root = some root' ∧
      (∀ w, r = some w → w = root') ∧ s'.classes = s3.classes ∧ s'.errors = s3.errors ∧
      SameInput s3 s' := by
  obtain ⟨t, h1, h2, h3, h4, h5⟩ := get_function_scope_body c phpdoc_token access_type d
    s1.functions.length (function_node d s1.functions.length) b root' (s1.with_current d) s3
    hbrc hbody hpatch
  obtain ⟨s', g1, g2, g3, g4, g5⟩ := pop_function_run
    ((if d.uses_of_lambda.isSome && s3.errors.isEmpty then some root' else none),
      d.uses_of_lambda) t
  refine ⟨if d.uses_of_lambda.isSome && s3.errors.isEmpty then some root' else none, s',
    ?_, ?_, ?_, g3.trans h3, g4.trans h4, h5.same_trans g5⟩
  · rw [get_function_apply e c phpdoc_token access_type uses s s1 d hfun hd hbrc, h1]
    exact g1
  · unfold GenTree.get_function
    rw [g2, h2]
    exact stored_root _ _ _ hf
  · intro w hw
    split at hw
    · cases hw; rfl
    · cases hw

theorem get_function_abort (e : Env) (c : Caps) (phpdoc_token : Option Token)
    (access_type : AccessType) (uses : Option (List Vertex)) (s s1 s3 : GenTree)
    (d : FunctionDeclaration) (b : Vertex) (a : Abort) (hfun : s.tok.type = tok_function)
    (hd : parse_function_declaration e c access_type uses (Vertex.create op_none []) s =
      Res.ok (some d) s1)
    (hbrc : s1.tok.type = tok_opbrc)
    (hbody : c.get_statement none (body_start phpdoc_token access_type d s1) =
      Res.ok (some b) s3)
    (hpatch : (if d.is_constructor then
        patch_func_constructor ((function_node d s1.functions.length).set_cmd b) s3.cur_class
          s3.line_num
      else func_force_return ((function_node d s1.functions.length).set_cmd b) none)
        (s3.after_body s1.functions.length ((function_node d s1.functions.length).set_cmd b)) =
      Res.abort a) :
    get_function e c phpdoc_token access_type uses s = Res.abort a := by
  rw [get_function_apply e c phpdoc_token access_type uses s s1 d hfun hd hbrc,
    get_function_scope_abort c phpdoc_token access_type d s1.functions.length
      (function_node d s1.functions.length) b a (s1.with_current d) s3 hbrc hbody hpatch]
  rfl

theorem function_node_cmd (d : FunctionDeclaration) (f : Nat) (b : Vertex) :
    ((function_node d f).set_cmd b).cmd = b := rfl

theorem function_node_set_cmd (d : FunctionDeclaration) (f : Nat) (b1 b2 : Vertex) :
    ((function_node d f).set_cmd b1).set_cmd b2 = (function_node d f).set_cmd b2 := rfl

/-- Claim C39: `func_force_return(root)` on a function node whose body is a sequence
`s1 … sn` stores the sequence `s1 … sn, r` of length `n + 1` as the body, `r` being a
return node with the void flag set and a null-literal child; nothing about `sn` is
tested.  On a node that is not a function node it changes nothing.  So when
`get_function` has parsed the body `b` of a non-constructor declaration, the node stored
for the new function (which is the node returned for a lambda) has the statements of `b`
followed by that return node as its body; a body that is no sequence fails the assertion
of `func_force_return`. -/
theorem forced_trailing_return (e : Env) (c : Caps) (phpdoc_token : Option Token)
    (access_type : AccessType) (uses : Option (List Vertex)) (s s1 s3 : GenTree)
    (d : FunctionDeclaration) (b : Vertex) (hfun : s.tok.type = tok_function)
    (hd : parse_function_declaration e c access_type uses (Vertex.create op_none []) s =
      Res.ok (some d) s1)
    (hbrc : s1.tok.type = tok_opbrc) (hnc : d.is_constructor = false)
    (hbody : c.get_statement none (body_start phpdoc_token access_type d s1) =
      Res.ok (some b) s3)
    (hf : s1.functions.length < s3.functions.length) :
    (∀ (root : Vertex) (st : GenTree), root.type = op_function → root.cmd.type = op_seq →
      2 ≤ root.next.length →
      ∃ root', func_force_return root none st = Res.ok root' st ∧
        root'.type = op_function ∧ root'.cmd.type = op_seq ∧
        root'.cmd.next = root.cmd.next ++ [void_return] ∧
        root'.cmd.next.length = root.cmd.next.length + 1 ∧
        root'.next.take 2 = root.next.take 2) ∧
    (void_return.type = op_return ∧ void_return.info.void_flag = true ∧
      void_return.next = [Vertex.create op_null []]) ∧
    (∀ (root : Vertex) (val : Option Vertex) (st : GenTree), root.type ≠ op_function →
      func_force_return root val st = Res.ok root st) ∧
    (b.type = op_seq →
      ∃ r s' root', get_function e c phpdoc_token access_type uses s =
          Res.ok (r, d.uses_of_lambda) s' ∧
        (s'.get_function s1.functions.length).root = some root' ∧
        (∀ w, r = some w → w = root') ∧
        root'.type = op_function ∧ root'.name = d.name ∧ root'.params = d.params ∧
        root'.cmd.type = op_seq ∧ root'.cmd.next = b.next ++ [void_return] ∧
        root'.cmd.next.getLast? = some void_return) ∧
    (b.type ≠ op_seq → get_function e c phpdoc_token access_type uses s =
      Res.abort (Abort.assert_failed "cmd->type() == op_seq")) := by
  refine ⟨?_, ⟨rfl, rfl, rfl⟩, fun root val st h => func_force_return_other root val st h,
    ?_, ?_⟩
  · intro root st h1 h2 h3
    refine ⟨_, func_force_return_seq root st h1 h2, h1, ?_, ?_, ?_, ?_⟩
    · rw [set_cmd_cmd _ _ h3]; rfl
    · rw [set_cmd_cmd _ _ h3]; rfl
    · rw [set_cmd_cmd _ _ h3]
      show (root.cmd.next ++ [void_return]).length = _
      simp
    · cases root with
      | mk i n r =>
        match n, h3 with
        | a :: b :: rest, _ => rfl
  · intro hseq
    have hpatch : (if d.is_constructor then
        patch_func_constructor ((function_node d s1.functions.length).set_cmd b) s3.cur_class
          s3.line_num
      else func_force_return ((function_node d s1.functions.length).set_cmd b) none)
        (s3.after_body s1.functions.length ((function_node d s1.functions.length).set_cmd b)) =
      Res.ok ((function_node d s1.functions.length).set_cmd
          (Vertex.create op_seq (b.next ++ [void_return])))
        (s3.after_body s1.functions.length
          ((function_node d s1.functions.length).set_cmd b)) := by
      rw [hnc, if_neg (by simp), func_force_return_seq
        ((function_node d s1.functions.length).set_cmd b) _ rfl hseq]
      rfl
    obtain ⟨r, s', h1, h2, h3, _⟩ := get_function_body e c phpdoc_token access_type uses
      s s1 s3 d b _ hfun hd hbrc hbody hf hpatch
    refine ⟨r, s', _, h1, h2, h3, rfl, rfl, rfl, rfl, rfl, ?_⟩
    show (b.next ++ [void_return]).getLast? = _
    simp
  · intro hseq
    refine get_function_abort e c phpdoc_token access_type uses s s1 s3 d b _ hfun hd hbrc
      hbody ?_
    rw [hnc, if_neg (by simp)]
    exact func_force_return_assert _ _ _ rfl hseq

set_option maxRecDepth 8000 in
theorem forced_trailing_return_witness :
    ∃ r s' root', get_function sample_env (parser sample_env 40) none
        AccessType.access_nonmember none (sample_state tokens_function_return) =
          Res.ok (r, none) s' ∧
      (s'.get_function 0).root = some root' ∧
      root'.cmd.next = [(Vertex.create op_return [leaf op_int_const 1 "1"]).set_line 1,
        void_return] := by
  obtain ⟨r, s', root', h1, h2, _, _, _, _, _, h3, _⟩ :=
    (forced_trailing_return sample_env (parser sample_env 40) none
      AccessType.access_nonmember none (sample_state tokens_function_return) _ _ _ _
      rfl rfl rfl rfl rfl (by decide)).2.2.2.1 rfl
  exact ⟨r, s', root', h1, h2, h3⟩

/-- On `class A { public $x = 1; public function __construct() {} public $y = 2; }` the
parse reports no error, the class ends up with the fields `x` and `y`, and the body of the
declared constructor is `$this`, `$this->x = 1`, `return $this`: the later field `y` has no
initialiser in it. -/
theorem constructor_skips_later_field :
    (match run sample_env (parser sample_env 60) (sample_state tokens_class_constructor) with
      | Res.ok none s' => some (s'.errors.length,
          (s'.get_class 0).members.instance_fields.map (fun f => f.1.get_string),
          (s'.get_function 1).name,
          ((s'.get_function 1).root.getD default).cmd.next.map
            (fun v => (v.type, (v.next.headD default).get_string)))
      | _ => none) =
    some (0, ["x", "y"], "A$$__construct",
      [(op_var, ""), (op_set, "x"), (op_return, "this")]) := by
  decide!

theorem get_if_run (c : Caps) (s s1 s2 s3 : GenTree) (e b : Vertex)
    (hpar : s.next.tok.type = tok_oppar)
    (hskip : skip_phpdoc_tokens s.next.next = Res.ok () s1)
    (hexpr : c.get_expression s1 = Res.ok (some e) s2)
    (hcl : s2.tok.type = tok_clpar)
    (hbody : c.get_statement none s2.next = Res.ok (some b) s3)
    (helse : s3.tok.type ≠ tok_else) :
    get_if c s = Res.ok (some ((Vertex.create op_if
      [conv_to tp_bool e, embrace b]).set_line s.line_num)) s3 := by
  have h1 : (s3.tok.type == tok_else) = false := by simpa using helse
  unfold get_if
  simp only [P.bind_apply, auto_location_apply, next_cur_apply, Res.bind_ok,
    expect_ok _ _ _ hpar, Bool.not_true, Bool.false_eq_true, ↓reduceIte, hskip, hexpr,
    expect_ok _ _ _ hcl, hbody, cur_type_apply, h1, P.pure_apply]

theorem get_if_else_run (c : Caps) (s s1 s2 s3 s4 : GenTree) (e b t : Vertex)
    (hpar : s.next.tok.type = tok_oppar)
    (hskip : skip_phpdoc_tokens s.next.next = Res.ok () s1)
    (hexpr : c.get_expression s1 = Res.ok (some e) s2)
    (hcl : s2.tok.type = tok_clpar)
    (hbody : c.get_statement none s2.next = Res.ok (some b) s3)
    (helse : s3.tok.type = tok_else)
    (hthird : c.get_statement none s3.next = Res.ok (some t) s4) :
    get_if c s = Res.ok (some ((Vertex.create op_if
      [conv_to tp_bool e, embrace b, embrace t]).set_line s.line_num)) s4 := by
  have h1 : (s3.tok.type == tok_else) = true := by simpa using helse
  unfold get_if
  simp only [P.bind_apply, auto_location_apply, next_cur_apply, Res.bind_ok,
    expect_ok _ _ _ hpar, Bool.not_true, Bool.false_eq_true, ↓reduceIte, hskip, hexpr,
    expect_ok _ _ _ hcl, hbody, cur_type_apply, h1, hthird, P.pure_apply]

theorem get_while_run (c : Caps) (s s1 s2 s3 : GenTree) (e b : Vertex)
    (hpar : s.next.tok.type = tok_oppar)
    (hskip : skip_phpdoc_tokens s.next.next = Res.ok () s1)
    (hexpr : c.get_expression s1 = Res.ok (some e) s2)
    (hcl : s2.tok.type = tok_clpar)
    (hbody : c.get_statement none s2.next = Res.ok (some b) s3) :
    get_while c s = Res.ok (some ((Vertex.create op_while
      [conv_to tp_bool e, embrace b]).set_line s.line_num)) s3 := by
  unfold get_while
  simp only [P.bind_apply, auto_location_apply, next_cur_apply, Res.bind_ok,
    expect_ok _ _ _ hpar, Bool.not_true, Bool.false_eq_true, ↓reduceIte, hskip, hexpr,
    expect_ok _ _ _ hcl, hbody, P.pure_apply]

theorem get_do_run (c : Caps) (s sb s1 s2 : GenTree) (e b : Vertex)
    (hbody : c.get_statement none s.next = Res.ok (some b) sb)
    (hwhile : sb.tok.type = tok_while)
    (hpar : sb.next.tok.type = tok_oppar)
    (hskip : skip_phpdoc_tokens sb.next.next = Res.ok () s1)
    (hexpr : c.get_expression s1 = Res.ok (some e) s2)
    (hcl : s2.tok.type = tok_clpar)
    (hsemi : s2.next.tok.type = tok_semicolon) :
    get_do c s = Res.ok (some ((Vertex.create op_do
      [conv_to tp_bool e, b]).set_line s.line_num)) s2.next.next := by
  unfold get_do
  simp only [P.bind_apply, auto_location_apply, next_cur_apply, Res.bind_ok, hbody,
    expect_ok _ _ _ hwhile, expect_ok _ _ _ hpar, Bool.not_true, Bool.false_eq_true,
    ↓reduceIte, hskip, hexpr, expect_ok _ _ _ hcl, expect_ok _ _ _ hsemi, P.pure_apply]

theorem get_foreach_run (c : Caps) (s s1 s2 s3 : GenTree) (first b : Vertex)
    (hpar : s.next.tok.type = tok_oppar)
    (hskip : skip_phpdoc_tokens s.next.next = Res.ok () s1)
    (hparam : get_foreach_param c s1 = Res.ok (some first) s2)
    (hcl : s2.tok.type = tok_clpar)
    (hbody : c.get_statement none s2.next = Res.ok (some b) s3) :
    get_foreach c s = Res.ok (some ((Vertex.create op_foreach
      [first, embrace b, Vertex.create op_empty []]).set_line s.line_num)) s3 := by
  unfold get_foreach
  simp only [P.bind_apply, auto_location_apply, next_cur_apply, Res.bind_ok,
    expect_ok _ _ _ hpar, Bool.not_true, Bool.false_eq_true, ↓reduceIte, hskip, hparam,
    expect_ok _ _ _ hcl, hbody, P.pure_apply]

theorem get_statement_try_run (c : Caps) (s s1 s2 s3 : GenTree) (first x third : Vertex)
    (hbody : c.get_statement none s.next = Res.ok (some first) s1)
    (hcatch : s1.tok.type = tok_catch)
    (hpar : s1.next.tok.type = tok_oppar)
    (hex : s1.next.next.tok.type = tok_Exception)
    (hexpr : c.get_expression s1.next.next.next = Res.ok (some x) s2)
    (hvar : x.type = op_var)
    (hcl : s2.tok.type = tok_clpar)
    (hthird : c.get_statement none s2.next = Res.ok (some third) s3) :
    get_statement_try c s = Res.ok (some ((Vertex.create op_try
      [embrace first, x.set_info (fun i => { i with type_help := tp_Exception }),
        embrace third]).set_line s.line_num)) s3 := by
  have hv : (x.type == op_var) = true := by simpa using hvar
  unfold get_statement_try
  simp only [P.bind_apply, auto_location_apply, next_cur_apply, Res.bind_ok, hbody,
    expect_ok _ _ _ hcatch, expect_ok _ _ _ hpar, expect_ok _ _ _ hex, Bool.not_true,
    Bool.false_eq_true, ↓reduceIte, hexpr, hv, kphp_error_apply, expect_ok _ _ _ hcl, hthird,
    P.pure_apply]

/-- Claim C7: `get_if`, `get_while` and `get_do` return, for a condition that parses to the
expression `e`, a node whose condition child is `conv_bool(e)`: one boolean-coercion node
whose only child is `e`, whatever `e` is.  The first four parts give the node each function
returns once the condition and the bodies have been parsed (an `if` without and with
`else`, a `while`, a `do … while`); the next three say that every node these functions
return has this shape. -/
theorem boolean_condition_coercion (c : Caps) :
    (∀ (s s1 s2 s3 : GenTree) (e b : Vertex), s.next.tok.type = tok_oppar →
      skip_phpdoc_tokens s.next.next = Res.ok () s1 →
      c.get_expression s1 = Res.ok (some e) s2 → s2.tok.type = tok_clpar →
      c.get_statement none s2.next = Res.ok (some b) s3 → s3.tok.type ≠ tok_else →
      get_if c s = Res.ok (some ((Vertex.create op_if
        [conv_to tp_bool e, embrace b]).set_line s.line_num)) s3) ∧
    (∀ (s s1 s2 s3 s4 : GenTree) (e b t : Vertex), s.next.tok.type = tok_oppar →
      skip_phpdoc_tokens s.next.next = Res.ok () s1 →
      c.get_expression s1 = Res.ok (some e) s2 → s2.tok.type = tok_clpar →
      c.get_statement none s2.next = Res.ok (some b) s3 → s3.tok.type = tok_else →
      c.get_statement none s3.next = Res.ok (some t) s4 →
      get_if c s = Res.ok (some ((Vertex.create op_if
        [conv_to tp_bool e, embrace b, embrace t]).set_line s.line_num)) s4) ∧
    (∀ (s s1 s2 s3 : GenTree) (e b : Vertex), s.next.tok.type = tok_oppar →
      skip_phpdoc_tokens s.next.next = Res.ok () s1 →
      c.get_expression s1 = Res.ok (some e) s2 → s2.tok.type = tok_clpar →
      c.get_statement none s2.next = Res.ok (some b) s3 →
      get_while c s = Res.ok (some ((Vertex.create op_while
        [conv_to tp_bool e, embrace b]).set_line s.line_num)) s3) ∧
    (∀ (s sb s1 s2 : GenTree) (e b : Vertex),
      c.get_statement none s.next = Res.ok (some b) sb → sb.tok.type = tok_while →
      sb.next.tok.type = tok_oppar → skip_phpdoc_tokens sb.next.next = Res.ok () s1 →
      c.get_expression s1 = Res.ok (some e) s2 → s2.tok.type = tok_clpar →
      s2.next.tok.type = tok_semicolon →
      get_do c s = Res.ok (some ((Vertex.create op_do
        [conv_to tp_bool e, b]).set_line s.line_num)) s2.next.next) ∧
    (∀ (s s' : GenTree) (v : Vertex), get_if c s = Res.ok (some v) s' →
      ∃ e s1 s2, skip_phpdoc_tokens s.next.next = Res.ok () s1 ∧
        c.get_expression s1 = Res.ok (some e) s2 ∧ v.type = op_if ∧
        v.next.head? = some (conv_to tp_bool e)) ∧
    (∀ (s s' : GenTree) (v : Vertex), get_while c s = Res.ok (some v) s' →
      ∃ e s1 s2, skip_phpdoc_tokens s.next.next = Res.ok () s1 ∧
        c.get_expression s1 = Res.ok (some e) s2 ∧ v.type = op_while ∧
        v.next.head? = some (conv_to tp_bool e)) ∧
    (∀ (s s' : GenTree) (v : Vertex), get_do c s = Res.ok (some v) s' →
      ∃ body sb e s1 s2, c.get_statement none s.next = Res.ok (some body) sb ∧
        skip_phpdoc_tokens sb.next.next = Res.ok () s1 ∧
        c.get_expression s1 = Res.ok (some e) s2 ∧ v.type = op_do ∧
        v.next = [conv_to tp_bool e, body]) ∧
    ∀ e : Vertex, (conv_to tp_bool e).type = op_conv_bool ∧ (conv_to tp_bool e).next = [e] :=
  ⟨fun s s1 s2 s3 e b h1 h2 h3 h4 h5 h6 => get_if_run c s s1 s2 s3 e b h1 h2 h3 h4 h5 h6,
    fun s s1 s2 s3 s4 e b t h1 h2 h3 h4 h5 h6 h7 =>
      get_if_else_run c s s1 s2 s3 s4 e b t h1 h2 h3 h4 h5 h6 h7,
    fun s s1 s2 s3 e b h1 h2 h3 h4 h5 => get_while_run c s s1 s2 s3 e b h1 h2 h3 h4 h5,
    fun s sb s1 s2 e b h1 h2 h3 h4 h5 h6 h7 => get_do_run c s sb s1 s2 e b h1 h2 h3 h4 h5 h6 h7,
    fun s s' v => get_if_condition c s s' v, fun s s' v => get_while_condition c s s' v,
    fun s s' v => get_do_condition c s s' v, fun _ => ⟨rfl, rfl⟩⟩

set_option maxRecDepth 8000 in
theorem boolean_condition_coercion_witness :
    (∃ s', get_if (parser sample_env 30) (sample_state tokens_if) =
      Res.ok (some (node1 op_if [conv_to tp_bool (node1 op_true []),
        node1 op_seq [node1 op_empty []]])) s') ∧
    (∃ s', get_if (parser sample_env 30) (sample_state tokens_if_else) =
      Res.ok (some (node1 op_if [conv_to tp_bool (node1 op_true []),
        node1 op_seq [node1 op_empty []], node1 op_seq []])) s') ∧
    (∃ s', get_while (parser sample_env 30) (sample_state tokens_while) =
      Res.ok (some (node1 op_while [conv_to tp_bool (node1 op_true []),
        node1 op_seq [node1 op_empty []]])) s') ∧
    (∃ s', get_do (parser sample_env 30) (sample_state tokens_do) =
      Res.ok (some (node1 op_do [conv_to tp_bool (node1 op_true []), node1 op_empty []])) s') :=
  ⟨⟨_, ((boolean_condition_coercion (parser sample_env 30)).1 (sample_state tokens_if) _ _ _ _ _
      rfl rfl rfl rfl rfl (by decide)).trans rfl⟩,
   ⟨_, ((boolean_condition_coercion (parser sample_env 30)).2.1 (sample_state tokens_if_else)
      _ _ _ _ _ _ _ rfl rfl rfl rfl rfl rfl rfl).trans rfl⟩,
   ⟨_, ((boolean_condition_coercion (parser sample_env 30)).2.2.1 (sample_state tokens_while)
      _ _ _ _ _ rfl rfl rfl rfl rfl).trans rfl⟩,
   ⟨_, ((boolean_condition_coercion (parser sample_env 30)).2.2.2.1 (sample_state tokens_do)
      _ _ _ _ _ rfl rfl rfl rfl rfl rfl rfl).trans rfl⟩⟩

/-- Claim C37: `embrace(v)` is always a sequence node: `v` itself when `v` is a sequence
node, otherwise a sequence with the single child `v` that carries the location of `v`;
hence `embrace(embrace(v)) = embrace(v)`.  In every node returned by `get_if` the branches
(all children after the condition) are sequence nodes, and so are the body of every node
returned by `get_while`, `get_for` and `get_foreach` and both blocks of every node
returned for `try`.  The last six parts give the node each of these functions returns once
its clauses and bodies have been parsed: every body `b` is stored as `embrace(b)`. -/
theorem embrace_block_wrapper (v : Vertex) :
    (embrace v).type = op_seq ∧ (v.type = op_seq → embrace v = v) ∧
      (v.type ≠ op_seq → (embrace v).next = [v] ∧ (embrace v).location = v.location) ∧
      embrace (embrace v) = embrace v ∧
      (∀ c : Caps, Post (get_if c) fun r => ∀ w, r = some w →
        w.type = op_if ∧ ((w.next.drop 1).map Vertex.type = [op_seq] ∨
          (w.next.drop 1).map Vertex.type = [op_seq, op_seq])) ∧
      (∀ c : Caps, Post (get_while c) fun r => ∀ w, r = some w →
        w.type = op_while ∧ (w.next.drop 1).map Vertex.type = [op_seq]) ∧
      (∀ c : Caps, Post (get_for c) fun r => ∀ w, r = some w →
        w.type = op_for ∧ (w.next.drop 3).map Vertex.type = [op_seq]) ∧
      (∀ c : Caps, Post (get_foreach c) fun r => ∀ w, r = some w →
        w.type = op_foreach ∧ ((w.next.drop 1).take 1).map Vertex.type = [op_seq]) ∧
      (∀ c : Caps, Post (get_statement_try c) fun r => ∀ w, r = some w →
        w.type = op_try ∧ w.next.length = 3 ∧ (w.next.take 1).map Vertex.type = [op_seq] ∧
          (w.next.drop 2).map Vertex.type = [op_seq]) ∧
      (∀ (c : Caps) (s s1 s2 s3 : GenTree) (e b : Vertex), s.next.tok.type = tok_oppar →
        skip_phpdoc_tokens s.next.next = Res.ok () s1 →
        c.get_expression s1 = Res.ok (some e) s2 → s2.tok.type = tok_clpar →
        c.get_statement none s2.next = Res.ok (some b) s3 → s3.tok.type ≠ tok_else →
        get_if c s = Res.ok (some ((Vertex.create op_if
          [conv_to tp_bool e, embrace b]).set_line s.line_num)) s3) ∧
      (∀ (c : Caps) (s s1 s2 s3 s4 : GenTree) (e b t : Vertex), s.next.tok.type = tok_oppar →
        skip_phpdoc_tokens s.next.next = Res.ok () s1 →
        c.get_expression s1 = Res.ok (some e) s2 → s2.tok.type = tok_clpar →
        c.get_statement none s2.next = Res.ok (some b) s3 → s3.tok.type = tok_else →
        c.get_statement none s3.next = Res.ok (some t) s4 →
        get_if c s = Res.ok (some ((Vertex.create op_if
          [conv_to tp_bool e, embrace b, embrace t]).set_line s.line_num)) s4) ∧
      (∀ (c : Caps) (s s1 s2 s3 : GenTree) (e b : Vertex), s.next.tok.type = tok_oppar →
        skip_phpdoc_tokens s.next.next = Res.ok () s1 →
        c.get_expression s1 = Res.ok (some e) s2 → s2.tok.type = tok_clpar →
        c.get_statement none s2.next = Res.ok (some b) s3 →
        get_while c s = Res.ok (some ((Vertex.create op_while
          [conv_to tp_bool e, embrace b]).set_line s.line_num)) s3) ∧
      (∀ (c : Caps) (s s1 s2 s3 s4 s5 : GenTree) (first second third : List Vertex)
        (b : Vertex), s.next.tok.type = tok_oppar →
        skip_phpdoc_tokens s.next.next = Res.ok () s1 →
        gen_list c op_err [] GetFunc.get_expression tok_comma s1 = Res.ok (true, first) s2 →
        s2.tok.type = tok_semicolon →
        gen_list c op_err [] GetFunc.get_expression tok_comma s2.next =
          Res.ok (true, second) s3 →
        s3.tok.type = tok_semicolon →
        gen_list c op_err [] GetFunc.get_expression tok_comma s3.next =
          Res.ok (true, third) s4 →
        s4.tok.type = tok_clpar →
        c.get_statement none s4.next = Res.ok (some b) s5 →
        get_for c s = Res.ok (some ((Vertex.create op_for
          [(Vertex.create op_seq first).set_line s1.line_num,
           (Vertex.create op_seq_comma (for_condition second)).set_line s2.next.line_num,
           (Vertex.create op_seq third).set_line s3.next.line_num,
           embrace b]).set_line s.line_num)) s5) ∧
      (∀ (c : Caps) (s s1 s2 s3 : GenTree) (first b : Vertex), s.next.tok.type = tok_oppar →
        skip_phpdoc_tokens s.next.next = Res.ok () s1 →
        get_foreach_param c s1 = Res.ok (some first) s2 → s2.tok.type = tok_clpar →
        c.get_statement none s2.next = Res.ok (some b) s3 →
        get_foreach c s = Res.ok (some ((Vertex.create op_foreach
          [first, embrace b, Vertex.create op_empty []]).set_line s.line_num)) s3) ∧
      (∀ (c : Caps) (s s1 s2 s3 : GenTree) (first x third : Vertex),
        c.get_statement none s.next = Res.ok (some first) s1 → s1.tok.type = tok_catch →
        s1.next.tok.type = tok_oppar → s1.next.next.tok.type = tok_Exception →
        c.get_expression s1.next.next.next = Res.ok (some x) s2 → x.type = op_var →
        s2.tok.type = tok_clpar →
        c.get_statement none s2.next = Res.ok (some third) s3 →
        get_statement_try c s = Res.ok (some ((Vertex.create op_try
          [embrace first, x.set_info (fun i => { i with type_help := tp_Exception }),
            embrace third]).set_line s.line_num)) s3) := by
  obtain ⟨h1, h2, h3, h4, h5, h6, h7, h8, h9⟩ := embrace_idempotent v
  exact ⟨h1, h2, h3, h4, h5, h6, h7, h8, h9,
    fun c s s1 s2 s3 e b g1 g2 g3 g4 g5 g6 => get_if_run c s s1 s2 s3 e b g1 g2 g3 g4 g5 g6,
    fun c s s1 s2 s3 s4 e b t g1 g2 g3 g4 g5 g6 g7 =>
      get_if_else_run c s s1 s2 s3 s4 e b t g1 g2 g3 g4 g5 g6 g7,
    fun c s s1 s2 s3 e b g1 g2 g3 g4 g5 => get_while_run c s s1 s2 s3 e b g1 g2 g3 g4 g5,
    fun c s s1 s2 s3 s4 s5 first second third b g1 g2 g3 g4 g5 g6 g7 g8 g9 =>
      get_for_run c s s1 s2 s3 s4 s5 first second third b g1 g2 g3 g4 g5 g6 g7 g8 g9,
    fun c s s1 s2 s3 first b g1 g2 g3 g4 g5 =>
      get_foreach_run c s s1 s2 s3 first b g1 g2 g3 g4 g5,
    fun c s s1 s2 s3 first x third g1 g2 g3 g4 g5 g6 g7 g8 =>
      get_statement_try_run c s s1 s2 s3 first x third g1 g2 g3 g4 g5 g6 g7 g8⟩

set_option maxRecDepth 8000 in
theorem embrace_block_wrapper_witness :
    (∃ w s', get_if (parser sample_env 40) (sample_state tokens_if_else) = Res.ok (some w) s' ∧
      w.next.drop 1 = [node1 op_seq [node1 op_empty []], node1 op_seq []]) ∧
    (∃ w s', get_while (parser sample_env 40) (sample_state tokens_while) =
        Res.ok (some w) s' ∧ w.next.drop 1 = [node1 op_seq [node1 op_empty []]]) ∧
    (∃ w s', get_for (parser sample_env 40) (sample_state tokens_for_empty) =
        Res.ok (some w) s' ∧ w.next.drop 3 = [node1 op_seq []]) ∧
    (∃ w s', get_foreach (parser sample_env 40) (sample_state tokens_foreach) =
        Res.ok (some w) s' ∧
      (w.next.drop 1).take 1 = [node1 op_seq [node1 op_empty []]]) ∧
    (∃ w s', get_statement_try (parser sample_env 40) (sample_state tokens_try) =
        Res.ok (some w) s' ∧ w.next.take 1 = [node1 op_seq [node1 op_empty []]] ∧
      w.next.drop 2 = [node1 op_seq []]) :=
  ⟨⟨_, _, (embrace_block_wrapper (node1 op_empty [])).2.2.2.2.2.2.2.2.2.2.1
      (parser sample_env 40) (sample_state tokens_if_else) _ _ _ _ _ _ _
      rfl rfl rfl rfl rfl rfl rfl, rfl⟩,
   ⟨_, _, (embrace_block_wrapper (node1 op_empty [])).2.2.2.2.2.2.2.2.2.2.2.1
      (parser sample_env 40) (sample_state tokens_while) _ _ _ _ _ rfl rfl rfl rfl rfl, rfl⟩,
   ⟨_, _, (embrace_block_wrapper (node1 op_empty [])).2.2.2.2.2.2.2.2.2.2.2.2.1
      (parser sample_env 40) (sample_state tokens_for_empty) _ _ _ _ _ _ _ _ _
      rfl rfl rfl rfl rfl rfl rfl rfl rfl, rfl⟩,
   ⟨_, _, (embrace_block_wrapper (node1 op_empty [])).2.2.2.2.2.2.2.2.2.2.2.2.2.1
      (parser sample_env 40) (sample_state tokens_foreach) _ _ _ _ _ rfl rfl rfl rfl rfl, rfl⟩,
   ⟨_, _, (embrace_block_wrapper (node1 op_empty [])).2.2.2.2.2.2.2.2.2.2.2.2.2.2
      (parser sample_env 40) (sample_state tokens_try) _ _ _ _ _ _ rfl rfl rfl rfl rfl rfl rfl
      rfl, rfl, rfl⟩⟩

theorem P.bind_assoc {α β γ : Type} (m : P α) (f : α → P β) (g : β → P γ) :
    (m >>= f) >>= g = m >>= fun a => f a >>= g := by
  funext s
  simp only [P.bind_apply]
  cases m s <;> rfl

theorem P.pure_bind {α β : Type} (a : α) (f : α → P β) : (pure a : P α) >>= f = f a := rfl

theorem P.ite_bind {α β : Type} (c : Prop) [Decidable c] (m1 m2 : P α) (f : α → P β) :
    (if c then m1 else m2) >>= f = if c then m1 >>= f else m2 >>= f := by
  split <;> rfl

theorem get_class_scope_eq (e : Env) (c : Caps) (phpdoc : Option Token) (loc : Int)
    (k f : Nat) :
    get_class_scope e c phpdoc loc k f =
      get_class_head e phpdoc loc k f >>= fun r =>
        match r with
        | none => pure none
        | some cv => get_class_body c k f cv := by
  unfold get_class_head get_class_scope get_class_body
  simp only [P.bind_assoc, P.pure_bind, P.ite_bind, Bool.not_true, Bool.not_false,
    Bool.false_eq_true, ↓reduceIte] <;> rfl

theorem get_class_run (e : Env) (c : Caps) (phpdoc : Option Token) (s sb s3 : GenTree)
    (k f : Nat) (cv body : Vertex)
    (hentry : get_class_entry e phpdoc s = Res.ok (some (k, f, cv)) sb)
    (hbody : c.get_statement none sb = Res.ok (some body) s3) :
    get_class e c phpdoc s = get_class_exit k f cv s3 := by
  unfold get_class_entry at hentry
  unfold get_class
  simp only [P.bind_apply, auto_location_apply, Res.bind_ok, get_class_scope_eq] at hentry ⊢
  generalize expect tok_class "'class'" s = R1 at hentry ⊢
  cases R1 with
  | abort a => cases hentry
  | ok b1 s1 =>
    simp only [Res.bind_ok, P.ite_apply, P.bind_apply, test_expect_apply] at hentry ⊢
    cases b1 with
    | false => cases hentry
    | true =>
      simp only [Bool.not_true, Bool.false_eq_true, ↓reduceIte] at hentry ⊢
      generalize kphp_error (s1.tok.type == tok_func_name) "Class name expected" s1 = R2
        at hentry ⊢
      cases R2 with
      | abort a => cases hentry
      | ok b2 s2 =>
        simp only [Res.bind_ok, P.ite_apply, P.bind_apply] at hentry ⊢
        cases b2 with
        | true => cases hentry
        | false =>
          simp only [Bool.false_eq_true, ↓reduceIte, P.bind_apply, getS_apply, Res.bind_ok,
            create_function_apply, push_function, modS_apply, new_class, push_class] at hentry ⊢
          generalize get_class_head e phpdoc _ _ _ _ = R at hentry ⊢
          cases R with
          | abort a => cases hentry
          | ok r s4 =>
            cases r with
            | none => cases hentry
            | some cv1 =>
              simp only [Res.bind_ok, P.pure_apply, Res.ok.injEq, Option.some.injEq,
                Prod.mk.injEq] at hentry
              obtain ⟨⟨rfl, rfl, rfl⟩, rfl⟩ := hentry
              unfold get_class_body get_class_exit
              simp only [Res.bind_ok, P.bind_apply, hbody]
              generalize get_class_finish _ _ _ s3 = R3
              cases R3 <;> rfl

theorem get_class_function_body_frame (k f : Nat) (s : GenTree) (root : Vertex)
    (hf : f < s.functions.length) (hroot : (s.get_function f).root = some root)
    (htype : root.type = op_function) (hlen : 2 ≤ root.next.length) :
    ∃ s', get_class_function_body k f s = Res.ok () s' ∧ s'.classes = s.classes ∧
      s'.functions.length = s.functions.length ∧
      ∀ g, (s'.get_function g).name = (s.get_function g).name := by
  have h1 : ((root.set_cmd (Vertex.create op_seq ((s.get_class k).members.constants ++
      (s.get_class k).members.static_fields.map fun x => x.1))).type != op_function) = false := by
    rw [set_cmd_type, htype]
    rfl
  have h2 : ∀ l, ((Vertex.create op_seq l).type != op_seq) = false := fun _ => rfl
  have h3 : ∀ l, (Vertex.create op_seq l).next = l := fun _ => rfl
  unfold get_class_function_body func_force_return
  simp only [P.bind_apply, getS_apply, Res.bind_ok, hroot, Option.getD_some, h1, h2, h3,
    Bool.false_eq_true, ↓reduceIte, set_cmd_cmd _ _ hlen, P.pure_apply, mod_function, modS_apply,
    register_and_require_function_apply]
  refine ⟨_, rfl, rfl, ?_, ?_⟩
  · show (modify_at s.functions f _).length = _
    rw [modify_at_length]
  · intro g
    show ((modify_at s.functions f _).getD g default).name = _
    rw [modify_at_getD]
    split <;> rfl

theorem get_class_exit_apply (k f : Nat) (cv : Vertex) (s3 s4 : GenTree)
    (h : get_class_finish k f cv s3 = Res.ok () s4) :
    ∃ s', get_class_exit k f cv s3 = Res.ok none s' ∧ s'.classes = s4.classes ∧
      s'.functions = s4.functions := by
  unfold get_class_exit
  simp only [P.bind_apply, h, Res.bind_ok, pop_class, pop_function, modS_apply, P.pure_apply]
  exact ⟨_, rfl, rfl, rfl⟩

theorem get_class_finish_methods (k f : Nat) (cv root : Vertex) (s : GenTree)
    (hk : k < s.classes.length) (hf : f < s.functions.length)
    (hroot : (s.get_function f).root = some root) (htype : root.type = op_function)
    (hlen : 2 ≤ root.next.length) :
    ∃ s', get_class_finish k f cv s = Res.ok () s' ∧
      (s'.get_class k).members.instance_methods =
        (s.get_class k).members.instance_methods ++
          (if ((s.get_class k).members.has_any_instance_var
                || (s.get_class k).members.has_any_instance_method)
              && !s.has_constructor k
           then [(s.functions.length, AccessType.access_public)] else []) ∧
      ((((s.get_class k).members.has_any_instance_var
                || (s.get_class k).members.has_any_instance_method)
              && !s.has_constructor k) = true →
        (s'.get_function s.functions.length).name =
          replace_backslashes (s.get_class k).name ++ "$$" ++ "__construct") := by
  obtain ⟨s1, h1, h2, h3⟩ := default_constructor_condition k cv s hk
  obtain ⟨_, _, hfun, hlen1⟩ := synthesized_class_members k cv s s1 hk h1
  obtain ⟨s', h4, h5, _, h6⟩ := get_class_function_body_frame k f s1 root
    (by omega) (by rw [hfun f hf]; exact hroot) htype hlen
  refine ⟨s', ?_, ?_, ?_⟩
  · unfold get_class_finish
    simp only [P.bind_apply, h1, Res.bind_ok, h4]
  · unfold GenTree.get_class at h2 ⊢
    rw [h5]
    exact h2
  · intro hn
    rw [h6]
    exact h3 hn

/-- Claim C9: `get_class` runs the synthesis step once the class body is parsed.  When the
steps before the body give the class `k`, its backing function `f` and the class node, and
the body is then parsed (leaving the backing function a function node), `get_class` returns
with the instance methods of `k` extended by one public method, the synthesized constructor
`<class>$$__construct`, if and only if the class has at least one instance field or
instance method and no constructor; otherwise the instance methods are those the body
left, so a class holding only constants and static members receives none and a class with
a declared constructor receives no second one. -/
theorem default_constructor_synthesis (e : Env) (c : Caps) (phpdoc : Option Token)
    (s sb s3 : GenTree) (k f : Nat) (cv body root : Vertex)
    (hentry : get_class_entry e phpdoc s = Res.ok (some (k, f, cv)) sb)
    (hbody : c.get_statement none sb = Res.ok (some body) s3)
    (hk : k < s3.classes.length) (hf : f < s3.functions.length)
    (hroot : (s3.get_function f).root = some root) (htype : root.type = op_function)
    (hlen : 2 ≤ root.next.length) :
    ∃ s', get_class e c phpdoc s = Res.ok none s' ∧
      (s'.get_class k).members.instance_methods =
        (s3.get_class k).members.instance_methods ++
          (if ((s3.get_class k).members.has_any_instance_var
                || (s3.get_class k).members.has_any_instance_method)
              && !s3.has_constructor k
           then [(s3.functions.length, AccessType.access_public)] else []) ∧
      ((((s3.get_class k).members.has_any_instance_var
                || (s3.get_class k).members.has_any_instance_method)
              && !s3.has_constructor k) = true →
        (s'.get_function s3.functions.length).name =
          replace_backslashes (s3.get_class k).name ++ "$$" ++ "__construct") ∧
      ((s3.get_class k).members.has_any_instance_var = false →
        (s3.get_class k).members.has_any_instance_method = false →
        (s'.get_class k).members.instance_methods = (s3.get_class k).members.instance_methods) ∧
      (s3.has_constructor k = true →
        (s'.get_class k).members.instance_methods = (s3.get_class k).members.instance_methods) := by
  obtain ⟨s4, h1, h2, h3⟩ := get_class_finish_methods k f cv root s3 hk hf hroot htype hlen
  obtain ⟨s', h4, h5, h6⟩ := get_class_exit_apply k f cv s3 s4 h1
  have hc : s'.get_class k = s4.get_class k := by
    unfold GenTree.get_class
    rw [h5]
  have hg : ∀ g, s'.get_function g = s4.get_function g := by
    intro g
    unfold GenTree.get_function
    rw [h6]
  refine ⟨s', (get_class_run e c phpdoc s sb s3 k f cv body hentry hbody).trans h4, ?_, ?_, ?_, ?_⟩
  · rw [hc]
    exact h2
  · intro hn
    rw [hg]
    exact h3 hn
  · intro hv hm
    rw [hc, h2, hv, hm]
    simp
  · intro hcons
    rw [hc, h2, hcons]
    simp

/-- Claim C28: `get_class` fills the backing function once the class body is parsed.  When
the steps before the body give the class `k`, its backing function `f` and the class node,
and the body is then parsed (leaving the backing function a function node), `get_class`
returns with the body of `f` being the constants of the class in the order they were added,
the hidden constant `c#<class name, backslashes replaced>$$class` (whose value is the class
name) after them, then the static fields in the order they were added, closed by one
appended void return: no instance field and no method is part of it.  Constants and static
fields are added at the end of their collections, so that order is the declaration order. -/
theorem class_backing_function_body (e : Env) (c : Caps) (phpdoc : Option Token)
    (s sb s3 : GenTree) (k f : Nat) (cv body root : Vertex)
    (hentry : get_class_entry e phpdoc s = Res.ok (some (k, f, cv)) sb)
    (hbody : c.get_statement none sb = Res.ok (some body) s3)
    (hk : k < s3.classes.length) (hf : f < s3.functions.length)
    (hroot : (s3.get_function f).root = some root) (htype : root.type = op_function)
    (hlen : 2 ≤ root.next.length) :
    ∃ s' root', get_class e c phpdoc s = Res.ok none s' ∧
      (s'.get_function f).root = some root' ∧ root'.cmd.type = op_seq ∧
      root'.cmd.next = (s3.get_class k).members.constants ++
        [generate_constant_field_class (s3.get_class k) cv] ++
        (s3.get_class k).members.static_fields.map (fun x => x.1) ++ [void_return] ∧
      (generate_constant_field_class (s3.get_class k) cv).type = op_define ∧
      (generate_constant_field_class (s3.get_class k) cv).next.map Vertex.get_string =
        ["c#" ++ replace_backslashes (s3.get_class k).name ++ "$$class", (s3.get_class k).name] ∧
      void_return.type = op_return ∧ void_return.info.void_flag = true ∧
      (∀ (m : ClassMembersContainer) (v : Vertex),
        (m.add_constant v).constants = m.constants ++ [v]) ∧
      (∀ (m : ClassMembersContainer) (v : Vertex) (name : String) (a : AccessType),
        (m.add_static_field v name a).static_fields = m.static_fields ++ [(v, name, a)]) := by
  obtain ⟨s4, root', h1, h2, h3, h4, h5, h6, h7, h8, h9, h10⟩ :=
    class_backing_body k f cv root s3 hk hf hroot htype hlen
  obtain ⟨s', h11, _, h12⟩ := get_class_exit_apply k f cv s3 s4 h1
  refine ⟨s', root', (get_class_run e c phpdoc s sb s3 k f cv body hentry hbody).trans h11, ?_,
    h3, h4, h5, h6, h7, h8, h9, h10⟩
  unfold GenTree.get_function at h2 ⊢
  rw [h12]
  exact h2

theorem Res.eq_ok_of_is_node (r : Res (Option Vertex)) (h : r.is_node = true) :
    r = Res.ok (some r.node) r.state := by
  cases r with
  | abort a => cases h
  | ok v s =>
    cases v with
    | none => cases h
    | some v => rfl

theorem Option.eq_some_getD {α : Type} [Inhabited α] (x : Option α) (h : x.isSome = true) :
    x = some (x.getD default) := by
  cases x with
  | none => cases h
  | some a => rfl

theorem default_constructor_synthesis_witness :
    (∃ s', get_class sample_env (parser sample_env 40) none (sample_state tokens_class_method) =
        Res.ok none s' ∧
      (s'.get_class 0).members.instance_methods =
        [(1, AccessType.access_public), (2, AccessType.access_public)] ∧
      (s'.get_function 2).name = "A$$__construct") ∧
    (∃ s', get_class sample_env (parser sample_env 40) none (sample_state tokens_class_field) =
        Res.ok none s' ∧
      (s'.get_class 0).members.instance_methods = [(1, AccessType.access_public)] ∧
      (s'.get_function 1).name = "A$$__construct") ∧
    (∃ s', get_class sample_env (parser sample_env 40) none (sample_state tokens_class_static) =
        Res.ok none s' ∧
      (s'.get_class 0).members.instance_methods = []) ∧
    (∃ s', get_class sample_env (parser sample_env 40) none
        (sample_state tokens_class_constructor) = Res.ok none s' ∧
      (s'.get_class 0).members.instance_methods = [(1, AccessType.access_public)]) := by
  refine ⟨?_, ?_, ?_, ?_⟩
  · obtain ⟨s', h1, h2, h3, _, _⟩ := default_constructor_synthesis sample_env
      (parser sample_env 40) none (sample_state tokens_class_method) _ _ 0 0 _ _ _ rfl rfl
      (by decide) (by decide) rfl rfl (by decide)
    exact ⟨s', h1, h2, h3 rfl⟩
  · obtain ⟨s', h1, h2, h3, _, _⟩ := default_constructor_synthesis sample_env
      (parser sample_env 40) none (sample_state tokens_class_field) _ _ 0 0 _ _ _ rfl
      (Res.eq_ok_of_is_node _ (by decide!)) (by decide!) (by decide!)
      (Option.eq_some_getD _ (by decide!)) (by decide!) (by decide!)
    exact ⟨s', h1, h2.trans (by decide!), (h3 (by decide!)).trans (by decide!)⟩
  · obtain ⟨s', h1, _, _, h4, _⟩ := default_constructor_synthesis sample_env
      (parser sample_env 40) none (sample_state tokens_class_static) _ _ 0 0 _ _ _ rfl
      (Res.eq_ok_of_is_node _ (by decide!)) (by decide!) (by decide!)
      (Option.eq_some_getD _ (by decide!)) (by decide!) (by decide!)
    exact ⟨s', h1, (h4 (by decide!) (by decide!)).trans (by decide!)⟩
  · obtain ⟨s', h1, _, _, _, h5⟩ := default_constructor_synthesis sample_env
      (parser sample_env 40) none (sample_state tokens_class_constructor) _ _ 0 0 _ _ _ rfl
      (Res.eq_ok_of_is_node _ (by decide!)) (by decide!) (by decide!)
      (Option.eq_some_getD _ (by decide!)) (by decide!) (by decide!)
    exact ⟨s', h1, (h5 (by decide!)).trans (by decide!)⟩

theorem class_backing_function_body_witness :
    ∃ s' root', get_class sample_env (parser sample_env 40) none
        (sample_state tokens_class_mixed) = Res.ok none s' ∧
      (s'.get_function 0).root = some root' ∧
      root'.cmd.next.map (fun v => (v.type, (v.next.headD default).get_string)) =
        [(op_define, "c#A$$X"), (op_define, "c#A$$Y"), (op_define, "c#A$$class"),
         (op_static, ""), (op_return, "")] := by
  obtain ⟨s', root', h1, h2, _, h4, _⟩ := class_backing_function_body sample_env
    (parser sample_env 40) none (sample_state tokens_class_mixed) _ _ 0 0 _ _ _ rfl
    (Res.eq_ok_of_is_node _ (by decide!)) (by decide!) (by decide!)
    (Option.eq_some_getD _ (by decide!)) (by decide!) (by decide!)
  exact ⟨s', root', h1, h2, by rw [h4]; decide!⟩

theorem lambda_function_names_keys (s : GenTree) :
    s.lambda_function_names = (s.lambda_keys.filter fun x => x.2.1).map fun x => x.1 := by
  unfold GenTree.lambda_function_names GenTree.lambda_keys
  rw [List.filter_map, List.map_map]
  rfl

theorem lambda_inside_keys (s : GenTree) :
    (∀ d ∈ s.functions, d.lambdas_inside = []) ↔ ∀ x ∈ s.lambda_keys, x.2.2 = [] := by
  unfold GenTree.lambda_keys
  constructor
  · intro h x hx
    obtain ⟨d, hd, rfl⟩ := List.mem_map.mp hx
    exact h d hd
  · intro h d hd
    exact h _ (List.mem_map_of_mem lambda_key hd)

theorem lambda_inv_keys (e : Env) (s : GenTree) :
    LambdaInv e s ↔ KeysInv e s.lambda_keys s.name_counter := by
  constructor
  · intro h
    refine ⟨(lambda_inside_keys s).mp h.inside, ?_, ?_⟩
    · rw [← lambda_function_names_keys]; exact h.distinct
    · rw [← lambda_function_names_keys]; exact h.bound
  · intro h
    refine ⟨(lambda_inside_keys s).mpr h.1, ?_, ?_⟩
    · rw [lambda_function_names_keys]; exact h.2.1
    · rw [lambda_function_names_keys]; exact h.2.2

theorem keys_inv_append (e : Env) (K X : List (String × Bool × List Nat)) (c c' : Nat)
    (h : KeysInv e K c) (hX : ∀ x ∈ X, x.2.1 = false ∧ x.2.2 = []) (hc : c ≤ c') :
    KeysInv e (K ++ X) c' := by
  have hf : X.filter (fun x => x.2.1) = [] := by
    apply List.filter_eq_nil_iff.mpr
    intro x hx
    rw [(hX x hx).1]
    exact Bool.false_ne_true
  refine ⟨?_, ?_, ?_⟩
  · intro x hx
    rcases List.mem_append.mp hx with hx | hx
    · exact h.1 x hx
    · exact (hX x hx).2
  · rw [List.filter_append, hf, List.append_nil]
    exact h.2.1
  · rw [List.filter_append, hf, List.append_nil]
    intro nm hnm
    obtain ⟨j, hj, hn⟩ := h.2.2 nm hnm
    exact ⟨j, Nat.lt_of_lt_of_le hj hc, hn⟩

theorem lambda_constructor_ne_invoke (e : Env) (i j : Nat) :
    lambda_constructor_name e i ≠ lambda_invoke_name e j := by
  intro h
  have h1 := congrArg (fun s : String => s.data.getLast?) h
  unfold lambda_constructor_name lambda_invoke_name at h1
  simp only [String.data_append] at h1
  simp at h1

theorem keys_inv_lowering (e : Env)
    (hinj : Function.Injective e.gen_anonymous_function_name)
    (hbs : ∀ i, backslash ∉ (e.gen_anonymous_function_name i).data)
    (K : List (String × Bool × List Nat)) (c : Nat) (h : KeysInv e K c) :
    KeysInv e (K ++ [(lambda_invoke_name e c, true, []), (lambda_constructor_name e c, true, []),
      ("", false, [])]) (c + 1) := by
  have hf : List.filter (fun x : String × Bool × List Nat => x.2.1)
      [(lambda_invoke_name e c, true, []), (lambda_constructor_name e c, true, []),
       ("", false, [])] =
      [(lambda_invoke_name e c, true, []), (lambda_constructor_name e c, true, [])] := rfl
  have hold : ∀ nm ∈ (K.filter fun x => x.2.1).map (fun x => x.1),
      nm ≠ lambda_invoke_name e c ∧ nm ≠ lambda_constructor_name e c := by
    intro nm hnm
    obtain ⟨j, hj, hn⟩ := h.2.2 nm hnm
    have hjc : j ≠ c := Nat.ne_of_lt hj
    have hd := lambda_names_distinct e hinj hbs j c hjc
    rcases hn with rfl | rfl
    · exact ⟨lambda_constructor_ne_invoke e j c, hd.2.1⟩
    · exact ⟨hd.2.2, fun hh => lambda_constructor_ne_invoke e c j hh.symm⟩
  refine ⟨?_, ?_, ?_⟩
  · intro x hx
    rcases List.mem_append.mp hx with hx | hx
    · exact h.1 x hx
    · simp only [List.mem_cons, List.mem_singleton, List.not_mem_nil, or_false] at hx
      rcases hx with rfl | rfl | rfl <;> rfl
  · rw [List.filter_append, hf, List.map_append]
    refine List.nodup_append.mpr ⟨h.2.1, ?_, ?_⟩
    · simp only [List.map_cons, List.map_nil, List.nodup_cons, List.mem_singleton,
        List.not_mem_nil, not_false_eq_true, List.nodup_nil, and_true]
      exact fun hh => lambda_constructor_ne_invoke e c c hh.symm
    · intro nm h1 h2
      simp only [List.map_cons, List.map_nil, List.mem_cons, List.mem_singleton,
        List.not_mem_nil, or_false] at h2
      rcases h2 with rfl | rfl
      · exact (hold _ h1).1 rfl
      · exact (hold _ h1).2 rfl
  · rw [List.filter_append, hf, List.map_append]
    intro nm hnm
    rcases List.mem_append.mp hnm with hnm | hnm
    · obtain ⟨j, hj, hn⟩ := h.2.2 nm hnm
      exact ⟨j, Nat.lt_succ_of_lt hj, hn⟩
    · simp only [List.map_cons, List.map_nil, List.mem_cons, List.mem_singleton,
        List.not_mem_nil, or_false] at hnm
      rcases hnm with rfl | rfl
      · exact ⟨c, Nat.lt_succ_self c, Or.inr rfl⟩
      · exact ⟨c, Nat.lt_succ_self c, Or.inl rfl⟩

theorem LambdaRel.lambda_pre (e : Env) : IsPre (LambdaRel e) where
  refl := fun s _ _ h => ⟨h, List.prefix_refl _⟩
  trans := fun a b c h1 h2 hinj hbs h =>
    ⟨(h2 hinj hbs (h1 hinj hbs h).1).1,
      List.IsPrefix.trans (h1 hinj hbs h).2 (h2 hinj hbs (h1 hinj hbs h).1).2⟩

theorem LambdaRel.of_append (e : Env) (s s' : GenTree) (X : List (String × Bool × List Nat))
    (hk : s'.lambda_keys = s.lambda_keys ++ X) (hX : ∀ x ∈ X, x.2.1 = false ∧ x.2.2 = [])
    (hc : s.name_counter ≤ s'.name_counter) : LambdaRel e s s' := by
  intro _ _ h
  refine ⟨(lambda_inv_keys e s').mpr ?_, ⟨X, hk.symm⟩⟩
  rw [hk]
  exact keys_inv_append e _ X _ _ ((lambda_inv_keys e s).mp h) hX hc

theorem LambdaRel.of_same (e : Env) (s s' : GenTree) (hf : s'.functions = s.functions)
    (hc : s.name_counter ≤ s'.name_counter) : LambdaRel e s s' :=
  LambdaRel.of_append e s s' [] (by unfold GenTree.lambda_keys; rw [hf, List.append_nil])
    (fun _ h => absurd h (List.not_mem_nil _)) hc

theorem map_modify_at {α β : Type} (f : α → β) (g : α → α) (G : β → β)
    (h : ∀ a, f (g a) = G (f a)) (l : List α) (i : Nat) :
    (modify_at l i g).map f = modify_at (l.map f) i G := by
  induction l generalizing i with
  | nil => rfl
  | cons a as ih =>
    cases i with
    | zero => simp [modify_at, h]
    | succ i => simp [modify_at, ih]

theorem modify_at_fixed {α : Type} (G : α → α) (l : List α) (i : Nat)
    (h : ∀ x ∈ l, G x = x) : modify_at l i G = l := by
  induction l generalizing i with
  | nil => rfl
  | cons a as ih =>
    cases i with
    | zero => simp [modify_at, h a (List.mem_cons_self _ _)]
    | succ i =>
      simp only [modify_at, List.cons.injEq, true_and]
      exact ih i fun x hx => h x (List.mem_cons_of_mem _ hx)

theorem lambda_keys_modify (s : GenTree) (f : Nat) (g : FunctionData → FunctionData)
    (G : String × Bool × List Nat → String × Bool × List Nat)
    (hg : ∀ d, lambda_key (g d) = G (lambda_key d)) :
    GenTree.lambda_keys { s with functions := modify_at s.functions f g } =
      modify_at s.lambda_keys f G :=
  map_modify_at lambda_key g G hg s.functions f

theorem LambdaRel.of_modify (e : Env) (s : GenTree) (f : Nat) (g : FunctionData → FunctionData)
    (hg : ∀ d, lambda_key (g d) = lambda_key d) :
    LambdaRel e s { s with functions := modify_at s.functions f g } := by
  refine LambdaRel.of_append e s _ [] ?_ (fun _ h => absurd h (List.not_mem_nil _))
    (Nat.le_refl _)
  rw [lambda_keys_modify s f g id hg, modify_at_fixed id _ _ (fun _ _ => rfl), List.append_nil]

theorem get_local_name_go_suffix (l acc : List Char) :
    get_local_name.go l acc = acc ∨ get_local_name.go l acc <:+ l := by
  induction l, acc using get_local_name.go.induct with
  | case1 acc => exact Or.inl rfl
  | case2 rest x ih =>
    right
    rw [get_local_name.go]
    rcases ih with h | h
    · rw [h]; exact ⟨['$', '$'], rfl⟩
    · exact h.trans ⟨['$', '$'], rfl⟩
  | case3 head rest acc hne ih =>
    rw [get_local_name.go]
    · rcases ih with h | h
      · exact Or.inl h
      · exact Or.inr (h.trans (List.suffix_cons _ _))
    · exact hne

theorem get_local_name_suffix (n : String) : (get_local_name n).data <:+ n.data := by
  show get_local_name.go n.data n.data <:+ n.data
  rcases get_local_name_go_suffix n.data n.data with h | h
  · rw [h]
  · exact h

theorem lambda_invoke_local_name (e : Env) (c : Nat) :
    (get_local_name (lambda_invoke_name e c) == "__construct") = false := by
  rw [beq_eq_false_iff_ne]
  intro h
  have h1 := get_local_name_suffix (lambda_invoke_name e c)
  rw [h] at h1
  obtain ⟨t, ht⟩ := h1
  have h2 := congrArg List.getLast? ht
  unfold lambda_invoke_name at h2
  simp [String.data_append] at h2

theorem KeyFrame.frame_pre : IsPre KeyFrame where
  refl := fun _ => ⟨rfl, Nat.le_refl _, fun _ _ => ⟨rfl, rfl⟩⟩
  trans := fun a b c h1 h2 =>
    ⟨h2.keys.trans h1.keys, Nat.le_trans h1.classes_le h2.classes_le,
     fun k hk => ⟨((h2.classes k (Nat.lt_of_lt_of_le hk h1.classes_le)).1).trans
        (h1.classes k hk).1,
       ((h2.classes k (Nat.lt_of_lt_of_le hk h1.classes_le)).2).trans (h1.classes k hk).2⟩⟩

theorem LamStage.frame {k : Nat} {N : String} {nf : Option Nat}
    {K : List (String × Bool × List Nat)} (s s' : GenTree) (h : LamStage k N nf K s)
    (hg : KeyFrame s s') : LamStage k N nf K s' where
  lt := Nat.lt_of_lt_of_le h.lt hg.classes_le
  name := (hg.classes k h.lt).1.trans h.name
  newf := (hg.classes k h.lt).2.trans h.newf
  keys := hg.keys.trans h.keys

theorem key_frame_same (s s' : GenTree) (h2 : s'.classes = s.classes)
    (h3 : s'.functions = s.functions) : KeyFrame s s' := by
  refine ⟨by unfold GenTree.lambda_keys; rw [h3], by rw [h2], fun k _ => ?_⟩
  unfold GenTree.get_class; rw [h2]; exact ⟨rfl, rfl⟩

theorem key_frame_modify_function (s : GenTree) (f : Nat) (g : FunctionData → FunctionData)
    (hg : ∀ d, lambda_key (g d) = lambda_key d) :
    KeyFrame s { s with functions := modify_at s.functions f g } := by
  refine ⟨?_, Nat.le_refl _, fun _ _ => ⟨rfl, rfl⟩⟩
  rw [lambda_keys_modify s f g id hg, modify_at_fixed id _ _ (fun _ _ => rfl)]

theorem key_frame_modify_class (s : GenTree) (k : Nat) (g : ClassData → ClassData)
    (hg : ∀ c, (g c).name = c.name ∧ (g c).new_function = c.new_function) :
    KeyFrame s { s with classes := modify_at s.classes k g } := by
  refine ⟨rfl, by show _ ≤ (modify_at _ _ _).length; rw [modify_at_length], fun i _ => ?_⟩
  show ((modify_at s.classes k g).getD i default).name = _ ∧
    ((modify_at s.classes k g).getD i default).new_function = _
  rw [modify_at_getD]
  split
  · exact hg _
  · exact ⟨rfl, rfl⟩

theorem key_keeps_mod_function (f : Nat) (g : FunctionData → FunctionData)
    (hg : ∀ d, lambda_key (g d) = lambda_key d) : Keeps KeyFrame (mod_function f g) :=
  Keeps.keeps_modS fun s => key_frame_modify_function s f g hg

theorem key_keeps_mod_class (k : Nat) (g : ClassData → ClassData)
    (hg : ∀ c, (g c).name = c.name ∧ (g c).new_function = c.new_function) :
    Keeps KeyFrame (mod_class k g) :=
  Keeps.keeps_modS fun s => key_frame_modify_class s k g hg

theorem key_keeps_mod_members (k : Nat) (g : ClassMembersContainer → ClassMembersContainer) :
    Keeps KeyFrame (mod_members k g) :=
  key_keeps_mod_class k _ fun _ => ⟨rfl, rfl⟩

theorem key_keeps_register_class (k : Nat) : Keeps KeyFrame (register_class k) :=
  Keeps.keeps_modS fun s => key_frame_same s _ rfl rfl

theorem key_keeps_kphp_assert (x : Bool) (msg : String) :
    Keeps KeyFrame (kphp_assert x msg) := by
  unfold kphp_assert
  split
  · exact Keeps.keeps_pure KeyFrame.frame_pre _
  · exact Keeps.keeps_abort _

theorem key_keeps_register_and_require_function (f : Nat) (b : Bool) :
    Keeps KeyFrame (register_and_require_function f b) := by
  unfold register_and_require_function
  repeat' first
    | exact Keeps.keeps_getS KeyFrame.frame_pre
    | exact Keeps.keeps_pure KeyFrame.frame_pre _
    | exact Keeps.keeps_modS fun s => key_frame_same s _ rfl rfl
    | apply Keeps.keeps_bind KeyFrame.frame_pre
    | apply Keeps.keeps_ite
    | intro _
    | dsimp only

theorem key_keeps_patch_func_add_this (line : Int) (cc : Option Nat) :
    Keeps KeyFrame (patch_func_add_this line cc) := by
  unfold patch_func_add_this create_vertex_this
  repeat' first
    | exact Keeps.keeps_pure KeyFrame.frame_pre _
    | exact key_keeps_kphp_assert _ _
    | apply Keeps.keeps_bind KeyFrame.frame_pre
    | apply Keeps.keeps_ite
    | intro _
    | dsimp only

theorem key_keeps_generate__invoke_method (k : Nat) (function : Vertex) :
    Keeps KeyFrame (generate__invoke_method k function) := by
  unfold generate__invoke_method
  repeat' first
    | exact Keeps.keeps_getS KeyFrame.frame_pre
    | exact Keeps.keeps_pure KeyFrame.frame_pre _
    | exact Keeps.keeps_abort _
    | exact key_keeps_kphp_assert _ _
    | exact key_keeps_patch_func_add_this _ _
    | exact key_keeps_mod_function _ _ fun _ => rfl
    | apply Keeps.keeps_bind KeyFrame.frame_pre
    | apply Keeps.keeps_ite
    | intro _
    | split
    | dsimp only

theorem create_function_stage (k : Nat) (N : String) (nf : Option Nat)
    (K : List (String × Bool × List Nat)) (root : Vertex) (type : func_type_t) :
    Triple (LamStage k N nf K) (create_function root type)
      (fun j st => LamStage k N nf (K ++ [(root.name.get_string, false, [])]) st ∧
        j = K.length) :=
  ⟨fun s _ _ hI h => by
    cases h
    refine ⟨⟨hI.lt, hI.name, hI.newf, ?_⟩, ?_⟩
    · show (s.functions ++ [_]).map lambda_key = _
      rw [List.map_append, ← hI.keys]
      rfl
    · rw [← hI.keys]
      exact (List.length_map _ _).symm⟩

theorem new_function_stage (k : Nat) (N : String) (nf : Option Nat)
    (K : List (String × Bool × List Nat)) :
    Triple (LamStage k N nf K) new_function
      (fun _ st => LamStage k N nf (K ++ [("", false, [])]) st) :=
  ⟨fun s _ _ hI h => by
    cases h
    refine ⟨hI.lt, hI.name, hI.newf, ?_⟩
    show (s.functions ++ [_]).map lambda_key = _
    rw [List.map_append, ← hI.keys]
    rfl⟩

theorem mod_function_stage_last (k : Nat) (N : String) (nf : Option Nat)
    (K : List (String × Bool × List Nat)) (x : String × Bool × List Nat)
    (g : FunctionData → FunctionData)
    (G : String × Bool × List Nat → String × Bool × List Nat)
    (hg : ∀ d, lambda_key (g d) = G (lambda_key d)) :
    Triple (LamStage k N nf (K ++ [x])) (mod_function K.length g)
      (fun _ st => LamStage k N nf (K ++ [G x]) st) :=
  ⟨fun s _ _ hI h => by
    unfold mod_function at h
    cases h
    refine ⟨hI.lt, hI.name, hI.newf, ?_⟩
    rw [lambda_keys_modify s _ g G hg, hI.keys, modify_at_append_last]⟩

theorem mod_function_stage_fixed (k : Nat) (N : String) (nf : Option Nat)
    (K : List (String × Bool × List Nat)) (f : Nat) (g : FunctionData → FunctionData)
    (G : String × Bool × List Nat → String × Bool × List Nat)
    (hg : ∀ d, lambda_key (g d) = G (lambda_key d)) (hK : ∀ x ∈ K, G x = x) :
    Triple (LamStage k N nf K) (mod_function f g) (fun _ st => LamStage k N nf K st) :=
  ⟨fun s _ _ hI h => by
    unfold mod_function at h
    cases h
    refine ⟨hI.lt, hI.name, hI.newf, ?_⟩
    rw [lambda_keys_modify s _ g G hg, hI.keys, modify_at_fixed G K f hK]⟩

theorem mod_class_stage_new_function (k : Nat) (N : String) (nf : Option Nat)
    (K : List (String × Bool × List Nat)) (f : Nat) :
    Triple (LamStage k N nf K) (mod_class k fun c => { c with new_function := some f })
      (fun _ st => LamStage k N (some f) K st) :=
  ⟨fun s _ _ hI h => by
    unfold mod_class at h
    cases h
    refine ⟨?_, ?_, ?_, hI.keys⟩
    · show k < (modify_at _ _ _).length
      rw [modify_at_length]
      exact hI.lt
    · show ((modify_at s.classes k _).getD k default).name = _
      rw [modify_at_getD, if_pos ⟨rfl, hI.lt⟩]
      exact hI.name
    · show ((modify_at s.classes k _).getD k default).new_function = _
      rw [modify_at_getD, if_pos ⟨rfl, hI.lt⟩]⟩

theorem lambda_keys_name (s : GenTree) (i : Nat) :
    (s.get_function i).name = (s.lambda_keys.getD i (lambda_key default)).1 := by
  unfold GenTree.lambda_keys GenTree.get_function
  rw [List.getD_map]
  rfl

theorem lambda_keys_inside (s : GenTree) (i : Nat) (h : ∀ x ∈ s.lambda_keys, x.2.2 = []) :
    (s.get_function i).lambdas_inside = [] := by
  unfold GenTree.get_function
  by_cases hi : i < s.functions.length
  · rw [List.getD_eq_getElem _ _ hi]
    exact (lambda_inside_keys s).mpr h _ (List.getElem_mem _)
  · rw [List.getD_eq_default _ _ (by omega)]
    rfl

theorem add_instance_method_stage (k : Nat) (N : String) (nf : Option Nat)
    (K : List (String × Bool × List Nat)) (x : String × Bool × List Nat) (a : AccessType) :
    Triple (LamStage k N nf (K ++ [x])) (add_instance_method k K.length a)
      (fun _ st => LamStage k N
        (if get_local_name x.1 == "__construct" then some K.length else nf) (K ++ [x]) st) := by
  unfold add_instance_method
  apply Triple.triple_getS_bind
  intro s0 h0
  have hname : (s0.get_function K.length).name = x.1 := by
    rw [lambda_keys_name, h0.keys, getD_append_length]
  rw [hname]
  apply Triple.triple_bind (Triple.keeps LamStage.frame (key_keeps_mod_members _ _))
  intro _
  refine Triple.triple_bind (Triple.keeps LamStage.frame (key_keeps_mod_function _ _ ?_)) ?_
  · exact fun _ => rfl
  intro _
  by_cases hc : (get_local_name x.1 == "__construct") = true
  · rw [if_pos hc, if_pos hc]
    exact mod_class_stage_new_function k N nf _ _
  · rw [if_neg hc, if_neg hc]
    exact Triple.triple_pure fun _ h => h

theorem create_constructor_stage (k : Nat) (N : String) (nf : Option Nat)
    (K : List (String × Bool × List Nat)) (line : Int) (params : Vertex) :
    Triple (LamStage k N nf K) (create_constructor_with_args k line params)
      (fun _ st => LamStage k N
        (if get_local_name (replace_backslashes N ++ "$$" ++ "__construct") == "__construct"
          then some K.length else nf)
        (K ++ [(replace_backslashes N ++ "$$" ++ "__construct", false, [])]) st) := by
  refine ⟨fun s a s' hI h => ?_⟩
  rw [create_constructor_with_args_apply] at h
  cases h
  have h1 := (create_function_stage k N nf K (constructor_node s k line params)
    func_type_t.func_local).run s _ _ hI (create_function_apply _ _ s)
  have hn : (constructor_node s k line params).name.get_string =
      replace_backslashes N ++ "$$" ++ "__construct" := by
    rw [← hI.name]
    rfl
  rw [hn] at h1
  have hl : s.functions.length = K.length := by
    rw [← hI.keys]
    exact (List.length_map _ _).symm
  have h2 := (add_instance_method_stage k N nf K _ AccessType.access_public).run _ _ _ h1.1
    (add_instance_method_apply k K.length AccessType.access_public _)
  unfold GenTree.with_constructor
  rw [hl]
  exact LamStage.frame _ _ h2 (key_frame_same _ _ rfl rfl)

theorem key_keeps_generate_constructor_call (k : Nat) :
    Keeps KeyFrame (generate_constructor_call k) := by
  unfold generate_constructor_call
  repeat' first
    | exact Keeps.keeps_getS KeyFrame.frame_pre
    | exact Keeps.keeps_pure KeyFrame.frame_pre _
    | apply Keeps.keeps_bind KeyFrame.frame_pre
    | intro _
    | dsimp only

theorem generate_anonymous_class_keys (e : Env) (function : Vertex) (creator : Nat)
    (uses : List Vertex) (s : GenTree) (hin : ∀ x ∈ s.lambda_keys, x.2.2 = []) :
    Runs s (generate_anonymous_class e function (some creator) uses)
      (fun _ s' => s'.lambda_keys = s.lambda_keys ++
        [(lambda_invoke_name e s.name_counter, true, []),
         (lambda_constructor_name e s.name_counter, true, []), ("", false, [])]) := by
  unfold generate_anonymous_class
  apply Runs.run_getS_bind
  apply Runs.modS_bind
  refine @Runs.step _ _ _ _ _ s.classes.length _ _ rfl ?_
  refine @Runs.step _ _ _ _ _ () _ _ rfl ?_
  dsimp only
  apply Runs.run_pure_bind
  refine @Runs.step _ _ _ _ _ () _ _ rfl ?_
  refine Triple.to_runs (I := LamStage s.classes.length (lambda_class_name e s.name_counter)
    none s.lambda_keys) ?_ ?_
  · split
    · apply Triple.triple_pure_bind
      apply Triple.triple_bind (Triple.keeps_post LamStage.frame
        (key_keeps_generate__invoke_method _ _) (generate__invoke_method_name _ _))
      intro fun_
      apply Triple.and_pure
      intro hname
      apply Triple.triple_getS_bind
      intro a hIa
      apply Triple.triple_bind (create_function_stage _ _ _ _ _ _)
      intro j
      apply Triple.and_pure
      intro hj
      subst hj
      have hnm : (fun_.set_next (fun_.name.set_string (replace_backslashes
          (a.get_class s.classes.length).name ++ "$$" ++ fun_.name.get_string) ::
            List.drop 1 fun_.next)).name.get_string = lambda_invoke_name e s.name_counter := by
        show replace_backslashes (a.get_class s.classes.length).name ++ "$$" ++
          fun_.name.get_string = _
        rw [hIa.name, hname]
        rfl
      rw [hnm]
      refine Triple.triple_bind (mod_function_stage_last _ _ _ _ _ _
        (fun x => (x.1, true, x.2.2)) ?_) ?_
      · exact fun _ => rfl
      intro _
      apply Triple.triple_bind (add_instance_method_stage _ _ _ _ _ _)
      intro _
      dsimp only
      rw [lambda_invoke_local_name]
      simp only [Bool.false_eq_true, ↓reduceIte]
      apply Triple.triple_bind (Triple.keeps LamStage.frame
        (key_keeps_register_and_require_function _ _))
      intro _
      apply Triple.triple_getS_bind
      intro b hIb
      have hall : ∀ x ∈ s.lambda_keys ++ [(lambda_invoke_name e s.name_counter, true, [])],
          (x.1, x.2.1, ([] : List Nat)) = x := by
        intro x hx
        rcases List.mem_append.mp hx with h | h
        · rw [← hin x h]
        · rw [List.mem_singleton.mp h]
      have hinside : (b.get_function ‹Nat›).lambdas_inside = [] := by
        apply lambda_keys_inside
        rw [hIb.keys]
        intro x hx
        rw [← hall x hx]
      rw [hinside]
      refine Triple.triple_bind (mod_function_stage_fixed _ _ _ _ _ _
        (fun x => (x.1, x.2.1, [])) ?_ hall) ?_
      · exact fun _ => rfl
      intro _
      refine Triple.triple_bind (mod_function_stage_fixed _ _ _ _ _ _
        (fun x => (x.1, x.2.1, [])) ?_ hall) ?_
      · exact fun _ => rfl
      intro _
      refine Triple.triple_bind (Triple.keeps LamStage.frame
        (Keeps.keeps_modS fun st => key_frame_same st _ rfl rfl)) ?_
      intro _
      apply Triple.triple_bind (create_constructor_stage _ _ _ _ _ _)
      intro _
      apply Triple.triple_getS_bind
      intro d hId
      have h1 := hId.newf
      cases hnf : (d.get_class s.classes.length).new_function with
      | none => exact Triple.triple_abort_bind
      | some f =>
        have hfK : f = (s.lambda_keys ++
            [(lambda_invoke_name e s.name_counter, true, [])]).length := by
          rw [hnf] at h1
          split at h1
          · exact Option.some.inj h1
          · cases h1
        subst hfK
        dsimp only
        apply Triple.triple_pure_bind
        refine Triple.triple_bind (mod_function_stage_last _ _ _ _ _ _
          (fun x => (x.1, true, x.2.2)) ?_) ?_
        · exact fun _ => rfl
        intro _
        apply Triple.triple_bind (Triple.keeps LamStage.frame (key_keeps_register_class _))
        intro _
        apply Triple.triple_bind (new_function_stage _ _ _ _)
        intro _
        refine Triple.triple_bind (Triple.keeps LamStage.frame (key_keeps_mod_class _ _ ?_)) ?_
        · exact fun _ => ⟨rfl, rfl⟩
        intro _
        apply Triple.triple_bind (Triple.keeps LamStage.frame
          (key_keeps_generate_constructor_call _))
        intro v
        apply Triple.triple_pure
        intro st hI
        rw [hI.keys]
        simp only [List.append_assoc, List.singleton_append]
        rfl
    · exact Triple.triple_abort_bind
  · refine ⟨?_, ?_, ?_, rfl⟩
    · show (modify_at (modify_at (s.classes ++ [_]) _ _) _ _).length > _
      rw [modify_at_length, modify_at_length]
      simp
    · show ((modify_at (modify_at (s.classes ++ [_]) _ _) _ _).getD _ default).name = _
      rw [modify_at_getD, modify_at_length, modify_at_getD]
      simp only [List.length_append, List.length_singleton, Nat.lt_succ_self, and_self,
        ↓reduceIte, getD_append_length]
      rfl
    · show ((modify_at (modify_at (s.classes ++ [_]) _ _) _ _).getD _ default).new_function = _
      rw [modify_at_getD, modify_at_length, modify_at_getD]
      simp only [List.length_append, List.length_singleton, Nat.lt_succ_self, and_self,
        ↓reduceIte, getD_append_length]

theorem generate_anonymous_class_lam {e : Env} (function : Vertex) (creator : Option Nat)
    (uses : List Vertex) :
    Keeps (LambdaRel e) (generate_anonymous_class e function creator uses) := by
  cases creator with
  | none =>
    refine ⟨fun s v s' h => ?_⟩
    have h1 : generate_anonymous_class e function none uses s =
        Res.abort (Abort.null_deref "function_in_which_lambda_was_created") := rfl
    rw [h1] at h
    cases h
  | some creator =>
    refine ⟨fun s v s' h hinj hbs hI => ?_⟩
    have hk := (generate_anonymous_class_keys e function creator uses s
      ((lambda_inside_keys s).mp hI.inside)).run v s' h
    obtain ⟨i, j, hS, -⟩ := (generate_anonymous_class_runs e function creator uses s).run v s' h
    refine ⟨(lambda_inv_keys e s').mpr ?_, ⟨_, hk.symm⟩⟩
    rw [hk, hS.counter]
    exact keys_inv_lowering e hinj hbs _ _ ((lambda_inv_keys e s).mp hI)

theorem skip_until_functions (stop : TokenType → Bool) (k : Nat) (s : GenTree) :
    (skip_until stop k s).functions = s.functions := by
  induction k generalizing s with
  | zero => rfl
  | succ k ih =>
    unfold skip_until
    split
    · rw [ih, next_functions]
    · rfl

theorem kphp_assert_lam {E : Env} (x : Bool) (msg : String) :
    Keeps (LambdaRel E) (kphp_assert x msg) := by
  unfold kphp_assert
  repeat' first
    | (with_reducible exact Keeps.keeps_getS (LambdaRel.lambda_pre _))
    | (with_reducible exact Keeps.keeps_pure (LambdaRel.lambda_pre _) _)
    | (with_reducible exact Keeps.keeps_abort _)
    | ((with_reducible refine Keeps.keeps_modS ?_); intro _; first
        | exact LambdaRel.of_same _ _ _ rfl (Nat.le_refl _)
        | exact LambdaRel.of_same _ _ _ rfl (Nat.le_succ _)
        | exact LambdaRel.of_same _ _ _ (next_functions _)
            (Nat.le_of_eq (next_name_counter _).symm)
        | exact LambdaRel.of_same _ _ _ (skip_until_functions _ _ _)
            (Nat.le_of_eq (skip_until_name_counter _ _ _).symm)
        | (split <;> exact LambdaRel.of_same _ _ _ rfl (Nat.le_refl _)))
    | (with_reducible apply Keeps.keeps_bind (LambdaRel.lambda_pre _))
    | (with_reducible apply Keeps.keeps_ite)
    | intro _
    | split
    | dsimp only

theorem kphp_error_lam {E : Env} (x : Bool) (msg : String) :
    Keeps (LambdaRel E) (kphp_error x msg) := by
  refine ⟨fun s a s' hm => ?_⟩
  unfold kphp_error at hm
  split at hm <;> cases hm <;> exact LambdaRel.of_same _ _ _ rfl (Nat.le_refl _)

theorem kphp_warning_lam {E : Env} (msg : String) :
    Keeps (LambdaRel E) (kphp_warning msg) := by
  unfold kphp_warning
  repeat' first
    | (with_reducible exact Keeps.keeps_getS (LambdaRel.lambda_pre _))
    | (with_reducible exact Keeps.keeps_pure (LambdaRel.lambda_pre _) _)
    | (with_reducible exact Keeps.keeps_abort _)
    | ((with_reducible refine Keeps.keeps_modS ?_); intro _; first
        | exact LambdaRel.of_same _ _ _ rfl (Nat.le_refl _)
        | exact LambdaRel.of_same _ _ _ rfl (Nat.le_succ _)
        | exact LambdaRel.of_same _ _ _ (next_functions _)
            (Nat.le_of_eq (next_name_counter _).symm)
        | exact LambdaRel.of_same _ _ _ (skip_until_functions _ _ _)
            (Nat.le_of_eq (skip_until_name_counter _ _ _).symm)
        | (split <;> exact LambdaRel.of_same _ _ _ rfl (Nat.le_refl _)))
    | (with_reducible apply Keeps.keeps_bind (LambdaRel.lambda_pre _))
    | (with_reducible apply Keeps.keeps_ite)
    | intro _
    | split
    | dsimp only

theorem has_error_lam {E : Env} :
    Keeps (LambdaRel E) (has_error) := by
  exact ⟨fun s a s' hm => by cases hm; exact LambdaRel.of_same _ _ _ rfl (Nat.le_refl _)⟩

theorem cur_tok_lam {E : Env} :
    Keeps (LambdaRel E) (cur_tok) := by
  exact ⟨fun s a s' hm => by cases hm; exact LambdaRel.of_same _ _ _ rfl (Nat.le_refl _)⟩

theorem cur_type_lam {E : Env} :
    Keeps (LambdaRel E) (cur_type) := by
  exact ⟨fun s a s' hm => by cases hm; exact LambdaRel.of_same _ _ _ rfl (Nat.le_refl _)⟩

theorem at_end_lam {E : Env} :
    Keeps (LambdaRel E) (at_end) := by
  exact ⟨fun s a s' hm => by cases hm; exact LambdaRel.of_same _ _ _ rfl (Nat.le_refl _)⟩

theorem auto_location_lam {E : Env} :
    Keeps (LambdaRel E) (auto_location) := by
  exact ⟨fun s a s' hm => by cases hm; exact LambdaRel.of_same _ _ _ rfl (Nat.le_refl _)⟩

theorem next_cur_lam {E : Env} :
    Keeps (LambdaRel E) (next_cur) := by
  unfold next_cur
  repeat' first
    | (with_reducible exact Keeps.keeps_getS (LambdaRel.lambda_pre _))
    | (with_reducible exact Keeps.keeps_pure (LambdaRel.lambda_pre _) _)
    | (with_reducible exact Keeps.keeps_abort _)
    | ((with_reducible refine Keeps.keeps_modS ?_); intro _; first
        | exact LambdaRel.of_same _ _ _ rfl (Nat.le_refl _)
        | exact LambdaRel.of_same _ _ _ rfl (Nat.le_succ _)
        | exact LambdaRel.of_same _ _ _ (next_functions _)
            (Nat.le_of_eq (next_name_counter _).symm)
        | exact LambdaRel.of_same _ _ _ (skip_until_functions _ _ _)
            (Nat.le_of_eq (skip_until_name_counter _ _ _).symm)
        | (split <;> exact LambdaRel.of_same _ _ _ rfl (Nat.le_refl _)))
    | (with_reducible apply Keeps.keeps_bind (LambdaRel.lambda_pre _))
    | (with_reducible apply Keeps.keeps_ite)
    | intro _
    | split
    | dsimp only

theorem test_expect_lam {E : Env} (tp : TokenType) :
    Keeps (LambdaRel E) (test_expect tp) := by
  exact ⟨fun s a s' hm => by cases hm; exact LambdaRel.of_same _ _ _ rfl (Nat.le_refl _)⟩

theorem expect_lam {E : Env} (tp : TokenType) (msg : String) :
    Keeps (LambdaRel E) (expect tp msg) := by
  unfold expect
  repeat' first
    | (with_reducible exact Keeps.keeps_getS (LambdaRel.lambda_pre _))
    | (with_reducible exact Keeps.keeps_pure (LambdaRel.lambda_pre _) _)
    | (with_reducible exact Keeps.keeps_abort _)
    | ((with_reducible refine Keeps.keeps_modS ?_); intro _; first
        | exact LambdaRel.of_same _ _ _ rfl (Nat.le_refl _)
        | exact LambdaRel.of_same _ _ _ rfl (Nat.le_succ _)
        | exact LambdaRel.of_same _ _ _ (next_functions _)
            (Nat.le_of_eq (next_name_counter _).symm)
        | exact LambdaRel.of_same _ _ _ (skip_until_functions _ _ _)
            (Nat.le_of_eq (skip_until_name_counter _ _ _).symm)
        | (split <;> exact LambdaRel.of_same _ _ _ rfl (Nat.le_refl _)))
    | (with_reducible exact kphp_error_lam _ _)
    | (with_reducible exact next_cur_lam)
    | (with_reducible exact test_expect_lam _)
    | (with_reducible apply Keeps.keeps_bind (LambdaRel.lambda_pre _))
    | (with_reducible apply Keeps.keeps_ite)
    | intro _
    | split
    | dsimp only

theorem expect2_lam {E : Env} (tp1 : TokenType) (tp2 : TokenType) (msg : String) :
    Keeps (LambdaRel E) (expect2 tp1 tp2 msg) := by
  unfold expect2
  repeat' first
    | (with_reducible exact Keeps.keeps_getS (LambdaRel.lambda_pre _))
    | (with_reducible exact Keeps.keeps_pure (LambdaRel.lambda_pre _) _)
    | (with_reducible exact Keeps.keeps_abort _)
    | ((with_reducible refine Keeps.keeps_modS ?_); intro _; first
        | exact LambdaRel.of_same _ _ _ rfl (Nat.le_refl _)
        | exact LambdaRel.of_same _ _ _ rfl (Nat.le_succ _)
        | exact LambdaRel.of_same _ _ _ (next_functions _)
            (Nat.le_of_eq (next_name_counter _).symm)
        | exact LambdaRel.of_same _ _ _ (skip_until_functions _ _ _)
            (Nat.le_of_eq (skip_until_name_counter _ _ _).symm)
        | (split <;> exact LambdaRel.of_same _ _ _ rfl (Nat.le_refl _)))
    | (with_reducible exact kphp_error_lam _ _)
    | (with_reducible exact at_end_lam)
    | (with_reducible exact next_cur_lam)
    | (with_reducible exact test_expect_lam _)
    | (with_reducible apply Keeps.keeps_bind (LambdaRel.lambda_pre _))
    | (with_reducible apply Keeps.keeps_ite)
    | intro _
    | split
    | dsimp only

theorem mod_function_lam {E : Env} (f : Nat) (g : FunctionData → FunctionData)
    (hg : ∀ d, lambda_key (g d) = lambda_key d) : Keeps (LambdaRel E) (mod_function f g) :=
  Keeps.keeps_modS fun s => LambdaRel.of_modify E s f g hg

theorem mod_class_lam {E : Env} (k : Nat) (g : ClassData → ClassData) :
    Keeps (LambdaRel E) (mod_class k g) := by
  unfold mod_class
  repeat' first
    | (with_reducible exact Keeps.keeps_getS (LambdaRel.lambda_pre _))
    | (with_reducible exact Keeps.keeps_pure (LambdaRel.lambda_pre _) _)
    | (with_reducible exact Keeps.keeps_abort _)
    | ((with_reducible refine Keeps.keeps_modS ?_); intro _; first
        | exact LambdaRel.of_same _ _ _ rfl (Nat.le_refl _)
        | exact LambdaRel.of_same _ _ _ rfl (Nat.le_succ _)
        | exact LambdaRel.of_same _ _ _ (next_functions _)
            (Nat.le_of_eq (next_name_counter _).symm)
        | exact LambdaRel.of_same _ _ _ (skip_until_functions _ _ _)
            (Nat.le_of_eq (skip_until_name_counter _ _ _).symm)
        | (split <;> exact LambdaRel.of_same _ _ _ rfl (Nat.le_refl _)))
    | (with_reducible apply Keeps.keeps_bind (LambdaRel.lambda_pre _))
    | (with_reducible apply Keeps.keeps_ite)
    | intro _
    | split
    | dsimp only

theorem mod_members_lam {E : Env} (k : Nat) (g : ClassMembersContainer → ClassMembersContainer) :
    Keeps (LambdaRel E) (mod_members k g) := by
  unfold mod_members
  repeat' first
    | (with_reducible exact Keeps.keeps_getS (LambdaRel.lambda_pre _))
    | (with_reducible exact Keeps.keeps_pure (LambdaRel.lambda_pre _) _)
    | (with_reducible exact Keeps.keeps_abort _)
    | ((with_reducible refine Keeps.keeps_modS ?_); intro _; first
        | exact LambdaRel.of_same _ _ _ rfl (Nat.le_refl _)
        | exact LambdaRel.of_same _ _ _ rfl (Nat.le_succ _)
        | exact LambdaRel.of_same _ _ _ (next_functions _)
            (Nat.le_of_eq (next_name_counter _).symm)
        | exact LambdaRel.of_same _ _ _ (skip_until_functions _ _ _)
            (Nat.le_of_eq (skip_until_name_counter _ _ _).symm)
        | (split <;> exact LambdaRel.of_same _ _ _ rfl (Nat.le_refl _)))
    | (with_reducible exact mod_class_lam _ _)
    | (with_reducible apply Keeps.keeps_bind (LambdaRel.lambda_pre _))
    | (with_reducible apply Keeps.keeps_ite)
    | intro _
    | split
    | dsimp only

theorem deref_lam {E : Env} (p : Option Nat) (what : String) :
    Keeps (LambdaRel E) (deref p what) := by
  unfold deref
  repeat' first
    | (with_reducible exact Keeps.keeps_getS (LambdaRel.lambda_pre _))
    | (with_reducible exact Keeps.keeps_pure (LambdaRel.lambda_pre _) _)
    | (with_reducible exact Keeps.keeps_abort _)
    | ((with_reducible refine Keeps.keeps_modS ?_); intro _; first
        | exact LambdaRel.of_same _ _ _ rfl (Nat.le_refl _)
        | exact LambdaRel.of_same _ _ _ rfl (Nat.le_succ _)
        | exact LambdaRel.of_same _ _ _ (next_functions _)
            (Nat.le_of_eq (next_name_counter _).symm)
        | exact LambdaRel.of_same _ _ _ (skip_until_functions _ _ _)
            (Nat.le_of_eq (skip_until_name_counter _ _ _).symm)
        | (split <;> exact LambdaRel.of_same _ _ _ rfl (Nat.le_refl _)))
    | (with_reducible apply Keeps.keeps_bind (LambdaRel.lambda_pre _))
    | (with_reducible apply Keeps.keeps_ite)
    | intro _
    | split
    | dsimp only

theorem create_function_lam {E : Env} (root : Vertex) (type : func_type_t) :
    Keeps (LambdaRel E) (create_function root type) := by
  refine ⟨fun s a s' hm => ?_⟩
  cases hm
  refine LambdaRel.of_append _ _ _ [(root.name.get_string, false, [])] ?_ ?_ (Nat.le_refl _)
  · show List.map lambda_key (s.functions ++ [_]) = _
    rw [List.map_append]
    rfl
  · intro x hx
    rw [List.mem_singleton.mp hx]
    exact ⟨rfl, rfl⟩

theorem new_class_lam {E : Env} :
    Keeps (LambdaRel E) (new_class) := by
  exact ⟨fun s a s' hm => by cases hm; exact LambdaRel.of_same _ _ _ rfl (Nat.le_refl _)⟩

theorem new_function_lam {E : Env} :
    Keeps (LambdaRel E) (new_function) := by
  refine ⟨fun s a s' hm => ?_⟩
  cases hm
  refine LambdaRel.of_append _ _ _ [("", false, [])] ?_ ?_ (Nat.le_refl _)
  · show List.map lambda_key (s.functions ++ [_]) = _
    rw [List.map_append]
    rfl
  · intro x hx
    rw [List.mem_singleton.mp hx]
    exact ⟨rfl, rfl⟩

theorem add_instance_method_lam {E : Env} (k : Nat) (f : Nat) (a : AccessType) :
    Keeps (LambdaRel E) (add_instance_method k f a) := by
  unfold add_instance_method
  repeat' first
    | (with_reducible exact Keeps.keeps_getS (LambdaRel.lambda_pre _))
    | (with_reducible exact Keeps.keeps_pure (LambdaRel.lambda_pre _) _)
    | (with_reducible exact Keeps.keeps_abort _)
    | ((with_reducible refine Keeps.keeps_modS ?_); intro _; first
        | exact LambdaRel.of_same _ _ _ rfl (Nat.le_refl _)
        | exact LambdaRel.of_same _ _ _ rfl (Nat.le_succ _)
        | exact LambdaRel.of_same _ _ _ (next_functions _)
            (Nat.le_of_eq (next_name_counter _).symm)
        | exact LambdaRel.of_same _ _ _ (skip_until_functions _ _ _)
            (Nat.le_of_eq (skip_until_name_counter _ _ _).symm)
        | (split <;> exact LambdaRel.of_same _ _ _ rfl (Nat.le_refl _)))
    | ((with_reducible refine mod_function_lam _ _ ?_); exact fun _ => rfl)
    | (with_reducible exact mod_class_lam _ _)
    | (with_reducible exact mod_members_lam _ _)
    | (with_reducible exact new_function_lam)
    | (with_reducible apply Keeps.keeps_bind (LambdaRel.lambda_pre _))
    | (with_reducible apply Keeps.keeps_ite)
    | intro _
    | split
    | dsimp only

theorem add_static_method_lam {E : Env} (k : Nat) (f : Nat) (a : AccessType) :
    Keeps (LambdaRel E) (add_static_method k f a) := by
  unfold add_static_method
  repeat' first
    | (with_reducible exact Keeps.keeps_getS (LambdaRel.lambda_pre _))
    | (with_reducible exact Keeps.keeps_pure (LambdaRel.lambda_pre _) _)
    | (with_reducible exact Keeps.keeps_abort _)
    | ((with_reducible refine Keeps.keeps_modS ?_); intro _; first
        | exact LambdaRel.of_same _ _ _ rfl (Nat.le_refl _)
        | exact LambdaRel.of_same _ _ _ rfl (Nat.le_succ _)
        | exact LambdaRel.of_same _ _ _ (next_functions _)
            (Nat.le_of_eq (next_name_counter _).symm)
        | exact LambdaRel.of_same _ _ _ (skip_until_functions _ _ _)
            (Nat.le_of_eq (skip_until_name_counter _ _ _).symm)
        | (split <;> exact LambdaRel.of_same _ _ _ rfl (Nat.le_refl _)))
    | ((with_reducible refine mod_function_lam _ _ ?_); exact fun _ => rfl)
    | (with_reducible exact mod_members_lam _ _)
    | (with_reducible apply Keeps.keeps_bind (LambdaRel.lambda_pre _))
    | (with_reducible apply Keeps.keeps_ite)
    | intro _
    | split
    | dsimp only

theorem register_and_require_function_lam {E : Env} (f : Nat) (force_require : Bool) :
    Keeps (LambdaRel E) (register_and_require_function f force_require) := by
  unfold register_and_require_function
  repeat' first
    | (with_reducible exact Keeps.keeps_getS (LambdaRel.lambda_pre _))
    | (with_reducible exact Keeps.keeps_pure (LambdaRel.lambda_pre _) _)
    | (with_reducible exact Keeps.keeps_abort _)
    | ((with_reducible refine Keeps.keeps_modS ?_); intro _; first
        | exact LambdaRel.of_same _ _ _ rfl (Nat.le_refl _)
        | exact LambdaRel.of_same _ _ _ rfl (Nat.le_succ _)
        | exact LambdaRel.of_same _ _ _ (next_functions _)
            (Nat.le_of_eq (next_name_counter _).symm)
        | exact LambdaRel.of_same _ _ _ (skip_until_functions _ _ _)
            (Nat.le_of_eq (skip_until_name_counter _ _ _).symm)
        | (split <;> exact LambdaRel.of_same _ _ _ rfl (Nat.le_refl _)))
    | (with_reducible apply Keeps.keeps_bind (LambdaRel.lambda_pre _))
    | (with_reducible apply Keeps.keeps_ite)
    | intro _
    | split
    | dsimp only

theorem save_extern_func_header_lam {E : Env} (name : String) (root : Vertex) :
    Keeps (LambdaRel E) (save_extern_func_header name root) := by
  unfold save_extern_func_header
  repeat' first
    | (with_reducible exact Keeps.keeps_getS (LambdaRel.lambda_pre _))
    | (with_reducible exact Keeps.keeps_pure (LambdaRel.lambda_pre _) _)
    | (with_reducible exact Keeps.keeps_abort _)
    | ((with_reducible refine Keeps.keeps_modS ?_); intro _; first
        | exact LambdaRel.of_same _ _ _ rfl (Nat.le_refl _)
        | exact LambdaRel.of_same _ _ _ rfl (Nat.le_succ _)
        | exact LambdaRel.of_same _ _ _ (next_functions _)
            (Nat.le_of_eq (next_name_counter _).symm)
        | exact LambdaRel.of_same _ _ _ (skip_until_functions _ _ _)
            (Nat.le_of_eq (skip_until_name_counter _ _ _).symm)
        | (split <;> exact LambdaRel.of_same _ _ _ rfl (Nat.le_refl _)))
    | (with_reducible apply Keeps.keeps_bind (LambdaRel.lambda_pre _))
    | (with_reducible apply Keeps.keeps_ite)
    | intro _
    | split
    | dsimp only

theorem register_class_lam {E : Env} (k : Nat) :
    Keeps (LambdaRel E) (register_class k) := by
  unfold register_class
  repeat' first
    | (with_reducible exact Keeps.keeps_getS (LambdaRel.lambda_pre _))
    | (with_reducible exact Keeps.keeps_pure (LambdaRel.lambda_pre _) _)
    | (with_reducible exact Keeps.keeps_abort _)
    | ((with_reducible refine Keeps.keeps_modS ?_); intro _; first
        | exact LambdaRel.of_same _ _ _ rfl (Nat.le_refl _)
        | exact LambdaRel.of_same _ _ _ rfl (Nat.le_succ _)
        | exact LambdaRel.of_same _ _ _ (next_functions _)
            (Nat.le_of_eq (next_name_counter _).symm)
        | exact LambdaRel.of_same _ _ _ (skip_until_functions _ _ _)
            (Nat.le_of_eq (skip_until_name_counter _ _ _).symm)
        | (split <;> exact LambdaRel.of_same _ _ _ rfl (Nat.le_refl _)))
    | (with_reducible apply Keeps.keeps_bind (LambdaRel.lambda_pre _))
    | (with_reducible apply Keeps.keeps_ite)
    | intro _
    | split
    | dsimp only

theorem push_function_lam {E : Env} (f : Nat) :
    Keeps (LambdaRel E) (push_function f) := by
  unfold push_function
  repeat' first
    | (with_reducible exact Keeps.keeps_getS (LambdaRel.lambda_pre _))
    | (with_reducible exact Keeps.keeps_pure (LambdaRel.lambda_pre _) _)
    | (with_reducible exact Keeps.keeps_abort _)
    | ((with_reducible refine Keeps.keeps_modS ?_); intro _; first
        | exact LambdaRel.of_same _ _ _ rfl (Nat.le_refl _)
        | exact LambdaRel.of_same _ _ _ rfl (Nat.le_succ _)
        | exact LambdaRel.of_same _ _ _ (next_functions _)
            (Nat.le_of_eq (next_name_counter _).symm)
        | exact LambdaRel.of_same _ _ _ (skip_until_functions _ _ _)
            (Nat.le_of_eq (skip_until_name_counter _ _ _).symm)
        | (split <;> exact LambdaRel.of_same _ _ _ rfl (Nat.le_refl _)))
    | (with_reducible apply Keeps.keeps_bind (LambdaRel.lambda_pre _))
    | (with_reducible apply Keeps.keeps_ite)
    | intro _
    | split
    | dsimp only

theorem pop_function_lam {E : Env} :
    Keeps (LambdaRel E) (pop_function) := by
  unfold pop_function
  repeat' first
    | (with_reducible exact Keeps.keeps_getS (LambdaRel.lambda_pre _))
    | (with_reducible exact Keeps.keeps_pure (LambdaRel.lambda_pre _) _)
    | (with_reducible exact Keeps.keeps_abort _)
    | ((with_reducible refine Keeps.keeps_modS ?_); intro _; first
        | exact LambdaRel.of_same _ _ _ rfl (Nat.le_refl _)
        | exact LambdaRel.of_same _ _ _ rfl (Nat.le_succ _)
        | exact LambdaRel.of_same _ _ _ (next_functions _)
            (Nat.le_of_eq (next_name_counter _).symm)
        | exact LambdaRel.of_same _ _ _ (skip_until_functions _ _ _)
            (Nat.le_of_eq (skip_until_name_counter _ _ _).symm)
        | (split <;> exact LambdaRel.of_same _ _ _ rfl (Nat.le_refl _)))
    | (with_reducible apply Keeps.keeps_bind (LambdaRel.lambda_pre _))
    | (with_reducible apply Keeps.keeps_ite)
    | intro _
    | split
    | dsimp only

theorem push_class_lam {E : Env} (k : Nat) :
    Keeps (LambdaRel E) (push_class k) := by
  unfold push_class
  repeat' first
    | (with_reducible exact Keeps.keeps_getS (LambdaRel.lambda_pre _))
    | (with_reducible exact Keeps.keeps_pure (LambdaRel.lambda_pre _) _)
    | (with_reducible exact Keeps.keeps_abort _)
    | ((with_reducible refine Keeps.keeps_modS ?_); intro _; first
        | exact LambdaRel.of_same _ _ _ rfl (Nat.le_refl _)
        | exact LambdaRel.of_same _ _ _ rfl (Nat.le_succ _)
        | exact LambdaRel.of_same _ _ _ (next_functions _)
            (Nat.le_of_eq (next_name_counter _).symm)
        | exact LambdaRel.of_same _ _ _ (skip_until_functions _ _ _)
            (Nat.le_of_eq (skip_until_name_counter _ _ _).symm)
        | (split <;> exact LambdaRel.of_same _ _ _ rfl (Nat.le_refl _)))
    | (with_reducible apply Keeps.keeps_bind (LambdaRel.lambda_pre _))
    | (with_reducible apply Keeps.keeps_ite)
    | intro _
    | split
    | dsimp only

theorem pop_class_lam {E : Env} :
    Keeps (LambdaRel E) (pop_class) := by
  unfold pop_class
  repeat' first
    | (with_reducible exact Keeps.keeps_getS (LambdaRel.lambda_pre _))
    | (with_reducible exact Keeps.keeps_pure (LambdaRel.lambda_pre _) _)
    | (with_reducible exact Keeps.keeps_abort _)
    | ((with_reducible refine Keeps.keeps_modS ?_); intro _; first
        | exact LambdaRel.of_same _ _ _ rfl (Nat.le_refl _)
        | exact LambdaRel.of_same _ _ _ rfl (Nat.le_succ _)
        | exact LambdaRel.of_same _ _ _ (next_functions _)
            (Nat.le_of_eq (next_name_counter _).symm)
        | exact LambdaRel.of_same _ _ _ (skip_until_functions _ _ _)
            (Nat.le_of_eq (skip_until_name_counter _ _ _).symm)
        | (split <;> exact LambdaRel.of_same _ _ _ rfl (Nat.le_refl _)))
    | (with_reducible apply Keeps.keeps_bind (LambdaRel.lambda_pre _))
    | (with_reducible apply Keeps.keeps_ite)
    | intro _
    | split
    | dsimp only

theorem get_var_name_lam {E : Env} :
    Keeps (LambdaRel E) (get_var_name) := by
  unfold get_var_name
  repeat' first
    | (with_reducible exact Keeps.keeps_getS (LambdaRel.lambda_pre _))
    | (with_reducible exact Keeps.keeps_pure (LambdaRel.lambda_pre _) _)
    | (with_reducible exact Keeps.keeps_abort _)
    | ((with_reducible refine Keeps.keeps_modS ?_); intro _; first
        | exact LambdaRel.of_same _ _ _ rfl (Nat.le_refl _)
        | exact LambdaRel.of_same _ _ _ rfl (Nat.le_succ _)
        | exact LambdaRel.of_same _ _ _ (next_functions _)
            (Nat.le_of_eq (next_name_counter _).symm)
        | exact LambdaRel.of_same _ _ _ (skip_until_functions _ _ _)
            (Nat.le_of_eq (skip_until_name_counter _ _ _).symm)
        | (split <;> exact LambdaRel.of_same _ _ _ rfl (Nat.le_refl _)))
    | (with_reducible exact cur_tok_lam)
    | (with_reducible exact auto_location_lam)
    | (with_reducible exact next_cur_lam)
    | (with_reducible apply Keeps.keeps_bind (LambdaRel.lambda_pre _))
    | (with_reducible apply Keeps.keeps_ite)
    | intro _
    | split
    | dsimp only

theorem get_var_name_ref_lam {E : Env} :
    Keeps (LambdaRel E) (get_var_name_ref) := by
  unfold get_var_name_ref
  repeat' first
    | (with_reducible exact Keeps.keeps_getS (LambdaRel.lambda_pre _))
    | (with_reducible exact Keeps.keeps_pure (LambdaRel.lambda_pre _) _)
    | (with_reducible exact Keeps.keeps_abort _)
    | ((with_reducible refine Keeps.keeps_modS ?_); intro _; first
        | exact LambdaRel.of_same _ _ _ rfl (Nat.le_refl _)
        | exact LambdaRel.of_same _ _ _ rfl (Nat.le_succ _)
        | exact LambdaRel.of_same _ _ _ (next_functions _)
            (Nat.le_of_eq (next_name_counter _).symm)
        | exact LambdaRel.of_same _ _ _ (skip_until_functions _ _ _)
            (Nat.le_of_eq (skip_until_name_counter _ _ _).symm)
        | (split <;> exact LambdaRel.of_same _ _ _ rfl (Nat.le_refl _)))
    | (with_reducible exact kphp_error_lam _ _)
    | (with_reducible exact cur_type_lam)
    | (with_reducible exact next_cur_lam)
    | (with_reducible exact get_var_name_lam)
    | (with_reducible apply Keeps.keeps_bind (LambdaRel.lambda_pre _))
    | (with_reducible apply Keeps.keeps_ite)
    | intro _
    | split
    | dsimp only

theorem open_parent_lam {E : Env} :
    Keeps (LambdaRel E) (open_parent) := by
  unfold open_parent
  repeat' first
    | (with_reducible exact Keeps.keeps_getS (LambdaRel.lambda_pre _))
    | (with_reducible exact Keeps.keeps_pure (LambdaRel.lambda_pre _) _)
    | (with_reducible exact Keeps.keeps_abort _)
    | ((with_reducible refine Keeps.keeps_modS ?_); intro _; first
        | exact LambdaRel.of_same _ _ _ rfl (Nat.le_refl _)
        | exact LambdaRel.of_same _ _ _ rfl (Nat.le_succ _)
        | exact LambdaRel.of_same _ _ _ (next_functions _)
            (Nat.le_of_eq (next_name_counter _).symm)
        | exact LambdaRel.of_same _ _ _ (skip_until_functions _ _ _)
            (Nat.le_of_eq (skip_until_name_counter _ _ _).symm)
        | (split <;> exact LambdaRel.of_same _ _ _ rfl (Nat.le_refl _)))
    | (with_reducible exact cur_type_lam)
    | (with_reducible exact next_cur_lam)
    | (with_reducible apply Keeps.keeps_bind (LambdaRel.lambda_pre _))
    | (with_reducible apply Keeps.keeps_ite)
    | intro _
    | split
    | dsimp only

theorem skip_phpdoc_loop_lam {E : Env} (k : Nat) :
    Keeps (LambdaRel E) (skip_phpdoc_loop k) := by
  induction k with
  | zero => exact Keeps.keeps_abort _
  | succ k ih =>
    unfold skip_phpdoc_loop
    repeat' first
      | (with_reducible exact Keeps.keeps_getS (LambdaRel.lambda_pre _))
      | (with_reducible exact Keeps.keeps_pure (LambdaRel.lambda_pre _) _)
      | (with_reducible exact Keeps.keeps_abort _)
      | ((with_reducible refine Keeps.keeps_modS ?_); intro _; first
          | exact LambdaRel.of_same _ _ _ rfl (Nat.le_refl _)
          | exact LambdaRel.of_same _ _ _ rfl (Nat.le_succ _)
          | exact LambdaRel.of_same _ _ _ (next_functions _)
              (Nat.le_of_eq (next_name_counter _).symm)
          | exact LambdaRel.of_same _ _ _ (skip_until_functions _ _ _)
              (Nat.le_of_eq (skip_until_name_counter _ _ _).symm)
          | (split <;> exact LambdaRel.of_same _ _ _ rfl (Nat.le_refl _)))
      | (with_reducible exact cur_type_lam)
      | (with_reducible exact next_cur_lam)
      | (with_reducible exact ih)
      | (with_reducible apply Keeps.keeps_bind (LambdaRel.lambda_pre _))
      | (with_reducible apply Keeps.keeps_ite)
      | intro _
      | split
      | dsimp only

theorem skip_phpdoc_tokens_lam {E : Env} : Keeps (LambdaRel E) skip_phpdoc_tokens :=
  ⟨fun s a s' h => (skip_phpdoc_loop_lam _).run s a s' h⟩

theorem close_parent_lam {E : Env} (is_opened : Bool) :
    Keeps (LambdaRel E) (close_parent is_opened) := by
  unfold close_parent
  repeat' first
    | (with_reducible exact Keeps.keeps_getS (LambdaRel.lambda_pre _))
    | (with_reducible exact Keeps.keeps_pure (LambdaRel.lambda_pre _) _)
    | (with_reducible exact Keeps.keeps_abort _)
    | ((with_reducible refine Keeps.keeps_modS ?_); intro _; first
        | exact LambdaRel.of_same _ _ _ rfl (Nat.le_refl _)
        | exact LambdaRel.of_same _ _ _ rfl (Nat.le_succ _)
        | exact LambdaRel.of_same _ _ _ (next_functions _)
            (Nat.le_of_eq (next_name_counter _).symm)
        | exact LambdaRel.of_same _ _ _ (skip_until_functions _ _ _)
            (Nat.le_of_eq (skip_until_name_counter _ _ _).symm)
        | (split <;> exact LambdaRel.of_same _ _ _ rfl (Nat.le_refl _)))
    | (with_reducible exact expect_lam _ _)
    | (with_reducible apply Keeps.keeps_bind (LambdaRel.lambda_pre _))
    | (with_reducible apply Keeps.keeps_ite)
    | intro _
    | split
    | dsimp only

theorem call_get_func_lam {E : Env} {c : Caps} (h : CapsLam E c) (f : GetFunc) :
    Keeps (LambdaRel E) (call_get_func c f) := by
  cases f
  · exact h.get_expression
  · exact h.get_type_rule_
  · exact h.get_func_param
  · exact h.get_func_param_from_callback
  · exact get_var_name_ref_lam
  · exact get_var_name_lam

theorem gen_list_loop_lam {E : Env} {c : Caps} (h : CapsLam E c) (EmptyOp : Operation) (f : GetFunc) (delim : TokenType) (prev_delim : Bool) (res : List Vertex) :
    Keeps (LambdaRel E) (gen_list_loop c EmptyOp f delim prev_delim res) := by
  unfold gen_list_loop
  repeat' first
    | (with_reducible exact Keeps.keeps_getS (LambdaRel.lambda_pre _))
    | (with_reducible exact Keeps.keeps_pure (LambdaRel.lambda_pre _) _)
    | (with_reducible exact Keeps.keeps_abort _)
    | ((with_reducible refine Keeps.keeps_modS ?_); intro _; first
        | exact LambdaRel.of_same _ _ _ rfl (Nat.le_refl _)
        | exact LambdaRel.of_same _ _ _ rfl (Nat.le_succ _)
        | exact LambdaRel.of_same _ _ _ (next_functions _)
            (Nat.le_of_eq (next_name_counter _).symm)
        | exact LambdaRel.of_same _ _ _ (skip_until_functions _ _ _)
            (Nat.le_of_eq (skip_until_name_counter _ _ _).symm)
        | (split <;> exact LambdaRel.of_same _ _ _ rfl (Nat.le_refl _)))
    | (with_reducible exact h.gen_list_loop _ _ _ _ _)
    | (with_reducible exact kphp_error_lam _ _)
    | (with_reducible exact cur_type_lam)
    | (with_reducible exact next_cur_lam)
    | (with_reducible exact call_get_func_lam h _)
    | (with_reducible apply Keeps.keeps_bind (LambdaRel.lambda_pre _))
    | (with_reducible apply Keeps.keeps_ite)
    | intro _
    | split
    | dsimp only

theorem gen_list_lam {E : Env} {c : Caps} (h : CapsLam E c) (EmptyOp : Operation) (res : List Vertex) (f : GetFunc) (delim : TokenType) :
    Keeps (LambdaRel E) (gen_list c EmptyOp res f delim) := by
  unfold gen_list
  repeat' first
    | (with_reducible exact Keeps.keeps_getS (LambdaRel.lambda_pre _))
    | (with_reducible exact Keeps.keeps_pure (LambdaRel.lambda_pre _) _)
    | (with_reducible exact Keeps.keeps_abort _)
    | ((with_reducible refine Keeps.keeps_modS ?_); intro _; first
        | exact LambdaRel.of_same _ _ _ rfl (Nat.le_refl _)
        | exact LambdaRel.of_same _ _ _ rfl (Nat.le_succ _)
        | exact LambdaRel.of_same _ _ _ (next_functions _)
            (Nat.le_of_eq (next_name_counter _).symm)
        | exact LambdaRel.of_same _ _ _ (skip_until_functions _ _ _)
            (Nat.le_of_eq (skip_until_name_counter _ _ _).symm)
        | (split <;> exact LambdaRel.of_same _ _ _ rfl (Nat.le_refl _)))
    | (with_reducible exact h.gen_list_loop _ _ _ _ _)
    | (with_reducible apply Keeps.keeps_bind (LambdaRel.lambda_pre _))
    | (with_reducible apply Keeps.keeps_ite)
    | intro _
    | split
    | dsimp only

theorem get_conv_lam {E : Env} {c : Caps} (h : CapsLam E c) (Op : Operation) :
    Keeps (LambdaRel E) (get_conv c Op) := by
  unfold get_conv
  repeat' first
    | (with_reducible exact Keeps.keeps_getS (LambdaRel.lambda_pre _))
    | (with_reducible exact Keeps.keeps_pure (LambdaRel.lambda_pre _) _)
    | (with_reducible exact Keeps.keeps_abort _)
    | ((with_reducible refine Keeps.keeps_modS ?_); intro _; first
        | exact LambdaRel.of_same _ _ _ rfl (Nat.le_refl _)
        | exact LambdaRel.of_same _ _ _ rfl (Nat.le_succ _)
        | exact LambdaRel.of_same _ _ _ (next_functions _)
            (Nat.le_of_eq (next_name_counter _).symm)
        | exact LambdaRel.of_same _ _ _ (skip_until_functions _ _ _)
            (Nat.le_of_eq (skip_until_name_counter _ _ _).symm)
        | (split <;> exact LambdaRel.of_same _ _ _ rfl (Nat.le_refl _)))
    | (with_reducible exact h.get_expression)
    | (with_reducible exact kphp_error_lam _ _)
    | (with_reducible exact auto_location_lam)
    | (with_reducible exact next_cur_lam)
    | (with_reducible apply Keeps.keeps_bind (LambdaRel.lambda_pre _))
    | (with_reducible apply Keeps.keeps_ite)
    | intro _
    | split
    | dsimp only

theorem get_varg_call_lam {E : Env} {c : Caps} (h : CapsLam E c) (Op : Operation) :
    Keeps (LambdaRel E) (get_varg_call c Op) := by
  unfold get_varg_call
  repeat' first
    | (with_reducible exact Keeps.keeps_getS (LambdaRel.lambda_pre _))
    | (with_reducible exact Keeps.keeps_pure (LambdaRel.lambda_pre _) _)
    | (with_reducible exact Keeps.keeps_abort _)
    | ((with_reducible refine Keeps.keeps_modS ?_); intro _; first
        | exact LambdaRel.of_same _ _ _ rfl (Nat.le_refl _)
        | exact LambdaRel.of_same _ _ _ rfl (Nat.le_succ _)
        | exact LambdaRel.of_same _ _ _ (next_functions _)
            (Nat.le_of_eq (next_name_counter _).symm)
        | exact LambdaRel.of_same _ _ _ (skip_until_functions _ _ _)
            (Nat.le_of_eq (skip_until_name_counter _ _ _).symm)
        | (split <;> exact LambdaRel.of_same _ _ _ rfl (Nat.le_refl _)))
    | (with_reducible exact kphp_error_lam _ _)
    | (with_reducible exact auto_location_lam)
    | (with_reducible exact next_cur_lam)
    | (with_reducible exact expect_lam _ _)
    | (with_reducible exact gen_list_lam h _ _ _ _)
    | (with_reducible apply Keeps.keeps_bind (LambdaRel.lambda_pre _))
    | (with_reducible apply Keeps.keeps_ite)
    | intro _
    | split
    | dsimp only

theorem get_require_lam {E : Env} {c : Caps} (h : CapsLam E c) :
    Keeps (LambdaRel E) (get_require c) := by
  unfold get_require
  repeat' first
    | (with_reducible exact Keeps.keeps_getS (LambdaRel.lambda_pre _))
    | (with_reducible exact Keeps.keeps_pure (LambdaRel.lambda_pre _) _)
    | (with_reducible exact Keeps.keeps_abort _)
    | ((with_reducible refine Keeps.keeps_modS ?_); intro _; first
        | exact LambdaRel.of_same _ _ _ rfl (Nat.le_refl _)
        | exact LambdaRel.of_same _ _ _ rfl (Nat.le_succ _)
        | exact LambdaRel.of_same _ _ _ (next_functions _)
            (Nat.le_of_eq (next_name_counter _).symm)
        | exact LambdaRel.of_same _ _ _ (skip_until_functions _ _ _)
            (Nat.le_of_eq (skip_until_name_counter _ _ _).symm)
        | (split <;> exact LambdaRel.of_same _ _ _ rfl (Nat.le_refl _)))
    | (with_reducible exact h.get_expression)
    | (with_reducible exact auto_location_lam)
    | (with_reducible exact next_cur_lam)
    | (with_reducible exact open_parent_lam)
    | (with_reducible exact close_parent_lam _)
    | (with_reducible apply Keeps.keeps_bind (LambdaRel.lambda_pre _))
    | (with_reducible apply Keeps.keeps_ite)
    | intro _
    | split
    | dsimp only

theorem get_require_once_lam {E : Env} {c : Caps} (h : CapsLam E c) :
    Keeps (LambdaRel E) (get_require_once c) := by
  unfold get_require_once
  repeat' first
    | (with_reducible exact Keeps.keeps_getS (LambdaRel.lambda_pre _))
    | (with_reducible exact Keeps.keeps_pure (LambdaRel.lambda_pre _) _)
    | (with_reducible exact Keeps.keeps_abort _)
    | ((with_reducible refine Keeps.keeps_modS ?_); intro _; first
        | exact LambdaRel.of_same _ _ _ rfl (Nat.le_refl _)
        | exact LambdaRel.of_same _ _ _ rfl (Nat.le_succ _)
        | exact LambdaRel.of_same _ _ _ (next_functions _)
            (Nat.le_of_eq (next_name_counter _).symm)
        | exact LambdaRel.of_same _ _ _ (skip_until_functions _ _ _)
            (Nat.le_of_eq (skip_until_name_counter _ _ _).symm)
        | (split <;> exact LambdaRel.of_same _ _ _ rfl (Nat.le_refl _)))
    | (with_reducible exact kphp_error_lam _ _)
    | (with_reducible exact auto_location_lam)
    | (with_reducible exact next_cur_lam)
    | (with_reducible exact open_parent_lam)
    | (with_reducible exact close_parent_lam _)
    | (with_reducible exact gen_list_lam h _ _ _ _)
    | (with_reducible apply Keeps.keeps_bind (LambdaRel.lambda_pre _))
    | (with_reducible apply Keeps.keeps_ite)
    | intro _
    | split
    | dsimp only

theorem get_func_call_lam {E : Env} {c : Caps} (h : CapsLam E c) (Op : Operation) (EmptyOp : Operation) :
    Keeps (LambdaRel E) (get_func_call c Op EmptyOp) := by
  unfold get_func_call
  repeat' first
    | (with_reducible exact Keeps.keeps_getS (LambdaRel.lambda_pre _))
    | (with_reducible exact Keeps.keeps_pure (LambdaRel.lambda_pre _) _)
    | (with_reducible exact Keeps.keeps_abort _)
    | ((with_reducible refine Keeps.keeps_modS ?_); intro _; first
        | exact LambdaRel.of_same _ _ _ rfl (Nat.le_refl _)
        | exact LambdaRel.of_same _ _ _ rfl (Nat.le_succ _)
        | exact LambdaRel.of_same _ _ _ (next_functions _)
            (Nat.le_of_eq (next_name_counter _).symm)
        | exact LambdaRel.of_same _ _ _ (skip_until_functions _ _ _)
            (Nat.le_of_eq (skip_until_name_counter _ _ _).symm)
        | (split <;> exact LambdaRel.of_same _ _ _ rfl (Nat.le_refl _)))
    | (with_reducible exact kphp_error_lam _ _)
    | (with_reducible exact cur_tok_lam)
    | (with_reducible exact auto_location_lam)
    | (with_reducible exact next_cur_lam)
    | (with_reducible exact expect_lam _ _)
    | (with_reducible exact skip_phpdoc_tokens_lam)
    | (with_reducible exact gen_list_lam h _ _ _ _)
    | (with_reducible apply Keeps.keeps_bind (LambdaRel.lambda_pre _))
    | (with_reducible apply Keeps.keeps_ite)
    | intro _
    | split
    | dsimp only

theorem get_short_array_lam {E : Env} {c : Caps} (h : CapsLam E c) :
    Keeps (LambdaRel E) (get_short_array c) := by
  unfold get_short_array
  repeat' first
    | (with_reducible exact Keeps.keeps_getS (LambdaRel.lambda_pre _))
    | (with_reducible exact Keeps.keeps_pure (LambdaRel.lambda_pre _) _)
    | (with_reducible exact Keeps.keeps_abort _)
    | ((with_reducible refine Keeps.keeps_modS ?_); intro _; first
        | exact LambdaRel.of_same _ _ _ rfl (Nat.le_refl _)
        | exact LambdaRel.of_same _ _ _ rfl (Nat.le_succ _)
        | exact LambdaRel.of_same _ _ _ (next_functions _)
            (Nat.le_of_eq (next_name_counter _).symm)
        | exact LambdaRel.of_same _ _ _ (skip_until_functions _ _ _)
            (Nat.le_of_eq (skip_until_name_counter _ _ _).symm)
        | (split <;> exact LambdaRel.of_same _ _ _ rfl (Nat.le_refl _)))
    | (with_reducible exact kphp_error_lam _ _)
    | (with_reducible exact auto_location_lam)
    | (with_reducible exact next_cur_lam)
    | (with_reducible exact expect_lam _ _)
    | (with_reducible exact gen_list_lam h _ _ _ _)
    | (with_reducible apply Keeps.keeps_bind (LambdaRel.lambda_pre _))
    | (with_reducible apply Keeps.keeps_ite)
    | intro _
    | split
    | dsimp only

theorem get_string_lam {E : Env} :
    Keeps (LambdaRel E) (get_string) := by
  unfold get_string
  repeat' first
    | (with_reducible exact Keeps.keeps_getS (LambdaRel.lambda_pre _))
    | (with_reducible exact Keeps.keeps_pure (LambdaRel.lambda_pre _) _)
    | (with_reducible exact Keeps.keeps_abort _)
    | ((with_reducible refine Keeps.keeps_modS ?_); intro _; first
        | exact LambdaRel.of_same _ _ _ rfl (Nat.le_refl _)
        | exact LambdaRel.of_same _ _ _ rfl (Nat.le_succ _)
        | exact LambdaRel.of_same _ _ _ (next_functions _)
            (Nat.le_of_eq (next_name_counter _).symm)
        | exact LambdaRel.of_same _ _ _ (skip_until_functions _ _ _)
            (Nat.le_of_eq (skip_until_name_counter _ _ _).symm)
        | (split <;> exact LambdaRel.of_same _ _ _ rfl (Nat.le_refl _)))
    | (with_reducible exact cur_tok_lam)
    | (with_reducible exact auto_location_lam)
    | (with_reducible exact next_cur_lam)
    | (with_reducible apply Keeps.keeps_bind (LambdaRel.lambda_pre _))
    | (with_reducible apply Keeps.keeps_ite)
    | intro _
    | split
    | dsimp only

theorem get_string_build_loop_lam {E : Env} {c : Caps} (h : CapsLam E c) (after_simple_expression : Bool) (v_next : List Vertex) :
    Keeps (LambdaRel E) (get_string_build_loop c after_simple_expression v_next) := by
  unfold get_string_build_loop
  repeat' first
    | (with_reducible exact Keeps.keeps_getS (LambdaRel.lambda_pre _))
    | (with_reducible exact Keeps.keeps_pure (LambdaRel.lambda_pre _) _)
    | (with_reducible exact Keeps.keeps_abort _)
    | ((with_reducible refine Keeps.keeps_modS ?_); intro _; first
        | exact LambdaRel.of_same _ _ _ rfl (Nat.le_refl _)
        | exact LambdaRel.of_same _ _ _ rfl (Nat.le_succ _)
        | exact LambdaRel.of_same _ _ _ (next_functions _)
            (Nat.le_of_eq (next_name_counter _).symm)
        | exact LambdaRel.of_same _ _ _ (skip_until_functions _ _ _)
            (Nat.le_of_eq (skip_until_name_counter _ _ _).symm)
        | (split <;> exact LambdaRel.of_same _ _ _ rfl (Nat.le_refl _)))
    | (with_reducible exact h.get_string_build_loop _ _)
    | (with_reducible exact h.get_expression)
    | (with_reducible exact kphp_error_lam _ _)
    | (with_reducible exact kphp_warning_lam _)
    | (with_reducible exact cur_type_lam)
    | (with_reducible exact at_end_lam)
    | (with_reducible exact next_cur_lam)
    | (with_reducible exact expect_lam _ _)
    | (with_reducible exact get_string_lam)
    | (with_reducible apply Keeps.keeps_bind (LambdaRel.lambda_pre _))
    | (with_reducible apply Keeps.keeps_ite)
    | intro _
    | split
    | dsimp only

theorem get_string_build_lam {E : Env} {c : Caps} (h : CapsLam E c) :
    Keeps (LambdaRel E) (get_string_build c) := by
  unfold get_string_build
  repeat' first
    | (with_reducible exact Keeps.keeps_getS (LambdaRel.lambda_pre _))
    | (with_reducible exact Keeps.keeps_pure (LambdaRel.lambda_pre _) _)
    | (with_reducible exact Keeps.keeps_abort _)
    | ((with_reducible refine Keeps.keeps_modS ?_); intro _; first
        | exact LambdaRel.of_same _ _ _ rfl (Nat.le_refl _)
        | exact LambdaRel.of_same _ _ _ rfl (Nat.le_succ _)
        | exact LambdaRel.of_same _ _ _ (next_functions _)
            (Nat.le_of_eq (next_name_counter _).symm)
        | exact LambdaRel.of_same _ _ _ (skip_until_functions _ _ _)
            (Nat.le_of_eq (skip_until_name_counter _ _ _).symm)
        | (split <;> exact LambdaRel.of_same _ _ _ rfl (Nat.le_refl _)))
    | (with_reducible exact h.get_string_build_loop _ _)
    | (with_reducible exact auto_location_lam)
    | (with_reducible exact next_cur_lam)
    | (with_reducible exact expect_lam _ _)
    | (with_reducible apply Keeps.keeps_bind (LambdaRel.lambda_pre _))
    | (with_reducible apply Keeps.keeps_ite)
    | intro _
    | split
    | dsimp only

theorem get_exit_lam {E : Env} {c : Caps} (h : CapsLam E c) :
    Keeps (LambdaRel E) (get_exit c) := by
  unfold get_exit
  repeat' first
    | (with_reducible exact Keeps.keeps_getS (LambdaRel.lambda_pre _))
    | (with_reducible exact Keeps.keeps_pure (LambdaRel.lambda_pre _) _)
    | (with_reducible exact Keeps.keeps_abort _)
    | ((with_reducible refine Keeps.keeps_modS ?_); intro _; first
        | exact LambdaRel.of_same _ _ _ rfl (Nat.le_refl _)
        | exact LambdaRel.of_same _ _ _ rfl (Nat.le_succ _)
        | exact LambdaRel.of_same _ _ _ (next_functions _)
            (Nat.le_of_eq (next_name_counter _).symm)
        | exact LambdaRel.of_same _ _ _ (skip_until_functions _ _ _)
            (Nat.le_of_eq (skip_until_name_counter _ _ _).symm)
        | (split <;> exact LambdaRel.of_same _ _ _ rfl (Nat.le_refl _)))
    | (with_reducible exact h.get_expression)
    | (with_reducible exact auto_location_lam)
    | (with_reducible exact next_cur_lam)
    | (with_reducible exact open_parent_lam)
    | (with_reducible exact close_parent_lam _)
    | (with_reducible apply Keeps.keeps_bind (LambdaRel.lambda_pre _))
    | (with_reducible apply Keeps.keeps_ite)
    | intro _
    | split
    | dsimp only

theorem get_postfix_expression_lam {E : Env} {c : Caps} (h : CapsLam E c) (res : Option Vertex) :
    Keeps (LambdaRel E) (get_postfix_expression c res) := by
  unfold get_postfix_expression
  repeat' first
    | (with_reducible exact Keeps.keeps_getS (LambdaRel.lambda_pre _))
    | (with_reducible exact Keeps.keeps_pure (LambdaRel.lambda_pre _) _)
    | (with_reducible exact Keeps.keeps_abort _)
    | ((with_reducible refine Keeps.keeps_modS ?_); intro _; first
        | exact LambdaRel.of_same _ _ _ rfl (Nat.le_refl _)
        | exact LambdaRel.of_same _ _ _ rfl (Nat.le_succ _)
        | exact LambdaRel.of_same _ _ _ (next_functions _)
            (Nat.le_of_eq (next_name_counter _).symm)
        | exact LambdaRel.of_same _ _ _ (skip_until_functions _ _ _)
            (Nat.le_of_eq (skip_until_name_counter _ _ _).symm)
        | (split <;> exact LambdaRel.of_same _ _ _ rfl (Nat.le_refl _)))
    | (with_reducible exact h.get_postfix_expression _)
    | (with_reducible exact h.get_expr_top)
    | (with_reducible exact h.get_expression)
    | (with_reducible exact kphp_error_lam _ _)
    | (with_reducible exact cur_type_lam)
    | (with_reducible exact at_end_lam)
    | (with_reducible exact auto_location_lam)
    | (with_reducible exact next_cur_lam)
    | (with_reducible exact expect_lam _ _)
    | (with_reducible exact skip_phpdoc_tokens_lam)
    | (with_reducible exact gen_list_lam h _ _ _ _)
    | (with_reducible apply Keeps.keeps_bind (LambdaRel.lambda_pre _))
    | (with_reducible apply Keeps.keeps_ite)
    | intro _
    | split
    | dsimp only

theorem min_max_call_lam {E : Env} (call : Option Vertex) :
    Keeps (LambdaRel E) (min_max_call call) := by
  unfold min_max_call
  repeat' first
    | (with_reducible exact Keeps.keeps_getS (LambdaRel.lambda_pre _))
    | (with_reducible exact Keeps.keeps_pure (LambdaRel.lambda_pre _) _)
    | (with_reducible exact Keeps.keeps_abort _)
    | ((with_reducible refine Keeps.keeps_modS ?_); intro _; first
        | exact LambdaRel.of_same _ _ _ rfl (Nat.le_refl _)
        | exact LambdaRel.of_same _ _ _ rfl (Nat.le_succ _)
        | exact LambdaRel.of_same _ _ _ (next_functions _)
            (Nat.le_of_eq (next_name_counter _).symm)
        | exact LambdaRel.of_same _ _ _ (skip_until_functions _ _ _)
            (Nat.le_of_eq (skip_until_name_counter _ _ _).symm)
        | (split <;> exact LambdaRel.of_same _ _ _ rfl (Nat.le_refl _)))
    | (with_reducible apply Keeps.keeps_bind (LambdaRel.lambda_pre _))
    | (with_reducible apply Keeps.keeps_ite)
    | intro _
    | split
    | dsimp only

theorem get_expr_top_lam {E : Env} {c : Caps} (h : CapsLam E c) :
    Keeps (LambdaRel E) (get_expr_top c) := by
  unfold get_expr_top
  repeat' first
    | (with_reducible exact Keeps.keeps_getS (LambdaRel.lambda_pre _))
    | (with_reducible exact Keeps.keeps_pure (LambdaRel.lambda_pre _) _)
    | (with_reducible exact Keeps.keeps_abort _)
    | ((with_reducible refine Keeps.keeps_modS ?_); intro _; first
        | exact LambdaRel.of_same _ _ _ rfl (Nat.le_refl _)
        | exact LambdaRel.of_same _ _ _ rfl (Nat.le_succ _)
        | exact LambdaRel.of_same _ _ _ (next_functions _)
            (Nat.le_of_eq (next_name_counter _).symm)
        | exact LambdaRel.of_same _ _ _ (skip_until_functions _ _ _)
            (Nat.le_of_eq (skip_until_name_counter _ _ _).symm)
        | (split <;> exact LambdaRel.of_same _ _ _ rfl (Nat.le_refl _)))
    | (with_reducible exact h.get_postfix_expression _)
    | (with_reducible exact h.get_expression)
    | (with_reducible exact h.get_anonymous_function)
    | (with_reducible exact kphp_error_lam _ _)
    | (with_reducible exact cur_type_lam)
    | (with_reducible exact next_cur_lam)
    | (with_reducible exact expect_lam _ _)
    | (with_reducible exact get_var_name_lam)
    | (with_reducible exact get_conv_lam h _)
    | (with_reducible exact get_require_lam h)
    | (with_reducible exact get_require_once_lam h)
    | (with_reducible exact get_func_call_lam h _ _)
    | (with_reducible exact get_short_array_lam h)
    | (with_reducible exact get_string_lam)
    | (with_reducible exact get_string_build_lam h)
    | (with_reducible exact get_exit_lam h)
    | (with_reducible exact min_max_call_lam _)
    | (with_reducible apply Keeps.keeps_bind (LambdaRel.lambda_pre _))
    | (with_reducible apply Keeps.keeps_ite)
    | intro _
    | split
    | dsimp only

theorem create_ternary_op_vertex_lam {e : Env} (left : Vertex) (right : Option Vertex) (third : Vertex) :
    Keeps (LambdaRel e) (create_ternary_op_vertex e left right third) := by
  unfold create_ternary_op_vertex
  repeat' first
    | (with_reducible exact Keeps.keeps_getS (LambdaRel.lambda_pre _))
    | (with_reducible exact Keeps.keeps_pure (LambdaRel.lambda_pre _) _)
    | (with_reducible exact Keeps.keeps_abort _)
    | ((with_reducible refine Keeps.keeps_modS ?_); intro _; first
        | exact LambdaRel.of_same _ _ _ rfl (Nat.le_refl _)
        | exact LambdaRel.of_same _ _ _ rfl (Nat.le_succ _)
        | exact LambdaRel.of_same _ _ _ (next_functions _)
            (Nat.le_of_eq (next_name_counter _).symm)
        | exact LambdaRel.of_same _ _ _ (skip_until_functions _ _ _)
            (Nat.le_of_eq (skip_until_name_counter _ _ _).symm)
        | (split <;> exact LambdaRel.of_same _ _ _ rfl (Nat.le_refl _)))
    | (with_reducible apply Keeps.keeps_bind (LambdaRel.lambda_pre _))
    | (with_reducible apply Keeps.keeps_ite)
    | intro _
    | split
    | dsimp only

theorem get_unary_op_lam {E : Env} {c : Caps} (h : CapsLam E c) (op_priority_cur : Nat) (unary_op_tp : Operation) (till_ternary : Bool) :
    Keeps (LambdaRel E) (get_unary_op c op_priority_cur unary_op_tp till_ternary) := by
  unfold get_unary_op
  repeat' first
    | (with_reducible exact Keeps.keeps_getS (LambdaRel.lambda_pre _))
    | (with_reducible exact Keeps.keeps_pure (LambdaRel.lambda_pre _) _)
    | (with_reducible exact Keeps.keeps_abort _)
    | ((with_reducible refine Keeps.keeps_modS ?_); intro _; first
        | exact LambdaRel.of_same _ _ _ rfl (Nat.le_refl _)
        | exact LambdaRel.of_same _ _ _ rfl (Nat.le_succ _)
        | exact LambdaRel.of_same _ _ _ (next_functions _)
            (Nat.le_of_eq (next_name_counter _).symm)
        | exact LambdaRel.of_same _ _ _ (skip_until_functions _ _ _)
            (Nat.le_of_eq (skip_until_name_counter _ _ _).symm)
        | (split <;> exact LambdaRel.of_same _ _ _ rfl (Nat.le_refl _)))
    | (with_reducible exact h.get_binary_op _ _)
    | (with_reducible exact auto_location_lam)
    | (with_reducible exact next_cur_lam)
    | (with_reducible apply Keeps.keeps_bind (LambdaRel.lambda_pre _))
    | (with_reducible apply Keeps.keeps_ite)
    | intro _
    | split
    | dsimp only

theorem get_expression_impl_lam {e : Env} {c : Caps} (h : CapsLam e c) (till_ternary : Bool) :
    Keeps (LambdaRel e) (get_expression_impl e c till_ternary) := by
  unfold get_expression_impl
  repeat' first
    | (with_reducible exact Keeps.keeps_getS (LambdaRel.lambda_pre _))
    | (with_reducible exact Keeps.keeps_pure (LambdaRel.lambda_pre _) _)
    | (with_reducible exact Keeps.keeps_abort _)
    | ((with_reducible refine Keeps.keeps_modS ?_); intro _; first
        | exact LambdaRel.of_same _ _ _ rfl (Nat.le_refl _)
        | exact LambdaRel.of_same _ _ _ rfl (Nat.le_succ _)
        | exact LambdaRel.of_same _ _ _ (next_functions _)
            (Nat.le_of_eq (next_name_counter _).symm)
        | exact LambdaRel.of_same _ _ _ (skip_until_functions _ _ _)
            (Nat.le_of_eq (skip_until_name_counter _ _ _).symm)
        | (split <;> exact LambdaRel.of_same _ _ _ rfl (Nat.le_refl _)))
    | (with_reducible exact h.get_binary_op _ _)
    | (with_reducible apply Keeps.keeps_bind (LambdaRel.lambda_pre _))
    | (with_reducible apply Keeps.keeps_ite)
    | intro _
    | split
    | dsimp only

theorem conv_right_lam {E : Env} (tp : PrimitiveType) (right : Option Vertex) :
    Keeps (LambdaRel E) (conv_right tp right) := by
  unfold conv_right
  repeat' first
    | (with_reducible exact Keeps.keeps_getS (LambdaRel.lambda_pre _))
    | (with_reducible exact Keeps.keeps_pure (LambdaRel.lambda_pre _) _)
    | (with_reducible exact Keeps.keeps_abort _)
    | ((with_reducible refine Keeps.keeps_modS ?_); intro _; first
        | exact LambdaRel.of_same _ _ _ rfl (Nat.le_refl _)
        | exact LambdaRel.of_same _ _ _ rfl (Nat.le_succ _)
        | exact LambdaRel.of_same _ _ _ (next_functions _)
            (Nat.le_of_eq (next_name_counter _).symm)
        | exact LambdaRel.of_same _ _ _ (skip_until_functions _ _ _)
            (Nat.le_of_eq (skip_until_name_counter _ _ _).symm)
        | (split <;> exact LambdaRel.of_same _ _ _ rfl (Nat.le_refl _)))
    | (with_reducible apply Keeps.keeps_bind (LambdaRel.lambda_pre _))
    | (with_reducible apply Keeps.keeps_ite)
    | intro _
    | split
    | dsimp only

theorem coerce_operands_lam {E : Env} (binary_op_tp : Operation) (left : Vertex) (right : Option Vertex) :
    Keeps (LambdaRel E) (coerce_operands binary_op_tp left right) := by
  unfold coerce_operands
  repeat' first
    | (with_reducible exact Keeps.keeps_getS (LambdaRel.lambda_pre _))
    | (with_reducible exact Keeps.keeps_pure (LambdaRel.lambda_pre _) _)
    | (with_reducible exact Keeps.keeps_abort _)
    | ((with_reducible refine Keeps.keeps_modS ?_); intro _; first
        | exact LambdaRel.of_same _ _ _ rfl (Nat.le_refl _)
        | exact LambdaRel.of_same _ _ _ rfl (Nat.le_succ _)
        | exact LambdaRel.of_same _ _ _ (next_functions _)
            (Nat.le_of_eq (next_name_counter _).symm)
        | exact LambdaRel.of_same _ _ _ (skip_until_functions _ _ _)
            (Nat.le_of_eq (skip_until_name_counter _ _ _).symm)
        | (split <;> exact LambdaRel.of_same _ _ _ rfl (Nat.le_refl _)))
    | (with_reducible exact conv_right_lam _ _)
    | (with_reducible apply Keeps.keeps_bind (LambdaRel.lambda_pre _))
    | (with_reducible apply Keeps.keeps_ite)
    | intro _
    | split
    | dsimp only

theorem get_binary_op_loop_lam {e : Env} {c : Caps} (h : CapsLam e c) (op_priority_cur : Nat) (till_ternary : Bool) (left : Vertex) :
    Keeps (LambdaRel e) (get_binary_op_loop e c op_priority_cur till_ternary left) := by
  unfold get_binary_op_loop
  repeat' first
    | (with_reducible exact Keeps.keeps_getS (LambdaRel.lambda_pre _))
    | (with_reducible exact Keeps.keeps_pure (LambdaRel.lambda_pre _) _)
    | (with_reducible exact Keeps.keeps_abort _)
    | ((with_reducible refine Keeps.keeps_modS ?_); intro _; first
        | exact LambdaRel.of_same _ _ _ rfl (Nat.le_refl _)
        | exact LambdaRel.of_same _ _ _ rfl (Nat.le_succ _)
        | exact LambdaRel.of_same _ _ _ (next_functions _)
            (Nat.le_of_eq (next_name_counter _).symm)
        | exact LambdaRel.of_same _ _ _ (skip_until_functions _ _ _)
            (Nat.le_of_eq (skip_until_name_counter _ _ _).symm)
        | (split <;> exact LambdaRel.of_same _ _ _ rfl (Nat.le_refl _)))
    | (with_reducible exact h.get_binary_op _ _)
    | (with_reducible exact h.get_binary_op_loop _ _ _)
    | (with_reducible exact h.get_expression)
    | (with_reducible exact kphp_error_lam _ _)
    | (with_reducible exact cur_type_lam)
    | (with_reducible exact at_end_lam)
    | (with_reducible exact auto_location_lam)
    | (with_reducible exact next_cur_lam)
    | (with_reducible exact expect_lam _ _)
    | (with_reducible exact create_ternary_op_vertex_lam _ _ _)
    | (with_reducible exact get_expression_impl_lam h _)
    | (with_reducible exact coerce_operands_lam _ _ _)
    | (with_reducible apply Keeps.keeps_bind (LambdaRel.lambda_pre _))
    | (with_reducible apply Keeps.keeps_ite)
    | intro _
    | split
    | dsimp only

theorem get_binary_op_lam {e : Env} {c : Caps} (h : CapsLam e c) (op_priority_cur : Nat) (till_ternary : Bool) :
    Keeps (LambdaRel e) (get_binary_op e c op_priority_cur till_ternary) := by
  unfold get_binary_op
  repeat' first
    | (with_reducible exact Keeps.keeps_getS (LambdaRel.lambda_pre _))
    | (with_reducible exact Keeps.keeps_pure (LambdaRel.lambda_pre _) _)
    | (with_reducible exact Keeps.keeps_abort _)
    | ((with_reducible refine Keeps.keeps_modS ?_); intro _; first
        | exact LambdaRel.of_same _ _ _ rfl (Nat.le_refl _)
        | exact LambdaRel.of_same _ _ _ rfl (Nat.le_succ _)
        | exact LambdaRel.of_same _ _ _ (next_functions _)
            (Nat.le_of_eq (next_name_counter _).symm)
        | exact LambdaRel.of_same _ _ _ (skip_until_functions _ _ _)
            (Nat.le_of_eq (skip_until_name_counter _ _ _).symm)
        | (split <;> exact LambdaRel.of_same _ _ _ rfl (Nat.le_refl _)))
    | (with_reducible exact h.get_expr_top)
    | (with_reducible exact h.get_binary_op _ _)
    | (with_reducible exact h.get_binary_op_loop _ _ _)
    | (with_reducible exact cur_type_lam)
    | (with_reducible exact at_end_lam)
    | (with_reducible exact get_unary_op_lam h _ _ _)
    | (with_reducible apply Keeps.keeps_bind (LambdaRel.lambda_pre _))
    | (with_reducible apply Keeps.keeps_ite)
    | intro _
    | split
    | dsimp only

theorem get_expression_lam {e : Env} {c : Caps} (h : CapsLam e c) :
    Keeps (LambdaRel e) (get_expression e c) := by
  unfold get_expression
  repeat' first
    | (with_reducible exact Keeps.keeps_getS (LambdaRel.lambda_pre _))
    | (with_reducible exact Keeps.keeps_pure (LambdaRel.lambda_pre _) _)
    | (with_reducible exact Keeps.keeps_abort _)
    | ((with_reducible refine Keeps.keeps_modS ?_); intro _; first
        | exact LambdaRel.of_same _ _ _ rfl (Nat.le_refl _)
        | exact LambdaRel.of_same _ _ _ rfl (Nat.le_succ _)
        | exact LambdaRel.of_same _ _ _ (next_functions _)
            (Nat.le_of_eq (next_name_counter _).symm)
        | exact LambdaRel.of_same _ _ _ (skip_until_functions _ _ _)
            (Nat.le_of_eq (skip_until_name_counter _ _ _).symm)
        | (split <;> exact LambdaRel.of_same _ _ _ rfl (Nat.le_refl _)))
    | (with_reducible exact skip_phpdoc_tokens_lam)
    | (with_reducible exact get_expression_impl_lam h _)
    | (with_reducible apply Keeps.keeps_bind (LambdaRel.lambda_pre _))
    | (with_reducible apply Keeps.keeps_ite)
    | intro _
    | split
    | dsimp only

theorem get_def_value_lam {E : Env} {c : Caps} (h : CapsLam E c) :
    Keeps (LambdaRel E) (get_def_value c) := by
  unfold get_def_value
  repeat' first
    | (with_reducible exact Keeps.keeps_getS (LambdaRel.lambda_pre _))
    | (with_reducible exact Keeps.keeps_pure (LambdaRel.lambda_pre _) _)
    | (with_reducible exact Keeps.keeps_abort _)
    | ((with_reducible refine Keeps.keeps_modS ?_); intro _; first
        | exact LambdaRel.of_same _ _ _ rfl (Nat.le_refl _)
        | exact LambdaRel.of_same _ _ _ rfl (Nat.le_succ _)
        | exact LambdaRel.of_same _ _ _ (next_functions _)
            (Nat.le_of_eq (next_name_counter _).symm)
        | exact LambdaRel.of_same _ _ _ (skip_until_functions _ _ _)
            (Nat.le_of_eq (skip_until_name_counter _ _ _).symm)
        | (split <;> exact LambdaRel.of_same _ _ _ rfl (Nat.le_refl _)))
    | (with_reducible exact h.get_expression)
    | (with_reducible exact kphp_error_lam _ _)
    | (with_reducible exact cur_type_lam)
    | (with_reducible exact next_cur_lam)
    | (with_reducible apply Keeps.keeps_bind (LambdaRel.lambda_pre _))
    | (with_reducible apply Keeps.keeps_ite)
    | intro _
    | split
    | dsimp only

theorem get_ptype_lam {e : Env} :
    Keeps (LambdaRel e) (get_ptype e) := by
  unfold get_ptype
  repeat' first
    | (with_reducible exact Keeps.keeps_getS (LambdaRel.lambda_pre _))
    | (with_reducible exact Keeps.keeps_pure (LambdaRel.lambda_pre _) _)
    | (with_reducible exact Keeps.keeps_abort _)
    | ((with_reducible refine Keeps.keeps_modS ?_); intro _; first
        | exact LambdaRel.of_same _ _ _ rfl (Nat.le_refl _)
        | exact LambdaRel.of_same _ _ _ rfl (Nat.le_succ _)
        | exact LambdaRel.of_same _ _ _ (next_functions _)
            (Nat.le_of_eq (next_name_counter _).symm)
        | exact LambdaRel.of_same _ _ _ (skip_until_functions _ _ _)
            (Nat.le_of_eq (skip_until_name_counter _ _ _).symm)
        | (split <;> exact LambdaRel.of_same _ _ _ rfl (Nat.le_refl _)))
    | (with_reducible exact cur_tok_lam)
    | (with_reducible exact next_cur_lam)
    | (with_reducible apply Keeps.keeps_bind (LambdaRel.lambda_pre _))
    | (with_reducible apply Keeps.keeps_ite)
    | intro _
    | split
    | dsimp only

theorem get_func_param_type_help_lam {e : Env} :
    Keeps (LambdaRel e) (get_func_param_type_help e) := by
  unfold get_func_param_type_help
  repeat' first
    | (with_reducible exact Keeps.keeps_getS (LambdaRel.lambda_pre _))
    | (with_reducible exact Keeps.keeps_pure (LambdaRel.lambda_pre _) _)
    | (with_reducible exact Keeps.keeps_abort _)
    | ((with_reducible refine Keeps.keeps_modS ?_); intro _; first
        | exact LambdaRel.of_same _ _ _ rfl (Nat.le_refl _)
        | exact LambdaRel.of_same _ _ _ rfl (Nat.le_succ _)
        | exact LambdaRel.of_same _ _ _ (next_functions _)
            (Nat.le_of_eq (next_name_counter _).symm)
        | exact LambdaRel.of_same _ _ _ (skip_until_functions _ _ _)
            (Nat.le_of_eq (skip_until_name_counter _ _ _).symm)
        | (split <;> exact LambdaRel.of_same _ _ _ rfl (Nat.le_refl _)))
    | (with_reducible exact kphp_assert_lam _ _)
    | (with_reducible exact kphp_error_lam _ _)
    | (with_reducible exact cur_type_lam)
    | (with_reducible exact next_cur_lam)
    | (with_reducible exact get_ptype_lam)
    | (with_reducible apply Keeps.keeps_bind (LambdaRel.lambda_pre _))
    | (with_reducible apply Keeps.keeps_ite)
    | intro _
    | split
    | dsimp only

theorem get_type_rule_func_lam {E : Env} {c : Caps} (h : CapsLam E c) :
    Keeps (LambdaRel E) (get_type_rule_func c) := by
  unfold get_type_rule_func
  repeat' first
    | (with_reducible exact Keeps.keeps_getS (LambdaRel.lambda_pre _))
    | (with_reducible exact Keeps.keeps_pure (LambdaRel.lambda_pre _) _)
    | (with_reducible exact Keeps.keeps_abort _)
    | ((with_reducible refine Keeps.keeps_modS ?_); intro _; first
        | exact LambdaRel.of_same _ _ _ rfl (Nat.le_refl _)
        | exact LambdaRel.of_same _ _ _ rfl (Nat.le_succ _)
        | exact LambdaRel.of_same _ _ _ (next_functions _)
            (Nat.le_of_eq (next_name_counter _).symm)
        | exact LambdaRel.of_same _ _ _ (skip_until_functions _ _ _)
            (Nat.le_of_eq (skip_until_name_counter _ _ _).symm)
        | (split <;> exact LambdaRel.of_same _ _ _ rfl (Nat.le_refl _)))
    | (with_reducible exact kphp_error_lam _ _)
    | (with_reducible exact cur_tok_lam)
    | (with_reducible exact auto_location_lam)
    | (with_reducible exact next_cur_lam)
    | (with_reducible exact expect_lam _ _)
    | (with_reducible exact gen_list_lam h _ _ _ _)
    | (with_reducible apply Keeps.keeps_bind (LambdaRel.lambda_pre _))
    | (with_reducible apply Keeps.keeps_ite)
    | intro _
    | split
    | dsimp only

theorem get_type_rule_lt_loop_lam {E : Env} {c : Caps} (h : CapsLam E c) (allow_comma_sep : Bool) (next : List Vertex) :
    Keeps (LambdaRel E) (get_type_rule_lt_loop c allow_comma_sep next) := by
  unfold get_type_rule_lt_loop
  repeat' first
    | (with_reducible exact Keeps.keeps_getS (LambdaRel.lambda_pre _))
    | (with_reducible exact Keeps.keeps_pure (LambdaRel.lambda_pre _) _)
    | (with_reducible exact Keeps.keeps_abort _)
    | ((with_reducible refine Keeps.keeps_modS ?_); intro _; first
        | exact LambdaRel.of_same _ _ _ rfl (Nat.le_refl _)
        | exact LambdaRel.of_same _ _ _ rfl (Nat.le_succ _)
        | exact LambdaRel.of_same _ _ _ (next_functions _)
            (Nat.le_of_eq (next_name_counter _).symm)
        | exact LambdaRel.of_same _ _ _ (skip_until_functions _ _ _)
            (Nat.le_of_eq (skip_until_name_counter _ _ _).symm)
        | (split <;> exact LambdaRel.of_same _ _ _ rfl (Nat.le_refl _)))
    | (with_reducible exact h.get_type_rule_)
    | (with_reducible exact h.get_type_rule_lt_loop _ _)
    | (with_reducible exact kphp_error_lam _ _)
    | (with_reducible exact next_cur_lam)
    | (with_reducible exact test_expect_lam _)
    | (with_reducible apply Keeps.keeps_bind (LambdaRel.lambda_pre _))
    | (with_reducible apply Keeps.keeps_ite)
    | intro _
    | split
    | dsimp only

theorem get_type_rule_index_loop_lam {E : Env} {c : Caps} (h : CapsLam E c) (res : Vertex) :
    Keeps (LambdaRel E) (get_type_rule_index_loop c res) := by
  unfold get_type_rule_index_loop
  repeat' first
    | (with_reducible exact Keeps.keeps_getS (LambdaRel.lambda_pre _))
    | (with_reducible exact Keeps.keeps_pure (LambdaRel.lambda_pre _) _)
    | (with_reducible exact Keeps.keeps_abort _)
    | ((with_reducible refine Keeps.keeps_modS ?_); intro _; first
        | exact LambdaRel.of_same _ _ _ rfl (Nat.le_refl _)
        | exact LambdaRel.of_same _ _ _ rfl (Nat.le_succ _)
        | exact LambdaRel.of_same _ _ _ (next_functions _)
            (Nat.le_of_eq (next_name_counter _).symm)
        | exact LambdaRel.of_same _ _ _ (skip_until_functions _ _ _)
            (Nat.le_of_eq (skip_until_name_counter _ _ _).symm)
        | (split <;> exact LambdaRel.of_same _ _ _ rfl (Nat.le_refl _)))
    | (with_reducible exact h.get_type_rule_index_loop _)
    | (with_reducible exact auto_location_lam)
    | (with_reducible exact next_cur_lam)
    | (with_reducible exact test_expect_lam _)
    | (with_reducible exact expect_lam _ _)
    | (with_reducible apply Keeps.keeps_bind (LambdaRel.lambda_pre _))
    | (with_reducible apply Keeps.keeps_ite)
    | intro _
    | split
    | dsimp only

theorem get_type_rule__lam {e : Env} {c : Caps} (h : CapsLam e c) :
    Keeps (LambdaRel e) (get_type_rule_ e c) := by
  unfold get_type_rule_
  repeat' first
    | (with_reducible exact Keeps.keeps_getS (LambdaRel.lambda_pre _))
    | (with_reducible exact Keeps.keeps_pure (LambdaRel.lambda_pre _) _)
    | (with_reducible exact Keeps.keeps_abort _)
    | ((with_reducible refine Keeps.keeps_modS ?_); intro _; first
        | exact LambdaRel.of_same _ _ _ rfl (Nat.le_refl _)
        | exact LambdaRel.of_same _ _ _ rfl (Nat.le_succ _)
        | exact LambdaRel.of_same _ _ _ (next_functions _)
            (Nat.le_of_eq (next_name_counter _).symm)
        | exact LambdaRel.of_same _ _ _ (skip_until_functions _ _ _)
            (Nat.le_of_eq (skip_until_name_counter _ _ _).symm)
        | (split <;> exact LambdaRel.of_same _ _ _ rfl (Nat.le_refl _)))
    | (with_reducible exact h.get_type_rule_)
    | (with_reducible exact h.get_type_rule_lt_loop _ _)
    | (with_reducible exact h.get_type_rule_index_loop _)
    | (with_reducible exact kphp_error_lam _ _)
    | (with_reducible exact cur_tok_lam)
    | (with_reducible exact auto_location_lam)
    | (with_reducible exact next_cur_lam)
    | (with_reducible exact test_expect_lam _)
    | (with_reducible exact expect_lam _ _)
    | (with_reducible exact get_ptype_lam)
    | (with_reducible exact get_type_rule_func_lam h)
    | (with_reducible apply Keeps.keeps_bind (LambdaRel.lambda_pre _))
    | (with_reducible apply Keeps.keeps_ite)
    | intro _
    | split
    | dsimp only

theorem get_type_rule_lam {e : Env} {c : Caps} (h : CapsLam e c) :
    Keeps (LambdaRel e) (get_type_rule e c) := by
  unfold get_type_rule
  repeat' first
    | (with_reducible exact Keeps.keeps_getS (LambdaRel.lambda_pre _))
    | (with_reducible exact Keeps.keeps_pure (LambdaRel.lambda_pre _) _)
    | (with_reducible exact Keeps.keeps_abort _)
    | ((with_reducible refine Keeps.keeps_modS ?_); intro _; first
        | exact LambdaRel.of_same _ _ _ rfl (Nat.le_refl _)
        | exact LambdaRel.of_same _ _ _ rfl (Nat.le_succ _)
        | exact LambdaRel.of_same _ _ _ (next_functions _)
            (Nat.le_of_eq (next_name_counter _).symm)
        | exact LambdaRel.of_same _ _ _ (skip_until_functions _ _ _)
            (Nat.le_of_eq (skip_until_name_counter _ _ _).symm)
        | (split <;> exact LambdaRel.of_same _ _ _ rfl (Nat.le_refl _)))
    | (with_reducible exact h.get_type_rule_)
    | (with_reducible exact kphp_error_lam _ _)
    | (with_reducible exact cur_type_lam)
    | (with_reducible exact auto_location_lam)
    | (with_reducible exact next_cur_lam)
    | (with_reducible apply Keeps.keeps_bind (LambdaRel.lambda_pre _))
    | (with_reducible apply Keeps.keeps_ite)
    | intro _
    | split
    | dsimp only

theorem get_func_param_without_callbacks_lam {e : Env} {c : Caps} (h : CapsLam e c) (from_callback : Bool) :
    Keeps (LambdaRel e) (get_func_param_without_callbacks e c from_callback) := by
  unfold get_func_param_without_callbacks
  repeat' first
    | (with_reducible exact Keeps.keeps_getS (LambdaRel.lambda_pre _))
    | (with_reducible exact Keeps.keeps_pure (LambdaRel.lambda_pre _) _)
    | (with_reducible exact Keeps.keeps_abort _)
    | ((with_reducible refine Keeps.keeps_modS ?_); intro _; first
        | exact LambdaRel.of_same _ _ _ rfl (Nat.le_refl _)
        | exact LambdaRel.of_same _ _ _ rfl (Nat.le_succ _)
        | exact LambdaRel.of_same _ _ _ (next_functions _)
            (Nat.le_of_eq (next_name_counter _).symm)
        | exact LambdaRel.of_same _ _ _ (skip_until_functions _ _ _)
            (Nat.le_of_eq (skip_until_name_counter _ _ _).symm)
        | (split <;> exact LambdaRel.of_same _ _ _ rfl (Nat.le_refl _)))
    | (with_reducible exact cur_tok_lam)
    | (with_reducible exact cur_type_lam)
    | (with_reducible exact auto_location_lam)
    | (with_reducible exact next_cur_lam)
    | (with_reducible exact get_var_name_ref_lam)
    | (with_reducible exact get_def_value_lam h)
    | (with_reducible exact get_func_param_type_help_lam)
    | (with_reducible exact get_type_rule_lam h)
    | (with_reducible apply Keeps.keeps_bind (LambdaRel.lambda_pre _))
    | (with_reducible apply Keeps.keeps_ite)
    | intro _
    | split
    | dsimp only

theorem get_func_param_from_callback_lam {e : Env} {c : Caps} (h : CapsLam e c) :
    Keeps (LambdaRel e) (get_func_param_from_callback e c) := by
  unfold get_func_param_from_callback
  repeat' first
    | (with_reducible exact Keeps.keeps_getS (LambdaRel.lambda_pre _))
    | (with_reducible exact Keeps.keeps_pure (LambdaRel.lambda_pre _) _)
    | (with_reducible exact Keeps.keeps_abort _)
    | ((with_reducible refine Keeps.keeps_modS ?_); intro _; first
        | exact LambdaRel.of_same _ _ _ rfl (Nat.le_refl _)
        | exact LambdaRel.of_same _ _ _ rfl (Nat.le_succ _)
        | exact LambdaRel.of_same _ _ _ (next_functions _)
            (Nat.le_of_eq (next_name_counter _).symm)
        | exact LambdaRel.of_same _ _ _ (skip_until_functions _ _ _)
            (Nat.le_of_eq (skip_until_name_counter _ _ _).symm)
        | (split <;> exact LambdaRel.of_same _ _ _ rfl (Nat.le_refl _)))
    | (with_reducible exact get_func_param_without_callbacks_lam h _)
    | (with_reducible apply Keeps.keeps_bind (LambdaRel.lambda_pre _))
    | (with_reducible apply Keeps.keeps_ite)
    | intro _
    | split
    | dsimp only

theorem get_func_param_lam {e : Env} {c : Caps} (h : CapsLam e c) :
    Keeps (LambdaRel e) (get_func_param e c) := by
  unfold get_func_param
  repeat' first
    | (with_reducible exact Keeps.keeps_getS (LambdaRel.lambda_pre _))
    | (with_reducible exact Keeps.keeps_pure (LambdaRel.lambda_pre _) _)
    | (with_reducible exact Keeps.keeps_abort _)
    | ((with_reducible refine Keeps.keeps_modS ?_); intro _; first
        | exact LambdaRel.of_same _ _ _ rfl (Nat.le_refl _)
        | exact LambdaRel.of_same _ _ _ rfl (Nat.le_succ _)
        | exact LambdaRel.of_same _ _ _ (next_functions _)
            (Nat.le_of_eq (next_name_counter _).symm)
        | exact LambdaRel.of_same _ _ _ (skip_until_functions _ _ _)
            (Nat.le_of_eq (skip_until_name_counter _ _ _).symm)
        | (split <;> exact LambdaRel.of_same _ _ _ rfl (Nat.le_refl _)))
    | (with_reducible exact kphp_assert_lam _ _)
    | (with_reducible exact kphp_error_lam _ _)
    | (with_reducible exact auto_location_lam)
    | (with_reducible exact next_cur_lam)
    | (with_reducible exact expect_lam _ _)
    | (with_reducible exact gen_list_lam h _ _ _ _)
    | (with_reducible exact get_string_lam)
    | (with_reducible exact get_def_value_lam h)
    | (with_reducible exact get_type_rule_lam h)
    | (with_reducible exact get_func_param_without_callbacks_lam h _)
    | (with_reducible apply Keeps.keeps_bind (LambdaRel.lambda_pre _))
    | (with_reducible apply Keeps.keeps_ite)
    | intro _
    | split
    | dsimp only

theorem get_foreach_param_lam {E : Env} {c : Caps} (h : CapsLam E c) :
    Keeps (LambdaRel E) (get_foreach_param c) := by
  unfold get_foreach_param
  repeat' first
    | (with_reducible exact Keeps.keeps_getS (LambdaRel.lambda_pre _))
    | (with_reducible exact Keeps.keeps_pure (LambdaRel.lambda_pre _) _)
    | (with_reducible exact Keeps.keeps_abort _)
    | ((with_reducible refine Keeps.keeps_modS ?_); intro _; first
        | exact LambdaRel.of_same _ _ _ rfl (Nat.le_refl _)
        | exact LambdaRel.of_same _ _ _ rfl (Nat.le_succ _)
        | exact LambdaRel.of_same _ _ _ (next_functions _)
            (Nat.le_of_eq (next_name_counter _).symm)
        | exact LambdaRel.of_same _ _ _ (skip_until_functions _ _ _)
            (Nat.le_of_eq (skip_until_name_counter _ _ _).symm)
        | (split <;> exact LambdaRel.of_same _ _ _ rfl (Nat.le_refl _)))
    | (with_reducible exact h.get_expression)
    | (with_reducible exact kphp_error_lam _ _)
    | (with_reducible exact cur_type_lam)
    | (with_reducible exact auto_location_lam)
    | (with_reducible exact next_cur_lam)
    | (with_reducible exact expect_lam _ _)
    | (with_reducible exact get_var_name_ref_lam)
    | (with_reducible exact skip_phpdoc_tokens_lam)
    | (with_reducible apply Keeps.keeps_bind (LambdaRel.lambda_pre _))
    | (with_reducible apply Keeps.keeps_ite)
    | intro _
    | split
    | dsimp only

theorem func_force_return_lam {E : Env} (root : Vertex) (val : Option Vertex) :
    Keeps (LambdaRel E) (func_force_return root val) := by
  unfold func_force_return
  repeat' first
    | (with_reducible exact Keeps.keeps_getS (LambdaRel.lambda_pre _))
    | (with_reducible exact Keeps.keeps_pure (LambdaRel.lambda_pre _) _)
    | (with_reducible exact Keeps.keeps_abort _)
    | ((with_reducible refine Keeps.keeps_modS ?_); intro _; first
        | exact LambdaRel.of_same _ _ _ rfl (Nat.le_refl _)
        | exact LambdaRel.of_same _ _ _ rfl (Nat.le_succ _)
        | exact LambdaRel.of_same _ _ _ (next_functions _)
            (Nat.le_of_eq (next_name_counter _).symm)
        | exact LambdaRel.of_same _ _ _ (skip_until_functions _ _ _)
            (Nat.le_of_eq (skip_until_name_counter _ _ _).symm)
        | (split <;> exact LambdaRel.of_same _ _ _ rfl (Nat.le_refl _)))
    | (with_reducible apply Keeps.keeps_bind (LambdaRel.lambda_pre _))
    | (with_reducible apply Keeps.keeps_ite)
    | intro _
    | split
    | dsimp only

theorem create_vertex_this_lam {E : Env} (line : Int) (cur_class : Option Nat) (with_type_rule : Bool) :
    Keeps (LambdaRel E) (create_vertex_this line cur_class with_type_rule) := by
  unfold create_vertex_this
  repeat' first
    | (with_reducible exact Keeps.keeps_getS (LambdaRel.lambda_pre _))
    | (with_reducible exact Keeps.keeps_pure (LambdaRel.lambda_pre _) _)
    | (with_reducible exact Keeps.keeps_abort _)
    | ((with_reducible refine Keeps.keeps_modS ?_); intro _; first
        | exact LambdaRel.of_same _ _ _ rfl (Nat.le_refl _)
        | exact LambdaRel.of_same _ _ _ rfl (Nat.le_succ _)
        | exact LambdaRel.of_same _ _ _ (next_functions _)
            (Nat.le_of_eq (next_name_counter _).symm)
        | exact LambdaRel.of_same _ _ _ (skip_until_functions _ _ _)
            (Nat.le_of_eq (skip_until_name_counter _ _ _).symm)
        | (split <;> exact LambdaRel.of_same _ _ _ rfl (Nat.le_refl _)))
    | (with_reducible exact kphp_assert_lam _ _)
    | (with_reducible apply Keeps.keeps_bind (LambdaRel.lambda_pre _))
    | (with_reducible apply Keeps.keeps_ite)
    | intro _
    | split
    | dsimp only

theorem patch_func_constructor_lam {E : Env} (func : Vertex) (cur_class : Option Nat) (location : Int) :
    Keeps (LambdaRel E) (patch_func_constructor func cur_class location) := by
  unfold patch_func_constructor
  repeat' first
    | (with_reducible exact Keeps.keeps_getS (LambdaRel.lambda_pre _))
    | (with_reducible exact Keeps.keeps_pure (LambdaRel.lambda_pre _) _)
    | (with_reducible exact Keeps.keeps_abort _)
    | ((with_reducible refine Keeps.keeps_modS ?_); intro _; first
        | exact LambdaRel.of_same _ _ _ rfl (Nat.le_refl _)
        | exact LambdaRel.of_same _ _ _ rfl (Nat.le_succ _)
        | exact LambdaRel.of_same _ _ _ (next_functions _)
            (Nat.le_of_eq (next_name_counter _).symm)
        | exact LambdaRel.of_same _ _ _ (skip_until_functions _ _ _)
            (Nat.le_of_eq (skip_until_name_counter _ _ _).symm)
        | (split <;> exact LambdaRel.of_same _ _ _ rfl (Nat.le_refl _)))
    | (with_reducible exact deref_lam _ _)
    | (with_reducible exact create_vertex_this_lam _ _ _)
    | (with_reducible apply Keeps.keeps_bind (LambdaRel.lambda_pre _))
    | (with_reducible apply Keeps.keeps_ite)
    | intro _
    | split
    | dsimp only

theorem patch_func_add_this_lam {E : Env} (func_location : Int) (cur_class : Option Nat) :
    Keeps (LambdaRel E) (patch_func_add_this func_location cur_class) := by
  unfold patch_func_add_this
  repeat' first
    | (with_reducible exact Keeps.keeps_getS (LambdaRel.lambda_pre _))
    | (with_reducible exact Keeps.keeps_pure (LambdaRel.lambda_pre _) _)
    | (with_reducible exact Keeps.keeps_abort _)
    | ((with_reducible refine Keeps.keeps_modS ?_); intro _; first
        | exact LambdaRel.of_same _ _ _ rfl (Nat.le_refl _)
        | exact LambdaRel.of_same _ _ _ rfl (Nat.le_succ _)
        | exact LambdaRel.of_same _ _ _ (next_functions _)
            (Nat.le_of_eq (next_name_counter _).symm)
        | exact LambdaRel.of_same _ _ _ (skip_until_functions _ _ _)
            (Nat.le_of_eq (skip_until_name_counter _ _ _).symm)
        | (split <;> exact LambdaRel.of_same _ _ _ rfl (Nat.le_refl _)))
    | (with_reducible exact create_vertex_this_lam _ _ _)
    | (with_reducible apply Keeps.keeps_bind (LambdaRel.lambda_pre _))
    | (with_reducible apply Keeps.keeps_ite)
    | intro _
    | split
    | dsimp only

theorem create_constructor_with_args_lam {E : Env} (cur_class : Nat) (location : Int) (params : Vertex) :
    Keeps (LambdaRel E) (create_constructor_with_args cur_class location params) := by
  unfold create_constructor_with_args
  repeat' first
    | (with_reducible exact Keeps.keeps_getS (LambdaRel.lambda_pre _))
    | (with_reducible exact Keeps.keeps_pure (LambdaRel.lambda_pre _) _)
    | (with_reducible exact Keeps.keeps_abort _)
    | ((with_reducible refine Keeps.keeps_modS ?_); intro _; first
        | exact LambdaRel.of_same _ _ _ rfl (Nat.le_refl _)
        | exact LambdaRel.of_same _ _ _ rfl (Nat.le_succ _)
        | exact LambdaRel.of_same _ _ _ (next_functions _)
            (Nat.le_of_eq (next_name_counter _).symm)
        | exact LambdaRel.of_same _ _ _ (skip_until_functions _ _ _)
            (Nat.le_of_eq (skip_until_name_counter _ _ _).symm)
        | (split <;> exact LambdaRel.of_same _ _ _ rfl (Nat.le_refl _)))
    | (with_reducible exact create_function_lam _ _)
    | (with_reducible exact add_instance_method_lam _ _ _)
    | (with_reducible exact register_and_require_function_lam _ _)
    | (with_reducible exact patch_func_constructor_lam _ _ _)
    | (with_reducible apply Keeps.keeps_bind (LambdaRel.lambda_pre _))
    | (with_reducible apply Keeps.keeps_ite)
    | intro _
    | split
    | dsimp only

theorem create_default_constructor_lam {E : Env} (cur_class : Nat) (location : Int) :
    Keeps (LambdaRel E) (create_default_constructor cur_class location) := by
  unfold create_default_constructor
  repeat' first
    | (with_reducible exact Keeps.keeps_getS (LambdaRel.lambda_pre _))
    | (with_reducible exact Keeps.keeps_pure (LambdaRel.lambda_pre _) _)
    | (with_reducible exact Keeps.keeps_abort _)
    | ((with_reducible refine Keeps.keeps_modS ?_); intro _; first
        | exact LambdaRel.of_same _ _ _ rfl (Nat.le_refl _)
        | exact LambdaRel.of_same _ _ _ rfl (Nat.le_succ _)
        | exact LambdaRel.of_same _ _ _ (next_functions _)
            (Nat.le_of_eq (next_name_counter _).symm)
        | exact LambdaRel.of_same _ _ _ (skip_until_functions _ _ _)
            (Nat.le_of_eq (skip_until_name_counter _ _ _).symm)
        | (split <;> exact LambdaRel.of_same _ _ _ rfl (Nat.le_refl _)))
    | (with_reducible exact create_constructor_with_args_lam _ _ _)
    | (with_reducible apply Keeps.keeps_bind (LambdaRel.lambda_pre _))
    | (with_reducible apply Keeps.keeps_ite)
    | intro _
    | split
    | dsimp only

theorem get_multi_call_lam {E : Env} {c : Caps} (h : CapsLam E c) (Op : Operation) (f : GetFunc) :
    Keeps (LambdaRel E) (get_multi_call c Op f) := by
  unfold get_multi_call
  repeat' first
    | (with_reducible exact Keeps.keeps_getS (LambdaRel.lambda_pre _))
    | (with_reducible exact Keeps.keeps_pure (LambdaRel.lambda_pre _) _)
    | (with_reducible exact Keeps.keeps_abort _)
    | ((with_reducible refine Keeps.keeps_modS ?_); intro _; first
        | exact LambdaRel.of_same _ _ _ rfl (Nat.le_refl _)
        | exact LambdaRel.of_same _ _ _ rfl (Nat.le_succ _)
        | exact LambdaRel.of_same _ _ _ (next_functions _)
            (Nat.le_of_eq (next_name_counter _).symm)
        | exact LambdaRel.of_same _ _ _ (skip_until_functions _ _ _)
            (Nat.le_of_eq (skip_until_name_counter _ _ _).symm)
        | (split <;> exact LambdaRel.of_same _ _ _ rfl (Nat.le_refl _)))
    | (with_reducible exact kphp_error_lam _ _)
    | (with_reducible exact cur_type_lam)
    | (with_reducible exact auto_location_lam)
    | (with_reducible exact next_cur_lam)
    | (with_reducible exact gen_list_lam h _ _ _ _)
    | (with_reducible apply Keeps.keeps_bind (LambdaRel.lambda_pre _))
    | (with_reducible apply Keeps.keeps_ite)
    | intro _
    | split
    | dsimp only

theorem get_return_lam {E : Env} {c : Caps} (h : CapsLam E c) :
    Keeps (LambdaRel E) (get_return c) := by
  unfold get_return
  repeat' first
    | (with_reducible exact Keeps.keeps_getS (LambdaRel.lambda_pre _))
    | (with_reducible exact Keeps.keeps_pure (LambdaRel.lambda_pre _) _)
    | (with_reducible exact Keeps.keeps_abort _)
    | ((with_reducible refine Keeps.keeps_modS ?_); intro _; first
        | exact LambdaRel.of_same _ _ _ rfl (Nat.le_refl _)
        | exact LambdaRel.of_same _ _ _ rfl (Nat.le_succ _)
        | exact LambdaRel.of_same _ _ _ (next_functions _)
            (Nat.le_of_eq (next_name_counter _).symm)
        | exact LambdaRel.of_same _ _ _ (skip_until_functions _ _ _)
            (Nat.le_of_eq (skip_until_name_counter _ _ _).symm)
        | (split <;> exact LambdaRel.of_same _ _ _ rfl (Nat.le_refl _)))
    | (with_reducible exact h.get_expression)
    | (with_reducible exact auto_location_lam)
    | (with_reducible exact next_cur_lam)
    | (with_reducible exact expect_lam _ _)
    | (with_reducible exact skip_phpdoc_tokens_lam)
    | (with_reducible apply Keeps.keeps_bind (LambdaRel.lambda_pre _))
    | (with_reducible apply Keeps.keeps_ite)
    | intro _
    | split
    | dsimp only

theorem get_break_continue_lam {E : Env} {c : Caps} (h : CapsLam E c) (Op : Operation) :
    Keeps (LambdaRel E) (get_break_continue c Op) := by
  unfold get_break_continue
  repeat' first
    | (with_reducible exact Keeps.keeps_getS (LambdaRel.lambda_pre _))
    | (with_reducible exact Keeps.keeps_pure (LambdaRel.lambda_pre _) _)
    | (with_reducible exact Keeps.keeps_abort _)
    | ((with_reducible refine Keeps.keeps_modS ?_); intro _; first
        | exact LambdaRel.of_same _ _ _ rfl (Nat.le_refl _)
        | exact LambdaRel.of_same _ _ _ rfl (Nat.le_succ _)
        | exact LambdaRel.of_same _ _ _ (next_functions _)
            (Nat.le_of_eq (next_name_counter _).symm)
        | exact LambdaRel.of_same _ _ _ (skip_until_functions _ _ _)
            (Nat.le_of_eq (skip_until_name_counter _ _ _).symm)
        | (split <;> exact LambdaRel.of_same _ _ _ rfl (Nat.le_refl _)))
    | (with_reducible exact h.get_expression)
    | (with_reducible exact auto_location_lam)
    | (with_reducible exact next_cur_lam)
    | (with_reducible exact expect_lam _ _)
    | (with_reducible apply Keeps.keeps_bind (LambdaRel.lambda_pre _))
    | (with_reducible apply Keeps.keeps_ite)
    | intro _
    | split
    | dsimp only

theorem get_foreach_lam {E : Env} {c : Caps} (h : CapsLam E c) :
    Keeps (LambdaRel E) (get_foreach c) := by
  unfold get_foreach
  repeat' first
    | (with_reducible exact Keeps.keeps_getS (LambdaRel.lambda_pre _))
    | (with_reducible exact Keeps.keeps_pure (LambdaRel.lambda_pre _) _)
    | (with_reducible exact Keeps.keeps_abort _)
    | ((with_reducible refine Keeps.keeps_modS ?_); intro _; first
        | exact LambdaRel.of_same _ _ _ rfl (Nat.le_refl _)
        | exact LambdaRel.of_same _ _ _ rfl (Nat.le_succ _)
        | exact LambdaRel.of_same _ _ _ (next_functions _)
            (Nat.le_of_eq (next_name_counter _).symm)
        | exact LambdaRel.of_same _ _ _ (skip_until_functions _ _ _)
            (Nat.le_of_eq (skip_until_name_counter _ _ _).symm)
        | (split <;> exact LambdaRel.of_same _ _ _ rfl (Nat.le_refl _)))
    | (with_reducible exact h.get_statement _)
    | (with_reducible exact kphp_error_lam _ _)
    | (with_reducible exact auto_location_lam)
    | (with_reducible exact next_cur_lam)
    | (with_reducible exact expect_lam _ _)
    | (with_reducible exact skip_phpdoc_tokens_lam)
    | (with_reducible exact get_foreach_param_lam h)
    | (with_reducible apply Keeps.keeps_bind (LambdaRel.lambda_pre _))
    | (with_reducible apply Keeps.keeps_ite)
    | intro _
    | split
    | dsimp only

theorem get_while_lam {E : Env} {c : Caps} (h : CapsLam E c) :
    Keeps (LambdaRel E) (get_while c) := by
  unfold get_while
  repeat' first
    | (with_reducible exact Keeps.keeps_getS (LambdaRel.lambda_pre _))
    | (with_reducible exact Keeps.keeps_pure (LambdaRel.lambda_pre _) _)
    | (with_reducible exact Keeps.keeps_abort _)
    | ((with_reducible refine Keeps.keeps_modS ?_); intro _; first
        | exact LambdaRel.of_same _ _ _ rfl (Nat.le_refl _)
        | exact LambdaRel.of_same _ _ _ rfl (Nat.le_succ _)
        | exact LambdaRel.of_same _ _ _ (next_functions _)
            (Nat.le_of_eq (next_name_counter _).symm)
        | exact LambdaRel.of_same _ _ _ (skip_until_functions _ _ _)
            (Nat.le_of_eq (skip_until_name_counter _ _ _).symm)
        | (split <;> exact LambdaRel.of_same _ _ _ rfl (Nat.le_refl _)))
    | (with_reducible exact h.get_expression)
    | (with_reducible exact h.get_statement _)
    | (with_reducible exact kphp_error_lam _ _)
    | (with_reducible exact auto_location_lam)
    | (with_reducible exact next_cur_lam)
    | (with_reducible exact expect_lam _ _)
    | (with_reducible exact skip_phpdoc_tokens_lam)
    | (with_reducible apply Keeps.keeps_bind (LambdaRel.lambda_pre _))
    | (with_reducible apply Keeps.keeps_ite)
    | intro _
    | split
    | dsimp only

theorem get_if_lam {E : Env} {c : Caps} (h : CapsLam E c) :
    Keeps (LambdaRel E) (get_if c) := by
  unfold get_if
  repeat' first
    | (with_reducible exact Keeps.keeps_getS (LambdaRel.lambda_pre _))
    | (with_reducible exact Keeps.keeps_pure (LambdaRel.lambda_pre _) _)
    | (with_reducible exact Keeps.keeps_abort _)
    | ((with_reducible refine Keeps.keeps_modS ?_); intro _; first
        | exact LambdaRel.of_same _ _ _ rfl (Nat.le_refl _)
        | exact LambdaRel.of_same _ _ _ rfl (Nat.le_succ _)
        | exact LambdaRel.of_same _ _ _ (next_functions _)
            (Nat.le_of_eq (next_name_counter _).symm)
        | exact LambdaRel.of_same _ _ _ (skip_until_functions _ _ _)
            (Nat.le_of_eq (skip_until_name_counter _ _ _).symm)
        | (split <;> exact LambdaRel.of_same _ _ _ rfl (Nat.le_refl _)))
    | (with_reducible exact h.get_expression)
    | (with_reducible exact h.get_statement _)
    | (with_reducible exact kphp_error_lam _ _)
    | (with_reducible exact cur_type_lam)
    | (with_reducible exact auto_location_lam)
    | (with_reducible exact next_cur_lam)
    | (with_reducible exact expect_lam _ _)
    | (with_reducible exact skip_phpdoc_tokens_lam)
    | (with_reducible apply Keeps.keeps_bind (LambdaRel.lambda_pre _))
    | (with_reducible apply Keeps.keeps_ite)
    | intro _
    | split
    | dsimp only

theorem get_for_lam {E : Env} {c : Caps} (h : CapsLam E c) :
    Keeps (LambdaRel E) (get_for c) := by
  unfold get_for
  repeat' first
    | (with_reducible exact Keeps.keeps_getS (LambdaRel.lambda_pre _))
    | (with_reducible exact Keeps.keeps_pure (LambdaRel.lambda_pre _) _)
    | (with_reducible exact Keeps.keeps_abort _)
    | ((with_reducible refine Keeps.keeps_modS ?_); intro _; first
        | exact LambdaRel.of_same _ _ _ rfl (Nat.le_refl _)
        | exact LambdaRel.of_same _ _ _ rfl (Nat.le_succ _)
        | exact LambdaRel.of_same _ _ _ (next_functions _)
            (Nat.le_of_eq (next_name_counter _).symm)
        | exact LambdaRel.of_same _ _ _ (skip_until_functions _ _ _)
            (Nat.le_of_eq (skip_until_name_counter _ _ _).symm)
        | (split <;> exact LambdaRel.of_same _ _ _ rfl (Nat.le_refl _)))
    | (with_reducible exact h.get_statement _)
    | (with_reducible exact kphp_error_lam _ _)
    | (with_reducible exact auto_location_lam)
    | (with_reducible exact next_cur_lam)
    | (with_reducible exact expect_lam _ _)
    | (with_reducible exact skip_phpdoc_tokens_lam)
    | (with_reducible exact gen_list_lam h _ _ _ _)
    | (with_reducible apply Keeps.keeps_bind (LambdaRel.lambda_pre _))
    | (with_reducible apply Keeps.keeps_ite)
    | intro _
    | split
    | dsimp only

theorem get_do_lam {E : Env} {c : Caps} (h : CapsLam E c) :
    Keeps (LambdaRel E) (get_do c) := by
  unfold get_do
  repeat' first
    | (with_reducible exact Keeps.keeps_getS (LambdaRel.lambda_pre _))
    | (with_reducible exact Keeps.keeps_pure (LambdaRel.lambda_pre _) _)
    | (with_reducible exact Keeps.keeps_abort _)
    | ((with_reducible refine Keeps.keeps_modS ?_); intro _; first
        | exact LambdaRel.of_same _ _ _ rfl (Nat.le_refl _)
        | exact LambdaRel.of_same _ _ _ rfl (Nat.le_succ _)
        | exact LambdaRel.of_same _ _ _ (next_functions _)
            (Nat.le_of_eq (next_name_counter _).symm)
        | exact LambdaRel.of_same _ _ _ (skip_until_functions _ _ _)
            (Nat.le_of_eq (skip_until_name_counter _ _ _).symm)
        | (split <;> exact LambdaRel.of_same _ _ _ rfl (Nat.le_refl _)))
    | (with_reducible exact h.get_expression)
    | (with_reducible exact h.get_statement _)
    | (with_reducible exact kphp_error_lam _ _)
    | (with_reducible exact auto_location_lam)
    | (with_reducible exact next_cur_lam)
    | (with_reducible exact expect_lam _ _)
    | (with_reducible exact skip_phpdoc_tokens_lam)
    | (with_reducible apply Keeps.keeps_bind (LambdaRel.lambda_pre _))
    | (with_reducible apply Keeps.keeps_ite)
    | intro _
    | split
    | dsimp only

theorem get_switch_seq_loop_lam {E : Env} {c : Caps} (h : CapsLam E c) (seq_next : List Vertex) :
    Keeps (LambdaRel E) (get_switch_seq_loop c seq_next) := by
  unfold get_switch_seq_loop
  repeat' first
    | (with_reducible exact Keeps.keeps_getS (LambdaRel.lambda_pre _))
    | (with_reducible exact Keeps.keeps_pure (LambdaRel.lambda_pre _) _)
    | (with_reducible exact Keeps.keeps_abort _)
    | ((with_reducible refine Keeps.keeps_modS ?_); intro _; first
        | exact LambdaRel.of_same _ _ _ rfl (Nat.le_refl _)
        | exact LambdaRel.of_same _ _ _ rfl (Nat.le_succ _)
        | exact LambdaRel.of_same _ _ _ (next_functions _)
            (Nat.le_of_eq (next_name_counter _).symm)
        | exact LambdaRel.of_same _ _ _ (skip_until_functions _ _ _)
            (Nat.le_of_eq (skip_until_name_counter _ _ _).symm)
        | (split <;> exact LambdaRel.of_same _ _ _ rfl (Nat.le_refl _)))
    | (with_reducible exact h.get_switch_seq_loop _)
    | (with_reducible exact h.get_statement _)
    | (with_reducible exact cur_type_lam)
    | (with_reducible exact at_end_lam)
    | (with_reducible apply Keeps.keeps_bind (LambdaRel.lambda_pre _))
    | (with_reducible apply Keeps.keeps_ite)
    | intro _
    | split
    | dsimp only

theorem get_switch_loop_lam {E : Env} {c : Caps} (h : CapsLam E c) (switch_next : List Vertex) :
    Keeps (LambdaRel E) (get_switch_loop c switch_next) := by
  unfold get_switch_loop
  repeat' first
    | (with_reducible exact Keeps.keeps_getS (LambdaRel.lambda_pre _))
    | (with_reducible exact Keeps.keeps_pure (LambdaRel.lambda_pre _) _)
    | (with_reducible exact Keeps.keeps_abort _)
    | ((with_reducible refine Keeps.keeps_modS ?_); intro _; first
        | exact LambdaRel.of_same _ _ _ rfl (Nat.le_refl _)
        | exact LambdaRel.of_same _ _ _ rfl (Nat.le_succ _)
        | exact LambdaRel.of_same _ _ _ (next_functions _)
            (Nat.le_of_eq (next_name_counter _).symm)
        | exact LambdaRel.of_same _ _ _ (skip_until_functions _ _ _)
            (Nat.le_of_eq (skip_until_name_counter _ _ _).symm)
        | (split <;> exact LambdaRel.of_same _ _ _ rfl (Nat.le_refl _)))
    | (with_reducible exact h.get_expression)
    | (with_reducible exact h.get_switch_loop _)
    | (with_reducible exact h.get_switch_seq_loop _)
    | (with_reducible exact kphp_error_lam _ _)
    | (with_reducible exact cur_type_lam)
    | (with_reducible exact auto_location_lam)
    | (with_reducible exact next_cur_lam)
    | (with_reducible exact expect2_lam _ _ _)
    | (with_reducible exact skip_phpdoc_tokens_lam)
    | (with_reducible apply Keeps.keeps_bind (LambdaRel.lambda_pre _))
    | (with_reducible apply Keeps.keeps_ite)
    | intro _
    | split
    | dsimp only

theorem get_switch_lam {E : Env} {c : Caps} (h : CapsLam E c) :
    Keeps (LambdaRel E) (get_switch c) := by
  unfold get_switch
  repeat' first
    | (with_reducible exact Keeps.keeps_getS (LambdaRel.lambda_pre _))
    | (with_reducible exact Keeps.keeps_pure (LambdaRel.lambda_pre _) _)
    | (with_reducible exact Keeps.keeps_abort _)
    | ((with_reducible refine Keeps.keeps_modS ?_); intro _; first
        | exact LambdaRel.of_same _ _ _ rfl (Nat.le_refl _)
        | exact LambdaRel.of_same _ _ _ rfl (Nat.le_succ _)
        | exact LambdaRel.of_same _ _ _ (next_functions _)
            (Nat.le_of_eq (next_name_counter _).symm)
        | exact LambdaRel.of_same _ _ _ (skip_until_functions _ _ _)
            (Nat.le_of_eq (skip_until_name_counter _ _ _).symm)
        | (split <;> exact LambdaRel.of_same _ _ _ rfl (Nat.le_refl _)))
    | (with_reducible exact h.get_expression)
    | (with_reducible exact h.get_switch_loop _)
    | (with_reducible exact kphp_error_lam _ _)
    | (with_reducible exact auto_location_lam)
    | (with_reducible exact next_cur_lam)
    | (with_reducible exact expect_lam _ _)
    | (with_reducible exact skip_phpdoc_tokens_lam)
    | (with_reducible apply Keeps.keeps_bind (LambdaRel.lambda_pre _))
    | (with_reducible apply Keeps.keeps_ite)
    | intro _
    | split
    | dsimp only

theorem parse_function_specifiers_lam {E : Env} {c : Caps} (h : CapsLam E c) (flags : Vertex) :
    Keeps (LambdaRel E) (parse_function_specifiers c flags) := by
  unfold parse_function_specifiers
  repeat' first
    | (with_reducible exact Keeps.keeps_getS (LambdaRel.lambda_pre _))
    | (with_reducible exact Keeps.keeps_pure (LambdaRel.lambda_pre _) _)
    | (with_reducible exact Keeps.keeps_abort _)
    | ((with_reducible refine Keeps.keeps_modS ?_); intro _; first
        | exact LambdaRel.of_same _ _ _ rfl (Nat.le_refl _)
        | exact LambdaRel.of_same _ _ _ rfl (Nat.le_succ _)
        | exact LambdaRel.of_same _ _ _ (next_functions _)
            (Nat.le_of_eq (next_name_counter _).symm)
        | exact LambdaRel.of_same _ _ _ (skip_until_functions _ _ _)
            (Nat.le_of_eq (skip_until_name_counter _ _ _).symm)
        | (split <;> exact LambdaRel.of_same _ _ _ rfl (Nat.le_refl _)))
    | (with_reducible exact h.parse_function_specifiers _)
    | (with_reducible exact cur_type_lam)
    | (with_reducible exact expect_lam _ _)
    | (with_reducible apply Keeps.keeps_bind (LambdaRel.lambda_pre _))
    | (with_reducible apply Keeps.keeps_ite)
    | intro _
    | split
    | dsimp only

theorem report_ref_uses_lam {E : Env} (l : List Vertex) :
    Keeps (LambdaRel E) (report_ref_uses l) := by
  induction l with
  | nil => exact Keeps.keeps_pure (LambdaRel.lambda_pre _) _
  | cons v vs ih =>
    unfold report_ref_uses
    repeat' first
      | (with_reducible exact Keeps.keeps_getS (LambdaRel.lambda_pre _))
      | (with_reducible exact Keeps.keeps_pure (LambdaRel.lambda_pre _) _)
      | (with_reducible exact Keeps.keeps_abort _)
      | ((with_reducible refine Keeps.keeps_modS ?_); intro _; first
          | exact LambdaRel.of_same _ _ _ rfl (Nat.le_refl _)
          | exact LambdaRel.of_same _ _ _ rfl (Nat.le_succ _)
          | exact LambdaRel.of_same _ _ _ (next_functions _)
              (Nat.le_of_eq (next_name_counter _).symm)
          | exact LambdaRel.of_same _ _ _ (skip_until_functions _ _ _)
              (Nat.le_of_eq (skip_until_name_counter _ _ _).symm)
          | (split <;> exact LambdaRel.of_same _ _ _ rfl (Nat.le_refl _)))
      | (with_reducible exact kphp_error_lam _ _)
      | (with_reducible exact ih)
      | (with_reducible apply Keeps.keeps_bind (LambdaRel.lambda_pre _))
      | (with_reducible apply Keeps.keeps_ite)
      | intro _
      | split
      | dsimp only

theorem parse_function_uses_lam {E : Env} {c : Caps} (h : CapsLam E c) (uses_of_lambda : Option (List Vertex)) :
    Keeps (LambdaRel E) (parse_function_uses c uses_of_lambda) := by
  unfold parse_function_uses
  repeat' first
    | (with_reducible exact Keeps.keeps_getS (LambdaRel.lambda_pre _))
    | (with_reducible exact Keeps.keeps_pure (LambdaRel.lambda_pre _) _)
    | (with_reducible exact Keeps.keeps_abort _)
    | ((with_reducible refine Keeps.keeps_modS ?_); intro _; first
        | exact LambdaRel.of_same _ _ _ rfl (Nat.le_refl _)
        | exact LambdaRel.of_same _ _ _ rfl (Nat.le_succ _)
        | exact LambdaRel.of_same _ _ _ (next_functions _)
            (Nat.le_of_eq (next_name_counter _).symm)
        | exact LambdaRel.of_same _ _ _ (skip_until_functions _ _ _)
            (Nat.le_of_eq (skip_until_name_counter _ _ _).symm)
        | (split <;> exact LambdaRel.of_same _ _ _ rfl (Nat.le_refl _)))
    | (with_reducible exact kphp_error_lam _ _)
    | (with_reducible exact next_cur_lam)
    | (with_reducible exact test_expect_lam _)
    | (with_reducible exact expect_lam _ _)
    | (with_reducible exact gen_list_lam h _ _ _ _)
    | (with_reducible exact report_ref_uses_lam _)
    | (with_reducible apply Keeps.keeps_bind (LambdaRel.lambda_pre _))
    | (with_reducible apply Keeps.keeps_ite)
    | intro _
    | split
    | dsimp only

theorem parse_function_declaration_lam {e : Env} {c : Caps} (h : CapsLam e c) (access_type : AccessType) (uses_of_lambda : Option (List Vertex)) (flags : Vertex) :
    Keeps (LambdaRel e) (parse_function_declaration e c access_type uses_of_lambda flags) := by
  unfold parse_function_declaration
  repeat' first
    | (with_reducible exact Keeps.keeps_getS (LambdaRel.lambda_pre _))
    | (with_reducible exact Keeps.keeps_pure (LambdaRel.lambda_pre _) _)
    | (with_reducible exact Keeps.keeps_abort _)
    | ((with_reducible refine Keeps.keeps_modS ?_); intro _; first
        | exact LambdaRel.of_same _ _ _ rfl (Nat.le_refl _)
        | exact LambdaRel.of_same _ _ _ rfl (Nat.le_succ _)
        | exact LambdaRel.of_same _ _ _ (next_functions _)
            (Nat.le_of_eq (next_name_counter _).symm)
        | exact LambdaRel.of_same _ _ _ (skip_until_functions _ _ _)
            (Nat.le_of_eq (skip_until_name_counter _ _ _).symm)
        | (split <;> exact LambdaRel.of_same _ _ _ rfl (Nat.le_refl _)))
    | (with_reducible exact h.parse_function_specifiers _)
    | (with_reducible exact kphp_assert_lam _ _)
    | (with_reducible exact kphp_error_lam _ _)
    | (with_reducible exact auto_location_lam)
    | (with_reducible exact next_cur_lam)
    | (with_reducible exact test_expect_lam _)
    | (with_reducible exact expect_lam _ _)
    | (with_reducible exact gen_list_lam h _ _ _ _)
    | (with_reducible exact get_type_rule_lam h)
    | (with_reducible exact patch_func_add_this_lam _ _)
    | (with_reducible exact parse_function_uses_lam h _)
    | (with_reducible apply Keeps.keeps_bind (LambdaRel.lambda_pre _))
    | (with_reducible apply Keeps.keeps_ite)
    | intro _
    | split
    | dsimp only

theorem check_seq_end_lam {E : Env} :
    Keeps (LambdaRel E) (check_seq_end) := by
  unfold check_seq_end
  repeat' first
    | (with_reducible exact Keeps.keeps_getS (LambdaRel.lambda_pre _))
    | (with_reducible exact Keeps.keeps_pure (LambdaRel.lambda_pre _) _)
    | (with_reducible exact Keeps.keeps_abort _)
    | ((with_reducible refine Keeps.keeps_modS ?_); intro _; first
        | exact LambdaRel.of_same _ _ _ rfl (Nat.le_refl _)
        | exact LambdaRel.of_same _ _ _ rfl (Nat.le_succ _)
        | exact LambdaRel.of_same _ _ _ (next_functions _)
            (Nat.le_of_eq (next_name_counter _).symm)
        | exact LambdaRel.of_same _ _ _ (skip_until_functions _ _ _)
            (Nat.le_of_eq (skip_until_name_counter _ _ _).symm)
        | (split <;> exact LambdaRel.of_same _ _ _ rfl (Nat.le_refl _)))
    | (with_reducible exact kphp_error_lam _ _)
    | (with_reducible exact test_expect_lam _)
    | (with_reducible exact expect_lam _ _)
    | (with_reducible apply Keeps.keeps_bind (LambdaRel.lambda_pre _))
    | (with_reducible apply Keeps.keeps_ite)
    | intro _
    | split
    | dsimp only

theorem check_statement_end_lam {E : Env} :
    Keeps (LambdaRel E) (check_statement_end) := by
  unfold check_statement_end
  repeat' first
    | (with_reducible exact Keeps.keeps_getS (LambdaRel.lambda_pre _))
    | (with_reducible exact Keeps.keeps_pure (LambdaRel.lambda_pre _) _)
    | (with_reducible exact Keeps.keeps_abort _)
    | ((with_reducible refine Keeps.keeps_modS ?_); intro _; first
        | exact LambdaRel.of_same _ _ _ rfl (Nat.le_refl _)
        | exact LambdaRel.of_same _ _ _ rfl (Nat.le_succ _)
        | exact LambdaRel.of_same _ _ _ (next_functions _)
            (Nat.le_of_eq (next_name_counter _).symm)
        | exact LambdaRel.of_same _ _ _ (skip_until_functions _ _ _)
            (Nat.le_of_eq (skip_until_name_counter _ _ _).symm)
        | (split <;> exact LambdaRel.of_same _ _ _ rfl (Nat.le_refl _)))
    | (with_reducible exact kphp_error_lam _ _)
    | (with_reducible exact test_expect_lam _)
    | (with_reducible exact expect_lam _ _)
    | (with_reducible apply Keeps.keeps_bind (LambdaRel.lambda_pre _))
    | (with_reducible apply Keeps.keeps_ite)
    | intro _
    | split
    | dsimp only

theorem generate__invoke_method_lam {E : Env} (cur_class : Nat) (function : Vertex) :
    Keeps (LambdaRel E) (generate__invoke_method cur_class function) := by
  unfold generate__invoke_method
  repeat' first
    | (with_reducible exact Keeps.keeps_getS (LambdaRel.lambda_pre _))
    | (with_reducible exact Keeps.keeps_pure (LambdaRel.lambda_pre _) _)
    | (with_reducible exact Keeps.keeps_abort _)
    | ((with_reducible refine Keeps.keeps_modS ?_); intro _; first
        | exact LambdaRel.of_same _ _ _ rfl (Nat.le_refl _)
        | exact LambdaRel.of_same _ _ _ rfl (Nat.le_succ _)
        | exact LambdaRel.of_same _ _ _ (next_functions _)
            (Nat.le_of_eq (next_name_counter _).symm)
        | exact LambdaRel.of_same _ _ _ (skip_until_functions _ _ _)
            (Nat.le_of_eq (skip_until_name_counter _ _ _).symm)
        | (split <;> exact LambdaRel.of_same _ _ _ rfl (Nat.le_refl _)))
    | (with_reducible exact kphp_assert_lam _ _)
    | ((with_reducible refine mod_function_lam _ _ ?_); exact fun _ => rfl)
    | (with_reducible exact patch_func_add_this_lam _ _)
    | (with_reducible apply Keeps.keeps_bind (LambdaRel.lambda_pre _))
    | (with_reducible apply Keeps.keeps_ite)
    | intro _
    | split
    | dsimp only

theorem generate_constructor_call_lam {E : Env} (cur_class : Nat) :
    Keeps (LambdaRel E) (generate_constructor_call cur_class) := by
  unfold generate_constructor_call
  repeat' first
    | (with_reducible exact Keeps.keeps_getS (LambdaRel.lambda_pre _))
    | (with_reducible exact Keeps.keeps_pure (LambdaRel.lambda_pre _) _)
    | (with_reducible exact Keeps.keeps_abort _)
    | ((with_reducible refine Keeps.keeps_modS ?_); intro _; first
        | exact LambdaRel.of_same _ _ _ rfl (Nat.le_refl _)
        | exact LambdaRel.of_same _ _ _ rfl (Nat.le_succ _)
        | exact LambdaRel.of_same _ _ _ (next_functions _)
            (Nat.le_of_eq (next_name_counter _).symm)
        | exact LambdaRel.of_same _ _ _ (skip_until_functions _ _ _)
            (Nat.le_of_eq (skip_until_name_counter _ _ _).symm)
        | (split <;> exact LambdaRel.of_same _ _ _ rfl (Nat.le_refl _)))
    | (with_reducible apply Keeps.keeps_bind (LambdaRel.lambda_pre _))
    | (with_reducible apply Keeps.keeps_ite)
    | intro _
    | split
    | dsimp only

theorem get_function_scope_lam {E : Env} {c : Caps} (h : CapsLam E c) (phpdoc_token : Option Token) (access_type : AccessType) (d : FunctionDeclaration) (f : Nat) (root : Vertex) :
    Keeps (LambdaRel E) (get_function_scope c phpdoc_token access_type d f root) := by
  unfold get_function_scope
  repeat' first
    | (with_reducible exact Keeps.keeps_getS (LambdaRel.lambda_pre _))
    | (with_reducible exact Keeps.keeps_pure (LambdaRel.lambda_pre _) _)
    | (with_reducible exact Keeps.keeps_abort _)
    | ((with_reducible refine Keeps.keeps_modS ?_); intro _; first
        | exact LambdaRel.of_same _ _ _ rfl (Nat.le_refl _)
        | exact LambdaRel.of_same _ _ _ rfl (Nat.le_succ _)
        | exact LambdaRel.of_same _ _ _ (next_functions _)
            (Nat.le_of_eq (next_name_counter _).symm)
        | exact LambdaRel.of_same _ _ _ (skip_until_functions _ _ _)
            (Nat.le_of_eq (skip_until_name_counter _ _ _).symm)
        | (split <;> exact LambdaRel.of_same _ _ _ rfl (Nat.le_refl _)))
    | (with_reducible exact h.get_statement _)
    | (with_reducible exact kphp_error_lam _ _)
    | (with_reducible exact has_error_lam)
    | (with_reducible exact auto_location_lam)
    | (with_reducible exact test_expect_lam _)
    | (with_reducible exact expect_lam _ _)
    | ((with_reducible refine mod_function_lam _ _ ?_); exact fun _ => rfl)
    | (with_reducible exact add_instance_method_lam _ _ _)
    | (with_reducible exact add_static_method_lam _ _ _)
    | (with_reducible exact register_and_require_function_lam _ _)
    | (with_reducible exact func_force_return_lam _ _)
    | (with_reducible exact patch_func_constructor_lam _ _ _)
    | (with_reducible apply Keeps.keeps_bind (LambdaRel.lambda_pre _))
    | (with_reducible apply Keeps.keeps_ite)
    | intro _
    | split
    | dsimp only

theorem get_function_lam {e : Env} {c : Caps} (h : CapsLam e c) (phpdoc_token : Option Token) (access_type : AccessType) (uses_of_lambda : Option (List Vertex)) :
    Keeps (LambdaRel e) (get_function e c phpdoc_token access_type uses_of_lambda) := by
  unfold get_function
  repeat' first
    | (with_reducible exact Keeps.keeps_getS (LambdaRel.lambda_pre _))
    | (with_reducible exact Keeps.keeps_pure (LambdaRel.lambda_pre _) _)
    | (with_reducible exact Keeps.keeps_abort _)
    | ((with_reducible refine Keeps.keeps_modS ?_); intro _; first
        | exact LambdaRel.of_same _ _ _ rfl (Nat.le_refl _)
        | exact LambdaRel.of_same _ _ _ rfl (Nat.le_succ _)
        | exact LambdaRel.of_same _ _ _ (next_functions _)
            (Nat.le_of_eq (next_name_counter _).symm)
        | exact LambdaRel.of_same _ _ _ (skip_until_functions _ _ _)
            (Nat.le_of_eq (skip_until_name_counter _ _ _).symm)
        | (split <;> exact LambdaRel.of_same _ _ _ rfl (Nat.le_refl _)))
    | (with_reducible exact cur_type_lam)
    | (with_reducible exact expect_lam _ _)
    | (with_reducible exact create_function_lam _ _)
    | (with_reducible exact save_extern_func_header_lam _ _)
    | (with_reducible exact push_function_lam _)
    | (with_reducible exact pop_function_lam)
    | (with_reducible exact parse_function_declaration_lam h _ _ _)
    | (with_reducible exact get_function_scope_lam h _ _ _ _ _)
    | (with_reducible apply Keeps.keeps_bind (LambdaRel.lambda_pre _))
    | (with_reducible apply Keeps.keeps_ite)
    | intro _
    | split
    | dsimp only

theorem get_anonymous_function_lam {e : Env} {c : Caps} (h : CapsLam e c) :
    Keeps (LambdaRel e) (get_anonymous_function e c) := by
  unfold get_anonymous_function
  repeat' first
    | (with_reducible exact Keeps.keeps_getS (LambdaRel.lambda_pre _))
    | (with_reducible exact Keeps.keeps_pure (LambdaRel.lambda_pre _) _)
    | (with_reducible exact Keeps.keeps_abort _)
    | ((with_reducible refine Keeps.keeps_modS ?_); intro _; first
        | exact LambdaRel.of_same _ _ _ rfl (Nat.le_refl _)
        | exact LambdaRel.of_same _ _ _ rfl (Nat.le_succ _)
        | exact LambdaRel.of_same _ _ _ (next_functions _)
            (Nat.le_of_eq (next_name_counter _).symm)
        | exact LambdaRel.of_same _ _ _ (skip_until_functions _ _ _)
            (Nat.le_of_eq (skip_until_name_counter _ _ _).symm)
        | (split <;> exact LambdaRel.of_same _ _ _ rfl (Nat.le_refl _)))
    | (with_reducible exact generate_anonymous_class_lam _ _ _)
    | (with_reducible exact get_function_lam h _ _ _)
    | (with_reducible apply Keeps.keeps_bind (LambdaRel.lambda_pre _))
    | (with_reducible apply Keeps.keeps_ite)
    | intro _
    | split
    | dsimp only

theorem get_class_synthesize_lam {E : Env} (cur_class : Nat) (class_vertex : Vertex) :
    Keeps (LambdaRel E) (get_class_synthesize cur_class class_vertex) := by
  unfold get_class_synthesize
  repeat' first
    | (with_reducible exact Keeps.keeps_getS (LambdaRel.lambda_pre _))
    | (with_reducible exact Keeps.keeps_pure (LambdaRel.lambda_pre _) _)
    | (with_reducible exact Keeps.keeps_abort _)
    | ((with_reducible refine Keeps.keeps_modS ?_); intro _; first
        | exact LambdaRel.of_same _ _ _ rfl (Nat.le_refl _)
        | exact LambdaRel.of_same _ _ _ rfl (Nat.le_succ _)
        | exact LambdaRel.of_same _ _ _ (next_functions _)
            (Nat.le_of_eq (next_name_counter _).symm)
        | exact LambdaRel.of_same _ _ _ (skip_until_functions _ _ _)
            (Nat.le_of_eq (skip_until_name_counter _ _ _).symm)
        | (split <;> exact LambdaRel.of_same _ _ _ rfl (Nat.le_refl _)))
    | (with_reducible exact auto_location_lam)
    | (with_reducible exact mod_members_lam _ _)
    | (with_reducible exact create_default_constructor_lam _ _)
    | (with_reducible apply Keeps.keeps_bind (LambdaRel.lambda_pre _))
    | (with_reducible apply Keeps.keeps_ite)
    | intro _
    | split
    | dsimp only

theorem get_class_function_body_lam {E : Env} (cur_class : Nat) (cur_function : Nat) :
    Keeps (LambdaRel E) (get_class_function_body cur_class cur_function) := by
  unfold get_class_function_body
  repeat' first
    | (with_reducible exact Keeps.keeps_getS (LambdaRel.lambda_pre _))
    | (with_reducible exact Keeps.keeps_pure (LambdaRel.lambda_pre _) _)
    | (with_reducible exact Keeps.keeps_abort _)
    | ((with_reducible refine Keeps.keeps_modS ?_); intro _; first
        | exact LambdaRel.of_same _ _ _ rfl (Nat.le_refl _)
        | exact LambdaRel.of_same _ _ _ rfl (Nat.le_succ _)
        | exact LambdaRel.of_same _ _ _ (next_functions _)
            (Nat.le_of_eq (next_name_counter _).symm)
        | exact LambdaRel.of_same _ _ _ (skip_until_functions _ _ _)
            (Nat.le_of_eq (skip_until_name_counter _ _ _).symm)
        | (split <;> exact LambdaRel.of_same _ _ _ rfl (Nat.le_refl _)))
    | ((with_reducible refine mod_function_lam _ _ ?_); exact fun _ => rfl)
    | (with_reducible exact register_and_require_function_lam _ _)
    | (with_reducible exact func_force_return_lam _ _)
    | (with_reducible apply Keeps.keeps_bind (LambdaRel.lambda_pre _))
    | (with_reducible apply Keeps.keeps_ite)
    | intro _
    | split
    | dsimp only

theorem get_class_finish_lam {E : Env} (cur_class : Nat) (cur_function : Nat) (class_vertex : Vertex) :
    Keeps (LambdaRel E) (get_class_finish cur_class cur_function class_vertex) := by
  unfold get_class_finish
  repeat' first
    | (with_reducible exact Keeps.keeps_getS (LambdaRel.lambda_pre _))
    | (with_reducible exact Keeps.keeps_pure (LambdaRel.lambda_pre _) _)
    | (with_reducible exact Keeps.keeps_abort _)
    | ((with_reducible refine Keeps.keeps_modS ?_); intro _; first
        | exact LambdaRel.of_same _ _ _ rfl (Nat.le_refl _)
        | exact LambdaRel.of_same _ _ _ rfl (Nat.le_succ _)
        | exact LambdaRel.of_same _ _ _ (next_functions _)
            (Nat.le_of_eq (next_name_counter _).symm)
        | exact LambdaRel.of_same _ _ _ (skip_until_functions _ _ _)
            (Nat.le_of_eq (skip_until_name_counter _ _ _).symm)
        | (split <;> exact LambdaRel.of_same _ _ _ rfl (Nat.le_refl _)))
    | (with_reducible exact get_class_synthesize_lam _ _)
    | (with_reducible exact get_class_function_body_lam _ _)
    | (with_reducible apply Keeps.keeps_bind (LambdaRel.lambda_pre _))
    | (with_reducible apply Keeps.keeps_ite)
    | intro _
    | split
    | dsimp only

theorem get_class_scope_lam {e : Env} {c : Caps} (h : CapsLam e c) (phpdoc_token : Option Token) (class_location : Int) (cur_class : Nat) (cur_function : Nat) :
    Keeps (LambdaRel e) (get_class_scope e c phpdoc_token class_location cur_class cur_function) := by
  unfold get_class_scope
  repeat' first
    | (with_reducible exact Keeps.keeps_getS (LambdaRel.lambda_pre _))
    | (with_reducible exact Keeps.keeps_pure (LambdaRel.lambda_pre _) _)
    | (with_reducible exact Keeps.keeps_abort _)
    | ((with_reducible refine Keeps.keeps_modS ?_); intro _; first
        | exact LambdaRel.of_same _ _ _ rfl (Nat.le_refl _)
        | exact LambdaRel.of_same _ _ _ rfl (Nat.le_succ _)
        | exact LambdaRel.of_same _ _ _ (next_functions _)
            (Nat.le_of_eq (next_name_counter _).symm)
        | exact LambdaRel.of_same _ _ _ (skip_until_functions _ _ _)
            (Nat.le_of_eq (skip_until_name_counter _ _ _).symm)
        | (split <;> exact LambdaRel.of_same _ _ _ rfl (Nat.le_refl _)))
    | (with_reducible exact h.get_statement _)
    | (with_reducible exact kphp_error_lam _ _)
    | (with_reducible exact auto_location_lam)
    | (with_reducible exact next_cur_lam)
    | (with_reducible exact test_expect_lam _)
    | ((with_reducible refine mod_function_lam _ _ ?_); exact fun _ => rfl)
    | (with_reducible exact mod_class_lam _ _)
    | (with_reducible exact get_class_finish_lam _ _ _)
    | (with_reducible apply Keeps.keeps_bind (LambdaRel.lambda_pre _))
    | (with_reducible apply Keeps.keeps_ite)
    | intro _
    | split
    | dsimp only

theorem get_class_lam {e : Env} {c : Caps} (h : CapsLam e c) (phpdoc_token : Option Token) :
    Keeps (LambdaRel e) (get_class e c phpdoc_token) := by
  unfold get_class
  repeat' first
    | (with_reducible exact Keeps.keeps_getS (LambdaRel.lambda_pre _))
    | (with_reducible exact Keeps.keeps_pure (LambdaRel.lambda_pre _) _)
    | (with_reducible exact Keeps.keeps_abort _)
    | ((with_reducible refine Keeps.keeps_modS ?_); intro _; first
        | exact LambdaRel.of_same _ _ _ rfl (Nat.le_refl _)
        | exact LambdaRel.of_same _ _ _ rfl (Nat.le_succ _)
        | exact LambdaRel.of_same _ _ _ (next_functions _)
            (Nat.le_of_eq (next_name_counter _).symm)
        | exact LambdaRel.of_same _ _ _ (skip_until_functions _ _ _)
            (Nat.le_of_eq (skip_until_name_counter _ _ _).symm)
        | (split <;> exact LambdaRel.of_same _ _ _ rfl (Nat.le_refl _)))
    | (with_reducible exact kphp_error_lam _ _)
    | (with_reducible exact auto_location_lam)
    | (with_reducible exact test_expect_lam _)
    | (with_reducible exact expect_lam _ _)
    | (with_reducible exact create_function_lam _ _)
    | (with_reducible exact new_class_lam)
    | (with_reducible exact push_function_lam _)
    | (with_reducible exact pop_function_lam)
    | (with_reducible exact push_class_lam _)
    | (with_reducible exact pop_class_lam)
    | (with_reducible exact get_class_scope_lam h _ _ _ _)
    | (with_reducible apply Keeps.keeps_bind (LambdaRel.lambda_pre _))
    | (with_reducible apply Keeps.keeps_ite)
    | intro _
    | split
    | dsimp only

theorem get_use_loop_lam {E : Env} {c : Caps} (h : CapsLam E c) :
    Keeps (LambdaRel E) (get_use_loop c) := by
  unfold get_use_loop
  repeat' first
    | (with_reducible exact Keeps.keeps_getS (LambdaRel.lambda_pre _))
    | (with_reducible exact Keeps.keeps_pure (LambdaRel.lambda_pre _) _)
    | (with_reducible exact Keeps.keeps_abort _)
    | ((with_reducible refine Keeps.keeps_modS ?_); intro _; first
        | exact LambdaRel.of_same _ _ _ rfl (Nat.le_refl _)
        | exact LambdaRel.of_same _ _ _ rfl (Nat.le_succ _)
        | exact LambdaRel.of_same _ _ _ (next_functions _)
            (Nat.le_of_eq (next_name_counter _).symm)
        | exact LambdaRel.of_same _ _ _ (skip_until_functions _ _ _)
            (Nat.le_of_eq (skip_until_name_counter _ _ _).symm)
        | (split <;> exact LambdaRel.of_same _ _ _ rfl (Nat.le_refl _)))
    | (with_reducible exact h.get_use_loop)
    | (with_reducible exact kphp_assert_lam _ _)
    | (with_reducible exact kphp_error_lam _ _)
    | (with_reducible exact cur_tok_lam)
    | (with_reducible exact next_cur_lam)
    | (with_reducible exact test_expect_lam _)
    | (with_reducible exact expect_lam _ _)
    | (with_reducible apply Keeps.keeps_bind (LambdaRel.lambda_pre _))
    | (with_reducible apply Keeps.keeps_ite)
    | intro _
    | split
    | dsimp only

theorem get_use_lam {E : Env} {c : Caps} (h : CapsLam E c) :
    Keeps (LambdaRel E) (get_use c) := by
  unfold get_use
  repeat' first
    | (with_reducible exact Keeps.keeps_getS (LambdaRel.lambda_pre _))
    | (with_reducible exact Keeps.keeps_pure (LambdaRel.lambda_pre _) _)
    | (with_reducible exact Keeps.keeps_abort _)
    | ((with_reducible refine Keeps.keeps_modS ?_); intro _; first
        | exact LambdaRel.of_same _ _ _ rfl (Nat.le_refl _)
        | exact LambdaRel.of_same _ _ _ rfl (Nat.le_succ _)
        | exact LambdaRel.of_same _ _ _ (next_functions _)
            (Nat.le_of_eq (next_name_counter _).symm)
        | exact LambdaRel.of_same _ _ _ (skip_until_functions _ _ _)
            (Nat.le_of_eq (skip_until_name_counter _ _ _).symm)
        | (split <;> exact LambdaRel.of_same _ _ _ rfl (Nat.le_refl _)))
    | (with_reducible exact h.get_use_loop)
    | (with_reducible exact kphp_assert_lam _ _)
    | (with_reducible exact next_cur_lam)
    | (with_reducible exact test_expect_lam _)
    | (with_reducible exact expect2_lam _ _ _)
    | (with_reducible apply Keeps.keeps_bind (LambdaRel.lambda_pre _))
    | (with_reducible apply Keeps.keeps_ite)
    | intro _
    | split
    | dsimp only

theorem get_namespace_use_loop_lam {E : Env} {c : Caps} (h : CapsLam E c) :
    Keeps (LambdaRel E) (get_namespace_use_loop c) := by
  unfold get_namespace_use_loop
  repeat' first
    | (with_reducible exact Keeps.keeps_getS (LambdaRel.lambda_pre _))
    | (with_reducible exact Keeps.keeps_pure (LambdaRel.lambda_pre _) _)
    | (with_reducible exact Keeps.keeps_abort _)
    | ((with_reducible refine Keeps.keeps_modS ?_); intro _; first
        | exact LambdaRel.of_same _ _ _ rfl (Nat.le_refl _)
        | exact LambdaRel.of_same _ _ _ rfl (Nat.le_succ _)
        | exact LambdaRel.of_same _ _ _ (next_functions _)
            (Nat.le_of_eq (next_name_counter _).symm)
        | exact LambdaRel.of_same _ _ _ (skip_until_functions _ _ _)
            (Nat.le_of_eq (skip_until_name_counter _ _ _).symm)
        | (split <;> exact LambdaRel.of_same _ _ _ rfl (Nat.le_refl _)))
    | (with_reducible exact h.get_namespace_use_loop)
    | (with_reducible exact test_expect_lam _)
    | (with_reducible exact get_use_lam h)
    | (with_reducible apply Keeps.keeps_bind (LambdaRel.lambda_pre _))
    | (with_reducible apply Keeps.keeps_ite)
    | intro _
    | split
    | dsimp only

theorem get_namespace_class_lam {e : Env} {c : Caps} (h : CapsLam e c) :
    Keeps (LambdaRel e) (get_namespace_class e c) := by
  unfold get_namespace_class
  repeat' first
    | (with_reducible exact Keeps.keeps_getS (LambdaRel.lambda_pre _))
    | (with_reducible exact Keeps.keeps_pure (LambdaRel.lambda_pre _) _)
    | (with_reducible exact Keeps.keeps_abort _)
    | ((with_reducible refine Keeps.keeps_modS ?_); intro _; first
        | exact LambdaRel.of_same _ _ _ rfl (Nat.le_refl _)
        | exact LambdaRel.of_same _ _ _ rfl (Nat.le_succ _)
        | exact LambdaRel.of_same _ _ _ (next_functions _)
            (Nat.le_of_eq (next_name_counter _).symm)
        | exact LambdaRel.of_same _ _ _ (skip_until_functions _ _ _)
            (Nat.le_of_eq (skip_until_name_counter _ _ _).symm)
        | (split <;> exact LambdaRel.of_same _ _ _ rfl (Nat.le_refl _)))
    | (with_reducible exact h.get_namespace_use_loop)
    | (with_reducible exact kphp_assert_lam _ _)
    | (with_reducible exact kphp_error_lam _ _)
    | (with_reducible exact has_error_lam)
    | (with_reducible exact cur_tok_lam)
    | (with_reducible exact next_cur_lam)
    | (with_reducible exact test_expect_lam _)
    | (with_reducible exact expect_lam _ _)
    | (with_reducible exact check_statement_end_lam)
    | (with_reducible exact get_class_lam h _)
    | (with_reducible apply Keeps.keeps_bind (LambdaRel.lambda_pre _))
    | (with_reducible apply Keeps.keeps_ite)
    | intro _
    | split
    | dsimp only

theorem add_static_fields_lam {E : Env} (cur_class : Option Nat) (e : Vertex)
    (access_type : AccessType) (l : List Vertex) :
    Keeps (LambdaRel E) (add_static_fields cur_class e access_type l) := by
  induction l with
  | nil => exact Keeps.keeps_pure (LambdaRel.lambda_pre _) _
  | cons v vs ih =>
    unfold add_static_fields
    repeat' first
      | (with_reducible exact Keeps.keeps_getS (LambdaRel.lambda_pre _))
      | (with_reducible exact Keeps.keeps_pure (LambdaRel.lambda_pre _) _)
      | (with_reducible exact Keeps.keeps_abort _)
      | ((with_reducible refine Keeps.keeps_modS ?_); intro _; first
          | exact LambdaRel.of_same _ _ _ rfl (Nat.le_refl _)
          | exact LambdaRel.of_same _ _ _ rfl (Nat.le_succ _)
          | exact LambdaRel.of_same _ _ _ (next_functions _)
              (Nat.le_of_eq (next_name_counter _).symm)
          | exact LambdaRel.of_same _ _ _ (skip_until_functions _ _ _)
              (Nat.le_of_eq (skip_until_name_counter _ _ _).symm)
          | (split <;> exact LambdaRel.of_same _ _ _ rfl (Nat.le_refl _)))
      | (with_reducible exact kphp_error_lam _ _)
      | (with_reducible exact deref_lam _ _)
      | (with_reducible exact mod_members_lam _ _)
      | (with_reducible exact ih)
      | (with_reducible apply Keeps.keeps_bind (LambdaRel.lambda_pre _))
      | (with_reducible apply Keeps.keeps_ite)
      | intro _
      | split
      | dsimp only

theorem add_static_field_list_lam {E : Env} (cur_class : Option Nat)
    (extra_type : OperationExtra) (access_type : AccessType) (l : List Vertex) :
    Keeps (LambdaRel E) (add_static_field_list cur_class extra_type access_type l) := by
  induction l with
  | nil => exact Keeps.keeps_pure (LambdaRel.lambda_pre _) _
  | cons v vs ih =>
    unfold add_static_field_list
    repeat' first
      | (with_reducible exact Keeps.keeps_getS (LambdaRel.lambda_pre _))
      | (with_reducible exact Keeps.keeps_pure (LambdaRel.lambda_pre _) _)
      | (with_reducible exact Keeps.keeps_abort _)
      | ((with_reducible refine Keeps.keeps_modS ?_); intro _; first
          | exact LambdaRel.of_same _ _ _ rfl (Nat.le_refl _)
          | exact LambdaRel.of_same _ _ _ rfl (Nat.le_succ _)
          | exact LambdaRel.of_same _ _ _ (next_functions _)
              (Nat.le_of_eq (next_name_counter _).symm)
          | exact LambdaRel.of_same _ _ _ (skip_until_functions _ _ _)
              (Nat.le_of_eq (skip_until_name_counter _ _ _).symm)
          | (split <;> exact LambdaRel.of_same _ _ _ rfl (Nat.le_refl _)))
      | (with_reducible exact kphp_assert_lam _ _)
      | (with_reducible exact add_static_fields_lam _ _ _ _)
      | (with_reducible exact ih)
      | (with_reducible apply Keeps.keeps_bind (LambdaRel.lambda_pre _))
      | (with_reducible apply Keeps.keeps_ite)
      | intro _
      | split
      | dsimp only

theorem get_static_field_list_lam {E : Env} {c : Caps} (h : CapsLam E c) (access_type : AccessType) :
    Keeps (LambdaRel E) (get_static_field_list c access_type) := by
  unfold get_static_field_list
  repeat' first
    | (with_reducible exact Keeps.keeps_getS (LambdaRel.lambda_pre _))
    | (with_reducible exact Keeps.keeps_pure (LambdaRel.lambda_pre _) _)
    | (with_reducible exact Keeps.keeps_abort _)
    | ((with_reducible refine Keeps.keeps_modS ?_); intro _; first
        | exact LambdaRel.of_same _ _ _ rfl (Nat.le_refl _)
        | exact LambdaRel.of_same _ _ _ rfl (Nat.le_succ _)
        | exact LambdaRel.of_same _ _ _ (next_functions _)
            (Nat.le_of_eq (next_name_counter _).symm)
        | exact LambdaRel.of_same _ _ _ (skip_until_functions _ _ _)
            (Nat.le_of_eq (skip_until_name_counter _ _ _).symm)
        | (split <;> exact LambdaRel.of_same _ _ _ rfl (Nat.le_refl _)))
    | (with_reducible exact get_multi_call_lam h _ _)
    | (with_reducible exact check_statement_end_lam)
    | (with_reducible exact add_static_field_list_lam _ _ _ _)
    | (with_reducible apply Keeps.keeps_bind (LambdaRel.lambda_pre _))
    | (with_reducible apply Keeps.keeps_ite)
    | intro _
    | split
    | dsimp only

theorem get_instance_var_list_lam {E : Env} {c : Caps} (h : CapsLam E c) (phpdoc_token : Option Token) (access_type : AccessType) :
    Keeps (LambdaRel E) (get_instance_var_list c phpdoc_token access_type) := by
  unfold get_instance_var_list
  repeat' first
    | (with_reducible exact Keeps.keeps_getS (LambdaRel.lambda_pre _))
    | (with_reducible exact Keeps.keeps_pure (LambdaRel.lambda_pre _) _)
    | (with_reducible exact Keeps.keeps_abort _)
    | ((with_reducible refine Keeps.keeps_modS ?_); intro _; first
        | exact LambdaRel.of_same _ _ _ rfl (Nat.le_refl _)
        | exact LambdaRel.of_same _ _ _ rfl (Nat.le_succ _)
        | exact LambdaRel.of_same _ _ _ (next_functions _)
            (Nat.le_of_eq (next_name_counter _).symm)
        | exact LambdaRel.of_same _ _ _ (skip_until_functions _ _ _)
            (Nat.le_of_eq (skip_until_name_counter _ _ _).symm)
        | (split <;> exact LambdaRel.of_same _ _ _ rfl (Nat.le_refl _)))
    | (with_reducible exact h.get_expression)
    | (with_reducible exact h.get_instance_var_list _ _)
    | (with_reducible exact kphp_error_lam _ _)
    | (with_reducible exact auto_location_lam)
    | (with_reducible exact next_cur_lam)
    | (with_reducible exact test_expect_lam _)
    | (with_reducible exact expect_lam _ _)
    | (with_reducible exact mod_members_lam _ _)
    | (with_reducible exact deref_lam _ _)
    | (with_reducible apply Keeps.keeps_bind (LambdaRel.lambda_pre _))
    | (with_reducible apply Keeps.keeps_ite)
    | intro _
    | split
    | dsimp only

theorem get_seq_loop_lam {E : Env} {c : Caps} (h : CapsLam E c) (seq_next : List Vertex) :
    Keeps (LambdaRel E) (get_seq_loop c seq_next) := by
  unfold get_seq_loop
  repeat' first
    | (with_reducible exact Keeps.keeps_getS (LambdaRel.lambda_pre _))
    | (with_reducible exact Keeps.keeps_pure (LambdaRel.lambda_pre _) _)
    | (with_reducible exact Keeps.keeps_abort _)
    | ((with_reducible refine Keeps.keeps_modS ?_); intro _; first
        | exact LambdaRel.of_same _ _ _ rfl (Nat.le_refl _)
        | exact LambdaRel.of_same _ _ _ rfl (Nat.le_succ _)
        | exact LambdaRel.of_same _ _ _ (next_functions _)
            (Nat.le_of_eq (next_name_counter _).symm)
        | exact LambdaRel.of_same _ _ _ (skip_until_functions _ _ _)
            (Nat.le_of_eq (skip_until_name_counter _ _ _).symm)
        | (split <;> exact LambdaRel.of_same _ _ _ rfl (Nat.le_refl _)))
    | (with_reducible exact h.get_statement _)
    | (with_reducible exact h.get_seq_loop _)
    | (with_reducible exact at_end_lam)
    | (with_reducible exact test_expect_lam _)
    | (with_reducible apply Keeps.keeps_bind (LambdaRel.lambda_pre _))
    | (with_reducible apply Keeps.keeps_ite)
    | intro _
    | split
    | dsimp only

theorem get_seq_lam {E : Env} {c : Caps} (h : CapsLam E c) :
    Keeps (LambdaRel E) (get_seq c) := by
  unfold get_seq
  repeat' first
    | (with_reducible exact Keeps.keeps_getS (LambdaRel.lambda_pre _))
    | (with_reducible exact Keeps.keeps_pure (LambdaRel.lambda_pre _) _)
    | (with_reducible exact Keeps.keeps_abort _)
    | ((with_reducible refine Keeps.keeps_modS ?_); intro _; first
        | exact LambdaRel.of_same _ _ _ rfl (Nat.le_refl _)
        | exact LambdaRel.of_same _ _ _ rfl (Nat.le_succ _)
        | exact LambdaRel.of_same _ _ _ (next_functions _)
            (Nat.le_of_eq (next_name_counter _).symm)
        | exact LambdaRel.of_same _ _ _ (skip_until_functions _ _ _)
            (Nat.le_of_eq (skip_until_name_counter _ _ _).symm)
        | (split <;> exact LambdaRel.of_same _ _ _ rfl (Nat.le_refl _)))
    | (with_reducible exact h.get_seq_loop _)
    | (with_reducible exact auto_location_lam)
    | (with_reducible apply Keeps.keeps_bind (LambdaRel.lambda_pre _))
    | (with_reducible apply Keeps.keeps_ite)
    | intro _
    | split
    | dsimp only

theorem get_statement_static_lam {e : Env} {c : Caps} (h : CapsLam e c) (phpdoc_token : Option Token) :
    Keeps (LambdaRel e) (get_statement_static e c phpdoc_token) := by
  unfold get_statement_static
  repeat' first
    | (with_reducible exact Keeps.keeps_getS (LambdaRel.lambda_pre _))
    | (with_reducible exact Keeps.keeps_pure (LambdaRel.lambda_pre _) _)
    | (with_reducible exact Keeps.keeps_abort _)
    | ((with_reducible refine Keeps.keeps_modS ?_); intro _; first
        | exact LambdaRel.of_same _ _ _ rfl (Nat.le_refl _)
        | exact LambdaRel.of_same _ _ _ rfl (Nat.le_succ _)
        | exact LambdaRel.of_same _ _ _ (next_functions _)
            (Nat.le_of_eq (next_name_counter _).symm)
        | exact LambdaRel.of_same _ _ _ (skip_until_functions _ _ _)
            (Nat.le_of_eq (skip_until_name_counter _ _ _).symm)
        | (split <;> exact LambdaRel.of_same _ _ _ rfl (Nat.le_refl _)))
    | (with_reducible exact kphp_error_lam _ _)
    | (with_reducible exact next_cur_lam)
    | (with_reducible exact get_multi_call_lam h _ _)
    | (with_reducible exact check_statement_end_lam)
    | (with_reducible exact get_function_lam h _ _ _)
    | (with_reducible exact get_static_field_list_lam h _)
    | (with_reducible apply Keeps.keeps_bind (LambdaRel.lambda_pre _))
    | (with_reducible apply Keeps.keeps_ite)
    | intro _
    | split
    | dsimp only

theorem get_statement_access_lam {e : Env} {c : Caps} (h : CapsLam e c) (phpdoc_token : Option Token) (type : TokenType) :
    Keeps (LambdaRel e) (get_statement_access e c phpdoc_token type) := by
  unfold get_statement_access
  repeat' first
    | (with_reducible exact Keeps.keeps_getS (LambdaRel.lambda_pre _))
    | (with_reducible exact Keeps.keeps_pure (LambdaRel.lambda_pre _) _)
    | (with_reducible exact Keeps.keeps_abort _)
    | ((with_reducible refine Keeps.keeps_modS ?_); intro _; first
        | exact LambdaRel.of_same _ _ _ rfl (Nat.le_refl _)
        | exact LambdaRel.of_same _ _ _ rfl (Nat.le_succ _)
        | exact LambdaRel.of_same _ _ _ (next_functions _)
            (Nat.le_of_eq (next_name_counter _).symm)
        | exact LambdaRel.of_same _ _ _ (skip_until_functions _ _ _)
            (Nat.le_of_eq (skip_until_name_counter _ _ _).symm)
        | (split <;> exact LambdaRel.of_same _ _ _ rfl (Nat.le_refl _)))
    | (with_reducible exact h.get_instance_var_list _ _)
    | (with_reducible exact kphp_error_lam _ _)
    | (with_reducible exact cur_tok_lam)
    | (with_reducible exact next_cur_lam)
    | (with_reducible exact expect_lam _ _)
    | (with_reducible exact get_function_lam h _ _ _)
    | (with_reducible exact get_static_field_list_lam h _)
    | (with_reducible apply Keeps.keeps_bind (LambdaRel.lambda_pre _))
    | (with_reducible apply Keeps.keeps_ite)
    | intro _
    | split
    | dsimp only

theorem get_statement_try_lam {E : Env} {c : Caps} (h : CapsLam E c) :
    Keeps (LambdaRel E) (get_statement_try c) := by
  unfold get_statement_try
  repeat' first
    | (with_reducible exact Keeps.keeps_getS (LambdaRel.lambda_pre _))
    | (with_reducible exact Keeps.keeps_pure (LambdaRel.lambda_pre _) _)
    | (with_reducible exact Keeps.keeps_abort _)
    | ((with_reducible refine Keeps.keeps_modS ?_); intro _; first
        | exact LambdaRel.of_same _ _ _ rfl (Nat.le_refl _)
        | exact LambdaRel.of_same _ _ _ rfl (Nat.le_succ _)
        | exact LambdaRel.of_same _ _ _ (next_functions _)
            (Nat.le_of_eq (next_name_counter _).symm)
        | exact LambdaRel.of_same _ _ _ (skip_until_functions _ _ _)
            (Nat.le_of_eq (skip_until_name_counter _ _ _).symm)
        | (split <;> exact LambdaRel.of_same _ _ _ rfl (Nat.le_refl _)))
    | (with_reducible exact h.get_expression)
    | (with_reducible exact h.get_statement _)
    | (with_reducible exact kphp_error_lam _ _)
    | (with_reducible exact auto_location_lam)
    | (with_reducible exact next_cur_lam)
    | (with_reducible exact expect_lam _ _)
    | (with_reducible apply Keeps.keeps_bind (LambdaRel.lambda_pre _))
    | (with_reducible apply Keeps.keeps_ite)
    | intro _
    | split
    | dsimp only

theorem get_statement_const_lam {E : Env} {c : Caps} (h : CapsLam E c) :
    Keeps (LambdaRel E) (get_statement_const c) := by
  unfold get_statement_const
  repeat' first
    | (with_reducible exact Keeps.keeps_getS (LambdaRel.lambda_pre _))
    | (with_reducible exact Keeps.keeps_pure (LambdaRel.lambda_pre _) _)
    | (with_reducible exact Keeps.keeps_abort _)
    | ((with_reducible refine Keeps.keeps_modS ?_); intro _; first
        | exact LambdaRel.of_same _ _ _ rfl (Nat.le_refl _)
        | exact LambdaRel.of_same _ _ _ rfl (Nat.le_succ _)
        | exact LambdaRel.of_same _ _ _ (next_functions _)
            (Nat.le_of_eq (next_name_counter _).symm)
        | exact LambdaRel.of_same _ _ _ (skip_until_functions _ _ _)
            (Nat.le_of_eq (skip_until_name_counter _ _ _).symm)
        | (split <;> exact LambdaRel.of_same _ _ _ rfl (Nat.le_refl _)))
    | (with_reducible exact h.get_expression)
    | (with_reducible exact kphp_error_lam _ _)
    | (with_reducible exact auto_location_lam)
    | (with_reducible exact next_cur_lam)
    | (with_reducible exact test_expect_lam _)
    | (with_reducible exact expect_lam _ _)
    | (with_reducible exact mod_members_lam _ _)
    | (with_reducible exact check_statement_end_lam)
    | (with_reducible apply Keeps.keeps_bind (LambdaRel.lambda_pre _))
    | (with_reducible apply Keeps.keeps_ite)
    | intro _
    | split
    | dsimp only

theorem get_statement_default_lam {e : Env} {c : Caps} (h : CapsLam e c) (phpdoc_token : Option Token) :
    Keeps (LambdaRel e) (get_statement_default e c phpdoc_token) := by
  unfold get_statement_default
  repeat' first
    | (with_reducible exact Keeps.keeps_getS (LambdaRel.lambda_pre _))
    | (with_reducible exact Keeps.keeps_pure (LambdaRel.lambda_pre _) _)
    | (with_reducible exact Keeps.keeps_abort _)
    | ((with_reducible refine Keeps.keeps_modS ?_); intro _; first
        | exact LambdaRel.of_same _ _ _ rfl (Nat.le_refl _)
        | exact LambdaRel.of_same _ _ _ rfl (Nat.le_succ _)
        | exact LambdaRel.of_same _ _ _ (next_functions _)
            (Nat.le_of_eq (next_name_counter _).symm)
        | exact LambdaRel.of_same _ _ _ (skip_until_functions _ _ _)
            (Nat.le_of_eq (skip_until_name_counter _ _ _).symm)
        | (split <;> exact LambdaRel.of_same _ _ _ rfl (Nat.le_refl _)))
    | (with_reducible exact h.get_expression)
    | (with_reducible exact cur_type_lam)
    | (with_reducible exact auto_location_lam)
    | (with_reducible exact get_type_rule_lam h)
    | (with_reducible exact check_statement_end_lam)
    | (with_reducible apply Keeps.keeps_bind (LambdaRel.lambda_pre _))
    | (with_reducible apply Keeps.keeps_ite)
    | intro _
    | split
    | dsimp only

theorem get_statement_lam {e : Env} {c : Caps} (h : CapsLam e c) (phpdoc_token : Option Token) :
    Keeps (LambdaRel e) (get_statement e c phpdoc_token) := by
  unfold get_statement
  repeat' first
    | (with_reducible exact Keeps.keeps_getS (LambdaRel.lambda_pre _))
    | (with_reducible exact Keeps.keeps_pure (LambdaRel.lambda_pre _) _)
    | (with_reducible exact Keeps.keeps_abort _)
    | ((with_reducible refine Keeps.keeps_modS ?_); intro _; first
        | exact LambdaRel.of_same _ _ _ rfl (Nat.le_refl _)
        | exact LambdaRel.of_same _ _ _ rfl (Nat.le_succ _)
        | exact LambdaRel.of_same _ _ _ (next_functions _)
            (Nat.le_of_eq (next_name_counter _).symm)
        | exact LambdaRel.of_same _ _ _ (skip_until_functions _ _ _)
            (Nat.le_of_eq (skip_until_name_counter _ _ _).symm)
        | (split <;> exact LambdaRel.of_same _ _ _ rfl (Nat.le_refl _)))
    | (with_reducible exact h.get_expression)
    | (with_reducible exact h.get_statement _)
    | (with_reducible exact h.get_instance_var_list _ _)
    | (with_reducible exact kphp_error_lam _ _)
    | (with_reducible exact kphp_warning_lam _)
    | (with_reducible exact cur_tok_lam)
    | (with_reducible exact auto_location_lam)
    | (with_reducible exact next_cur_lam)
    | (with_reducible exact get_func_call_lam h _ _)
    | (with_reducible exact get_multi_call_lam h _ _)
    | (with_reducible exact get_return_lam h)
    | (with_reducible exact get_break_continue_lam h _)
    | (with_reducible exact get_foreach_lam h)
    | (with_reducible exact get_while_lam h)
    | (with_reducible exact get_if_lam h)
    | (with_reducible exact get_for_lam h)
    | (with_reducible exact get_do_lam h)
    | (with_reducible exact get_switch_lam h)
    | (with_reducible exact check_seq_end_lam)
    | (with_reducible exact check_statement_end_lam)
    | (with_reducible exact get_function_lam h _ _ _)
    | (with_reducible exact get_class_lam h _)
    | (with_reducible exact get_use_lam h)
    | (with_reducible exact get_seq_lam h)
    | (with_reducible exact get_statement_static_lam h _)
    | (with_reducible exact get_statement_access_lam h _ _)
    | (with_reducible exact get_statement_try_lam h)
    | (with_reducible exact get_statement_const_lam h)
    | (with_reducible exact get_statement_default_lam h _)
    | (with_reducible apply Keeps.keeps_bind (LambdaRel.lambda_pre _))
    | (with_reducible apply Keeps.keeps_ite)
    | intro _
    | split
    | dsimp only

theorem run_lam {e : Env} {c : Caps} (h : CapsLam e c) :
    Keeps (LambdaRel e) (run e c) := by
  unfold run
  repeat' first
    | (with_reducible exact Keeps.keeps_getS (LambdaRel.lambda_pre _))
    | (with_reducible exact Keeps.keeps_pure (LambdaRel.lambda_pre _) _)
    | (with_reducible exact Keeps.keeps_abort _)
    | ((with_reducible refine Keeps.keeps_modS ?_); intro _; first
        | exact LambdaRel.of_same _ _ _ rfl (Nat.le_refl _)
        | exact LambdaRel.of_same _ _ _ rfl (Nat.le_succ _)
        | exact LambdaRel.of_same _ _ _ (next_functions _)
            (Nat.le_of_eq (next_name_counter _).symm)
        | exact LambdaRel.of_same _ _ _ (skip_until_functions _ _ _)
            (Nat.le_of_eq (skip_until_name_counter _ _ _).symm)
        | (split <;> exact LambdaRel.of_same _ _ _ rfl (Nat.le_refl _)))
    | (with_reducible exact h.get_statement _)
    | (with_reducible exact kphp_assert_lam _ _)
    | (with_reducible exact kphp_error_lam _ _)
    | (with_reducible exact at_end_lam)
    | (with_reducible exact test_expect_lam _)
    | (with_reducible exact get_namespace_class_lam h)
    | (with_reducible apply Keeps.keeps_bind (LambdaRel.lambda_pre _))
    | (with_reducible apply Keeps.keeps_ite)
    | intro _
    | split
    | dsimp only

theorem no_fuel_lam (e : Env) : CapsLam e no_fuel where
  gen_list_loop := fun _ _ _ _ _ => Keeps.keeps_abort _
  get_string_build_loop := fun _ _ => Keeps.keeps_abort _
  get_postfix_expression := fun _ => Keeps.keeps_abort _
  get_expr_top := Keeps.keeps_abort _
  get_binary_op := fun _ _ => Keeps.keeps_abort _
  get_binary_op_loop := fun _ _ _ => Keeps.keeps_abort _
  get_expression := Keeps.keeps_abort _
  get_func_param := Keeps.keeps_abort _
  get_func_param_from_callback := Keeps.keeps_abort _
  get_type_rule_ := Keeps.keeps_abort _
  get_type_rule_lt_loop := fun _ _ => Keeps.keeps_abort _
  get_type_rule_index_loop := fun _ => Keeps.keeps_abort _
  get_switch_loop := fun _ => Keeps.keeps_abort _
  get_switch_seq_loop := fun _ => Keeps.keeps_abort _
  parse_function_specifiers := fun _ => Keeps.keeps_abort _
  get_use_loop := Keeps.keeps_abort _
  get_namespace_use_loop := Keeps.keeps_abort _
  get_anonymous_function := Keeps.keeps_abort _
  get_statement := fun _ => Keeps.keeps_abort _
  get_instance_var_list := fun _ _ => Keeps.keeps_abort _
  get_seq_loop := fun _ => Keeps.keeps_abort _

/-- Every entry point of the parser keeps the relation `LambdaRel e`. -/
theorem parser_lam (e : Env) (n : Nat) : CapsLam e (parser e n) := by
  induction n with
  | zero => exact no_fuel_lam e
  | succ n ih =>
    exact {
      gen_list_loop := fun a b d p r => gen_list_loop_lam ih a b d p r
      get_string_build_loop := fun a b => get_string_build_loop_lam ih a b
      get_postfix_expression := fun a => get_postfix_expression_lam ih a
      get_expr_top := get_expr_top_lam ih
      get_binary_op := fun a b => get_binary_op_lam ih a b
      get_binary_op_loop := fun a b d => get_binary_op_loop_lam ih a b d
      get_expression := get_expression_lam ih
      get_func_param := get_func_param_lam ih
      get_func_param_from_callback := get_func_param_from_callback_lam ih
      get_type_rule_ := get_type_rule__lam ih
      get_type_rule_lt_loop := fun a b => get_type_rule_lt_loop_lam ih a b
      get_type_rule_index_loop := fun a => get_type_rule_index_loop_lam ih a
      get_switch_loop := fun a => get_switch_loop_lam ih a
      get_switch_seq_loop := fun a => get_switch_seq_loop_lam ih a
      parse_function_specifiers := fun a => parse_function_specifiers_lam ih a
      get_use_loop := get_use_loop_lam ih
      get_namespace_use_loop := get_namespace_use_loop_lam ih
      get_anonymous_function := get_anonymous_function_lam ih
      get_statement := fun a => get_statement_lam ih a
      get_instance_var_list := fun a b => get_instance_var_list_lam ih a b
      get_seq_loop := fun a => get_seq_loop_lam ih a }

theorem Res.exists_of_is_ok {α : Type} (r : Res α) (h : r.is_ok = true) :
    ∃ a, r = Res.ok a r.state := by
  cases r with
  | abort a => cases h
  | ok a s => exact ⟨a, rfl⟩

theorem lambda_inv_fresh (e : Env) (s : GenTree)
    (h : ∀ d ∈ s.functions, d.function_in_which_lambda_was_created = none ∧
      d.lambdas_inside = []) : LambdaInv e s := by
  have hn : s.lambda_function_names = [] := by
    unfold GenTree.lambda_function_names
    rw [List.filter_eq_nil_iff.mpr, List.map_nil]
    intro d hd
    rw [(h d hd).1]
    exact Bool.false_ne_true
  refine ⟨fun d hd => (h d hd).2, ?_, ?_⟩
  · rw [hn]
    exact List.nodup_nil
  · rw [hn]
    exact fun _ hx => absurd hx (List.not_mem_nil _)

theorem lambda_names_new (e : Env)
    (hinj : Function.Injective e.gen_anonymous_function_name)
    (hbs : ∀ i, backslash ∉ (e.gen_anonymous_function_name i).data) (s : GenTree)
    (h : LambdaInv e s) :
    lambda_invoke_name e s.name_counter ∉ s.lambda_function_names ∧
    lambda_constructor_name e s.name_counter ∉ s.lambda_function_names := by
  have hold : ∀ nm ∈ s.lambda_function_names,
      nm ≠ lambda_invoke_name e s.name_counter ∧
      nm ≠ lambda_constructor_name e s.name_counter := by
    intro nm hnm
    obtain ⟨j, hj, hn⟩ := h.bound nm hnm
    have hd := lambda_names_distinct e hinj hbs j s.name_counter (Nat.ne_of_lt hj)
    rcases hn with rfl | rfl
    · exact ⟨lambda_constructor_ne_invoke e j _, hd.2.1⟩
    · exact ⟨hd.2.2, fun hh => lambda_constructor_ne_invoke e _ j hh.symm⟩
  exact ⟨fun hm => (hold _ hm).1 rfl, fun hm => (hold _ hm).2 rfl⟩

theorem lambda_names_apart (e : Env)
    (hinj : Function.Injective e.gen_anonymous_function_name)
    (hbs : ∀ i, backslash ∉ (e.gen_anonymous_function_name i).data) (s : GenTree)
    (h : LambdaInv e s) (p q i j : Nat) (hpq : p ≠ q)
    (hp : s.lambda_function_names[p]? = some (lambda_constructor_name e i))
    (hq : s.lambda_function_names[q]? = some (lambda_constructor_name e j)) :
    i ≠ j ∧ lambda_class_name e i ≠ lambda_class_name e j ∧
      lambda_invoke_name e i ≠ lambda_invoke_name e j := by
  have hij : i ≠ j := by
    intro hij
    subst hij
    have hnd := List.nodup_iff_getElem?_ne_getElem?.mp h.distinct
    have hpl : p < s.lambda_function_names.length := by
      by_contra hc
      rw [List.getElem?_eq_none (by omega)] at hp
      cases hp
    have hql : q < s.lambda_function_names.length := by
      by_contra hc
      rw [List.getElem?_eq_none (by omega)] at hq
      cases hq
    rcases Nat.lt_or_gt_of_ne hpq with hlt | hgt
    · exact hnd p q hlt hql (hp.trans hq.symm)
    · exact hnd q p hgt hpl (hq.trans hp.symm)
  have hd := lambda_names_distinct e hinj hbs i j hij
  exact ⟨hij, hd.1, hd.2.2⟩

theorem lambda_rel_run {α : Type} {e : Env} {m : P α} (hm : Keeps (LambdaRel e) m)
    (hc : Keeps CounterLe m)
    (hinj : Function.Injective e.gen_anonymous_function_name)
    (hbs : ∀ i, backslash ∉ (e.gen_anonymous_function_name i).data)
    (s : GenTree) (r : α) (s' : GenTree) (h : m s = Res.ok r s') (hI : LambdaInv e s) :
    LambdaInv e s' ∧ s.lambda_keys <+: s'.lambda_keys ∧ s.name_counter ≤ s'.name_counter :=
  ⟨(hm.run s r s' h hinj hbs hI).1, (hm.run s r s' h hinj hbs hI).2, hc.run s r s' h⟩

/-- Claim C17 (amended): assume that the anonymous-name generator never returns a name
twice and that its names contain no backslash.  The functions registered for lowered
lambdas are those with `function_in_which_lambda_was_created` set; `LambdaInv` says of a
function table that no two of them share a name and that each is named as the constructor
or the invoke method of a generator count below the current one.  A table without such
functions satisfies it.  A lowering that starts with the generator called `c` times calls
it once more, names the synthesized class `$L\` followed by the name it gets, and registers
exactly two such functions, the invoke method and the constructor, named after the class
with its backslashes replaced, followed by `$$__invoke` and `$$__construct`; when the
table satisfied `LambdaInv` neither name was in it and the new table satisfies `LambdaInv`.
Every entry point of the parser keeps `LambdaInv`, keeps every function of the table where
it is, under its name and with its flag, and never lowers the generator count.  So in the
table a parse ends with the names of the functions of lowered lambdas are pairwise
distinct, and two constructors in it belong to different counts, whose class names and
invoke-method names differ as well.  The class names, constructor names and invoke-method
names of different counts are different; and the name a lambda function gets in
`parse_function_declaration` is a generated name, which no synthesized class name equals. -/
theorem lowered_names_unique (e : Env)
    (hinj : Function.Injective e.gen_anonymous_function_name)
    (hbs : ∀ i, backslash ∉ (e.gen_anonymous_function_name i).data) :
    (∀ s : GenTree, (∀ d ∈ s.functions, d.function_in_which_lambda_was_created = none ∧
        d.lambdas_inside = []) → LambdaInv e s) ∧
    (∀ function creator uses s v s',
      generate_anonymous_class e function (some creator) uses s = Res.ok v s' →
      s'.name_counter = s.name_counter + 1 ∧
      (s'.get_class s.classes.length).name = lambda_class_name e s.name_counter ∧
      v.get_string = lambda_class_name e s.name_counter ∧
      (∃ i j, FunNamed i (lambda_constructor_name e s.name_counter) s' ∧
        FunNamed j (lambda_invoke_name e s.name_counter) s') ∧
      (LambdaInv e s →
        s'.lambda_function_names = s.lambda_function_names ++
          [lambda_invoke_name e s.name_counter, lambda_constructor_name e s.name_counter] ∧
        lambda_invoke_name e s.name_counter ∉ s.lambda_function_names ∧
        lambda_constructor_name e s.name_counter ∉ s.lambda_function_names ∧
        LambdaInv e s' ∧ s.lambda_keys <+: s'.lambda_keys)) ∧
    (∀ n,
      (∀ t s r s', (parser e n).get_statement t s = Res.ok r s' → LambdaInv e s →
        LambdaInv e s' ∧ s.lambda_keys <+: s'.lambda_keys ∧
          s.name_counter ≤ s'.name_counter) ∧
      (∀ s r s', (parser e n).get_expression s = Res.ok r s' → LambdaInv e s →
        LambdaInv e s' ∧ s.lambda_keys <+: s'.lambda_keys ∧
          s.name_counter ≤ s'.name_counter) ∧
      (∀ s r s', (parser e n).get_anonymous_function s = Res.ok r s' → LambdaInv e s →
        LambdaInv e s' ∧ s.lambda_keys <+: s'.lambda_keys ∧
          s.name_counter ≤ s'.name_counter) ∧
      (∀ l s r s', (parser e n).get_seq_loop l s = Res.ok r s' → LambdaInv e s →
        LambdaInv e s' ∧ s.lambda_keys <+: s'.lambda_keys ∧
          s.name_counter ≤ s'.name_counter) ∧
      (∀ s r s', run e (parser e n) s = Res.ok r s' → LambdaInv e s →
        LambdaInv e s' ∧ s.lambda_keys <+: s'.lambda_keys ∧
          s.name_counter ≤ s'.name_counter)) ∧
    (∀ s : GenTree, LambdaInv e s →
      s.lambda_function_names.Nodup ∧
      ∀ p q i j : Nat, p ≠ q →
        s.lambda_function_names[p]? = some (lambda_constructor_name e i) →
        s.lambda_function_names[q]? = some (lambda_constructor_name e j) →
        i ≠ j ∧ lambda_class_name e i ≠ lambda_class_name e j ∧
          lambda_invoke_name e i ≠ lambda_invoke_name e j) ∧
    (∀ i j, i ≠ j →
      lambda_class_name e i ≠ lambda_class_name e j ∧
      lambda_constructor_name e i ≠ lambda_constructor_name e j ∧
      lambda_invoke_name e i ≠ lambda_invoke_name e j) ∧
    (∀ c access u flags s d s',
      parse_function_declaration e c access (some u) flags s = Res.ok (some d) s' →
      d.name.get_string = e.gen_anonymous_function_name s.name_counter) ∧
    (∀ i j, lambda_class_name e j ≠ e.gen_anonymous_function_name i) := by
  refine ⟨lambda_inv_fresh e, fun function creator uses s v s' h => ?_,
    fun n => ⟨?_, ?_, ?_, ?_, ?_⟩, fun s hI => ⟨hI.distinct, ?_⟩,
    lambda_names_distinct e hinj hbs, ?_, lambda_class_name_not_generated e hbs⟩
  · obtain ⟨i, j, hS, -, h2, -⟩ :=
      (generate_anonymous_class_runs e function creator uses s).run v s' h
    refine ⟨hS.counter, hS.name, h2, ⟨i, j, hS.funs _ (List.mem_cons_self _ _),
      hS.funs _ (List.mem_cons_of_mem _ (List.mem_cons_self _ _))⟩, fun hI => ?_⟩
    have hk := (generate_anonymous_class_keys e function creator uses s
      ((lambda_inside_keys s).mp hI.inside)).run v s' h
    have hr := (generate_anonymous_class_lam function (some creator) uses).run s v s' h
      hinj hbs hI
    refine ⟨?_, (lambda_names_new e hinj hbs s hI).1, (lambda_names_new e hinj hbs s hI).2,
      hr.1, hr.2⟩
    rw [lambda_function_names_keys, lambda_function_names_keys, hk, List.filter_append,
      List.map_append]
    rfl
  · exact fun t s r s' h hI => lambda_rel_run ((parser_lam e n).get_statement t)
      ((parser_mono e n).get_statement t) hinj hbs s r s' h hI
  · exact fun s r s' h hI => lambda_rel_run (parser_lam e n).get_expression
      (parser_mono e n).get_expression hinj hbs s r s' h hI
  · exact fun s r s' h hI => lambda_rel_run (parser_lam e n).get_anonymous_function
      (parser_mono e n).get_anonymous_function hinj hbs s r s' h hI
  · exact fun l s r s' h hI => lambda_rel_run ((parser_lam e n).get_seq_loop l)
      ((parser_mono e n).get_seq_loop l) hinj hbs s r s' h hI
  · exact fun s r s' h hI => lambda_rel_run (run_lam (parser_lam e n))
      (run_mono (parser_mono e n) e) hinj hbs s r s' h hI
  · exact fun p q i j hpq hp hq => lambda_names_apart e hinj hbs s hI p q i j hpq hp hq
  · exact fun c access u flags s d s' h =>
      (lambda_declaration_name e c access u flags s).run _ _ h d rfl

theorem lowered_names_unique_witness :
    Function.Injective unary_env.gen_anonymous_function_name ∧
    (∀ i, backslash ∉ (unary_env.gen_anonymous_function_name i).data) ∧
    LambdaInv unary_env two_lambdas_state ∧
    ∃ r s', (parser unary_env 80).get_seq_loop [] two_lambdas_state = Res.ok r s' ∧
      LambdaInv unary_env s' ∧
      s'.lambda_function_names =
        ["$L$aa$$__invoke", "$L$aa$$__construct", "$L$aaaa$$__invoke", "$L$aaaa$$__construct"] ∧
      (s'.classes.map fun k => k.name) = ["$L\\aa", "$L\\aaaa"] := by
  have h0 : LambdaInv unary_env two_lambdas_state :=
    (lowered_names_unique unary_env unary_env_injective unary_env_no_backslash).1
      two_lambdas_state (by decide)
  obtain ⟨r, hr⟩ := Res.exists_of_is_ok
    ((parser unary_env 80).get_seq_loop [] two_lambdas_state) (by decide!)
  exact ⟨unary_env_injective, unary_env_no_backslash, h0, r, _, hr,
    ((lowered_names_unique unary_env unary_env_injective unary_env_no_backslash).2.2.1
      80).2.2.2.1 [] two_lambdas_state r _ hr h0 |>.1, by decide!, by decide!⟩

end Kphp
